import Mathlib

/-!
FDTD solver (Syllo/fdtd): shallow embedding and verification.

The C sources `fdtd1D.c`, `fdtd2D.c`, `fdtd3D.c`, `fdtd_common.h`, `fdtd_common.c`
and `main.c` are embedded as Lean functions over explicit grid states.

Modelling conventions

* `float_type` values are exact rationals (`ℚ`); `x * (1 / dx)` is written as in
  the source.  The libm functions `exp`, `pow`, `sqrt` and the libc functions
  `drand48`, `qsort` are not part of the repository and are passed in through
  the structure `Extern`.
* `uintmax_t` values are natural numbers below `2 ^ 64`; every subtraction of the
  source is `usub` (reduction modulo `2 ^ 64`).  A loop counter `i` that runs
  below a `uintmax_t` bound satisfies `i + 1 < 2 ^ 64`, so `i + 1` is the plain sum.
* A C array is a total function on its index tuple; `store a k v` is the
  assignment `a[k] = v`.  The model coincides with the C program whenever every
  index is inside the allocated extent.
* `for (i = lo; i < hi; ++i) body` is `forLoop lo hi body`.  Struct members
  declared `const` (sizes, `cpml_thickness`, `dt`, spacings) are read once.
-/

namespace FDTD

/-! ## Machine integers, arrays and loops -/

/-- The number of values of the C type `uintmax_t`. -/
def UINTMAX_MOD : Nat := 2 ^ 64

/-- Subtraction of two `uintmax_t` values: the difference of the operands in `ℤ`,
reduced modulo `2 ^ 64`. -/
@[irreducible]
def usub (a b : Nat) : Nat := (((a : Int) - (b : Int)) % (UINTMAX_MOD : Int)).toNat

/-- Addition of two `uintmax_t` values. -/
@[irreducible]
def uadd (a b : Nat) : Nat := (a + b) % UINTMAX_MOD

/-- Multiplication of two `uintmax_t` values. -/
@[irreducible]
def umul (a b : Nat) : Nat := (a * b) % UINTMAX_MOD

/-- The number of values of the C type `unsigned` (32 bits), the type of the members
`num_Jsources` and `num_Msources`. -/
def UINT_MOD : Nat := 2 ^ 32

/-- Addition of two `unsigned` values. -/
@[irreducible]
def unsigned_add (a b : Nat) : Nat := (a + b) % UINT_MOD

/-- Subtraction of two `unsigned` values: the difference of the operands in `ℤ`,
reduced modulo `2 ^ 32`. -/
@[irreducible]
def unsigned_sub (a b : Nat) : Nat := (((a : Int) - (b : Int)) % (UINT_MOD : Int)).toNat

/-- The C type `float_type`, idealised as exact rational numbers. -/
abbrev float_type : Type := ℚ

/-- A one-dimensional C array of `float_type`. -/
abbrev Arr1 : Type := Nat → ℚ

/-- A two-dimensional C array `a[i][j]`, indexed by the pair `(i, j)`. -/
abbrev Arr2 : Type := Nat × Nat → ℚ

/-- A three-dimensional C array `a[i][j][k]`, indexed by `(i, j, k)`. -/
abbrev Arr3 : Type := Nat × Nat × Nat → ℚ

/-- The assignment `a[k] = v`. -/
def store {κ α : Type} [DecidableEq κ] (a : κ → α) (k : κ) (v : α) : κ → α :=
  fun x => if x = k then v else a x

/-- The loop `for (i = lo; i < hi; ++i) body`. -/
def forLoop {σ : Type} (lo hi : Nat) (body : Nat → σ → σ) (s : σ) : σ :=
  (List.range' lo (hi - lo)).foldl (fun st i => body i st) s

/-- Index pairs visited by two nested loops, in visiting order. -/
def keys2 (lo1 hi1 lo2 hi2 : Nat) : List (Nat × Nat) :=
  (List.range' lo1 (hi1 - lo1)).flatMap
    (fun i => (List.range' lo2 (hi2 - lo2)).map (fun j => (i, j)))

/-- Index triples visited by three nested loops, in visiting order. -/
def keys3 (lo1 hi1 lo2 hi2 lo3 hi3 : Nat) : List (Nat × Nat × Nat) :=
  (List.range' lo1 (hi1 - lo1)).flatMap
    (fun i => (keys2 lo2 hi2 lo3 hi3).map (fun jk => (i, jk.1, jk.2)))

/-- The index pairs visited by two nested loops. -/
def inBox2 (lo1 hi1 lo2 hi2 : Nat) (k : Nat × Nat) : Prop :=
  (lo1 ≤ k.1 ∧ k.1 < hi1) ∧ (lo2 ≤ k.2 ∧ k.2 < hi2)

instance (lo1 hi1 lo2 hi2 : Nat) (k : Nat × Nat) : Decidable (inBox2 lo1 hi1 lo2 hi2 k) := by
  unfold inBox2
  infer_instance

/-- The index triples visited by three nested loops. -/
def inBox3 (lo1 hi1 lo2 hi2 lo3 hi3 : Nat) (k : Nat × Nat × Nat) : Prop :=
  (lo1 ≤ k.1 ∧ k.1 < hi1) ∧ (lo2 ≤ k.2.1 ∧ k.2.1 < hi2) ∧ (lo3 ≤ k.2.2 ∧ k.2.2 < hi3)

instance (lo1 hi1 lo2 hi2 lo3 hi3 : Nat) (k : Nat × Nat × Nat) :
    Decidable (inBox3 lo1 hi1 lo2 hi2 lo3 hi3 k) := by
  unfold inBox3
  infer_instance

/-- One iteration of a loop that rewrites the auxiliary cell `k` and then rewrites
the field cell `f k` from its old value and the new auxiliary value. -/
def pairStep {κ κ2 : Type} [DecidableEq κ] [DecidableEq κ2] (P : κ → ℚ → ℚ)
    (U : κ → ℚ → ℚ → ℚ) (f : κ → κ2) (k : κ) (p : (κ → ℚ) × (κ2 → ℚ)) :
    (κ → ℚ) × (κ2 → ℚ) :=
  (store p.1 k (P k (p.1 k)),
    store p.2 (f k) (U k (p.2 (f k)) (store p.1 k (P k (p.1 k)) k)))

/-! ## Common definitions (`fdtd_common.h`, `fdtd_common.c`) -/

/-- The structure `dataPosDeviation` of `fdtd2D.c`. -/
structure dataPosDeviation where
  previous_val : ℚ
  error : ℚ
  posX : Nat
  posY : Nat

/-- Behaviour of the C library functions used by the solver. -/
structure Extern where
  /-- The function `exp` of libm. -/
  exp : ℚ → ℚ
  /-- The function `pow` of libm. -/
  pow : ℚ → ℚ → ℚ
  /-- The function `sqrt` of libm. -/
  sqrt : ℚ → ℚ
  /-- The value returned by the `n`-th call of `drand48` (counting from 0). -/
  drand48 : Nat → ℚ
  /-- The function `qsort` of libc, applied to a comparison function and to the
  sequence of records to sort. -/
  qsort : (dataPosDeviation → dataPosDeviation → Int) → List dataPosDeviation →
    List dataPosDeviation

/-- The global variables `rand_skip_percent`, `sort_skip` and `interpolate`
declared `extern` in `fdtd2D.c`. -/
structure Globals where
  rand_skip_percent : ℚ
  sort_skip : Bool
  interpolate : Bool

/-- The constant `M_PI` of `fdtd_common.h`. -/
def M_PI : ℚ := 314159265358979323846 / 100000000000000000000

/-- The constant `mu0`. -/
def mu0 : ℚ := 4 * M_PI * (1 / 10000000)

/-- The constant `eps0`. -/
def eps0 : ℚ := 625000 / (22468879468420441 * M_PI)

/-- The constant `c_light`. -/
def c_light : ℚ := 299792458

/-- The constant `kappa_max`. -/
def kappa_max : ℚ := 1

/-- The constant `polynomial_taper_order`. -/
def polynomial_taper_order : ℚ := 4

/-- The enumerator `border_perfect_electric_conductor`. -/
def border_perfect_electric_conductor : Nat := 1

/-- The enumerator `border_perfect_magnetic_conductor` (`1 << 1`). -/
def border_perfect_magnetic_conductor : Nat := 2

/-- The enumerator `border_cpml` (`1 << 2`). -/
def border_cpml : Nat := 4

/-- The C condition `flags & bit` (true when the result is not zero). -/
def flagSet (flags bit : Nat) : Bool := Nat.land flags bit != 0

/-- The enumeration `fdtd_source_type`. -/
inductive fdtd_source_type where
  | source_gaussian_pulse
  deriving DecidableEq, Repr

/-- The structure `fdtd_source`. -/
structure fdtd_source where
  type : fdtd_source_type
  gaussian_pulse_delay : ℚ
  gaussian_pulse_peak_time : ℚ
  gaussian_peak_val : ℚ

/-- The function `gaussian_source`. -/
def gaussian_source (delay peak_time peak_val : ℚ) : fdtd_source :=
  { type := fdtd_source_type.source_gaussian_pulse,
    gaussian_pulse_delay := delay,
    gaussian_pulse_peak_time := peak_time,
    gaussian_peak_val := peak_val }

/-- The function `gaussian_pulse_val`.  Division is total in the model; the theorems
about a pulse assume the divisor `gaussian_pulse_peak_time` is not 0, for which the C
function computes no number. -/
def gaussian_pulse_val (ext : Extern) (time : ℚ) (src : fdtd_source) : ℚ :=
  let exponent := (time - src.gaussian_pulse_delay) / src.gaussian_pulse_peak_time
  let exponent := exponent * exponent
  src.gaussian_peak_val * ext.exp (-exponent)

/-- The enumeration `source_type`. -/
inductive source_type where
  | source_magnetic
  | source_electric
  deriving DecidableEq, Repr

/-- The inline function `Kappa`.  Division is total in the model; for the width 0 the C
function computes no number, see `Kappa_checked` and `Kappa_divisors`. -/
def Kappa (ext : Extern) (dist_from_border CPML_region_width : Nat) : ℚ :=
  let db : ℚ := (dist_from_border : ℚ)
  let cpml_width : ℚ := (CPML_region_width : ℚ)
  1 + (kappa_max - 1) * ext.pow (db / cpml_width) polynomial_taper_order

/-- The inline function `sigma`.  Division is total in the model; for the width 0 the C
function computes no number, see `sigma_divisors`. -/
def sigma (ext : Extern) (dist_from_border CPML_region_width : Nat) (sigma_max : ℚ) : ℚ :=
  let db : ℚ := (dist_from_border : ℚ)
  let cpml_width : ℚ := (CPML_region_width : ℚ)
  sigma_max * ext.pow (db / cpml_width) polynomial_taper_order

/-- The inline function `alpha`.  Division is total in the model; for the width 0 the C
function computes no number, see `alpha_divisors`. -/
def alpha (ext : Extern) (dist_from_border CPML_region_width : Nat) (alpha_max : ℚ) : ℚ :=
  let db : ℚ := (dist_from_border : ℚ)
  let cpml_width : ℚ := (CPML_region_width : ℚ)
  alpha_max * ext.pow (1 - db / cpml_width) polynomial_taper_order

/-- The inline function `b`. -/
def b (ext : Extern) (dist_from_border CPML_region_width : Nat)
    (dt alpha_max sigma_max : ℚ) : ℚ :=
  ext.exp (-dt *
    (sigma ext dist_from_border CPML_region_width sigma_max /
        (eps0 * Kappa ext dist_from_border CPML_region_width) +
      alpha ext dist_from_border CPML_region_width alpha_max / eps0))

/-- The inline function `c`. -/
def c (ext : Extern) (dist_from_border CPML_region_width : Nat)
    (dt alpha_max sigma_max : ℚ) : ℚ :=
  (sigma ext dist_from_border CPML_region_width sigma_max /
      (sigma ext dist_from_border CPML_region_width sigma_max *
          Kappa ext dist_from_border CPML_region_width +
        Kappa ext dist_from_border CPML_region_width *
          Kappa ext dist_from_border CPML_region_width *
          alpha ext dist_from_border CPML_region_width alpha_max)) *
    (b ext dist_from_border CPML_region_width dt alpha_max sigma_max - 1)

/-- The loop `for (; time < end_time; time += dt) body` of the three `run`
functions, bounded by `fuel` iterations: `none` when the fuel is exhausted
before the loop condition fails. -/
def runLoop {σ : Type} (time : σ → ℚ) (body : σ → σ) (advance : σ → σ) (end_time : ℚ) :
    Nat → σ → Option σ
  | 0, s => if time s < end_time then none else some s
  | fuel + 1, s =>
    if time s < end_time then runLoop time body advance end_time fuel (advance (body s))
    else some s

/-! ## One dimension (`fdtd1D.c`) -/

namespace D1

/-- The enumerator `border_oneside`. -/
def border_oneside : Nat := 0

/-- The enumerator `border_otherside`. -/
def border_otherside : Nat := 1

/-- The enumerator `num_borders_1D`. -/
def num_borders_1D : Nat := 2

/-- The structure `fdtd1D`. -/
structure fdtd1D where
  dx : ℚ
  dt : ℚ
  ez : Arr1
  hy : Arr1
  permittivity_inv : Arr1
  permeability_inv : Arr1
  border_condition : Nat → Nat
  domain_size : ℚ
  sizeX : Nat
  Sc : ℚ
  num_Jsources : Nat
  Jsources : Nat → fdtd_source
  JsourceLocations : Nat → Nat
  num_Msources : Nat
  Msources : Nat → fdtd_source
  MsourceLocations : Nat → Nat
  time : ℚ

/-- The function `update_electric_field` of `fdtd1D.c`. -/
def update_electric_field (fdtd : fdtd1D) : fdtd1D :=
  let dtdx := fdtd.dt / fdtd.dx
  forLoop 1 fdtd.sizeX (fun i s =>
    { s with ez := store s.ez i (s.ez i + (s.hy i - s.hy (i - 1)) * dtdx * s.permittivity_inv i) })
    fdtd

/-- The function `border_condition_electric` of `fdtd1D.c`. -/
def border_condition_electric (fdtd : fdtd1D) : fdtd1D :=
  forLoop border_oneside num_borders_1D (fun i s =>
    if fdtd.border_condition i = border_perfect_electric_conductor then
      let pos := umul i (usub fdtd.sizeX 1)
      { s with ez := store s.ez pos 0 }
    else s) fdtd

/-- The function `update_magnetic_field` of `fdtd1D.c`. -/
def update_magnetic_field (fdtd : fdtd1D) : fdtd1D :=
  let dtdx := fdtd.dt / fdtd.dx
  forLoop 0 (usub fdtd.sizeX 1) (fun i s =>
    { s with hy := store s.hy i (s.hy i + (s.ez (i + 1) - s.ez i) * dtdx * s.permeability_inv i) })
    fdtd

/-- The function `border_condition_magnetic` of `fdtd1D.c`. -/
def border_condition_magnetic (fdtd : fdtd1D) : fdtd1D :=
  forLoop border_oneside num_borders_1D (fun i s =>
    if fdtd.border_condition i = border_perfect_magnetic_conductor then
      let pos := umul i (usub fdtd.sizeX 1)
      { s with hy := store s.hy pos 0 }
    else s) fdtd

/-- The function `apply_M_sources` of `fdtd1D.c`. -/
def apply_M_sources (ext : Extern) (fdtd : fdtd1D) : fdtd1D :=
  forLoop 0 fdtd.num_Msources (fun i s =>
    match (s.Msources i).type with
    | fdtd_source_type.source_gaussian_pulse =>
      let pulse := gaussian_pulse_val ext s.time (s.Msources i)
      { s with hy := store s.hy (s.MsourceLocations i) (s.hy (s.MsourceLocations i) + pulse) })
    fdtd

/-- The function `apply_J_sources` of `fdtd1D.c`. -/
def apply_J_sources (ext : Extern) (fdtd : fdtd1D) : fdtd1D :=
  forLoop 0 fdtd.num_Jsources (fun i s =>
    match (s.Jsources i).type with
    | fdtd_source_type.source_gaussian_pulse =>
      let pulse := gaussian_pulse_val ext s.time (s.Jsources i)
      { s with ez := store s.ez (s.JsourceLocations i) (s.ez (s.JsourceLocations i) + pulse) })
    fdtd

/-- The body of the loop of `run_1D_fdtd`. -/
def run_1D_body (ext : Extern) (fdtd : fdtd1D) : fdtd1D :=
  let fdtd := update_magnetic_field fdtd
  let fdtd := apply_M_sources ext fdtd
  let fdtd := border_condition_magnetic fdtd
  let fdtd := update_electric_field fdtd
  let fdtd := apply_J_sources ext fdtd
  border_condition_electric fdtd

/-- The loop increment `fdtd->time += fdtd->dt` of `run_1D_fdtd`. -/
def advance_time (fdtd : fdtd1D) : fdtd1D :=
  { fdtd with time := fdtd.time + fdtd.dt }

/-- The function `run_1D_fdtd`, with at most `fuel` iterations. -/
def run_1D_fdtd (ext : Extern) (fuel : Nat) (fdtd : fdtd1D) (end_time : ℚ) : Option fdtd1D :=
  runLoop fdtd1D.time (run_1D_body ext) advance_time end_time fuel fdtd

/-- One iteration of the loop of `run_1D_fdtd`: the body, then the increment. -/
def run_1D_iteration (ext : Extern) (fdtd : fdtd1D) : fdtd1D :=
  advance_time (run_1D_body ext fdtd)

/-- The members of a grid other than the field arrays `ez` and `hy`. -/
def fdtd1D.static (g : fdtd1D) :=
  (g.dx, g.dt, g.permittivity_inv, g.permeability_inv, g.border_condition, g.domain_size,
    g.sizeX, g.Sc, g.num_Jsources, g.Jsources, g.JsourceLocations, g.num_Msources,
    g.Msources, g.MsourceLocations, g.time)

end D1

/-! ## Two dimensions (`fdtd2D.c`) -/

namespace D2

/-- The enumerator `border_south`. -/
def border_south : Nat := 0

/-- The enumerator `border_north`. -/
def border_north : Nat := 1

/-- The enumerator `border_east`. -/
def border_east : Nat := 2

/-- The enumerator `border_west`. -/
def border_west : Nat := 3

/-- The enumerator `num_borders_2D`. -/
def num_borders_2D : Nat := 4

/-- The structure `fdtd2D`.  The members `psi_hx_y[0..1]`, `psi_hy_x[0..1]` and
`psi_ez[border]` carry the names of the array views the kernels give them
(`psi_hx_west`, ...).  The pointers `by` and `cy` alias `bx` and `cx`
(`fdtd.by = fdtd.bx`), see `fdtd2D.by_`.  `rand_calls` counts the calls of
`drand48` made so far. -/
structure fdtd2D where
  dx : ℚ
  dy : ℚ
  dt : ℚ
  ez : Arr2
  hx : Arr2
  hy : Arr2
  permittivity_inv : Arr2
  permeability_inv : Arr2
  psi_hx_west : Arr2
  psi_hx_east : Arr2
  psi_hy_south : Arr2
  psi_hy_north : Arr2
  psi_ez_south : Arr2
  psi_ez_north : Arr2
  psi_ez_east : Arr2
  psi_ez_west : Arr2
  bx : Arr1
  cx : Arr1
  cpml_thickness : Nat
  border_condition : Nat → Nat
  domain_size : Nat → ℚ
  sizeX : Nat
  sizeY : Nat
  Sc : ℚ
  num_Jsources : Nat
  Jsources : Nat → fdtd_source
  JsourceLocations : Nat × Nat → Nat
  num_Msources : Nat
  Msources : Nat → fdtd_source
  MsourceLocations : Nat × Nat → Nat
  time : ℚ
  rand_calls : Nat

/-- The member `by`, the same storage as `bx`. -/
def fdtd2D.by_ (fdtd : fdtd2D) : Arr1 := fdtd.bx

/-- The member `cy`, the same storage as `cx`. -/
def fdtd2D.cy (fdtd : fdtd2D) : Arr1 := fdtd.cx

/-- The function `compareDeviation`. -/
def compareDeviation (data1 data2 : dataPosDeviation) : Int :=
  if data1.error < data2.error then -1
  else if data1.error > data2.error then 1
  else 0

/-- The test guarding `continue` in the update loops, up to the call of `drand48`:
`i > T + 1 && i < sizeX - T - 1 && j > T + 1 && j < sizeY - T - 1 && !sort_skip
&& !interpolate`. -/
def skip_guard (glob : Globals) (fdtd : fdtd2D) (i j : Nat) : Bool :=
  decide (i > uadd fdtd.cpml_thickness 1) &&
  decide (i < usub (usub fdtd.sizeX fdtd.cpml_thickness) 1) &&
  decide (j > uadd fdtd.cpml_thickness 1) &&
  decide (j < usub (usub fdtd.sizeY fdtd.cpml_thickness) 1) &&
  !glob.sort_skip && !glob.interpolate

/-- A call of `drand48`: the value returned and the state after the call. -/
def call_drand48 (ext : Extern) (s : fdtd2D) : ℚ × fdtd2D :=
  (ext.drand48 s.rand_calls, { s with rand_calls := s.rand_calls + 1 })

/-- The array `dpd` after `qsort(dpd, n, sizeof ..., compareDeviation)`, where
`dpd[i][j]` has rows of length `rowlen`. -/
def qsort_dpd (ext : Extern) (n rowlen : Nat) (dpd : Nat × Nat → dataPosDeviation) :
    Nat × Nat → dataPosDeviation :=
  let flat := (List.range n).map (fun p => dpd (p / rowlen, p % rowlen))
  let sorted := ext.qsort compareDeviation flat
  fun ij => sorted.getD (ij.1 * rowlen + ij.2) (dpd ij)

/-- The value `(size_t)ceil(((sizeX - 1) * (sizeY - 1)) * rand_skip_percent)`. -/
def skip_threshold (glob : Globals) (fdtd : fdtd2D) : Nat :=
  Int.toNat ⌈((umul (usub fdtd.sizeX 1) (usub fdtd.sizeY 1) : Nat) : ℚ) *
    glob.rand_skip_percent⌉ % UINTMAX_MOD

/-- The body of the first loop nest of the `ez` pass of `update_electric_field`
(cell `[i][j]`): the optional random skip, then the stencil update of `ez`,
with the bookkeeping in `dpd` when `sort_skip` is set. -/
def update_electric_field_cell (glob : Globals) (ext : Extern) (fdtd : fdtd2D) (i j : Nat)
    (st : fdtd2D × (Nat × Nat → dataPosDeviation)) : fdtd2D × (Nat × Nat → dataPosDeviation) :=
  let _dx := 1 / fdtd.dx
  let _dy := 1 / fdtd.dy
  let s := st.1
  let dpd := st.2
  let update : fdtd2D → fdtd2D × (Nat × Nat → dataPosDeviation) := fun s =>
    let dpd := if glob.sort_skip then
        store dpd (i - 1, j - 1) { dpd (i - 1, j - 1) with previous_val := s.ez (i, j) }
      else dpd
    let v := s.ez (i, j) + ((s.hy (i, j) - s.hy (i - 1, j)) * _dx -
      (s.hx (i, j) - s.hx (i, j - 1)) * _dy) * fdtd.dt * s.permittivity_inv (i, j)
    let s := { s with ez := store s.ez (i, j) v }
    let dpd := if glob.sort_skip then
        let err := (dpd (i - 1, j - 1)).previous_val - s.ez (i, j)
        store dpd (i - 1, j - 1)
          { previous_val := (dpd (i - 1, j - 1)).previous_val, error := err * err,
            posX := i, posY := j }
      else dpd
    (s, dpd)
  if skip_guard glob fdtd i j then
    let r := call_drand48 ext s
    if r.1 < glob.rand_skip_percent then (r.2, dpd) else update r.2
  else update s

/-- The first loop nest of the `ez` pass. -/
def update_electric_field_stencil (glob : Globals) (ext : Extern) (fdtd : fdtd2D)
    (st : fdtd2D × (Nat × Nat → dataPosDeviation)) : fdtd2D × (Nat × Nat → dataPosDeviation) :=
  forLoop 1 fdtd.sizeX (fun i st => forLoop 1 fdtd.sizeY (fun j st =>
    update_electric_field_cell glob ext fdtd i j st) st) st

/-- The loop nest of the `ez` pass executed when `interpolate` is set. -/
def update_electric_field_interpolate (glob : Globals) (ext : Extern) (fdtd : fdtd2D) (s : fdtd2D) : fdtd2D :=
  forLoop (uadd fdtd.cpml_thickness 1) (usub (usub fdtd.sizeX fdtd.cpml_thickness) 1)
    (fun i s => forLoop (uadd fdtd.cpml_thickness 1)
      (usub (usub fdtd.sizeY fdtd.cpml_thickness) 1) (fun j s =>
        let r := call_drand48 ext s
        let s := r.2
        if r.1 < glob.rand_skip_percent then
          let v := (s.ez (usub i 1, j) + s.ez (i + 1, j) + s.ez (i, usub j 1) +
            s.ez (i, j + 1)) / 4
          { s with ez := store s.ez (i, j) v }
        else s) s) s

/-- The body of the restoring loops of the `ez` pass at `[i][j]`; the state carries
the grid and `whereAmI`, and the body acts only while `whereAmI < threshold`. -/
def update_electric_field_restore_cell (threshold : Nat) (dpd : Nat × Nat → dataPosDeviation)
    (i j : Nat) (st : fdtd2D × Nat) : fdtd2D × Nat :=
  if st.2 < threshold then
    let d := dpd (i, j)
    ({ st.1 with ez := store st.1.ez (d.posX, d.posY) d.previous_val }, st.2 + 1)
  else st

/-- The part of the `ez` pass executed when `sort_skip` is set: `qsort`, then the
two loops that restore the first `threshold` sorted cells (the loops stop acting
once `whereAmI` reaches `threshold`).  Returns the grid and the sorted `dpd`. -/
def update_electric_field_restore (glob : Globals) (ext : Extern) (fdtd : fdtd2D)
    (st : fdtd2D × (Nat × Nat → dataPosDeviation)) : fdtd2D × (Nat × Nat → dataPosDeviation) :=
  let dpd := qsort_dpd ext (umul (usub fdtd.sizeX 1) (usub fdtd.sizeY 1)) (usub fdtd.sizeY 1) st.2
  let threshold := skip_threshold glob fdtd
  let r := forLoop 0 (usub fdtd.sizeX 1) (fun i st =>
    forLoop 0 (usub fdtd.sizeY 1) (fun j st =>
      update_electric_field_restore_cell threshold dpd i j st) st) (st.1, 0)
  (r.1, dpd)

/-- The `ez` pass: stencil loop nest, then the optional interpolation, then the
optional restoring of sorted cells. -/
def update_electric_field_pass (glob : Globals) (ext : Extern) (fdtd : fdtd2D)
    (st : fdtd2D × (Nat × Nat → dataPosDeviation)) : fdtd2D × (Nat × Nat → dataPosDeviation) :=
  let st := update_electric_field_stencil glob ext fdtd st
  let st := if glob.interpolate then (update_electric_field_interpolate glob ext fdtd st.1, st.2) else st
  if glob.sort_skip then update_electric_field_restore glob ext fdtd st else st

/-- The function `update_electric_field` of `fdtd2D.c`; `dpd` is allocated by
`malloc` and every entry read has been written before. -/
def update_electric_field (glob : Globals) (ext : Extern) (fdtd : fdtd2D) : fdtd2D :=
  let dpd : Nat × Nat → dataPosDeviation := fun _ => ⟨0, 0, 0, 0⟩
  (update_electric_field_pass glob ext fdtd (fdtd, dpd)).1

/-- The block of `update_electric_cpml` for the south face. -/
def update_electric_cpml_south (fdtd : fdtd2D) : fdtd2D :=
  let _dx := 1 / fdtd.dx
  if flagSet (fdtd.border_condition border_south) border_cpml then
    forLoop 0 fdtd.cpml_thickness (fun i s => forLoop 0 fdtd.sizeY (fun j s =>
      let psi := s.bx i * s.psi_ez_south (i, j) + s.cx i * (s.hy (1 + i, j) - s.hy (i, j)) * _dx
      let s := { s with psi_ez_south := store s.psi_ez_south (i, j) psi }
      let v := s.ez (1 + i, j) + fdtd.dt * s.permittivity_inv (1 + i, j) * s.psi_ez_south (i, j)
      { s with ez := store s.ez (1 + i, j) v }) s) fdtd
  else fdtd

/-- The block of `update_electric_cpml` for the north face. -/
def update_electric_cpml_north (fdtd : fdtd2D) : fdtd2D :=
  let _dx := 1 / fdtd.dx
  if flagSet (fdtd.border_condition border_north) border_cpml then
    forLoop 0 fdtd.cpml_thickness (fun i s => forLoop 0 fdtd.sizeY (fun j s =>
      let psi := s.bx i * s.psi_ez_north (i, j) +
        s.cx i * (s.hy (usub (usub fdtd.sizeX 1) i, j) - s.hy (usub (usub fdtd.sizeX 2) i, j)) * _dx
      let s := { s with psi_ez_north := store s.psi_ez_north (i, j) psi }
      let v := s.ez (usub (usub fdtd.sizeX 1) i, j) +
        fdtd.dt * s.permittivity_inv (usub (usub fdtd.sizeX 1) i, j) * s.psi_ez_north (i, j)
      { s with ez := store s.ez (usub (usub fdtd.sizeX 1) i, j) v }) s) fdtd
  else fdtd

/-- The block of `update_electric_cpml` for the west face. -/
def update_electric_cpml_west (fdtd : fdtd2D) : fdtd2D :=
  let _dy := 1 / fdtd.dy
  if flagSet (fdtd.border_condition border_west) border_cpml then
    forLoop 0 fdtd.sizeX (fun i s => forLoop 0 fdtd.cpml_thickness (fun j s =>
      let psi := s.by_ j * s.psi_ez_west (i, j) + s.cy j * (s.hx (i, 1 + j) - s.hx (i, j)) * _dy
      let s := { s with psi_ez_west := store s.psi_ez_west (i, j) psi }
      let v := s.ez (i, 1 + j) - fdtd.dt * s.permittivity_inv (i, 1 + j) * s.psi_ez_west (i, j)
      { s with ez := store s.ez (i, 1 + j) v }) s) fdtd
  else fdtd

/-- The block of `update_electric_cpml` for the east face. -/
def update_electric_cpml_east (fdtd : fdtd2D) : fdtd2D :=
  let _dy := 1 / fdtd.dy
  if flagSet (fdtd.border_condition border_east) border_cpml then
    forLoop 0 fdtd.sizeX (fun i s => forLoop 0 fdtd.cpml_thickness (fun j s =>
      let psi := s.by_ j * s.psi_ez_east (i, j) +
        s.cy j * (s.hx (i, usub (usub fdtd.sizeY 1) j) - s.hx (i, usub (usub fdtd.sizeY 2) j)) * _dy
      let s := { s with psi_ez_east := store s.psi_ez_east (i, j) psi }
      let v := s.ez (i, usub (usub fdtd.sizeY 1) j) -
        fdtd.dt * s.permittivity_inv (i, usub (usub fdtd.sizeY 1) j) * s.psi_ez_east (i, j)
      { s with ez := store s.ez (i, usub (usub fdtd.sizeY 1) j) v }) s) fdtd
  else fdtd

/-- The function `update_electric_cpml` of `fdtd2D.c`: its four blocks in the
order south, north, west, east. -/
def update_electric_cpml (fdtd : fdtd2D) : fdtd2D :=
  update_electric_cpml_east (update_electric_cpml_west
    (update_electric_cpml_north (update_electric_cpml_south fdtd)))

/-- The body of the loop over the faces in `border_condition_electric` of
`fdtd2D.c`: the test of the flag of face `i` and the `switch`.  The `default` case
(an `exit`) cannot be reached for `i < num_borders_2D`. -/
def border_condition_electric_face (fdtd : fdtd2D) (i : Nat) (s : fdtd2D) : fdtd2D :=
  if flagSet (fdtd.border_condition i) border_perfect_electric_conductor then
    match i with
    | 0 => forLoop 0 fdtd.sizeY (fun j s => { s with ez := store s.ez (0, j) 0 }) s
    | 1 => forLoop 0 fdtd.sizeY (fun j s =>
        { s with ez := store s.ez (usub fdtd.sizeX 1, j) 0 }) s
    | 2 => forLoop 0 fdtd.sizeX (fun j s =>
        { s with ez := store s.ez (j, usub fdtd.sizeY 1) 0 }) s
    | 3 => forLoop 0 fdtd.sizeX (fun j s => { s with ez := store s.ez (j, 0) 0 }) s
    | _ => s
  else s

/-- The function `border_condition_electric` of `fdtd2D.c`. -/
def border_condition_electric (fdtd : fdtd2D) : fdtd2D :=
  forLoop border_south num_borders_2D (fun i s => border_condition_electric_face fdtd i s) fdtd

/-- The body of the first loop nest of the `hx` pass of `update_magnetic_field`
(cell `[i][j]`): the optional random skip, then the stencil update of `hx`,
with the bookkeeping in `dpd` when `sort_skip` is set. -/
def update_magnetic_field_hx_cell (glob : Globals) (ext : Extern) (fdtd : fdtd2D) (i j : Nat)
    (st : fdtd2D × (Nat × Nat → dataPosDeviation)) : fdtd2D × (Nat × Nat → dataPosDeviation) :=
  let _dy := 1 / fdtd.dy
  let s := st.1
  let dpd := st.2
  let update : fdtd2D → fdtd2D × (Nat × Nat → dataPosDeviation) := fun s =>
    let dpd := if glob.sort_skip then
        store dpd (i, j) { dpd (i, j) with previous_val := s.hx (i, j) }
      else dpd
    let v := s.hx (i, j) + (s.ez (i, j) - s.ez (i, j + 1)) * _dy * fdtd.dt * s.permeability_inv (i, j)
    let s := { s with hx := store s.hx (i, j) v }
    let dpd := if glob.sort_skip then
        let err := (dpd (i, j)).previous_val - s.hx (i, j)
        store dpd (i, j)
          { previous_val := (dpd (i, j)).previous_val, error := err * err,
            posX := i, posY := j }
      else dpd
    (s, dpd)
  if skip_guard glob fdtd i j then
    let r := call_drand48 ext s
    if r.1 < glob.rand_skip_percent then (r.2, dpd) else update r.2
  else update s

/-- The first loop nest of the `hx` pass. -/
def update_magnetic_field_hx_stencil (glob : Globals) (ext : Extern) (fdtd : fdtd2D)
    (st : fdtd2D × (Nat × Nat → dataPosDeviation)) : fdtd2D × (Nat × Nat → dataPosDeviation) :=
  forLoop 0 (usub fdtd.sizeX 1) (fun i st => forLoop 0 (usub fdtd.sizeY 1) (fun j st =>
    update_magnetic_field_hx_cell glob ext fdtd i j st) st) st

/-- The loop nest of the `hx` pass executed when `interpolate` is set. -/
def update_magnetic_field_hx_interpolate (glob : Globals) (ext : Extern) (fdtd : fdtd2D) (s : fdtd2D) : fdtd2D :=
  forLoop (uadd fdtd.cpml_thickness 1) (usub (usub fdtd.sizeX fdtd.cpml_thickness) 1)
    (fun i s => forLoop (uadd fdtd.cpml_thickness 1)
      (usub (usub fdtd.sizeY fdtd.cpml_thickness) 1) (fun j s =>
        let r := call_drand48 ext s
        let s := r.2
        if r.1 < glob.rand_skip_percent then
          let v := (s.hx (usub i 1, j) + s.hx (i + 1, j) + s.hx (i, usub j 1) +
            s.hx (i, j + 1)) / 4
          { s with hx := store s.hx (i, j) v }
        else s) s) s

/-- The body of the restoring loops of the `hx` pass at `[i][j]`; the state carries
the grid and `whereAmI`, and the body acts only while `whereAmI < threshold`. -/
def update_magnetic_field_hx_restore_cell (threshold : Nat) (dpd : Nat × Nat → dataPosDeviation)
    (i j : Nat) (st : fdtd2D × Nat) : fdtd2D × Nat :=
  if st.2 < threshold then
    let d := dpd (i, j)
    ({ st.1 with hx := store st.1.hx (d.posX, d.posY) d.previous_val }, st.2 + 1)
  else st

/-- The part of the `hx` pass executed when `sort_skip` is set: `qsort`, then the
two loops that restore the first `threshold` sorted cells (the loops stop acting
once `whereAmI` reaches `threshold`).  Returns the grid and the sorted `dpd`. -/
def update_magnetic_field_hx_restore (glob : Globals) (ext : Extern) (fdtd : fdtd2D)
    (st : fdtd2D × (Nat × Nat → dataPosDeviation)) : fdtd2D × (Nat × Nat → dataPosDeviation) :=
  let dpd := qsort_dpd ext (umul (usub fdtd.sizeX 1) (usub fdtd.sizeY 1)) (usub fdtd.sizeY 1) st.2
  let threshold := skip_threshold glob fdtd
  let r := forLoop 0 (usub fdtd.sizeX 1) (fun i st =>
    forLoop 0 (usub fdtd.sizeY 1) (fun j st =>
      update_magnetic_field_hx_restore_cell threshold dpd i j st) st) (st.1, 0)
  (r.1, dpd)

/-- The `hx` pass: stencil loop nest, then the optional interpolation, then the
optional restoring of sorted cells. -/
def update_magnetic_field_hx_pass (glob : Globals) (ext : Extern) (fdtd : fdtd2D)
    (st : fdtd2D × (Nat × Nat → dataPosDeviation)) : fdtd2D × (Nat × Nat → dataPosDeviation) :=
  let st := update_magnetic_field_hx_stencil glob ext fdtd st
  let st := if glob.interpolate then (update_magnetic_field_hx_interpolate glob ext fdtd st.1, st.2) else st
  if glob.sort_skip then update_magnetic_field_hx_restore glob ext fdtd st else st

/-- The body of the first loop nest of the `hy` pass of `update_magnetic_field`
(cell `[i][j]`): the optional random skip, then the stencil update of `hy`,
with the bookkeeping in `dpd` when `sort_skip` is set. -/
def update_magnetic_field_hy_cell (glob : Globals) (ext : Extern) (fdtd : fdtd2D) (i j : Nat)
    (st : fdtd2D × (Nat × Nat → dataPosDeviation)) : fdtd2D × (Nat × Nat → dataPosDeviation) :=
  let _dx := 1 / fdtd.dx
  let s := st.1
  let dpd := st.2
  let update : fdtd2D → fdtd2D × (Nat × Nat → dataPosDeviation) := fun s =>
    let dpd := if glob.sort_skip then
        store dpd (i, j) { dpd (i, j) with previous_val := s.hy (i, j) }
      else dpd
    let v := s.hy (i, j) + (s.ez (i + 1, j) - s.ez (i, j)) * _dx * fdtd.dt * s.permeability_inv (i, j)
    let s := { s with hy := store s.hy (i, j) v }
    let dpd := if glob.sort_skip then
        let err := (dpd (i, j)).previous_val - s.hy (i, j)
        store dpd (i, j)
          { previous_val := (dpd (i, j)).previous_val, error := err * err,
            posX := i, posY := j }
      else dpd
    (s, dpd)
  if skip_guard glob fdtd i j then
    let r := call_drand48 ext s
    if r.1 < glob.rand_skip_percent then (r.2, dpd) else update r.2
  else update s

/-- The first loop nest of the `hy` pass. -/
def update_magnetic_field_hy_stencil (glob : Globals) (ext : Extern) (fdtd : fdtd2D)
    (st : fdtd2D × (Nat × Nat → dataPosDeviation)) : fdtd2D × (Nat × Nat → dataPosDeviation) :=
  forLoop 0 (usub fdtd.sizeX 1) (fun i st => forLoop 0 (usub fdtd.sizeY 1) (fun j st =>
    update_magnetic_field_hy_cell glob ext fdtd i j st) st) st

/-- The loop nest of the `hy` pass executed when `interpolate` is set. -/
def update_magnetic_field_hy_interpolate (glob : Globals) (ext : Extern) (fdtd : fdtd2D) (s : fdtd2D) : fdtd2D :=
  forLoop (uadd fdtd.cpml_thickness 1) (usub (usub fdtd.sizeX fdtd.cpml_thickness) 1)
    (fun i s => forLoop (uadd fdtd.cpml_thickness 1)
      (usub (usub fdtd.sizeY fdtd.cpml_thickness) 1) (fun j s =>
        let r := call_drand48 ext s
        let s := r.2
        if r.1 < glob.rand_skip_percent then
          let v := (s.hy (usub i 1, j) + s.hy (i + 1, j) + s.hy (i, usub j 1) +
            s.hy (i, j + 1)) / 4
          { s with hy := store s.hy (i, j) v }
        else s) s) s

/-- The body of the restoring loops of the `hy` pass at `[i][j]`; the state carries
the grid and `whereAmI`, and the body acts only while `whereAmI < threshold`. -/
def update_magnetic_field_hy_restore_cell (threshold : Nat) (dpd : Nat × Nat → dataPosDeviation)
    (i j : Nat) (st : fdtd2D × Nat) : fdtd2D × Nat :=
  if st.2 < threshold then
    let d := dpd (i, j)
    ({ st.1 with hy := store st.1.hy (d.posX, d.posY) d.previous_val }, st.2 + 1)
  else st

/-- The part of the `hy` pass executed when `sort_skip` is set: `qsort`, then the
two loops that restore the first `threshold` sorted cells (the loops stop acting
once `whereAmI` reaches `threshold`).  Returns the grid and the sorted `dpd`. -/
def update_magnetic_field_hy_restore (glob : Globals) (ext : Extern) (fdtd : fdtd2D)
    (st : fdtd2D × (Nat × Nat → dataPosDeviation)) : fdtd2D × (Nat × Nat → dataPosDeviation) :=
  let dpd := qsort_dpd ext (umul (usub fdtd.sizeX 1) (usub fdtd.sizeY 1)) (usub fdtd.sizeY 1) st.2
  let threshold := skip_threshold glob fdtd
  let r := forLoop 0 (usub fdtd.sizeX 1) (fun i st =>
    forLoop 0 (usub fdtd.sizeY 1) (fun j st =>
      update_magnetic_field_hy_restore_cell threshold dpd i j st) st) (st.1, 0)
  (r.1, dpd)

/-- The `hy` pass: stencil loop nest, then the optional interpolation, then the
optional restoring of sorted cells. -/
def update_magnetic_field_hy_pass (glob : Globals) (ext : Extern) (fdtd : fdtd2D)
    (st : fdtd2D × (Nat × Nat → dataPosDeviation)) : fdtd2D × (Nat × Nat → dataPosDeviation) :=
  let st := update_magnetic_field_hy_stencil glob ext fdtd st
  let st := if glob.interpolate then (update_magnetic_field_hy_interpolate glob ext fdtd st.1, st.2) else st
  if glob.sort_skip then update_magnetic_field_hy_restore glob ext fdtd st else st

/-- The function `update_magnetic_field` of `fdtd2D.c`: the `hx` pass followed by
the `hy` pass, both using the local array `dpd` (allocated by `malloc`; every
entry read has been written before). -/
def update_magnetic_field (glob : Globals) (ext : Extern) (fdtd : fdtd2D) : fdtd2D :=
  let dpd : Nat × Nat → dataPosDeviation := fun _ => ⟨0, 0, 0, 0⟩
  (update_magnetic_field_hy_pass glob ext fdtd
    (update_magnetic_field_hx_pass glob ext fdtd (fdtd, dpd))).1

/-- The block of `update_magnetic_cpml` for the west face. -/
def update_magnetic_cpml_west (fdtd : fdtd2D) : fdtd2D :=
  let _dy := 1 / fdtd.dy
  if flagSet (fdtd.border_condition border_west) border_cpml then
    forLoop 0 fdtd.sizeX (fun i s => forLoop 0 fdtd.cpml_thickness (fun j s =>
      let psi := s.by_ j * s.psi_hx_west (i, j) + s.cy j * (s.ez (i, j) - s.ez (i, j + 1)) * _dy
      let s := { s with psi_hx_west := store s.psi_hx_west (i, j) psi }
      let v := s.hx (i, j) + fdtd.dt * s.permeability_inv (i, j) * s.psi_hx_west (i, j)
      { s with hx := store s.hx (i, j) v }) s) fdtd
  else fdtd

/-- The block of `update_magnetic_cpml` for the east face. -/
def update_magnetic_cpml_east (fdtd : fdtd2D) : fdtd2D :=
  let _dy := 1 / fdtd.dy
  if flagSet (fdtd.border_condition border_east) border_cpml then
    forLoop 0 fdtd.sizeX (fun i s => forLoop 0 fdtd.cpml_thickness (fun j s =>
      let psi := s.by_ j * s.psi_hx_east (i, j) +
        s.cy j * (s.ez (i, usub (usub fdtd.sizeY 2) j) - s.ez (i, usub (usub fdtd.sizeY 1) j)) * _dy
      let s := { s with psi_hx_east := store s.psi_hx_east (i, j) psi }
      let v := s.hx (i, usub (usub fdtd.sizeY 2) j) +
        fdtd.dt * s.permeability_inv (i, usub (usub fdtd.sizeY 2) j) * s.psi_hx_east (i, j)
      { s with hx := store s.hx (i, usub (usub fdtd.sizeY 2) j) v }) s) fdtd
  else fdtd

/-- The block of `update_magnetic_cpml` for the south face. -/
def update_magnetic_cpml_south (fdtd : fdtd2D) : fdtd2D :=
  let _dx := 1 / fdtd.dx
  if flagSet (fdtd.border_condition border_south) border_cpml then
    forLoop 0 fdtd.cpml_thickness (fun i s => forLoop 0 fdtd.sizeY (fun j s =>
      let psi := s.bx i * s.psi_hy_south (i, j) + s.cx i * (s.ez (i + 1, j) - s.ez (i, j)) * _dx
      let s := { s with psi_hy_south := store s.psi_hy_south (i, j) psi }
      let v := s.hy (i, j) + fdtd.dt * s.permeability_inv (i, j) * s.psi_hy_south (i, j)
      { s with hy := store s.hy (i, j) v }) s) fdtd
  else fdtd

/-- The block of `update_magnetic_cpml` for the north face. -/
def update_magnetic_cpml_north (fdtd : fdtd2D) : fdtd2D :=
  let _dx := 1 / fdtd.dx
  if flagSet (fdtd.border_condition border_north) border_cpml then
    forLoop 0 fdtd.cpml_thickness (fun i s => forLoop 0 fdtd.sizeY (fun j s =>
      let psi := s.bx i * s.psi_hy_north (i, j) +
        s.cx i * (s.ez (usub (usub fdtd.sizeX 1) i, j) - s.ez (usub (usub fdtd.sizeX 2) i, j)) * _dx
      let s := { s with psi_hy_north := store s.psi_hy_north (i, j) psi }
      let v := s.hy (usub (usub fdtd.sizeX 2) i, j) +
        fdtd.dt * s.permeability_inv (usub (usub fdtd.sizeX 2) i, j) * s.psi_hy_north (i, j)
      { s with hy := store s.hy (usub (usub fdtd.sizeX 2) i, j) v }) s) fdtd
  else fdtd

/-- The function `update_magnetic_cpml` of `fdtd2D.c`: its four blocks in the
order west, east, south, north. -/
def update_magnetic_cpml (fdtd : fdtd2D) : fdtd2D :=
  update_magnetic_cpml_north (update_magnetic_cpml_south
    (update_magnetic_cpml_east (update_magnetic_cpml_west fdtd)))

/-- The function `border_condition_magnetic` of `fdtd2D.c`.  The `default` case of
the `switch` (an `exit`) cannot be reached for `i < num_borders_2D`. -/
def border_condition_magnetic (fdtd : fdtd2D) : fdtd2D :=
  forLoop border_south num_borders_2D (fun i s =>
    if flagSet (fdtd.border_condition i) border_perfect_electric_conductor then
      match i with
      | 0 => forLoop 0 fdtd.sizeY (fun j s =>
          let s := { s with hx := store s.hx (0, j) 0 }
          { s with hy := store s.hy (0, j) 0 }) s
      | 1 => forLoop 0 fdtd.sizeY (fun j s =>
          let s := { s with hx := store s.hx (usub fdtd.sizeX 2, j) 0 }
          let s := { s with hy := store s.hy (usub fdtd.sizeX 2, j) 0 }
          let s := { s with hx := store s.hx (usub fdtd.sizeX 1, j) 0 }
          { s with hy := store s.hy (usub fdtd.sizeX 1, j) 0 }) s
      | 2 => forLoop 0 fdtd.sizeX (fun j s =>
          let s := { s with hx := store s.hx (j, usub fdtd.sizeY 2) 0 }
          let s := { s with hy := store s.hy (j, usub fdtd.sizeY 2) 0 }
          let s := { s with hx := store s.hx (j, usub fdtd.sizeY 1) 0 }
          { s with hy := store s.hy (j, usub fdtd.sizeY 1) 0 }) s
      | 3 => forLoop 0 fdtd.sizeX (fun j s =>
          let s := { s with hx := store s.hx (j, 0) 0 }
          { s with hy := store s.hy (j, 0) 0 }) s
      | _ => s
    else s) fdtd

/-- The function `apply_M_sources` of `fdtd2D.c`. -/
def apply_M_sources (ext : Extern) (fdtd : fdtd2D) : fdtd2D :=
  forLoop 0 fdtd.num_Msources (fun i s =>
    match (s.Msources i).type with
    | fdtd_source_type.source_gaussian_pulse =>
      let loc := (s.MsourceLocations (i, 0), s.MsourceLocations (i, 1))
      let s := { s with hx := store s.hx loc (s.hx loc + gaussian_pulse_val ext s.time (s.Msources i)) }
      { s with hy := store s.hy loc (s.hy loc + gaussian_pulse_val ext s.time (s.Msources i)) })
    fdtd

/-- The function `apply_J_sources` of `fdtd2D.c`. -/
def apply_J_sources (ext : Extern) (fdtd : fdtd2D) : fdtd2D :=
  forLoop 0 fdtd.num_Jsources (fun i s =>
    match (s.Jsources i).type with
    | fdtd_source_type.source_gaussian_pulse =>
      let loc := (s.JsourceLocations (i, 0), s.JsourceLocations (i, 1))
      { s with ez := store s.ez loc (s.ez loc - gaussian_pulse_val ext s.time (s.Jsources i)) })
    fdtd

/-- The conversion `(uintmax_t)x` of a `float_type` value without fractional part. -/
def to_uintmax (x : Int) : Nat := Int.toNat x % UINTMAX_MOD

/-- The first part of `init_fdtd_2D_cpml`: the grid as its initialiser and the
`calloc` calls leave it, before the CPML coefficients are computed. -/
def init_fdtd_2D_cpml_alloc (domain_size : Nat → ℚ) (Sc smallest_wavelength : ℚ)
    (borders : Nat → Nat) (cpml_thickness : Nat) : fdtd2D :=
  let dx := smallest_wavelength / 20
  let dy := dx
  let dt := dx * Sc / c_light
  let sizeXf : Int := ⌊domain_size 0 / dx⌋
  let sizeYf : Int := ⌊domain_size 1 / dy⌋
  let sizeX := to_uintmax sizeXf
  let sizeY := to_uintmax sizeYf
  { dx := dx, dy := dy, dt := dt,
    ez := fun _ => 0, hx := fun _ => 0, hy := fun _ => 0,
    permeability_inv := fun _ => 0, permittivity_inv := fun _ => 0,
    psi_hx_west := fun _ => 0, psi_hx_east := fun _ => 0,
    psi_hy_south := fun _ => 0, psi_hy_north := fun _ => 0,
    psi_ez_south := fun _ => 0, psi_ez_north := fun _ => 0,
    psi_ez_east := fun _ => 0, psi_ez_west := fun _ => 0,
    bx := fun _ => 0, cx := fun _ => 0,
    cpml_thickness := cpml_thickness,
    border_condition := fun i =>
      if i = border_south then borders border_south
      else if i = border_north then borders border_north
      else if i = border_east then borders border_east
      else if i = border_west then borders border_west
      else 0,
    domain_size := fun i => if i = 0 then domain_size 0 else domain_size 1,
    sizeX := sizeX, sizeY := sizeY, Sc := Sc,
    num_Jsources := 0, Jsources := fun _ => gaussian_source 0 0 0,
    JsourceLocations := fun _ => 0,
    num_Msources := 0, Msources := fun _ => gaussian_source 0 0 0,
    MsourceLocations := fun _ => 0,
    time := 0, rand_calls := 0 }

/-- The last part of `init_fdtd_2D_cpml`: `alpha_max`, `sigma_max` and the loop
that stores the coefficients in `bx` and `cx` (`by`, `cy` alias them). -/
def init_fdtd_2D_cpml_coeff (ext : Extern) (cpml_thickness : Nat) (fdtd : fdtd2D) : fdtd2D :=
  let alpha_max := 2 * M_PI * eps0 * fdtd.dx * (1 / 10)
  let sigma_max := (8 / 10) * (polynomial_taper_order + 1) / (fdtd.dx * ext.sqrt (mu0 / eps0))
  forLoop 0 cpml_thickness (fun d s =>
    let bd := b ext d (usub cpml_thickness 1) fdtd.dt alpha_max sigma_max
    let s := { s with bx := store s.bx (usub (usub cpml_thickness d) 1) bd }
    let cd := c ext d (usub cpml_thickness 1) fdtd.dt alpha_max sigma_max
    { s with cx := store s.cx (usub (usub cpml_thickness d) 1) cd }) fdtd

/-- The function `init_fdtd_2D_cpml` (the messages printed to `stderr` are not
part of the returned grid). -/
def init_fdtd_2D_cpml (ext : Extern) (domain_size : Nat → ℚ) (Sc smallest_wavelength : ℚ)
    (borders : Nat → Nat) (cpml_thickness : Nat) : fdtd2D :=
  init_fdtd_2D_cpml_coeff ext cpml_thickness
    (init_fdtd_2D_cpml_alloc domain_size Sc smallest_wavelength borders cpml_thickness)

/-- The function `init_fdtd_2D`. -/
def init_fdtd_2D (ext : Extern) (domain_size : Nat → ℚ) (Sc smallest_wavelength : ℚ)
    (borders : Nat → Nat) : fdtd2D :=
  init_fdtd_2D_cpml ext domain_size Sc smallest_wavelength borders 0

/-- The body of the loop of `run_2D_fdtd` (the progress report printed in verbose
mode does not act on the grid). -/
def run_2D_body (glob : Globals) (ext : Extern) (fdtd : fdtd2D) : fdtd2D :=
  let fdtd := update_magnetic_field glob ext fdtd
  let fdtd := apply_M_sources ext fdtd
  let fdtd := update_magnetic_cpml fdtd
  let fdtd := border_condition_magnetic fdtd
  let fdtd := update_electric_field glob ext fdtd
  let fdtd := apply_J_sources ext fdtd
  let fdtd := update_electric_cpml fdtd
  border_condition_electric fdtd

/-- The loop increment `fdtd->time += fdtd->dt` of `run_2D_fdtd`. -/
def advance_time (fdtd : fdtd2D) : fdtd2D :=
  { fdtd with time := fdtd.time + fdtd.dt }

/-- The function `run_2D_fdtd`, with at most `fuel` iterations.  The statements
before the loop compute the interval of the progress report (`print_interval`,
`percent_increment`); like the report itself they only feed `printf` and are left
out, as is the parameter `verbose`. -/
def run_2D_fdtd (glob : Globals) (ext : Extern) (fuel : Nat) (fdtd : fdtd2D) (end_time : ℚ) :
    Option fdtd2D :=
  runLoop fdtd2D.time (run_2D_body glob ext) advance_time end_time fuel fdtd

/-- One iteration of the loop of `run_2D_fdtd`: the body, then the increment. -/
def run_2D_iteration (glob : Globals) (ext : Extern) (fdtd : fdtd2D) : fdtd2D :=
  advance_time (run_2D_body glob ext fdtd)

/-- The members of a grid other than the field arrays, the auxiliary arrays and
the count of `drand48` calls. -/
def fdtd2D.static (g : fdtd2D) :=
  (g.dx, g.dy, g.dt, g.permittivity_inv, g.permeability_inv, g.bx, g.cx, g.cpml_thickness,
    g.border_condition, g.domain_size, g.sizeX, g.sizeY, g.Sc, g.num_Jsources, g.Jsources,
    g.JsourceLocations, g.num_Msources, g.Msources, g.MsourceLocations, g.time)

end D2

/-! ## Three dimensions (`fdtd3D.c`) -/

namespace D3

/-- The enumerator `border_front`. -/
def border_front : Nat := 0

/-- The enumerator `border_back`. -/
def border_back : Nat := 1

/-- The enumerator `border_top`. -/
def border_top : Nat := 2

/-- The enumerator `border_bottom`. -/
def border_bottom : Nat := 3

/-- The enumerator `border_right`. -/
def border_right : Nat := 4

/-- The enumerator `border_left`. -/
def border_left : Nat := 5

/-- The enumerator `num_borders_3D`. -/
def num_borders_3D : Nat := 6

/-- The structure `fdtd3D`.  The members `psi_hx_y[0..1]`, ... carry the names of
the array views the kernels give them (`psi_hx_left`, `psi_hx_right`, ...).  The
pointers `by`, `bz`, `cy`, `cz` alias `bx` and `cx`, see `fdtd3D.by_`. -/
structure fdtd3D where
  dx : ℚ
  dy : ℚ
  dz : ℚ
  dt : ℚ
  hx : Arr3
  hy : Arr3
  hz : Arr3
  ex : Arr3
  ey : Arr3
  ez : Arr3
  permittivity_inv : Arr3
  permeability_inv : Arr3
  psi_hx_left : Arr3
  psi_hx_right : Arr3
  psi_hx_front : Arr3
  psi_hx_back : Arr3
  psi_hy_bottom : Arr3
  psi_hy_top : Arr3
  psi_hy_front : Arr3
  psi_hy_back : Arr3
  psi_hz_bottom : Arr3
  psi_hz_top : Arr3
  psi_hz_left : Arr3
  psi_hz_right : Arr3
  psi_ex_left : Arr3
  psi_ex_right : Arr3
  psi_ex_front : Arr3
  psi_ex_back : Arr3
  psi_ey_bottom : Arr3
  psi_ey_top : Arr3
  psi_ey_front : Arr3
  psi_ey_back : Arr3
  psi_ez_bottom : Arr3
  psi_ez_top : Arr3
  psi_ez_left : Arr3
  psi_ez_right : Arr3
  bx : Arr1
  cx : Arr1
  cpml_thickness : Nat
  border_condition : Nat → Nat
  domain_size : Nat → ℚ
  sizeX : Nat
  sizeY : Nat
  sizeZ : Nat
  Sc : ℚ
  num_Jsources : Nat
  Jsources : Nat → fdtd_source
  JsourceLocations : Nat × Nat → Nat
  num_Msources : Nat
  Msources : Nat → fdtd_source
  MsourceLocations : Nat × Nat → Nat
  time : ℚ

/-- The member `by`, the same storage as `bx`. -/
def fdtd3D.by_ (fdtd : fdtd3D) : Arr1 := fdtd.bx

/-- The member `bz`, the same storage as `bx`. -/
def fdtd3D.bz (fdtd : fdtd3D) : Arr1 := fdtd.bx

/-- The member `cy`, the same storage as `cx`. -/
def fdtd3D.cy (fdtd : fdtd3D) : Arr1 := fdtd.cx

/-- The member `cz`, the same storage as `cx`. -/
def fdtd3D.cz (fdtd : fdtd3D) : Arr1 := fdtd.cx

/-- The first loop nest of `update_electric_field` (component `ex`). -/
def update_electric_field_ex (fdtd : fdtd3D) : fdtd3D :=
  let _dy := 1 / fdtd.dy
  let _dz := 1 / fdtd.dz
  forLoop 1 fdtd.sizeX (fun i s => forLoop 1 fdtd.sizeY (fun j s =>
    forLoop 1 fdtd.sizeZ (fun k s =>
      let v := s.ex (i, j, k) + ((s.hz (i, j, k) - s.hz (i, j - 1, k)) * _dy -
        (s.hy (i, j, k) - s.hy (i, j, k - 1)) * _dz) * fdtd.dt * s.permittivity_inv (i, j, k)
      { s with ex := store s.ex (i, j, k) v }) s) s) fdtd

/-- The second loop nest of `update_electric_field` (component `ey`). -/
def update_electric_field_ey (fdtd : fdtd3D) : fdtd3D :=
  let _dx := 1 / fdtd.dx
  let _dz := 1 / fdtd.dz
  forLoop 1 fdtd.sizeX (fun i s => forLoop 1 fdtd.sizeY (fun j s =>
    forLoop 1 fdtd.sizeZ (fun k s =>
      let v := s.ey (i, j, k) + ((s.hx (i, j, k) - s.hx (i, j, k - 1)) * _dz -
        (s.hz (i, j, k) - s.hz (i - 1, j, k)) * _dx) * fdtd.dt * s.permittivity_inv (i, j, k)
      { s with ey := store s.ey (i, j, k) v }) s) s) fdtd

/-- The third loop nest of `update_electric_field` (component `ez`). -/
def update_electric_field_ez (fdtd : fdtd3D) : fdtd3D :=
  let _dx := 1 / fdtd.dx
  let _dy := 1 / fdtd.dy
  forLoop 1 fdtd.sizeX (fun i s => forLoop 1 fdtd.sizeY (fun j s =>
    forLoop 1 fdtd.sizeZ (fun k s =>
      let v := s.ez (i, j, k) + ((s.hy (i, j, k) - s.hy (i - 1, j, k)) * _dx -
        (s.hx (i, j, k) - s.hx (i, j - 1, k)) * _dy) * fdtd.dt * s.permittivity_inv (i, j, k)
      { s with ez := store s.ez (i, j, k) v }) s) s) fdtd

/-- The function `update_electric_field` of `fdtd3D.c`: its three loop nests in
the order `ex`, `ey`, `ez`. -/
def update_electric_field (fdtd : fdtd3D) : fdtd3D :=
  update_electric_field_ez (update_electric_field_ey (update_electric_field_ex fdtd))

/-- The block of `update_electric_cpml` for the left face. -/
def update_electric_cpml_left (fdtd : fdtd3D) : fdtd3D :=
  let _dy := 1 / fdtd.dy
  if flagSet (fdtd.border_condition border_left) border_cpml then
    forLoop 0 fdtd.sizeX (fun i s => forLoop 0 fdtd.cpml_thickness (fun j s =>
      forLoop 0 fdtd.sizeZ (fun k s =>
      let psi := s.by_ j * s.psi_ex_left (i, j, k) +
        s.cy j * (s.hz (i, 1 + j, k) - s.hz (i, j, k)) * _dy
      let s := { s with psi_ex_left := store s.psi_ex_left (i, j, k) psi }
      let v := s.ex (i, 1 + j, k) +
        fdtd.dt * s.permittivity_inv (i, 1 + j, k) * s.psi_ex_left (i, j, k)
      let s := { s with ex := store s.ex (i, 1 + j, k) v }
      let psi := s.by_ j * s.psi_ez_left (i, j, k) +
        s.cy j * (s.hx (i, 1 + j, k) - s.hx (i, j, k)) * _dy
      let s := { s with psi_ez_left := store s.psi_ez_left (i, j, k) psi }
      let v := s.ez (i, 1 + j, k) -
        fdtd.dt * s.permittivity_inv (i, 1 + j, k) * s.psi_ez_left (i, j, k)
      let s := { s with ez := store s.ez (i, 1 + j, k) v }
      s) s) s) fdtd
  else fdtd

/-- The block of `update_electric_cpml` for the right face. -/
def update_electric_cpml_right (fdtd : fdtd3D) : fdtd3D :=
  let _dy := 1 / fdtd.dy
  if flagSet (fdtd.border_condition border_right) border_cpml then
    forLoop 0 fdtd.sizeX (fun i s => forLoop 0 fdtd.cpml_thickness (fun j s =>
      forLoop 0 fdtd.sizeZ (fun k s =>
      let psi := s.by_ j * s.psi_ex_right (i, j, k) +
        s.cy j * (s.hz (i, usub (usub fdtd.sizeY 1) j, k) - s.hz (i, usub (usub fdtd.sizeY 2) j, k)) * _dy
      let s := { s with psi_ex_right := store s.psi_ex_right (i, j, k) psi }
      let v := s.ex (i, usub (usub fdtd.sizeY 1) j, k) +
        fdtd.dt * s.permittivity_inv (i, usub (usub fdtd.sizeY 1) j, k) * s.psi_ex_right (i, j, k)
      let s := { s with ex := store s.ex (i, usub (usub fdtd.sizeY 1) j, k) v }
      let psi := s.by_ j * s.psi_ez_right (i, j, k) +
        s.cy j * (s.hx (i, usub (usub fdtd.sizeY 1) j, k) - s.hx (i, usub (usub fdtd.sizeY 2) j, k)) * _dy
      let s := { s with psi_ez_right := store s.psi_ez_right (i, j, k) psi }
      let v := s.ez (i, usub (usub fdtd.sizeY 1) j, k) -
        fdtd.dt * s.permittivity_inv (i, usub (usub fdtd.sizeY 1) j, k) * s.psi_ez_right (i, j, k)
      let s := { s with ez := store s.ez (i, usub (usub fdtd.sizeY 1) j, k) v }
      s) s) s) fdtd
  else fdtd

/-- The block of `update_electric_cpml` for the front face. -/
def update_electric_cpml_front (fdtd : fdtd3D) : fdtd3D :=
  let _dz := 1 / fdtd.dz
  if flagSet (fdtd.border_condition border_front) border_cpml then
    forLoop 0 fdtd.sizeX (fun i s => forLoop 0 fdtd.sizeY (fun j s =>
      forLoop 0 fdtd.cpml_thickness (fun k s =>
      let psi := s.bz k * s.psi_ex_front (i, j, k) +
        s.cz k * (s.hy (i, j, 1 + k) - s.hy (i, j, k)) * _dz
      let s := { s with psi_ex_front := store s.psi_ex_front (i, j, k) psi }
      let v := s.ex (i, j, 1 + k) -
        fdtd.dt * s.permittivity_inv (i, j, 1 + k) * s.psi_ex_front (i, j, k)
      let s := { s with ex := store s.ex (i, j, 1 + k) v }
      let psi := s.bz k * s.psi_ey_front (i, j, k) +
        s.cz k * (s.hx (i, j, 1 + k) - s.hx (i, j, k)) * _dz
      let s := { s with psi_ey_front := store s.psi_ey_front (i, j, k) psi }
      let v := s.ey (i, j, 1 + k) +
        fdtd.dt * s.permittivity_inv (i, j, 1 + k) * s.psi_ey_front (i, j, k)
      let s := { s with ey := store s.ey (i, j, 1 + k) v }
      s) s) s) fdtd
  else fdtd

/-- The block of `update_electric_cpml` for the back face. -/
def update_electric_cpml_back (fdtd : fdtd3D) : fdtd3D :=
  let _dz := 1 / fdtd.dz
  if flagSet (fdtd.border_condition border_back) border_cpml then
    forLoop 0 fdtd.sizeX (fun i s => forLoop 0 fdtd.sizeY (fun j s =>
      forLoop 0 fdtd.cpml_thickness (fun k s =>
      let psi := s.bz k * s.psi_ex_back (i, j, k) +
        s.cz k * (s.hy (i, j, usub (usub fdtd.sizeZ 1) k) - s.hy (i, j, usub (usub fdtd.sizeZ 2) k)) * _dz
      let s := { s with psi_ex_back := store s.psi_ex_back (i, j, k) psi }
      let v := s.ex (i, j, usub (usub fdtd.sizeZ 1) k) -
        fdtd.dt * s.permittivity_inv (i, j, usub (usub fdtd.sizeZ 1) k) * s.psi_ex_back (i, j, k)
      let s := { s with ex := store s.ex (i, j, usub (usub fdtd.sizeZ 1) k) v }
      let psi := s.bz k * s.psi_ey_back (i, j, k) +
        s.cz k * (s.hx (i, j, usub (usub fdtd.sizeZ 1) k) - s.hx (i, j, usub (usub fdtd.sizeZ 2) k)) * _dz
      let s := { s with psi_ey_back := store s.psi_ey_back (i, j, k) psi }
      let v := s.ey (i, j, usub (usub fdtd.sizeZ 1) k) +
        fdtd.dt * s.permittivity_inv (i, j, usub (usub fdtd.sizeZ 1) k) * s.psi_ey_back (i, j, k)
      let s := { s with ey := store s.ey (i, j, usub (usub fdtd.sizeZ 1) k) v }
      s) s) s) fdtd
  else fdtd

/-- The block of `update_electric_cpml` for the bottom face. -/
def update_electric_cpml_bottom (fdtd : fdtd3D) : fdtd3D :=
  let _dx := 1 / fdtd.dx
  if flagSet (fdtd.border_condition border_bottom) border_cpml then
    forLoop 0 fdtd.cpml_thickness (fun i s => forLoop 0 fdtd.sizeY (fun j s =>
      forLoop 0 fdtd.sizeZ (fun k s =>
      let psi := s.bx i * s.psi_ey_bottom (i, j, k) +
        s.cx i * (s.hz (1 + i, j, k) - s.hz (i, j, k)) * _dx
      let s := { s with psi_ey_bottom := store s.psi_ey_bottom (i, j, k) psi }
      let v := s.ey (1 + i, j, k) -
        fdtd.dt * s.permittivity_inv (1 + i, j, k) * s.psi_ey_bottom (i, j, k)
      let s := { s with ey := store s.ey (1 + i, j, k) v }
      let psi := s.bx i * s.psi_ez_bottom (i, j, k) +
        s.cx i * (s.hy (1 + i, j, k) - s.hy (i, j, k)) * _dx
      let s := { s with psi_ez_bottom := store s.psi_ez_bottom (i, j, k) psi }
      let v := s.ez (1 + i, j, k) +
        fdtd.dt * s.permittivity_inv (1 + i, j, k) * s.psi_ez_bottom (i, j, k)
      let s := { s with ez := store s.ez (1 + i, j, k) v }
      s) s) s) fdtd
  else fdtd

/-- The block of `update_electric_cpml` for the top face. -/
def update_electric_cpml_top (fdtd : fdtd3D) : fdtd3D :=
  let _dx := 1 / fdtd.dx
  if flagSet (fdtd.border_condition border_top) border_cpml then
    forLoop 0 fdtd.cpml_thickness (fun i s => forLoop 0 fdtd.sizeY (fun j s =>
      forLoop 0 fdtd.sizeZ (fun k s =>
      let psi := s.bx i * s.psi_ey_top (i, j, k) +
        s.cx i * (s.hz (usub (usub fdtd.sizeX 1) i, j, k) - s.hz (usub (usub fdtd.sizeX 2) i, j, k)) * _dx
      let s := { s with psi_ey_top := store s.psi_ey_top (i, j, k) psi }
      let v := s.ey (usub (usub fdtd.sizeX 1) i, j, k) -
        fdtd.dt * s.permittivity_inv (usub (usub fdtd.sizeX 1) i, j, k) * s.psi_ey_top (i, j, k)
      let s := { s with ey := store s.ey (usub (usub fdtd.sizeX 1) i, j, k) v }
      let psi := s.bx i * s.psi_ez_top (i, j, k) +
        s.cx i * (s.hy (usub (usub fdtd.sizeX 1) i, j, k) - s.hy (usub (usub fdtd.sizeX 2) i, j, k)) * _dx
      let s := { s with psi_ez_top := store s.psi_ez_top (i, j, k) psi }
      let v := s.ez (usub (usub fdtd.sizeX 1) i, j, k) +
        fdtd.dt * s.permittivity_inv (usub (usub fdtd.sizeX 1) i, j, k) * s.psi_ez_top (i, j, k)
      let s := { s with ez := store s.ez (usub (usub fdtd.sizeX 1) i, j, k) v }
      s) s) s) fdtd
  else fdtd

/-- The function `update_electric_cpml` of `fdtd3D.c`: its six blocks in the
order left, right, front, back, bottom, top. -/
def update_electric_cpml (fdtd : fdtd3D) : fdtd3D :=
  update_electric_cpml_top (update_electric_cpml_bottom (update_electric_cpml_back
    (update_electric_cpml_front (update_electric_cpml_right
      (update_electric_cpml_left fdtd)))))

/-- The function `border_condition_electric` of `fdtd3D.c`.  The `default` case of
the `switch` (an `exit`) cannot be reached for `i < num_borders_3D`. -/
def border_condition_electric (fdtd : fdtd3D) : fdtd3D :=
  forLoop border_front num_borders_3D (fun i s =>
    if fdtd.border_condition i = border_perfect_electric_conductor then
      match i with
      | 0 => forLoop 0 fdtd.sizeX (fun j s => forLoop 0 fdtd.sizeY (fun k s =>
          let s := { s with ex := store s.ex (j, k, 0) 0 }
          let s := { s with ey := store s.ey (j, k, 0) 0 }
          { s with ez := store s.ez (j, k, 0) 0 }) s) s
      | 1 => forLoop 0 fdtd.sizeX (fun j s => forLoop 0 fdtd.sizeY (fun k s =>
          let s := { s with ex := store s.ex (j, k, usub fdtd.sizeZ 1) 0 }
          let s := { s with ey := store s.ey (j, k, usub fdtd.sizeZ 1) 0 }
          { s with ez := store s.ez (j, k, usub fdtd.sizeZ 1) 0 }) s) s
      | 2 => forLoop 0 fdtd.sizeX (fun j s => forLoop 0 fdtd.sizeZ (fun k s =>
          let s := { s with ex := store s.ex (usub fdtd.sizeX 1, j, k) 0 }
          let s := { s with ey := store s.ey (usub fdtd.sizeX 1, j, k) 0 }
          { s with ez := store s.ez (usub fdtd.sizeX 1, j, k) 0 }) s) s
      | 3 => forLoop 0 fdtd.sizeX (fun j s => forLoop 0 fdtd.sizeZ (fun k s =>
          let s := { s with ex := store s.ex (0, j, k) 0 }
          let s := { s with ey := store s.ey (0, j, k) 0 }
          { s with ez := store s.ez (0, j, k) 0 }) s) s
      | 4 => forLoop 0 fdtd.sizeX (fun j s => forLoop 0 fdtd.sizeZ (fun k s =>
          let s := { s with ex := store s.ex (j, usub fdtd.sizeY 1, k) 0 }
          let s := { s with ey := store s.ey (j, usub fdtd.sizeY 1, k) 0 }
          { s with ez := store s.ez (j, usub fdtd.sizeY 1, k) 0 }) s) s
      | 5 => forLoop 0 fdtd.sizeX (fun j s => forLoop 0 fdtd.sizeZ (fun k s =>
          let s := { s with ex := store s.ex (j, 0, k) 0 }
          let s := { s with ey := store s.ey (j, 0, k) 0 }
          { s with ez := store s.ez (j, 0, k) 0 }) s) s
      | _ => s
    else s) fdtd

/-- The first loop nest of `update_magnetic_field` (component `hx`). -/
def update_magnetic_field_hx (fdtd : fdtd3D) : fdtd3D :=
  let _dy := 1 / fdtd.dy
  let _dz := 1 / fdtd.dz
  forLoop 0 (usub fdtd.sizeX 1) (fun i s => forLoop 0 (usub fdtd.sizeY 1) (fun j s =>
    forLoop 0 (usub fdtd.sizeZ 1) (fun k s =>
      let v := s.hx (i, j, k) + ((s.ey (i, j, k + 1) - s.ey (i, j, k)) * _dz -
        (s.ez (i, j + 1, k) - s.ez (i, j, k)) * _dy) * fdtd.dt * s.permeability_inv (i, j, k)
      { s with hx := store s.hx (i, j, k) v }) s) s) fdtd

/-- The second loop nest of `update_magnetic_field` (component `hy`). -/
def update_magnetic_field_hy (fdtd : fdtd3D) : fdtd3D :=
  let _dx := 1 / fdtd.dx
  let _dz := 1 / fdtd.dz
  forLoop 0 (usub fdtd.sizeX 1) (fun i s => forLoop 0 (usub fdtd.sizeY 1) (fun j s =>
    forLoop 0 (usub fdtd.sizeZ 1) (fun k s =>
      let v := s.hy (i, j, k) + ((s.ez (i + 1, j, k) - s.ez (i, j, k)) * _dx -
        (s.ex (i, j, k + 1) - s.ex (i, j, k)) * _dz) * fdtd.dt * s.permeability_inv (i, j, k)
      { s with hy := store s.hy (i, j, k) v }) s) s) fdtd

/-- The third loop nest of `update_magnetic_field` (component `hz`). -/
def update_magnetic_field_hz (fdtd : fdtd3D) : fdtd3D :=
  let _dy := 1 / fdtd.dy
  let _dx := 1 / fdtd.dx
  forLoop 0 (usub fdtd.sizeX 1) (fun i s => forLoop 0 (usub fdtd.sizeY 1) (fun j s =>
    forLoop 0 (usub fdtd.sizeZ 1) (fun k s =>
      let v := s.hz (i, j, k) + ((s.ex (i, j + 1, k) - s.ex (i, j, k)) * _dy -
        (s.ey (i + 1, j, k) - s.ey (i, j, k)) * _dx) * fdtd.dt * s.permeability_inv (i, j, k)
      { s with hz := store s.hz (i, j, k) v }) s) s) fdtd

/-- The function `update_magnetic_field` of `fdtd3D.c`: its three loop nests in
the order `hx`, `hy`, `hz`. -/
def update_magnetic_field (fdtd : fdtd3D) : fdtd3D :=
  update_magnetic_field_hz (update_magnetic_field_hy (update_magnetic_field_hx fdtd))

/-- The block of `update_magnetic_cpml` for the left face. -/
def update_magnetic_cpml_left (fdtd : fdtd3D) : fdtd3D :=
  let _dy := 1 / fdtd.dy
  if flagSet (fdtd.border_condition border_left) border_cpml then
    forLoop 0 fdtd.sizeX (fun i s => forLoop 0 fdtd.cpml_thickness (fun j s =>
      forLoop 0 fdtd.sizeZ (fun k s =>
      let psi := s.by_ j * s.psi_hx_left (i, j, k) +
        s.cy j * (s.ez (i, j + 1, k) - s.ez (i, j, k)) * _dy
      let s := { s with psi_hx_left := store s.psi_hx_left (i, j, k) psi }
      let v := s.hx (i, j, k) -
        fdtd.dt * s.permeability_inv (i, j, k) * s.psi_hx_left (i, j, k)
      let s := { s with hx := store s.hx (i, j, k) v }
      let psi := s.by_ j * s.psi_hz_left (i, j, k) +
        s.cy j * (s.ex (i, j + 1, k) - s.ex (i, j, k)) * _dy
      let s := { s with psi_hz_left := store s.psi_hz_left (i, j, k) psi }
      let v := s.hz (i, j, k) +
        fdtd.dt * s.permeability_inv (i, j, k) * s.psi_hz_left (i, j, k)
      let s := { s with hz := store s.hz (i, j, k) v }
      s) s) s) fdtd
  else fdtd

/-- The block of `update_magnetic_cpml` for the right face. -/
def update_magnetic_cpml_right (fdtd : fdtd3D) : fdtd3D :=
  let _dy := 1 / fdtd.dy
  if flagSet (fdtd.border_condition border_right) border_cpml then
    forLoop 0 fdtd.sizeX (fun i s => forLoop 0 fdtd.cpml_thickness (fun j s =>
      forLoop 0 fdtd.sizeZ (fun k s =>
      let psi := s.by_ j * s.psi_hx_right (i, j, k) +
        s.cy j * (s.ez (i, usub (usub fdtd.sizeY 1) j, k) - s.ez (i, usub (usub fdtd.sizeY 2) j, k)) * _dy
      let s := { s with psi_hx_right := store s.psi_hx_right (i, j, k) psi }
      let v := s.hx (i, usub (usub fdtd.sizeY 2) j, k) -
        fdtd.dt * s.permeability_inv (i, usub (usub fdtd.sizeY 2) j, k) * s.psi_hx_right (i, j, k)
      let s := { s with hx := store s.hx (i, usub (usub fdtd.sizeY 2) j, k) v }
      let psi := s.by_ j * s.psi_hz_right (i, j, k) +
        s.cy j * (s.ex (i, usub (usub fdtd.sizeY 1) j, k) - s.ex (i, usub (usub fdtd.sizeY 2) j, k)) * _dy
      let s := { s with psi_hz_right := store s.psi_hz_right (i, j, k) psi }
      let v := s.hz (i, usub (usub fdtd.sizeY 2) j, k) +
        fdtd.dt * s.permeability_inv (i, usub (usub fdtd.sizeY 2) j, k) * s.psi_hz_right (i, j, k)
      let s := { s with hz := store s.hz (i, usub (usub fdtd.sizeY 2) j, k) v }
      s) s) s) fdtd
  else fdtd

/-- The block of `update_magnetic_cpml` for the front face. -/
def update_magnetic_cpml_front (fdtd : fdtd3D) : fdtd3D :=
  let _dz := 1 / fdtd.dz
  if flagSet (fdtd.border_condition border_front) border_cpml then
    forLoop 0 fdtd.sizeX (fun i s => forLoop 0 fdtd.sizeY (fun j s =>
      forLoop 0 fdtd.cpml_thickness (fun k s =>
      let psi := s.bz k * s.psi_hx_front (i, j, k) +
        s.cz k * (s.ey (i, j, k + 1) - s.ey (i, j, k)) * _dz
      let s := { s with psi_hx_front := store s.psi_hx_front (i, j, k) psi }
      let v := s.hx (i, j, k) +
        fdtd.dt * s.permeability_inv (i, j, k) * s.psi_hx_front (i, j, k)
      let s := { s with hx := store s.hx (i, j, k) v }
      let psi := s.bz k * s.psi_hy_front (i, j, k) +
        s.cz k * (s.ex (i, j, k + 1) - s.ex (i, j, k)) * _dz
      let s := { s with psi_hy_front := store s.psi_hy_front (i, j, k) psi }
      let v := s.hy (i, j, k) -
        fdtd.dt * s.permeability_inv (i, j, k) * s.psi_hy_front (i, j, k)
      let s := { s with hy := store s.hy (i, j, k) v }
      s) s) s) fdtd
  else fdtd

/-- The block of `update_magnetic_cpml` for the back face. -/
def update_magnetic_cpml_back (fdtd : fdtd3D) : fdtd3D :=
  let _dz := 1 / fdtd.dz
  if flagSet (fdtd.border_condition border_back) border_cpml then
    forLoop 0 fdtd.sizeX (fun i s => forLoop 0 fdtd.sizeY (fun j s =>
      forLoop 0 fdtd.cpml_thickness (fun k s =>
      let psi := s.bz k * s.psi_hx_back (i, j, k) +
        s.cz k * (s.ey (i, j, usub (usub fdtd.sizeZ 1) k) - s.ey (i, j, usub (usub fdtd.sizeZ 2) k)) * _dz
      let s := { s with psi_hx_back := store s.psi_hx_back (i, j, k) psi }
      let v := s.hx (i, j, usub (usub fdtd.sizeZ 2) k) +
        fdtd.dt * s.permeability_inv (i, j, usub (usub fdtd.sizeZ 2) k) * s.psi_hx_back (i, j, k)
      let s := { s with hx := store s.hx (i, j, usub (usub fdtd.sizeZ 2) k) v }
      let psi := s.bz k * s.psi_hy_back (i, j, k) +
        s.cz k * (s.ex (i, j, usub (usub fdtd.sizeZ 1) k) - s.ex (i, j, usub (usub fdtd.sizeZ 2) k)) * _dz
      let s := { s with psi_hy_back := store s.psi_hy_back (i, j, k) psi }
      let v := s.hy (i, j, usub (usub fdtd.sizeZ 2) k) -
        fdtd.dt * s.permeability_inv (i, j, usub (usub fdtd.sizeZ 2) k) * s.psi_hy_back (i, j, k)
      let s := { s with hy := store s.hy (i, j, usub (usub fdtd.sizeZ 2) k) v }
      s) s) s) fdtd
  else fdtd

/-- The block of `update_magnetic_cpml` for the bottom face. -/
def update_magnetic_cpml_bottom (fdtd : fdtd3D) : fdtd3D :=
  let _dx := 1 / fdtd.dx
  if flagSet (fdtd.border_condition border_bottom) border_cpml then
    forLoop 0 fdtd.cpml_thickness (fun i s => forLoop 0 fdtd.sizeY (fun j s =>
      forLoop 0 fdtd.sizeZ (fun k s =>
      let psi := s.bx i * s.psi_hy_bottom (i, j, k) +
        s.cx i * (s.ez (i + 1, j, k) - s.ez (i, j, k)) * _dx
      let s := { s with psi_hy_bottom := store s.psi_hy_bottom (i, j, k) psi }
      let v := s.hy (i, j, k) +
        fdtd.dt * s.permeability_inv (i, j, k) * s.psi_hy_bottom (i, j, k)
      let s := { s with hy := store s.hy (i, j, k) v }
      let psi := s.bx i * s.psi_hz_bottom (i, j, k) +
        s.cx i * (s.ey (i + 1, j, k) - s.ey (i, j, k)) * _dx
      let s := { s with psi_hz_bottom := store s.psi_hz_bottom (i, j, k) psi }
      let v := s.hz (i, j, k) -
        fdtd.dt * s.permeability_inv (i, j, k) * s.psi_hz_bottom (i, j, k)
      let s := { s with hz := store s.hz (i, j, k) v }
      s) s) s) fdtd
  else fdtd

/-- The block of `update_magnetic_cpml` for the top face. -/
def update_magnetic_cpml_top (fdtd : fdtd3D) : fdtd3D :=
  let _dx := 1 / fdtd.dx
  if flagSet (fdtd.border_condition border_top) border_cpml then
    forLoop 0 fdtd.cpml_thickness (fun i s => forLoop 0 fdtd.sizeY (fun j s =>
      forLoop 0 fdtd.sizeZ (fun k s =>
      let psi := s.bx i * s.psi_hy_top (i, j, k) +
        s.cx i * (s.ez (usub (usub fdtd.sizeX 1) i, j, k) - s.ez (usub (usub fdtd.sizeX 2) i, j, k)) * _dx
      let s := { s with psi_hy_top := store s.psi_hy_top (i, j, k) psi }
      let v := s.hy (usub (usub fdtd.sizeX 2) i, j, k) +
        fdtd.dt * s.permeability_inv (usub (usub fdtd.sizeX 2) i, j, k) * s.psi_hy_top (i, j, k)
      let s := { s with hy := store s.hy (usub (usub fdtd.sizeX 2) i, j, k) v }
      let psi := s.bx i * s.psi_hz_top (i, j, k) +
        s.cx i * (s.ey (usub (usub fdtd.sizeX 1) i, j, k) - s.ey (usub (usub fdtd.sizeX 2) i, j, k)) * _dx
      let s := { s with psi_hz_top := store s.psi_hz_top (i, j, k) psi }
      let v := s.hz (usub (usub fdtd.sizeX 2) i, j, k) -
        fdtd.dt * s.permeability_inv (usub (usub fdtd.sizeX 2) i, j, k) * s.psi_hz_top (i, j, k)
      let s := { s with hz := store s.hz (usub (usub fdtd.sizeX 2) i, j, k) v }
      s) s) s) fdtd
  else fdtd

/-- The function `update_magnetic_cpml` of `fdtd3D.c`: its six blocks in the
order left, right, front, back, bottom, top. -/
def update_magnetic_cpml (fdtd : fdtd3D) : fdtd3D :=
  update_magnetic_cpml_top (update_magnetic_cpml_bottom (update_magnetic_cpml_back
    (update_magnetic_cpml_front (update_magnetic_cpml_right
      (update_magnetic_cpml_left fdtd)))))

/-- The function `border_condition_magnetic` of `fdtd3D.c`.  The `default` case of
the `switch` (an `exit`) cannot be reached for `i < num_borders_3D`. -/
def border_condition_magnetic (fdtd : fdtd3D) : fdtd3D :=
  forLoop border_front num_borders_3D (fun i s =>
    if fdtd.border_condition i = border_perfect_electric_conductor then
      match i with
      | 0 => forLoop 0 fdtd.sizeX (fun j s => forLoop 0 fdtd.sizeY (fun k s =>
          let s := { s with hx := store s.hx (j, k, 0) 0 }
          let s := { s with hy := store s.hy (j, k, 0) 0 }
          { s with hz := store s.hz (j, k, 0) 0 }) s) s
      | 1 => forLoop 0 fdtd.sizeX (fun j s => forLoop 0 fdtd.sizeY (fun k s =>
          let s := { s with hx := store s.hx (j, k, usub fdtd.sizeZ 1) 0 }
          let s := { s with hy := store s.hy (j, k, usub fdtd.sizeZ 1) 0 }
          { s with hz := store s.hz (j, k, usub fdtd.sizeZ 1) 0 }) s) s
      | 2 => forLoop 0 fdtd.sizeX (fun j s => forLoop 0 fdtd.sizeZ (fun k s =>
          let s := { s with hx := store s.hx (usub fdtd.sizeX 1, j, k) 0 }
          let s := { s with hy := store s.hy (usub fdtd.sizeX 1, j, k) 0 }
          { s with hz := store s.hz (usub fdtd.sizeX 1, j, k) 0 }) s) s
      | 3 => forLoop 0 fdtd.sizeX (fun j s => forLoop 0 fdtd.sizeZ (fun k s =>
          let s := { s with hx := store s.hx (0, j, k) 0 }
          let s := { s with hy := store s.hy (0, j, k) 0 }
          { s with hz := store s.hz (0, j, k) 0 }) s) s
      | 4 => forLoop 0 fdtd.sizeX (fun j s => forLoop 0 fdtd.sizeZ (fun k s =>
          let s := { s with hx := store s.hx (j, usub fdtd.sizeY 1, k) 0 }
          let s := { s with hy := store s.hy (j, usub fdtd.sizeY 1, k) 0 }
          { s with hz := store s.hz (j, usub fdtd.sizeY 1, k) 0 }) s) s
      | 5 => forLoop 0 fdtd.sizeX (fun j s => forLoop 0 fdtd.sizeZ (fun k s =>
          let s := { s with hx := store s.hx (j, 0, k) 0 }
          let s := { s with hy := store s.hy (j, 0, k) 0 }
          { s with hz := store s.hz (j, 0, k) 0 }) s) s
      | _ => s
    else s) fdtd

/-- The function `apply_M_sources` of `fdtd3D.c`. -/
def apply_M_sources (ext : Extern) (fdtd : fdtd3D) : fdtd3D :=
  forLoop 0 fdtd.num_Msources (fun i s =>
    match (s.Msources i).type with
    | fdtd_source_type.source_gaussian_pulse =>
      let loc := (s.MsourceLocations (i, 0), s.MsourceLocations (i, 1), s.MsourceLocations (i, 2))
      let s := { s with hy := store s.hy loc (s.hy loc + gaussian_pulse_val ext s.time (s.Msources i)) }
      let s := { s with hx := store s.hx loc (s.hx loc + gaussian_pulse_val ext s.time (s.Msources i)) }
      { s with hz := store s.hz loc (s.hz loc + gaussian_pulse_val ext s.time (s.Msources i)) })
    fdtd

/-- The function `apply_J_sources` of `fdtd3D.c`. -/
def apply_J_sources (ext : Extern) (fdtd : fdtd3D) : fdtd3D :=
  forLoop 0 fdtd.num_Jsources (fun i s =>
    match (s.Jsources i).type with
    | fdtd_source_type.source_gaussian_pulse =>
      let loc := (s.JsourceLocations (i, 0), s.JsourceLocations (i, 1), s.JsourceLocations (i, 1))
      let s := { s with ex := store s.ex loc (s.ex loc + gaussian_pulse_val ext s.time (s.Jsources i)) }
      let s := { s with ey := store s.ey loc (s.ey loc + gaussian_pulse_val ext s.time (s.Jsources i)) }
      { s with ez := store s.ez loc (s.ez loc + gaussian_pulse_val ext s.time (s.Jsources i)) })
    fdtd

/-- The conversion `(uintmax_t)x` of a `float_type` value without fractional part. -/
def to_uintmax (x : Int) : Nat := Int.toNat x % UINTMAX_MOD

/-- The first part of `init_fdtd_3D_cpml`: the grid as its initialiser and the
`calloc` calls leave it, before the CPML coefficients are computed. -/
def init_fdtd_3D_cpml_alloc (domain_size : Nat → ℚ) (Sc smallest_wavelength : ℚ)
    (borders : Nat → Nat) (cpml_thickness : Nat) : fdtd3D :=
  let dx := smallest_wavelength / 20
  let dy := dx
  let dz := dx
  let dt := dx * Sc / c_light
  let sizeXf : Int := ⌈domain_size 0 / dx⌉
  let sizeYf : Int := ⌈domain_size 1 / dy⌉
  let sizeZf : Int := ⌈domain_size 2 / dy⌉
  let sizeX := to_uintmax sizeXf
  let sizeY := to_uintmax sizeYf
  let sizeZ := to_uintmax sizeZf
  { dx := dx, dy := dy, dz := dz, dt := dt,
    hx := fun _ => 0, hy := fun _ => 0, hz := fun _ => 0,
    ex := fun _ => 0, ey := fun _ => 0, ez := fun _ => 0,
    permittivity_inv := fun _ => 0, permeability_inv := fun _ => 0,
    psi_hx_left := fun _ => 0, psi_hx_right := fun _ => 0,
    psi_hx_front := fun _ => 0, psi_hx_back := fun _ => 0,
    psi_hy_bottom := fun _ => 0, psi_hy_top := fun _ => 0,
    psi_hy_front := fun _ => 0, psi_hy_back := fun _ => 0,
    psi_hz_bottom := fun _ => 0, psi_hz_top := fun _ => 0,
    psi_hz_left := fun _ => 0, psi_hz_right := fun _ => 0,
    psi_ex_left := fun _ => 0, psi_ex_right := fun _ => 0,
    psi_ex_front := fun _ => 0, psi_ex_back := fun _ => 0,
    psi_ey_bottom := fun _ => 0, psi_ey_top := fun _ => 0,
    psi_ey_front := fun _ => 0, psi_ey_back := fun _ => 0,
    psi_ez_bottom := fun _ => 0, psi_ez_top := fun _ => 0,
    psi_ez_left := fun _ => 0, psi_ez_right := fun _ => 0,
    bx := fun _ => 0, cx := fun _ => 0,
    cpml_thickness := cpml_thickness,
    border_condition := fun i =>
      if i = border_front then borders border_front
      else if i = border_back then borders border_back
      else if i = border_top then borders border_top
      else if i = border_bottom then borders border_bottom
      else if i = border_right then borders border_right
      else if i = border_left then borders border_left
      else 0,
    domain_size := fun i =>
      if i = 0 then domain_size 0 else if i = 1 then domain_size 1 else domain_size 2,
    sizeX := sizeX, sizeY := sizeY, sizeZ := sizeZ, Sc := Sc,
    num_Jsources := 0, Jsources := fun _ => gaussian_source 0 0 0,
    JsourceLocations := fun _ => 0,
    num_Msources := 0, Msources := fun _ => gaussian_source 0 0 0,
    MsourceLocations := fun _ => 0,
    time := 0 }

/-- The last part of `init_fdtd_3D_cpml`: `alpha_max`, `sigma_max` and the loop
that stores the coefficients in `bx` and `cx` (`by`, `cy`, `bz`, `cz` alias them). -/
def init_fdtd_3D_cpml_coeff (ext : Extern) (cpml_thickness : Nat) (fdtd : fdtd3D) : fdtd3D :=
  let alpha_max := 2 * M_PI * eps0 * fdtd.dx * (1 / 10)
  let sigma_max := (8 / 10) * (polynomial_taper_order + 1) / (fdtd.dx * ext.sqrt (mu0 / eps0))
  forLoop 0 cpml_thickness (fun d s =>
    let bd := b ext d (usub cpml_thickness 1) fdtd.dt alpha_max sigma_max
    let s := { s with bx := store s.bx (usub (usub cpml_thickness d) 1) bd }
    let cd := c ext d (usub cpml_thickness 1) fdtd.dt alpha_max sigma_max
    { s with cx := store s.cx (usub (usub cpml_thickness d) 1) cd }) fdtd

/-- The function `init_fdtd_3D_cpml` (the messages printed to `stderr` are not
part of the returned grid). -/
def init_fdtd_3D_cpml (ext : Extern) (domain_size : Nat → ℚ) (Sc smallest_wavelength : ℚ)
    (borders : Nat → Nat) (cpml_thickness : Nat) : fdtd3D :=
  init_fdtd_3D_cpml_coeff ext cpml_thickness
    (init_fdtd_3D_cpml_alloc domain_size Sc smallest_wavelength borders cpml_thickness)

/-- The function `init_fdtd_3D`. -/
def init_fdtd_3D (ext : Extern) (domain_size : Nat → ℚ) (Sc smallest_wavelength : ℚ)
    (borders : Nat → Nat) : fdtd3D :=
  init_fdtd_3D_cpml ext domain_size Sc smallest_wavelength borders 0

/-- The body of the loop of `run_3D_fdtd`. -/
def run_3D_body (ext : Extern) (fdtd : fdtd3D) : fdtd3D :=
  let fdtd := update_magnetic_field fdtd
  let fdtd := apply_M_sources ext fdtd
  let fdtd := update_magnetic_cpml fdtd
  let fdtd := border_condition_magnetic fdtd
  let fdtd := update_electric_field fdtd
  let fdtd := apply_J_sources ext fdtd
  let fdtd := update_electric_cpml fdtd
  border_condition_electric fdtd

/-- The loop increment `fdtd->time += fdtd->dt` of `run_3D_fdtd`. -/
def advance_time (fdtd : fdtd3D) : fdtd3D :=
  { fdtd with time := fdtd.time + fdtd.dt }

/-- The function `run_3D_fdtd`, with at most `fuel` iterations. -/
def run_3D_fdtd (ext : Extern) (fuel : Nat) (fdtd : fdtd3D) (end_time : ℚ) : Option fdtd3D :=
  runLoop fdtd3D.time (run_3D_body ext) advance_time end_time fuel fdtd

/-- One iteration of the loop of `run_3D_fdtd`: the body, then the increment. -/
def run_3D_iteration (ext : Extern) (fdtd : fdtd3D) : fdtd3D :=
  advance_time (run_3D_body ext fdtd)

/-- The members of a grid other than the field arrays and the auxiliary arrays. -/
def fdtd3D.static (g : fdtd3D) :=
  (g.dx, g.dy, g.dz, g.dt, g.permittivity_inv, g.permeability_inv, g.bx, g.cx,
    g.cpml_thickness, g.border_condition, g.domain_size, g.sizeX, g.sizeY, g.sizeZ, g.Sc,
    g.num_Jsources, g.Jsources, g.JsourceLocations, g.num_Msources, g.Msources,
    g.MsourceLocations, g.time)

end D3

/-! ## Constructors, media and source registration -/

namespace D1

/-- The conversion `(uintmax_t)x` of a `float_type` value without fractional part. -/
def to_uintmax (x : Int) : Nat := Int.toNat x % UINTMAX_MOD

/-- The function `init_fdtd_1D` (the message printed to `stderr` is not part of the
returned grid). -/
def init_fdtd_1D (domain_size Sc smallest_wavelength : ℚ) (borders : Nat → Nat) : fdtd1D :=
  let dx := smallest_wavelength / 20
  let dt := dx * Sc / c_light
  let sizeXf : Int := ⌈domain_size / dx⌉
  let sizeX := to_uintmax sizeXf
  { dx := dx, dt := dt,
    ez := fun _ => 0, hy := fun _ => 0,
    permittivity_inv := fun _ => 0, permeability_inv := fun _ => 0,
    border_condition := fun i =>
      if i = border_oneside then borders border_oneside
      else if i = border_otherside then borders border_otherside
      else 0,
    domain_size := domain_size, sizeX := sizeX, Sc := Sc,
    num_Jsources := 0, Jsources := fun _ => gaussian_source 0 0 0,
    JsourceLocations := fun _ => 0,
    num_Msources := 0, Msources := fun _ => gaussian_source 0 0 0,
    MsourceLocations := fun _ => 0,
    time := 0 }

/-- The function `init_fdtd_1D_medium`; the callbacks are applied to the position
`pos`, which starts at 0 and grows by `dx` with the loop counter. -/
def init_fdtd_1D_medium (permeability_invR permittivity_invR : ℚ → ℚ) (fdtd : fdtd1D) :
    fdtd1D :=
  (forLoop 0 fdtd.sizeX (fun i (st : fdtd1D × ℚ) =>
    let v := 1 / (permeability_invR st.2 * mu0)
    let s := { st.1 with permeability_inv := store st.1.permeability_inv i v }
    let w := 1 / (permittivity_invR st.2 * eps0)
    let s := { s with permittivity_inv := store s.permittivity_inv i w }
    (s, st.2 + fdtd.dx)) (fdtd, 0)).1

/-- The function `add_source_fdtd_1D`; `realloc` keeps the entries already stored. -/
def add_source_fdtd_1D (sType : source_type) (fdtd : fdtd1D) (src : fdtd_source)
    (position : ℚ) : fdtd1D :=
  let posX : Int := ⌈position / fdtd.dx⌉
  match sType with
  | source_type.source_electric =>
    let fdtd := { fdtd with num_Jsources := unsigned_add fdtd.num_Jsources 1 }
    let last := unsigned_sub fdtd.num_Jsources 1
    let fdtd := { fdtd with JsourceLocations := store fdtd.JsourceLocations last (to_uintmax posX) }
    { fdtd with Jsources := store fdtd.Jsources last src }
  | source_type.source_magnetic =>
    let fdtd := { fdtd with num_Msources := unsigned_add fdtd.num_Msources 1 }
    let last := unsigned_sub fdtd.num_Msources 1
    let fdtd := { fdtd with MsourceLocations := store fdtd.MsourceLocations last (to_uintmax posX) }
    { fdtd with Msources := store fdtd.Msources last src }

end D1

namespace D2

/-- The function `init_fdtd_2D_medium`; the callbacks are applied to the positions
`posX`, `posY`, which start at 0 and grow by `dx`, `dy` with the loop counters. -/
def init_fdtd_2D_medium (permeability_invR permittivity_invR : ℚ → ℚ → ℚ) (fdtd : fdtd2D) :
    fdtd2D :=
  (forLoop 0 fdtd.sizeX (fun i (st : fdtd2D × ℚ) =>
    let inner := forLoop 0 fdtd.sizeY (fun j (su : fdtd2D × ℚ) =>
      let v := 1 / (permeability_invR st.2 su.2 * mu0)
      let s := { su.1 with permeability_inv := store su.1.permeability_inv (i, j) v }
      let w := 1 / (permittivity_invR st.2 su.2 * eps0)
      let s := { s with permittivity_inv := store s.permittivity_inv (i, j) w }
      (s, su.2 + fdtd.dy)) (st.1, 0)
    (inner.1, st.2 + fdtd.dx)) (fdtd, 0)).1

/-- The function `add_source_fdtd_2D`; `none` is the call of `exit(EXIT_FAILURE)`, and
`realloc` keeps the entries already stored. -/
def add_source_fdtd_2D (sType : source_type) (fdtd : fdtd2D) (src : fdtd_source)
    (positionX positionY : ℚ) : Option fdtd2D :=
  let posXf : Int := ⌊positionX / fdtd.dx⌋
  let posYf : Int := ⌊positionY / fdtd.dy⌋
  let posX := to_uintmax posXf
  let posY := to_uintmax posYf
  if posX ≥ fdtd.sizeX then none
  else if posY ≥ fdtd.sizeY then none
  else
    match sType with
    | source_type.source_electric =>
      let fdtd := { fdtd with num_Jsources := unsigned_add fdtd.num_Jsources 1 }
      let last := unsigned_sub fdtd.num_Jsources 1
      let fdtd := { fdtd with JsourceLocations := store fdtd.JsourceLocations (last, 0) posX }
      let fdtd := { fdtd with JsourceLocations := store fdtd.JsourceLocations (last, 1) posY }
      some { fdtd with Jsources := store fdtd.Jsources last src }
    | source_type.source_magnetic =>
      let fdtd := { fdtd with num_Msources := unsigned_add fdtd.num_Msources 1 }
      let last := unsigned_sub fdtd.num_Msources 1
      let fdtd := { fdtd with MsourceLocations := store fdtd.MsourceLocations (last, 0) posX }
      let fdtd := { fdtd with MsourceLocations := store fdtd.MsourceLocations (last, 1) posY }
      some { fdtd with Msources := store fdtd.Msources last src }

end D2

namespace D3

/-- The function `init_fdtd_3D_medium`; the callbacks are applied to the positions
`posX`, `posY`, `posZ`, which start at 0 and grow by `dx`, `dy`, `dz` with the loop
counters. -/
def init_fdtd_3D_medium (permeability_invR permittivity_invR : ℚ → ℚ → ℚ → ℚ)
    (fdtd : fdtd3D) : fdtd3D :=
  (forLoop 0 fdtd.sizeX (fun i (st : fdtd3D × ℚ) =>
    let mid := forLoop 0 fdtd.sizeY (fun j (su : fdtd3D × ℚ) =>
      let inner := forLoop 0 fdtd.sizeZ (fun k (sv : fdtd3D × ℚ) =>
        let v := 1 / (permeability_invR st.2 su.2 sv.2 * mu0)
        let s := { sv.1 with permeability_inv := store sv.1.permeability_inv (i, j, k) v }
        let w := 1 / (permittivity_invR st.2 su.2 sv.2 * eps0)
        let s := { s with permittivity_inv := store s.permittivity_inv (i, j, k) w }
        (s, sv.2 + fdtd.dz)) (su.1, 0)
      (inner.1, su.2 + fdtd.dy)) (st.1, 0)
    (mid.1, st.2 + fdtd.dx)) (fdtd, 0)).1

/-- The function `add_source_fdtd_3D`; `realloc` keeps the entries already stored. -/
def add_source_fdtd_3D (sType : source_type) (fdtd : fdtd3D) (src : fdtd_source)
    (positionX positionY positionZ : ℚ) : fdtd3D :=
  let posX : Int := ⌈positionX / fdtd.dx⌉
  let posY : Int := ⌈positionY / fdtd.dy⌉
  let posZ : Int := ⌈positionZ / fdtd.dz⌉
  match sType with
  | source_type.source_electric =>
    let fdtd := { fdtd with num_Jsources := unsigned_add fdtd.num_Jsources 1 }
    let last := unsigned_sub fdtd.num_Jsources 1
    let fdtd := { fdtd with JsourceLocations := store fdtd.JsourceLocations (last, 0) (to_uintmax posX) }
    let fdtd := { fdtd with JsourceLocations := store fdtd.JsourceLocations (last, 1) (to_uintmax posY) }
    let fdtd := { fdtd with JsourceLocations := store fdtd.JsourceLocations (last, 2) (to_uintmax posZ) }
    { fdtd with Jsources := store fdtd.Jsources last src }
  | source_type.source_magnetic =>
    let fdtd := { fdtd with num_Msources := unsigned_add fdtd.num_Msources 1 }
    let last := unsigned_sub fdtd.num_Msources 1
    let fdtd := { fdtd with MsourceLocations := store fdtd.MsourceLocations (last, 0) (to_uintmax posX) }
    let fdtd := { fdtd with MsourceLocations := store fdtd.MsourceLocations (last, 1) (to_uintmax posY) }
    let fdtd := { fdtd with MsourceLocations := store fdtd.MsourceLocations (last, 2) (to_uintmax posZ) }
    { fdtd with Msources := store fdtd.Msources last src }

end D3

/-! ## Medium callbacks with a user object -/

/-- The two callbacks of a medium initialisation. -/
inductive medium_quantity where
  | permeability
  | permittivity
  deriving DecidableEq

/-- One call of a medium callback: the callback and the position it was given. -/
structure medium_call where
  quantity : medium_quantity
  position : List ℚ
  deriving DecidableEq

/-- The function `init_fdtd_1D_medium` for callbacks that use the object behind the
pointer `user`: a callback maps a position and the state of that object to the value
it returns and the state after the call. -/
def D1.init_fdtd_1D_medium_user {υ : Type}
    (permeability_invR permittivity_invR : ℚ → υ → ℚ × υ) (user : υ) (fdtd : D1.fdtd1D) :
    D1.fdtd1D × υ :=
  (forLoop 0 fdtd.sizeX (fun i (st : (D1.fdtd1D × υ) × ℚ) =>
    let r := permeability_invR st.2 st.1.2
    let v := 1 / (r.1 * mu0)
    let s := { st.1.1 with permeability_inv := store st.1.1.permeability_inv i v }
    let r2 := permittivity_invR st.2 r.2
    let w := 1 / (r2.1 * eps0)
    let s := { s with permittivity_inv := store s.permittivity_inv i w }
    ((s, r2.2), st.2 + fdtd.dx)) ((fdtd, user), 0)).1

/-- The function `init_fdtd_2D_medium` for callbacks that use the object behind the
pointer `user`. -/
def D2.init_fdtd_2D_medium_user {υ : Type}
    (permeability_invR permittivity_invR : ℚ → ℚ → υ → ℚ × υ) (user : υ)
    (fdtd : D2.fdtd2D) : D2.fdtd2D × υ :=
  (forLoop 0 fdtd.sizeX (fun i (st : (D2.fdtd2D × υ) × ℚ) =>
    let inner := forLoop 0 fdtd.sizeY (fun j (su : (D2.fdtd2D × υ) × ℚ) =>
      let r := permeability_invR st.2 su.2 su.1.2
      let v := 1 / (r.1 * mu0)
      let s := { su.1.1 with permeability_inv := store su.1.1.permeability_inv (i, j) v }
      let r2 := permittivity_invR st.2 su.2 r.2
      let w := 1 / (r2.1 * eps0)
      let s := { s with permittivity_inv := store s.permittivity_inv (i, j) w }
      ((s, r2.2), su.2 + fdtd.dy)) (st.1, 0)
    (inner.1, st.2 + fdtd.dx)) ((fdtd, user), 0)).1

/-- The function `init_fdtd_3D_medium` for callbacks that use the object behind the
pointer `user`. -/
def D3.init_fdtd_3D_medium_user {υ : Type}
    (permeability_invR permittivity_invR : ℚ → ℚ → ℚ → υ → ℚ × υ) (user : υ)
    (fdtd : D3.fdtd3D) : D3.fdtd3D × υ :=
  (forLoop 0 fdtd.sizeX (fun i (st : (D3.fdtd3D × υ) × ℚ) =>
    let mid := forLoop 0 fdtd.sizeY (fun j (su : (D3.fdtd3D × υ) × ℚ) =>
      let inner := forLoop 0 fdtd.sizeZ (fun k (sv : (D3.fdtd3D × υ) × ℚ) =>
        let r := permeability_invR st.2 su.2 sv.2 sv.1.2
        let v := 1 / (r.1 * mu0)
        let s := { sv.1.1 with permeability_inv := store sv.1.1.permeability_inv (i, j, k) v }
        let r2 := permittivity_invR st.2 su.2 sv.2 r.2
        let w := 1 / (r2.1 * eps0)
        let s := { s with permittivity_inv := store s.permittivity_inv (i, j, k) w }
        ((s, r2.2), sv.2 + fdtd.dz)) (su.1, 0)
      (inner.1, su.2 + fdtd.dy)) (st.1, 0)
    (mid.1, st.2 + fdtd.dx)) ((fdtd, user), 0)).1

/-- A 1D callback that returns `f` of the position and appends its call to the list
kept in the user object. -/
def D1.log_call (q : medium_quantity) (f : ℚ → ℚ) :
    ℚ → List medium_call → ℚ × List medium_call :=
  fun x l => (f x, l ++ [⟨q, [x]⟩])

/-- A 2D callback that returns `f` of the position and appends its call to the list
kept in the user object. -/
def D2.log_call (q : medium_quantity) (f : ℚ → ℚ → ℚ) :
    ℚ → ℚ → List medium_call → ℚ × List medium_call :=
  fun x y l => (f x y, l ++ [⟨q, [x, y]⟩])

/-- A 3D callback that returns `f` of the position and appends its call to the list
kept in the user object. -/
def D3.log_call (q : medium_quantity) (f : ℚ → ℚ → ℚ → ℚ) :
    ℚ → ℚ → ℚ → List medium_call → ℚ × List medium_call :=
  fun x y z l => (f x y z, l ++ [⟨q, [x, y, z]⟩])

/-! ## Messages of the constructors and dumps -/

/-- A line written to `stderr` by a constructor: the stability warning, which prints
`Sc_max`, or the closing report, which prints the time step, the spacings and the
rounded sizes. -/
inductive stderr_line where
  | stability_warning (Sc_max : ℚ)
  | grid_report (values : List ℚ)
  deriving DecidableEq

/-- The lines that `init_fdtd_1D` writes to `stderr`. -/
def D1.init_fdtd_1D_stderr (domain_size Sc smallest_wavelength : ℚ) : List stderr_line :=
  let dx := smallest_wavelength / 20
  let dt := dx * Sc / c_light
  let sizeXf : Int := ⌈domain_size / dx⌉
  [stderr_line.grid_report [dt, dx, (sizeXf : ℚ)]]

/-- The lines that `init_fdtd_2D_cpml` writes to `stderr`. -/
def D2.init_fdtd_2D_cpml_stderr (ext : Extern) (domain_size : Nat → ℚ)
    (Sc smallest_wavelength : ℚ) : List stderr_line :=
  let dx := smallest_wavelength / 20
  let dy := dx
  let dt := dx * Sc / c_light
  let sizeXf : Int := ⌊domain_size 0 / dx⌋
  let sizeYf : Int := ⌊domain_size 1 / dy⌋
  let Sc_max := 1 / ext.sqrt 2
  (if Sc > Sc_max then [stderr_line.stability_warning Sc_max] else []) ++
    [stderr_line.grid_report [dt, dx, dy, (sizeXf : ℚ), (sizeYf : ℚ)]]

/-- The lines that `init_fdtd_3D_cpml` writes to `stderr`. -/
def D3.init_fdtd_3D_cpml_stderr (ext : Extern) (domain_size : Nat → ℚ)
    (Sc smallest_wavelength : ℚ) : List stderr_line :=
  let dx := smallest_wavelength / 20
  let dy := dx
  let dz := dx
  let dt := dx * Sc / c_light
  let sizeXf : Int := ⌈domain_size 0 / dx⌉
  let sizeYf : Int := ⌈domain_size 1 / dy⌉
  let sizeZf : Int := ⌈domain_size 2 / dy⌉
  let Sc_max := 1 / ext.sqrt 3
  (if Sc > Sc_max then [stderr_line.stability_warning Sc_max] else []) ++
    [stderr_line.grid_report [dt, dx, dy, dz, (sizeXf : ℚ), (sizeYf : ℚ), (sizeZf : ℚ)]]

/-- The enumeration `dumpable_data`. -/
inductive dumpable_data where
  | dump_ex
  | dump_ey
  | dump_ez
  | dump_hx
  | dump_hy
  | dump_hz
  | dump_permittivity
  | dump_permeability
  | num_dumpable_data
  deriving DecidableEq

/-- The function `dump_1D_fdtd`: the lines written to the file, each line the list of
the numbers printed; `none` is the call of `exit(EXIT_FAILURE)`. -/
def D1.dump_1D_fdtd (fdtd : D1.fdtd1D) (what_to_dump : dumpable_data) :
    Option (List (List ℚ)) :=
  let write := fun (array : Arr1) =>
    some (forLoop 0 fdtd.sizeX (fun i (out : List (List ℚ)) =>
      out ++ [[(i : ℚ) * fdtd.dx, array i]]) [])
  match what_to_dump with
  | dumpable_data.dump_ez => write fdtd.ez
  | dumpable_data.dump_hy => write fdtd.hy
  | dumpable_data.dump_permeability => write fdtd.permeability_inv
  | dumpable_data.dump_permittivity => write fdtd.permittivity_inv
  | _ => none

/-- The function `dump_2D_fdtd`; `data` is initialised with `fdtd->ez`. -/
def D2.dump_2D_fdtd (fdtd : D2.fdtd2D) (what_to_dump : dumpable_data) :
    Option (List (List ℚ)) :=
  let write := fun (data : Arr2) =>
    some (forLoop 0 fdtd.sizeX (fun i (out : List (List ℚ)) =>
      forLoop 1 fdtd.sizeY (fun j (out : List (List ℚ)) =>
        out ++ [[(i : ℚ) * fdtd.dx, (j : ℚ) * fdtd.dy, data (i, j)]]) out) [])
  match what_to_dump with
  | dumpable_data.dump_ez => write fdtd.ez
  | dumpable_data.dump_hx => write fdtd.hx
  | dumpable_data.dump_hy => write fdtd.hy
  | dumpable_data.dump_permeability => write fdtd.permeability_inv
  | dumpable_data.dump_permittivity => write fdtd.permittivity_inv
  | _ => none

/-- The function `dump_3D_fdtd`; `data` is initialised with `fdtd->ez`, and the case
`dump_ex` leaves it as it is. -/
def D3.dump_3D_fdtd (fdtd : D3.fdtd3D) (what_to_dump : dumpable_data) :
    Option (List (List ℚ)) :=
  let write := fun (data : Arr3) =>
    some (forLoop 0 fdtd.sizeX (fun i (out : List (List ℚ)) =>
      forLoop 1 fdtd.sizeY (fun j (out : List (List ℚ)) =>
        forLoop 1 fdtd.sizeZ (fun k (out : List (List ℚ)) =>
          out ++ [[(i : ℚ) * fdtd.dx, (j : ℚ) * fdtd.dy, (k : ℚ) * fdtd.dt, data (i, j, k)]])
          out) out) [])
  match what_to_dump with
  | dumpable_data.dump_ex => write fdtd.ez
  | dumpable_data.dump_ey => write fdtd.ey
  | dumpable_data.dump_ez => write fdtd.ez
  | dumpable_data.dump_hx => write fdtd.hx
  | dumpable_data.dump_hy => write fdtd.hy
  | dumpable_data.dump_hz => write fdtd.hz
  | dumpable_data.dump_permeability => write fdtd.permeability_inv
  | dumpable_data.dump_permittivity => write fdtd.permittivity_inv
  | _ => none

/-! ## Definitions used to state the specification -/

/-- The CPML recursion of one face for one field component, as the
specification words it.  For every index `k` of the slab `box`, the auxiliary
value becomes `b (layer k) * psi_old k + c (layer k) * deriv k`, where `deriv k`
is the two-point difference of the paired field divided by the spacing; the
field cell `cell k` changes by `sgn * dt * mat (cell k) * psi_new k`; auxiliary
values outside the slab and field cells that are no `cell k` keep their value. -/
def cpml_face_spec {κ : Type} (box : κ → Prop) (layer : κ → Nat) (cell : κ → κ)
    (b c : Arr1) (deriv : κ → ℚ) (sgn dt : ℚ) (mat : κ → ℚ)
    (psi_old psi_new fld_old fld_new : κ → ℚ) : Prop :=
  (∀ k, box k → psi_new k = b (layer k) * psi_old k + c (layer k) * deriv k) ∧
  (∀ k, ¬ box k → psi_new k = psi_old k) ∧
  (∀ k, box k → fld_new (cell k) = fld_old (cell k) + sgn * dt * mat (cell k) * psi_new k) ∧
  (∀ y, (∀ k, box k → cell k ≠ y) → fld_new y = fld_old y)

namespace D3

/-- Forward two-point difference of `f` along x at the cell `c`, divided by `h`. -/
def fwd_x (f : Arr3) (h : ℚ) (c : Nat × Nat × Nat) : ℚ := (f (c.1 + 1, c.2.1, c.2.2) - f c) / h

/-- Forward two-point difference of `f` along y at the cell `c`, divided by `h`. -/
def fwd_y (f : Arr3) (h : ℚ) (c : Nat × Nat × Nat) : ℚ := (f (c.1, c.2.1 + 1, c.2.2) - f c) / h

/-- Forward two-point difference of `f` along z at the cell `c`, divided by `h`. -/
def fwd_z (f : Arr3) (h : ℚ) (c : Nat × Nat × Nat) : ℚ := (f (c.1, c.2.1, c.2.2 + 1) - f c) / h

/-- Backward two-point difference of `f` along x at the cell `c`, divided by `h`. -/
def bwd_x (f : Arr3) (h : ℚ) (c : Nat × Nat × Nat) : ℚ := (f c - f (c.1 - 1, c.2.1, c.2.2)) / h

/-- Backward two-point difference of `f` along y at the cell `c`, divided by `h`. -/
def bwd_y (f : Arr3) (h : ℚ) (c : Nat × Nat × Nat) : ℚ := (f c - f (c.1, c.2.1 - 1, c.2.2)) / h

/-- Backward two-point difference of `f` along z at the cell `c`, divided by `h`. -/
def bwd_z (f : Arr3) (h : ℚ) (c : Nat × Nat × Nat) : ℚ := (f c - f (c.1, c.2.1, c.2.2 - 1)) / h

/-- The discrete curl of the electric field built from forward differences:
components x, y, z. -/
def curl_fwd (g : fdtd3D) (c : Nat × Nat × Nat) : ℚ × ℚ × ℚ :=
  (fwd_y g.ez g.dy c - fwd_z g.ey g.dz c,
   fwd_z g.ex g.dz c - fwd_x g.ez g.dx c,
   fwd_x g.ey g.dx c - fwd_y g.ex g.dy c)

/-- The discrete curl of the magnetic field built from backward differences:
components x, y, z. -/
def curl_bwd (g : fdtd3D) (c : Nat × Nat × Nat) : ℚ × ℚ × ℚ :=
  (bwd_y g.hz g.dy c - bwd_z g.hy g.dz c,
   bwd_z g.hx g.dz c - bwd_x g.hz g.dx c,
   bwd_x g.hy g.dx c - bwd_y g.hx g.dy c)

/-- A coordinate axis; it also names the field component directed along it. -/
inductive Axis where
  | x
  | y
  | z
  deriving DecidableEq

/-- The sign of the derivative along `ax` in the component `comp` of a curl:
`(curl F)_x = d/dy F_z - d/dz F_y` and cyclically; `0` when the component has no
derivative along `ax`. -/
def curl_sign : Axis → Axis → ℚ
  | Axis.x, Axis.y => 1
  | Axis.x, Axis.z => -1
  | Axis.y, Axis.z => 1
  | Axis.y, Axis.x => -1
  | Axis.z, Axis.x => 1
  | Axis.z, Axis.y => -1
  | _, _ => 0

/-- The component that the curl component `comp` differentiates along `ax`. -/
def curl_partner : Axis → Axis → Axis
  | Axis.x, Axis.y => Axis.z
  | Axis.x, Axis.z => Axis.y
  | Axis.y, Axis.z => Axis.x
  | Axis.y, Axis.x => Axis.z
  | Axis.z, Axis.x => Axis.y
  | Axis.z, Axis.y => Axis.x
  | comp, _ => comp

/-- The electric field component directed along an axis. -/
def E_field (g : fdtd3D) : Axis → Arr3
  | Axis.x => g.ex
  | Axis.y => g.ey
  | Axis.z => g.ez

/-- The magnetic field component directed along an axis. -/
def H_field (g : fdtd3D) : Axis → Arr3
  | Axis.x => g.hx
  | Axis.y => g.hy
  | Axis.z => g.hz

/-- The grid spacing along an axis. -/
def spacing (g : fdtd3D) : Axis → ℚ
  | Axis.x => g.dx
  | Axis.y => g.dy
  | Axis.z => g.dz

/-- The number of cells along an axis. -/
def size (g : fdtd3D) : Axis → Nat
  | Axis.x => g.sizeX
  | Axis.y => g.sizeY
  | Axis.z => g.sizeZ

/-- Forward two-point difference along an axis. -/
def fwd : Axis → Arr3 → ℚ → Nat × Nat × Nat → ℚ
  | Axis.x => fwd_x
  | Axis.y => fwd_y
  | Axis.z => fwd_z

/-- Backward two-point difference along an axis. -/
def bwd : Axis → Arr3 → ℚ → Nat × Nat × Nat → ℚ
  | Axis.x => bwd_x
  | Axis.y => bwd_y
  | Axis.z => bwd_z

/-- The derivative along `ax` that enters the update stencil of the electric
component `comp` at the cell `c`: a backward difference of a magnetic component. -/
def E_stencil_term (g : fdtd3D) (comp ax : Axis) (c : Nat × Nat × Nat) : ℚ :=
  bwd ax (H_field g (curl_partner comp ax)) (spacing g ax) c

/-- The derivative along `ax` that enters the update stencil of the magnetic
component `comp` at the cell `c`: a forward difference of an electric component. -/
def H_stencil_term (g : fdtd3D) (comp ax : Axis) (c : Nat × Nat × Nat) : ℚ :=
  fwd ax (E_field g (curl_partner comp ax)) (spacing g ax) c

/-- The face normal to `ax`: the one at index 0 (`far = false`) or the one at the
largest index (`far = true`). -/
def cpml_face : Axis → Bool → Nat
  | Axis.x, false => border_bottom
  | Axis.x, true => border_top
  | Axis.y, false => border_left
  | Axis.y, true => border_right
  | Axis.z, false => border_front
  | Axis.z, true => border_back

/-- The index range of the auxiliary arrays of the faces normal to `ax`. -/
def cpml_box (g : fdtd3D) : Axis → Nat × Nat × Nat → Prop
  | Axis.x => inBox3 0 g.cpml_thickness 0 g.sizeY 0 g.sizeZ
  | Axis.y => inBox3 0 g.sizeX 0 g.cpml_thickness 0 g.sizeZ
  | Axis.z => inBox3 0 g.sizeX 0 g.sizeY 0 g.cpml_thickness

/-- The layer index of an auxiliary index, counted from the outer wall. -/
def cpml_layer : Axis → Nat × Nat × Nat → Nat
  | Axis.x => fun k => k.1
  | Axis.y => fun k => k.2.1
  | Axis.z => fun k => k.2.2

/-- The electric cell corrected through the auxiliary index `k` of a face. -/
def cpml_cell_E (g : fdtd3D) : Axis → Bool → Nat × Nat × Nat → Nat × Nat × Nat
  | Axis.x, false => fun k => (1 + k.1, k.2.1, k.2.2)
  | Axis.x, true => fun k => (g.sizeX - 1 - k.1, k.2.1, k.2.2)
  | Axis.y, false => fun k => (k.1, 1 + k.2.1, k.2.2)
  | Axis.y, true => fun k => (k.1, g.sizeY - 1 - k.2.1, k.2.2)
  | Axis.z, false => fun k => (k.1, k.2.1, 1 + k.2.2)
  | Axis.z, true => fun k => (k.1, k.2.1, g.sizeZ - 1 - k.2.2)

/-- The magnetic cell corrected through the auxiliary index `k` of a face. -/
def cpml_cell_H (g : fdtd3D) : Axis → Bool → Nat × Nat × Nat → Nat × Nat × Nat
  | Axis.x, false => fun k => (k.1, k.2.1, k.2.2)
  | Axis.x, true => fun k => (g.sizeX - 2 - k.1, k.2.1, k.2.2)
  | Axis.y, false => fun k => (k.1, k.2.1, k.2.2)
  | Axis.y, true => fun k => (k.1, g.sizeY - 2 - k.2.1, k.2.2)
  | Axis.z, false => fun k => (k.1, k.2.1, k.2.2)
  | Axis.z, true => fun k => (k.1, k.2.1, g.sizeZ - 2 - k.2.2)

/-- The auxiliary array of the electric component `comp` for the face normal to
`ax` (members `psi_ex_y[0..1]`, ... of `struct fdtd3D`); there is none when
`ax = comp`. -/
def psi_E (g : fdtd3D) : Axis → Axis → Bool → Arr3
  | Axis.x, Axis.y, false => g.psi_ex_left
  | Axis.x, Axis.y, true => g.psi_ex_right
  | Axis.x, Axis.z, false => g.psi_ex_front
  | Axis.x, Axis.z, true => g.psi_ex_back
  | Axis.y, Axis.x, false => g.psi_ey_bottom
  | Axis.y, Axis.x, true => g.psi_ey_top
  | Axis.y, Axis.z, false => g.psi_ey_front
  | Axis.y, Axis.z, true => g.psi_ey_back
  | Axis.z, Axis.x, false => g.psi_ez_bottom
  | Axis.z, Axis.x, true => g.psi_ez_top
  | Axis.z, Axis.y, false => g.psi_ez_left
  | Axis.z, Axis.y, true => g.psi_ez_right
  | _, _, _ => fun _ => 0

/-- The auxiliary array of the magnetic component `comp` for the face normal to
`ax` (members `psi_hx_y[0..1]`, ... of `struct fdtd3D`); there is none when
`ax = comp`. -/
def psi_H (g : fdtd3D) : Axis → Axis → Bool → Arr3
  | Axis.x, Axis.y, false => g.psi_hx_left
  | Axis.x, Axis.y, true => g.psi_hx_right
  | Axis.x, Axis.z, false => g.psi_hx_front
  | Axis.x, Axis.z, true => g.psi_hx_back
  | Axis.y, Axis.x, false => g.psi_hy_bottom
  | Axis.y, Axis.x, true => g.psi_hy_top
  | Axis.y, Axis.z, false => g.psi_hy_front
  | Axis.y, Axis.z, true => g.psi_hy_back
  | Axis.z, Axis.x, false => g.psi_hz_bottom
  | Axis.z, Axis.x, true => g.psi_hz_top
  | Axis.z, Axis.y, false => g.psi_hz_left
  | Axis.z, Axis.y, true => g.psi_hz_right
  | _, _, _ => fun _ => 0

/-- The block of `update_electric_cpml` for a face. -/
def cpml_block_E : Axis → Bool → fdtd3D → fdtd3D
  | Axis.x, false => update_electric_cpml_bottom
  | Axis.x, true => update_electric_cpml_top
  | Axis.y, false => update_electric_cpml_left
  | Axis.y, true => update_electric_cpml_right
  | Axis.z, false => update_electric_cpml_front
  | Axis.z, true => update_electric_cpml_back

/-- The block of `update_magnetic_cpml` for a face. -/
def cpml_block_H : Axis → Bool → fdtd3D → fdtd3D
  | Axis.x, false => update_magnetic_cpml_bottom
  | Axis.x, true => update_magnetic_cpml_top
  | Axis.y, false => update_magnetic_cpml_left
  | Axis.y, true => update_magnetic_cpml_right
  | Axis.z, false => update_magnetic_cpml_front
  | Axis.z, true => update_magnetic_cpml_back

end D3

/-! ## The driver (`main.c`) -/

/-- The end time that `main` passes to `run_fdtd`: the requested end time when it
is positive, otherwise `num_iterations` time steps. -/
def main_stop_time (end_time : ℚ) (num_iterations : Nat) (time_step : ℚ) : ℚ :=
  if end_time > 0 then end_time else (num_iterations : ℚ) * time_step

/-- The number of iterations the specification gives to the run loop started at time
`t0`: `max(0, ceil((end_time - t0) / dt))`. -/
def iteration_count (t0 end_time dt : ℚ) : Nat :=
  (max 0 ⌈(end_time - t0) / dt⌉).toNat

/-- What the specification says of a run loop `run` (with a fuel argument) started
on the grid `g`, where `iteration` is one pass of the loop: with enough fuel the
loop returns the grid after exactly `iteration_count` iterations, its condition
holds before each of them, the final time is `t0 + n * dt` and is not below
`end_time`; no iteration is performed when `t0 >= end_time`; and started at time 0
in the iteration-count mode of `main` the count is the requested number. -/
def run_loop_spec {σ : Type} (run : Nat → σ → ℚ → Option σ) (iteration : σ → σ)
    (time dt : σ → ℚ) (g : σ) (end_time : ℚ) : Prop :=
  (∀ fuel, iteration_count (time g) end_time (dt g) ≤ fuel →
    run fuel g end_time = some (iteration^[iteration_count (time g) end_time (dt g)] g)) ∧
  (∀ k, k < iteration_count (time g) end_time (dt g) → time (iteration^[k] g) < end_time) ∧
  time (iteration^[iteration_count (time g) end_time (dt g)] g) =
    time g + (iteration_count (time g) end_time (dt g) : ℚ) * dt g ∧
  end_time ≤ time (iteration^[iteration_count (time g) end_time (dt g)] g) ∧
  (end_time ≤ time g →
    iteration_count (time g) end_time (dt g) = 0 ∧ ∀ fuel, run fuel g end_time = some g) ∧
  (time g = 0 → ∀ (requested : ℚ) (n : Nat), requested ≤ 0 →
    iteration_count (time g) (main_stop_time requested n (dt g)) (dt g) = n ∧
    ∀ fuel, n ≤ fuel → run fuel g (main_stop_time requested n (dt g)) = some (iteration^[n] g))

/-- Every location stored in the two source lists of a 2D grid is a cell index of the
`sizeX` x `sizeY` arrays. -/
def D2.sources_in_bounds (g : D2.fdtd2D) : Prop :=
  (∀ i, i < g.num_Jsources →
    g.JsourceLocations (i, 0) < g.sizeX ∧ g.JsourceLocations (i, 1) < g.sizeY) ∧
  (∀ i, i < g.num_Msources →
    g.MsourceLocations (i, 0) < g.sizeX ∧ g.MsourceLocations (i, 1) < g.sizeY)

/-- The 1D grid whose two source lists are read through `sJ` and `sM`: entry `i` of
the electric list (descriptor and location) is entry `sJ i` of the list of `g`, and
likewise for the magnetic list. -/
def D1.permute_sources (sJ sM : Nat → Nat) (g : D1.fdtd1D) : D1.fdtd1D :=
  { g with
    Jsources := fun i => g.Jsources (sJ i),
    JsourceLocations := fun i => g.JsourceLocations (sJ i),
    Msources := fun i => g.Msources (sM i),
    MsourceLocations := fun i => g.MsourceLocations (sM i) }

/-- The 2D grid whose two source lists are read through `sJ` and `sM` (descriptors
together with both coordinates of their locations). -/
def D2.permute_sources (sJ sM : Nat → Nat) (g : D2.fdtd2D) : D2.fdtd2D :=
  { g with
    Jsources := fun i => g.Jsources (sJ i),
    JsourceLocations := fun p => g.JsourceLocations (sJ p.1, p.2),
    Msources := fun i => g.Msources (sM i),
    MsourceLocations := fun p => g.MsourceLocations (sM p.1, p.2) }

/-- The 3D grid whose two source lists are read through `sJ` and `sM` (descriptors
together with the three coordinates of their locations). -/
def D3.permute_sources (sJ sM : Nat → Nat) (g : D3.fdtd3D) : D3.fdtd3D :=
  { g with
    Jsources := fun i => g.Jsources (sJ i),
    JsourceLocations := fun p => g.JsourceLocations (sJ p.1, p.2),
    Msources := fun i => g.Msources (sM i),
    MsourceLocations := fun p => g.MsourceLocations (sM p.1, p.2) }

/-- A 2D grid with the array `ez` and the count of `drand48` calls blanked: what is
left are the members that the `ez` pass of the update has no business changing. -/
def D2.fdtd2D.besides_ez (g : D2.fdtd2D) : D2.fdtd2D :=
  { g with ez := fun _ => 0, rand_calls := 0 }

/-- A 2D grid with the array `hx` and the count of `drand48` calls blanked. -/
def D2.fdtd2D.besides_hx (g : D2.fdtd2D) : D2.fdtd2D :=
  { g with hx := fun _ => 0, rand_calls := 0 }

/-- A 2D grid with the array `hy` and the count of `drand48` calls blanked. -/
def D2.fdtd2D.besides_hy (g : D2.fdtd2D) : D2.fdtd2D :=
  { g with hy := fun _ => 0, rand_calls := 0 }

/-- A 2D grid with the arrays `hx`, `hy` and the count of `drand48` calls blanked. -/
def D2.fdtd2D.besides_h (g : D2.fdtd2D) : D2.fdtd2D :=
  { g with hx := fun _ => 0, hy := fun _ => 0, rand_calls := 0 }

/-- The contract of `qsort` used here: every record of the sorted array is a record
of the array it was given. -/
def qsort_keeps_records (ext : Extern) : Prop :=
  ∀ (cmp : dataPosDeviation → dataPosDeviation → Int) (l : List dataPosDeviation)
    (x : dataPosDeviation), x ∈ ext.qsort cmp l → x ∈ l

/-- The plain Yee update of `ez` in 2D, as the specification words it:
`ez[i][j] += ((hy[i][j] - hy[i-1][j]) / dx - (hx[i][j] - hx[i][j-1]) / dy) * dt *
permittivity_inv[i][j]` for `i, j >= 1`. -/
def D2.yee_ez (g : D2.fdtd2D) : Arr2 :=
  fun x =>
    if 1 ≤ x.1 ∧ x.1 < g.sizeX ∧ 1 ≤ x.2 ∧ x.2 < g.sizeY then
      g.ez x + ((g.hy x - g.hy (x.1 - 1, x.2)) / g.dx - (g.hx x - g.hx (x.1, x.2 - 1)) / g.dy) *
        g.dt * g.permittivity_inv x
    else g.ez x

/-- The plain Yee update of `hx` in 2D, as the specification words it:
`hx[i][j] += (ez[i][j] - ez[i][j+1]) / dy * dt * permeability_inv[i][j]` for
`i < sizeX - 1`, `j < sizeY - 1`. -/
def D2.yee_hx (g : D2.fdtd2D) : Arr2 :=
  fun x =>
    if x.1 < g.sizeX - 1 ∧ x.2 < g.sizeY - 1 then
      g.hx x + (g.ez x - g.ez (x.1, x.2 + 1)) / g.dy * g.dt * g.permeability_inv x
    else g.hx x

/-- The plain Yee update of `hy` in 2D, as the specification words it:
`hy[i][j] += (ez[i+1][j] - ez[i][j]) / dx * dt * permeability_inv[i][j]` for
`i < sizeX - 1`, `j < sizeY - 1`. -/
def D2.yee_hy (g : D2.fdtd2D) : Arr2 :=
  fun x =>
    if x.1 < g.sizeX - 1 ∧ x.2 < g.sizeY - 1 then
      g.hy x + (g.ez (x.1 + 1, x.2) - g.ez x) / g.dx * g.dt * g.permeability_inv x
    else g.hy x

/-- The experimental modes of the 2D kernel are off: `sort_skip` and `interpolate`
are false and `rand_skip_percent` is not positive. -/
structure Globals.off (glob : Globals) : Prop where
  sort_skip : glob.sort_skip = false
  interpolate : glob.interpolate = false
  rand_skip_percent : glob.rand_skip_percent ≤ 0

/-- The total field energy of a 1D grid as the specification words it: the sum over
the cells of `(E^2 / permittivity_inv + H^2 / permeability_inv) / 2`. -/
def D1.field_energy (g : D1.fdtd1D) : ℚ :=
  ∑ i in Finset.range g.sizeX,
    (g.ez i ^ 2 / g.permittivity_inv i + g.hy i ^ 2 / g.permeability_inv i) / 2

/-- The energy of a 1D grid that accounts for the half step between `ez` and `hy`:
the total field energy plus `dt / (2 dx)` times the sum of
`hy[i] * (ez[i+1] - ez[i])` over `i < sizeX - 1`. -/
def D1.leapfrog_energy (g : D1.fdtd1D) : ℚ :=
  D1.field_energy g +
    g.dt / g.dx / 2 * ∑ i in Finset.range (g.sizeX - 1), g.hy i * (g.ez (i + 1) - g.ez i)

/-- A face of a 1D grid is a conductor wall at rest: it is flagged perfect electric
conductor and `ez` is 0 on its cell, or it is flagged perfect magnetic conductor and
`hy` is 0 on its cell. -/
def D1.wall_at_rest (g : D1.fdtd1D) (face cell : Nat) : Prop :=
  (g.border_condition face = border_perfect_electric_conductor ∧ g.ez cell = 0) ∨
  (g.border_condition face = border_perfect_magnetic_conductor ∧ g.hy cell = 0)

/-! ## Concrete inputs -/

/-- An instance of the library functions, used to evaluate the solver on
concrete grids. -/
def sample_extern : Extern :=
  { exp := fun _ => 1, pow := fun x _ => x, sqrt := fun x => x, drand48 := fun _ => 0,
    qsort := fun _ l => l }

/-- The experimental globals switched off. -/
def sample_globals : Globals :=
  { rand_skip_percent := 0, sort_skip := false, interpolate := false }

/-- A 1D grid of 4 cells with every field value 1 and the given border flags. -/
def D1.sample_grid (borders : Nat → Nat) : D1.fdtd1D :=
  { dx := 1, dt := 1 / 2, ez := fun _ => 1, hy := fun _ => 1,
    permittivity_inv := fun _ => 1, permeability_inv := fun _ => 1,
    border_condition := borders, domain_size := 4, sizeX := 4, Sc := 1 / 2,
    num_Jsources := 0, Jsources := fun _ => gaussian_source 0 1 0, JsourceLocations := fun _ => 0,
    num_Msources := 0, Msources := fun _ => gaussian_source 0 1 0, MsourceLocations := fun _ => 0,
    time := 0 }

/-- A closed 1D cavity of 4 cells: both faces flagged perfect electric conductor,
unit materials, no source, `ez = 0` everywhere and `hy = 1` on cell 1 only. -/
def D1.sample_cavity : D1.fdtd1D :=
  { D1.sample_grid (fun _ => border_perfect_electric_conductor) with
    ez := fun _ => 0, hy := fun i => if i = 1 then 1 else 0 }

/-- A 2D grid of 4 x 4 cells with CPML thickness 1, every field value 1 and the
given border flags. -/
def D2.sample_grid (borders : Nat → Nat) : D2.fdtd2D :=
  { dx := 1, dy := 1, dt := 1 / 2, ez := fun _ => 1, hx := fun _ => 1, hy := fun _ => 1,
    permittivity_inv := fun _ => 1, permeability_inv := fun _ => 1,
    psi_hx_west := fun _ => 0, psi_hx_east := fun _ => 0,
    psi_hy_south := fun _ => 0, psi_hy_north := fun _ => 0,
    psi_ez_south := fun _ => 0, psi_ez_north := fun _ => 0,
    psi_ez_east := fun _ => 0, psi_ez_west := fun _ => 0,
    bx := fun _ => 1 / 2, cx := fun _ => -1 / 4, cpml_thickness := 1,
    border_condition := borders, domain_size := fun _ => 4, sizeX := 4, sizeY := 4,
    Sc := 1 / 2,
    num_Jsources := 0, Jsources := fun _ => gaussian_source 0 1 0, JsourceLocations := fun _ => 0,
    num_Msources := 0, Msources := fun _ => gaussian_source 0 1 0, MsourceLocations := fun _ => 0,
    time := 0, rand_calls := 0 }

/-- A 3D grid of 3 x 3 x 3 cells with CPML thickness 1, every field value 1 and
the given border flags. -/
def D3.sample_grid (borders : Nat → Nat) : D3.fdtd3D :=
  { dx := 1, dy := 1, dz := 1, dt := 1 / 2,
    hx := fun _ => 1, hy := fun _ => 1, hz := fun _ => 1,
    ex := fun _ => 1, ey := fun _ => 1, ez := fun _ => 1,
    permittivity_inv := fun _ => 1, permeability_inv := fun _ => 1,
    psi_hx_left := fun _ => 0, psi_hx_right := fun _ => 0,
    psi_hx_front := fun _ => 0, psi_hx_back := fun _ => 0,
    psi_hy_bottom := fun _ => 0, psi_hy_top := fun _ => 0,
    psi_hy_front := fun _ => 0, psi_hy_back := fun _ => 0,
    psi_hz_bottom := fun _ => 0, psi_hz_top := fun _ => 0,
    psi_hz_left := fun _ => 0, psi_hz_right := fun _ => 0,
    psi_ex_left := fun _ => 0, psi_ex_right := fun _ => 0,
    psi_ex_front := fun _ => 0, psi_ex_back := fun _ => 0,
    psi_ey_bottom := fun _ => 0, psi_ey_top := fun _ => 0,
    psi_ey_front := fun _ => 0, psi_ey_back := fun _ => 0,
    psi_ez_bottom := fun _ => 0, psi_ez_top := fun _ => 0,
    psi_ez_left := fun _ => 0, psi_ez_right := fun _ => 0,
    bx := fun _ => 1 / 2, cx := fun _ => -1 / 4, cpml_thickness := 1,
    border_condition := borders, domain_size := fun _ => 3,
    sizeX := 3, sizeY := 3, sizeZ := 3, Sc := 1 / 2,
    num_Jsources := 0, Jsources := fun _ => gaussian_source 0 1 0, JsourceLocations := fun _ => 0,
    num_Msources := 0, Msources := fun _ => gaussian_source 0 1 0, MsourceLocations := fun _ => 0,
    time := 0 }

/-- The 2D sample grid with every face flagged CPML and `cpml_thickness = 0`. -/
def D2.sample_no_cpml : D2.fdtd2D :=
  { D2.sample_grid (fun _ => border_cpml) with cpml_thickness := 0 }

/-- The 3D sample grid with every face flagged CPML and `cpml_thickness = 0`. -/
def D3.sample_no_cpml : D3.fdtd3D :=
  { D3.sample_grid (fun _ => border_cpml) with cpml_thickness := 0 }

/-- The 2D grid built by the constructor for a unit domain with CPML thickness 2 on
every face. -/
def D2.sample_init : D2.fdtd2D :=
  D2.init_fdtd_2D_cpml sample_extern (fun _ => 1) (1 / 2) 1 (fun _ => 4) 2

/-- The 1D sample grid with `n` electric and `n` magnetic sources, all registered at
cell 1; source `i` has delay 0, width 1 and peak `i + 1`. -/
def D1.sample_sources (n : Nat) : D1.fdtd1D :=
  { D1.sample_grid (fun _ => 0) with
    num_Jsources := n, Jsources := fun i => gaussian_source 0 1 (i + 1),
    JsourceLocations := fun _ => 1,
    num_Msources := n, Msources := fun i => gaussian_source 0 1 (i + 1),
    MsourceLocations := fun _ => 1 }

/-- The 2D sample grid with `n` electric and `n` magnetic sources, all registered at
cell (1, 1); source `i` has delay 0, width 1 and peak `i + 1`. -/
def D2.sample_sources (n : Nat) : D2.fdtd2D :=
  { D2.sample_grid (fun _ => 0) with
    num_Jsources := n, Jsources := fun i => gaussian_source 0 1 (i + 1),
    JsourceLocations := fun _ => 1,
    num_Msources := n, Msources := fun i => gaussian_source 0 1 (i + 1),
    MsourceLocations := fun _ => 1 }

/-- The 3D sample grid with `n` electric and `n` magnetic sources, all registered at
cell (1, 1, 1); source `i` has delay 0, width 1 and peak `i + 1`. -/
def D3.sample_sources (n : Nat) : D3.fdtd3D :=
  { D3.sample_grid (fun _ => 0) with
    num_Jsources := n, Jsources := fun i => gaussian_source 0 1 (i + 1),
    JsourceLocations := fun _ => 1,
    num_Msources := n, Msources := fun i => gaussian_source 0 1 (i + 1),
    MsourceLocations := fun _ => 1 }

/-- The 3D sample grid with a different value in every array: `ex = 1`, `ey = 2`,
`ez = 3`, `hx = 4`, `hy = 5`, `hz = 6`, `permittivity_inv = 7`,
`permeability_inv = 8`. -/
def D3.sample_fields : D3.fdtd3D :=
  { D3.sample_grid (fun _ => 0) with
    ex := fun _ => 1, ey := fun _ => 2, ez := fun _ => 3,
    hx := fun _ => 4, hy := fun _ => 5, hz := fun _ => 6,
    permittivity_inv := fun _ => 7, permeability_inv := fun _ => 8 }

/-! ## Scenarios (`initialize.h`, `initialize.c`) and the tagged grid (`fdtd.h`) -/

/-- The enumerator `half_air_half_water_1D` of `enum setup1D`. -/
def half_air_half_water_1D : Nat := 0

/-- The enumerator `last_1D_setup`. -/
def last_1D_setup : Nat := half_air_half_water_1D + 1

/-- The enumerator `west_air_east_water_west_gaussian_pulse_centered_2D` of
`enum setup2D` (`last_1D_setup + 1`). -/
def west_air_east_water_west_gaussian_pulse_centered_2D : Nat := last_1D_setup + 1

/-- The enumerator `object_high_permitivity_in_air_west_gaussian_pulse_centered_2D`. -/
def object_high_permitivity_in_air_west_gaussian_pulse_centered_2D : Nat :=
  west_air_east_water_west_gaussian_pulse_centered_2D + 1

/-- The enumerator `free_space_gaussian_exitation_centered_absorbing_border_2D`. -/
def free_space_gaussian_exitation_centered_absorbing_border_2D : Nat :=
  object_high_permitivity_in_air_west_gaussian_pulse_centered_2D + 1

/-- The enumerator `last_2D_setup`. -/
def last_2D_setup : Nat := free_space_gaussian_exitation_centered_absorbing_border_2D + 1

/-- The enumerator `half_air_half_water_3D` of `enum setup3D` (`last_2D_setup + 1`). -/
def half_air_half_water_3D : Nat := last_2D_setup + 1

/-- The enumerator `air_with_object_of_high_permitivity_half_height_centered_3D`. -/
def air_with_object_of_high_permitivity_half_height_centered_3D : Nat :=
  half_air_half_water_3D + 1

/-- The enumerator `last_3D_setup`. -/
def last_3D_setup : Nat := air_with_object_of_high_permitivity_half_height_centered_3D + 1

/-- The status `EXIT_SUCCESS` of `stdlib.h`. -/
def EXIT_SUCCESS : Nat := 0

/-- The status `EXIT_FAILURE` of `stdlib.h`. -/
def EXIT_FAILURE : Nat := 1

/-- The enumeration `fdtd_type`. -/
inductive fdtd_type where
  | fdtd_one_dim
  | fdtd_two_dims
  | fdtd_three_dims
  deriving DecidableEq, Repr

/-- The structure `fdtd`: the member of the union that is in use, which fixes the
member `type`. -/
inductive fdtd where
  | oneDim (g : D1.fdtd1D)
  | twoDims (g : D2.fdtd2D)
  | threeDims (g : D3.fdtd3D)

/-- The member `type` of `struct fdtd`. -/
def fdtd.type : fdtd → fdtd_type
  | fdtd.oneDim _ => fdtd_type.fdtd_one_dim
  | fdtd.twoDims _ => fdtd_type.fdtd_two_dims
  | fdtd.threeDims _ => fdtd_type.fdtd_three_dims

/-- The structure `two_medium_data`. -/
structure two_medium_data where
  permeability1 : ℚ
  permeability2 : ℚ
  permittivity1 : ℚ
  permittivity2 : ℚ
  switch_location : ℚ

/-- The structure `middle_object_2D`. -/
structure middle_object_2D where
  permeability_medium : ℚ
  permeability_object : ℚ
  permittivity_medium : ℚ
  permittivity_object : ℚ
  object_center : Nat → ℚ
  object_dimensions : Nat → ℚ

/-- The structure `middle_object_3D`. -/
structure middle_object_3D where
  permeability_medium : ℚ
  permeability_object : ℚ
  permittivity_medium : ℚ
  permittivity_object : ℚ
  object_center : Nat → ℚ
  object_dimensions : Nat → ℚ

/-- The callback `init_permeability_two_parts_1D`; `tpd` is the object behind `user`. -/
def init_permeability_two_parts_1D (pos : ℚ) (tpd : two_medium_data) : ℚ :=
  if pos < tpd.switch_location then tpd.permeability1 else tpd.permeability2

/-- The callback `init_permittivity_two_parts_1D`. -/
def init_permittivity_two_parts_1D (pos : ℚ) (tpd : two_medium_data) : ℚ :=
  if pos < tpd.switch_location then tpd.permittivity1 else tpd.permittivity2

/-- The callback `init_permeability_object_2D`; `mo` is the object behind `user`. -/
def init_permeability_object_2D (posX posY : ℚ) (mo : middle_object_2D) : ℚ :=
  if posX < mo.object_center 0 - mo.object_dimensions 0 / 2 ∨
      posX > mo.object_center 0 + mo.object_dimensions 0 / 2 then
    mo.permeability_medium
  else if posY < mo.object_center 1 - mo.object_dimensions 1 / 2 ∨
      posY > mo.object_center 1 + mo.object_dimensions 1 / 2 then
    mo.permeability_medium
  else mo.permeability_object

/-- The callback `init_permittivity_object_2D`. -/
def init_permittivity_object_2D (posX posY : ℚ) (mo : middle_object_2D) : ℚ :=
  if posX < mo.object_center 0 - mo.object_dimensions 0 / 2 ∨
      posX > mo.object_center 0 + mo.object_dimensions 0 / 2 then
    mo.permittivity_medium
  else if posY < mo.object_center 1 - mo.object_dimensions 1 / 2 ∨
      posY > mo.object_center 1 + mo.object_dimensions 1 / 2 then
    mo.permittivity_medium
  else mo.permittivity_object

/-- The callback `init_permeability_object_3D`. -/
def init_permeability_object_3D (posX posY posZ : ℚ) (mo : middle_object_3D) : ℚ :=
  if posX < mo.object_center 0 - mo.object_dimensions 0 / 2 ∨
      posX > mo.object_center 0 + mo.object_dimensions 0 / 2 then
    mo.permeability_medium
  else if posY < mo.object_center 1 - mo.object_dimensions 1 / 2 ∨
      posY > mo.object_center 1 + mo.object_dimensions 1 / 2 then
    mo.permeability_medium
  else if posZ < mo.object_center 2 - mo.object_dimensions 2 / 2 ∨
      posZ > mo.object_center 2 + mo.object_dimensions 2 / 2 then
    mo.permeability_medium
  else mo.permeability_object

/-- The callback `init_permittivity_object_3D`. -/
def init_permittivity_object_3D (posX posY posZ : ℚ) (mo : middle_object_3D) : ℚ :=
  if posX < mo.object_center 0 - mo.object_dimensions 0 / 2 ∨
      posX > mo.object_center 0 + mo.object_dimensions 0 / 2 then
    mo.permittivity_medium
  else if posY < mo.object_center 1 - mo.object_dimensions 1 / 2 ∨
      posY > mo.object_center 1 + mo.object_dimensions 1 / 2 then
    mo.permittivity_medium
  else if posZ < mo.object_center 2 - mo.object_dimensions 2 / 2 ∨
      posZ > mo.object_center 2 + mo.object_dimensions 2 / 2 then
    mo.permittivity_medium
  else mo.permittivity_object

/-- The function `initializeFdtd1D`; `Except.error s` is the call `exit(s)`. -/
def initializeFdtd1D (setupID : Nat) (domain_size Sc smallest_wavelength : ℚ) :
    Except Nat fdtd :=
  if setupID = half_air_half_water_1D then
    let bc : Nat → Nat := fun i =>
      if i = 0 then border_perfect_electric_conductor
      else border_perfect_magnetic_conductor
    let fdtd := D1.init_fdtd_1D domain_size Sc smallest_wavelength bc
    let tmd : two_medium_data :=
      { permittivity1 := 100058986 / 100000000, permittivity2 := 784 / 10,
        permeability1 := 100000037 / 100000000, permeability2 := 999992 / 1000000,
        switch_location := domain_size / 2 }
    let fdtd := D1.init_fdtd_1D_medium (fun pos => init_permeability_two_parts_1D pos tmd)
      (fun pos => init_permittivity_two_parts_1D pos tmd) fdtd
    let src := gaussian_source (25 * fdtd.dt) (3 * fdtd.dt) (1 / 100)
    let fdtd := D1.add_source_fdtd_1D source_type.source_magnetic fdtd src 0
    Except.ok (FDTD.fdtd.oneDim fdtd)
  else Except.error EXIT_FAILURE

/-- The end of a 2D scenario: the structure returned when every source was registered,
`exit(EXIT_FAILURE)` when `add_source_fdtd_2D` called it. -/
def returnFdtd2D (r : Option D2.fdtd2D) : Except Nat fdtd :=
  match r with
  | some fdtd => Except.ok (FDTD.fdtd.twoDims fdtd)
  | none => Except.error EXIT_FAILURE

/-- The function `initializeFdtd2D`; `Except.error s` is the call `exit(s)`. -/
def initializeFdtd2D (ext : Extern) (setupID : Nat) (domain_size : Nat → ℚ)
    (Sc smallest_wavelength : ℚ) (cpml_thickness : Nat) : Except Nat fdtd :=
  if setupID = object_high_permitivity_in_air_west_gaussian_pulse_centered_2D then
    let bc : Nat → Nat := fun i =>
      if i = D2.border_south then border_perfect_electric_conductor ||| border_cpml
      else if i = D2.border_north then border_perfect_electric_conductor ||| border_cpml
      else border_perfect_electric_conductor
    let fdtd := D2.init_fdtd_2D_cpml ext domain_size Sc smallest_wavelength bc cpml_thickness
    let smallest_dim_size :=
      if fdtd.domain_size 0 > fdtd.domain_size 1 then fdtd.domain_size 1
      else fdtd.domain_size 0
    let mo : middle_object_2D :=
      { permittivity_medium := 100058986 / 100000000, permittivity_object := 1000000000,
        permeability_medium := 100000037 / 100000000, permeability_object := 1,
        object_center := fun k => if k = 0 then domain_size 0 / 2 else domain_size 1 / 2,
        object_dimensions := fun _ => smallest_dim_size / 2 }
    let fdtd := D2.init_fdtd_2D_medium (fun x y => init_permeability_object_2D x y mo)
      (fun x y => init_permittivity_object_2D x y mo) fdtd
    let src := gaussian_source (25 * fdtd.dt) (3 * fdtd.dt) 100
    returnFdtd2D
      (forLoop fdtd.cpml_thickness (usub fdtd.sizeX fdtd.cpml_thickness)
        (fun j (r : Option D2.fdtd2D) => r.bind (fun s =>
          D2.add_source_fdtd_2D source_type.source_electric s src ((j : ℚ) * s.dx) s.dy))
        (some fdtd))
  else if setupID = free_space_gaussian_exitation_centered_absorbing_border_2D then
    let bc : Nat → Nat := fun _ => border_perfect_electric_conductor ||| border_cpml
    let fdtd := D2.init_fdtd_2D_cpml ext domain_size Sc smallest_wavelength bc cpml_thickness
    let mo : middle_object_2D :=
      { permittivity_medium := 1, permittivity_object := 1,
        permeability_medium := 1, permeability_object := 1,
        object_center := fun _ => -1,
        object_dimensions := fun _ => 0 }
    let fdtd := D2.init_fdtd_2D_medium (fun x y => init_permeability_object_2D x y mo)
      (fun x y => init_permittivity_object_2D x y mo) fdtd
    let src := gaussian_source (30 * fdtd.dt) (15 * fdtd.dt) 1
    returnFdtd2D (D2.add_source_fdtd_2D source_type.source_electric fdtd src
      (fdtd.domain_size 0 / 2) (fdtd.domain_size 1 / 2))
  else if setupID = west_air_east_water_west_gaussian_pulse_centered_2D then
    let bc : Nat → Nat := fun i =>
      if i = D2.border_south then border_perfect_electric_conductor ||| border_cpml
      else if i = D2.border_north then border_perfect_electric_conductor ||| border_cpml
      else border_perfect_electric_conductor
    let fdtd := D2.init_fdtd_2D_cpml ext domain_size Sc smallest_wavelength bc cpml_thickness
    let mo : middle_object_2D :=
      { permittivity_medium := 100058986 / 100000000, permittivity_object := 177 / 100,
        permeability_medium := 100000037 / 100000000, permeability_object := 999992 / 1000000,
        object_center := fun k => if k = 0 then domain_size 0 / 2 else 3 * domain_size 1 / 4,
        object_dimensions := fun k => if k = 0 then domain_size 0 * 2 else domain_size 1 / 2 }
    let fdtd := D2.init_fdtd_2D_medium (fun x y => init_permeability_object_2D x y mo)
      (fun x y => init_permittivity_object_2D x y mo) fdtd
    let src := gaussian_source (30 * fdtd.dt) (15 * fdtd.dt) 1000
    returnFdtd2D (D2.add_source_fdtd_2D source_type.source_electric fdtd src
      (fdtd.domain_size 0 / 2) fdtd.dy)
  else Except.error EXIT_FAILURE

/-- The function `initializeFdtd3D`; `Except.error s` is the call `exit(s)`. -/
def initializeFdtd3D (ext : Extern) (setupID : Nat) (domain_size : Nat → ℚ)
    (Sc smallest_wavelength : ℚ) (cpml_thickness : Nat) : Except Nat fdtd :=
  if setupID = air_with_object_of_high_permitivity_half_height_centered_3D then
    let bc : Nat → Nat := fun _ => border_perfect_electric_conductor
    let fdtd := D3.init_fdtd_3D_cpml ext domain_size Sc smallest_wavelength bc cpml_thickness
    let mo : middle_object_3D :=
      { permittivity_medium := 100058986 / 100000000, permittivity_object := 1000000000,
        permeability_medium := 100000037 / 100000000, permeability_object := 1,
        object_center := fun k =>
          if k = 0 then domain_size 0 / 2 else if k = 1 then domain_size 1 / 2
          else domain_size 2 / 2,
        object_dimensions := fun _ => domain_size 1 / 2 }
    let fdtd := D3.init_fdtd_3D_medium (fun x y z => init_permeability_object_3D x y z mo)
      (fun x y z => init_permittivity_object_3D x y z mo) fdtd
    let src := gaussian_source (10 * fdtd.dt) (5 * fdtd.dt) (1 / 100)
    let fdtd := forLoop 0 fdtd.sizeY (fun j s =>
      D3.add_source_fdtd_3D source_type.source_magnetic s src
        (((uadd cpml_thickness 2 : Nat) : ℚ) * s.dx) ((j : ℚ) * s.dy)
        (((uadd cpml_thickness 2 : Nat) : ℚ) * s.dz)) fdtd
    Except.ok (FDTD.fdtd.threeDims fdtd)
  else if setupID = half_air_half_water_3D then
    let bc : Nat → Nat := fun _ => border_perfect_electric_conductor
    let fdtd := D3.init_fdtd_3D_cpml ext domain_size Sc smallest_wavelength bc cpml_thickness
    let mo : middle_object_3D :=
      { permittivity_medium := 100058986 / 100000000, permittivity_object := 177 / 100,
        permeability_medium := 100000037 / 100000000, permeability_object := 999992 / 1000000,
        object_center := fun k =>
          if k = 0 then domain_size 0 / 2 else if k = 1 then domain_size 1 / 2
          else 3 * domain_size 2 / 4,
        object_dimensions := fun k =>
          if k = 0 then domain_size 0 * 2 else if k = 1 then domain_size 1 * 2
          else domain_size 1 / 2 }
    let fdtd := D3.init_fdtd_3D_medium (fun x y z => init_permeability_object_3D x y z mo)
      (fun x y z => init_permittivity_object_3D x y z mo) fdtd
    let src := gaussian_source (10 * fdtd.dt) (5 * fdtd.dt) (1 / 100)
    let fdtd := forLoop 0 fdtd.sizeY (fun j s =>
      D3.add_source_fdtd_3D source_type.source_magnetic s src
        (((uadd cpml_thickness 2 : Nat) : ℚ) * s.dx) ((j : ℚ) * s.dy)
        (((uadd cpml_thickness 2 : Nat) : ℚ) * s.dz)) fdtd
    Except.ok (FDTD.fdtd.threeDims fdtd)
  else Except.error EXIT_FAILURE

/-- The function `initializeFdtd_cmpl`; `Except.error s` is the call `exit(s)`. -/
def initializeFdtd_cmpl (ext : Extern) (setupID : Nat) (domain_size : Nat → ℚ)
    (Sc smallest_wavelength : ℚ) (cpml_thickness : Nat) : Except Nat fdtd :=
  if setupID < last_1D_setup then
    initializeFdtd1D setupID (domain_size 0) Sc smallest_wavelength
  else if setupID < last_2D_setup then
    initializeFdtd2D ext setupID domain_size Sc smallest_wavelength cpml_thickness
  else if setupID < last_3D_setup then
    initializeFdtd3D ext setupID domain_size Sc smallest_wavelength cpml_thickness
  else Except.error EXIT_SUCCESS

/-- The function `initializeFdtd`. -/
def initializeFdtd (ext : Extern) (setupID : Nat) (domain_size : Nat → ℚ)
    (Sc smallest_wavelength : ℚ) : Except Nat fdtd :=
  initializeFdtd_cmpl ext setupID domain_size Sc smallest_wavelength 0

/-- The dimensionality of the grid returned, or the exit status. -/
def returned_type (r : Except Nat fdtd) : Except Nat fdtd_type :=
  match r with
  | Except.ok g => Except.ok g.type
  | Except.error s => Except.error s

/-! ## Command line (`main.c`) -/

/-- The constant `default_domain_size` of `main.c`. -/
def default_domain_size : ℚ := 1 / 100000

/-- The value that the options `-x`, `-y`, `-z` of `main` leave in `domain_size[k]`
when `sscanf` converts the argument to `value`: a value below 0 is replaced by
`default_domain_size`, every other value is kept. -/
def main_domain_size (value : ℚ) : ℚ :=
  if value < 0 then default_domain_size else value

/-! ## Index expressions -/

/-- One index expression `array[index]` evaluated by a function: the array, the
index, and whether the element is assigned. -/
structure array_access (α ι : Type) where
  array : α
  index : ι
  write : Bool
  deriving DecidableEq

/-- An element read. -/
def rd {α ι : Type} (a : α) (i : ι) : array_access α ι := ⟨a, i, false⟩

/-- An element assigned. -/
def wr {α ι : Type} (a : α) (i : ι) : array_access α ι := ⟨a, i, true⟩

namespace D1

/-- The arrays of a 1D grid. -/
inductive array_1D where
  | ez
  | hy
  | permittivity_inv
  | permeability_inv
  deriving DecidableEq

/-- The index expressions evaluated by `update_magnetic_field` of `fdtd1D.c`, in the
order of the iterations: iteration `i` reads `hy[i]`, `ez[i + 1]`, `ez[i]`,
`permeability_inv[i]` and assigns `hy[i]`. -/
def update_magnetic_field_accesses (fdtd : fdtd1D) : List (array_access array_1D Nat) :=
  forLoop 0 (usub fdtd.sizeX 1) (fun i out =>
    out ++ [rd array_1D.hy i, rd array_1D.ez (i + 1), rd array_1D.ez i,
      rd array_1D.permeability_inv i, wr array_1D.hy i]) []

/-- An index expression of a 1D function is in range: every array of a 1D grid has
`sizeX` elements. -/
def in_range (fdtd : fdtd1D) (a : array_access array_1D Nat) : Prop :=
  a.index < fdtd.sizeX

end D1

namespace D3

/-- The field and material arrays of a 3D grid. -/
inductive array_3D where
  | ex
  | ey
  | ez
  | hx
  | hy
  | hz
  | permittivity_inv
  | permeability_inv
  deriving DecidableEq

/-- The index expressions evaluated by the first loop nest of `update_magnetic_field`
of `fdtd3D.c` (component `hx`). -/
def update_magnetic_field_hx_accesses (fdtd : fdtd3D) :
    List (array_access array_3D (Nat × Nat × Nat)) :=
  forLoop 0 (usub fdtd.sizeX 1) (fun i out => forLoop 0 (usub fdtd.sizeY 1) (fun j out =>
    forLoop 0 (usub fdtd.sizeZ 1) (fun k out =>
      out ++ [rd array_3D.hx (i, j, k), rd array_3D.ey (i, j, k + 1), rd array_3D.ey (i, j, k),
        rd array_3D.ez (i, j + 1, k), rd array_3D.ez (i, j, k),
        rd array_3D.permeability_inv (i, j, k), wr array_3D.hx (i, j, k)]) out) out) []

/-- The index expressions evaluated by the second loop nest of `update_magnetic_field`
(component `hy`). -/
def update_magnetic_field_hy_accesses (fdtd : fdtd3D) :
    List (array_access array_3D (Nat × Nat × Nat)) :=
  forLoop 0 (usub fdtd.sizeX 1) (fun i out => forLoop 0 (usub fdtd.sizeY 1) (fun j out =>
    forLoop 0 (usub fdtd.sizeZ 1) (fun k out =>
      out ++ [rd array_3D.hy (i, j, k), rd array_3D.ez (i + 1, j, k), rd array_3D.ez (i, j, k),
        rd array_3D.ex (i, j, k + 1), rd array_3D.ex (i, j, k),
        rd array_3D.permeability_inv (i, j, k), wr array_3D.hy (i, j, k)]) out) out) []

/-- The index expressions evaluated by the third loop nest of `update_magnetic_field`
(component `hz`). -/
def update_magnetic_field_hz_accesses (fdtd : fdtd3D) :
    List (array_access array_3D (Nat × Nat × Nat)) :=
  forLoop 0 (usub fdtd.sizeX 1) (fun i out => forLoop 0 (usub fdtd.sizeY 1) (fun j out =>
    forLoop 0 (usub fdtd.sizeZ 1) (fun k out =>
      out ++ [rd array_3D.hz (i, j, k), rd array_3D.ex (i, j + 1, k), rd array_3D.ex (i, j, k),
        rd array_3D.ey (i + 1, j, k), rd array_3D.ey (i, j, k),
        rd array_3D.permeability_inv (i, j, k), wr array_3D.hz (i, j, k)]) out) out) []

/-- The index expressions evaluated by `update_magnetic_field` of `fdtd3D.c`. -/
def update_magnetic_field_accesses (fdtd : fdtd3D) :
    List (array_access array_3D (Nat × Nat × Nat)) :=
  update_magnetic_field_hx_accesses fdtd ++ update_magnetic_field_hy_accesses fdtd ++
    update_magnetic_field_hz_accesses fdtd

/-- An index expression of a 3D function is in range: the field and material arrays
of a 3D grid have `sizeX * sizeY * sizeZ` elements. -/
def in_range (fdtd : fdtd3D) (a : array_access array_3D (Nat × Nat × Nat)) : Prop :=
  a.index.1 < fdtd.sizeX ∧ a.index.2.1 < fdtd.sizeY ∧ a.index.2.2 < fdtd.sizeZ

end D3

namespace D2

/-- The arrays of a 2D grid indexed by the CPML blocks; `by` and `cy` are the
vectors `bx` and `cx`. -/
inductive array_2D where
  | ez
  | hx
  | hy
  | permittivity_inv
  | permeability_inv
  | psi_ez_south
  | psi_ez_north
  | psi_ez_east
  | psi_ez_west
  | psi_hx_west
  | psi_hx_east
  | psi_hy_south
  | psi_hy_north
  | bx
  | cx
  deriving DecidableEq

/-- The extents of the arrays of a 2D grid, as `init_fdtd_2D_cpml` allocates them and
as the views of `update_electric_cpml` and `update_magnetic_cpml` declare them; the
vectors `bx` and `cx` have `cpml_thickness` elements and are indexed by `(i, 0)`. -/
def extent (fdtd : fdtd2D) : array_2D → Nat × Nat
  | array_2D.ez => (fdtd.sizeX, fdtd.sizeY)
  | array_2D.hx => (fdtd.sizeX, fdtd.sizeY)
  | array_2D.hy => (fdtd.sizeX, fdtd.sizeY)
  | array_2D.permittivity_inv => (fdtd.sizeX, fdtd.sizeY)
  | array_2D.permeability_inv => (fdtd.sizeX, fdtd.sizeY)
  | array_2D.psi_ez_south => (fdtd.cpml_thickness, fdtd.sizeY)
  | array_2D.psi_ez_north => (fdtd.cpml_thickness, fdtd.sizeY)
  | array_2D.psi_ez_east => (fdtd.sizeX, fdtd.cpml_thickness)
  | array_2D.psi_ez_west => (fdtd.sizeX, fdtd.cpml_thickness)
  | array_2D.psi_hx_west => (fdtd.sizeX, fdtd.cpml_thickness)
  | array_2D.psi_hx_east => (fdtd.sizeX, fdtd.cpml_thickness)
  | array_2D.psi_hy_south => (fdtd.cpml_thickness, fdtd.sizeY)
  | array_2D.psi_hy_north => (fdtd.cpml_thickness, fdtd.sizeY)
  | array_2D.bx => (fdtd.cpml_thickness, 1)
  | array_2D.cx => (fdtd.cpml_thickness, 1)

/-- An index expression of a 2D function is in range. -/
def in_range (fdtd : fdtd2D) (a : array_access array_2D (Nat × Nat)) : Prop :=
  a.index.1 < (extent fdtd a.array).1 ∧ a.index.2 < (extent fdtd a.array).2

/-- The index expressions of the block of `update_electric_cpml` for the south face. -/
def update_electric_cpml_south_accesses (fdtd : fdtd2D) :
    List (array_access array_2D (Nat × Nat)) :=
  if flagSet (fdtd.border_condition border_south) border_cpml then
    forLoop 0 fdtd.cpml_thickness (fun i out => forLoop 0 fdtd.sizeY (fun j out =>
      out ++ [rd array_2D.bx (i, 0), rd array_2D.psi_ez_south (i, j), rd array_2D.cx (i, 0),
        rd array_2D.hy (1 + i, j), rd array_2D.hy (i, j), wr array_2D.psi_ez_south (i, j),
        rd array_2D.ez (1 + i, j), rd array_2D.permittivity_inv (1 + i, j),
        rd array_2D.psi_ez_south (i, j), wr array_2D.ez (1 + i, j)]) out) []
  else []

/-- The index expressions of the block of `update_electric_cpml` for the north face. -/
def update_electric_cpml_north_accesses (fdtd : fdtd2D) :
    List (array_access array_2D (Nat × Nat)) :=
  if flagSet (fdtd.border_condition border_north) border_cpml then
    forLoop 0 fdtd.cpml_thickness (fun i out => forLoop 0 fdtd.sizeY (fun j out =>
      out ++ [rd array_2D.bx (i, 0), rd array_2D.psi_ez_north (i, j), rd array_2D.cx (i, 0),
        rd array_2D.hy (usub (usub fdtd.sizeX 1) i, j),
        rd array_2D.hy (usub (usub fdtd.sizeX 2) i, j), wr array_2D.psi_ez_north (i, j),
        rd array_2D.ez (usub (usub fdtd.sizeX 1) i, j),
        rd array_2D.permittivity_inv (usub (usub fdtd.sizeX 1) i, j),
        rd array_2D.psi_ez_north (i, j), wr array_2D.ez (usub (usub fdtd.sizeX 1) i, j)]) out) []
  else []

/-- The index expressions of the block of `update_electric_cpml` for the west face. -/
def update_electric_cpml_west_accesses (fdtd : fdtd2D) :
    List (array_access array_2D (Nat × Nat)) :=
  if flagSet (fdtd.border_condition border_west) border_cpml then
    forLoop 0 fdtd.sizeX (fun i out => forLoop 0 fdtd.cpml_thickness (fun j out =>
      out ++ [rd array_2D.bx (j, 0), rd array_2D.psi_ez_west (i, j), rd array_2D.cx (j, 0),
        rd array_2D.hx (i, 1 + j), rd array_2D.hx (i, j), wr array_2D.psi_ez_west (i, j),
        rd array_2D.ez (i, 1 + j), rd array_2D.permittivity_inv (i, 1 + j),
        rd array_2D.psi_ez_west (i, j), wr array_2D.ez (i, 1 + j)]) out) []
  else []

/-- The index expressions of the block of `update_electric_cpml` for the east face. -/
def update_electric_cpml_east_accesses (fdtd : fdtd2D) :
    List (array_access array_2D (Nat × Nat)) :=
  if flagSet (fdtd.border_condition border_east) border_cpml then
    forLoop 0 fdtd.sizeX (fun i out => forLoop 0 fdtd.cpml_thickness (fun j out =>
      out ++ [rd array_2D.bx (j, 0), rd array_2D.psi_ez_east (i, j), rd array_2D.cx (j, 0),
        rd array_2D.hx (i, usub (usub fdtd.sizeY 1) j),
        rd array_2D.hx (i, usub (usub fdtd.sizeY 2) j), wr array_2D.psi_ez_east (i, j),
        rd array_2D.ez (i, usub (usub fdtd.sizeY 1) j),
        rd array_2D.permittivity_inv (i, usub (usub fdtd.sizeY 1) j),
        rd array_2D.psi_ez_east (i, j), wr array_2D.ez (i, usub (usub fdtd.sizeY 1) j)]) out) []
  else []

/-- The index expressions of `update_electric_cpml`: its four blocks in the order
south, north, west, east. -/
def update_electric_cpml_accesses (fdtd : fdtd2D) : List (array_access array_2D (Nat × Nat)) :=
  update_electric_cpml_south_accesses fdtd ++ update_electric_cpml_north_accesses fdtd ++
    update_electric_cpml_west_accesses fdtd ++ update_electric_cpml_east_accesses fdtd

/-- The index expressions of the block of `update_magnetic_cpml` for the west face. -/
def update_magnetic_cpml_west_accesses (fdtd : fdtd2D) :
    List (array_access array_2D (Nat × Nat)) :=
  if flagSet (fdtd.border_condition border_west) border_cpml then
    forLoop 0 fdtd.sizeX (fun i out => forLoop 0 fdtd.cpml_thickness (fun j out =>
      out ++ [rd array_2D.bx (j, 0), rd array_2D.psi_hx_west (i, j), rd array_2D.cx (j, 0),
        rd array_2D.ez (i, j), rd array_2D.ez (i, j + 1), wr array_2D.psi_hx_west (i, j),
        rd array_2D.hx (i, j), rd array_2D.permeability_inv (i, j),
        rd array_2D.psi_hx_west (i, j), wr array_2D.hx (i, j)]) out) []
  else []

/-- The index expressions of the block of `update_magnetic_cpml` for the east face. -/
def update_magnetic_cpml_east_accesses (fdtd : fdtd2D) :
    List (array_access array_2D (Nat × Nat)) :=
  if flagSet (fdtd.border_condition border_east) border_cpml then
    forLoop 0 fdtd.sizeX (fun i out => forLoop 0 fdtd.cpml_thickness (fun j out =>
      out ++ [rd array_2D.bx (j, 0), rd array_2D.psi_hx_east (i, j), rd array_2D.cx (j, 0),
        rd array_2D.ez (i, usub (usub fdtd.sizeY 2) j),
        rd array_2D.ez (i, usub (usub fdtd.sizeY 1) j), wr array_2D.psi_hx_east (i, j),
        rd array_2D.hx (i, usub (usub fdtd.sizeY 2) j),
        rd array_2D.permeability_inv (i, usub (usub fdtd.sizeY 2) j),
        rd array_2D.psi_hx_east (i, j), wr array_2D.hx (i, usub (usub fdtd.sizeY 2) j)]) out) []
  else []

/-- The index expressions of the block of `update_magnetic_cpml` for the south face. -/
def update_magnetic_cpml_south_accesses (fdtd : fdtd2D) :
    List (array_access array_2D (Nat × Nat)) :=
  if flagSet (fdtd.border_condition border_south) border_cpml then
    forLoop 0 fdtd.cpml_thickness (fun i out => forLoop 0 fdtd.sizeY (fun j out =>
      out ++ [rd array_2D.bx (i, 0), rd array_2D.psi_hy_south (i, j), rd array_2D.cx (i, 0),
        rd array_2D.ez (i + 1, j), rd array_2D.ez (i, j), wr array_2D.psi_hy_south (i, j),
        rd array_2D.hy (i, j), rd array_2D.permeability_inv (i, j),
        rd array_2D.psi_hy_south (i, j), wr array_2D.hy (i, j)]) out) []
  else []

/-- The index expressions of the block of `update_magnetic_cpml` for the north face. -/
def update_magnetic_cpml_north_accesses (fdtd : fdtd2D) :
    List (array_access array_2D (Nat × Nat)) :=
  if flagSet (fdtd.border_condition border_north) border_cpml then
    forLoop 0 fdtd.cpml_thickness (fun i out => forLoop 0 fdtd.sizeY (fun j out =>
      out ++ [rd array_2D.bx (i, 0), rd array_2D.psi_hy_north (i, j), rd array_2D.cx (i, 0),
        rd array_2D.ez (usub (usub fdtd.sizeX 1) i, j),
        rd array_2D.ez (usub (usub fdtd.sizeX 2) i, j), wr array_2D.psi_hy_north (i, j),
        rd array_2D.hy (usub (usub fdtd.sizeX 2) i, j),
        rd array_2D.permeability_inv (usub (usub fdtd.sizeX 2) i, j),
        rd array_2D.psi_hy_north (i, j), wr array_2D.hy (usub (usub fdtd.sizeX 2) i, j)]) out) []
  else []

/-- The index expressions of `update_magnetic_cpml`: its four blocks in the order
west, east, south, north. -/
def update_magnetic_cpml_accesses (fdtd : fdtd2D) : List (array_access array_2D (Nat × Nat)) :=
  update_magnetic_cpml_west_accesses fdtd ++ update_magnetic_cpml_east_accesses fdtd ++
    update_magnetic_cpml_south_accesses fdtd ++ update_magnetic_cpml_north_accesses fdtd

/-- The cells of the field array `field` that a list of index expressions assigns. -/
def corrected_cells (field : array_2D) (l : List (array_access array_2D (Nat × Nat))) :
    List (Nat × Nat) :=
  (l.filter (fun a => a.write && decide (a.array = field))).map (fun a => a.index)

end D2

/-! ## Divisions of the CPML coefficient computation -/

/-- The divisor of the division evaluated by `Kappa`: `cpml_width` in
`db / cpml_width`. -/
def Kappa_divisors (_dist_from_border CPML_region_width : Nat) : List ℚ :=
  [(CPML_region_width : ℚ)]

/-- The divisor of the division evaluated by `sigma`. -/
def sigma_divisors (_dist_from_border CPML_region_width : Nat) : List ℚ :=
  [(CPML_region_width : ℚ)]

/-- The divisor of the division evaluated by `alpha`. -/
def alpha_divisors (_dist_from_border CPML_region_width : Nat) : List ℚ :=
  [(CPML_region_width : ℚ)]

/-- The divisors of the divisions evaluated by `b`, those of the functions it calls
included, in the order of the source text. -/
def b_divisors (ext : Extern) (dist_from_border CPML_region_width : Nat) : List ℚ :=
  sigma_divisors dist_from_border CPML_region_width ++
    Kappa_divisors dist_from_border CPML_region_width ++
    [eps0 * Kappa ext dist_from_border CPML_region_width] ++
    alpha_divisors dist_from_border CPML_region_width ++ [eps0]

/-- The divisors of the divisions evaluated by `c`, those of the functions it calls
included, in the order of the source text. -/
def c_divisors (ext : Extern) (dist_from_border CPML_region_width : Nat)
    (alpha_max sigma_max : ℚ) : List ℚ :=
  sigma_divisors dist_from_border CPML_region_width ++
    sigma_divisors dist_from_border CPML_region_width ++
    Kappa_divisors dist_from_border CPML_region_width ++
    Kappa_divisors dist_from_border CPML_region_width ++
    Kappa_divisors dist_from_border CPML_region_width ++
    alpha_divisors dist_from_border CPML_region_width ++
    [sigma ext dist_from_border CPML_region_width sigma_max *
        Kappa ext dist_from_border CPML_region_width +
      Kappa ext dist_from_border CPML_region_width *
        Kappa ext dist_from_border CPML_region_width *
        alpha ext dist_from_border CPML_region_width alpha_max] ++
    b_divisors ext dist_from_border CPML_region_width

/-- The divisors of the divisions evaluated by the coefficient computation that ends
`init_fdtd_2D_cpml` and `init_fdtd_3D_cpml`, for the spacing `dx`: the one of
`sigma_max`, then those of the calls of `b` and `c` in the loop over `d`. -/
def cpml_coeff_divisors (ext : Extern) (cpml_thickness : Nat) (dx : ℚ) : List ℚ :=
  let alpha_max := 2 * M_PI * eps0 * dx * (1 / 10)
  let sigma_max := (8 / 10) * (polynomial_taper_order + 1) / (dx * ext.sqrt (mu0 / eps0))
  forLoop 0 cpml_thickness (fun d out =>
    out ++ b_divisors ext d (usub cpml_thickness 1) ++
      c_divisors ext d (usub cpml_thickness 1) alpha_max sigma_max)
    [eps0, dx * ext.sqrt (mu0 / eps0)]

/-! ## The arrays that hold the state of the fields -/

/-- A model of the C library with exact rational stand-ins: `exp x = 1 / (1 - x)` for
`x <= 0` (between 0 and 1 for `x < 0`, 1 at 0), `pow x y` for a whole exponent `y`,
`sqrt` replaced by the identity (positive on positive arguments). -/
def rational_extern : Extern :=
  { sample_extern with
    exp := fun x => if x ≤ 0 then 1 / (1 - x) else 1 + x,
    pow := fun x y => x ^ (Int.toNat ⌊y⌋) }

/-- The 3D sample fields (`ex = 1`, ..., `hz = 6`) on a grid of `sx * sy * sz` cells
with the face flags `borders`. -/
def D3.sample_box (sx sy sz : Nat) (borders : Nat → Nat) : D3.fdtd3D :=
  { D3.sample_fields with sizeX := sx, sizeY := sy, sizeZ := sz, border_condition := borders }

/-- The 1D sample grid with no cell. -/
def D1.sample_empty : D1.fdtd1D :=
  { D1.sample_grid (fun _ => 0) with sizeX := 0 }

/-- The 2D sample grid with `sx * sy` cells, CPML thickness `T` and every face flagged
CPML. -/
def D2.sample_cpml (sx sy T : Nat) : D2.fdtd2D :=
  { D2.sample_grid (fun _ => border_cpml) with sizeX := sx, sizeY := sy, cpml_thickness := T }

/-! ## Quotients that are no number -/

/-- The quotient `a / b` of two numbers of `float_type`: a number when the divisor is
not 0.  For the divisor 0 the C program computes an infinity or a NaN, which is no
number: `none`. -/
def float_div (a b : ℚ) : Option ℚ := if b = 0 then none else some (a / b)

/-- The sum of two values of `float_type` of which each may be no number (`none`: an
infinity or a NaN).  An operand that is no number gives a result that is no number. -/
def float_add (a b : Option ℚ) : Option ℚ := a.bind (fun x => b.map (fun y => x + y))

/-- The product of two values of `float_type` of which each may be no number.  The
product of an infinity or a NaN with any value, 0 included, is an infinity or a
NaN. -/
def float_mul (a b : Option ℚ) : Option ℚ := a.bind (fun x => b.map (fun y => x * y))

/-- The inline function `Kappa` with the quotient `db / cpml_width` that is no number
for the width 0; `pow` of an infinity or a NaN with the exponent 4 is an infinity or a
NaN. -/
def Kappa_checked (ext : Extern) (dist_from_border CPML_region_width : Nat) : Option ℚ :=
  let db : ℚ := (dist_from_border : ℚ)
  let cpml_width : ℚ := (CPML_region_width : ℚ)
  float_add (some 1) (float_mul (some (kappa_max - 1))
    ((float_div db cpml_width).map (fun q => ext.pow q polynomial_taper_order)))

namespace D1

end D1

/-! ## The chain of the 3D CPML blocks -/

namespace D3

/-- The grid as the blocks of `update_electric_cpml` that precede the block of a face
leave it (order of the source: left, right, front, back, bottom, top). -/
def cpml_before_E : Axis → Bool → fdtd3D → fdtd3D
  | Axis.y, false => fun g => g
  | Axis.y, true => fun g => update_electric_cpml_left g
  | Axis.z, false => fun g => update_electric_cpml_right (update_electric_cpml_left g)
  | Axis.z, true => fun g =>
    update_electric_cpml_front (update_electric_cpml_right (update_electric_cpml_left g))
  | Axis.x, false => fun g =>
    update_electric_cpml_back (update_electric_cpml_front
      (update_electric_cpml_right (update_electric_cpml_left g)))
  | Axis.x, true => fun g =>
    update_electric_cpml_bottom (update_electric_cpml_back (update_electric_cpml_front
      (update_electric_cpml_right (update_electric_cpml_left g))))

/-- The grid as the blocks of `update_magnetic_cpml` that precede the block of a face
leave it (order of the source: left, right, front, back, bottom, top). -/
def cpml_before_H : Axis → Bool → fdtd3D → fdtd3D
  | Axis.y, false => fun g => g
  | Axis.y, true => fun g => update_magnetic_cpml_left g
  | Axis.z, false => fun g => update_magnetic_cpml_right (update_magnetic_cpml_left g)
  | Axis.z, true => fun g =>
    update_magnetic_cpml_front (update_magnetic_cpml_right (update_magnetic_cpml_left g))
  | Axis.x, false => fun g =>
    update_magnetic_cpml_back (update_magnetic_cpml_front
      (update_magnetic_cpml_right (update_magnetic_cpml_left g)))
  | Axis.x, true => fun g =>
    update_magnetic_cpml_bottom (update_magnetic_cpml_back (update_magnetic_cpml_front
      (update_magnetic_cpml_right (update_magnetic_cpml_left g))))

/-- The auxiliary index through which the block of a face corrects the electric cell
`c`: the index `k` of the slab of the face with `cpml_cell_E g ax far k = c`, if there
is one. -/
def cpml_index_E (g : fdtd3D) : Axis → Bool → Nat × Nat × Nat → Option (Nat × Nat × Nat)
  | Axis.x, false => fun c =>
    if 1 ≤ c.1 ∧ c.1 - 1 < g.cpml_thickness ∧ c.2.1 < g.sizeY ∧ c.2.2 < g.sizeZ then
      some (c.1 - 1, c.2.1, c.2.2) else none
  | Axis.x, true => fun c =>
    if c.1 ≤ g.sizeX - 1 ∧ g.sizeX - 1 - c.1 < g.cpml_thickness ∧ c.2.1 < g.sizeY ∧
        c.2.2 < g.sizeZ then
      some (g.sizeX - 1 - c.1, c.2.1, c.2.2) else none
  | Axis.y, false => fun c =>
    if 1 ≤ c.2.1 ∧ c.2.1 - 1 < g.cpml_thickness ∧ c.1 < g.sizeX ∧ c.2.2 < g.sizeZ then
      some (c.1, c.2.1 - 1, c.2.2) else none
  | Axis.y, true => fun c =>
    if c.2.1 ≤ g.sizeY - 1 ∧ g.sizeY - 1 - c.2.1 < g.cpml_thickness ∧ c.1 < g.sizeX ∧
        c.2.2 < g.sizeZ then
      some (c.1, g.sizeY - 1 - c.2.1, c.2.2) else none
  | Axis.z, false => fun c =>
    if 1 ≤ c.2.2 ∧ c.2.2 - 1 < g.cpml_thickness ∧ c.1 < g.sizeX ∧ c.2.1 < g.sizeY then
      some (c.1, c.2.1, c.2.2 - 1) else none
  | Axis.z, true => fun c =>
    if c.2.2 ≤ g.sizeZ - 1 ∧ g.sizeZ - 1 - c.2.2 < g.cpml_thickness ∧ c.1 < g.sizeX ∧
        c.2.1 < g.sizeY then
      some (c.1, c.2.1, g.sizeZ - 1 - c.2.2) else none

/-- The auxiliary index through which the block of a face corrects the magnetic cell
`c`: the index `k` of the slab of the face with `cpml_cell_H g ax far k = c`, if there
is one. -/
def cpml_index_H (g : fdtd3D) : Axis → Bool → Nat × Nat × Nat → Option (Nat × Nat × Nat)
  | Axis.x, false => fun c =>
    if c.1 < g.cpml_thickness ∧ c.2.1 < g.sizeY ∧ c.2.2 < g.sizeZ then some c else none
  | Axis.x, true => fun c =>
    if c.1 ≤ g.sizeX - 2 ∧ g.sizeX - 2 - c.1 < g.cpml_thickness ∧ c.2.1 < g.sizeY ∧
        c.2.2 < g.sizeZ then
      some (g.sizeX - 2 - c.1, c.2.1, c.2.2) else none
  | Axis.y, false => fun c =>
    if c.2.1 < g.cpml_thickness ∧ c.1 < g.sizeX ∧ c.2.2 < g.sizeZ then some c else none
  | Axis.y, true => fun c =>
    if c.2.1 ≤ g.sizeY - 2 ∧ g.sizeY - 2 - c.2.1 < g.cpml_thickness ∧ c.1 < g.sizeX ∧
        c.2.2 < g.sizeZ then
      some (c.1, g.sizeY - 2 - c.2.1, c.2.2) else none
  | Axis.z, false => fun c =>
    if c.2.2 < g.cpml_thickness ∧ c.1 < g.sizeX ∧ c.2.1 < g.sizeY then some c else none
  | Axis.z, true => fun c =>
    if c.2.2 ≤ g.sizeZ - 2 ∧ g.sizeZ - 2 - c.2.2 < g.cpml_thickness ∧ c.1 < g.sizeX ∧
        c.2.1 < g.sizeY then
      some (c.1, c.2.1, g.sizeZ - 2 - c.2.2) else none

/-- The auxiliary value that the block of one face contributes at a cell: the value
of the auxiliary array `psi` at the index `k` through which the block corrects the
cell, when the flags of the face include CPML; 0 when the face is not flagged CPML or
its block does not correct the cell. -/
def cpml_face_term (flags : Nat) (k : Option (Nat × Nat × Nat)) (psi : Arr3) : ℚ :=
  if flagSet flags border_cpml then
    match k with
    | some k => psi k
    | none => 0
  else 0

/-- The auxiliary values that the blocks of the two faces normal to `ax` contribute
to the electric component `comp` at the cell `c`, `psi` being the table of the
auxiliary arrays (`psi_E` of a grid). -/
def cpml_term_E (g : fdtd3D) (psi : Axis → Axis → Bool → Arr3) (comp ax : Axis)
    (c : Nat × Nat × Nat) : ℚ :=
  cpml_face_term (g.border_condition (cpml_face ax false)) (cpml_index_E g ax false c)
      (psi comp ax false) +
    cpml_face_term (g.border_condition (cpml_face ax true)) (cpml_index_E g ax true c)
      (psi comp ax true)

/-- The auxiliary values that the blocks of the two faces normal to `ax` contribute
to the magnetic component `comp` at the cell `c`, `psi` being the table of the
auxiliary arrays (`psi_H` of a grid). -/
def cpml_term_H (g : fdtd3D) (psi : Axis → Axis → Bool → Arr3) (comp ax : Axis)
    (c : Nat × Nat × Nat) : ℚ :=
  cpml_face_term (g.border_condition (cpml_face ax false)) (cpml_index_H g ax false c)
      (psi comp ax false) +
    cpml_face_term (g.border_condition (cpml_face ax true)) (cpml_index_H g ax true c)
      (psi comp ax true)

end D3

/-! ## Sample inputs for the chain of blocks -/

/-- The 3D sample grid with every face flagged CPML, fields that vary from cell to
cell (`hx`, `hy`, `hz`, `ex`, `ey`, `ez` growing with the second, third, first index)
and every auxiliary value of the left face equal to 1. -/
def D3.sample_ramp : D3.fdtd3D :=
  { D3.sample_grid (fun _ => border_cpml) with
    hx := fun c => c.2.1, hy := fun c => c.2.2, hz := fun c => c.2.1,
    ex := fun c => c.2.1, ey := fun c => c.2.2, ez := fun c => c.1,
    psi_ex_left := fun _ => 1, psi_hx_left := fun _ => 1 }

/-! # Theorems -/

/-! ## Loops -/

theorem usub_eq_sub {a b : Nat} (hb : b ≤ a) (ha : a < UINTMAX_MOD) : usub a b = a - b := by
  unfold usub
  unfold UINTMAX_MOD at *
  omega

theorem usub_lt (a b : Nat) : usub a b < UINTMAX_MOD := by
  unfold usub
  unfold UINTMAX_MOD
  omega

theorem usub_inj {a l l2 : Nat} (hl : l < UINTMAX_MOD) (hl2 : l2 < UINTMAX_MOD)
    (_ha : a < UINTMAX_MOD) (h : usub a l = usub a l2) : l = l2 := by
  unfold usub at h
  unfold UINTMAX_MOD at *
  omega

theorem foldl_preserves {σ κ : Type} (P : σ → Prop) (f : σ → κ → σ) (l : List κ)
    (h : ∀ k ∈ l, ∀ st, P st → P (f st k)) : ∀ s, P s → P (l.foldl f s) := by
  induction l with
  | nil => intro s hs; exact hs
  | cons k ks ih =>
    intro s hs
    rw [List.foldl_cons]
    exact ih (fun k2 hk2 => h k2 (List.mem_cons_of_mem _ hk2)) _
      (h k (List.mem_cons_self _ _) s hs)

theorem forLoop_preserves {σ : Type} (P : σ → Prop) (lo hi : Nat) (body : Nat → σ → σ)
    (h : ∀ i st, lo ≤ i → i < hi → P st → P (body i st)) (s : σ) (hs : P s) :
    P (forLoop lo hi body s) := by
  unfold forLoop
  apply foldl_preserves P _ _ _ s hs
  intro k hk st hst
  rw [List.mem_range'_1] at hk
  exact h k st hk.1 (by omega) hst

theorem forLoop_proj {σ α : Type} (proj : σ → α) (lo hi : Nat) (body : Nat → σ → σ)
    (h : ∀ i st, proj (body i st) = proj st) (s : σ) :
    proj (forLoop lo hi body s) = proj s :=
  forLoop_preserves (fun st => proj st = proj s) lo hi body
    (fun i st _ _ hst => (h i st).trans hst) s rfl

theorem foldl_establish {σ κ : Type} (Q : σ → Prop) (f : σ → κ → σ) (l : List κ) (k0 : κ)
    (hk0 : k0 ∈ l) (hest : ∀ st, Q (f st k0)) (hpres : ∀ k ∈ l, ∀ st, Q st → Q (f st k)) :
    ∀ s, Q (l.foldl f s) := by
  induction l with
  | nil => cases hk0
  | cons k ks ih =>
    intro s
    rw [List.foldl_cons]
    rcases List.mem_cons.mp hk0 with h | h
    · subst h
      exact foldl_preserves Q f ks (fun k2 hk2 => hpres k2 (List.mem_cons_of_mem _ hk2)) _ (hest s)
    · exact ih h (fun k2 hk2 => hpres k2 (List.mem_cons_of_mem _ hk2)) _

theorem forLoop_establish {σ : Type} (Q : σ → Prop) (lo hi : Nat) (body : Nat → σ → σ)
    (i0 : Nat) (hlo : lo ≤ i0) (hhi : i0 < hi) (hest : ∀ st, Q (body i0 st))
    (hpres : ∀ i st, lo ≤ i → i < hi → Q st → Q (body i st)) (s : σ) :
    Q (forLoop lo hi body s) := by
  unfold forLoop
  apply foldl_establish Q _ _ i0
  · rw [List.mem_range'_1]; omega
  · exact hest
  · intro k hk st hst
    rw [List.mem_range'_1] at hk
    exact hpres k st hk.1 (by omega) hst

theorem forLoop_zero_iter {σ : Type} (lo hi : Nat) (body : Nat → σ → σ) (s : σ) (h : hi ≤ lo) :
    forLoop lo hi body s = s := by
  unfold forLoop
  rw [Nat.sub_eq_zero_of_le h]
  rfl

/-! ## Nested loops as folds over index lists -/

theorem foldl_flatMap {σ α β : Type} (f : σ → β → σ) (g : α → List β) (l : List α) (s : σ) :
    (l.flatMap g).foldl f s = l.foldl (fun st a => (g a).foldl f st) s := by
  induction l generalizing s with
  | nil => rfl
  | cons a as ih => simp [List.flatMap_cons, List.foldl_append, ih]

theorem forLoop2_eq_foldl {σ : Type} (lo1 hi1 lo2 hi2 : Nat) (body : Nat × Nat → σ → σ) (s : σ) :
    forLoop lo1 hi1 (fun i st => forLoop lo2 hi2 (fun j st => body (i, j) st) st) s =
      (keys2 lo1 hi1 lo2 hi2).foldl (fun st k => body k st) s := by
  unfold forLoop keys2
  rw [foldl_flatMap]
  simp only [List.foldl_map]

theorem forLoop3_eq_foldl {σ : Type} (lo1 hi1 lo2 hi2 lo3 hi3 : Nat)
    (body : Nat × Nat × Nat → σ → σ) (s : σ) :
    forLoop lo1 hi1 (fun i st => forLoop lo2 hi2 (fun j st =>
      forLoop lo3 hi3 (fun k st => body (i, j, k) st) st) st) s =
      (keys3 lo1 hi1 lo2 hi2 lo3 hi3).foldl (fun st k => body k st) s := by
  unfold keys3
  rw [foldl_flatMap]
  simp only [List.foldl_map]
  unfold forLoop
  congr 1
  funext st i
  exact forLoop2_eq_foldl lo2 hi2 lo3 hi3 (fun jk st => body (i, jk.1, jk.2) st) st

theorem mem_keys2 {lo1 hi1 lo2 hi2 : Nat} {k : Nat × Nat} :
    k ∈ keys2 lo1 hi1 lo2 hi2 ↔ inBox2 lo1 hi1 lo2 hi2 k := by
  obtain ⟨a, b⟩ := k
  unfold keys2 inBox2
  simp only [List.mem_flatMap, List.mem_map, List.mem_range'_1, Prod.mk.injEq]
  constructor
  · rintro ⟨i, hi, j, hj, rfl, rfl⟩
    omega
  · rintro ⟨h1, h2⟩
    exact ⟨a, by omega, b, by omega, rfl, rfl⟩

theorem mem_keys3 {lo1 hi1 lo2 hi2 lo3 hi3 : Nat} {k : Nat × Nat × Nat} :
    k ∈ keys3 lo1 hi1 lo2 hi2 lo3 hi3 ↔ inBox3 lo1 hi1 lo2 hi2 lo3 hi3 k := by
  obtain ⟨a, b, c⟩ := k
  unfold keys3 inBox3
  simp only [List.mem_flatMap, List.mem_map, List.mem_range'_1, Prod.mk.injEq, mem_keys2, inBox2]
  constructor
  · rintro ⟨i, hi, ⟨j, k⟩, hjk, rfl, rfl, rfl⟩
    simp only at hjk
    omega
  · rintro ⟨h1, h2, h3⟩
    exact ⟨a, by omega, (b, c), ⟨by simpa using h2, by simpa using h3⟩, rfl, rfl, rfl⟩

theorem nodup_keys2 (lo1 hi1 lo2 hi2 : Nat) : (keys2 lo1 hi1 lo2 hi2).Nodup := by
  unfold keys2
  rw [List.nodup_flatMap]
  refine ⟨fun i _ => ?_, ?_⟩
  · exact (List.nodup_range' _ _).map (fun a b h => by simpa using h)
  · refine (List.nodup_range' _ _).pairwise_of_forall_ne ?_
    intro i _ j _ hij
    simp only [Function.onFun, List.disjoint_left, List.mem_map]
    rintro ⟨a, b⟩ ⟨x, _, hx⟩ ⟨y, _, hy⟩
    simp only [Prod.mk.injEq] at hx hy
    omega

theorem nodup_keys3 (lo1 hi1 lo2 hi2 lo3 hi3 : Nat) :
    (keys3 lo1 hi1 lo2 hi2 lo3 hi3).Nodup := by
  unfold keys3
  rw [List.nodup_flatMap]
  refine ⟨fun i _ => ?_, ?_⟩
  · exact (nodup_keys2 _ _ _ _).map (fun a b h => by
      simp only [Prod.mk.injEq, true_and] at h
      exact Prod.ext h.1 h.2)
  · refine (List.nodup_range' _ _).pairwise_of_forall_ne ?_
    intro i _ j _ hij
    simp only [Function.onFun, List.disjoint_left, List.mem_map]
    rintro ⟨a, b, c⟩ ⟨x, _, hx⟩ ⟨y, _, hy⟩
    simp only [Prod.mk.injEq] at hx hy
    omega

/-! ## Stores -/

theorem store_same {κ α : Type} [DecidableEq κ] (a : κ → α) (k : κ) (v : α) :
    store a k v k = v := by
  simp [store]

theorem store_other {κ α : Type} [DecidableEq κ] (a : κ → α) (k x : κ) (v : α) (h : x ≠ k) :
    store a k v x = a x := by
  simp [store, h]

/-- A loop whose iteration `k` rewrites the cell `k` of one array from its old value. -/
theorem foldl_store_mem {κ : Type} [DecidableEq κ] (P : κ → ℚ → ℚ) (ks : List κ)
    (hnd : ks.Nodup) (a : κ → ℚ) (x : κ) :
    (x ∈ ks → ks.foldl (fun a k => store a k (P k (a k))) a x = P x (a x)) ∧
      (x ∉ ks → ks.foldl (fun a k => store a k (P k (a k))) a x = a x) := by
  induction ks generalizing a with
  | nil => simp
  | cons k ks ih =>
    have hk : k ∉ ks := (List.nodup_cons.mp hnd).1
    obtain ⟨ih1, ih2⟩ := ih (List.nodup_cons.mp hnd).2 (store a k (P k (a k)))
    rw [List.foldl_cons]
    by_cases hx : x = k
    · subst hx
      refine ⟨fun _ => ?_, fun h => absurd (List.mem_cons_self _ _) h⟩
      rw [ih2 hk, store_same]
    · refine ⟨fun h => ?_, fun h => ?_⟩
      · rw [ih1 ((List.mem_cons.mp h).resolve_left hx), store_other _ _ _ _ hx]
      · rw [ih2 (fun h2 => h (List.mem_cons_of_mem _ h2)), store_other _ _ _ _ hx]

theorem foldl_store_self {κ : Type} [DecidableEq κ] (P : κ → ℚ → ℚ) (ks : List κ)
    (hnd : ks.Nodup) (inB : κ → Prop) [DecidablePred inB] (hmem : ∀ x, x ∈ ks ↔ inB x)
    (a : κ → ℚ) :
    ks.foldl (fun a k => store a k (P k (a k))) a =
      fun x => if inB x then P x (a x) else a x := by
  funext x
  by_cases hx : inB x
  · rw [if_pos hx]
    exact (foldl_store_mem P ks hnd a x).1 ((hmem x).mpr hx)
  · rw [if_neg hx]
    exact (foldl_store_mem P ks hnd a x).2 (fun h => hx ((hmem x).mp h))

theorem foldl_pairStep {κ κ2 : Type} [DecidableEq κ] [DecidableEq κ2] (P : κ → ℚ → ℚ)
    (U : κ → ℚ → ℚ → ℚ) (f : κ → κ2) (ks : List κ) (hnd : ks.Nodup)
    (hinj : ∀ k ∈ ks, ∀ k2 ∈ ks, f k = f k2 → k = k2) (p : (κ → ℚ) × (κ2 → ℚ)) :
    (∀ x, (x ∈ ks → (ks.foldl (fun p k => pairStep P U f k p) p).1 x = P x (p.1 x)) ∧
        (x ∉ ks → (ks.foldl (fun p k => pairStep P U f k p) p).1 x = p.1 x)) ∧
      (∀ k ∈ ks, (ks.foldl (fun p k => pairStep P U f k p) p).2 (f k) =
        U k (p.2 (f k)) (P k (p.1 k))) ∧
      (∀ y, (∀ k ∈ ks, f k ≠ y) → (ks.foldl (fun p k => pairStep P U f k p) p).2 y = p.2 y) := by
  induction ks generalizing p with
  | nil => simp
  | cons k ks ih =>
    have hk : k ∉ ks := (List.nodup_cons.mp hnd).1
    have hinj2 : ∀ a ∈ ks, ∀ a2 ∈ ks, f a = f a2 → a = a2 := fun a ha a2 ha2 h =>
      hinj a (List.mem_cons_of_mem _ ha) a2 (List.mem_cons_of_mem _ ha2) h
    have hfk : ∀ a ∈ ks, f a ≠ f k := fun a ha h =>
      hk ((hinj a (List.mem_cons_of_mem _ ha) k (List.mem_cons_self _ _) h) ▸ ha)
    obtain ⟨ih1, ih2, ih3⟩ := ih (List.nodup_cons.mp hnd).2 hinj2 (pairStep P U f k p)
    rw [List.foldl_cons]
    refine ⟨?_, ?_, ?_⟩
    · intro x
      by_cases hx : x = k
      · subst hx
        refine ⟨fun _ => ?_, fun h => absurd (List.mem_cons_self _ _) h⟩
        rw [(ih1 x).2 hk]
        simp [pairStep, store_same]
      · refine ⟨fun h => ?_, fun h => ?_⟩
        · rw [(ih1 x).1 ((List.mem_cons.mp h).resolve_left hx)]
          simp [pairStep, store_other, hx]
        · rw [(ih1 x).2 (fun h2 => h (List.mem_cons_of_mem _ h2))]
          simp [pairStep, store_other, hx]
    · intro a ha
      rcases List.mem_cons.mp ha with h | h
      · subst h
        rw [ih3 _ hfk]
        simp [pairStep, store_same]
      · rw [ih2 a h]
        have hne : a ≠ k := fun e => hk (e ▸ h)
        simp [pairStep, store_other, hne, hfk a h]
    · intro y hy
      rw [ih3 y (fun a ha => hy a (List.mem_cons_of_mem _ ha))]
      have hne : y ≠ f k := fun e => hy k (List.mem_cons_self _ _) e.symm
      simp [pairStep, store_other, hne]

/-- A loop acting on part of a state: when every iteration acts through the
embedding `emb`, so does the whole loop. -/
theorem foldl_lift {σ π κ : Type} (emb : π → σ) (body : κ → σ → σ) (step : κ → π → π)
    (ks : List κ) (h : ∀ k p, body k (emb p) = emb (step k p)) (p : π) :
    ks.foldl (fun s k => body k s) (emb p) = emb (ks.foldl (fun p k => step k p) p) := by
  induction ks generalizing p with
  | nil => rfl
  | cons k ks ih => rw [List.foldl_cons, List.foldl_cons, h, ih]

/-- Two independent loops run in lock step. -/
theorem foldl_prod {α β κ : Type} (f : κ → α → α) (g : κ → β → β) (ks : List κ) (a : α) (b : β) :
    ks.foldl (fun p k => (f k p.1, g k p.2)) (a, b) =
      (ks.foldl (fun a k => f k a) a, ks.foldl (fun b k => g k b) b) := by
  induction ks generalizing a b with
  | nil => rfl
  | cons k ks ih => rw [List.foldl_cons, List.foldl_cons, List.foldl_cons, ih]

theorem forLoop2_eq_foldl_curried {σ : Type} (lo1 hi1 lo2 hi2 : Nat) (body : Nat → Nat → σ → σ)
    (s : σ) :
    forLoop lo1 hi1 (fun i st => forLoop lo2 hi2 (fun j st => body i j st) st) s =
      (keys2 lo1 hi1 lo2 hi2).foldl (fun st k => body k.1 k.2 st) s :=
  forLoop2_eq_foldl lo1 hi1 lo2 hi2 (fun k st => body k.1 k.2 st) s

theorem forLoop3_eq_foldl_curried {σ : Type} (lo1 hi1 lo2 hi2 lo3 hi3 : Nat)
    (body : Nat → Nat → Nat → σ → σ) (s : σ) :
    forLoop lo1 hi1 (fun i st => forLoop lo2 hi2 (fun j st =>
      forLoop lo3 hi3 (fun k st => body i j k st) st) st) s =
      (keys3 lo1 hi1 lo2 hi2 lo3 hi3).foldl (fun st k => body k.1 k.2.1 k.2.2 st) s :=
  forLoop3_eq_foldl lo1 hi1 lo2 hi2 lo3 hi3 (fun k st => body k.1 k.2.1 k.2.2 st) s

/-- A loop that rewrites the cell `k` of one member array of a state. -/
theorem foldl_lift_store {σ κ : Type} [DecidableEq κ] (emb : (κ → ℚ) → σ) (body : κ → σ → σ)
    (P : κ → ℚ → ℚ) (ks : List κ) (hnd : ks.Nodup) (inB : κ → Prop) [DecidablePred inB]
    (hmem : ∀ x, x ∈ ks ↔ inB x)
    (h : ∀ k a, body k (emb a) = emb (store a k (P k (a k)))) (a : κ → ℚ) :
    ks.foldl (fun s k => body k s) (emb a) =
      emb (fun x => if inB x then P x (a x) else a x) := by
  rw [foldl_lift emb body (fun k a => store a k (P k (a k))) ks h a,
    foldl_store_self P ks hnd inB hmem a]

/-- A loop whose iteration rewrites two auxiliary cells and two field cells. -/
theorem foldl_lift_pair2 {σ κ : Type} [DecidableEq κ]
    (emb : ((κ → ℚ) × (κ → ℚ)) × ((κ → ℚ) × (κ → ℚ)) → σ)
    (body : κ → σ → σ) (P1 : κ → ℚ → ℚ) (U1 : κ → ℚ → ℚ → ℚ) (P2 : κ → ℚ → ℚ)
    (U2 : κ → ℚ → ℚ → ℚ) (f : κ → κ) (ks : List κ)
    (hnd : ks.Nodup) (hinj : ∀ k ∈ ks, ∀ k2 ∈ ks, f k = f k2 → k = k2)
    (h : ∀ k p, body k (emb p) = emb (pairStep P1 U1 f k p.1, pairStep P2 U2 f k p.2))
    (p : ((κ → ℚ) × (κ → ℚ)) × ((κ → ℚ) × (κ → ℚ))) :
    ∃ q : ((κ → ℚ) × (κ → ℚ)) × ((κ → ℚ) × (κ → ℚ)),
      ks.foldl (fun s k => body k s) (emb p) = emb q ∧
      ((∀ x, x ∈ ks → q.1.1 x = P1 x (p.1.1 x)) ∧ (∀ x, x ∉ ks → q.1.1 x = p.1.1 x) ∧
        (∀ k, k ∈ ks → q.1.2 (f k) = U1 k (p.1.2 (f k)) (q.1.1 k)) ∧
        (∀ y, (∀ k, k ∈ ks → f k ≠ y) → q.1.2 y = p.1.2 y)) ∧
      ((∀ x, x ∈ ks → q.2.1 x = P2 x (p.2.1 x)) ∧ (∀ x, x ∉ ks → q.2.1 x = p.2.1 x) ∧
        (∀ k, k ∈ ks → q.2.2 (f k) = U2 k (p.2.2 (f k)) (q.2.1 k)) ∧
        (∀ y, (∀ k, k ∈ ks → f k ≠ y) → q.2.2 y = p.2.2 y)) := by
  obtain ⟨a1, a2, a3⟩ := foldl_pairStep P1 U1 f ks hnd hinj p.1
  obtain ⟨b1, b2, b3⟩ := foldl_pairStep P2 U2 f ks hnd hinj p.2
  have hl := foldl_lift emb body
    (fun k p => (pairStep P1 U1 f k p.1, pairStep P2 U2 f k p.2)) ks h p
  have hp := foldl_prod (fun k p => pairStep P1 U1 f k p) (fun k p => pairStep P2 U2 f k p)
    ks p.1 p.2
  refine ⟨_, hl.trans (congrArg emb hp),
    ⟨fun x hx => (a1 x).1 hx, fun x hx => (a1 x).2 hx, fun k hk => ?_, a3⟩,
    ⟨fun x hx => (b1 x).1 hx, fun x hx => (b1 x).2 hx, fun k hk => ?_, b3⟩⟩
  · show (ks.foldl (fun p k => pairStep P1 U1 f k p) p.1).2 (f k) = _
    rw [a2 k hk]
    show _ = U1 k _ ((ks.foldl (fun p k => pairStep P1 U1 f k p) p.1).1 k)
    rw [(a1 k).1 hk]
  · show (ks.foldl (fun p k => pairStep P2 U2 f k p) p.2).2 (f k) = _
    rw [b2 k hk]
    show _ = U2 k _ ((ks.foldl (fun p k => pairStep P2 U2 f k p) p.2).1 k)
    rw [(b1 k).1 hk]

namespace D2

end D2

namespace D2

end D2

namespace D3

theorem update_electric_cpml_left_aux (g : fdtd3D) 
    (hflag : flagSet (g.border_condition border_left) border_cpml = true) :
    ∃ q : (Arr3 × Arr3) × (Arr3 × Arr3),
      update_electric_cpml_left g = { g with psi_ex_left := q.1.1, ex := q.1.2, psi_ez_left := q.2.1, ez := q.2.2 } ∧
      ((∀ k, k ∈ keys3 0 g.sizeX 0 g.cpml_thickness 0 g.sizeZ → q.1.1 k = g.bx k.2.1 * g.psi_ex_left k +
          g.cx k.2.1 * (g.hz (k.1, 1 + k.2.1, k.2.2) - g.hz (k.1, k.2.1, k.2.2)) * (1 / g.dy)) ∧
        (∀ k, k ∉ keys3 0 g.sizeX 0 g.cpml_thickness 0 g.sizeZ → q.1.1 k = g.psi_ex_left k) ∧
        (∀ k, k ∈ keys3 0 g.sizeX 0 g.cpml_thickness 0 g.sizeZ → q.1.2 (k.1, 1 + k.2.1, k.2.2) =
          g.ex (k.1, 1 + k.2.1, k.2.2) + g.dt * g.permittivity_inv (k.1, 1 + k.2.1, k.2.2) * q.1.1 k) ∧
        (∀ y, (∀ k, k ∈ keys3 0 g.sizeX 0 g.cpml_thickness 0 g.sizeZ → (k.1, 1 + k.2.1, k.2.2) ≠ y) → q.1.2 y = g.ex y)) ∧
      ((∀ k, k ∈ keys3 0 g.sizeX 0 g.cpml_thickness 0 g.sizeZ → q.2.1 k = g.bx k.2.1 * g.psi_ez_left k +
          g.cx k.2.1 * (g.hx (k.1, 1 + k.2.1, k.2.2) - g.hx (k.1, k.2.1, k.2.2)) * (1 / g.dy)) ∧
        (∀ k, k ∉ keys3 0 g.sizeX 0 g.cpml_thickness 0 g.sizeZ → q.2.1 k = g.psi_ez_left k) ∧
        (∀ k, k ∈ keys3 0 g.sizeX 0 g.cpml_thickness 0 g.sizeZ → q.2.2 (k.1, 1 + k.2.1, k.2.2) =
          g.ez (k.1, 1 + k.2.1, k.2.2) - g.dt * g.permittivity_inv (k.1, 1 + k.2.1, k.2.2) * q.2.1 k) ∧
        (∀ y, (∀ k, k ∈ keys3 0 g.sizeX 0 g.cpml_thickness 0 g.sizeZ → (k.1, 1 + k.2.1, k.2.2) ≠ y) → q.2.2 y = g.ez y)) := by
  unfold update_electric_cpml_left
  rw [if_pos hflag, forLoop3_eq_foldl_curried]
  refine foldl_lift_pair2
    (fun p : (Arr3 × Arr3) × (Arr3 × Arr3) =>
      ({ g with psi_ex_left := p.1.1, ex := p.1.2, psi_ez_left := p.2.1, ez := p.2.2 } : fdtd3D)) _
    (fun k old => g.bx k.2.1 * old + g.cx k.2.1 * (g.hz (k.1, 1 + k.2.1, k.2.2) - g.hz (k.1, k.2.1, k.2.2)) * (1 / g.dy))
    (fun k old psi => old + g.dt * g.permittivity_inv (k.1, 1 + k.2.1, k.2.2) * psi)
    (fun k old => g.bx k.2.1 * old + g.cx k.2.1 * (g.hx (k.1, 1 + k.2.1, k.2.2) - g.hx (k.1, k.2.1, k.2.2)) * (1 / g.dy))
    (fun k old psi => old - g.dt * g.permittivity_inv (k.1, 1 + k.2.1, k.2.2) * psi)
    (fun k => (k.1, 1 + k.2.1, k.2.2)) _ (nodup_keys3 _ _ _ _ _ _) ?_ ?_
    ((g.psi_ex_left, g.ex), (g.psi_ez_left, g.ez))
  ·
    intro k hk k2 hk2 h
    simp only [Prod.mk.injEq] at h
    exact Prod.ext h.1 (Prod.ext (by omega) h.2.2)
  · intro k p
    rfl

theorem update_electric_cpml_left_spec (g : fdtd3D) :
    (flagSet (g.border_condition border_left) border_cpml = true →
      (cpml_face_spec (inBox3 0 g.sizeX 0 g.cpml_thickness 0 g.sizeZ) (fun k => k.2.1) (fun k => (k.1, 1 + k.2.1, k.2.2))
          g.bx g.cx (fun k => bwd_y g.hz g.dy (k.1, 1 + k.2.1, k.2.2))
          1 g.dt g.permittivity_inv g.psi_ex_left (update_electric_cpml_left g).psi_ex_left g.ex (update_electric_cpml_left g).ex) ∧
      (cpml_face_spec (inBox3 0 g.sizeX 0 g.cpml_thickness 0 g.sizeZ) (fun k => k.2.1) (fun k => (k.1, 1 + k.2.1, k.2.2))
          g.bx g.cx (fun k => bwd_y g.hx g.dy (k.1, 1 + k.2.1, k.2.2))
          (-1) g.dt g.permittivity_inv g.psi_ez_left (update_electric_cpml_left g).psi_ez_left g.ez (update_electric_cpml_left g).ez)) ∧
    (flagSet (g.border_condition border_left) border_cpml = false → update_electric_cpml_left g = g) ∧
    update_electric_cpml_left g =
      { g with psi_ex_left := (update_electric_cpml_left g).psi_ex_left, ex := (update_electric_cpml_left g).ex, psi_ez_left := (update_electric_cpml_left g).psi_ez_left, ez := (update_electric_cpml_left g).ez } := by
  by_cases hflag : flagSet (g.border_condition border_left) border_cpml = true
  · obtain ⟨q, hq, ⟨a1, a2, a3, a4⟩, ⟨b1, b2, b3, b4⟩⟩ := update_electric_cpml_left_aux g hflag
    have hidx : ∀ k : Nat × Nat × Nat, inBox3 0 g.sizeX 0 g.cpml_thickness 0 g.sizeZ k →
        (k.1, 1 + k.2.1 - 1, k.2.2) = (k.1, k.2.1, k.2.2) := by
      intro k _
      rw [Nat.add_sub_cancel_left]
    refine ⟨fun _ => ?_, fun h => ?_, ?_⟩
    · rw [hq]
      refine ⟨⟨fun k hk => ?_, fun k hk => ?_, fun k hk => ?_, fun y hy => ?_⟩,
        ⟨fun k hk => ?_, fun k hk => ?_, fun k hk => ?_, fun y hy => ?_⟩⟩
      · rw [show ({ g with psi_ex_left := q.1.1, ex := q.1.2, psi_ez_left := q.2.1, ez := q.2.2 } : fdtd3D).psi_ex_left k = q.1.1 k from rfl,
          a1 k (mem_keys3.mpr hk)]
        unfold bwd_y
        dsimp only
        rw [hidx k hk]
        ring
      · exact a2 k (fun h => hk (mem_keys3.mp h))
      · have h3 := a3 k (mem_keys3.mpr hk)
        rw [show ({ g with psi_ex_left := q.1.1, ex := q.1.2, psi_ez_left := q.2.1, ez := q.2.2 } : fdtd3D).ex (k.1, 1 + k.2.1, k.2.2) = q.1.2 (k.1, 1 + k.2.1, k.2.2) from rfl,
          show ({ g with psi_ex_left := q.1.1, ex := q.1.2, psi_ez_left := q.2.1, ez := q.2.2 } : fdtd3D).psi_ex_left k = q.1.1 k from rfl, h3]
        ring
      · refine a4 y (fun k hk => ?_)
        exact hy k (mem_keys3.mp hk)
      · rw [show ({ g with psi_ex_left := q.1.1, ex := q.1.2, psi_ez_left := q.2.1, ez := q.2.2 } : fdtd3D).psi_ez_left k = q.2.1 k from rfl,
          b1 k (mem_keys3.mpr hk)]
        unfold bwd_y
        dsimp only
        rw [hidx k hk]
        ring
      · exact b2 k (fun h => hk (mem_keys3.mp h))
      · have h3 := b3 k (mem_keys3.mpr hk)
        rw [show ({ g with psi_ex_left := q.1.1, ex := q.1.2, psi_ez_left := q.2.1, ez := q.2.2 } : fdtd3D).ez (k.1, 1 + k.2.1, k.2.2) = q.2.2 (k.1, 1 + k.2.1, k.2.2) from rfl,
          show ({ g with psi_ex_left := q.1.1, ex := q.1.2, psi_ez_left := q.2.1, ez := q.2.2 } : fdtd3D).psi_ez_left k = q.2.1 k from rfl, h3]
        ring
      · refine b4 y (fun k hk => ?_)
        exact hy k (mem_keys3.mp hk)
    · rw [hflag] at h
      cases h
    · rw [hq]
  · have hf : flagSet (g.border_condition border_left) border_cpml = false := by
      cases hb : flagSet (g.border_condition border_left) border_cpml
      · rfl
      · exact absurd hb hflag
    have hid : update_electric_cpml_left g = g := by
      unfold update_electric_cpml_left
      rw [hf]
      rfl
    refine ⟨fun h => absurd h hflag, fun _ => hid, ?_⟩
    rw [hid]

theorem update_electric_cpml_right_aux (g : fdtd3D) (hT : g.cpml_thickness < UINTMAX_MOD)
    (hflag : flagSet (g.border_condition border_right) border_cpml = true) :
    ∃ q : (Arr3 × Arr3) × (Arr3 × Arr3),
      update_electric_cpml_right g = { g with psi_ex_right := q.1.1, ex := q.1.2, psi_ez_right := q.2.1, ez := q.2.2 } ∧
      ((∀ k, k ∈ keys3 0 g.sizeX 0 g.cpml_thickness 0 g.sizeZ → q.1.1 k = g.bx k.2.1 * g.psi_ex_right k +
          g.cx k.2.1 * (g.hz (k.1, usub (usub g.sizeY 1) k.2.1, k.2.2) - g.hz (k.1, usub (usub g.sizeY 2) k.2.1, k.2.2)) * (1 / g.dy)) ∧
        (∀ k, k ∉ keys3 0 g.sizeX 0 g.cpml_thickness 0 g.sizeZ → q.1.1 k = g.psi_ex_right k) ∧
        (∀ k, k ∈ keys3 0 g.sizeX 0 g.cpml_thickness 0 g.sizeZ → q.1.2 (k.1, usub (usub g.sizeY 1) k.2.1, k.2.2) =
          g.ex (k.1, usub (usub g.sizeY 1) k.2.1, k.2.2) + g.dt * g.permittivity_inv (k.1, usub (usub g.sizeY 1) k.2.1, k.2.2) * q.1.1 k) ∧
        (∀ y, (∀ k, k ∈ keys3 0 g.sizeX 0 g.cpml_thickness 0 g.sizeZ → (k.1, usub (usub g.sizeY 1) k.2.1, k.2.2) ≠ y) → q.1.2 y = g.ex y)) ∧
      ((∀ k, k ∈ keys3 0 g.sizeX 0 g.cpml_thickness 0 g.sizeZ → q.2.1 k = g.bx k.2.1 * g.psi_ez_right k +
          g.cx k.2.1 * (g.hx (k.1, usub (usub g.sizeY 1) k.2.1, k.2.2) - g.hx (k.1, usub (usub g.sizeY 2) k.2.1, k.2.2)) * (1 / g.dy)) ∧
        (∀ k, k ∉ keys3 0 g.sizeX 0 g.cpml_thickness 0 g.sizeZ → q.2.1 k = g.psi_ez_right k) ∧
        (∀ k, k ∈ keys3 0 g.sizeX 0 g.cpml_thickness 0 g.sizeZ → q.2.2 (k.1, usub (usub g.sizeY 1) k.2.1, k.2.2) =
          g.ez (k.1, usub (usub g.sizeY 1) k.2.1, k.2.2) - g.dt * g.permittivity_inv (k.1, usub (usub g.sizeY 1) k.2.1, k.2.2) * q.2.1 k) ∧
        (∀ y, (∀ k, k ∈ keys3 0 g.sizeX 0 g.cpml_thickness 0 g.sizeZ → (k.1, usub (usub g.sizeY 1) k.2.1, k.2.2) ≠ y) → q.2.2 y = g.ez y)) := by
  unfold update_electric_cpml_right
  rw [if_pos hflag, forLoop3_eq_foldl_curried]
  refine foldl_lift_pair2
    (fun p : (Arr3 × Arr3) × (Arr3 × Arr3) =>
      ({ g with psi_ex_right := p.1.1, ex := p.1.2, psi_ez_right := p.2.1, ez := p.2.2 } : fdtd3D)) _
    (fun k old => g.bx k.2.1 * old + g.cx k.2.1 * (g.hz (k.1, usub (usub g.sizeY 1) k.2.1, k.2.2) - g.hz (k.1, usub (usub g.sizeY 2) k.2.1, k.2.2)) * (1 / g.dy))
    (fun k old psi => old + g.dt * g.permittivity_inv (k.1, usub (usub g.sizeY 1) k.2.1, k.2.2) * psi)
    (fun k old => g.bx k.2.1 * old + g.cx k.2.1 * (g.hx (k.1, usub (usub g.sizeY 1) k.2.1, k.2.2) - g.hx (k.1, usub (usub g.sizeY 2) k.2.1, k.2.2)) * (1 / g.dy))
    (fun k old psi => old - g.dt * g.permittivity_inv (k.1, usub (usub g.sizeY 1) k.2.1, k.2.2) * psi)
    (fun k => (k.1, usub (usub g.sizeY 1) k.2.1, k.2.2)) _ (nodup_keys3 _ _ _ _ _ _) ?_ ?_
    ((g.psi_ex_right, g.ex), (g.psi_ez_right, g.ez))
  ·
    intro k hk k2 hk2 h
    rw [mem_keys3] at hk hk2
    unfold inBox3 at hk hk2
    simp only [Prod.mk.injEq] at h
    have hu := usub_inj (show k.2.1 < UINTMAX_MOD by omega) (show k2.2.1 < UINTMAX_MOD by omega)
      (usub_lt _ _) h.2.1
    exact Prod.ext h.1 (Prod.ext hu h.2.2)
  · intro k p
    rfl

theorem update_electric_cpml_right_spec (g : fdtd3D) (hT : g.cpml_thickness < UINTMAX_MOD) (hS : g.cpml_thickness + 1 ≤ g.sizeY) (hS2 : g.sizeY < UINTMAX_MOD) :
    (flagSet (g.border_condition border_right) border_cpml = true →
      (cpml_face_spec (inBox3 0 g.sizeX 0 g.cpml_thickness 0 g.sizeZ) (fun k => k.2.1) (fun k => (k.1, g.sizeY - 1 - k.2.1, k.2.2))
          g.bx g.cx (fun k => bwd_y g.hz g.dy (k.1, g.sizeY - 1 - k.2.1, k.2.2))
          1 g.dt g.permittivity_inv g.psi_ex_right (update_electric_cpml_right g).psi_ex_right g.ex (update_electric_cpml_right g).ex) ∧
      (cpml_face_spec (inBox3 0 g.sizeX 0 g.cpml_thickness 0 g.sizeZ) (fun k => k.2.1) (fun k => (k.1, g.sizeY - 1 - k.2.1, k.2.2))
          g.bx g.cx (fun k => bwd_y g.hx g.dy (k.1, g.sizeY - 1 - k.2.1, k.2.2))
          (-1) g.dt g.permittivity_inv g.psi_ez_right (update_electric_cpml_right g).psi_ez_right g.ez (update_electric_cpml_right g).ez)) ∧
    (flagSet (g.border_condition border_right) border_cpml = false → update_electric_cpml_right g = g) ∧
    update_electric_cpml_right g =
      { g with psi_ex_right := (update_electric_cpml_right g).psi_ex_right, ex := (update_electric_cpml_right g).ex, psi_ez_right := (update_electric_cpml_right g).psi_ez_right, ez := (update_electric_cpml_right g).ez } := by
  by_cases hflag : flagSet (g.border_condition border_right) border_cpml = true
  · obtain ⟨q, hq, ⟨a1, a2, a3, a4⟩, ⟨b1, b2, b3, b4⟩⟩ := update_electric_cpml_right_aux g hT hflag
    have hidx : ∀ k : Nat × Nat × Nat, inBox3 0 g.sizeX 0 g.cpml_thickness 0 g.sizeZ k →
        usub (usub g.sizeY 1) k.2.1 = g.sizeY - 1 - k.2.1 ∧ usub (usub g.sizeY 2) k.2.1 = g.sizeY - 2 - k.2.1 ∧
        g.sizeY - 1 - k.2.1 - 1 = g.sizeY - 2 - k.2.1 ∧ g.sizeY - 2 - k.2.1 + 1 = g.sizeY - 1 - k.2.1 := by
      intro k hk
      unfold inBox3 at hk
      rw [usub_eq_sub (by omega) hS2, usub_eq_sub (by omega) hS2,
        usub_eq_sub (by omega) (by omega), usub_eq_sub (by omega) (by omega)]
      omega
    refine ⟨fun _ => ?_, fun h => ?_, ?_⟩
    · rw [hq]
      refine ⟨⟨fun k hk => ?_, fun k hk => ?_, fun k hk => ?_, fun y hy => ?_⟩,
        ⟨fun k hk => ?_, fun k hk => ?_, fun k hk => ?_, fun y hy => ?_⟩⟩
      · rw [show ({ g with psi_ex_right := q.1.1, ex := q.1.2, psi_ez_right := q.2.1, ez := q.2.2 } : fdtd3D).psi_ex_right k = q.1.1 k from rfl,
          a1 k (mem_keys3.mpr hk)]
        unfold bwd_y
        dsimp only
        rw [(hidx k hk).1, (hidx k hk).2.1, (hidx k hk).2.2.1]
        ring
      · exact a2 k (fun h => hk (mem_keys3.mp h))
      · have h3 := a3 k (mem_keys3.mpr hk)
        rw [(hidx k hk).1] at h3
        rw [show ({ g with psi_ex_right := q.1.1, ex := q.1.2, psi_ez_right := q.2.1, ez := q.2.2 } : fdtd3D).ex (k.1, g.sizeY - 1 - k.2.1, k.2.2) = q.1.2 (k.1, g.sizeY - 1 - k.2.1, k.2.2) from rfl,
          show ({ g with psi_ex_right := q.1.1, ex := q.1.2, psi_ez_right := q.2.1, ez := q.2.2 } : fdtd3D).psi_ex_right k = q.1.1 k from rfl, h3]
        ring
      · refine a4 y (fun k hk => ?_)
        rw [(hidx k (mem_keys3.mp hk)).1]
        exact hy k (mem_keys3.mp hk)
      · rw [show ({ g with psi_ex_right := q.1.1, ex := q.1.2, psi_ez_right := q.2.1, ez := q.2.2 } : fdtd3D).psi_ez_right k = q.2.1 k from rfl,
          b1 k (mem_keys3.mpr hk)]
        unfold bwd_y
        dsimp only
        rw [(hidx k hk).1, (hidx k hk).2.1, (hidx k hk).2.2.1]
        ring
      · exact b2 k (fun h => hk (mem_keys3.mp h))
      · have h3 := b3 k (mem_keys3.mpr hk)
        rw [(hidx k hk).1] at h3
        rw [show ({ g with psi_ex_right := q.1.1, ex := q.1.2, psi_ez_right := q.2.1, ez := q.2.2 } : fdtd3D).ez (k.1, g.sizeY - 1 - k.2.1, k.2.2) = q.2.2 (k.1, g.sizeY - 1 - k.2.1, k.2.2) from rfl,
          show ({ g with psi_ex_right := q.1.1, ex := q.1.2, psi_ez_right := q.2.1, ez := q.2.2 } : fdtd3D).psi_ez_right k = q.2.1 k from rfl, h3]
        ring
      · refine b4 y (fun k hk => ?_)
        rw [(hidx k (mem_keys3.mp hk)).1]
        exact hy k (mem_keys3.mp hk)
    · rw [hflag] at h
      cases h
    · rw [hq]
  · have hf : flagSet (g.border_condition border_right) border_cpml = false := by
      cases hb : flagSet (g.border_condition border_right) border_cpml
      · rfl
      · exact absurd hb hflag
    have hid : update_electric_cpml_right g = g := by
      unfold update_electric_cpml_right
      rw [hf]
      rfl
    refine ⟨fun h => absurd h hflag, fun _ => hid, ?_⟩
    rw [hid]

theorem update_electric_cpml_front_aux (g : fdtd3D) 
    (hflag : flagSet (g.border_condition border_front) border_cpml = true) :
    ∃ q : (Arr3 × Arr3) × (Arr3 × Arr3),
      update_electric_cpml_front g = { g with psi_ex_front := q.1.1, ex := q.1.2, psi_ey_front := q.2.1, ey := q.2.2 } ∧
      ((∀ k, k ∈ keys3 0 g.sizeX 0 g.sizeY 0 g.cpml_thickness → q.1.1 k = g.bx k.2.2 * g.psi_ex_front k +
          g.cx k.2.2 * (g.hy (k.1, k.2.1, 1 + k.2.2) - g.hy (k.1, k.2.1, k.2.2)) * (1 / g.dz)) ∧
        (∀ k, k ∉ keys3 0 g.sizeX 0 g.sizeY 0 g.cpml_thickness → q.1.1 k = g.psi_ex_front k) ∧
        (∀ k, k ∈ keys3 0 g.sizeX 0 g.sizeY 0 g.cpml_thickness → q.1.2 (k.1, k.2.1, 1 + k.2.2) =
          g.ex (k.1, k.2.1, 1 + k.2.2) - g.dt * g.permittivity_inv (k.1, k.2.1, 1 + k.2.2) * q.1.1 k) ∧
        (∀ y, (∀ k, k ∈ keys3 0 g.sizeX 0 g.sizeY 0 g.cpml_thickness → (k.1, k.2.1, 1 + k.2.2) ≠ y) → q.1.2 y = g.ex y)) ∧
      ((∀ k, k ∈ keys3 0 g.sizeX 0 g.sizeY 0 g.cpml_thickness → q.2.1 k = g.bx k.2.2 * g.psi_ey_front k +
          g.cx k.2.2 * (g.hx (k.1, k.2.1, 1 + k.2.2) - g.hx (k.1, k.2.1, k.2.2)) * (1 / g.dz)) ∧
        (∀ k, k ∉ keys3 0 g.sizeX 0 g.sizeY 0 g.cpml_thickness → q.2.1 k = g.psi_ey_front k) ∧
        (∀ k, k ∈ keys3 0 g.sizeX 0 g.sizeY 0 g.cpml_thickness → q.2.2 (k.1, k.2.1, 1 + k.2.2) =
          g.ey (k.1, k.2.1, 1 + k.2.2) + g.dt * g.permittivity_inv (k.1, k.2.1, 1 + k.2.2) * q.2.1 k) ∧
        (∀ y, (∀ k, k ∈ keys3 0 g.sizeX 0 g.sizeY 0 g.cpml_thickness → (k.1, k.2.1, 1 + k.2.2) ≠ y) → q.2.2 y = g.ey y)) := by
  unfold update_electric_cpml_front
  rw [if_pos hflag, forLoop3_eq_foldl_curried]
  refine foldl_lift_pair2
    (fun p : (Arr3 × Arr3) × (Arr3 × Arr3) =>
      ({ g with psi_ex_front := p.1.1, ex := p.1.2, psi_ey_front := p.2.1, ey := p.2.2 } : fdtd3D)) _
    (fun k old => g.bx k.2.2 * old + g.cx k.2.2 * (g.hy (k.1, k.2.1, 1 + k.2.2) - g.hy (k.1, k.2.1, k.2.2)) * (1 / g.dz))
    (fun k old psi => old - g.dt * g.permittivity_inv (k.1, k.2.1, 1 + k.2.2) * psi)
    (fun k old => g.bx k.2.2 * old + g.cx k.2.2 * (g.hx (k.1, k.2.1, 1 + k.2.2) - g.hx (k.1, k.2.1, k.2.2)) * (1 / g.dz))
    (fun k old psi => old + g.dt * g.permittivity_inv (k.1, k.2.1, 1 + k.2.2) * psi)
    (fun k => (k.1, k.2.1, 1 + k.2.2)) _ (nodup_keys3 _ _ _ _ _ _) ?_ ?_
    ((g.psi_ex_front, g.ex), (g.psi_ey_front, g.ey))
  ·
    intro k hk k2 hk2 h
    simp only [Prod.mk.injEq] at h
    exact Prod.ext h.1 (Prod.ext h.2.1 (by omega))
  · intro k p
    rfl

theorem update_electric_cpml_front_spec (g : fdtd3D) :
    (flagSet (g.border_condition border_front) border_cpml = true →
      (cpml_face_spec (inBox3 0 g.sizeX 0 g.sizeY 0 g.cpml_thickness) (fun k => k.2.2) (fun k => (k.1, k.2.1, 1 + k.2.2))
          g.bx g.cx (fun k => bwd_z g.hy g.dz (k.1, k.2.1, 1 + k.2.2))
          (-1) g.dt g.permittivity_inv g.psi_ex_front (update_electric_cpml_front g).psi_ex_front g.ex (update_electric_cpml_front g).ex) ∧
      (cpml_face_spec (inBox3 0 g.sizeX 0 g.sizeY 0 g.cpml_thickness) (fun k => k.2.2) (fun k => (k.1, k.2.1, 1 + k.2.2))
          g.bx g.cx (fun k => bwd_z g.hx g.dz (k.1, k.2.1, 1 + k.2.2))
          1 g.dt g.permittivity_inv g.psi_ey_front (update_electric_cpml_front g).psi_ey_front g.ey (update_electric_cpml_front g).ey)) ∧
    (flagSet (g.border_condition border_front) border_cpml = false → update_electric_cpml_front g = g) ∧
    update_electric_cpml_front g =
      { g with psi_ex_front := (update_electric_cpml_front g).psi_ex_front, ex := (update_electric_cpml_front g).ex, psi_ey_front := (update_electric_cpml_front g).psi_ey_front, ey := (update_electric_cpml_front g).ey } := by
  by_cases hflag : flagSet (g.border_condition border_front) border_cpml = true
  · obtain ⟨q, hq, ⟨a1, a2, a3, a4⟩, ⟨b1, b2, b3, b4⟩⟩ := update_electric_cpml_front_aux g hflag
    have hidx : ∀ k : Nat × Nat × Nat, inBox3 0 g.sizeX 0 g.sizeY 0 g.cpml_thickness k →
        (k.1, k.2.1, 1 + k.2.2 - 1) = (k.1, k.2.1, k.2.2) := by
      intro k _
      rw [Nat.add_sub_cancel_left]
    refine ⟨fun _ => ?_, fun h => ?_, ?_⟩
    · rw [hq]
      refine ⟨⟨fun k hk => ?_, fun k hk => ?_, fun k hk => ?_, fun y hy => ?_⟩,
        ⟨fun k hk => ?_, fun k hk => ?_, fun k hk => ?_, fun y hy => ?_⟩⟩
      · rw [show ({ g with psi_ex_front := q.1.1, ex := q.1.2, psi_ey_front := q.2.1, ey := q.2.2 } : fdtd3D).psi_ex_front k = q.1.1 k from rfl,
          a1 k (mem_keys3.mpr hk)]
        unfold bwd_z
        dsimp only
        rw [hidx k hk]
        ring
      · exact a2 k (fun h => hk (mem_keys3.mp h))
      · have h3 := a3 k (mem_keys3.mpr hk)
        rw [show ({ g with psi_ex_front := q.1.1, ex := q.1.2, psi_ey_front := q.2.1, ey := q.2.2 } : fdtd3D).ex (k.1, k.2.1, 1 + k.2.2) = q.1.2 (k.1, k.2.1, 1 + k.2.2) from rfl,
          show ({ g with psi_ex_front := q.1.1, ex := q.1.2, psi_ey_front := q.2.1, ey := q.2.2 } : fdtd3D).psi_ex_front k = q.1.1 k from rfl, h3]
        ring
      · refine a4 y (fun k hk => ?_)
        exact hy k (mem_keys3.mp hk)
      · rw [show ({ g with psi_ex_front := q.1.1, ex := q.1.2, psi_ey_front := q.2.1, ey := q.2.2 } : fdtd3D).psi_ey_front k = q.2.1 k from rfl,
          b1 k (mem_keys3.mpr hk)]
        unfold bwd_z
        dsimp only
        rw [hidx k hk]
        ring
      · exact b2 k (fun h => hk (mem_keys3.mp h))
      · have h3 := b3 k (mem_keys3.mpr hk)
        rw [show ({ g with psi_ex_front := q.1.1, ex := q.1.2, psi_ey_front := q.2.1, ey := q.2.2 } : fdtd3D).ey (k.1, k.2.1, 1 + k.2.2) = q.2.2 (k.1, k.2.1, 1 + k.2.2) from rfl,
          show ({ g with psi_ex_front := q.1.1, ex := q.1.2, psi_ey_front := q.2.1, ey := q.2.2 } : fdtd3D).psi_ey_front k = q.2.1 k from rfl, h3]
        ring
      · refine b4 y (fun k hk => ?_)
        exact hy k (mem_keys3.mp hk)
    · rw [hflag] at h
      cases h
    · rw [hq]
  · have hf : flagSet (g.border_condition border_front) border_cpml = false := by
      cases hb : flagSet (g.border_condition border_front) border_cpml
      · rfl
      · exact absurd hb hflag
    have hid : update_electric_cpml_front g = g := by
      unfold update_electric_cpml_front
      rw [hf]
      rfl
    refine ⟨fun h => absurd h hflag, fun _ => hid, ?_⟩
    rw [hid]

theorem update_electric_cpml_back_aux (g : fdtd3D) (hT : g.cpml_thickness < UINTMAX_MOD)
    (hflag : flagSet (g.border_condition border_back) border_cpml = true) :
    ∃ q : (Arr3 × Arr3) × (Arr3 × Arr3),
      update_electric_cpml_back g = { g with psi_ex_back := q.1.1, ex := q.1.2, psi_ey_back := q.2.1, ey := q.2.2 } ∧
      ((∀ k, k ∈ keys3 0 g.sizeX 0 g.sizeY 0 g.cpml_thickness → q.1.1 k = g.bx k.2.2 * g.psi_ex_back k +
          g.cx k.2.2 * (g.hy (k.1, k.2.1, usub (usub g.sizeZ 1) k.2.2) - g.hy (k.1, k.2.1, usub (usub g.sizeZ 2) k.2.2)) * (1 / g.dz)) ∧
        (∀ k, k ∉ keys3 0 g.sizeX 0 g.sizeY 0 g.cpml_thickness → q.1.1 k = g.psi_ex_back k) ∧
        (∀ k, k ∈ keys3 0 g.sizeX 0 g.sizeY 0 g.cpml_thickness → q.1.2 (k.1, k.2.1, usub (usub g.sizeZ 1) k.2.2) =
          g.ex (k.1, k.2.1, usub (usub g.sizeZ 1) k.2.2) - g.dt * g.permittivity_inv (k.1, k.2.1, usub (usub g.sizeZ 1) k.2.2) * q.1.1 k) ∧
        (∀ y, (∀ k, k ∈ keys3 0 g.sizeX 0 g.sizeY 0 g.cpml_thickness → (k.1, k.2.1, usub (usub g.sizeZ 1) k.2.2) ≠ y) → q.1.2 y = g.ex y)) ∧
      ((∀ k, k ∈ keys3 0 g.sizeX 0 g.sizeY 0 g.cpml_thickness → q.2.1 k = g.bx k.2.2 * g.psi_ey_back k +
          g.cx k.2.2 * (g.hx (k.1, k.2.1, usub (usub g.sizeZ 1) k.2.2) - g.hx (k.1, k.2.1, usub (usub g.sizeZ 2) k.2.2)) * (1 / g.dz)) ∧
        (∀ k, k ∉ keys3 0 g.sizeX 0 g.sizeY 0 g.cpml_thickness → q.2.1 k = g.psi_ey_back k) ∧
        (∀ k, k ∈ keys3 0 g.sizeX 0 g.sizeY 0 g.cpml_thickness → q.2.2 (k.1, k.2.1, usub (usub g.sizeZ 1) k.2.2) =
          g.ey (k.1, k.2.1, usub (usub g.sizeZ 1) k.2.2) + g.dt * g.permittivity_inv (k.1, k.2.1, usub (usub g.sizeZ 1) k.2.2) * q.2.1 k) ∧
        (∀ y, (∀ k, k ∈ keys3 0 g.sizeX 0 g.sizeY 0 g.cpml_thickness → (k.1, k.2.1, usub (usub g.sizeZ 1) k.2.2) ≠ y) → q.2.2 y = g.ey y)) := by
  unfold update_electric_cpml_back
  rw [if_pos hflag, forLoop3_eq_foldl_curried]
  refine foldl_lift_pair2
    (fun p : (Arr3 × Arr3) × (Arr3 × Arr3) =>
      ({ g with psi_ex_back := p.1.1, ex := p.1.2, psi_ey_back := p.2.1, ey := p.2.2 } : fdtd3D)) _
    (fun k old => g.bx k.2.2 * old + g.cx k.2.2 * (g.hy (k.1, k.2.1, usub (usub g.sizeZ 1) k.2.2) - g.hy (k.1, k.2.1, usub (usub g.sizeZ 2) k.2.2)) * (1 / g.dz))
    (fun k old psi => old - g.dt * g.permittivity_inv (k.1, k.2.1, usub (usub g.sizeZ 1) k.2.2) * psi)
    (fun k old => g.bx k.2.2 * old + g.cx k.2.2 * (g.hx (k.1, k.2.1, usub (usub g.sizeZ 1) k.2.2) - g.hx (k.1, k.2.1, usub (usub g.sizeZ 2) k.2.2)) * (1 / g.dz))
    (fun k old psi => old + g.dt * g.permittivity_inv (k.1, k.2.1, usub (usub g.sizeZ 1) k.2.2) * psi)
    (fun k => (k.1, k.2.1, usub (usub g.sizeZ 1) k.2.2)) _ (nodup_keys3 _ _ _ _ _ _) ?_ ?_
    ((g.psi_ex_back, g.ex), (g.psi_ey_back, g.ey))
  ·
    intro k hk k2 hk2 h
    rw [mem_keys3] at hk hk2
    unfold inBox3 at hk hk2
    simp only [Prod.mk.injEq] at h
    have hu := usub_inj (show k.2.2 < UINTMAX_MOD by omega) (show k2.2.2 < UINTMAX_MOD by omega)
      (usub_lt _ _) h.2.2
    exact Prod.ext h.1 (Prod.ext h.2.1 hu)
  · intro k p
    rfl

theorem update_electric_cpml_back_spec (g : fdtd3D) (hT : g.cpml_thickness < UINTMAX_MOD) (hS : g.cpml_thickness + 1 ≤ g.sizeZ) (hS2 : g.sizeZ < UINTMAX_MOD) :
    (flagSet (g.border_condition border_back) border_cpml = true →
      (cpml_face_spec (inBox3 0 g.sizeX 0 g.sizeY 0 g.cpml_thickness) (fun k => k.2.2) (fun k => (k.1, k.2.1, g.sizeZ - 1 - k.2.2))
          g.bx g.cx (fun k => bwd_z g.hy g.dz (k.1, k.2.1, g.sizeZ - 1 - k.2.2))
          (-1) g.dt g.permittivity_inv g.psi_ex_back (update_electric_cpml_back g).psi_ex_back g.ex (update_electric_cpml_back g).ex) ∧
      (cpml_face_spec (inBox3 0 g.sizeX 0 g.sizeY 0 g.cpml_thickness) (fun k => k.2.2) (fun k => (k.1, k.2.1, g.sizeZ - 1 - k.2.2))
          g.bx g.cx (fun k => bwd_z g.hx g.dz (k.1, k.2.1, g.sizeZ - 1 - k.2.2))
          1 g.dt g.permittivity_inv g.psi_ey_back (update_electric_cpml_back g).psi_ey_back g.ey (update_electric_cpml_back g).ey)) ∧
    (flagSet (g.border_condition border_back) border_cpml = false → update_electric_cpml_back g = g) ∧
    update_electric_cpml_back g =
      { g with psi_ex_back := (update_electric_cpml_back g).psi_ex_back, ex := (update_electric_cpml_back g).ex, psi_ey_back := (update_electric_cpml_back g).psi_ey_back, ey := (update_electric_cpml_back g).ey } := by
  by_cases hflag : flagSet (g.border_condition border_back) border_cpml = true
  · obtain ⟨q, hq, ⟨a1, a2, a3, a4⟩, ⟨b1, b2, b3, b4⟩⟩ := update_electric_cpml_back_aux g hT hflag
    have hidx : ∀ k : Nat × Nat × Nat, inBox3 0 g.sizeX 0 g.sizeY 0 g.cpml_thickness k →
        usub (usub g.sizeZ 1) k.2.2 = g.sizeZ - 1 - k.2.2 ∧ usub (usub g.sizeZ 2) k.2.2 = g.sizeZ - 2 - k.2.2 ∧
        g.sizeZ - 1 - k.2.2 - 1 = g.sizeZ - 2 - k.2.2 ∧ g.sizeZ - 2 - k.2.2 + 1 = g.sizeZ - 1 - k.2.2 := by
      intro k hk
      unfold inBox3 at hk
      rw [usub_eq_sub (by omega) hS2, usub_eq_sub (by omega) hS2,
        usub_eq_sub (by omega) (by omega), usub_eq_sub (by omega) (by omega)]
      omega
    refine ⟨fun _ => ?_, fun h => ?_, ?_⟩
    · rw [hq]
      refine ⟨⟨fun k hk => ?_, fun k hk => ?_, fun k hk => ?_, fun y hy => ?_⟩,
        ⟨fun k hk => ?_, fun k hk => ?_, fun k hk => ?_, fun y hy => ?_⟩⟩
      · rw [show ({ g with psi_ex_back := q.1.1, ex := q.1.2, psi_ey_back := q.2.1, ey := q.2.2 } : fdtd3D).psi_ex_back k = q.1.1 k from rfl,
          a1 k (mem_keys3.mpr hk)]
        unfold bwd_z
        dsimp only
        rw [(hidx k hk).1, (hidx k hk).2.1, (hidx k hk).2.2.1]
        ring
      · exact a2 k (fun h => hk (mem_keys3.mp h))
      · have h3 := a3 k (mem_keys3.mpr hk)
        rw [(hidx k hk).1] at h3
        rw [show ({ g with psi_ex_back := q.1.1, ex := q.1.2, psi_ey_back := q.2.1, ey := q.2.2 } : fdtd3D).ex (k.1, k.2.1, g.sizeZ - 1 - k.2.2) = q.1.2 (k.1, k.2.1, g.sizeZ - 1 - k.2.2) from rfl,
          show ({ g with psi_ex_back := q.1.1, ex := q.1.2, psi_ey_back := q.2.1, ey := q.2.2 } : fdtd3D).psi_ex_back k = q.1.1 k from rfl, h3]
        ring
      · refine a4 y (fun k hk => ?_)
        rw [(hidx k (mem_keys3.mp hk)).1]
        exact hy k (mem_keys3.mp hk)
      · rw [show ({ g with psi_ex_back := q.1.1, ex := q.1.2, psi_ey_back := q.2.1, ey := q.2.2 } : fdtd3D).psi_ey_back k = q.2.1 k from rfl,
          b1 k (mem_keys3.mpr hk)]
        unfold bwd_z
        dsimp only
        rw [(hidx k hk).1, (hidx k hk).2.1, (hidx k hk).2.2.1]
        ring
      · exact b2 k (fun h => hk (mem_keys3.mp h))
      · have h3 := b3 k (mem_keys3.mpr hk)
        rw [(hidx k hk).1] at h3
        rw [show ({ g with psi_ex_back := q.1.1, ex := q.1.2, psi_ey_back := q.2.1, ey := q.2.2 } : fdtd3D).ey (k.1, k.2.1, g.sizeZ - 1 - k.2.2) = q.2.2 (k.1, k.2.1, g.sizeZ - 1 - k.2.2) from rfl,
          show ({ g with psi_ex_back := q.1.1, ex := q.1.2, psi_ey_back := q.2.1, ey := q.2.2 } : fdtd3D).psi_ey_back k = q.2.1 k from rfl, h3]
        ring
      · refine b4 y (fun k hk => ?_)
        rw [(hidx k (mem_keys3.mp hk)).1]
        exact hy k (mem_keys3.mp hk)
    · rw [hflag] at h
      cases h
    · rw [hq]
  · have hf : flagSet (g.border_condition border_back) border_cpml = false := by
      cases hb : flagSet (g.border_condition border_back) border_cpml
      · rfl
      · exact absurd hb hflag
    have hid : update_electric_cpml_back g = g := by
      unfold update_electric_cpml_back
      rw [hf]
      rfl
    refine ⟨fun h => absurd h hflag, fun _ => hid, ?_⟩
    rw [hid]

theorem update_electric_cpml_bottom_aux (g : fdtd3D) 
    (hflag : flagSet (g.border_condition border_bottom) border_cpml = true) :
    ∃ q : (Arr3 × Arr3) × (Arr3 × Arr3),
      update_electric_cpml_bottom g = { g with psi_ey_bottom := q.1.1, ey := q.1.2, psi_ez_bottom := q.2.1, ez := q.2.2 } ∧
      ((∀ k, k ∈ keys3 0 g.cpml_thickness 0 g.sizeY 0 g.sizeZ → q.1.1 k = g.bx k.1 * g.psi_ey_bottom k +
          g.cx k.1 * (g.hz (1 + k.1, k.2.1, k.2.2) - g.hz (k.1, k.2.1, k.2.2)) * (1 / g.dx)) ∧
        (∀ k, k ∉ keys3 0 g.cpml_thickness 0 g.sizeY 0 g.sizeZ → q.1.1 k = g.psi_ey_bottom k) ∧
        (∀ k, k ∈ keys3 0 g.cpml_thickness 0 g.sizeY 0 g.sizeZ → q.1.2 (1 + k.1, k.2.1, k.2.2) =
          g.ey (1 + k.1, k.2.1, k.2.2) - g.dt * g.permittivity_inv (1 + k.1, k.2.1, k.2.2) * q.1.1 k) ∧
        (∀ y, (∀ k, k ∈ keys3 0 g.cpml_thickness 0 g.sizeY 0 g.sizeZ → (1 + k.1, k.2.1, k.2.2) ≠ y) → q.1.2 y = g.ey y)) ∧
      ((∀ k, k ∈ keys3 0 g.cpml_thickness 0 g.sizeY 0 g.sizeZ → q.2.1 k = g.bx k.1 * g.psi_ez_bottom k +
          g.cx k.1 * (g.hy (1 + k.1, k.2.1, k.2.2) - g.hy (k.1, k.2.1, k.2.2)) * (1 / g.dx)) ∧
        (∀ k, k ∉ keys3 0 g.cpml_thickness 0 g.sizeY 0 g.sizeZ → q.2.1 k = g.psi_ez_bottom k) ∧
        (∀ k, k ∈ keys3 0 g.cpml_thickness 0 g.sizeY 0 g.sizeZ → q.2.2 (1 + k.1, k.2.1, k.2.2) =
          g.ez (1 + k.1, k.2.1, k.2.2) + g.dt * g.permittivity_inv (1 + k.1, k.2.1, k.2.2) * q.2.1 k) ∧
        (∀ y, (∀ k, k ∈ keys3 0 g.cpml_thickness 0 g.sizeY 0 g.sizeZ → (1 + k.1, k.2.1, k.2.2) ≠ y) → q.2.2 y = g.ez y)) := by
  unfold update_electric_cpml_bottom
  rw [if_pos hflag, forLoop3_eq_foldl_curried]
  refine foldl_lift_pair2
    (fun p : (Arr3 × Arr3) × (Arr3 × Arr3) =>
      ({ g with psi_ey_bottom := p.1.1, ey := p.1.2, psi_ez_bottom := p.2.1, ez := p.2.2 } : fdtd3D)) _
    (fun k old => g.bx k.1 * old + g.cx k.1 * (g.hz (1 + k.1, k.2.1, k.2.2) - g.hz (k.1, k.2.1, k.2.2)) * (1 / g.dx))
    (fun k old psi => old - g.dt * g.permittivity_inv (1 + k.1, k.2.1, k.2.2) * psi)
    (fun k old => g.bx k.1 * old + g.cx k.1 * (g.hy (1 + k.1, k.2.1, k.2.2) - g.hy (k.1, k.2.1, k.2.2)) * (1 / g.dx))
    (fun k old psi => old + g.dt * g.permittivity_inv (1 + k.1, k.2.1, k.2.2) * psi)
    (fun k => (1 + k.1, k.2.1, k.2.2)) _ (nodup_keys3 _ _ _ _ _ _) ?_ ?_
    ((g.psi_ey_bottom, g.ey), (g.psi_ez_bottom, g.ez))
  ·
    intro k hk k2 hk2 h
    simp only [Prod.mk.injEq] at h
    exact Prod.ext (by omega) (Prod.ext h.2.1 h.2.2)
  · intro k p
    rfl

theorem update_electric_cpml_bottom_spec (g : fdtd3D) :
    (flagSet (g.border_condition border_bottom) border_cpml = true →
      (cpml_face_spec (inBox3 0 g.cpml_thickness 0 g.sizeY 0 g.sizeZ) (fun k => k.1) (fun k => (1 + k.1, k.2.1, k.2.2))
          g.bx g.cx (fun k => bwd_x g.hz g.dx (1 + k.1, k.2.1, k.2.2))
          (-1) g.dt g.permittivity_inv g.psi_ey_bottom (update_electric_cpml_bottom g).psi_ey_bottom g.ey (update_electric_cpml_bottom g).ey) ∧
      (cpml_face_spec (inBox3 0 g.cpml_thickness 0 g.sizeY 0 g.sizeZ) (fun k => k.1) (fun k => (1 + k.1, k.2.1, k.2.2))
          g.bx g.cx (fun k => bwd_x g.hy g.dx (1 + k.1, k.2.1, k.2.2))
          1 g.dt g.permittivity_inv g.psi_ez_bottom (update_electric_cpml_bottom g).psi_ez_bottom g.ez (update_electric_cpml_bottom g).ez)) ∧
    (flagSet (g.border_condition border_bottom) border_cpml = false → update_electric_cpml_bottom g = g) ∧
    update_electric_cpml_bottom g =
      { g with psi_ey_bottom := (update_electric_cpml_bottom g).psi_ey_bottom, ey := (update_electric_cpml_bottom g).ey, psi_ez_bottom := (update_electric_cpml_bottom g).psi_ez_bottom, ez := (update_electric_cpml_bottom g).ez } := by
  by_cases hflag : flagSet (g.border_condition border_bottom) border_cpml = true
  · obtain ⟨q, hq, ⟨a1, a2, a3, a4⟩, ⟨b1, b2, b3, b4⟩⟩ := update_electric_cpml_bottom_aux g hflag
    have hidx : ∀ k : Nat × Nat × Nat, inBox3 0 g.cpml_thickness 0 g.sizeY 0 g.sizeZ k →
        (1 + k.1 - 1, k.2.1, k.2.2) = (k.1, k.2.1, k.2.2) := by
      intro k _
      rw [Nat.add_sub_cancel_left]
    refine ⟨fun _ => ?_, fun h => ?_, ?_⟩
    · rw [hq]
      refine ⟨⟨fun k hk => ?_, fun k hk => ?_, fun k hk => ?_, fun y hy => ?_⟩,
        ⟨fun k hk => ?_, fun k hk => ?_, fun k hk => ?_, fun y hy => ?_⟩⟩
      · rw [show ({ g with psi_ey_bottom := q.1.1, ey := q.1.2, psi_ez_bottom := q.2.1, ez := q.2.2 } : fdtd3D).psi_ey_bottom k = q.1.1 k from rfl,
          a1 k (mem_keys3.mpr hk)]
        unfold bwd_x
        dsimp only
        rw [hidx k hk]
        ring
      · exact a2 k (fun h => hk (mem_keys3.mp h))
      · have h3 := a3 k (mem_keys3.mpr hk)
        rw [show ({ g with psi_ey_bottom := q.1.1, ey := q.1.2, psi_ez_bottom := q.2.1, ez := q.2.2 } : fdtd3D).ey (1 + k.1, k.2.1, k.2.2) = q.1.2 (1 + k.1, k.2.1, k.2.2) from rfl,
          show ({ g with psi_ey_bottom := q.1.1, ey := q.1.2, psi_ez_bottom := q.2.1, ez := q.2.2 } : fdtd3D).psi_ey_bottom k = q.1.1 k from rfl, h3]
        ring
      · refine a4 y (fun k hk => ?_)
        exact hy k (mem_keys3.mp hk)
      · rw [show ({ g with psi_ey_bottom := q.1.1, ey := q.1.2, psi_ez_bottom := q.2.1, ez := q.2.2 } : fdtd3D).psi_ez_bottom k = q.2.1 k from rfl,
          b1 k (mem_keys3.mpr hk)]
        unfold bwd_x
        dsimp only
        rw [hidx k hk]
        ring
      · exact b2 k (fun h => hk (mem_keys3.mp h))
      · have h3 := b3 k (mem_keys3.mpr hk)
        rw [show ({ g with psi_ey_bottom := q.1.1, ey := q.1.2, psi_ez_bottom := q.2.1, ez := q.2.2 } : fdtd3D).ez (1 + k.1, k.2.1, k.2.2) = q.2.2 (1 + k.1, k.2.1, k.2.2) from rfl,
          show ({ g with psi_ey_bottom := q.1.1, ey := q.1.2, psi_ez_bottom := q.2.1, ez := q.2.2 } : fdtd3D).psi_ez_bottom k = q.2.1 k from rfl, h3]
        ring
      · refine b4 y (fun k hk => ?_)
        exact hy k (mem_keys3.mp hk)
    · rw [hflag] at h
      cases h
    · rw [hq]
  · have hf : flagSet (g.border_condition border_bottom) border_cpml = false := by
      cases hb : flagSet (g.border_condition border_bottom) border_cpml
      · rfl
      · exact absurd hb hflag
    have hid : update_electric_cpml_bottom g = g := by
      unfold update_electric_cpml_bottom
      rw [hf]
      rfl
    refine ⟨fun h => absurd h hflag, fun _ => hid, ?_⟩
    rw [hid]

theorem update_electric_cpml_top_aux (g : fdtd3D) (hT : g.cpml_thickness < UINTMAX_MOD)
    (hflag : flagSet (g.border_condition border_top) border_cpml = true) :
    ∃ q : (Arr3 × Arr3) × (Arr3 × Arr3),
      update_electric_cpml_top g = { g with psi_ey_top := q.1.1, ey := q.1.2, psi_ez_top := q.2.1, ez := q.2.2 } ∧
      ((∀ k, k ∈ keys3 0 g.cpml_thickness 0 g.sizeY 0 g.sizeZ → q.1.1 k = g.bx k.1 * g.psi_ey_top k +
          g.cx k.1 * (g.hz (usub (usub g.sizeX 1) k.1, k.2.1, k.2.2) - g.hz (usub (usub g.sizeX 2) k.1, k.2.1, k.2.2)) * (1 / g.dx)) ∧
        (∀ k, k ∉ keys3 0 g.cpml_thickness 0 g.sizeY 0 g.sizeZ → q.1.1 k = g.psi_ey_top k) ∧
        (∀ k, k ∈ keys3 0 g.cpml_thickness 0 g.sizeY 0 g.sizeZ → q.1.2 (usub (usub g.sizeX 1) k.1, k.2.1, k.2.2) =
          g.ey (usub (usub g.sizeX 1) k.1, k.2.1, k.2.2) - g.dt * g.permittivity_inv (usub (usub g.sizeX 1) k.1, k.2.1, k.2.2) * q.1.1 k) ∧
        (∀ y, (∀ k, k ∈ keys3 0 g.cpml_thickness 0 g.sizeY 0 g.sizeZ → (usub (usub g.sizeX 1) k.1, k.2.1, k.2.2) ≠ y) → q.1.2 y = g.ey y)) ∧
      ((∀ k, k ∈ keys3 0 g.cpml_thickness 0 g.sizeY 0 g.sizeZ → q.2.1 k = g.bx k.1 * g.psi_ez_top k +
          g.cx k.1 * (g.hy (usub (usub g.sizeX 1) k.1, k.2.1, k.2.2) - g.hy (usub (usub g.sizeX 2) k.1, k.2.1, k.2.2)) * (1 / g.dx)) ∧
        (∀ k, k ∉ keys3 0 g.cpml_thickness 0 g.sizeY 0 g.sizeZ → q.2.1 k = g.psi_ez_top k) ∧
        (∀ k, k ∈ keys3 0 g.cpml_thickness 0 g.sizeY 0 g.sizeZ → q.2.2 (usub (usub g.sizeX 1) k.1, k.2.1, k.2.2) =
          g.ez (usub (usub g.sizeX 1) k.1, k.2.1, k.2.2) + g.dt * g.permittivity_inv (usub (usub g.sizeX 1) k.1, k.2.1, k.2.2) * q.2.1 k) ∧
        (∀ y, (∀ k, k ∈ keys3 0 g.cpml_thickness 0 g.sizeY 0 g.sizeZ → (usub (usub g.sizeX 1) k.1, k.2.1, k.2.2) ≠ y) → q.2.2 y = g.ez y)) := by
  unfold update_electric_cpml_top
  rw [if_pos hflag, forLoop3_eq_foldl_curried]
  refine foldl_lift_pair2
    (fun p : (Arr3 × Arr3) × (Arr3 × Arr3) =>
      ({ g with psi_ey_top := p.1.1, ey := p.1.2, psi_ez_top := p.2.1, ez := p.2.2 } : fdtd3D)) _
    (fun k old => g.bx k.1 * old + g.cx k.1 * (g.hz (usub (usub g.sizeX 1) k.1, k.2.1, k.2.2) - g.hz (usub (usub g.sizeX 2) k.1, k.2.1, k.2.2)) * (1 / g.dx))
    (fun k old psi => old - g.dt * g.permittivity_inv (usub (usub g.sizeX 1) k.1, k.2.1, k.2.2) * psi)
    (fun k old => g.bx k.1 * old + g.cx k.1 * (g.hy (usub (usub g.sizeX 1) k.1, k.2.1, k.2.2) - g.hy (usub (usub g.sizeX 2) k.1, k.2.1, k.2.2)) * (1 / g.dx))
    (fun k old psi => old + g.dt * g.permittivity_inv (usub (usub g.sizeX 1) k.1, k.2.1, k.2.2) * psi)
    (fun k => (usub (usub g.sizeX 1) k.1, k.2.1, k.2.2)) _ (nodup_keys3 _ _ _ _ _ _) ?_ ?_
    ((g.psi_ey_top, g.ey), (g.psi_ez_top, g.ez))
  ·
    intro k hk k2 hk2 h
    rw [mem_keys3] at hk hk2
    unfold inBox3 at hk hk2
    simp only [Prod.mk.injEq] at h
    have hu := usub_inj (show k.1 < UINTMAX_MOD by omega) (show k2.1 < UINTMAX_MOD by omega)
      (usub_lt _ _) h.1
    exact Prod.ext hu (Prod.ext h.2.1 h.2.2)
  · intro k p
    rfl

theorem update_electric_cpml_top_spec (g : fdtd3D) (hT : g.cpml_thickness < UINTMAX_MOD) (hS : g.cpml_thickness + 1 ≤ g.sizeX) (hS2 : g.sizeX < UINTMAX_MOD) :
    (flagSet (g.border_condition border_top) border_cpml = true →
      (cpml_face_spec (inBox3 0 g.cpml_thickness 0 g.sizeY 0 g.sizeZ) (fun k => k.1) (fun k => (g.sizeX - 1 - k.1, k.2.1, k.2.2))
          g.bx g.cx (fun k => bwd_x g.hz g.dx (g.sizeX - 1 - k.1, k.2.1, k.2.2))
          (-1) g.dt g.permittivity_inv g.psi_ey_top (update_electric_cpml_top g).psi_ey_top g.ey (update_electric_cpml_top g).ey) ∧
      (cpml_face_spec (inBox3 0 g.cpml_thickness 0 g.sizeY 0 g.sizeZ) (fun k => k.1) (fun k => (g.sizeX - 1 - k.1, k.2.1, k.2.2))
          g.bx g.cx (fun k => bwd_x g.hy g.dx (g.sizeX - 1 - k.1, k.2.1, k.2.2))
          1 g.dt g.permittivity_inv g.psi_ez_top (update_electric_cpml_top g).psi_ez_top g.ez (update_electric_cpml_top g).ez)) ∧
    (flagSet (g.border_condition border_top) border_cpml = false → update_electric_cpml_top g = g) ∧
    update_electric_cpml_top g =
      { g with psi_ey_top := (update_electric_cpml_top g).psi_ey_top, ey := (update_electric_cpml_top g).ey, psi_ez_top := (update_electric_cpml_top g).psi_ez_top, ez := (update_electric_cpml_top g).ez } := by
  by_cases hflag : flagSet (g.border_condition border_top) border_cpml = true
  · obtain ⟨q, hq, ⟨a1, a2, a3, a4⟩, ⟨b1, b2, b3, b4⟩⟩ := update_electric_cpml_top_aux g hT hflag
    have hidx : ∀ k : Nat × Nat × Nat, inBox3 0 g.cpml_thickness 0 g.sizeY 0 g.sizeZ k →
        usub (usub g.sizeX 1) k.1 = g.sizeX - 1 - k.1 ∧ usub (usub g.sizeX 2) k.1 = g.sizeX - 2 - k.1 ∧
        g.sizeX - 1 - k.1 - 1 = g.sizeX - 2 - k.1 ∧ g.sizeX - 2 - k.1 + 1 = g.sizeX - 1 - k.1 := by
      intro k hk
      unfold inBox3 at hk
      rw [usub_eq_sub (by omega) hS2, usub_eq_sub (by omega) hS2,
        usub_eq_sub (by omega) (by omega), usub_eq_sub (by omega) (by omega)]
      omega
    refine ⟨fun _ => ?_, fun h => ?_, ?_⟩
    · rw [hq]
      refine ⟨⟨fun k hk => ?_, fun k hk => ?_, fun k hk => ?_, fun y hy => ?_⟩,
        ⟨fun k hk => ?_, fun k hk => ?_, fun k hk => ?_, fun y hy => ?_⟩⟩
      · rw [show ({ g with psi_ey_top := q.1.1, ey := q.1.2, psi_ez_top := q.2.1, ez := q.2.2 } : fdtd3D).psi_ey_top k = q.1.1 k from rfl,
          a1 k (mem_keys3.mpr hk)]
        unfold bwd_x
        dsimp only
        rw [(hidx k hk).1, (hidx k hk).2.1, (hidx k hk).2.2.1]
        ring
      · exact a2 k (fun h => hk (mem_keys3.mp h))
      · have h3 := a3 k (mem_keys3.mpr hk)
        rw [(hidx k hk).1] at h3
        rw [show ({ g with psi_ey_top := q.1.1, ey := q.1.2, psi_ez_top := q.2.1, ez := q.2.2 } : fdtd3D).ey (g.sizeX - 1 - k.1, k.2.1, k.2.2) = q.1.2 (g.sizeX - 1 - k.1, k.2.1, k.2.2) from rfl,
          show ({ g with psi_ey_top := q.1.1, ey := q.1.2, psi_ez_top := q.2.1, ez := q.2.2 } : fdtd3D).psi_ey_top k = q.1.1 k from rfl, h3]
        ring
      · refine a4 y (fun k hk => ?_)
        rw [(hidx k (mem_keys3.mp hk)).1]
        exact hy k (mem_keys3.mp hk)
      · rw [show ({ g with psi_ey_top := q.1.1, ey := q.1.2, psi_ez_top := q.2.1, ez := q.2.2 } : fdtd3D).psi_ez_top k = q.2.1 k from rfl,
          b1 k (mem_keys3.mpr hk)]
        unfold bwd_x
        dsimp only
        rw [(hidx k hk).1, (hidx k hk).2.1, (hidx k hk).2.2.1]
        ring
      · exact b2 k (fun h => hk (mem_keys3.mp h))
      · have h3 := b3 k (mem_keys3.mpr hk)
        rw [(hidx k hk).1] at h3
        rw [show ({ g with psi_ey_top := q.1.1, ey := q.1.2, psi_ez_top := q.2.1, ez := q.2.2 } : fdtd3D).ez (g.sizeX - 1 - k.1, k.2.1, k.2.2) = q.2.2 (g.sizeX - 1 - k.1, k.2.1, k.2.2) from rfl,
          show ({ g with psi_ey_top := q.1.1, ey := q.1.2, psi_ez_top := q.2.1, ez := q.2.2 } : fdtd3D).psi_ez_top k = q.2.1 k from rfl, h3]
        ring
      · refine b4 y (fun k hk => ?_)
        rw [(hidx k (mem_keys3.mp hk)).1]
        exact hy k (mem_keys3.mp hk)
    · rw [hflag] at h
      cases h
    · rw [hq]
  · have hf : flagSet (g.border_condition border_top) border_cpml = false := by
      cases hb : flagSet (g.border_condition border_top) border_cpml
      · rfl
      · exact absurd hb hflag
    have hid : update_electric_cpml_top g = g := by
      unfold update_electric_cpml_top
      rw [hf]
      rfl
    refine ⟨fun h => absurd h hflag, fun _ => hid, ?_⟩
    rw [hid]

theorem update_magnetic_cpml_left_aux (g : fdtd3D) 
    (hflag : flagSet (g.border_condition border_left) border_cpml = true) :
    ∃ q : (Arr3 × Arr3) × (Arr3 × Arr3),
      update_magnetic_cpml_left g = { g with psi_hx_left := q.1.1, hx := q.1.2, psi_hz_left := q.2.1, hz := q.2.2 } ∧
      ((∀ k, k ∈ keys3 0 g.sizeX 0 g.cpml_thickness 0 g.sizeZ → q.1.1 k = g.bx k.2.1 * g.psi_hx_left k +
          g.cx k.2.1 * (g.ez (k.1, k.2.1 + 1, k.2.2) - g.ez (k.1, k.2.1, k.2.2)) * (1 / g.dy)) ∧
        (∀ k, k ∉ keys3 0 g.sizeX 0 g.cpml_thickness 0 g.sizeZ → q.1.1 k = g.psi_hx_left k) ∧
        (∀ k, k ∈ keys3 0 g.sizeX 0 g.cpml_thickness 0 g.sizeZ → q.1.2 (k.1, k.2.1, k.2.2) =
          g.hx (k.1, k.2.1, k.2.2) - g.dt * g.permeability_inv (k.1, k.2.1, k.2.2) * q.1.1 k) ∧
        (∀ y, (∀ k, k ∈ keys3 0 g.sizeX 0 g.cpml_thickness 0 g.sizeZ → (k.1, k.2.1, k.2.2) ≠ y) → q.1.2 y = g.hx y)) ∧
      ((∀ k, k ∈ keys3 0 g.sizeX 0 g.cpml_thickness 0 g.sizeZ → q.2.1 k = g.bx k.2.1 * g.psi_hz_left k +
          g.cx k.2.1 * (g.ex (k.1, k.2.1 + 1, k.2.2) - g.ex (k.1, k.2.1, k.2.2)) * (1 / g.dy)) ∧
        (∀ k, k ∉ keys3 0 g.sizeX 0 g.cpml_thickness 0 g.sizeZ → q.2.1 k = g.psi_hz_left k) ∧
        (∀ k, k ∈ keys3 0 g.sizeX 0 g.cpml_thickness 0 g.sizeZ → q.2.2 (k.1, k.2.1, k.2.2) =
          g.hz (k.1, k.2.1, k.2.2) + g.dt * g.permeability_inv (k.1, k.2.1, k.2.2) * q.2.1 k) ∧
        (∀ y, (∀ k, k ∈ keys3 0 g.sizeX 0 g.cpml_thickness 0 g.sizeZ → (k.1, k.2.1, k.2.2) ≠ y) → q.2.2 y = g.hz y)) := by
  unfold update_magnetic_cpml_left
  rw [if_pos hflag, forLoop3_eq_foldl_curried]
  refine foldl_lift_pair2
    (fun p : (Arr3 × Arr3) × (Arr3 × Arr3) =>
      ({ g with psi_hx_left := p.1.1, hx := p.1.2, psi_hz_left := p.2.1, hz := p.2.2 } : fdtd3D)) _
    (fun k old => g.bx k.2.1 * old + g.cx k.2.1 * (g.ez (k.1, k.2.1 + 1, k.2.2) - g.ez (k.1, k.2.1, k.2.2)) * (1 / g.dy))
    (fun k old psi => old - g.dt * g.permeability_inv (k.1, k.2.1, k.2.2) * psi)
    (fun k old => g.bx k.2.1 * old + g.cx k.2.1 * (g.ex (k.1, k.2.1 + 1, k.2.2) - g.ex (k.1, k.2.1, k.2.2)) * (1 / g.dy))
    (fun k old psi => old + g.dt * g.permeability_inv (k.1, k.2.1, k.2.2) * psi)
    (fun k => (k.1, k.2.1, k.2.2)) _ (nodup_keys3 _ _ _ _ _ _) ?_ ?_
    ((g.psi_hx_left, g.hx), (g.psi_hz_left, g.hz))
  ·
    intro k hk k2 hk2 h
    simp only [Prod.mk.injEq] at h
    exact Prod.ext h.1 (Prod.ext (by omega) h.2.2)
  · intro k p
    rfl

theorem update_magnetic_cpml_left_spec (g : fdtd3D) :
    (flagSet (g.border_condition border_left) border_cpml = true →
      (cpml_face_spec (inBox3 0 g.sizeX 0 g.cpml_thickness 0 g.sizeZ) (fun k => k.2.1) (fun k => (k.1, k.2.1, k.2.2))
          g.bx g.cx (fun k => fwd_y g.ez g.dy (k.1, k.2.1, k.2.2))
          (-1) g.dt g.permeability_inv g.psi_hx_left (update_magnetic_cpml_left g).psi_hx_left g.hx (update_magnetic_cpml_left g).hx) ∧
      (cpml_face_spec (inBox3 0 g.sizeX 0 g.cpml_thickness 0 g.sizeZ) (fun k => k.2.1) (fun k => (k.1, k.2.1, k.2.2))
          g.bx g.cx (fun k => fwd_y g.ex g.dy (k.1, k.2.1, k.2.2))
          1 g.dt g.permeability_inv g.psi_hz_left (update_magnetic_cpml_left g).psi_hz_left g.hz (update_magnetic_cpml_left g).hz)) ∧
    (flagSet (g.border_condition border_left) border_cpml = false → update_magnetic_cpml_left g = g) ∧
    update_magnetic_cpml_left g =
      { g with psi_hx_left := (update_magnetic_cpml_left g).psi_hx_left, hx := (update_magnetic_cpml_left g).hx, psi_hz_left := (update_magnetic_cpml_left g).psi_hz_left, hz := (update_magnetic_cpml_left g).hz } := by
  by_cases hflag : flagSet (g.border_condition border_left) border_cpml = true
  · obtain ⟨q, hq, ⟨a1, a2, a3, a4⟩, ⟨b1, b2, b3, b4⟩⟩ := update_magnetic_cpml_left_aux g hflag

    refine ⟨fun _ => ?_, fun h => ?_, ?_⟩
    · rw [hq]
      refine ⟨⟨fun k hk => ?_, fun k hk => ?_, fun k hk => ?_, fun y hy => ?_⟩,
        ⟨fun k hk => ?_, fun k hk => ?_, fun k hk => ?_, fun y hy => ?_⟩⟩
      · rw [show ({ g with psi_hx_left := q.1.1, hx := q.1.2, psi_hz_left := q.2.1, hz := q.2.2 } : fdtd3D).psi_hx_left k = q.1.1 k from rfl,
          a1 k (mem_keys3.mpr hk)]
        unfold fwd_y
        dsimp only
        ring
      · exact a2 k (fun h => hk (mem_keys3.mp h))
      · have h3 := a3 k (mem_keys3.mpr hk)
        rw [show ({ g with psi_hx_left := q.1.1, hx := q.1.2, psi_hz_left := q.2.1, hz := q.2.2 } : fdtd3D).hx (k.1, k.2.1, k.2.2) = q.1.2 (k.1, k.2.1, k.2.2) from rfl,
          show ({ g with psi_hx_left := q.1.1, hx := q.1.2, psi_hz_left := q.2.1, hz := q.2.2 } : fdtd3D).psi_hx_left k = q.1.1 k from rfl, h3]
        ring
      · refine a4 y (fun k hk => ?_)
        exact hy k (mem_keys3.mp hk)
      · rw [show ({ g with psi_hx_left := q.1.1, hx := q.1.2, psi_hz_left := q.2.1, hz := q.2.2 } : fdtd3D).psi_hz_left k = q.2.1 k from rfl,
          b1 k (mem_keys3.mpr hk)]
        unfold fwd_y
        dsimp only
        ring
      · exact b2 k (fun h => hk (mem_keys3.mp h))
      · have h3 := b3 k (mem_keys3.mpr hk)
        rw [show ({ g with psi_hx_left := q.1.1, hx := q.1.2, psi_hz_left := q.2.1, hz := q.2.2 } : fdtd3D).hz (k.1, k.2.1, k.2.2) = q.2.2 (k.1, k.2.1, k.2.2) from rfl,
          show ({ g with psi_hx_left := q.1.1, hx := q.1.2, psi_hz_left := q.2.1, hz := q.2.2 } : fdtd3D).psi_hz_left k = q.2.1 k from rfl, h3]
        ring
      · refine b4 y (fun k hk => ?_)
        exact hy k (mem_keys3.mp hk)
    · rw [hflag] at h
      cases h
    · rw [hq]
  · have hf : flagSet (g.border_condition border_left) border_cpml = false := by
      cases hb : flagSet (g.border_condition border_left) border_cpml
      · rfl
      · exact absurd hb hflag
    have hid : update_magnetic_cpml_left g = g := by
      unfold update_magnetic_cpml_left
      rw [hf]
      rfl
    refine ⟨fun h => absurd h hflag, fun _ => hid, ?_⟩
    rw [hid]

theorem update_magnetic_cpml_right_aux (g : fdtd3D) (hT : g.cpml_thickness < UINTMAX_MOD)
    (hflag : flagSet (g.border_condition border_right) border_cpml = true) :
    ∃ q : (Arr3 × Arr3) × (Arr3 × Arr3),
      update_magnetic_cpml_right g = { g with psi_hx_right := q.1.1, hx := q.1.2, psi_hz_right := q.2.1, hz := q.2.2 } ∧
      ((∀ k, k ∈ keys3 0 g.sizeX 0 g.cpml_thickness 0 g.sizeZ → q.1.1 k = g.bx k.2.1 * g.psi_hx_right k +
          g.cx k.2.1 * (g.ez (k.1, usub (usub g.sizeY 1) k.2.1, k.2.2) - g.ez (k.1, usub (usub g.sizeY 2) k.2.1, k.2.2)) * (1 / g.dy)) ∧
        (∀ k, k ∉ keys3 0 g.sizeX 0 g.cpml_thickness 0 g.sizeZ → q.1.1 k = g.psi_hx_right k) ∧
        (∀ k, k ∈ keys3 0 g.sizeX 0 g.cpml_thickness 0 g.sizeZ → q.1.2 (k.1, usub (usub g.sizeY 2) k.2.1, k.2.2) =
          g.hx (k.1, usub (usub g.sizeY 2) k.2.1, k.2.2) - g.dt * g.permeability_inv (k.1, usub (usub g.sizeY 2) k.2.1, k.2.2) * q.1.1 k) ∧
        (∀ y, (∀ k, k ∈ keys3 0 g.sizeX 0 g.cpml_thickness 0 g.sizeZ → (k.1, usub (usub g.sizeY 2) k.2.1, k.2.2) ≠ y) → q.1.2 y = g.hx y)) ∧
      ((∀ k, k ∈ keys3 0 g.sizeX 0 g.cpml_thickness 0 g.sizeZ → q.2.1 k = g.bx k.2.1 * g.psi_hz_right k +
          g.cx k.2.1 * (g.ex (k.1, usub (usub g.sizeY 1) k.2.1, k.2.2) - g.ex (k.1, usub (usub g.sizeY 2) k.2.1, k.2.2)) * (1 / g.dy)) ∧
        (∀ k, k ∉ keys3 0 g.sizeX 0 g.cpml_thickness 0 g.sizeZ → q.2.1 k = g.psi_hz_right k) ∧
        (∀ k, k ∈ keys3 0 g.sizeX 0 g.cpml_thickness 0 g.sizeZ → q.2.2 (k.1, usub (usub g.sizeY 2) k.2.1, k.2.2) =
          g.hz (k.1, usub (usub g.sizeY 2) k.2.1, k.2.2) + g.dt * g.permeability_inv (k.1, usub (usub g.sizeY 2) k.2.1, k.2.2) * q.2.1 k) ∧
        (∀ y, (∀ k, k ∈ keys3 0 g.sizeX 0 g.cpml_thickness 0 g.sizeZ → (k.1, usub (usub g.sizeY 2) k.2.1, k.2.2) ≠ y) → q.2.2 y = g.hz y)) := by
  unfold update_magnetic_cpml_right
  rw [if_pos hflag, forLoop3_eq_foldl_curried]
  refine foldl_lift_pair2
    (fun p : (Arr3 × Arr3) × (Arr3 × Arr3) =>
      ({ g with psi_hx_right := p.1.1, hx := p.1.2, psi_hz_right := p.2.1, hz := p.2.2 } : fdtd3D)) _
    (fun k old => g.bx k.2.1 * old + g.cx k.2.1 * (g.ez (k.1, usub (usub g.sizeY 1) k.2.1, k.2.2) - g.ez (k.1, usub (usub g.sizeY 2) k.2.1, k.2.2)) * (1 / g.dy))
    (fun k old psi => old - g.dt * g.permeability_inv (k.1, usub (usub g.sizeY 2) k.2.1, k.2.2) * psi)
    (fun k old => g.bx k.2.1 * old + g.cx k.2.1 * (g.ex (k.1, usub (usub g.sizeY 1) k.2.1, k.2.2) - g.ex (k.1, usub (usub g.sizeY 2) k.2.1, k.2.2)) * (1 / g.dy))
    (fun k old psi => old + g.dt * g.permeability_inv (k.1, usub (usub g.sizeY 2) k.2.1, k.2.2) * psi)
    (fun k => (k.1, usub (usub g.sizeY 2) k.2.1, k.2.2)) _ (nodup_keys3 _ _ _ _ _ _) ?_ ?_
    ((g.psi_hx_right, g.hx), (g.psi_hz_right, g.hz))
  ·
    intro k hk k2 hk2 h
    rw [mem_keys3] at hk hk2
    unfold inBox3 at hk hk2
    simp only [Prod.mk.injEq] at h
    have hu := usub_inj (show k.2.1 < UINTMAX_MOD by omega) (show k2.2.1 < UINTMAX_MOD by omega)
      (usub_lt _ _) h.2.1
    exact Prod.ext h.1 (Prod.ext hu h.2.2)
  · intro k p
    rfl

theorem update_magnetic_cpml_right_spec (g : fdtd3D) (hT : g.cpml_thickness < UINTMAX_MOD) (hS : g.cpml_thickness + 1 ≤ g.sizeY) (hS2 : g.sizeY < UINTMAX_MOD) :
    (flagSet (g.border_condition border_right) border_cpml = true →
      (cpml_face_spec (inBox3 0 g.sizeX 0 g.cpml_thickness 0 g.sizeZ) (fun k => k.2.1) (fun k => (k.1, g.sizeY - 2 - k.2.1, k.2.2))
          g.bx g.cx (fun k => fwd_y g.ez g.dy (k.1, g.sizeY - 2 - k.2.1, k.2.2))
          (-1) g.dt g.permeability_inv g.psi_hx_right (update_magnetic_cpml_right g).psi_hx_right g.hx (update_magnetic_cpml_right g).hx) ∧
      (cpml_face_spec (inBox3 0 g.sizeX 0 g.cpml_thickness 0 g.sizeZ) (fun k => k.2.1) (fun k => (k.1, g.sizeY - 2 - k.2.1, k.2.2))
          g.bx g.cx (fun k => fwd_y g.ex g.dy (k.1, g.sizeY - 2 - k.2.1, k.2.2))
          1 g.dt g.permeability_inv g.psi_hz_right (update_magnetic_cpml_right g).psi_hz_right g.hz (update_magnetic_cpml_right g).hz)) ∧
    (flagSet (g.border_condition border_right) border_cpml = false → update_magnetic_cpml_right g = g) ∧
    update_magnetic_cpml_right g =
      { g with psi_hx_right := (update_magnetic_cpml_right g).psi_hx_right, hx := (update_magnetic_cpml_right g).hx, psi_hz_right := (update_magnetic_cpml_right g).psi_hz_right, hz := (update_magnetic_cpml_right g).hz } := by
  by_cases hflag : flagSet (g.border_condition border_right) border_cpml = true
  · obtain ⟨q, hq, ⟨a1, a2, a3, a4⟩, ⟨b1, b2, b3, b4⟩⟩ := update_magnetic_cpml_right_aux g hT hflag
    have hidx : ∀ k : Nat × Nat × Nat, inBox3 0 g.sizeX 0 g.cpml_thickness 0 g.sizeZ k →
        usub (usub g.sizeY 1) k.2.1 = g.sizeY - 1 - k.2.1 ∧ usub (usub g.sizeY 2) k.2.1 = g.sizeY - 2 - k.2.1 ∧
        g.sizeY - 1 - k.2.1 - 1 = g.sizeY - 2 - k.2.1 ∧ g.sizeY - 2 - k.2.1 + 1 = g.sizeY - 1 - k.2.1 := by
      intro k hk
      unfold inBox3 at hk
      rw [usub_eq_sub (by omega) hS2, usub_eq_sub (by omega) hS2,
        usub_eq_sub (by omega) (by omega), usub_eq_sub (by omega) (by omega)]
      omega
    refine ⟨fun _ => ?_, fun h => ?_, ?_⟩
    · rw [hq]
      refine ⟨⟨fun k hk => ?_, fun k hk => ?_, fun k hk => ?_, fun y hy => ?_⟩,
        ⟨fun k hk => ?_, fun k hk => ?_, fun k hk => ?_, fun y hy => ?_⟩⟩
      · rw [show ({ g with psi_hx_right := q.1.1, hx := q.1.2, psi_hz_right := q.2.1, hz := q.2.2 } : fdtd3D).psi_hx_right k = q.1.1 k from rfl,
          a1 k (mem_keys3.mpr hk)]
        unfold fwd_y
        dsimp only
        rw [(hidx k hk).1, (hidx k hk).2.1, (hidx k hk).2.2.2]
        ring
      · exact a2 k (fun h => hk (mem_keys3.mp h))
      · have h3 := a3 k (mem_keys3.mpr hk)
        rw [(hidx k hk).2.1] at h3
        rw [show ({ g with psi_hx_right := q.1.1, hx := q.1.2, psi_hz_right := q.2.1, hz := q.2.2 } : fdtd3D).hx (k.1, g.sizeY - 2 - k.2.1, k.2.2) = q.1.2 (k.1, g.sizeY - 2 - k.2.1, k.2.2) from rfl,
          show ({ g with psi_hx_right := q.1.1, hx := q.1.2, psi_hz_right := q.2.1, hz := q.2.2 } : fdtd3D).psi_hx_right k = q.1.1 k from rfl, h3]
        ring
      · refine a4 y (fun k hk => ?_)
        rw [(hidx k (mem_keys3.mp hk)).2.1]
        exact hy k (mem_keys3.mp hk)
      · rw [show ({ g with psi_hx_right := q.1.1, hx := q.1.2, psi_hz_right := q.2.1, hz := q.2.2 } : fdtd3D).psi_hz_right k = q.2.1 k from rfl,
          b1 k (mem_keys3.mpr hk)]
        unfold fwd_y
        dsimp only
        rw [(hidx k hk).1, (hidx k hk).2.1, (hidx k hk).2.2.2]
        ring
      · exact b2 k (fun h => hk (mem_keys3.mp h))
      · have h3 := b3 k (mem_keys3.mpr hk)
        rw [(hidx k hk).2.1] at h3
        rw [show ({ g with psi_hx_right := q.1.1, hx := q.1.2, psi_hz_right := q.2.1, hz := q.2.2 } : fdtd3D).hz (k.1, g.sizeY - 2 - k.2.1, k.2.2) = q.2.2 (k.1, g.sizeY - 2 - k.2.1, k.2.2) from rfl,
          show ({ g with psi_hx_right := q.1.1, hx := q.1.2, psi_hz_right := q.2.1, hz := q.2.2 } : fdtd3D).psi_hz_right k = q.2.1 k from rfl, h3]
        ring
      · refine b4 y (fun k hk => ?_)
        rw [(hidx k (mem_keys3.mp hk)).2.1]
        exact hy k (mem_keys3.mp hk)
    · rw [hflag] at h
      cases h
    · rw [hq]
  · have hf : flagSet (g.border_condition border_right) border_cpml = false := by
      cases hb : flagSet (g.border_condition border_right) border_cpml
      · rfl
      · exact absurd hb hflag
    have hid : update_magnetic_cpml_right g = g := by
      unfold update_magnetic_cpml_right
      rw [hf]
      rfl
    refine ⟨fun h => absurd h hflag, fun _ => hid, ?_⟩
    rw [hid]

theorem update_magnetic_cpml_front_aux (g : fdtd3D) 
    (hflag : flagSet (g.border_condition border_front) border_cpml = true) :
    ∃ q : (Arr3 × Arr3) × (Arr3 × Arr3),
      update_magnetic_cpml_front g = { g with psi_hx_front := q.1.1, hx := q.1.2, psi_hy_front := q.2.1, hy := q.2.2 } ∧
      ((∀ k, k ∈ keys3 0 g.sizeX 0 g.sizeY 0 g.cpml_thickness → q.1.1 k = g.bx k.2.2 * g.psi_hx_front k +
          g.cx k.2.2 * (g.ey (k.1, k.2.1, k.2.2 + 1) - g.ey (k.1, k.2.1, k.2.2)) * (1 / g.dz)) ∧
        (∀ k, k ∉ keys3 0 g.sizeX 0 g.sizeY 0 g.cpml_thickness → q.1.1 k = g.psi_hx_front k) ∧
        (∀ k, k ∈ keys3 0 g.sizeX 0 g.sizeY 0 g.cpml_thickness → q.1.2 (k.1, k.2.1, k.2.2) =
          g.hx (k.1, k.2.1, k.2.2) + g.dt * g.permeability_inv (k.1, k.2.1, k.2.2) * q.1.1 k) ∧
        (∀ y, (∀ k, k ∈ keys3 0 g.sizeX 0 g.sizeY 0 g.cpml_thickness → (k.1, k.2.1, k.2.2) ≠ y) → q.1.2 y = g.hx y)) ∧
      ((∀ k, k ∈ keys3 0 g.sizeX 0 g.sizeY 0 g.cpml_thickness → q.2.1 k = g.bx k.2.2 * g.psi_hy_front k +
          g.cx k.2.2 * (g.ex (k.1, k.2.1, k.2.2 + 1) - g.ex (k.1, k.2.1, k.2.2)) * (1 / g.dz)) ∧
        (∀ k, k ∉ keys3 0 g.sizeX 0 g.sizeY 0 g.cpml_thickness → q.2.1 k = g.psi_hy_front k) ∧
        (∀ k, k ∈ keys3 0 g.sizeX 0 g.sizeY 0 g.cpml_thickness → q.2.2 (k.1, k.2.1, k.2.2) =
          g.hy (k.1, k.2.1, k.2.2) - g.dt * g.permeability_inv (k.1, k.2.1, k.2.2) * q.2.1 k) ∧
        (∀ y, (∀ k, k ∈ keys3 0 g.sizeX 0 g.sizeY 0 g.cpml_thickness → (k.1, k.2.1, k.2.2) ≠ y) → q.2.2 y = g.hy y)) := by
  unfold update_magnetic_cpml_front
  rw [if_pos hflag, forLoop3_eq_foldl_curried]
  refine foldl_lift_pair2
    (fun p : (Arr3 × Arr3) × (Arr3 × Arr3) =>
      ({ g with psi_hx_front := p.1.1, hx := p.1.2, psi_hy_front := p.2.1, hy := p.2.2 } : fdtd3D)) _
    (fun k old => g.bx k.2.2 * old + g.cx k.2.2 * (g.ey (k.1, k.2.1, k.2.2 + 1) - g.ey (k.1, k.2.1, k.2.2)) * (1 / g.dz))
    (fun k old psi => old + g.dt * g.permeability_inv (k.1, k.2.1, k.2.2) * psi)
    (fun k old => g.bx k.2.2 * old + g.cx k.2.2 * (g.ex (k.1, k.2.1, k.2.2 + 1) - g.ex (k.1, k.2.1, k.2.2)) * (1 / g.dz))
    (fun k old psi => old - g.dt * g.permeability_inv (k.1, k.2.1, k.2.2) * psi)
    (fun k => (k.1, k.2.1, k.2.2)) _ (nodup_keys3 _ _ _ _ _ _) ?_ ?_
    ((g.psi_hx_front, g.hx), (g.psi_hy_front, g.hy))
  ·
    intro k hk k2 hk2 h
    simp only [Prod.mk.injEq] at h
    exact Prod.ext h.1 (Prod.ext h.2.1 (by omega))
  · intro k p
    rfl

theorem update_magnetic_cpml_front_spec (g : fdtd3D) :
    (flagSet (g.border_condition border_front) border_cpml = true →
      (cpml_face_spec (inBox3 0 g.sizeX 0 g.sizeY 0 g.cpml_thickness) (fun k => k.2.2) (fun k => (k.1, k.2.1, k.2.2))
          g.bx g.cx (fun k => fwd_z g.ey g.dz (k.1, k.2.1, k.2.2))
          1 g.dt g.permeability_inv g.psi_hx_front (update_magnetic_cpml_front g).psi_hx_front g.hx (update_magnetic_cpml_front g).hx) ∧
      (cpml_face_spec (inBox3 0 g.sizeX 0 g.sizeY 0 g.cpml_thickness) (fun k => k.2.2) (fun k => (k.1, k.2.1, k.2.2))
          g.bx g.cx (fun k => fwd_z g.ex g.dz (k.1, k.2.1, k.2.2))
          (-1) g.dt g.permeability_inv g.psi_hy_front (update_magnetic_cpml_front g).psi_hy_front g.hy (update_magnetic_cpml_front g).hy)) ∧
    (flagSet (g.border_condition border_front) border_cpml = false → update_magnetic_cpml_front g = g) ∧
    update_magnetic_cpml_front g =
      { g with psi_hx_front := (update_magnetic_cpml_front g).psi_hx_front, hx := (update_magnetic_cpml_front g).hx, psi_hy_front := (update_magnetic_cpml_front g).psi_hy_front, hy := (update_magnetic_cpml_front g).hy } := by
  by_cases hflag : flagSet (g.border_condition border_front) border_cpml = true
  · obtain ⟨q, hq, ⟨a1, a2, a3, a4⟩, ⟨b1, b2, b3, b4⟩⟩ := update_magnetic_cpml_front_aux g hflag

    refine ⟨fun _ => ?_, fun h => ?_, ?_⟩
    · rw [hq]
      refine ⟨⟨fun k hk => ?_, fun k hk => ?_, fun k hk => ?_, fun y hy => ?_⟩,
        ⟨fun k hk => ?_, fun k hk => ?_, fun k hk => ?_, fun y hy => ?_⟩⟩
      · rw [show ({ g with psi_hx_front := q.1.1, hx := q.1.2, psi_hy_front := q.2.1, hy := q.2.2 } : fdtd3D).psi_hx_front k = q.1.1 k from rfl,
          a1 k (mem_keys3.mpr hk)]
        unfold fwd_z
        dsimp only
        ring
      · exact a2 k (fun h => hk (mem_keys3.mp h))
      · have h3 := a3 k (mem_keys3.mpr hk)
        rw [show ({ g with psi_hx_front := q.1.1, hx := q.1.2, psi_hy_front := q.2.1, hy := q.2.2 } : fdtd3D).hx (k.1, k.2.1, k.2.2) = q.1.2 (k.1, k.2.1, k.2.2) from rfl,
          show ({ g with psi_hx_front := q.1.1, hx := q.1.2, psi_hy_front := q.2.1, hy := q.2.2 } : fdtd3D).psi_hx_front k = q.1.1 k from rfl, h3]
        ring
      · refine a4 y (fun k hk => ?_)
        exact hy k (mem_keys3.mp hk)
      · rw [show ({ g with psi_hx_front := q.1.1, hx := q.1.2, psi_hy_front := q.2.1, hy := q.2.2 } : fdtd3D).psi_hy_front k = q.2.1 k from rfl,
          b1 k (mem_keys3.mpr hk)]
        unfold fwd_z
        dsimp only
        ring
      · exact b2 k (fun h => hk (mem_keys3.mp h))
      · have h3 := b3 k (mem_keys3.mpr hk)
        rw [show ({ g with psi_hx_front := q.1.1, hx := q.1.2, psi_hy_front := q.2.1, hy := q.2.2 } : fdtd3D).hy (k.1, k.2.1, k.2.2) = q.2.2 (k.1, k.2.1, k.2.2) from rfl,
          show ({ g with psi_hx_front := q.1.1, hx := q.1.2, psi_hy_front := q.2.1, hy := q.2.2 } : fdtd3D).psi_hy_front k = q.2.1 k from rfl, h3]
        ring
      · refine b4 y (fun k hk => ?_)
        exact hy k (mem_keys3.mp hk)
    · rw [hflag] at h
      cases h
    · rw [hq]
  · have hf : flagSet (g.border_condition border_front) border_cpml = false := by
      cases hb : flagSet (g.border_condition border_front) border_cpml
      · rfl
      · exact absurd hb hflag
    have hid : update_magnetic_cpml_front g = g := by
      unfold update_magnetic_cpml_front
      rw [hf]
      rfl
    refine ⟨fun h => absurd h hflag, fun _ => hid, ?_⟩
    rw [hid]

theorem update_magnetic_cpml_back_aux (g : fdtd3D) (hT : g.cpml_thickness < UINTMAX_MOD)
    (hflag : flagSet (g.border_condition border_back) border_cpml = true) :
    ∃ q : (Arr3 × Arr3) × (Arr3 × Arr3),
      update_magnetic_cpml_back g = { g with psi_hx_back := q.1.1, hx := q.1.2, psi_hy_back := q.2.1, hy := q.2.2 } ∧
      ((∀ k, k ∈ keys3 0 g.sizeX 0 g.sizeY 0 g.cpml_thickness → q.1.1 k = g.bx k.2.2 * g.psi_hx_back k +
          g.cx k.2.2 * (g.ey (k.1, k.2.1, usub (usub g.sizeZ 1) k.2.2) - g.ey (k.1, k.2.1, usub (usub g.sizeZ 2) k.2.2)) * (1 / g.dz)) ∧
        (∀ k, k ∉ keys3 0 g.sizeX 0 g.sizeY 0 g.cpml_thickness → q.1.1 k = g.psi_hx_back k) ∧
        (∀ k, k ∈ keys3 0 g.sizeX 0 g.sizeY 0 g.cpml_thickness → q.1.2 (k.1, k.2.1, usub (usub g.sizeZ 2) k.2.2) =
          g.hx (k.1, k.2.1, usub (usub g.sizeZ 2) k.2.2) + g.dt * g.permeability_inv (k.1, k.2.1, usub (usub g.sizeZ 2) k.2.2) * q.1.1 k) ∧
        (∀ y, (∀ k, k ∈ keys3 0 g.sizeX 0 g.sizeY 0 g.cpml_thickness → (k.1, k.2.1, usub (usub g.sizeZ 2) k.2.2) ≠ y) → q.1.2 y = g.hx y)) ∧
      ((∀ k, k ∈ keys3 0 g.sizeX 0 g.sizeY 0 g.cpml_thickness → q.2.1 k = g.bx k.2.2 * g.psi_hy_back k +
          g.cx k.2.2 * (g.ex (k.1, k.2.1, usub (usub g.sizeZ 1) k.2.2) - g.ex (k.1, k.2.1, usub (usub g.sizeZ 2) k.2.2)) * (1 / g.dz)) ∧
        (∀ k, k ∉ keys3 0 g.sizeX 0 g.sizeY 0 g.cpml_thickness → q.2.1 k = g.psi_hy_back k) ∧
        (∀ k, k ∈ keys3 0 g.sizeX 0 g.sizeY 0 g.cpml_thickness → q.2.2 (k.1, k.2.1, usub (usub g.sizeZ 2) k.2.2) =
          g.hy (k.1, k.2.1, usub (usub g.sizeZ 2) k.2.2) - g.dt * g.permeability_inv (k.1, k.2.1, usub (usub g.sizeZ 2) k.2.2) * q.2.1 k) ∧
        (∀ y, (∀ k, k ∈ keys3 0 g.sizeX 0 g.sizeY 0 g.cpml_thickness → (k.1, k.2.1, usub (usub g.sizeZ 2) k.2.2) ≠ y) → q.2.2 y = g.hy y)) := by
  unfold update_magnetic_cpml_back
  rw [if_pos hflag, forLoop3_eq_foldl_curried]
  refine foldl_lift_pair2
    (fun p : (Arr3 × Arr3) × (Arr3 × Arr3) =>
      ({ g with psi_hx_back := p.1.1, hx := p.1.2, psi_hy_back := p.2.1, hy := p.2.2 } : fdtd3D)) _
    (fun k old => g.bx k.2.2 * old + g.cx k.2.2 * (g.ey (k.1, k.2.1, usub (usub g.sizeZ 1) k.2.2) - g.ey (k.1, k.2.1, usub (usub g.sizeZ 2) k.2.2)) * (1 / g.dz))
    (fun k old psi => old + g.dt * g.permeability_inv (k.1, k.2.1, usub (usub g.sizeZ 2) k.2.2) * psi)
    (fun k old => g.bx k.2.2 * old + g.cx k.2.2 * (g.ex (k.1, k.2.1, usub (usub g.sizeZ 1) k.2.2) - g.ex (k.1, k.2.1, usub (usub g.sizeZ 2) k.2.2)) * (1 / g.dz))
    (fun k old psi => old - g.dt * g.permeability_inv (k.1, k.2.1, usub (usub g.sizeZ 2) k.2.2) * psi)
    (fun k => (k.1, k.2.1, usub (usub g.sizeZ 2) k.2.2)) _ (nodup_keys3 _ _ _ _ _ _) ?_ ?_
    ((g.psi_hx_back, g.hx), (g.psi_hy_back, g.hy))
  ·
    intro k hk k2 hk2 h
    rw [mem_keys3] at hk hk2
    unfold inBox3 at hk hk2
    simp only [Prod.mk.injEq] at h
    have hu := usub_inj (show k.2.2 < UINTMAX_MOD by omega) (show k2.2.2 < UINTMAX_MOD by omega)
      (usub_lt _ _) h.2.2
    exact Prod.ext h.1 (Prod.ext h.2.1 hu)
  · intro k p
    rfl

theorem update_magnetic_cpml_back_spec (g : fdtd3D) (hT : g.cpml_thickness < UINTMAX_MOD) (hS : g.cpml_thickness + 1 ≤ g.sizeZ) (hS2 : g.sizeZ < UINTMAX_MOD) :
    (flagSet (g.border_condition border_back) border_cpml = true →
      (cpml_face_spec (inBox3 0 g.sizeX 0 g.sizeY 0 g.cpml_thickness) (fun k => k.2.2) (fun k => (k.1, k.2.1, g.sizeZ - 2 - k.2.2))
          g.bx g.cx (fun k => fwd_z g.ey g.dz (k.1, k.2.1, g.sizeZ - 2 - k.2.2))
          1 g.dt g.permeability_inv g.psi_hx_back (update_magnetic_cpml_back g).psi_hx_back g.hx (update_magnetic_cpml_back g).hx) ∧
      (cpml_face_spec (inBox3 0 g.sizeX 0 g.sizeY 0 g.cpml_thickness) (fun k => k.2.2) (fun k => (k.1, k.2.1, g.sizeZ - 2 - k.2.2))
          g.bx g.cx (fun k => fwd_z g.ex g.dz (k.1, k.2.1, g.sizeZ - 2 - k.2.2))
          (-1) g.dt g.permeability_inv g.psi_hy_back (update_magnetic_cpml_back g).psi_hy_back g.hy (update_magnetic_cpml_back g).hy)) ∧
    (flagSet (g.border_condition border_back) border_cpml = false → update_magnetic_cpml_back g = g) ∧
    update_magnetic_cpml_back g =
      { g with psi_hx_back := (update_magnetic_cpml_back g).psi_hx_back, hx := (update_magnetic_cpml_back g).hx, psi_hy_back := (update_magnetic_cpml_back g).psi_hy_back, hy := (update_magnetic_cpml_back g).hy } := by
  by_cases hflag : flagSet (g.border_condition border_back) border_cpml = true
  · obtain ⟨q, hq, ⟨a1, a2, a3, a4⟩, ⟨b1, b2, b3, b4⟩⟩ := update_magnetic_cpml_back_aux g hT hflag
    have hidx : ∀ k : Nat × Nat × Nat, inBox3 0 g.sizeX 0 g.sizeY 0 g.cpml_thickness k →
        usub (usub g.sizeZ 1) k.2.2 = g.sizeZ - 1 - k.2.2 ∧ usub (usub g.sizeZ 2) k.2.2 = g.sizeZ - 2 - k.2.2 ∧
        g.sizeZ - 1 - k.2.2 - 1 = g.sizeZ - 2 - k.2.2 ∧ g.sizeZ - 2 - k.2.2 + 1 = g.sizeZ - 1 - k.2.2 := by
      intro k hk
      unfold inBox3 at hk
      rw [usub_eq_sub (by omega) hS2, usub_eq_sub (by omega) hS2,
        usub_eq_sub (by omega) (by omega), usub_eq_sub (by omega) (by omega)]
      omega
    refine ⟨fun _ => ?_, fun h => ?_, ?_⟩
    · rw [hq]
      refine ⟨⟨fun k hk => ?_, fun k hk => ?_, fun k hk => ?_, fun y hy => ?_⟩,
        ⟨fun k hk => ?_, fun k hk => ?_, fun k hk => ?_, fun y hy => ?_⟩⟩
      · rw [show ({ g with psi_hx_back := q.1.1, hx := q.1.2, psi_hy_back := q.2.1, hy := q.2.2 } : fdtd3D).psi_hx_back k = q.1.1 k from rfl,
          a1 k (mem_keys3.mpr hk)]
        unfold fwd_z
        dsimp only
        rw [(hidx k hk).1, (hidx k hk).2.1, (hidx k hk).2.2.2]
        ring
      · exact a2 k (fun h => hk (mem_keys3.mp h))
      · have h3 := a3 k (mem_keys3.mpr hk)
        rw [(hidx k hk).2.1] at h3
        rw [show ({ g with psi_hx_back := q.1.1, hx := q.1.2, psi_hy_back := q.2.1, hy := q.2.2 } : fdtd3D).hx (k.1, k.2.1, g.sizeZ - 2 - k.2.2) = q.1.2 (k.1, k.2.1, g.sizeZ - 2 - k.2.2) from rfl,
          show ({ g with psi_hx_back := q.1.1, hx := q.1.2, psi_hy_back := q.2.1, hy := q.2.2 } : fdtd3D).psi_hx_back k = q.1.1 k from rfl, h3]
        ring
      · refine a4 y (fun k hk => ?_)
        rw [(hidx k (mem_keys3.mp hk)).2.1]
        exact hy k (mem_keys3.mp hk)
      · rw [show ({ g with psi_hx_back := q.1.1, hx := q.1.2, psi_hy_back := q.2.1, hy := q.2.2 } : fdtd3D).psi_hy_back k = q.2.1 k from rfl,
          b1 k (mem_keys3.mpr hk)]
        unfold fwd_z
        dsimp only
        rw [(hidx k hk).1, (hidx k hk).2.1, (hidx k hk).2.2.2]
        ring
      · exact b2 k (fun h => hk (mem_keys3.mp h))
      · have h3 := b3 k (mem_keys3.mpr hk)
        rw [(hidx k hk).2.1] at h3
        rw [show ({ g with psi_hx_back := q.1.1, hx := q.1.2, psi_hy_back := q.2.1, hy := q.2.2 } : fdtd3D).hy (k.1, k.2.1, g.sizeZ - 2 - k.2.2) = q.2.2 (k.1, k.2.1, g.sizeZ - 2 - k.2.2) from rfl,
          show ({ g with psi_hx_back := q.1.1, hx := q.1.2, psi_hy_back := q.2.1, hy := q.2.2 } : fdtd3D).psi_hy_back k = q.2.1 k from rfl, h3]
        ring
      · refine b4 y (fun k hk => ?_)
        rw [(hidx k (mem_keys3.mp hk)).2.1]
        exact hy k (mem_keys3.mp hk)
    · rw [hflag] at h
      cases h
    · rw [hq]
  · have hf : flagSet (g.border_condition border_back) border_cpml = false := by
      cases hb : flagSet (g.border_condition border_back) border_cpml
      · rfl
      · exact absurd hb hflag
    have hid : update_magnetic_cpml_back g = g := by
      unfold update_magnetic_cpml_back
      rw [hf]
      rfl
    refine ⟨fun h => absurd h hflag, fun _ => hid, ?_⟩
    rw [hid]

theorem update_magnetic_cpml_bottom_aux (g : fdtd3D) 
    (hflag : flagSet (g.border_condition border_bottom) border_cpml = true) :
    ∃ q : (Arr3 × Arr3) × (Arr3 × Arr3),
      update_magnetic_cpml_bottom g = { g with psi_hy_bottom := q.1.1, hy := q.1.2, psi_hz_bottom := q.2.1, hz := q.2.2 } ∧
      ((∀ k, k ∈ keys3 0 g.cpml_thickness 0 g.sizeY 0 g.sizeZ → q.1.1 k = g.bx k.1 * g.psi_hy_bottom k +
          g.cx k.1 * (g.ez (k.1 + 1, k.2.1, k.2.2) - g.ez (k.1, k.2.1, k.2.2)) * (1 / g.dx)) ∧
        (∀ k, k ∉ keys3 0 g.cpml_thickness 0 g.sizeY 0 g.sizeZ → q.1.1 k = g.psi_hy_bottom k) ∧
        (∀ k, k ∈ keys3 0 g.cpml_thickness 0 g.sizeY 0 g.sizeZ → q.1.2 (k.1, k.2.1, k.2.2) =
          g.hy (k.1, k.2.1, k.2.2) + g.dt * g.permeability_inv (k.1, k.2.1, k.2.2) * q.1.1 k) ∧
        (∀ y, (∀ k, k ∈ keys3 0 g.cpml_thickness 0 g.sizeY 0 g.sizeZ → (k.1, k.2.1, k.2.2) ≠ y) → q.1.2 y = g.hy y)) ∧
      ((∀ k, k ∈ keys3 0 g.cpml_thickness 0 g.sizeY 0 g.sizeZ → q.2.1 k = g.bx k.1 * g.psi_hz_bottom k +
          g.cx k.1 * (g.ey (k.1 + 1, k.2.1, k.2.2) - g.ey (k.1, k.2.1, k.2.2)) * (1 / g.dx)) ∧
        (∀ k, k ∉ keys3 0 g.cpml_thickness 0 g.sizeY 0 g.sizeZ → q.2.1 k = g.psi_hz_bottom k) ∧
        (∀ k, k ∈ keys3 0 g.cpml_thickness 0 g.sizeY 0 g.sizeZ → q.2.2 (k.1, k.2.1, k.2.2) =
          g.hz (k.1, k.2.1, k.2.2) - g.dt * g.permeability_inv (k.1, k.2.1, k.2.2) * q.2.1 k) ∧
        (∀ y, (∀ k, k ∈ keys3 0 g.cpml_thickness 0 g.sizeY 0 g.sizeZ → (k.1, k.2.1, k.2.2) ≠ y) → q.2.2 y = g.hz y)) := by
  unfold update_magnetic_cpml_bottom
  rw [if_pos hflag, forLoop3_eq_foldl_curried]
  refine foldl_lift_pair2
    (fun p : (Arr3 × Arr3) × (Arr3 × Arr3) =>
      ({ g with psi_hy_bottom := p.1.1, hy := p.1.2, psi_hz_bottom := p.2.1, hz := p.2.2 } : fdtd3D)) _
    (fun k old => g.bx k.1 * old + g.cx k.1 * (g.ez (k.1 + 1, k.2.1, k.2.2) - g.ez (k.1, k.2.1, k.2.2)) * (1 / g.dx))
    (fun k old psi => old + g.dt * g.permeability_inv (k.1, k.2.1, k.2.2) * psi)
    (fun k old => g.bx k.1 * old + g.cx k.1 * (g.ey (k.1 + 1, k.2.1, k.2.2) - g.ey (k.1, k.2.1, k.2.2)) * (1 / g.dx))
    (fun k old psi => old - g.dt * g.permeability_inv (k.1, k.2.1, k.2.2) * psi)
    (fun k => (k.1, k.2.1, k.2.2)) _ (nodup_keys3 _ _ _ _ _ _) ?_ ?_
    ((g.psi_hy_bottom, g.hy), (g.psi_hz_bottom, g.hz))
  ·
    intro k hk k2 hk2 h
    simp only [Prod.mk.injEq] at h
    exact Prod.ext (by omega) (Prod.ext h.2.1 h.2.2)
  · intro k p
    rfl

theorem update_magnetic_cpml_bottom_spec (g : fdtd3D) :
    (flagSet (g.border_condition border_bottom) border_cpml = true →
      (cpml_face_spec (inBox3 0 g.cpml_thickness 0 g.sizeY 0 g.sizeZ) (fun k => k.1) (fun k => (k.1, k.2.1, k.2.2))
          g.bx g.cx (fun k => fwd_x g.ez g.dx (k.1, k.2.1, k.2.2))
          1 g.dt g.permeability_inv g.psi_hy_bottom (update_magnetic_cpml_bottom g).psi_hy_bottom g.hy (update_magnetic_cpml_bottom g).hy) ∧
      (cpml_face_spec (inBox3 0 g.cpml_thickness 0 g.sizeY 0 g.sizeZ) (fun k => k.1) (fun k => (k.1, k.2.1, k.2.2))
          g.bx g.cx (fun k => fwd_x g.ey g.dx (k.1, k.2.1, k.2.2))
          (-1) g.dt g.permeability_inv g.psi_hz_bottom (update_magnetic_cpml_bottom g).psi_hz_bottom g.hz (update_magnetic_cpml_bottom g).hz)) ∧
    (flagSet (g.border_condition border_bottom) border_cpml = false → update_magnetic_cpml_bottom g = g) ∧
    update_magnetic_cpml_bottom g =
      { g with psi_hy_bottom := (update_magnetic_cpml_bottom g).psi_hy_bottom, hy := (update_magnetic_cpml_bottom g).hy, psi_hz_bottom := (update_magnetic_cpml_bottom g).psi_hz_bottom, hz := (update_magnetic_cpml_bottom g).hz } := by
  by_cases hflag : flagSet (g.border_condition border_bottom) border_cpml = true
  · obtain ⟨q, hq, ⟨a1, a2, a3, a4⟩, ⟨b1, b2, b3, b4⟩⟩ := update_magnetic_cpml_bottom_aux g hflag

    refine ⟨fun _ => ?_, fun h => ?_, ?_⟩
    · rw [hq]
      refine ⟨⟨fun k hk => ?_, fun k hk => ?_, fun k hk => ?_, fun y hy => ?_⟩,
        ⟨fun k hk => ?_, fun k hk => ?_, fun k hk => ?_, fun y hy => ?_⟩⟩
      · rw [show ({ g with psi_hy_bottom := q.1.1, hy := q.1.2, psi_hz_bottom := q.2.1, hz := q.2.2 } : fdtd3D).psi_hy_bottom k = q.1.1 k from rfl,
          a1 k (mem_keys3.mpr hk)]
        unfold fwd_x
        dsimp only
        ring
      · exact a2 k (fun h => hk (mem_keys3.mp h))
      · have h3 := a3 k (mem_keys3.mpr hk)
        rw [show ({ g with psi_hy_bottom := q.1.1, hy := q.1.2, psi_hz_bottom := q.2.1, hz := q.2.2 } : fdtd3D).hy (k.1, k.2.1, k.2.2) = q.1.2 (k.1, k.2.1, k.2.2) from rfl,
          show ({ g with psi_hy_bottom := q.1.1, hy := q.1.2, psi_hz_bottom := q.2.1, hz := q.2.2 } : fdtd3D).psi_hy_bottom k = q.1.1 k from rfl, h3]
        ring
      · refine a4 y (fun k hk => ?_)
        exact hy k (mem_keys3.mp hk)
      · rw [show ({ g with psi_hy_bottom := q.1.1, hy := q.1.2, psi_hz_bottom := q.2.1, hz := q.2.2 } : fdtd3D).psi_hz_bottom k = q.2.1 k from rfl,
          b1 k (mem_keys3.mpr hk)]
        unfold fwd_x
        dsimp only
        ring
      · exact b2 k (fun h => hk (mem_keys3.mp h))
      · have h3 := b3 k (mem_keys3.mpr hk)
        rw [show ({ g with psi_hy_bottom := q.1.1, hy := q.1.2, psi_hz_bottom := q.2.1, hz := q.2.2 } : fdtd3D).hz (k.1, k.2.1, k.2.2) = q.2.2 (k.1, k.2.1, k.2.2) from rfl,
          show ({ g with psi_hy_bottom := q.1.1, hy := q.1.2, psi_hz_bottom := q.2.1, hz := q.2.2 } : fdtd3D).psi_hz_bottom k = q.2.1 k from rfl, h3]
        ring
      · refine b4 y (fun k hk => ?_)
        exact hy k (mem_keys3.mp hk)
    · rw [hflag] at h
      cases h
    · rw [hq]
  · have hf : flagSet (g.border_condition border_bottom) border_cpml = false := by
      cases hb : flagSet (g.border_condition border_bottom) border_cpml
      · rfl
      · exact absurd hb hflag
    have hid : update_magnetic_cpml_bottom g = g := by
      unfold update_magnetic_cpml_bottom
      rw [hf]
      rfl
    refine ⟨fun h => absurd h hflag, fun _ => hid, ?_⟩
    rw [hid]

theorem update_magnetic_cpml_top_aux (g : fdtd3D) (hT : g.cpml_thickness < UINTMAX_MOD)
    (hflag : flagSet (g.border_condition border_top) border_cpml = true) :
    ∃ q : (Arr3 × Arr3) × (Arr3 × Arr3),
      update_magnetic_cpml_top g = { g with psi_hy_top := q.1.1, hy := q.1.2, psi_hz_top := q.2.1, hz := q.2.2 } ∧
      ((∀ k, k ∈ keys3 0 g.cpml_thickness 0 g.sizeY 0 g.sizeZ → q.1.1 k = g.bx k.1 * g.psi_hy_top k +
          g.cx k.1 * (g.ez (usub (usub g.sizeX 1) k.1, k.2.1, k.2.2) - g.ez (usub (usub g.sizeX 2) k.1, k.2.1, k.2.2)) * (1 / g.dx)) ∧
        (∀ k, k ∉ keys3 0 g.cpml_thickness 0 g.sizeY 0 g.sizeZ → q.1.1 k = g.psi_hy_top k) ∧
        (∀ k, k ∈ keys3 0 g.cpml_thickness 0 g.sizeY 0 g.sizeZ → q.1.2 (usub (usub g.sizeX 2) k.1, k.2.1, k.2.2) =
          g.hy (usub (usub g.sizeX 2) k.1, k.2.1, k.2.2) + g.dt * g.permeability_inv (usub (usub g.sizeX 2) k.1, k.2.1, k.2.2) * q.1.1 k) ∧
        (∀ y, (∀ k, k ∈ keys3 0 g.cpml_thickness 0 g.sizeY 0 g.sizeZ → (usub (usub g.sizeX 2) k.1, k.2.1, k.2.2) ≠ y) → q.1.2 y = g.hy y)) ∧
      ((∀ k, k ∈ keys3 0 g.cpml_thickness 0 g.sizeY 0 g.sizeZ → q.2.1 k = g.bx k.1 * g.psi_hz_top k +
          g.cx k.1 * (g.ey (usub (usub g.sizeX 1) k.1, k.2.1, k.2.2) - g.ey (usub (usub g.sizeX 2) k.1, k.2.1, k.2.2)) * (1 / g.dx)) ∧
        (∀ k, k ∉ keys3 0 g.cpml_thickness 0 g.sizeY 0 g.sizeZ → q.2.1 k = g.psi_hz_top k) ∧
        (∀ k, k ∈ keys3 0 g.cpml_thickness 0 g.sizeY 0 g.sizeZ → q.2.2 (usub (usub g.sizeX 2) k.1, k.2.1, k.2.2) =
          g.hz (usub (usub g.sizeX 2) k.1, k.2.1, k.2.2) - g.dt * g.permeability_inv (usub (usub g.sizeX 2) k.1, k.2.1, k.2.2) * q.2.1 k) ∧
        (∀ y, (∀ k, k ∈ keys3 0 g.cpml_thickness 0 g.sizeY 0 g.sizeZ → (usub (usub g.sizeX 2) k.1, k.2.1, k.2.2) ≠ y) → q.2.2 y = g.hz y)) := by
  unfold update_magnetic_cpml_top
  rw [if_pos hflag, forLoop3_eq_foldl_curried]
  refine foldl_lift_pair2
    (fun p : (Arr3 × Arr3) × (Arr3 × Arr3) =>
      ({ g with psi_hy_top := p.1.1, hy := p.1.2, psi_hz_top := p.2.1, hz := p.2.2 } : fdtd3D)) _
    (fun k old => g.bx k.1 * old + g.cx k.1 * (g.ez (usub (usub g.sizeX 1) k.1, k.2.1, k.2.2) - g.ez (usub (usub g.sizeX 2) k.1, k.2.1, k.2.2)) * (1 / g.dx))
    (fun k old psi => old + g.dt * g.permeability_inv (usub (usub g.sizeX 2) k.1, k.2.1, k.2.2) * psi)
    (fun k old => g.bx k.1 * old + g.cx k.1 * (g.ey (usub (usub g.sizeX 1) k.1, k.2.1, k.2.2) - g.ey (usub (usub g.sizeX 2) k.1, k.2.1, k.2.2)) * (1 / g.dx))
    (fun k old psi => old - g.dt * g.permeability_inv (usub (usub g.sizeX 2) k.1, k.2.1, k.2.2) * psi)
    (fun k => (usub (usub g.sizeX 2) k.1, k.2.1, k.2.2)) _ (nodup_keys3 _ _ _ _ _ _) ?_ ?_
    ((g.psi_hy_top, g.hy), (g.psi_hz_top, g.hz))
  ·
    intro k hk k2 hk2 h
    rw [mem_keys3] at hk hk2
    unfold inBox3 at hk hk2
    simp only [Prod.mk.injEq] at h
    have hu := usub_inj (show k.1 < UINTMAX_MOD by omega) (show k2.1 < UINTMAX_MOD by omega)
      (usub_lt _ _) h.1
    exact Prod.ext hu (Prod.ext h.2.1 h.2.2)
  · intro k p
    rfl

theorem update_magnetic_cpml_top_spec (g : fdtd3D) (hT : g.cpml_thickness < UINTMAX_MOD) (hS : g.cpml_thickness + 1 ≤ g.sizeX) (hS2 : g.sizeX < UINTMAX_MOD) :
    (flagSet (g.border_condition border_top) border_cpml = true →
      (cpml_face_spec (inBox3 0 g.cpml_thickness 0 g.sizeY 0 g.sizeZ) (fun k => k.1) (fun k => (g.sizeX - 2 - k.1, k.2.1, k.2.2))
          g.bx g.cx (fun k => fwd_x g.ez g.dx (g.sizeX - 2 - k.1, k.2.1, k.2.2))
          1 g.dt g.permeability_inv g.psi_hy_top (update_magnetic_cpml_top g).psi_hy_top g.hy (update_magnetic_cpml_top g).hy) ∧
      (cpml_face_spec (inBox3 0 g.cpml_thickness 0 g.sizeY 0 g.sizeZ) (fun k => k.1) (fun k => (g.sizeX - 2 - k.1, k.2.1, k.2.2))
          g.bx g.cx (fun k => fwd_x g.ey g.dx (g.sizeX - 2 - k.1, k.2.1, k.2.2))
          (-1) g.dt g.permeability_inv g.psi_hz_top (update_magnetic_cpml_top g).psi_hz_top g.hz (update_magnetic_cpml_top g).hz)) ∧
    (flagSet (g.border_condition border_top) border_cpml = false → update_magnetic_cpml_top g = g) ∧
    update_magnetic_cpml_top g =
      { g with psi_hy_top := (update_magnetic_cpml_top g).psi_hy_top, hy := (update_magnetic_cpml_top g).hy, psi_hz_top := (update_magnetic_cpml_top g).psi_hz_top, hz := (update_magnetic_cpml_top g).hz } := by
  by_cases hflag : flagSet (g.border_condition border_top) border_cpml = true
  · obtain ⟨q, hq, ⟨a1, a2, a3, a4⟩, ⟨b1, b2, b3, b4⟩⟩ := update_magnetic_cpml_top_aux g hT hflag
    have hidx : ∀ k : Nat × Nat × Nat, inBox3 0 g.cpml_thickness 0 g.sizeY 0 g.sizeZ k →
        usub (usub g.sizeX 1) k.1 = g.sizeX - 1 - k.1 ∧ usub (usub g.sizeX 2) k.1 = g.sizeX - 2 - k.1 ∧
        g.sizeX - 1 - k.1 - 1 = g.sizeX - 2 - k.1 ∧ g.sizeX - 2 - k.1 + 1 = g.sizeX - 1 - k.1 := by
      intro k hk
      unfold inBox3 at hk
      rw [usub_eq_sub (by omega) hS2, usub_eq_sub (by omega) hS2,
        usub_eq_sub (by omega) (by omega), usub_eq_sub (by omega) (by omega)]
      omega
    refine ⟨fun _ => ?_, fun h => ?_, ?_⟩
    · rw [hq]
      refine ⟨⟨fun k hk => ?_, fun k hk => ?_, fun k hk => ?_, fun y hy => ?_⟩,
        ⟨fun k hk => ?_, fun k hk => ?_, fun k hk => ?_, fun y hy => ?_⟩⟩
      · rw [show ({ g with psi_hy_top := q.1.1, hy := q.1.2, psi_hz_top := q.2.1, hz := q.2.2 } : fdtd3D).psi_hy_top k = q.1.1 k from rfl,
          a1 k (mem_keys3.mpr hk)]
        unfold fwd_x
        dsimp only
        rw [(hidx k hk).1, (hidx k hk).2.1, (hidx k hk).2.2.2]
        ring
      · exact a2 k (fun h => hk (mem_keys3.mp h))
      · have h3 := a3 k (mem_keys3.mpr hk)
        rw [(hidx k hk).2.1] at h3
        rw [show ({ g with psi_hy_top := q.1.1, hy := q.1.2, psi_hz_top := q.2.1, hz := q.2.2 } : fdtd3D).hy (g.sizeX - 2 - k.1, k.2.1, k.2.2) = q.1.2 (g.sizeX - 2 - k.1, k.2.1, k.2.2) from rfl,
          show ({ g with psi_hy_top := q.1.1, hy := q.1.2, psi_hz_top := q.2.1, hz := q.2.2 } : fdtd3D).psi_hy_top k = q.1.1 k from rfl, h3]
        ring
      · refine a4 y (fun k hk => ?_)
        rw [(hidx k (mem_keys3.mp hk)).2.1]
        exact hy k (mem_keys3.mp hk)
      · rw [show ({ g with psi_hy_top := q.1.1, hy := q.1.2, psi_hz_top := q.2.1, hz := q.2.2 } : fdtd3D).psi_hz_top k = q.2.1 k from rfl,
          b1 k (mem_keys3.mpr hk)]
        unfold fwd_x
        dsimp only
        rw [(hidx k hk).1, (hidx k hk).2.1, (hidx k hk).2.2.2]
        ring
      · exact b2 k (fun h => hk (mem_keys3.mp h))
      · have h3 := b3 k (mem_keys3.mpr hk)
        rw [(hidx k hk).2.1] at h3
        rw [show ({ g with psi_hy_top := q.1.1, hy := q.1.2, psi_hz_top := q.2.1, hz := q.2.2 } : fdtd3D).hz (g.sizeX - 2 - k.1, k.2.1, k.2.2) = q.2.2 (g.sizeX - 2 - k.1, k.2.1, k.2.2) from rfl,
          show ({ g with psi_hy_top := q.1.1, hy := q.1.2, psi_hz_top := q.2.1, hz := q.2.2 } : fdtd3D).psi_hz_top k = q.2.1 k from rfl, h3]
        ring
      · refine b4 y (fun k hk => ?_)
        rw [(hidx k (mem_keys3.mp hk)).2.1]
        exact hy k (mem_keys3.mp hk)
    · rw [hflag] at h
      cases h
    · rw [hq]
  · have hf : flagSet (g.border_condition border_top) border_cpml = false := by
      cases hb : flagSet (g.border_condition border_top) border_cpml
      · rfl
      · exact absurd hb hflag
    have hid : update_magnetic_cpml_top g = g := by
      unfold update_magnetic_cpml_top
      rw [hf]
      rfl
    refine ⟨fun h => absurd h hflag, fun _ => hid, ?_⟩
    rw [hid]

end D3

namespace D3

theorem update_electric_field_ex_eq (g : fdtd3D) :
    update_electric_field_ex g =
      { g with ex := fun x =>
          if inBox3 1 g.sizeX 1 g.sizeY 1 g.sizeZ x then
            g.ex x + ((g.hz (x.1, x.2.1, x.2.2) - g.hz (x.1, x.2.1 - 1, x.2.2)) * (1 / g.dy) -
            (g.hy (x.1, x.2.1, x.2.2) - g.hy (x.1, x.2.1, x.2.2 - 1)) * (1 / g.dz)) * g.dt * g.permittivity_inv (x.1, x.2.1, x.2.2)
          else g.ex x } := by
  unfold update_electric_field_ex
  rw [forLoop3_eq_foldl_curried]
  refine foldl_lift_store (fun a : Arr3 => ({ g with ex := a } : fdtd3D)) _
    (fun x old => old + ((g.hz (x.1, x.2.1, x.2.2) - g.hz (x.1, x.2.1 - 1, x.2.2)) * (1 / g.dy) -
            (g.hy (x.1, x.2.1, x.2.2) - g.hy (x.1, x.2.1, x.2.2 - 1)) * (1 / g.dz)) * g.dt * g.permittivity_inv (x.1, x.2.1, x.2.2)) _
    (nodup_keys3 _ _ _ _ _ _) _ (fun _ => mem_keys3) ?_ g.ex
  intro k a
  rfl

theorem update_electric_field_ey_eq (g : fdtd3D) :
    update_electric_field_ey g =
      { g with ey := fun x =>
          if inBox3 1 g.sizeX 1 g.sizeY 1 g.sizeZ x then
            g.ey x + ((g.hx (x.1, x.2.1, x.2.2) - g.hx (x.1, x.2.1, x.2.2 - 1)) * (1 / g.dz) -
            (g.hz (x.1, x.2.1, x.2.2) - g.hz (x.1 - 1, x.2.1, x.2.2)) * (1 / g.dx)) * g.dt * g.permittivity_inv (x.1, x.2.1, x.2.2)
          else g.ey x } := by
  unfold update_electric_field_ey
  rw [forLoop3_eq_foldl_curried]
  refine foldl_lift_store (fun a : Arr3 => ({ g with ey := a } : fdtd3D)) _
    (fun x old => old + ((g.hx (x.1, x.2.1, x.2.2) - g.hx (x.1, x.2.1, x.2.2 - 1)) * (1 / g.dz) -
            (g.hz (x.1, x.2.1, x.2.2) - g.hz (x.1 - 1, x.2.1, x.2.2)) * (1 / g.dx)) * g.dt * g.permittivity_inv (x.1, x.2.1, x.2.2)) _
    (nodup_keys3 _ _ _ _ _ _) _ (fun _ => mem_keys3) ?_ g.ey
  intro k a
  rfl

theorem update_electric_field_ez_eq (g : fdtd3D) :
    update_electric_field_ez g =
      { g with ez := fun x =>
          if inBox3 1 g.sizeX 1 g.sizeY 1 g.sizeZ x then
            g.ez x + ((g.hy (x.1, x.2.1, x.2.2) - g.hy (x.1 - 1, x.2.1, x.2.2)) * (1 / g.dx) -
            (g.hx (x.1, x.2.1, x.2.2) - g.hx (x.1, x.2.1 - 1, x.2.2)) * (1 / g.dy)) * g.dt * g.permittivity_inv (x.1, x.2.1, x.2.2)
          else g.ez x } := by
  unfold update_electric_field_ez
  rw [forLoop3_eq_foldl_curried]
  refine foldl_lift_store (fun a : Arr3 => ({ g with ez := a } : fdtd3D)) _
    (fun x old => old + ((g.hy (x.1, x.2.1, x.2.2) - g.hy (x.1 - 1, x.2.1, x.2.2)) * (1 / g.dx) -
            (g.hx (x.1, x.2.1, x.2.2) - g.hx (x.1, x.2.1 - 1, x.2.2)) * (1 / g.dy)) * g.dt * g.permittivity_inv (x.1, x.2.1, x.2.2)) _
    (nodup_keys3 _ _ _ _ _ _) _ (fun _ => mem_keys3) ?_ g.ez
  intro k a
  rfl

theorem update_magnetic_field_hx_eq (g : fdtd3D) :
    update_magnetic_field_hx g =
      { g with hx := fun x =>
          if inBox3 0 (usub g.sizeX 1) 0 (usub g.sizeY 1) 0 (usub g.sizeZ 1) x then
            g.hx x + ((g.ey (x.1, x.2.1, x.2.2 + 1) - g.ey (x.1, x.2.1, x.2.2)) * (1 / g.dz) -
            (g.ez (x.1, x.2.1 + 1, x.2.2) - g.ez (x.1, x.2.1, x.2.2)) * (1 / g.dy)) * g.dt * g.permeability_inv (x.1, x.2.1, x.2.2)
          else g.hx x } := by
  unfold update_magnetic_field_hx
  rw [forLoop3_eq_foldl_curried]
  refine foldl_lift_store (fun a : Arr3 => ({ g with hx := a } : fdtd3D)) _
    (fun x old => old + ((g.ey (x.1, x.2.1, x.2.2 + 1) - g.ey (x.1, x.2.1, x.2.2)) * (1 / g.dz) -
            (g.ez (x.1, x.2.1 + 1, x.2.2) - g.ez (x.1, x.2.1, x.2.2)) * (1 / g.dy)) * g.dt * g.permeability_inv (x.1, x.2.1, x.2.2)) _
    (nodup_keys3 _ _ _ _ _ _) _ (fun _ => mem_keys3) ?_ g.hx
  intro k a
  rfl

theorem update_magnetic_field_hy_eq (g : fdtd3D) :
    update_magnetic_field_hy g =
      { g with hy := fun x =>
          if inBox3 0 (usub g.sizeX 1) 0 (usub g.sizeY 1) 0 (usub g.sizeZ 1) x then
            g.hy x + ((g.ez (x.1 + 1, x.2.1, x.2.2) - g.ez (x.1, x.2.1, x.2.2)) * (1 / g.dx) -
            (g.ex (x.1, x.2.1, x.2.2 + 1) - g.ex (x.1, x.2.1, x.2.2)) * (1 / g.dz)) * g.dt * g.permeability_inv (x.1, x.2.1, x.2.2)
          else g.hy x } := by
  unfold update_magnetic_field_hy
  rw [forLoop3_eq_foldl_curried]
  refine foldl_lift_store (fun a : Arr3 => ({ g with hy := a } : fdtd3D)) _
    (fun x old => old + ((g.ez (x.1 + 1, x.2.1, x.2.2) - g.ez (x.1, x.2.1, x.2.2)) * (1 / g.dx) -
            (g.ex (x.1, x.2.1, x.2.2 + 1) - g.ex (x.1, x.2.1, x.2.2)) * (1 / g.dz)) * g.dt * g.permeability_inv (x.1, x.2.1, x.2.2)) _
    (nodup_keys3 _ _ _ _ _ _) _ (fun _ => mem_keys3) ?_ g.hy
  intro k a
  rfl

theorem update_magnetic_field_hz_eq (g : fdtd3D) :
    update_magnetic_field_hz g =
      { g with hz := fun x =>
          if inBox3 0 (usub g.sizeX 1) 0 (usub g.sizeY 1) 0 (usub g.sizeZ 1) x then
            g.hz x + ((g.ex (x.1, x.2.1 + 1, x.2.2) - g.ex (x.1, x.2.1, x.2.2)) * (1 / g.dy) -
            (g.ey (x.1 + 1, x.2.1, x.2.2) - g.ey (x.1, x.2.1, x.2.2)) * (1 / g.dx)) * g.dt * g.permeability_inv (x.1, x.2.1, x.2.2)
          else g.hz x } := by
  unfold update_magnetic_field_hz
  rw [forLoop3_eq_foldl_curried]
  refine foldl_lift_store (fun a : Arr3 => ({ g with hz := a } : fdtd3D)) _
    (fun x old => old + ((g.ex (x.1, x.2.1 + 1, x.2.2) - g.ex (x.1, x.2.1, x.2.2)) * (1 / g.dy) -
            (g.ey (x.1 + 1, x.2.1, x.2.2) - g.ey (x.1, x.2.1, x.2.2)) * (1 / g.dx)) * g.dt * g.permeability_inv (x.1, x.2.1, x.2.2)) _
    (nodup_keys3 _ _ _ _ _ _) _ (fun _ => mem_keys3) ?_ g.hz
  intro k a
  rfl

theorem update_electric_field_eq_3D (g : fdtd3D) :
    update_electric_field g =
      { g with
        ex := fun x =>
          if inBox3 1 g.sizeX 1 g.sizeY 1 g.sizeZ x then
            g.ex x + ((g.hz (x.1, x.2.1, x.2.2) - g.hz (x.1, x.2.1 - 1, x.2.2)) * (1 / g.dy) -
            (g.hy (x.1, x.2.1, x.2.2) - g.hy (x.1, x.2.1, x.2.2 - 1)) * (1 / g.dz)) * g.dt * g.permittivity_inv (x.1, x.2.1, x.2.2)
          else g.ex x,
        ey := fun x =>
          if inBox3 1 g.sizeX 1 g.sizeY 1 g.sizeZ x then
            g.ey x + ((g.hx (x.1, x.2.1, x.2.2) - g.hx (x.1, x.2.1, x.2.2 - 1)) * (1 / g.dz) -
            (g.hz (x.1, x.2.1, x.2.2) - g.hz (x.1 - 1, x.2.1, x.2.2)) * (1 / g.dx)) * g.dt * g.permittivity_inv (x.1, x.2.1, x.2.2)
          else g.ey x,
        ez := fun x =>
          if inBox3 1 g.sizeX 1 g.sizeY 1 g.sizeZ x then
            g.ez x + ((g.hy (x.1, x.2.1, x.2.2) - g.hy (x.1 - 1, x.2.1, x.2.2)) * (1 / g.dx) -
            (g.hx (x.1, x.2.1, x.2.2) - g.hx (x.1, x.2.1 - 1, x.2.2)) * (1 / g.dy)) * g.dt * g.permittivity_inv (x.1, x.2.1, x.2.2)
          else g.ez x } := by
  unfold update_electric_field
  rw [update_electric_field_ex_eq]
  rw [update_electric_field_ey_eq]
  dsimp only
  rw [update_electric_field_ez_eq]

theorem update_magnetic_field_eq_3D (g : fdtd3D) :
    update_magnetic_field g =
      { g with
        hx := fun x =>
          if inBox3 0 (usub g.sizeX 1) 0 (usub g.sizeY 1) 0 (usub g.sizeZ 1) x then
            g.hx x + ((g.ey (x.1, x.2.1, x.2.2 + 1) - g.ey (x.1, x.2.1, x.2.2)) * (1 / g.dz) -
            (g.ez (x.1, x.2.1 + 1, x.2.2) - g.ez (x.1, x.2.1, x.2.2)) * (1 / g.dy)) * g.dt * g.permeability_inv (x.1, x.2.1, x.2.2)
          else g.hx x,
        hy := fun x =>
          if inBox3 0 (usub g.sizeX 1) 0 (usub g.sizeY 1) 0 (usub g.sizeZ 1) x then
            g.hy x + ((g.ez (x.1 + 1, x.2.1, x.2.2) - g.ez (x.1, x.2.1, x.2.2)) * (1 / g.dx) -
            (g.ex (x.1, x.2.1, x.2.2 + 1) - g.ex (x.1, x.2.1, x.2.2)) * (1 / g.dz)) * g.dt * g.permeability_inv (x.1, x.2.1, x.2.2)
          else g.hy x,
        hz := fun x =>
          if inBox3 0 (usub g.sizeX 1) 0 (usub g.sizeY 1) 0 (usub g.sizeZ 1) x then
            g.hz x + ((g.ex (x.1, x.2.1 + 1, x.2.2) - g.ex (x.1, x.2.1, x.2.2)) * (1 / g.dy) -
            (g.ey (x.1 + 1, x.2.1, x.2.2) - g.ey (x.1, x.2.1, x.2.2)) * (1 / g.dx)) * g.dt * g.permeability_inv (x.1, x.2.1, x.2.2)
          else g.hz x } := by
  unfold update_magnetic_field
  rw [update_magnetic_field_hx_eq]
  rw [update_magnetic_field_hy_eq]
  dsimp only
  rw [update_magnetic_field_hz_eq]

end D3

namespace D3

theorem update_electric_field_stencil (g : fdtd3D) (comp : Axis) (c : Nat × Nat × Nat)
    (hc : inBox3 1 g.sizeX 1 g.sizeY 1 g.sizeZ c) :
    E_field (update_electric_field g) comp c =
      E_field g comp c + g.dt * g.permittivity_inv c *
        (curl_sign comp Axis.x * E_stencil_term g comp Axis.x c +
          curl_sign comp Axis.y * E_stencil_term g comp Axis.y c +
          curl_sign comp Axis.z * E_stencil_term g comp Axis.z c) := by
  rw [update_electric_field_eq_3D]
  cases comp <;>
  · simp only [E_field, E_stencil_term, curl_sign, curl_partner, H_field, spacing, bwd,
      bwd_x, bwd_y, bwd_z]
    rw [if_pos hc]
    ring

theorem update_magnetic_field_stencil (g : fdtd3D) (comp : Axis) (c : Nat × Nat × Nat)
    (hc : inBox3 0 (usub g.sizeX 1) 0 (usub g.sizeY 1) 0 (usub g.sizeZ 1) c) :
    H_field (update_magnetic_field g) comp c =
      H_field g comp c - g.dt * g.permeability_inv c *
        (curl_sign comp Axis.x * H_stencil_term g comp Axis.x c +
          curl_sign comp Axis.y * H_stencil_term g comp Axis.y c +
          curl_sign comp Axis.z * H_stencil_term g comp Axis.z c) := by
  rw [update_magnetic_field_eq_3D]
  cases comp <;>
  · simp only [H_field, H_stencil_term, curl_sign, curl_partner, E_field, spacing, fwd,
      fwd_x, fwd_y, fwd_z]
    rw [if_pos hc]
    ring

theorem cpml_block_E_spec (g : fdtd3D) (hT : g.cpml_thickness < UINTMAX_MOD)
    (hS : ∀ ax, g.cpml_thickness + 1 ≤ size g ax) (hS2 : ∀ ax, size g ax < UINTMAX_MOD)
    (comp ax : Axis) (far : Bool) (hne : ax ≠ comp)
    (hflag : flagSet (g.border_condition (cpml_face ax far)) border_cpml = true) :
    cpml_face_spec (cpml_box g ax) (cpml_layer ax) (cpml_cell_E g ax far) g.bx g.cx
      (fun k => E_stencil_term g comp ax (cpml_cell_E g ax far k)) (curl_sign comp ax) g.dt
      g.permittivity_inv (psi_E g comp ax far) (psi_E (cpml_block_E ax far g) comp ax far)
      (E_field g comp) (E_field (cpml_block_E ax far g) comp) := by
  have hx := hS Axis.x
  have hy := hS Axis.y
  have hz := hS Axis.z
  have hx2 := hS2 Axis.x
  have hy2 := hS2 Axis.y
  have hz2 := hS2 Axis.z
  match comp, ax, far, hne, hflag with
  | Axis.x, Axis.y, false, _, hflag => exact ((update_electric_cpml_left_spec g).1 hflag).1
  | Axis.x, Axis.y, true, _, hflag => exact ((update_electric_cpml_right_spec g hT hy hy2).1 hflag).1
  | Axis.x, Axis.z, false, _, hflag => exact ((update_electric_cpml_front_spec g).1 hflag).1
  | Axis.x, Axis.z, true, _, hflag => exact ((update_electric_cpml_back_spec g hT hz hz2).1 hflag).1
  | Axis.y, Axis.x, false, _, hflag => exact ((update_electric_cpml_bottom_spec g).1 hflag).1
  | Axis.y, Axis.x, true, _, hflag => exact ((update_electric_cpml_top_spec g hT hx hx2).1 hflag).1
  | Axis.y, Axis.z, false, _, hflag => exact ((update_electric_cpml_front_spec g).1 hflag).2
  | Axis.y, Axis.z, true, _, hflag => exact ((update_electric_cpml_back_spec g hT hz hz2).1 hflag).2
  | Axis.z, Axis.x, false, _, hflag => exact ((update_electric_cpml_bottom_spec g).1 hflag).2
  | Axis.z, Axis.x, true, _, hflag => exact ((update_electric_cpml_top_spec g hT hx hx2).1 hflag).2
  | Axis.z, Axis.y, false, _, hflag => exact ((update_electric_cpml_left_spec g).1 hflag).2
  | Axis.z, Axis.y, true, _, hflag => exact ((update_electric_cpml_right_spec g hT hy hy2).1 hflag).2
  | Axis.x, Axis.x, _, hne, _ => exact absurd rfl hne
  | Axis.y, Axis.y, _, hne, _ => exact absurd rfl hne
  | Axis.z, Axis.z, _, hne, _ => exact absurd rfl hne

theorem cpml_block_H_spec (g : fdtd3D) (hT : g.cpml_thickness < UINTMAX_MOD)
    (hS : ∀ ax, g.cpml_thickness + 1 ≤ size g ax) (hS2 : ∀ ax, size g ax < UINTMAX_MOD)
    (comp ax : Axis) (far : Bool) (hne : ax ≠ comp)
    (hflag : flagSet (g.border_condition (cpml_face ax far)) border_cpml = true) :
    cpml_face_spec (cpml_box g ax) (cpml_layer ax) (cpml_cell_H g ax far) g.bx g.cx
      (fun k => H_stencil_term g comp ax (cpml_cell_H g ax far k)) (-curl_sign comp ax) g.dt
      g.permeability_inv (psi_H g comp ax far) (psi_H (cpml_block_H ax far g) comp ax far)
      (H_field g comp) (H_field (cpml_block_H ax far g) comp) := by
  have hx := hS Axis.x
  have hy := hS Axis.y
  have hz := hS Axis.z
  have hx2 := hS2 Axis.x
  have hy2 := hS2 Axis.y
  have hz2 := hS2 Axis.z
  have e1 : -curl_sign Axis.x Axis.z = 1 := by simp [curl_sign]
  have e2 : -curl_sign Axis.y Axis.x = 1 := by simp [curl_sign]
  have e3 : -curl_sign Axis.z Axis.y = 1 := by simp [curl_sign]
  match comp, ax, far, hne, hflag with
  | Axis.x, Axis.y, false, _, hflag => exact ((update_magnetic_cpml_left_spec g).1 hflag).1
  | Axis.x, Axis.y, true, _, hflag => exact ((update_magnetic_cpml_right_spec g hT hy hy2).1 hflag).1
  | Axis.x, Axis.z, false, _, hflag =>
    rw [e1]; exact ((update_magnetic_cpml_front_spec g).1 hflag).1
  | Axis.x, Axis.z, true, _, hflag =>
    rw [e1]; exact ((update_magnetic_cpml_back_spec g hT hz hz2).1 hflag).1
  | Axis.y, Axis.x, false, _, hflag =>
    rw [e2]; exact ((update_magnetic_cpml_bottom_spec g).1 hflag).1
  | Axis.y, Axis.x, true, _, hflag =>
    rw [e2]; exact ((update_magnetic_cpml_top_spec g hT hx hx2).1 hflag).1
  | Axis.y, Axis.z, false, _, hflag => exact ((update_magnetic_cpml_front_spec g).1 hflag).2
  | Axis.y, Axis.z, true, _, hflag => exact ((update_magnetic_cpml_back_spec g hT hz hz2).1 hflag).2
  | Axis.z, Axis.x, false, _, hflag => exact ((update_magnetic_cpml_bottom_spec g).1 hflag).2
  | Axis.z, Axis.x, true, _, hflag => exact ((update_magnetic_cpml_top_spec g hT hx hx2).1 hflag).2
  | Axis.z, Axis.y, false, _, hflag =>
    rw [e3]; exact ((update_magnetic_cpml_left_spec g).1 hflag).2
  | Axis.z, Axis.y, true, _, hflag =>
    rw [e3]; exact ((update_magnetic_cpml_right_spec g hT hy hy2).1 hflag).2
  | Axis.x, Axis.x, _, hne, _ => exact absurd rfl hne
  | Axis.y, Axis.y, _, hne, _ => exact absurd rfl hne
  | Axis.z, Axis.z, _, hne, _ => exact absurd rfl hne

theorem update_electric_field_tables (g : fdtd3D) :
    H_field (update_electric_field g) = H_field g ∧ spacing (update_electric_field g) = spacing g ∧
      size (update_electric_field g) = size g ∧ psi_E (update_electric_field g) = psi_E g ∧
      cpml_box (update_electric_field g) = cpml_box g ∧ cpml_cell_E (update_electric_field g) = cpml_cell_E g ∧
      (update_electric_field g).cpml_thickness = g.cpml_thickness ∧
      (update_electric_field g).border_condition = g.border_condition ∧ (update_electric_field g).bx = g.bx ∧
      (update_electric_field g).cx = g.cx ∧ (update_electric_field g).dt = g.dt ∧
      (update_electric_field g).permittivity_inv = g.permittivity_inv := by
  rw [update_electric_field_eq_3D]
  refine ⟨?_, ?_, ?_, ?_, ?_, ?_, rfl, rfl, rfl, rfl, rfl, rfl⟩
  · funext ax
    cases ax <;> rfl
  · funext ax
    cases ax <;> rfl
  · funext ax
    cases ax <;> rfl
  · funext comp ax far
    cases comp <;> cases ax <;> cases far <;> rfl
  · funext ax
    cases ax <;> rfl
  · funext ax far
    cases ax <;> cases far <;> rfl

theorem update_magnetic_field_tables (g : fdtd3D) :
    E_field (update_magnetic_field g) = E_field g ∧ spacing (update_magnetic_field g) = spacing g ∧
      size (update_magnetic_field g) = size g ∧ psi_H (update_magnetic_field g) = psi_H g ∧
      cpml_box (update_magnetic_field g) = cpml_box g ∧ cpml_cell_H (update_magnetic_field g) = cpml_cell_H g ∧
      (update_magnetic_field g).cpml_thickness = g.cpml_thickness ∧
      (update_magnetic_field g).border_condition = g.border_condition ∧ (update_magnetic_field g).bx = g.bx ∧
      (update_magnetic_field g).cx = g.cx ∧ (update_magnetic_field g).dt = g.dt ∧
      (update_magnetic_field g).permeability_inv = g.permeability_inv := by
  rw [update_magnetic_field_eq_3D]
  refine ⟨?_, ?_, ?_, ?_, ?_, ?_, rfl, rfl, rfl, rfl, rfl, rfl⟩
  · funext ax
    cases ax <;> rfl
  · funext ax
    cases ax <;> rfl
  · funext ax
    cases ax <;> rfl
  · funext comp ax far
    cases comp <;> cases ax <;> cases far <;> rfl
  · funext ax
    cases ax <;> rfl
  · funext ax far
    cases ax <;> cases far <;> rfl

theorem cpml_E_combined (g : fdtd3D) (hT : g.cpml_thickness < UINTMAX_MOD)
    (hS : ∀ ax, g.cpml_thickness + 1 ≤ size g ax) (hS2 : ∀ ax, size g ax < UINTMAX_MOD)
    (comp ax : Axis) (far : Bool) (hne : ax ≠ comp)
    (hflag : flagSet (g.border_condition (cpml_face ax far)) border_cpml = true)
    (k : Nat × Nat × Nat) (hk : cpml_box g ax k)
    (hc : inBox3 1 g.sizeX 1 g.sizeY 1 g.sizeZ (cpml_cell_E g ax far k)) :
    psi_E (cpml_block_E ax far (update_electric_field g)) comp ax far k =
        g.bx (cpml_layer ax k) * psi_E g comp ax far k +
          g.cx (cpml_layer ax k) * E_stencil_term g comp ax (cpml_cell_E g ax far k) ∧
      E_field (cpml_block_E ax far (update_electric_field g)) comp (cpml_cell_E g ax far k) =
        E_field g comp (cpml_cell_E g ax far k) +
          g.dt * g.permittivity_inv (cpml_cell_E g ax far k) *
            (curl_sign comp Axis.x * (E_stencil_term g comp Axis.x (cpml_cell_E g ax far k) +
                if Axis.x = ax then psi_E (cpml_block_E ax far (update_electric_field g)) comp ax far k else 0) +
              curl_sign comp Axis.y * (E_stencil_term g comp Axis.y (cpml_cell_E g ax far k) +
                if Axis.y = ax then psi_E (cpml_block_E ax far (update_electric_field g)) comp ax far k else 0) +
              curl_sign comp Axis.z * (E_stencil_term g comp Axis.z (cpml_cell_E g ax far k) +
                if Axis.z = ax then psi_E (cpml_block_E ax far (update_electric_field g)) comp ax far k else 0)) := by
  obtain ⟨e1, e2, e3, e4, e5, e6, e7, e8, e9, e10, e11, e12⟩ := update_electric_field_tables g
  have hspec := cpml_block_E_spec (update_electric_field g) (by rw [e7]; exact hT)
    (by rw [e3, e7]; exact hS) (by rw [e3]; exact hS2) comp ax far hne (by rw [e8]; exact hflag)
  have hterm : ∀ a c, E_stencil_term (update_electric_field g) comp a c = E_stencil_term g comp a c := by
    intro a c
    unfold E_stencil_term
    rw [e1, e2]
  rw [e4, e5, e6, e9, e10, e11, e12] at hspec
  obtain ⟨h1, -, h3, -⟩ := hspec
  have hpsi := h1 k hk
  have hfld := h3 k hk
  simp only [hterm] at hpsi
  rw [update_electric_field_stencil g comp _ hc] at hfld
  refine ⟨hpsi, ?_⟩
  rw [hfld]
  cases ax <;> simp <;> ring

theorem cpml_H_combined (g : fdtd3D) (hT : g.cpml_thickness < UINTMAX_MOD)
    (hS : ∀ ax, g.cpml_thickness + 1 ≤ size g ax) (hS2 : ∀ ax, size g ax < UINTMAX_MOD)
    (comp ax : Axis) (far : Bool) (hne : ax ≠ comp)
    (hflag : flagSet (g.border_condition (cpml_face ax far)) border_cpml = true)
    (k : Nat × Nat × Nat) (hk : cpml_box g ax k)
    (hc : inBox3 0 (usub g.sizeX 1) 0 (usub g.sizeY 1) 0 (usub g.sizeZ 1) (cpml_cell_H g ax far k)) :
    psi_H (cpml_block_H ax far (update_magnetic_field g)) comp ax far k =
        g.bx (cpml_layer ax k) * psi_H g comp ax far k +
          g.cx (cpml_layer ax k) * H_stencil_term g comp ax (cpml_cell_H g ax far k) ∧
      H_field (cpml_block_H ax far (update_magnetic_field g)) comp (cpml_cell_H g ax far k) =
        H_field g comp (cpml_cell_H g ax far k) -
          g.dt * g.permeability_inv (cpml_cell_H g ax far k) *
            (curl_sign comp Axis.x * (H_stencil_term g comp Axis.x (cpml_cell_H g ax far k) +
                if Axis.x = ax then psi_H (cpml_block_H ax far (update_magnetic_field g)) comp ax far k else 0) +
              curl_sign comp Axis.y * (H_stencil_term g comp Axis.y (cpml_cell_H g ax far k) +
                if Axis.y = ax then psi_H (cpml_block_H ax far (update_magnetic_field g)) comp ax far k else 0) +
              curl_sign comp Axis.z * (H_stencil_term g comp Axis.z (cpml_cell_H g ax far k) +
                if Axis.z = ax then psi_H (cpml_block_H ax far (update_magnetic_field g)) comp ax far k else 0)) := by
  obtain ⟨e1, e2, e3, e4, e5, e6, e7, e8, e9, e10, e11, e12⟩ := update_magnetic_field_tables g
  have hspec := cpml_block_H_spec (update_magnetic_field g) (by rw [e7]; exact hT)
    (by rw [e3, e7]; exact hS) (by rw [e3]; exact hS2) comp ax far hne (by rw [e8]; exact hflag)
  have hterm : ∀ a c, H_stencil_term (update_magnetic_field g) comp a c = H_stencil_term g comp a c := by
    intro a c
    unfold H_stencil_term
    rw [e1, e2]
  rw [e4, e5, e6, e9, e10, e11, e12] at hspec
  obtain ⟨h1, -, h3, -⟩ := hspec
  have hpsi := h1 k hk
  have hfld := h3 k hk
  simp only [hterm] at hpsi
  rw [update_magnetic_field_stencil g comp _ hc] at hfld
  refine ⟨hpsi, ?_⟩
  rw [hfld]
  cases ax <;> simp <;> ring

end D3

/-! ## The CPML coefficient vectors -/

theorem foldl_store_at_other {κ ι α : Type} [DecidableEq ι] (f : κ → ι) (v : κ → α)
    (ks : List κ) (a : ι → α) (y : ι) (hy : ∀ k ∈ ks, f k ≠ y) :
    ks.foldl (fun a k => store a (f k) (v k)) a y = a y := by
  induction ks generalizing a with
  | nil => rfl
  | cons k ks ih =>
    rw [List.foldl_cons, ih _ (fun k2 hk2 => hy k2 (List.mem_cons_of_mem _ hk2))]
    exact store_other a (f k) y (v k) (fun h => hy k (List.mem_cons_self _ _) h.symm)

/-- A loop whose iteration `k` writes the value `v k` to the cell `f k`, with `f`
injective on the iteration space. -/
theorem foldl_store_at {κ ι α : Type} [DecidableEq ι] (f : κ → ι) (v : κ → α)
    (ks : List κ) (hinj : ∀ k ∈ ks, ∀ k2 ∈ ks, f k = f k2 → k = k2) (a : ι → α)
    (k0 : κ) (hk0 : k0 ∈ ks) :
    ks.foldl (fun a k => store a (f k) (v k)) a (f k0) = v k0 := by
  induction ks generalizing a with
  | nil => exact absurd hk0 (List.not_mem_nil _)
  | cons k ks ih =>
    rw [List.foldl_cons]
    by_cases hmem : k0 ∈ ks
    · exact ih (fun k1 h1 k2 h2 => hinj k1 (List.mem_cons_of_mem _ h1) k2
        (List.mem_cons_of_mem _ h2)) _ hmem
    · have hk : k0 = k := by
        rcases List.mem_cons.mp hk0 with h | h
        · exact h
        · exact absurd h hmem
      subst hk
      rw [foldl_store_at_other f v ks _ (f k0)]
      · exact store_same a (f k0) (v k0)
      · intro k2 hk2 h
        have := hinj k2 (List.mem_cons_of_mem _ hk2) k0 (List.mem_cons_self _ _) h
        exact hmem (this ▸ hk2)

/-- The coefficient loop of the constructors, on a pair of vectors: iteration `d`
stores `vb d` and `vc d` at index `T - d - 1`. -/
theorem coeff_loop_pair (T : Nat) (hT : T < UINTMAX_MOD) (vb vc : Nat → ℚ) (p : Arr1 × Arr1)
    (k : Nat) (hk : k < T) :
    ((List.range' 0 (T - 0)).foldl (fun (p : Arr1 × Arr1) d =>
        (store p.1 (usub (usub T d) 1) (vb d), store p.2 (usub (usub T d) 1) (vc d))) p).1 k =
        vb (T - 1 - k) ∧
    ((List.range' 0 (T - 0)).foldl (fun (p : Arr1 × Arr1) d =>
        (store p.1 (usub (usub T d) 1) (vb d), store p.2 (usub (usub T d) 1) (vc d))) p).2 k =
        vc (T - 1 - k) := by
  have hidx : ∀ d, d < T → usub (usub T d) 1 = T - 1 - d := by
    intro d hd
    rw [usub_eq_sub (Nat.le_of_lt hd) hT, usub_eq_sub (by omega) (by omega)]
    omega
  have hinj : ∀ d ∈ List.range' 0 (T - 0), ∀ d2 ∈ List.range' 0 (T - 0),
      usub (usub T d) 1 = usub (usub T d2) 1 → d = d2 := by
    intro d hd d2 hd2 h
    rw [List.mem_range'_1] at hd hd2
    rw [hidx d (by omega), hidx d2 (by omega)] at h
    omega
  have hmem : T - 1 - k ∈ List.range' 0 (T - 0) := by
    rw [List.mem_range'_1]
    omega
  have hkk : usub (usub T (T - 1 - k)) 1 = k := by
    rw [hidx _ (by omega)]
    omega
  obtain ⟨p1, p2⟩ := p
  have e := foldl_prod (fun d (a : Arr1) => store a (usub (usub T d) 1) (vb d))
    (fun d (a : Arr1) => store a (usub (usub T d) 1) (vc d)) (List.range' 0 (T - 0)) p1 p2
  have e1 := foldl_store_at (fun d => usub (usub T d) 1) vb _ hinj p1 _ hmem
  have e2 := foldl_store_at (fun d => usub (usub T d) 1) vc _ hinj p2 _ hmem
  dsimp only at e1 e2
  rw [hkk] at e1 e2
  rw [e]
  exact ⟨e1, e2⟩

namespace D2

theorem init_fdtd_2D_cpml_coeff_frame (ext : Extern) (T : Nat) (g : fdtd2D) :
    init_fdtd_2D_cpml_coeff ext T g =
      { g with bx := (init_fdtd_2D_cpml_coeff ext T g).bx,
               cx := (init_fdtd_2D_cpml_coeff ext T g).cx } ∧
    ∀ k, T < UINTMAX_MOD → k < T →
      (init_fdtd_2D_cpml_coeff ext T g).bx k =
          b ext (T - 1 - k) (T - 1) g.dt (2 * M_PI * eps0 * g.dx * (1 / 10))
            ((8 / 10) * (4 + 1) / (g.dx * ext.sqrt (mu0 / eps0))) ∧
      (init_fdtd_2D_cpml_coeff ext T g).cx k =
          c ext (T - 1 - k) (T - 1) g.dt (2 * M_PI * eps0 * g.dx * (1 / 10))
            ((8 / 10) * (4 + 1) / (g.dx * ext.sqrt (mu0 / eps0))) := by
  have key : init_fdtd_2D_cpml_coeff ext T g =
      (fun p : Arr1 × Arr1 => ({ g with bx := p.1, cx := p.2 } : fdtd2D))
        ((List.range' 0 (T - 0)).foldl (fun (p : Arr1 × Arr1) d =>
          (store p.1 (usub (usub T d) 1)
            (b ext d (usub T 1) g.dt (2 * M_PI * eps0 * g.dx * (1 / 10))
              ((8 / 10) * (polynomial_taper_order + 1) / (g.dx * ext.sqrt (mu0 / eps0)))),
           store p.2 (usub (usub T d) 1)
            (c ext d (usub T 1) g.dt (2 * M_PI * eps0 * g.dx * (1 / 10))
              ((8 / 10) * (polynomial_taper_order + 1) / (g.dx * ext.sqrt (mu0 / eps0))))))
          (g.bx, g.cx)) := by
    unfold init_fdtd_2D_cpml_coeff forLoop
    refine foldl_lift (fun p : Arr1 × Arr1 => ({ g with bx := p.1, cx := p.2 } : fdtd2D))
      _ _ _ ?_ (g.bx, g.cx)
    intro k p
    rfl
  refine ⟨?_, ?_⟩
  · rw [key]
  · intro k hT hk
    rw [key]
    have h := coeff_loop_pair T hT
      (fun d => b ext d (usub T 1) g.dt (2 * M_PI * eps0 * g.dx * (1 / 10))
        ((8 / 10) * (polynomial_taper_order + 1) / (g.dx * ext.sqrt (mu0 / eps0))))
      (fun d => c ext d (usub T 1) g.dt (2 * M_PI * eps0 * g.dx * (1 / 10))
        ((8 / 10) * (polynomial_taper_order + 1) / (g.dx * ext.sqrt (mu0 / eps0))))
      (g.bx, g.cx) k hk
    have hT1 : usub T 1 = T - 1 := usub_eq_sub (by omega) hT
    have hp : polynomial_taper_order = 4 := rfl
    rw [hT1, hp] at h ⊢
    exact h

end D2

namespace D3

theorem init_fdtd_3D_cpml_coeff_frame (ext : Extern) (T : Nat) (g : fdtd3D) :
    init_fdtd_3D_cpml_coeff ext T g =
      { g with bx := (init_fdtd_3D_cpml_coeff ext T g).bx,
               cx := (init_fdtd_3D_cpml_coeff ext T g).cx } ∧
    ∀ k, T < UINTMAX_MOD → k < T →
      (init_fdtd_3D_cpml_coeff ext T g).bx k =
          b ext (T - 1 - k) (T - 1) g.dt (2 * M_PI * eps0 * g.dx * (1 / 10))
            ((8 / 10) * (4 + 1) / (g.dx * ext.sqrt (mu0 / eps0))) ∧
      (init_fdtd_3D_cpml_coeff ext T g).cx k =
          c ext (T - 1 - k) (T - 1) g.dt (2 * M_PI * eps0 * g.dx * (1 / 10))
            ((8 / 10) * (4 + 1) / (g.dx * ext.sqrt (mu0 / eps0))) := by
  have key : init_fdtd_3D_cpml_coeff ext T g =
      (fun p : Arr1 × Arr1 => ({ g with bx := p.1, cx := p.2 } : fdtd3D))
        ((List.range' 0 (T - 0)).foldl (fun (p : Arr1 × Arr1) d =>
          (store p.1 (usub (usub T d) 1)
            (b ext d (usub T 1) g.dt (2 * M_PI * eps0 * g.dx * (1 / 10))
              ((8 / 10) * (polynomial_taper_order + 1) / (g.dx * ext.sqrt (mu0 / eps0)))),
           store p.2 (usub (usub T d) 1)
            (c ext d (usub T 1) g.dt (2 * M_PI * eps0 * g.dx * (1 / 10))
              ((8 / 10) * (polynomial_taper_order + 1) / (g.dx * ext.sqrt (mu0 / eps0))))))
          (g.bx, g.cx)) := by
    unfold init_fdtd_3D_cpml_coeff forLoop
    refine foldl_lift (fun p : Arr1 × Arr1 => ({ g with bx := p.1, cx := p.2 } : fdtd3D))
      _ _ _ ?_ (g.bx, g.cx)
    intro k p
    rfl
  refine ⟨?_, ?_⟩
  · rw [key]
  · intro k hT hk
    rw [key]
    have h := coeff_loop_pair T hT
      (fun d => b ext d (usub T 1) g.dt (2 * M_PI * eps0 * g.dx * (1 / 10))
        ((8 / 10) * (polynomial_taper_order + 1) / (g.dx * ext.sqrt (mu0 / eps0))))
      (fun d => c ext d (usub T 1) g.dt (2 * M_PI * eps0 * g.dx * (1 / 10))
        ((8 / 10) * (polynomial_taper_order + 1) / (g.dx * ext.sqrt (mu0 / eps0))))
      (g.bx, g.cx) k hk
    have hT1 : usub T 1 = T - 1 := usub_eq_sub (by omega) hT
    have hp : polynomial_taper_order = 4 := rfl
    rw [hT1, hp] at h ⊢
    exact h

end D3

namespace D1

theorem update_electric_field_static_1D (g : fdtd1D) :
    (update_electric_field g).static = g.static := by
  unfold update_electric_field
  refine forLoop_proj fdtd1D.static _ _ _ (fun i st => ?_) g
  rfl

theorem update_magnetic_field_static_1D (g : fdtd1D) :
    (update_magnetic_field g).static = g.static := by
  unfold update_magnetic_field
  refine forLoop_proj fdtd1D.static _ _ _ (fun i st => ?_) g
  rfl

theorem border_condition_electric_static_1D (g : fdtd1D) :
    (border_condition_electric g).static = g.static := by
  unfold border_condition_electric
  refine forLoop_proj fdtd1D.static _ _ _ (fun i st => ?_) g
  dsimp only
  split_ifs <;> rfl

theorem border_condition_magnetic_static_1D (g : fdtd1D) :
    (border_condition_magnetic g).static = g.static := by
  unfold border_condition_magnetic
  refine forLoop_proj fdtd1D.static _ _ _ (fun i st => ?_) g
  dsimp only
  split_ifs <;> rfl

theorem apply_M_sources_static_1D (ext : Extern) (g : fdtd1D) :
    (apply_M_sources ext g).static = g.static := by
  unfold apply_M_sources
  refine forLoop_proj fdtd1D.static _ _ _ (fun i st => ?_) g
  rfl

theorem apply_J_sources_static_1D (ext : Extern) (g : fdtd1D) :
    (apply_J_sources ext g).static = g.static := by
  unfold apply_J_sources
  refine forLoop_proj fdtd1D.static _ _ _ (fun i st => ?_) g
  rfl

theorem run_1D_body_static (ext : Extern) (g : fdtd1D) :
    (run_1D_body ext g).static = g.static := by
  unfold run_1D_body
  simp only [border_condition_electric_static_1D, apply_J_sources_static_1D,
    update_electric_field_static_1D, border_condition_magnetic_static_1D, apply_M_sources_static_1D,
    update_magnetic_field_static_1D]

end D1

theorem forLoop_proj_fst {σ τ α : Type} (proj : σ → α) (lo hi : Nat) (body : Nat → σ × τ → σ × τ)
    (h : ∀ i st, proj (body i st).1 = proj st.1) (s : σ × τ) :
    proj (forLoop lo hi body s).1 = proj s.1 :=
  forLoop_proj (fun st : σ × τ => proj st.1) lo hi body h s

namespace D2

theorem update_electric_field_cell_static (glob : Globals) (ext : Extern) (g : fdtd2D)
    (i j : Nat) (st : fdtd2D × (Nat × Nat → dataPosDeviation)) :
    (update_electric_field_cell glob ext g i j st).1.static = st.1.static := by
  unfold update_electric_field_cell
  by_cases h1 : skip_guard glob g i j = true
  · by_cases h2 : (call_drand48 ext st.1).1 < glob.rand_skip_percent
    · simp only [if_pos h1, if_pos h2]
      rfl
    · simp only [if_pos h1, if_neg h2]
      rfl
  · simp only [if_neg h1]
    rfl

theorem update_electric_field_stencil_static (glob : Globals) (ext : Extern) (g : fdtd2D)
    (st : fdtd2D × (Nat × Nat → dataPosDeviation)) :
    (update_electric_field_stencil glob ext g st).1.static = st.1.static := by
  unfold update_electric_field_stencil
  refine forLoop_proj_fst fdtd2D.static _ _ _ (fun i st => ?_) st
  refine forLoop_proj_fst fdtd2D.static _ _ _ (fun j st => ?_) st
  exact update_electric_field_cell_static glob ext g i j st

theorem update_electric_field_interpolate_static (glob : Globals) (ext : Extern) (g s : fdtd2D) :
    (update_electric_field_interpolate glob ext g s).static = s.static := by
  unfold update_electric_field_interpolate
  refine forLoop_proj fdtd2D.static _ _ _ (fun i st => ?_) s
  refine forLoop_proj fdtd2D.static _ _ _ (fun j st => ?_) st
  by_cases h : (call_drand48 ext st).1 < glob.rand_skip_percent
  · simp only [if_pos h]
    rfl
  · simp only [if_neg h]
    rfl

theorem update_electric_field_restore_cell_static (threshold : Nat) (dpd : Nat × Nat → dataPosDeviation)
    (i j : Nat) (st : fdtd2D × Nat) :
    (update_electric_field_restore_cell threshold dpd i j st).1.static = st.1.static := by
  unfold update_electric_field_restore_cell
  by_cases h : st.2 < threshold
  · simp only [if_pos h]
    rfl
  · simp only [if_neg h]

theorem update_electric_field_restore_static (glob : Globals) (ext : Extern) (g : fdtd2D)
    (st : fdtd2D × (Nat × Nat → dataPosDeviation)) :
    (update_electric_field_restore glob ext g st).1.static = st.1.static := by
  unfold update_electric_field_restore
  refine forLoop_proj_fst fdtd2D.static _ _ _ (fun i st => ?_) ((st.1, 0) : fdtd2D × Nat)
  refine forLoop_proj_fst fdtd2D.static _ _ _ (fun j st => ?_) st
  exact update_electric_field_restore_cell_static _ _ i j st

theorem update_electric_field_pass_static (glob : Globals) (ext : Extern) (g : fdtd2D)
    (st : fdtd2D × (Nat × Nat → dataPosDeviation)) :
    (update_electric_field_pass glob ext g st).1.static = st.1.static := by
  unfold update_electric_field_pass
  by_cases h1 : glob.interpolate = true
  · by_cases h2 : glob.sort_skip = true
    · simp only [if_pos h1, if_pos h2]
      rw [update_electric_field_restore_static]
      exact (update_electric_field_interpolate_static glob ext g _).trans
        (update_electric_field_stencil_static glob ext g st)
    · simp only [if_pos h1, if_neg h2]
      exact (update_electric_field_interpolate_static glob ext g _).trans
        (update_electric_field_stencil_static glob ext g st)
  · by_cases h2 : glob.sort_skip = true
    · simp only [if_neg h1, if_pos h2]
      rw [update_electric_field_restore_static]
      exact update_electric_field_stencil_static glob ext g st
    · simp only [if_neg h1, if_neg h2]
      exact update_electric_field_stencil_static glob ext g st

theorem update_magnetic_field_hx_cell_static (glob : Globals) (ext : Extern) (g : fdtd2D)
    (i j : Nat) (st : fdtd2D × (Nat × Nat → dataPosDeviation)) :
    (update_magnetic_field_hx_cell glob ext g i j st).1.static = st.1.static := by
  unfold update_magnetic_field_hx_cell
  by_cases h1 : skip_guard glob g i j = true
  · by_cases h2 : (call_drand48 ext st.1).1 < glob.rand_skip_percent
    · simp only [if_pos h1, if_pos h2]
      rfl
    · simp only [if_pos h1, if_neg h2]
      rfl
  · simp only [if_neg h1]
    rfl

theorem update_magnetic_field_hx_stencil_static (glob : Globals) (ext : Extern) (g : fdtd2D)
    (st : fdtd2D × (Nat × Nat → dataPosDeviation)) :
    (update_magnetic_field_hx_stencil glob ext g st).1.static = st.1.static := by
  unfold update_magnetic_field_hx_stencil
  refine forLoop_proj_fst fdtd2D.static _ _ _ (fun i st => ?_) st
  refine forLoop_proj_fst fdtd2D.static _ _ _ (fun j st => ?_) st
  exact update_magnetic_field_hx_cell_static glob ext g i j st

theorem update_magnetic_field_hx_interpolate_static (glob : Globals) (ext : Extern) (g s : fdtd2D) :
    (update_magnetic_field_hx_interpolate glob ext g s).static = s.static := by
  unfold update_magnetic_field_hx_interpolate
  refine forLoop_proj fdtd2D.static _ _ _ (fun i st => ?_) s
  refine forLoop_proj fdtd2D.static _ _ _ (fun j st => ?_) st
  by_cases h : (call_drand48 ext st).1 < glob.rand_skip_percent
  · simp only [if_pos h]
    rfl
  · simp only [if_neg h]
    rfl

theorem update_magnetic_field_hx_restore_cell_static (threshold : Nat) (dpd : Nat × Nat → dataPosDeviation)
    (i j : Nat) (st : fdtd2D × Nat) :
    (update_magnetic_field_hx_restore_cell threshold dpd i j st).1.static = st.1.static := by
  unfold update_magnetic_field_hx_restore_cell
  by_cases h : st.2 < threshold
  · simp only [if_pos h]
    rfl
  · simp only [if_neg h]

theorem update_magnetic_field_hx_restore_static (glob : Globals) (ext : Extern) (g : fdtd2D)
    (st : fdtd2D × (Nat × Nat → dataPosDeviation)) :
    (update_magnetic_field_hx_restore glob ext g st).1.static = st.1.static := by
  unfold update_magnetic_field_hx_restore
  refine forLoop_proj_fst fdtd2D.static _ _ _ (fun i st => ?_) ((st.1, 0) : fdtd2D × Nat)
  refine forLoop_proj_fst fdtd2D.static _ _ _ (fun j st => ?_) st
  exact update_magnetic_field_hx_restore_cell_static _ _ i j st

theorem update_magnetic_field_hx_pass_static (glob : Globals) (ext : Extern) (g : fdtd2D)
    (st : fdtd2D × (Nat × Nat → dataPosDeviation)) :
    (update_magnetic_field_hx_pass glob ext g st).1.static = st.1.static := by
  unfold update_magnetic_field_hx_pass
  by_cases h1 : glob.interpolate = true
  · by_cases h2 : glob.sort_skip = true
    · simp only [if_pos h1, if_pos h2]
      rw [update_magnetic_field_hx_restore_static]
      exact (update_magnetic_field_hx_interpolate_static glob ext g _).trans
        (update_magnetic_field_hx_stencil_static glob ext g st)
    · simp only [if_pos h1, if_neg h2]
      exact (update_magnetic_field_hx_interpolate_static glob ext g _).trans
        (update_magnetic_field_hx_stencil_static glob ext g st)
  · by_cases h2 : glob.sort_skip = true
    · simp only [if_neg h1, if_pos h2]
      rw [update_magnetic_field_hx_restore_static]
      exact update_magnetic_field_hx_stencil_static glob ext g st
    · simp only [if_neg h1, if_neg h2]
      exact update_magnetic_field_hx_stencil_static glob ext g st

theorem update_magnetic_field_hy_cell_static (glob : Globals) (ext : Extern) (g : fdtd2D)
    (i j : Nat) (st : fdtd2D × (Nat × Nat → dataPosDeviation)) :
    (update_magnetic_field_hy_cell glob ext g i j st).1.static = st.1.static := by
  unfold update_magnetic_field_hy_cell
  by_cases h1 : skip_guard glob g i j = true
  · by_cases h2 : (call_drand48 ext st.1).1 < glob.rand_skip_percent
    · simp only [if_pos h1, if_pos h2]
      rfl
    · simp only [if_pos h1, if_neg h2]
      rfl
  · simp only [if_neg h1]
    rfl

theorem update_magnetic_field_hy_stencil_static (glob : Globals) (ext : Extern) (g : fdtd2D)
    (st : fdtd2D × (Nat × Nat → dataPosDeviation)) :
    (update_magnetic_field_hy_stencil glob ext g st).1.static = st.1.static := by
  unfold update_magnetic_field_hy_stencil
  refine forLoop_proj_fst fdtd2D.static _ _ _ (fun i st => ?_) st
  refine forLoop_proj_fst fdtd2D.static _ _ _ (fun j st => ?_) st
  exact update_magnetic_field_hy_cell_static glob ext g i j st

theorem update_magnetic_field_hy_interpolate_static (glob : Globals) (ext : Extern) (g s : fdtd2D) :
    (update_magnetic_field_hy_interpolate glob ext g s).static = s.static := by
  unfold update_magnetic_field_hy_interpolate
  refine forLoop_proj fdtd2D.static _ _ _ (fun i st => ?_) s
  refine forLoop_proj fdtd2D.static _ _ _ (fun j st => ?_) st
  by_cases h : (call_drand48 ext st).1 < glob.rand_skip_percent
  · simp only [if_pos h]
    rfl
  · simp only [if_neg h]
    rfl

theorem update_magnetic_field_hy_restore_cell_static (threshold : Nat) (dpd : Nat × Nat → dataPosDeviation)
    (i j : Nat) (st : fdtd2D × Nat) :
    (update_magnetic_field_hy_restore_cell threshold dpd i j st).1.static = st.1.static := by
  unfold update_magnetic_field_hy_restore_cell
  by_cases h : st.2 < threshold
  · simp only [if_pos h]
    rfl
  · simp only [if_neg h]

theorem update_magnetic_field_hy_restore_static (glob : Globals) (ext : Extern) (g : fdtd2D)
    (st : fdtd2D × (Nat × Nat → dataPosDeviation)) :
    (update_magnetic_field_hy_restore glob ext g st).1.static = st.1.static := by
  unfold update_magnetic_field_hy_restore
  refine forLoop_proj_fst fdtd2D.static _ _ _ (fun i st => ?_) ((st.1, 0) : fdtd2D × Nat)
  refine forLoop_proj_fst fdtd2D.static _ _ _ (fun j st => ?_) st
  exact update_magnetic_field_hy_restore_cell_static _ _ i j st

theorem update_magnetic_field_hy_pass_static (glob : Globals) (ext : Extern) (g : fdtd2D)
    (st : fdtd2D × (Nat × Nat → dataPosDeviation)) :
    (update_magnetic_field_hy_pass glob ext g st).1.static = st.1.static := by
  unfold update_magnetic_field_hy_pass
  by_cases h1 : glob.interpolate = true
  · by_cases h2 : glob.sort_skip = true
    · simp only [if_pos h1, if_pos h2]
      rw [update_magnetic_field_hy_restore_static]
      exact (update_magnetic_field_hy_interpolate_static glob ext g _).trans
        (update_magnetic_field_hy_stencil_static glob ext g st)
    · simp only [if_pos h1, if_neg h2]
      exact (update_magnetic_field_hy_interpolate_static glob ext g _).trans
        (update_magnetic_field_hy_stencil_static glob ext g st)
  · by_cases h2 : glob.sort_skip = true
    · simp only [if_neg h1, if_pos h2]
      rw [update_magnetic_field_hy_restore_static]
      exact update_magnetic_field_hy_stencil_static glob ext g st
    · simp only [if_neg h1, if_neg h2]
      exact update_magnetic_field_hy_stencil_static glob ext g st

theorem update_electric_field_static_2D (glob : Globals) (ext : Extern) (g : fdtd2D) :
    (update_electric_field glob ext g).static = g.static :=
  update_electric_field_pass_static glob ext g _

theorem update_magnetic_field_static_2D (glob : Globals) (ext : Extern) (g : fdtd2D) :
    (update_magnetic_field glob ext g).static = g.static := by
  unfold update_magnetic_field
  exact (update_magnetic_field_hy_pass_static glob ext g _).trans
    (update_magnetic_field_hx_pass_static glob ext g _)

theorem update_electric_cpml_south_static (g : fdtd2D) : (update_electric_cpml_south g).static = g.static := by
  unfold update_electric_cpml_south
  by_cases h : flagSet (g.border_condition border_south) border_cpml = true
  · simp only [if_pos h]
    refine forLoop_proj fdtd2D.static _ _ _ (fun i st => ?_) g
    refine forLoop_proj fdtd2D.static _ _ _ (fun i st => ?_) st
    rfl
  · simp only [if_neg h]

theorem update_electric_cpml_north_static (g : fdtd2D) : (update_electric_cpml_north g).static = g.static := by
  unfold update_electric_cpml_north
  by_cases h : flagSet (g.border_condition border_north) border_cpml = true
  · simp only [if_pos h]
    refine forLoop_proj fdtd2D.static _ _ _ (fun i st => ?_) g
    refine forLoop_proj fdtd2D.static _ _ _ (fun i st => ?_) st
    rfl
  · simp only [if_neg h]

theorem update_electric_cpml_west_static (g : fdtd2D) : (update_electric_cpml_west g).static = g.static := by
  unfold update_electric_cpml_west
  by_cases h : flagSet (g.border_condition border_west) border_cpml = true
  · simp only [if_pos h]
    refine forLoop_proj fdtd2D.static _ _ _ (fun i st => ?_) g
    refine forLoop_proj fdtd2D.static _ _ _ (fun i st => ?_) st
    rfl
  · simp only [if_neg h]

theorem update_electric_cpml_east_static (g : fdtd2D) : (update_electric_cpml_east g).static = g.static := by
  unfold update_electric_cpml_east
  by_cases h : flagSet (g.border_condition border_east) border_cpml = true
  · simp only [if_pos h]
    refine forLoop_proj fdtd2D.static _ _ _ (fun i st => ?_) g
    refine forLoop_proj fdtd2D.static _ _ _ (fun i st => ?_) st
    rfl
  · simp only [if_neg h]

theorem update_electric_cpml_static_2D (g : fdtd2D) :
    (update_electric_cpml g).static = g.static := by
  unfold update_electric_cpml
  simp only [update_electric_cpml_south_static, update_electric_cpml_north_static, update_electric_cpml_west_static, update_electric_cpml_east_static]

theorem update_magnetic_cpml_west_static (g : fdtd2D) : (update_magnetic_cpml_west g).static = g.static := by
  unfold update_magnetic_cpml_west
  by_cases h : flagSet (g.border_condition border_west) border_cpml = true
  · simp only [if_pos h]
    refine forLoop_proj fdtd2D.static _ _ _ (fun i st => ?_) g
    refine forLoop_proj fdtd2D.static _ _ _ (fun i st => ?_) st
    rfl
  · simp only [if_neg h]

theorem update_magnetic_cpml_east_static (g : fdtd2D) : (update_magnetic_cpml_east g).static = g.static := by
  unfold update_magnetic_cpml_east
  by_cases h : flagSet (g.border_condition border_east) border_cpml = true
  · simp only [if_pos h]
    refine forLoop_proj fdtd2D.static _ _ _ (fun i st => ?_) g
    refine forLoop_proj fdtd2D.static _ _ _ (fun i st => ?_) st
    rfl
  · simp only [if_neg h]

theorem update_magnetic_cpml_south_static (g : fdtd2D) : (update_magnetic_cpml_south g).static = g.static := by
  unfold update_magnetic_cpml_south
  by_cases h : flagSet (g.border_condition border_south) border_cpml = true
  · simp only [if_pos h]
    refine forLoop_proj fdtd2D.static _ _ _ (fun i st => ?_) g
    refine forLoop_proj fdtd2D.static _ _ _ (fun i st => ?_) st
    rfl
  · simp only [if_neg h]

theorem update_magnetic_cpml_north_static (g : fdtd2D) : (update_magnetic_cpml_north g).static = g.static := by
  unfold update_magnetic_cpml_north
  by_cases h : flagSet (g.border_condition border_north) border_cpml = true
  · simp only [if_pos h]
    refine forLoop_proj fdtd2D.static _ _ _ (fun i st => ?_) g
    refine forLoop_proj fdtd2D.static _ _ _ (fun i st => ?_) st
    rfl
  · simp only [if_neg h]

theorem update_magnetic_cpml_static_2D (g : fdtd2D) :
    (update_magnetic_cpml g).static = g.static := by
  unfold update_magnetic_cpml
  simp only [update_magnetic_cpml_west_static, update_magnetic_cpml_east_static, update_magnetic_cpml_south_static, update_magnetic_cpml_north_static]

theorem border_condition_electric_static_2D (g : fdtd2D) :
    (border_condition_electric g).static = g.static := by
  unfold border_condition_electric
  refine forLoop_proj fdtd2D.static _ _ _ (fun i st => ?_) g
  unfold border_condition_electric_face
  by_cases h : flagSet (g.border_condition i) border_perfect_electric_conductor = true
  · simp only [if_pos h]
    split <;> first
      | rfl
      | (
        refine forLoop_proj fdtd2D.static _ _ _ (fun j st => ?_) _
        rfl)
  · simp only [if_neg h]

theorem border_condition_magnetic_static_2D (g : fdtd2D) :
    (border_condition_magnetic g).static = g.static := by
  unfold border_condition_magnetic
  refine forLoop_proj fdtd2D.static _ _ _ (fun i st => ?_) g
  by_cases h : flagSet (g.border_condition i) border_perfect_electric_conductor = true
  · simp only [if_pos h]
    split <;> first
      | rfl
      | (
        refine forLoop_proj fdtd2D.static _ _ _ (fun j st => ?_) _
        rfl)
  · simp only [if_neg h]

theorem apply_M_sources_static_2D (ext : Extern) (g : fdtd2D) :
    (apply_M_sources ext g).static = g.static := by
  unfold apply_M_sources
  refine forLoop_proj fdtd2D.static _ _ _ (fun i st => ?_) g
  rfl

theorem apply_J_sources_static_2D (ext : Extern) (g : fdtd2D) :
    (apply_J_sources ext g).static = g.static := by
  unfold apply_J_sources
  refine forLoop_proj fdtd2D.static _ _ _ (fun i st => ?_) g
  rfl

theorem run_2D_body_static (glob : Globals) (ext : Extern) (g : fdtd2D) :
    (run_2D_body glob ext g).static = g.static := by
  unfold run_2D_body
  simp only [border_condition_electric_static_2D, update_electric_cpml_static_2D,
    apply_J_sources_static_2D, update_electric_field_static_2D, border_condition_magnetic_static_2D,
    update_magnetic_cpml_static_2D, apply_M_sources_static_2D, update_magnetic_field_static_2D]

end D2

namespace D3

theorem update_electric_field_ex_static (g : fdtd3D) :
    (update_electric_field_ex g).static = g.static := by
  unfold update_electric_field_ex
  refine forLoop_proj fdtd3D.static _ _ _ (fun i st => ?_) g
  refine forLoop_proj fdtd3D.static _ _ _ (fun i st => ?_) st
  refine forLoop_proj fdtd3D.static _ _ _ (fun i st => ?_) st
  rfl

theorem update_electric_field_ey_static (g : fdtd3D) :
    (update_electric_field_ey g).static = g.static := by
  unfold update_electric_field_ey
  refine forLoop_proj fdtd3D.static _ _ _ (fun i st => ?_) g
  refine forLoop_proj fdtd3D.static _ _ _ (fun i st => ?_) st
  refine forLoop_proj fdtd3D.static _ _ _ (fun i st => ?_) st
  rfl

theorem update_electric_field_ez_static (g : fdtd3D) :
    (update_electric_field_ez g).static = g.static := by
  unfold update_electric_field_ez
  refine forLoop_proj fdtd3D.static _ _ _ (fun i st => ?_) g
  refine forLoop_proj fdtd3D.static _ _ _ (fun i st => ?_) st
  refine forLoop_proj fdtd3D.static _ _ _ (fun i st => ?_) st
  rfl

theorem update_electric_field_static_3D (g : fdtd3D) :
    (update_electric_field g).static = g.static := by
  unfold update_electric_field
  simp only [update_electric_field_ex_static, update_electric_field_ey_static, update_electric_field_ez_static]

theorem update_magnetic_field_hx_static (g : fdtd3D) :
    (update_magnetic_field_hx g).static = g.static := by
  unfold update_magnetic_field_hx
  refine forLoop_proj fdtd3D.static _ _ _ (fun i st => ?_) g
  refine forLoop_proj fdtd3D.static _ _ _ (fun i st => ?_) st
  refine forLoop_proj fdtd3D.static _ _ _ (fun i st => ?_) st
  rfl

theorem update_magnetic_field_hy_static (g : fdtd3D) :
    (update_magnetic_field_hy g).static = g.static := by
  unfold update_magnetic_field_hy
  refine forLoop_proj fdtd3D.static _ _ _ (fun i st => ?_) g
  refine forLoop_proj fdtd3D.static _ _ _ (fun i st => ?_) st
  refine forLoop_proj fdtd3D.static _ _ _ (fun i st => ?_) st
  rfl

theorem update_magnetic_field_hz_static (g : fdtd3D) :
    (update_magnetic_field_hz g).static = g.static := by
  unfold update_magnetic_field_hz
  refine forLoop_proj fdtd3D.static _ _ _ (fun i st => ?_) g
  refine forLoop_proj fdtd3D.static _ _ _ (fun i st => ?_) st
  refine forLoop_proj fdtd3D.static _ _ _ (fun i st => ?_) st
  rfl

theorem update_magnetic_field_static_3D (g : fdtd3D) :
    (update_magnetic_field g).static = g.static := by
  unfold update_magnetic_field
  simp only [update_magnetic_field_hx_static, update_magnetic_field_hy_static, update_magnetic_field_hz_static]

theorem update_electric_cpml_left_static (g : fdtd3D) : (update_electric_cpml_left g).static = g.static := by
  unfold update_electric_cpml_left
  by_cases h : flagSet (g.border_condition border_left) border_cpml = true
  · simp only [if_pos h]
    refine forLoop_proj fdtd3D.static _ _ _ (fun i st => ?_) g
    refine forLoop_proj fdtd3D.static _ _ _ (fun i st => ?_) st
    refine forLoop_proj fdtd3D.static _ _ _ (fun i st => ?_) st
    rfl
  · simp only [if_neg h]

theorem update_electric_cpml_right_static (g : fdtd3D) : (update_electric_cpml_right g).static = g.static := by
  unfold update_electric_cpml_right
  by_cases h : flagSet (g.border_condition border_right) border_cpml = true
  · simp only [if_pos h]
    refine forLoop_proj fdtd3D.static _ _ _ (fun i st => ?_) g
    refine forLoop_proj fdtd3D.static _ _ _ (fun i st => ?_) st
    refine forLoop_proj fdtd3D.static _ _ _ (fun i st => ?_) st
    rfl
  · simp only [if_neg h]

theorem update_electric_cpml_front_static (g : fdtd3D) : (update_electric_cpml_front g).static = g.static := by
  unfold update_electric_cpml_front
  by_cases h : flagSet (g.border_condition border_front) border_cpml = true
  · simp only [if_pos h]
    refine forLoop_proj fdtd3D.static _ _ _ (fun i st => ?_) g
    refine forLoop_proj fdtd3D.static _ _ _ (fun i st => ?_) st
    refine forLoop_proj fdtd3D.static _ _ _ (fun i st => ?_) st
    rfl
  · simp only [if_neg h]

theorem update_electric_cpml_back_static (g : fdtd3D) : (update_electric_cpml_back g).static = g.static := by
  unfold update_electric_cpml_back
  by_cases h : flagSet (g.border_condition border_back) border_cpml = true
  · simp only [if_pos h]
    refine forLoop_proj fdtd3D.static _ _ _ (fun i st => ?_) g
    refine forLoop_proj fdtd3D.static _ _ _ (fun i st => ?_) st
    refine forLoop_proj fdtd3D.static _ _ _ (fun i st => ?_) st
    rfl
  · simp only [if_neg h]

theorem update_electric_cpml_bottom_static (g : fdtd3D) : (update_electric_cpml_bottom g).static = g.static := by
  unfold update_electric_cpml_bottom
  by_cases h : flagSet (g.border_condition border_bottom) border_cpml = true
  · simp only [if_pos h]
    refine forLoop_proj fdtd3D.static _ _ _ (fun i st => ?_) g
    refine forLoop_proj fdtd3D.static _ _ _ (fun i st => ?_) st
    refine forLoop_proj fdtd3D.static _ _ _ (fun i st => ?_) st
    rfl
  · simp only [if_neg h]

theorem update_electric_cpml_top_static (g : fdtd3D) : (update_electric_cpml_top g).static = g.static := by
  unfold update_electric_cpml_top
  by_cases h : flagSet (g.border_condition border_top) border_cpml = true
  · simp only [if_pos h]
    refine forLoop_proj fdtd3D.static _ _ _ (fun i st => ?_) g
    refine forLoop_proj fdtd3D.static _ _ _ (fun i st => ?_) st
    refine forLoop_proj fdtd3D.static _ _ _ (fun i st => ?_) st
    rfl
  · simp only [if_neg h]

theorem update_electric_cpml_static_3D (g : fdtd3D) :
    (update_electric_cpml g).static = g.static := by
  unfold update_electric_cpml
  simp only [update_electric_cpml_left_static, update_electric_cpml_right_static, update_electric_cpml_front_static, update_electric_cpml_back_static, update_electric_cpml_bottom_static, update_electric_cpml_top_static]

theorem update_magnetic_cpml_left_static (g : fdtd3D) : (update_magnetic_cpml_left g).static = g.static := by
  unfold update_magnetic_cpml_left
  by_cases h : flagSet (g.border_condition border_left) border_cpml = true
  · simp only [if_pos h]
    refine forLoop_proj fdtd3D.static _ _ _ (fun i st => ?_) g
    refine forLoop_proj fdtd3D.static _ _ _ (fun i st => ?_) st
    refine forLoop_proj fdtd3D.static _ _ _ (fun i st => ?_) st
    rfl
  · simp only [if_neg h]

theorem update_magnetic_cpml_right_static (g : fdtd3D) : (update_magnetic_cpml_right g).static = g.static := by
  unfold update_magnetic_cpml_right
  by_cases h : flagSet (g.border_condition border_right) border_cpml = true
  · simp only [if_pos h]
    refine forLoop_proj fdtd3D.static _ _ _ (fun i st => ?_) g
    refine forLoop_proj fdtd3D.static _ _ _ (fun i st => ?_) st
    refine forLoop_proj fdtd3D.static _ _ _ (fun i st => ?_) st
    rfl
  · simp only [if_neg h]

theorem update_magnetic_cpml_front_static (g : fdtd3D) : (update_magnetic_cpml_front g).static = g.static := by
  unfold update_magnetic_cpml_front
  by_cases h : flagSet (g.border_condition border_front) border_cpml = true
  · simp only [if_pos h]
    refine forLoop_proj fdtd3D.static _ _ _ (fun i st => ?_) g
    refine forLoop_proj fdtd3D.static _ _ _ (fun i st => ?_) st
    refine forLoop_proj fdtd3D.static _ _ _ (fun i st => ?_) st
    rfl
  · simp only [if_neg h]

theorem update_magnetic_cpml_back_static (g : fdtd3D) : (update_magnetic_cpml_back g).static = g.static := by
  unfold update_magnetic_cpml_back
  by_cases h : flagSet (g.border_condition border_back) border_cpml = true
  · simp only [if_pos h]
    refine forLoop_proj fdtd3D.static _ _ _ (fun i st => ?_) g
    refine forLoop_proj fdtd3D.static _ _ _ (fun i st => ?_) st
    refine forLoop_proj fdtd3D.static _ _ _ (fun i st => ?_) st
    rfl
  · simp only [if_neg h]

theorem update_magnetic_cpml_bottom_static (g : fdtd3D) : (update_magnetic_cpml_bottom g).static = g.static := by
  unfold update_magnetic_cpml_bottom
  by_cases h : flagSet (g.border_condition border_bottom) border_cpml = true
  · simp only [if_pos h]
    refine forLoop_proj fdtd3D.static _ _ _ (fun i st => ?_) g
    refine forLoop_proj fdtd3D.static _ _ _ (fun i st => ?_) st
    refine forLoop_proj fdtd3D.static _ _ _ (fun i st => ?_) st
    rfl
  · simp only [if_neg h]

theorem update_magnetic_cpml_top_static (g : fdtd3D) : (update_magnetic_cpml_top g).static = g.static := by
  unfold update_magnetic_cpml_top
  by_cases h : flagSet (g.border_condition border_top) border_cpml = true
  · simp only [if_pos h]
    refine forLoop_proj fdtd3D.static _ _ _ (fun i st => ?_) g
    refine forLoop_proj fdtd3D.static _ _ _ (fun i st => ?_) st
    refine forLoop_proj fdtd3D.static _ _ _ (fun i st => ?_) st
    rfl
  · simp only [if_neg h]

theorem update_magnetic_cpml_static_3D (g : fdtd3D) :
    (update_magnetic_cpml g).static = g.static := by
  unfold update_magnetic_cpml
  simp only [update_magnetic_cpml_left_static, update_magnetic_cpml_right_static, update_magnetic_cpml_front_static, update_magnetic_cpml_back_static, update_magnetic_cpml_bottom_static, update_magnetic_cpml_top_static]

theorem border_condition_electric_static_3D (g : fdtd3D) :
    (border_condition_electric g).static = g.static := by
  unfold border_condition_electric
  refine forLoop_proj fdtd3D.static _ _ _ (fun i st => ?_) g
  by_cases h : g.border_condition i = border_perfect_electric_conductor
  · simp only [if_pos h]
    split <;> first
      | rfl
      | (
        refine forLoop_proj fdtd3D.static _ _ _ (fun j st => ?_) _
        refine forLoop_proj fdtd3D.static _ _ _ (fun j st => ?_) _
        rfl)
  · simp only [if_neg h]

theorem border_condition_magnetic_static_3D (g : fdtd3D) :
    (border_condition_magnetic g).static = g.static := by
  unfold border_condition_magnetic
  refine forLoop_proj fdtd3D.static _ _ _ (fun i st => ?_) g
  by_cases h : g.border_condition i = border_perfect_electric_conductor
  · simp only [if_pos h]
    split <;> first
      | rfl
      | (
        refine forLoop_proj fdtd3D.static _ _ _ (fun j st => ?_) _
        refine forLoop_proj fdtd3D.static _ _ _ (fun j st => ?_) _
        rfl)
  · simp only [if_neg h]

theorem apply_M_sources_static_3D (ext : Extern) (g : fdtd3D) :
    (apply_M_sources ext g).static = g.static := by
  unfold apply_M_sources
  refine forLoop_proj fdtd3D.static _ _ _ (fun i st => ?_) g
  rfl

theorem apply_J_sources_static_3D (ext : Extern) (g : fdtd3D) :
    (apply_J_sources ext g).static = g.static := by
  unfold apply_J_sources
  refine forLoop_proj fdtd3D.static _ _ _ (fun i st => ?_) g
  rfl

theorem run_3D_body_static (ext : Extern) (g : fdtd3D) :
    (run_3D_body ext g).static = g.static := by
  unfold run_3D_body
  simp only [border_condition_electric_static_3D, update_electric_cpml_static_3D,
    apply_J_sources_static_3D, update_electric_field_static_3D, border_condition_magnetic_static_3D,
    update_magnetic_cpml_static_3D, apply_M_sources_static_3D, update_magnetic_field_static_3D]

end D3

namespace D3

theorem cpml_index_E_some (g : fdtd3D) (hS : ∀ ax, g.cpml_thickness + 1 ≤ size g ax)
    (ax : Axis) (far : Bool) (c k : Nat × Nat × Nat) :
    cpml_index_E g ax far c = some k ↔ cpml_box g ax k ∧ cpml_cell_E g ax far k = c := by
  have hx := hS Axis.x
  have hy := hS Axis.y
  have hz := hS Axis.z
  simp only [size] at hx hy hz
  obtain ⟨c1, c2, c3⟩ := c
  obtain ⟨k1, k2, k3⟩ := k
  cases ax <;> cases far <;>
  · simp only [cpml_index_E, cpml_box, cpml_cell_E, inBox3, Prod.mk.injEq]
    constructor
    · intro h
      split at h
      · simp only [Option.some.injEq, Prod.mk.injEq] at h
        omega
      · cases h
    · intro h
      rw [if_pos (by omega)]
      simp only [Option.some.injEq, Prod.mk.injEq]
      omega

theorem cpml_index_E_none (g : fdtd3D) (hS : ∀ ax, g.cpml_thickness + 1 ≤ size g ax)
    (ax : Axis) (far : Bool) (c : Nat × Nat × Nat) (h : cpml_index_E g ax far c = none) :
    ∀ k, cpml_box g ax k → cpml_cell_E g ax far k ≠ c := by
  intro k hk hc
  have := (cpml_index_E_some g hS ax far c k).mpr ⟨hk, hc⟩
  rw [h] at this
  cases this

theorem cpml_index_H_some (g : fdtd3D) (hS : ∀ ax, g.cpml_thickness + 1 ≤ size g ax)
    (ax : Axis) (far : Bool) (c k : Nat × Nat × Nat) :
    cpml_index_H g ax far c = some k ↔ cpml_box g ax k ∧ cpml_cell_H g ax far k = c := by
  have hx := hS Axis.x
  have hy := hS Axis.y
  have hz := hS Axis.z
  simp only [size] at hx hy hz
  obtain ⟨c1, c2, c3⟩ := c
  obtain ⟨k1, k2, k3⟩ := k
  cases ax <;> cases far <;>
  · simp only [cpml_index_H, cpml_box, cpml_cell_H, inBox3, Prod.mk.injEq]
    constructor
    · intro h
      split at h
      · simp only [Option.some.injEq, Prod.mk.injEq] at h
        omega
      · cases h
    · intro h
      rw [if_pos (by omega)]
      simp only [Option.some.injEq, Prod.mk.injEq]
      omega

theorem cpml_index_H_none (g : fdtd3D) (hS : ∀ ax, g.cpml_thickness + 1 ≤ size g ax)
    (ax : Axis) (far : Bool) (c : Nat × Nat × Nat) (h : cpml_index_H g ax far c = none) :
    ∀ k, cpml_box g ax k → cpml_cell_H g ax far k ≠ c := by
  intro k hk hc
  have := (cpml_index_H_some g hS ax far c k).mpr ⟨hk, hc⟩
  rw [h] at this
  cases this

theorem static_tables (g g2 : fdtd3D) (h : g2.static = g.static) :
    spacing g2 = spacing g ∧ size g2 = size g ∧ g2.cpml_thickness = g.cpml_thickness ∧
      g2.border_condition = g.border_condition ∧ g2.bx = g.bx ∧ g2.cx = g.cx ∧
      g2.dt = g.dt ∧ g2.permittivity_inv = g.permittivity_inv ∧
      g2.permeability_inv = g.permeability_inv ∧ cpml_box g2 = cpml_box g ∧
      cpml_cell_E g2 = cpml_cell_E g ∧ cpml_cell_H g2 = cpml_cell_H g ∧
      cpml_index_E g2 = cpml_index_E g ∧ cpml_index_H g2 = cpml_index_H g := by
  simp only [fdtd3D.static, Prod.mk.injEq] at h
  obtain ⟨h1, h2, h3, h4, h5, h6, h7, h8, h9, h10, -, h12, h13, h14, -⟩ := h
  refine ⟨?_, ?_, h9, h10, h7, h8, h4, h5, h6, ?_, ?_, ?_, ?_, ?_⟩
  · funext ax
    cases ax <;> simp only [spacing, h1, h2, h3]
  · funext ax
    cases ax <;> simp only [size, h12, h13, h14]
  · funext ax
    cases ax <;> simp only [cpml_box, h9, h12, h13, h14]
  · funext ax far
    cases ax <;> cases far <;> simp only [cpml_cell_E, h12, h13, h14]
  · funext ax far
    cases ax <;> cases far <;> simp only [cpml_cell_H, h12, h13, h14]
  · funext ax far
    cases ax <;> cases far <;> simp only [cpml_index_E, h9, h12, h13, h14]
  · funext ax far
    cases ax <;> cases far <;> simp only [cpml_index_H, h9, h12, h13, h14]

theorem cpml_block_E_tables (g : fdtd3D) (hT : g.cpml_thickness < UINTMAX_MOD)
    (hS : ∀ ax, g.cpml_thickness + 1 ≤ size g ax) (hS2 : ∀ ax, size g ax < UINTMAX_MOD)
    (ax : Axis) (far : Bool) :
    (cpml_block_E ax far g).static = g.static ∧
    H_field (cpml_block_E ax far g) = H_field g ∧
    E_field (cpml_block_E ax far g) ax = E_field g ax ∧
    (∀ comp ax2 far2, (ax2 ≠ ax ∨ far2 ≠ far) →
      psi_E (cpml_block_E ax far g) comp ax2 far2 = psi_E g comp ax2 far2) ∧
    (flagSet (g.border_condition (cpml_face ax far)) border_cpml = false →
      cpml_block_E ax far g = g) := by
  have hx := hS Axis.x
  have hy := hS Axis.y
  have hz := hS Axis.z
  have hx2 := hS2 Axis.x
  have hy2 := hS2 Axis.y
  have hz2 := hS2 Axis.z
  have key : ∀ (B : fdtd3D) (_ : B.static = g.static)
      (_ : B.hx = g.hx ∧ B.hy = g.hy ∧ B.hz = g.hz) (_ : E_field B ax = E_field g ax)
      (_ : ∀ comp ax2 far2, (ax2 ≠ ax ∨ far2 ≠ far) →
        psi_E B comp ax2 far2 = psi_E g comp ax2 far2)
      (_ : flagSet (g.border_condition (cpml_face ax far)) border_cpml = false → B = g),
      B.static = g.static ∧ H_field B = H_field g ∧ E_field B ax = E_field g ax ∧
        (∀ comp ax2 far2, (ax2 ≠ ax ∨ far2 ≠ far) →
          psi_E B comp ax2 far2 = psi_E g comp ax2 far2) ∧
        (flagSet (g.border_condition (cpml_face ax far)) border_cpml = false → B = g) := by
    intro B h1 h2 h3 h4 h5
    refine ⟨h1, ?_, h3, h4, h5⟩
    funext a
    cases a
    · exact h2.1
    · exact h2.2.1
    · exact h2.2.2
  match ax, far, key with
  | Axis.x, false, key =>
    have h := (update_electric_cpml_bottom_spec g).2.2
    have e : ∀ {α : Type} (f : fdtd3D → α), f (update_electric_cpml_bottom g) = f _ := fun f => congrArg f h
    have e1 := e fdtd3D.hx
    have e2 := e fdtd3D.hy
    have e3 := e fdtd3D.hz
    have e4 := e fdtd3D.ex
    refine key _ (update_electric_cpml_bottom_static g) ⟨e1, e2, e3⟩ e4 ?_ (update_electric_cpml_bottom_spec g).2.1
    intro comp ax2 far2 hne
    cases comp <;> cases ax2 <;> cases far2 <;>
      first
      | rfl
      | exact absurd hne (by decide)
      | exact e fdtd3D.psi_ex_left
      | exact e fdtd3D.psi_ex_right
      | exact e fdtd3D.psi_ex_front
      | exact e fdtd3D.psi_ex_back
      | exact e fdtd3D.psi_ey_top
      | exact e fdtd3D.psi_ey_front
      | exact e fdtd3D.psi_ey_back
      | exact e fdtd3D.psi_ez_top
      | exact e fdtd3D.psi_ez_left
      | exact e fdtd3D.psi_ez_right
  | Axis.x, true, key =>
    have h := (update_electric_cpml_top_spec g hT hx hx2).2.2
    have e : ∀ {α : Type} (f : fdtd3D → α), f (update_electric_cpml_top g) = f _ := fun f => congrArg f h
    have e1 := e fdtd3D.hx
    have e2 := e fdtd3D.hy
    have e3 := e fdtd3D.hz
    have e4 := e fdtd3D.ex
    refine key _ (update_electric_cpml_top_static g) ⟨e1, e2, e3⟩ e4 ?_ (update_electric_cpml_top_spec g hT hx hx2).2.1
    intro comp ax2 far2 hne
    cases comp <;> cases ax2 <;> cases far2 <;>
      first
      | rfl
      | exact absurd hne (by decide)
      | exact e fdtd3D.psi_ex_left
      | exact e fdtd3D.psi_ex_right
      | exact e fdtd3D.psi_ex_front
      | exact e fdtd3D.psi_ex_back
      | exact e fdtd3D.psi_ey_bottom
      | exact e fdtd3D.psi_ey_front
      | exact e fdtd3D.psi_ey_back
      | exact e fdtd3D.psi_ez_bottom
      | exact e fdtd3D.psi_ez_left
      | exact e fdtd3D.psi_ez_right
  | Axis.y, false, key =>
    have h := (update_electric_cpml_left_spec g).2.2
    have e : ∀ {α : Type} (f : fdtd3D → α), f (update_electric_cpml_left g) = f _ := fun f => congrArg f h
    have e1 := e fdtd3D.hx
    have e2 := e fdtd3D.hy
    have e3 := e fdtd3D.hz
    have e4 := e fdtd3D.ey
    refine key _ (update_electric_cpml_left_static g) ⟨e1, e2, e3⟩ e4 ?_ (update_electric_cpml_left_spec g).2.1
    intro comp ax2 far2 hne
    cases comp <;> cases ax2 <;> cases far2 <;>
      first
      | rfl
      | exact absurd hne (by decide)
      | exact e fdtd3D.psi_ex_right
      | exact e fdtd3D.psi_ex_front
      | exact e fdtd3D.psi_ex_back
      | exact e fdtd3D.psi_ey_bottom
      | exact e fdtd3D.psi_ey_top
      | exact e fdtd3D.psi_ey_front
      | exact e fdtd3D.psi_ey_back
      | exact e fdtd3D.psi_ez_bottom
      | exact e fdtd3D.psi_ez_top
      | exact e fdtd3D.psi_ez_right
  | Axis.y, true, key =>
    have h := (update_electric_cpml_right_spec g hT hy hy2).2.2
    have e : ∀ {α : Type} (f : fdtd3D → α), f (update_electric_cpml_right g) = f _ := fun f => congrArg f h
    have e1 := e fdtd3D.hx
    have e2 := e fdtd3D.hy
    have e3 := e fdtd3D.hz
    have e4 := e fdtd3D.ey
    refine key _ (update_electric_cpml_right_static g) ⟨e1, e2, e3⟩ e4 ?_ (update_electric_cpml_right_spec g hT hy hy2).2.1
    intro comp ax2 far2 hne
    cases comp <;> cases ax2 <;> cases far2 <;>
      first
      | rfl
      | exact absurd hne (by decide)
      | exact e fdtd3D.psi_ex_left
      | exact e fdtd3D.psi_ex_front
      | exact e fdtd3D.psi_ex_back
      | exact e fdtd3D.psi_ey_bottom
      | exact e fdtd3D.psi_ey_top
      | exact e fdtd3D.psi_ey_front
      | exact e fdtd3D.psi_ey_back
      | exact e fdtd3D.psi_ez_bottom
      | exact e fdtd3D.psi_ez_top
      | exact e fdtd3D.psi_ez_left
  | Axis.z, false, key =>
    have h := (update_electric_cpml_front_spec g).2.2
    have e : ∀ {α : Type} (f : fdtd3D → α), f (update_electric_cpml_front g) = f _ := fun f => congrArg f h
    have e1 := e fdtd3D.hx
    have e2 := e fdtd3D.hy
    have e3 := e fdtd3D.hz
    have e4 := e fdtd3D.ez
    refine key _ (update_electric_cpml_front_static g) ⟨e1, e2, e3⟩ e4 ?_ (update_electric_cpml_front_spec g).2.1
    intro comp ax2 far2 hne
    cases comp <;> cases ax2 <;> cases far2 <;>
      first
      | rfl
      | exact absurd hne (by decide)
      | exact e fdtd3D.psi_ex_left
      | exact e fdtd3D.psi_ex_right
      | exact e fdtd3D.psi_ex_back
      | exact e fdtd3D.psi_ey_bottom
      | exact e fdtd3D.psi_ey_top
      | exact e fdtd3D.psi_ey_back
      | exact e fdtd3D.psi_ez_bottom
      | exact e fdtd3D.psi_ez_top
      | exact e fdtd3D.psi_ez_left
      | exact e fdtd3D.psi_ez_right
  | Axis.z, true, key =>
    have h := (update_electric_cpml_back_spec g hT hz hz2).2.2
    have e : ∀ {α : Type} (f : fdtd3D → α), f (update_electric_cpml_back g) = f _ := fun f => congrArg f h
    have e1 := e fdtd3D.hx
    have e2 := e fdtd3D.hy
    have e3 := e fdtd3D.hz
    have e4 := e fdtd3D.ez
    refine key _ (update_electric_cpml_back_static g) ⟨e1, e2, e3⟩ e4 ?_ (update_electric_cpml_back_spec g hT hz hz2).2.1
    intro comp ax2 far2 hne
    cases comp <;> cases ax2 <;> cases far2 <;>
      first
      | rfl
      | exact absurd hne (by decide)
      | exact e fdtd3D.psi_ex_left
      | exact e fdtd3D.psi_ex_right
      | exact e fdtd3D.psi_ex_front
      | exact e fdtd3D.psi_ey_bottom
      | exact e fdtd3D.psi_ey_top
      | exact e fdtd3D.psi_ey_front
      | exact e fdtd3D.psi_ez_bottom
      | exact e fdtd3D.psi_ez_top
      | exact e fdtd3D.psi_ez_left
      | exact e fdtd3D.psi_ez_right

theorem cpml_block_H_tables (g : fdtd3D) (hT : g.cpml_thickness < UINTMAX_MOD)
    (hS : ∀ ax, g.cpml_thickness + 1 ≤ size g ax) (hS2 : ∀ ax, size g ax < UINTMAX_MOD)
    (ax : Axis) (far : Bool) :
    (cpml_block_H ax far g).static = g.static ∧
    E_field (cpml_block_H ax far g) = E_field g ∧
    H_field (cpml_block_H ax far g) ax = H_field g ax ∧
    (∀ comp ax2 far2, (ax2 ≠ ax ∨ far2 ≠ far) →
      psi_H (cpml_block_H ax far g) comp ax2 far2 = psi_H g comp ax2 far2) ∧
    (flagSet (g.border_condition (cpml_face ax far)) border_cpml = false →
      cpml_block_H ax far g = g) := by
  have hx := hS Axis.x
  have hy := hS Axis.y
  have hz := hS Axis.z
  have hx2 := hS2 Axis.x
  have hy2 := hS2 Axis.y
  have hz2 := hS2 Axis.z
  have key : ∀ (B : fdtd3D) (_ : B.static = g.static)
      (_ : B.ex = g.ex ∧ B.ey = g.ey ∧ B.ez = g.ez) (_ : H_field B ax = H_field g ax)
      (_ : ∀ comp ax2 far2, (ax2 ≠ ax ∨ far2 ≠ far) →
        psi_H B comp ax2 far2 = psi_H g comp ax2 far2)
      (_ : flagSet (g.border_condition (cpml_face ax far)) border_cpml = false → B = g),
      B.static = g.static ∧ E_field B = E_field g ∧ H_field B ax = H_field g ax ∧
        (∀ comp ax2 far2, (ax2 ≠ ax ∨ far2 ≠ far) →
          psi_H B comp ax2 far2 = psi_H g comp ax2 far2) ∧
        (flagSet (g.border_condition (cpml_face ax far)) border_cpml = false → B = g) := by
    intro B h1 h2 h3 h4 h5
    refine ⟨h1, ?_, h3, h4, h5⟩
    funext a
    cases a
    · exact h2.1
    · exact h2.2.1
    · exact h2.2.2
  match ax, far, key with
  | Axis.x, false, key =>
    have h := (update_magnetic_cpml_bottom_spec g).2.2
    have e : ∀ {α : Type} (f : fdtd3D → α), f (update_magnetic_cpml_bottom g) = f _ := fun f => congrArg f h
    have e1 := e fdtd3D.ex
    have e2 := e fdtd3D.ey
    have e3 := e fdtd3D.ez
    have e4 := e fdtd3D.hx
    refine key _ (update_magnetic_cpml_bottom_static g) ⟨e1, e2, e3⟩ e4 ?_ (update_magnetic_cpml_bottom_spec g).2.1
    intro comp ax2 far2 hne
    cases comp <;> cases ax2 <;> cases far2 <;>
      first
      | rfl
      | exact absurd hne (by decide)
      | exact e fdtd3D.psi_hx_left
      | exact e fdtd3D.psi_hx_right
      | exact e fdtd3D.psi_hx_front
      | exact e fdtd3D.psi_hx_back
      | exact e fdtd3D.psi_hy_top
      | exact e fdtd3D.psi_hy_front
      | exact e fdtd3D.psi_hy_back
      | exact e fdtd3D.psi_hz_top
      | exact e fdtd3D.psi_hz_left
      | exact e fdtd3D.psi_hz_right
  | Axis.x, true, key =>
    have h := (update_magnetic_cpml_top_spec g hT hx hx2).2.2
    have e : ∀ {α : Type} (f : fdtd3D → α), f (update_magnetic_cpml_top g) = f _ := fun f => congrArg f h
    have e1 := e fdtd3D.ex
    have e2 := e fdtd3D.ey
    have e3 := e fdtd3D.ez
    have e4 := e fdtd3D.hx
    refine key _ (update_magnetic_cpml_top_static g) ⟨e1, e2, e3⟩ e4 ?_ (update_magnetic_cpml_top_spec g hT hx hx2).2.1
    intro comp ax2 far2 hne
    cases comp <;> cases ax2 <;> cases far2 <;>
      first
      | rfl
      | exact absurd hne (by decide)
      | exact e fdtd3D.psi_hx_left
      | exact e fdtd3D.psi_hx_right
      | exact e fdtd3D.psi_hx_front
      | exact e fdtd3D.psi_hx_back
      | exact e fdtd3D.psi_hy_bottom
      | exact e fdtd3D.psi_hy_front
      | exact e fdtd3D.psi_hy_back
      | exact e fdtd3D.psi_hz_bottom
      | exact e fdtd3D.psi_hz_left
      | exact e fdtd3D.psi_hz_right
  | Axis.y, false, key =>
    have h := (update_magnetic_cpml_left_spec g).2.2
    have e : ∀ {α : Type} (f : fdtd3D → α), f (update_magnetic_cpml_left g) = f _ := fun f => congrArg f h
    have e1 := e fdtd3D.ex
    have e2 := e fdtd3D.ey
    have e3 := e fdtd3D.ez
    have e4 := e fdtd3D.hy
    refine key _ (update_magnetic_cpml_left_static g) ⟨e1, e2, e3⟩ e4 ?_ (update_magnetic_cpml_left_spec g).2.1
    intro comp ax2 far2 hne
    cases comp <;> cases ax2 <;> cases far2 <;>
      first
      | rfl
      | exact absurd hne (by decide)
      | exact e fdtd3D.psi_hx_right
      | exact e fdtd3D.psi_hx_front
      | exact e fdtd3D.psi_hx_back
      | exact e fdtd3D.psi_hy_bottom
      | exact e fdtd3D.psi_hy_top
      | exact e fdtd3D.psi_hy_front
      | exact e fdtd3D.psi_hy_back
      | exact e fdtd3D.psi_hz_bottom
      | exact e fdtd3D.psi_hz_top
      | exact e fdtd3D.psi_hz_right
  | Axis.y, true, key =>
    have h := (update_magnetic_cpml_right_spec g hT hy hy2).2.2
    have e : ∀ {α : Type} (f : fdtd3D → α), f (update_magnetic_cpml_right g) = f _ := fun f => congrArg f h
    have e1 := e fdtd3D.ex
    have e2 := e fdtd3D.ey
    have e3 := e fdtd3D.ez
    have e4 := e fdtd3D.hy
    refine key _ (update_magnetic_cpml_right_static g) ⟨e1, e2, e3⟩ e4 ?_ (update_magnetic_cpml_right_spec g hT hy hy2).2.1
    intro comp ax2 far2 hne
    cases comp <;> cases ax2 <;> cases far2 <;>
      first
      | rfl
      | exact absurd hne (by decide)
      | exact e fdtd3D.psi_hx_left
      | exact e fdtd3D.psi_hx_front
      | exact e fdtd3D.psi_hx_back
      | exact e fdtd3D.psi_hy_bottom
      | exact e fdtd3D.psi_hy_top
      | exact e fdtd3D.psi_hy_front
      | exact e fdtd3D.psi_hy_back
      | exact e fdtd3D.psi_hz_bottom
      | exact e fdtd3D.psi_hz_top
      | exact e fdtd3D.psi_hz_left
  | Axis.z, false, key =>
    have h := (update_magnetic_cpml_front_spec g).2.2
    have e : ∀ {α : Type} (f : fdtd3D → α), f (update_magnetic_cpml_front g) = f _ := fun f => congrArg f h
    have e1 := e fdtd3D.ex
    have e2 := e fdtd3D.ey
    have e3 := e fdtd3D.ez
    have e4 := e fdtd3D.hz
    refine key _ (update_magnetic_cpml_front_static g) ⟨e1, e2, e3⟩ e4 ?_ (update_magnetic_cpml_front_spec g).2.1
    intro comp ax2 far2 hne
    cases comp <;> cases ax2 <;> cases far2 <;>
      first
      | rfl
      | exact absurd hne (by decide)
      | exact e fdtd3D.psi_hx_left
      | exact e fdtd3D.psi_hx_right
      | exact e fdtd3D.psi_hx_back
      | exact e fdtd3D.psi_hy_bottom
      | exact e fdtd3D.psi_hy_top
      | exact e fdtd3D.psi_hy_back
      | exact e fdtd3D.psi_hz_bottom
      | exact e fdtd3D.psi_hz_top
      | exact e fdtd3D.psi_hz_left
      | exact e fdtd3D.psi_hz_right
  | Axis.z, true, key =>
    have h := (update_magnetic_cpml_back_spec g hT hz hz2).2.2
    have e : ∀ {α : Type} (f : fdtd3D → α), f (update_magnetic_cpml_back g) = f _ := fun f => congrArg f h
    have e1 := e fdtd3D.ex
    have e2 := e fdtd3D.ey
    have e3 := e fdtd3D.ez
    have e4 := e fdtd3D.hz
    refine key _ (update_magnetic_cpml_back_static g) ⟨e1, e2, e3⟩ e4 ?_ (update_magnetic_cpml_back_spec g hT hz hz2).2.1
    intro comp ax2 far2 hne
    cases comp <;> cases ax2 <;> cases far2 <;>
      first
      | rfl
      | exact absurd hne (by decide)
      | exact e fdtd3D.psi_hx_left
      | exact e fdtd3D.psi_hx_right
      | exact e fdtd3D.psi_hx_front
      | exact e fdtd3D.psi_hy_bottom
      | exact e fdtd3D.psi_hy_top
      | exact e fdtd3D.psi_hy_front
      | exact e fdtd3D.psi_hz_bottom
      | exact e fdtd3D.psi_hz_top
      | exact e fdtd3D.psi_hz_left
      | exact e fdtd3D.psi_hz_right

end D3

namespace D3

theorem cpml_face_term_some (flags : Nat) (k : Nat × Nat × Nat) (psi : Arr3)
    (h : flagSet flags border_cpml = true) : cpml_face_term flags (some k) psi = psi k := by
  unfold cpml_face_term
  rw [if_pos h]

theorem cpml_face_term_none (flags : Nat) (psi : Arr3) :
    cpml_face_term flags none psi = 0 := by
  unfold cpml_face_term
  split <;> rfl

theorem cpml_face_term_off (flags : Nat) (k : Option (Nat × Nat × Nat)) (psi : Arr3)
    (h : flagSet flags border_cpml = false) : cpml_face_term flags k psi = 0 := by
  unfold cpml_face_term
  rw [h]
  rfl

theorem curl_sign_self (a : Axis) : curl_sign a a = 0 := by
  cases a <;> rfl

theorem cpml_block_E_step (g g2 : fdtd3D) (hs : g2.static = g.static)
    (hH : H_field g2 = H_field g) (hT : g.cpml_thickness < UINTMAX_MOD)
    (hS : ∀ ax, g.cpml_thickness + 1 ≤ size g ax) (hS2 : ∀ ax, size g ax < UINTMAX_MOD)
    (ax : Axis) (far : Bool) :
    ((cpml_block_E ax far g2).static = g.static ∧
      H_field (cpml_block_E ax far g2) = H_field g) ∧
    (∀ comp ax2 far2, (ax2 ≠ ax ∨ far2 ≠ far) →
      psi_E (cpml_block_E ax far g2) comp ax2 far2 = psi_E g2 comp ax2 far2) ∧
    (∀ comp, ax ≠ comp →
      flagSet (g.border_condition (cpml_face ax far)) border_cpml = true →
      cpml_face_spec (cpml_box g ax) (cpml_layer ax) (cpml_cell_E g ax far) g.bx g.cx
        (fun k => E_stencil_term g comp ax (cpml_cell_E g ax far k)) (curl_sign comp ax) g.dt
        g.permittivity_inv (psi_E g2 comp ax far) (psi_E (cpml_block_E ax far g2) comp ax far)
        (E_field g2 comp) (E_field (cpml_block_E ax far g2) comp)) ∧
    (flagSet (g.border_condition (cpml_face ax far)) border_cpml = false →
      cpml_block_E ax far g2 = g2) ∧
    (∀ comp c, E_field (cpml_block_E ax far g2) comp c =
      E_field g2 comp c + g.dt * g.permittivity_inv c *
        (curl_sign comp ax * cpml_face_term (g.border_condition (cpml_face ax far))
          (cpml_index_E g ax far c) (psi_E (cpml_block_E ax far g2) comp ax far))) := by
  obtain ⟨t1, t2, t3, t4, t5, t6, t7, t8, -, t10, t11, -, t13, -⟩ := static_tables g g2 hs
  have hT2 : g2.cpml_thickness < UINTMAX_MOD := by rw [t3]; exact hT
  have hS' : ∀ ax, g2.cpml_thickness + 1 ≤ size g2 ax := by rw [t2, t3]; exact hS
  have hS2' : ∀ ax, size g2 ax < UINTMAX_MOD := by rw [t2]; exact hS2
  obtain ⟨f1, f2, f3, f4, f5⟩ := cpml_block_E_tables g2 hT2 hS' hS2' ax far
  have hterm : ∀ comp a c, E_stencil_term g2 comp a c = E_stencil_term g comp a c := by
    intro comp a c
    unfold E_stencil_term
    rw [hH, t1]
  have hspec : ∀ comp, ax ≠ comp →
      flagSet (g.border_condition (cpml_face ax far)) border_cpml = true →
      cpml_face_spec (cpml_box g ax) (cpml_layer ax) (cpml_cell_E g ax far) g.bx g.cx
        (fun k => E_stencil_term g comp ax (cpml_cell_E g ax far k)) (curl_sign comp ax) g.dt
        g.permittivity_inv (psi_E g2 comp ax far) (psi_E (cpml_block_E ax far g2) comp ax far)
        (E_field g2 comp) (E_field (cpml_block_E ax far g2) comp) := by
    intro comp hne hflag
    have h := cpml_block_E_spec g2 hT2 hS' hS2' comp ax far hne (by rw [t4]; exact hflag)
    rw [t10, t11, t5, t6, t7, t8] at h
    simp only [hterm] at h
    exact h
  refine ⟨⟨f1.trans hs, f2.trans hH⟩, f4, hspec, fun h => f5 (by rw [t4]; exact h), ?_⟩
  intro comp c
  by_cases hflag : flagSet (g.border_condition (cpml_face ax far)) border_cpml = true
  · by_cases hne : ax = comp
    · subst hne
      rw [f3, curl_sign_self]
      ring
    · obtain ⟨-, -, h3, h4⟩ := hspec comp hne hflag
      cases hi : cpml_index_E g ax far c with
      | none =>
        rw [cpml_face_term_none, h4 c (cpml_index_E_none g hS ax far c hi)]
        ring
      | some k =>
        obtain ⟨hk, hc⟩ := (cpml_index_E_some g hS ax far c k).mp hi
        rw [cpml_face_term_some _ _ _ hflag, ← hc, h3 k hk]
        ring
  · have hf : flagSet (g.border_condition (cpml_face ax far)) border_cpml = false := by
      cases hb : flagSet (g.border_condition (cpml_face ax far)) border_cpml
      · rfl
      · exact absurd hb hflag
    rw [cpml_face_term_off _ _ _ hf, f5 (by rw [t4]; exact hf)]
    ring

theorem update_electric_cpml_net (g : fdtd3D) (hT : g.cpml_thickness < UINTMAX_MOD)
    (hS : ∀ ax, g.cpml_thickness + 1 ≤ size g ax) (hS2 : ∀ ax, size g ax < UINTMAX_MOD) :
    (∀ comp ax far, ax ≠ comp →
      flagSet (g.border_condition (cpml_face ax far)) border_cpml = true →
      cpml_face_spec (cpml_box g ax) (cpml_layer ax) (cpml_cell_E g ax far) g.bx g.cx
        (fun k => E_stencil_term g comp ax (cpml_cell_E g ax far k)) (curl_sign comp ax) g.dt
        g.permittivity_inv (psi_E g comp ax far) (psi_E (update_electric_cpml g) comp ax far)
        (E_field (cpml_before_E ax far g) comp)
        (E_field (cpml_block_E ax far (cpml_before_E ax far g)) comp)) ∧
    (∀ comp ax far, flagSet (g.border_condition (cpml_face ax far)) border_cpml = false →
      psi_E (update_electric_cpml g) comp ax far = psi_E g comp ax far ∧
        cpml_block_E ax far (cpml_before_E ax far g) = cpml_before_E ax far g) ∧
    (∀ comp c, E_field (update_electric_cpml g) comp c =
      E_field g comp c + g.dt * g.permittivity_inv c *
        (curl_sign comp Axis.x * cpml_term_E g (psi_E (update_electric_cpml g)) comp Axis.x c +
          curl_sign comp Axis.y * cpml_term_E g (psi_E (update_electric_cpml g)) comp Axis.y c +
          curl_sign comp Axis.z * cpml_term_E g (psi_E (update_electric_cpml g)) comp Axis.z c)) ∧
    (update_electric_cpml g).static = g.static ∧
    H_field (update_electric_cpml g) = H_field g := by
  obtain ⟨⟨a1, b1⟩, p1, s1, o1, n1⟩ := cpml_block_E_step g g rfl rfl hT hS hS2 Axis.y false
  obtain ⟨⟨a2, b2⟩, p2, s2, o2, n2⟩ :=
    cpml_block_E_step g (cpml_block_E Axis.y false g)
      a1 b1 hT hS hS2 Axis.y true
  obtain ⟨⟨a3, b3⟩, p3, s3, o3, n3⟩ :=
    cpml_block_E_step g (cpml_block_E Axis.y true (cpml_block_E Axis.y false g))
      a2 b2 hT hS hS2 Axis.z false
  obtain ⟨⟨a4, b4⟩, p4, s4, o4, n4⟩ :=
    cpml_block_E_step g (cpml_block_E Axis.z false (cpml_block_E Axis.y true (cpml_block_E Axis.y false g)))
      a3 b3 hT hS hS2 Axis.z true
  obtain ⟨⟨a5, b5⟩, p5, s5, o5, n5⟩ :=
    cpml_block_E_step g (cpml_block_E Axis.z true (cpml_block_E Axis.z false (cpml_block_E Axis.y true (cpml_block_E Axis.y false g))))
      a4 b4 hT hS hS2 Axis.x false
  obtain ⟨⟨a6, b6⟩, p6, s6, o6, n6⟩ :=
    cpml_block_E_step g (cpml_block_E Axis.x false (cpml_block_E Axis.z true (cpml_block_E Axis.z false (cpml_block_E Axis.y true (cpml_block_E Axis.y false g)))))
      a5 b5 hT hS hS2 Axis.x true
  have hfull : update_electric_cpml g =
      (cpml_block_E Axis.x true (cpml_block_E Axis.x false (cpml_block_E Axis.z true (cpml_block_E Axis.z false (cpml_block_E Axis.y true (cpml_block_E Axis.y false g)))))) := rfl
  have q1 : ∀ comp, psi_E (update_electric_cpml g) comp Axis.y false =
      psi_E (cpml_block_E Axis.y false g) comp Axis.y false := by
    intro comp
    rw [hfull, p6 comp Axis.y false (by decide), p5 comp Axis.y false (by decide), p4 comp Axis.y false (by decide), p3 comp Axis.y false (by decide), p2 comp Axis.y false (by decide)]
  have r1 : ∀ comp, psi_E g comp Axis.y false =
      psi_E g comp Axis.y false := by
    intro comp
    rfl
  have q2 : ∀ comp, psi_E (update_electric_cpml g) comp Axis.y true =
      psi_E (cpml_block_E Axis.y true (cpml_block_E Axis.y false g)) comp Axis.y true := by
    intro comp
    rw [hfull, p6 comp Axis.y true (by decide), p5 comp Axis.y true (by decide), p4 comp Axis.y true (by decide), p3 comp Axis.y true (by decide)]
  have r2 : ∀ comp, psi_E (cpml_block_E Axis.y false g) comp Axis.y true =
      psi_E g comp Axis.y true := by
    intro comp
    rw [p1 comp Axis.y true (by decide)]
  have q3 : ∀ comp, psi_E (update_electric_cpml g) comp Axis.z false =
      psi_E (cpml_block_E Axis.z false (cpml_block_E Axis.y true (cpml_block_E Axis.y false g))) comp Axis.z false := by
    intro comp
    rw [hfull, p6 comp Axis.z false (by decide), p5 comp Axis.z false (by decide), p4 comp Axis.z false (by decide)]
  have r3 : ∀ comp, psi_E (cpml_block_E Axis.y true (cpml_block_E Axis.y false g)) comp Axis.z false =
      psi_E g comp Axis.z false := by
    intro comp
    rw [p2 comp Axis.z false (by decide), p1 comp Axis.z false (by decide)]
  have q4 : ∀ comp, psi_E (update_electric_cpml g) comp Axis.z true =
      psi_E (cpml_block_E Axis.z true (cpml_block_E Axis.z false (cpml_block_E Axis.y true (cpml_block_E Axis.y false g)))) comp Axis.z true := by
    intro comp
    rw [hfull, p6 comp Axis.z true (by decide), p5 comp Axis.z true (by decide)]
  have r4 : ∀ comp, psi_E (cpml_block_E Axis.z false (cpml_block_E Axis.y true (cpml_block_E Axis.y false g))) comp Axis.z true =
      psi_E g comp Axis.z true := by
    intro comp
    rw [p3 comp Axis.z true (by decide), p2 comp Axis.z true (by decide), p1 comp Axis.z true (by decide)]
  have q5 : ∀ comp, psi_E (update_electric_cpml g) comp Axis.x false =
      psi_E (cpml_block_E Axis.x false (cpml_block_E Axis.z true (cpml_block_E Axis.z false (cpml_block_E Axis.y true (cpml_block_E Axis.y false g))))) comp Axis.x false := by
    intro comp
    rw [hfull, p6 comp Axis.x false (by decide)]
  have r5 : ∀ comp, psi_E (cpml_block_E Axis.z true (cpml_block_E Axis.z false (cpml_block_E Axis.y true (cpml_block_E Axis.y false g)))) comp Axis.x false =
      psi_E g comp Axis.x false := by
    intro comp
    rw [p4 comp Axis.x false (by decide), p3 comp Axis.x false (by decide), p2 comp Axis.x false (by decide), p1 comp Axis.x false (by decide)]
  have q6 : ∀ comp, psi_E (update_electric_cpml g) comp Axis.x true =
      psi_E (cpml_block_E Axis.x true (cpml_block_E Axis.x false (cpml_block_E Axis.z true (cpml_block_E Axis.z false (cpml_block_E Axis.y true (cpml_block_E Axis.y false g)))))) comp Axis.x true := by
    intro comp
    rw [hfull]
  have r6 : ∀ comp, psi_E (cpml_block_E Axis.x false (cpml_block_E Axis.z true (cpml_block_E Axis.z false (cpml_block_E Axis.y true (cpml_block_E Axis.y false g))))) comp Axis.x true =
      psi_E g comp Axis.x true := by
    intro comp
    rw [p5 comp Axis.x true (by decide), p4 comp Axis.x true (by decide), p3 comp Axis.x true (by decide), p2 comp Axis.x true (by decide), p1 comp Axis.x true (by decide)]
  refine ⟨?_, ?_, ?_, ?_, ?_⟩
  · intro comp ax far hne hflag
    match ax, far, hne, hflag with
    | Axis.y, false, hne, hflag =>
      have h := s1 comp hne hflag
      rw [r1 comp, ← q1 comp] at h
      exact h
    | Axis.y, true, hne, hflag =>
      have h := s2 comp hne hflag
      rw [r2 comp, ← q2 comp] at h
      exact h
    | Axis.z, false, hne, hflag =>
      have h := s3 comp hne hflag
      rw [r3 comp, ← q3 comp] at h
      exact h
    | Axis.z, true, hne, hflag =>
      have h := s4 comp hne hflag
      rw [r4 comp, ← q4 comp] at h
      exact h
    | Axis.x, false, hne, hflag =>
      have h := s5 comp hne hflag
      rw [r5 comp, ← q5 comp] at h
      exact h
    | Axis.x, true, hne, hflag =>
      have h := s6 comp hne hflag
      rw [r6 comp, ← q6 comp] at h
      exact h
  · intro comp ax far hflag
    match ax, far, hflag with
    | Axis.y, false, hflag =>
      refine ⟨?_, o1 hflag⟩
      rw [q1 comp, o1 hflag]
    | Axis.y, true, hflag =>
      refine ⟨?_, o2 hflag⟩
      rw [q2 comp, o2 hflag]
      exact r2 comp
    | Axis.z, false, hflag =>
      refine ⟨?_, o3 hflag⟩
      rw [q3 comp, o3 hflag]
      exact r3 comp
    | Axis.z, true, hflag =>
      refine ⟨?_, o4 hflag⟩
      rw [q4 comp, o4 hflag]
      exact r4 comp
    | Axis.x, false, hflag =>
      refine ⟨?_, o5 hflag⟩
      rw [q5 comp, o5 hflag]
      exact r5 comp
    | Axis.x, true, hflag =>
      refine ⟨?_, o6 hflag⟩
      rw [q6 comp, o6 hflag]
      exact r6 comp
  · intro comp c
    simp only [cpml_term_E]
    rw [q1 comp, q2 comp, q3 comp, q4 comp, q5 comp, q6 comp, hfull,
      n6 comp c, n5 comp c, n4 comp c, n3 comp c, n2 comp c, n1 comp c]
    ring
  · rw [hfull]
    exact a6
  · rw [hfull]
    exact b6

theorem cpml_block_H_step (g g2 : fdtd3D) (hs : g2.static = g.static)
    (hH : E_field g2 = E_field g) (hT : g.cpml_thickness < UINTMAX_MOD)
    (hS : ∀ ax, g.cpml_thickness + 1 ≤ size g ax) (hS2 : ∀ ax, size g ax < UINTMAX_MOD)
    (ax : Axis) (far : Bool) :
    ((cpml_block_H ax far g2).static = g.static ∧
      E_field (cpml_block_H ax far g2) = E_field g) ∧
    (∀ comp ax2 far2, (ax2 ≠ ax ∨ far2 ≠ far) →
      psi_H (cpml_block_H ax far g2) comp ax2 far2 = psi_H g2 comp ax2 far2) ∧
    (∀ comp, ax ≠ comp →
      flagSet (g.border_condition (cpml_face ax far)) border_cpml = true →
      cpml_face_spec (cpml_box g ax) (cpml_layer ax) (cpml_cell_H g ax far) g.bx g.cx
        (fun k => H_stencil_term g comp ax (cpml_cell_H g ax far k)) (-curl_sign comp ax) g.dt
        g.permeability_inv (psi_H g2 comp ax far) (psi_H (cpml_block_H ax far g2) comp ax far)
        (H_field g2 comp) (H_field (cpml_block_H ax far g2) comp)) ∧
    (flagSet (g.border_condition (cpml_face ax far)) border_cpml = false →
      cpml_block_H ax far g2 = g2) ∧
    (∀ comp c, H_field (cpml_block_H ax far g2) comp c =
      H_field g2 comp c + g.dt * g.permeability_inv c *
        (-curl_sign comp ax * cpml_face_term (g.border_condition (cpml_face ax far))
          (cpml_index_H g ax far c) (psi_H (cpml_block_H ax far g2) comp ax far))) := by
  obtain ⟨t1, t2, t3, t4, t5, t6, t7, -, t8, t10, -, t11, -, t13⟩ := static_tables g g2 hs
  have hT2 : g2.cpml_thickness < UINTMAX_MOD := by rw [t3]; exact hT
  have hS' : ∀ ax, g2.cpml_thickness + 1 ≤ size g2 ax := by rw [t2, t3]; exact hS
  have hS2' : ∀ ax, size g2 ax < UINTMAX_MOD := by rw [t2]; exact hS2
  obtain ⟨f1, f2, f3, f4, f5⟩ := cpml_block_H_tables g2 hT2 hS' hS2' ax far
  have hterm : ∀ comp a c, H_stencil_term g2 comp a c = H_stencil_term g comp a c := by
    intro comp a c
    unfold H_stencil_term
    rw [hH, t1]
  have hspec : ∀ comp, ax ≠ comp →
      flagSet (g.border_condition (cpml_face ax far)) border_cpml = true →
      cpml_face_spec (cpml_box g ax) (cpml_layer ax) (cpml_cell_H g ax far) g.bx g.cx
        (fun k => H_stencil_term g comp ax (cpml_cell_H g ax far k)) (-curl_sign comp ax) g.dt
        g.permeability_inv (psi_H g2 comp ax far) (psi_H (cpml_block_H ax far g2) comp ax far)
        (H_field g2 comp) (H_field (cpml_block_H ax far g2) comp) := by
    intro comp hne hflag
    have h := cpml_block_H_spec g2 hT2 hS' hS2' comp ax far hne (by rw [t4]; exact hflag)
    rw [t10, t11, t5, t6, t7, t8] at h
    simp only [hterm] at h
    exact h
  refine ⟨⟨f1.trans hs, f2.trans hH⟩, f4, hspec, fun h => f5 (by rw [t4]; exact h), ?_⟩
  intro comp c
  by_cases hflag : flagSet (g.border_condition (cpml_face ax far)) border_cpml = true
  · by_cases hne : ax = comp
    · subst hne
      rw [f3, curl_sign_self]
      ring
    · obtain ⟨-, -, h3, h4⟩ := hspec comp hne hflag
      cases hi : cpml_index_H g ax far c with
      | none =>
        rw [cpml_face_term_none, h4 c (cpml_index_H_none g hS ax far c hi)]
        ring
      | some k =>
        obtain ⟨hk, hc⟩ := (cpml_index_H_some g hS ax far c k).mp hi
        rw [cpml_face_term_some _ _ _ hflag, ← hc, h3 k hk]
        ring
  · have hf : flagSet (g.border_condition (cpml_face ax far)) border_cpml = false := by
      cases hb : flagSet (g.border_condition (cpml_face ax far)) border_cpml
      · rfl
      · exact absurd hb hflag
    rw [cpml_face_term_off _ _ _ hf, f5 (by rw [t4]; exact hf)]
    ring

theorem update_magnetic_cpml_net (g : fdtd3D) (hT : g.cpml_thickness < UINTMAX_MOD)
    (hS : ∀ ax, g.cpml_thickness + 1 ≤ size g ax) (hS2 : ∀ ax, size g ax < UINTMAX_MOD) :
    (∀ comp ax far, ax ≠ comp →
      flagSet (g.border_condition (cpml_face ax far)) border_cpml = true →
      cpml_face_spec (cpml_box g ax) (cpml_layer ax) (cpml_cell_H g ax far) g.bx g.cx
        (fun k => H_stencil_term g comp ax (cpml_cell_H g ax far k)) (-curl_sign comp ax) g.dt
        g.permeability_inv (psi_H g comp ax far) (psi_H (update_magnetic_cpml g) comp ax far)
        (H_field (cpml_before_H ax far g) comp)
        (H_field (cpml_block_H ax far (cpml_before_H ax far g)) comp)) ∧
    (∀ comp ax far, flagSet (g.border_condition (cpml_face ax far)) border_cpml = false →
      psi_H (update_magnetic_cpml g) comp ax far = psi_H g comp ax far ∧
        cpml_block_H ax far (cpml_before_H ax far g) = cpml_before_H ax far g) ∧
    (∀ comp c, H_field (update_magnetic_cpml g) comp c =
      H_field g comp c - g.dt * g.permeability_inv c *
        (curl_sign comp Axis.x * cpml_term_H g (psi_H (update_magnetic_cpml g)) comp Axis.x c +
          curl_sign comp Axis.y * cpml_term_H g (psi_H (update_magnetic_cpml g)) comp Axis.y c +
          curl_sign comp Axis.z * cpml_term_H g (psi_H (update_magnetic_cpml g)) comp Axis.z c)) ∧
    (update_magnetic_cpml g).static = g.static ∧
    E_field (update_magnetic_cpml g) = E_field g := by
  obtain ⟨⟨a1, b1⟩, p1, s1, o1, n1⟩ := cpml_block_H_step g g rfl rfl hT hS hS2 Axis.y false
  obtain ⟨⟨a2, b2⟩, p2, s2, o2, n2⟩ :=
    cpml_block_H_step g (cpml_block_H Axis.y false g)
      a1 b1 hT hS hS2 Axis.y true
  obtain ⟨⟨a3, b3⟩, p3, s3, o3, n3⟩ :=
    cpml_block_H_step g (cpml_block_H Axis.y true (cpml_block_H Axis.y false g))
      a2 b2 hT hS hS2 Axis.z false
  obtain ⟨⟨a4, b4⟩, p4, s4, o4, n4⟩ :=
    cpml_block_H_step g (cpml_block_H Axis.z false (cpml_block_H Axis.y true (cpml_block_H Axis.y false g)))
      a3 b3 hT hS hS2 Axis.z true
  obtain ⟨⟨a5, b5⟩, p5, s5, o5, n5⟩ :=
    cpml_block_H_step g (cpml_block_H Axis.z true (cpml_block_H Axis.z false (cpml_block_H Axis.y true (cpml_block_H Axis.y false g))))
      a4 b4 hT hS hS2 Axis.x false
  obtain ⟨⟨a6, b6⟩, p6, s6, o6, n6⟩ :=
    cpml_block_H_step g (cpml_block_H Axis.x false (cpml_block_H Axis.z true (cpml_block_H Axis.z false (cpml_block_H Axis.y true (cpml_block_H Axis.y false g)))))
      a5 b5 hT hS hS2 Axis.x true
  have hfull : update_magnetic_cpml g =
      (cpml_block_H Axis.x true (cpml_block_H Axis.x false (cpml_block_H Axis.z true (cpml_block_H Axis.z false (cpml_block_H Axis.y true (cpml_block_H Axis.y false g)))))) := rfl
  have q1 : ∀ comp, psi_H (update_magnetic_cpml g) comp Axis.y false =
      psi_H (cpml_block_H Axis.y false g) comp Axis.y false := by
    intro comp
    rw [hfull, p6 comp Axis.y false (by decide), p5 comp Axis.y false (by decide), p4 comp Axis.y false (by decide), p3 comp Axis.y false (by decide), p2 comp Axis.y false (by decide)]
  have r1 : ∀ comp, psi_H g comp Axis.y false =
      psi_H g comp Axis.y false := by
    intro comp
    rfl
  have q2 : ∀ comp, psi_H (update_magnetic_cpml g) comp Axis.y true =
      psi_H (cpml_block_H Axis.y true (cpml_block_H Axis.y false g)) comp Axis.y true := by
    intro comp
    rw [hfull, p6 comp Axis.y true (by decide), p5 comp Axis.y true (by decide), p4 comp Axis.y true (by decide), p3 comp Axis.y true (by decide)]
  have r2 : ∀ comp, psi_H (cpml_block_H Axis.y false g) comp Axis.y true =
      psi_H g comp Axis.y true := by
    intro comp
    rw [p1 comp Axis.y true (by decide)]
  have q3 : ∀ comp, psi_H (update_magnetic_cpml g) comp Axis.z false =
      psi_H (cpml_block_H Axis.z false (cpml_block_H Axis.y true (cpml_block_H Axis.y false g))) comp Axis.z false := by
    intro comp
    rw [hfull, p6 comp Axis.z false (by decide), p5 comp Axis.z false (by decide), p4 comp Axis.z false (by decide)]
  have r3 : ∀ comp, psi_H (cpml_block_H Axis.y true (cpml_block_H Axis.y false g)) comp Axis.z false =
      psi_H g comp Axis.z false := by
    intro comp
    rw [p2 comp Axis.z false (by decide), p1 comp Axis.z false (by decide)]
  have q4 : ∀ comp, psi_H (update_magnetic_cpml g) comp Axis.z true =
      psi_H (cpml_block_H Axis.z true (cpml_block_H Axis.z false (cpml_block_H Axis.y true (cpml_block_H Axis.y false g)))) comp Axis.z true := by
    intro comp
    rw [hfull, p6 comp Axis.z true (by decide), p5 comp Axis.z true (by decide)]
  have r4 : ∀ comp, psi_H (cpml_block_H Axis.z false (cpml_block_H Axis.y true (cpml_block_H Axis.y false g))) comp Axis.z true =
      psi_H g comp Axis.z true := by
    intro comp
    rw [p3 comp Axis.z true (by decide), p2 comp Axis.z true (by decide), p1 comp Axis.z true (by decide)]
  have q5 : ∀ comp, psi_H (update_magnetic_cpml g) comp Axis.x false =
      psi_H (cpml_block_H Axis.x false (cpml_block_H Axis.z true (cpml_block_H Axis.z false (cpml_block_H Axis.y true (cpml_block_H Axis.y false g))))) comp Axis.x false := by
    intro comp
    rw [hfull, p6 comp Axis.x false (by decide)]
  have r5 : ∀ comp, psi_H (cpml_block_H Axis.z true (cpml_block_H Axis.z false (cpml_block_H Axis.y true (cpml_block_H Axis.y false g)))) comp Axis.x false =
      psi_H g comp Axis.x false := by
    intro comp
    rw [p4 comp Axis.x false (by decide), p3 comp Axis.x false (by decide), p2 comp Axis.x false (by decide), p1 comp Axis.x false (by decide)]
  have q6 : ∀ comp, psi_H (update_magnetic_cpml g) comp Axis.x true =
      psi_H (cpml_block_H Axis.x true (cpml_block_H Axis.x false (cpml_block_H Axis.z true (cpml_block_H Axis.z false (cpml_block_H Axis.y true (cpml_block_H Axis.y false g)))))) comp Axis.x true := by
    intro comp
    rw [hfull]
  have r6 : ∀ comp, psi_H (cpml_block_H Axis.x false (cpml_block_H Axis.z true (cpml_block_H Axis.z false (cpml_block_H Axis.y true (cpml_block_H Axis.y false g))))) comp Axis.x true =
      psi_H g comp Axis.x true := by
    intro comp
    rw [p5 comp Axis.x true (by decide), p4 comp Axis.x true (by decide), p3 comp Axis.x true (by decide), p2 comp Axis.x true (by decide), p1 comp Axis.x true (by decide)]
  refine ⟨?_, ?_, ?_, ?_, ?_⟩
  · intro comp ax far hne hflag
    match ax, far, hne, hflag with
    | Axis.y, false, hne, hflag =>
      have h := s1 comp hne hflag
      rw [r1 comp, ← q1 comp] at h
      exact h
    | Axis.y, true, hne, hflag =>
      have h := s2 comp hne hflag
      rw [r2 comp, ← q2 comp] at h
      exact h
    | Axis.z, false, hne, hflag =>
      have h := s3 comp hne hflag
      rw [r3 comp, ← q3 comp] at h
      exact h
    | Axis.z, true, hne, hflag =>
      have h := s4 comp hne hflag
      rw [r4 comp, ← q4 comp] at h
      exact h
    | Axis.x, false, hne, hflag =>
      have h := s5 comp hne hflag
      rw [r5 comp, ← q5 comp] at h
      exact h
    | Axis.x, true, hne, hflag =>
      have h := s6 comp hne hflag
      rw [r6 comp, ← q6 comp] at h
      exact h
  · intro comp ax far hflag
    match ax, far, hflag with
    | Axis.y, false, hflag =>
      refine ⟨?_, o1 hflag⟩
      rw [q1 comp, o1 hflag]
    | Axis.y, true, hflag =>
      refine ⟨?_, o2 hflag⟩
      rw [q2 comp, o2 hflag]
      exact r2 comp
    | Axis.z, false, hflag =>
      refine ⟨?_, o3 hflag⟩
      rw [q3 comp, o3 hflag]
      exact r3 comp
    | Axis.z, true, hflag =>
      refine ⟨?_, o4 hflag⟩
      rw [q4 comp, o4 hflag]
      exact r4 comp
    | Axis.x, false, hflag =>
      refine ⟨?_, o5 hflag⟩
      rw [q5 comp, o5 hflag]
      exact r5 comp
    | Axis.x, true, hflag =>
      refine ⟨?_, o6 hflag⟩
      rw [q6 comp, o6 hflag]
      exact r6 comp
  · intro comp c
    simp only [cpml_term_H]
    rw [q1 comp, q2 comp, q3 comp, q4 comp, q5 comp, q6 comp, hfull,
      n6 comp c, n5 comp c, n4 comp c, n3 comp c, n2 comp c, n1 comp c]
    ring
  · rw [hfull]
    exact a6
  · rw [hfull]
    exact b6

end D3

namespace D3

theorem update_electric_cpml_combined (g : fdtd3D) (hT : g.cpml_thickness < UINTMAX_MOD)
    (hS : ∀ ax, g.cpml_thickness + 1 ≤ size g ax) (hS2 : ∀ ax, size g ax < UINTMAX_MOD)
    (comp : Axis) :
    (∀ ax far, ax ≠ comp →
      flagSet (g.border_condition (cpml_face ax far)) border_cpml = true →
      ∀ k, cpml_box g ax k →
        psi_E (update_electric_cpml (update_electric_field g)) comp ax far k =
            g.bx (cpml_layer ax k) * psi_E g comp ax far k +
              g.cx (cpml_layer ax k) * E_stencil_term g comp ax (cpml_cell_E g ax far k) ∧
          cpml_face_term (g.border_condition (cpml_face ax far))
              (cpml_index_E g ax far (cpml_cell_E g ax far k))
              (psi_E (update_electric_cpml (update_electric_field g)) comp ax far) =
            psi_E (update_electric_cpml (update_electric_field g)) comp ax far k) ∧
    (∀ c, inBox3 1 g.sizeX 1 g.sizeY 1 g.sizeZ c →
      E_field (update_electric_cpml (update_electric_field g)) comp c =
        E_field g comp c + g.dt * g.permittivity_inv c *
          (curl_sign comp Axis.x * (E_stencil_term g comp Axis.x c +
              cpml_term_E g (psi_E (update_electric_cpml (update_electric_field g)))
                comp Axis.x c) +
            curl_sign comp Axis.y * (E_stencil_term g comp Axis.y c +
              cpml_term_E g (psi_E (update_electric_cpml (update_electric_field g)))
                comp Axis.y c) +
            curl_sign comp Axis.z * (E_stencil_term g comp Axis.z c +
              cpml_term_E g (psi_E (update_electric_cpml (update_electric_field g)))
                comp Axis.z c))) := by
  obtain ⟨e1, e2, e3, e4, -, -, e7, e8, -, -, -, -⟩ := update_electric_field_tables g
  obtain ⟨-, -, -, t4, t5, t6, t7, t8, -, t10, t11, -, t13, -⟩ :=
    static_tables g (update_electric_field g) (update_electric_field_static_3D g)
  obtain ⟨h1, -, h3, -, -⟩ := update_electric_cpml_net (update_electric_field g)
    (by rw [e7]; exact hT) (by rw [e3, e7]; exact hS) (by rw [e3]; exact hS2)
  have hterm : ∀ a c, E_stencil_term (update_electric_field g) comp a c =
      E_stencil_term g comp a c := by
    intro a c
    unfold E_stencil_term
    rw [e1, e2]
  have hct : ∀ psi a c, cpml_term_E (update_electric_field g) psi comp a c =
      cpml_term_E g psi comp a c := by
    intro psi a c
    unfold cpml_term_E
    rw [t4, t13]
  refine ⟨?_, ?_⟩
  · intro ax far hne hflag k hk
    have h := h1 comp ax far hne (by rw [e8]; exact hflag)
    rw [t10, t11, t5, t6, e4] at h
    simp only [hterm] at h
    refine ⟨h.1 k hk, ?_⟩
    rw [(cpml_index_E_some g hS ax far _ k).mpr ⟨hk, rfl⟩, cpml_face_term_some _ _ _ hflag]
  · intro c hc
    rw [h3 comp c, update_electric_field_stencil g comp c hc, t7, t8]
    simp only [hct]
    ring

theorem update_magnetic_cpml_combined (g : fdtd3D) (hT : g.cpml_thickness < UINTMAX_MOD)
    (hS : ∀ ax, g.cpml_thickness + 1 ≤ size g ax) (hS2 : ∀ ax, size g ax < UINTMAX_MOD)
    (comp : Axis) :
    (∀ ax far, ax ≠ comp →
      flagSet (g.border_condition (cpml_face ax far)) border_cpml = true →
      ∀ k, cpml_box g ax k →
        psi_H (update_magnetic_cpml (update_magnetic_field g)) comp ax far k =
            g.bx (cpml_layer ax k) * psi_H g comp ax far k +
              g.cx (cpml_layer ax k) * H_stencil_term g comp ax (cpml_cell_H g ax far k) ∧
          cpml_face_term (g.border_condition (cpml_face ax far))
              (cpml_index_H g ax far (cpml_cell_H g ax far k))
              (psi_H (update_magnetic_cpml (update_magnetic_field g)) comp ax far) =
            psi_H (update_magnetic_cpml (update_magnetic_field g)) comp ax far k) ∧
    (∀ c, inBox3 0 (usub g.sizeX 1) 0 (usub g.sizeY 1) 0 (usub g.sizeZ 1) c →
      H_field (update_magnetic_cpml (update_magnetic_field g)) comp c =
        H_field g comp c - g.dt * g.permeability_inv c *
          (curl_sign comp Axis.x * (H_stencil_term g comp Axis.x c +
              cpml_term_H g (psi_H (update_magnetic_cpml (update_magnetic_field g)))
                comp Axis.x c) +
            curl_sign comp Axis.y * (H_stencil_term g comp Axis.y c +
              cpml_term_H g (psi_H (update_magnetic_cpml (update_magnetic_field g)))
                comp Axis.y c) +
            curl_sign comp Axis.z * (H_stencil_term g comp Axis.z c +
              cpml_term_H g (psi_H (update_magnetic_cpml (update_magnetic_field g)))
                comp Axis.z c))) := by
  obtain ⟨e1, e2, e3, e4, -, -, e7, e8, -, -, -, -⟩ := update_magnetic_field_tables g
  obtain ⟨-, -, -, t4, t5, t6, t7, -, t8, t10, -, t11, -, t13⟩ :=
    static_tables g (update_magnetic_field g) (update_magnetic_field_static_3D g)
  obtain ⟨h1, -, h3, -, -⟩ := update_magnetic_cpml_net (update_magnetic_field g)
    (by rw [e7]; exact hT) (by rw [e3, e7]; exact hS) (by rw [e3]; exact hS2)
  have hterm : ∀ a c, H_stencil_term (update_magnetic_field g) comp a c =
      H_stencil_term g comp a c := by
    intro a c
    unfold H_stencil_term
    rw [e1, e2]
  have hct : ∀ psi a c, cpml_term_H (update_magnetic_field g) psi comp a c =
      cpml_term_H g psi comp a c := by
    intro psi a c
    unfold cpml_term_H
    rw [t4, t13]
  refine ⟨?_, ?_⟩
  · intro ax far hne hflag k hk
    have h := h1 comp ax far hne (by rw [e8]; exact hflag)
    rw [t10, t11, t5, t6, e4] at h
    simp only [hterm] at h
    refine ⟨h.1 k hk, ?_⟩
    rw [(cpml_index_H_some g hS ax far _ k).mpr ⟨hk, rfl⟩, cpml_face_term_some _ _ _ hflag]
  · intro c hc
    rw [h3 comp c, update_magnetic_field_stencil g comp c hc, t7, t8]
    simp only [hct]
    ring

end D3

/-! ## Border enforcement in two dimensions -/

theorem store_zero_of_zero {κ : Type} [DecidableEq κ] (a : κ → ℚ) (k c : κ) (h : a c = 0) :
    store a k 0 c = 0 := by
  by_cases hc : c = k
  · rw [hc]
    exact store_same a k 0
  · rw [store_other a k c 0 hc]
    exact h

namespace D2

/-- A loop that stores `0` in cells of `ez` keeps every zero of `ez`. -/
theorem ez_zero_loop_preserves (n : Nat) (f : Nat → Nat × Nat) (c : Nat × Nat) (s : fdtd2D)
    (h : s.ez c = 0) :
    (forLoop 0 n (fun j s => { s with ez := store s.ez (f j) 0 }) s).ez c = 0 := by
  refine forLoop_preserves (fun st : fdtd2D => st.ez c = 0) 0 n _ ?_ s h
  intro j st _ _ hst
  exact store_zero_of_zero st.ez (f j) c hst

/-- A loop that stores `0` in the cells `f j` of `ez` leaves `0` in each of them. -/
theorem ez_zero_loop_establish (n : Nat) (f : Nat → Nat × Nat) (j0 : Nat) (hj0 : j0 < n)
    (s : fdtd2D) :
    (forLoop 0 n (fun j s => { s with ez := store s.ez (f j) 0 }) s).ez (f j0) = 0 := by
  refine forLoop_establish (fun st : fdtd2D => st.ez (f j0) = 0) 0 n _ j0 (Nat.zero_le _) hj0
    ?_ ?_ s
  · intro st
    exact store_same st.ez (f j0) 0
  · intro j st _ _ hst
    exact store_zero_of_zero st.ez (f j) (f j0) hst

theorem border_condition_electric_eq_2D (g : fdtd2D) :
    border_condition_electric g = forLoop 0 4 (border_condition_electric_face g) g := rfl

theorem border_condition_electric_face_preserves (g : fdtd2D) (i : Nat) (c : Nat × Nat)
    (st : fdtd2D) (h : st.ez c = 0) : (border_condition_electric_face g i st).ez c = 0 := by
  unfold border_condition_electric_face
  by_cases hf : flagSet (g.border_condition i) border_perfect_electric_conductor = true
  · simp only [if_pos hf]
    split
    · exact ez_zero_loop_preserves _ (fun j => (0, j)) c st h
    · exact ez_zero_loop_preserves _ (fun j => (usub g.sizeX 1, j)) c st h
    · exact ez_zero_loop_preserves _ (fun j => (j, usub g.sizeY 1)) c st h
    · exact ez_zero_loop_preserves _ (fun j => (j, 0)) c st h
    · exact h
  · simp only [if_neg hf]
    exact h

theorem border_condition_electric_face_zero (g : fdtd2D) (i0 : Nat) (hi0 : i0 < 4)
    (n : Nat) (f : Nat → Nat × Nat)
    (hface : ∀ st, border_condition_electric_face g i0 st =
      forLoop 0 n (fun j s => { s with ez := store s.ez (f j) 0 }) st)
    (j : Nat) (hj : j < n) : (border_condition_electric g).ez (f j) = 0 := by
  rw [border_condition_electric_eq_2D]
  refine forLoop_establish (fun st : fdtd2D => st.ez (f j) = 0) 0 4 _ i0 (Nat.zero_le _) hi0
    ?_ ?_ g
  · intro st
    show (border_condition_electric_face g i0 st).ez (f j) = 0
    rw [hface st]
    exact ez_zero_loop_establish n f j hj st
  · intro i st _ _ hst
    exact border_condition_electric_face_preserves g i (f j) st hst

/-- After `border_condition_electric`, `ez` is zero on every face whose flag has the
perfect-electric-conductor bit. -/
theorem border_condition_electric_zero (g : fdtd2D) (hX : 1 ≤ g.sizeX)
    (hX2 : g.sizeX < UINTMAX_MOD) (hY : 1 ≤ g.sizeY) (hY2 : g.sizeY < UINTMAX_MOD) :
    (flagSet (g.border_condition border_south) border_perfect_electric_conductor = true →
      ∀ j, j < g.sizeY → (border_condition_electric g).ez (0, j) = 0) ∧
    (flagSet (g.border_condition border_north) border_perfect_electric_conductor = true →
      ∀ j, j < g.sizeY → (border_condition_electric g).ez (g.sizeX - 1, j) = 0) ∧
    (flagSet (g.border_condition border_east) border_perfect_electric_conductor = true →
      ∀ i, i < g.sizeX → (border_condition_electric g).ez (i, g.sizeY - 1) = 0) ∧
    (flagSet (g.border_condition border_west) border_perfect_electric_conductor = true →
      ∀ i, i < g.sizeX → (border_condition_electric g).ez (i, 0) = 0) := by
  have eX : usub g.sizeX 1 = g.sizeX - 1 := usub_eq_sub hX hX2
  have eY : usub g.sizeY 1 = g.sizeY - 1 := usub_eq_sub hY hY2
  refine ⟨?_, ?_, ?_, ?_⟩
  · intro hf j hj
    have hf0 : flagSet (g.border_condition 0) border_perfect_electric_conductor = true := hf
    refine border_condition_electric_face_zero g 0 (by decide) g.sizeY (fun j => (0, j))
      ?_ j hj
    intro st
    unfold border_condition_electric_face
    simp only [if_pos hf0]
  · intro hf j hj
    have hf0 : flagSet (g.border_condition 1) border_perfect_electric_conductor = true := hf
    refine border_condition_electric_face_zero g 1 (by decide) g.sizeY
      (fun j => (g.sizeX - 1, j)) ?_ j hj
    intro st
    unfold border_condition_electric_face
    simp only [if_pos hf0, eX]
  · intro hf j hj
    have hf0 : flagSet (g.border_condition 2) border_perfect_electric_conductor = true := hf
    refine border_condition_electric_face_zero g 2 (by decide) g.sizeX
      (fun j => (j, g.sizeY - 1)) ?_ j hj
    intro st
    unfold border_condition_electric_face
    simp only [if_pos hf0, eY]
  · intro hf j hj
    have hf0 : flagSet (g.border_condition 3) border_perfect_electric_conductor = true := hf
    refine border_condition_electric_face_zero g 3 (by decide) g.sizeX (fun j => (j, 0))
      ?_ j hj
    intro st
    unfold border_condition_electric_face
    simp only [if_pos hf0]

theorem advance_time_ez (g : fdtd2D) : (advance_time g).ez = g.ez := rfl

theorem run_2D_iteration_eq (glob : Globals) (ext : Extern) (g : fdtd2D) :
    run_2D_iteration glob ext g = advance_time (border_condition_electric
      (update_electric_cpml (apply_J_sources ext (update_electric_field glob ext
        (border_condition_magnetic (update_magnetic_cpml (apply_M_sources ext
          (update_magnetic_field glob ext g)))))))) := rfl

/-- The grid handed to `border_condition_electric` in an iteration has the flags and
the sizes of the grid the iteration started from. -/
theorem before_border_electric_static (glob : Globals) (ext : Extern) (g : fdtd2D) :
    (update_electric_cpml (apply_J_sources ext (update_electric_field glob ext
        (border_condition_magnetic (update_magnetic_cpml (apply_M_sources ext
          (update_magnetic_field glob ext g))))))).static = g.static := by
  simp only [update_electric_cpml_static_2D, apply_J_sources_static_2D,
    update_electric_field_static_2D, border_condition_magnetic_static_2D,
    update_magnetic_cpml_static_2D, apply_M_sources_static_2D, update_magnetic_field_static_2D]

theorem run_2D_iteration_ez_zero (glob : Globals) (ext : Extern) (g : fdtd2D)
    (hX : 1 ≤ g.sizeX) (hX2 : g.sizeX < UINTMAX_MOD) (hY : 1 ≤ g.sizeY)
    (hY2 : g.sizeY < UINTMAX_MOD) :
    (flagSet (g.border_condition border_south) border_perfect_electric_conductor = true →
      ∀ j, j < g.sizeY → (run_2D_iteration glob ext g).ez (0, j) = 0) ∧
    (flagSet (g.border_condition border_north) border_perfect_electric_conductor = true →
      ∀ j, j < g.sizeY → (run_2D_iteration glob ext g).ez (g.sizeX - 1, j) = 0) ∧
    (flagSet (g.border_condition border_east) border_perfect_electric_conductor = true →
      ∀ i, i < g.sizeX → (run_2D_iteration glob ext g).ez (i, g.sizeY - 1) = 0) ∧
    (flagSet (g.border_condition border_west) border_perfect_electric_conductor = true →
      ∀ i, i < g.sizeX → (run_2D_iteration glob ext g).ez (i, 0) = 0) := by
  have hs := before_border_electric_static glob ext g
  simp only [fdtd2D.static, Prod.mk.injEq] at hs
  obtain ⟨-, -, -, -, -, -, -, -, hb, -, hsx, hsy, -⟩ := hs
  rw [run_2D_iteration_eq, advance_time_ez]
  have h := border_condition_electric_zero (update_electric_cpml (apply_J_sources ext
    (update_electric_field glob ext (border_condition_magnetic (update_magnetic_cpml
      (apply_M_sources ext (update_magnetic_field glob ext g)))))))
    (hsx ▸ hX) (hsx ▸ hX2) (hsy ▸ hY) (hsy ▸ hY2)
  rw [hb, hsx, hsy] at h
  exact h

end D2

/-! ## The run loop -/

theorem runLoop_unfold {σ : Type} (time : σ → ℚ) (body advance : σ → σ) (end_time : ℚ)
    (fuel : Nat) (s : σ) :
    runLoop time body advance end_time (fuel + 1) s =
      if time s < end_time then runLoop time body advance end_time fuel (advance (body s))
      else some s := rfl

theorem runLoop_stop {σ : Type} (time : σ → ℚ) (body advance : σ → σ) (end_time : ℚ)
    (fuel : Nat) (s : σ) (h : ¬ time s < end_time) :
    runLoop time body advance end_time fuel s = some s := by
  cases fuel with
  | zero => simp only [runLoop, if_neg h]
  | succ n => simp only [runLoop, if_neg h]

/-- The loop performs `n` iterations when its condition holds before each of the first
`n` iterations and fails after them, provided the fuel allows `n` iterations. -/
theorem runLoop_iterate {σ : Type} (time : σ → ℚ) (body advance step : σ → σ)
    (hstep : ∀ s, advance (body s) = step s) (end_time : ℚ) (n : Nat) :
    ∀ (s : σ) (fuel : Nat), (∀ k, k < n → time (step^[k] s) < end_time) →
      ¬ time (step^[n] s) < end_time → n ≤ fuel →
      runLoop time body advance end_time fuel s = some (step^[n] s) := by
  induction n with
  | zero =>
    intro s fuel _ hn _
    exact runLoop_stop time body advance end_time fuel s hn
  | succ n ih =>
    intro s fuel hlt hn hfuel
    obtain ⟨f, rfl⟩ : ∃ f, fuel = f + 1 := ⟨fuel - 1, by omega⟩
    have h0 : time s < end_time := hlt 0 (Nat.succ_pos n)
    rw [runLoop_unfold, if_pos h0, hstep, Function.iterate_succ_apply]
    refine ih (step s) f ?_ ?_ (by omega)
    · intro k hk
      have := hlt (k + 1) (by omega)
      rwa [Function.iterate_succ_apply] at this
    · rwa [Function.iterate_succ_apply] at hn

theorem iterate_time {σ : Type} (time dt : σ → ℚ) (step : σ → σ)
    (htime : ∀ s, time (step s) = time s + dt s) (hdt : ∀ s, dt (step s) = dt s) (s : σ)
    (k : Nat) : dt (step^[k] s) = dt s ∧ time (step^[k] s) = time s + (k : ℚ) * dt s := by
  induction k with
  | zero => simp
  | succ k ih =>
    rw [Function.iterate_succ_apply', htime, hdt, ih.1, ih.2]
    refine ⟨rfl, ?_⟩
    push_cast
    ring

theorem iteration_count_lt {t e d : ℚ} (hd : 0 < d) {k : Nat} (hk : k < iteration_count t e d) :
    t + (k : ℚ) * d < e := by
  unfold iteration_count at hk
  have h1 : (k : ℤ) < max 0 ⌈(e - t) / d⌉ := by
    have := Int.lt_toNat.mp hk
    exact this
  have h2 : (k : ℤ) < ⌈(e - t) / d⌉ := by
    rcases lt_max_iff.mp h1 with h | h
    · exact absurd h (by omega)
    · exact h
  have h3 : ((k : ℤ) : ℚ) < (e - t) / d := Int.lt_ceil.mp h2
  have h4 : (k : ℚ) * d < e - t := by
    rw [lt_div_iff₀ hd] at h3
    exact_mod_cast h3
  linarith

theorem iteration_count_ge {t e d : ℚ} (hd : 0 < d) :
    e ≤ t + (iteration_count t e d : ℚ) * d := by
  unfold iteration_count
  have h1 : ⌈(e - t) / d⌉ ≤ ((max 0 ⌈(e - t) / d⌉).toNat : ℤ) :=
    le_trans (le_max_right _ _) (Int.self_le_toNat _)
  have h2 : (e - t) / d ≤ (((max 0 ⌈(e - t) / d⌉).toNat : ℤ) : ℚ) :=
    le_trans (Int.le_ceil _) (by exact_mod_cast h1)
  rw [div_le_iff₀ hd] at h2
  have h3 : (((max 0 ⌈(e - t) / d⌉).toNat : ℤ) : ℚ) = ((max 0 ⌈(e - t) / d⌉).toNat : ℚ) := by
    push_cast
    rfl
  rw [h3] at h2
  linarith

theorem iteration_count_zero {t e d : ℚ} (hd : 0 < d) (h : e ≤ t) : iteration_count t e d = 0 := by
  unfold iteration_count
  have h1 : (e - t) / d ≤ 0 := div_nonpos_of_nonpos_of_nonneg (by linarith) (le_of_lt hd)
  have h2 : ⌈(e - t) / d⌉ ≤ 0 := Int.ceil_le.mpr (by exact_mod_cast h1)
  rw [max_eq_left h2]
  rfl

theorem iteration_count_exact {d : ℚ} (hd : 0 < d) (n : Nat) :
    iteration_count 0 ((n : ℚ) * d) d = n := by
  unfold iteration_count
  have h1 : ((n : ℚ) * d - 0) / d = ((n : ℤ) : ℚ) := by
    rw [sub_zero, mul_div_assoc, div_self (ne_of_gt hd), mul_one]
    norm_cast
  rw [h1, Int.ceil_intCast, max_eq_right (Int.natCast_nonneg n)]
  rfl

/-- The run loop, for a state whose clock advances by a constant positive step. -/
theorem runLoop_count {σ : Type} (time dt : σ → ℚ) (body advance step : σ → σ)
    (hstep : ∀ s, advance (body s) = step s)
    (htime : ∀ s, time (step s) = time s + dt s) (hdt : ∀ s, dt (step s) = dt s)
    (s : σ) (hpos : 0 < dt s) (end_time : ℚ) :
    (∀ fuel, iteration_count (time s) end_time (dt s) ≤ fuel →
      runLoop time body advance end_time fuel s =
        some (step^[iteration_count (time s) end_time (dt s)] s)) ∧
    (∀ k, k < iteration_count (time s) end_time (dt s) → time (step^[k] s) < end_time) ∧
    time (step^[iteration_count (time s) end_time (dt s)] s) =
      time s + (iteration_count (time s) end_time (dt s) : ℚ) * dt s ∧
    end_time ≤ time (step^[iteration_count (time s) end_time (dt s)] s) := by
  have hlt : ∀ k, k < iteration_count (time s) end_time (dt s) →
      time (step^[k] s) < end_time := by
    intro k hk
    rw [(iterate_time time dt step htime hdt s k).2]
    exact iteration_count_lt hpos hk
  have hge : end_time ≤ time (step^[iteration_count (time s) end_time (dt s)] s) := by
    rw [(iterate_time time dt step htime hdt s _).2]
    exact iteration_count_ge hpos
  refine ⟨?_, hlt, (iterate_time time dt step htime hdt s _).2, hge⟩
  intro fuel hfuel
  exact runLoop_iterate time body advance step hstep end_time _ s fuel hlt (not_lt.mpr hge) hfuel

/-- The specification of the run loop holds for every state whose clock advances by a
constant positive step. -/
theorem runLoop_spec {σ : Type} (time dt : σ → ℚ) (body advance step : σ → σ)
    (hstep : ∀ s, advance (body s) = step s)
    (htime : ∀ s, time (step s) = time s + dt s) (hdt : ∀ s, dt (step s) = dt s)
    (s : σ) (hpos : 0 < dt s) (end_time : ℚ) :
    run_loop_spec (fun fuel s e => runLoop time body advance e fuel s) step time dt s
      end_time := by
  obtain ⟨h1, h2, h3, h4⟩ := runLoop_count time dt body advance step hstep htime hdt s hpos
    end_time
  refine ⟨h1, h2, h3, h4, ?_, ?_⟩
  · intro hle
    refine ⟨iteration_count_zero hpos hle, ?_⟩
    intro fuel
    exact runLoop_stop time body advance end_time fuel s (not_lt.mpr hle)
  · intro h0 requested n hreq
    have hstop : main_stop_time requested n (dt s) = (n : ℚ) * dt s := by
      unfold main_stop_time
      rw [if_neg (not_lt.mpr hreq)]
    have hcount : iteration_count (time s) (main_stop_time requested n (dt s)) (dt s) = n := by
      rw [hstop, h0]
      exact iteration_count_exact hpos n
    refine ⟨hcount, ?_⟩
    intro fuel hfuel
    have h := (runLoop_count time dt body advance step hstep htime hdt s hpos
      (main_stop_time requested n (dt s))).1 fuel (by rw [hcount]; exact hfuel)
    rw [hcount] at h
    exact h

namespace D1

theorem run_1D_body_clock (ext : Extern) (g : fdtd1D) :
    (run_1D_body ext g).dt = g.dt ∧ (run_1D_body ext g).time = g.time := by
  have h := run_1D_body_static ext g
  simp only [fdtd1D.static, Prod.mk.injEq] at h
  obtain ⟨-, hdt, -, -, -, -, -, -, -, -, -, -, -, -, htime⟩ := h
  exact ⟨hdt, htime⟩

theorem advance_time_dt_1D (g : fdtd1D) : (advance_time g).dt = g.dt := rfl

theorem advance_time_time_1D (g : fdtd1D) : (advance_time g).time = g.time + g.dt := rfl

theorem run_1D_iteration_unfold (ext : Extern) (g : fdtd1D) :
    run_1D_iteration ext g = advance_time (run_1D_body ext g) := rfl

theorem run_1D_iteration_clock (ext : Extern) (g : fdtd1D) :
    (run_1D_iteration ext g).dt = g.dt ∧
      (run_1D_iteration ext g).time = g.time + g.dt := by
  obtain ⟨h1, h2⟩ := run_1D_body_clock ext g
  rw [run_1D_iteration_unfold, advance_time_dt_1D, advance_time_time_1D, h1, h2]
  exact ⟨rfl, rfl⟩

/-- The loop of `run_1D_fdtd` meets the specification of the run loop. -/
theorem run_1D_fdtd_spec (ext : Extern) (g : fdtd1D) (hpos : 0 < g.dt)
    (end_time : ℚ) :
    run_loop_spec (run_1D_fdtd ext) (run_1D_iteration ext) fdtd1D.time fdtd1D.dt g
      end_time :=
  runLoop_spec fdtd1D.time fdtd1D.dt (run_1D_body ext) advance_time
    (run_1D_iteration ext) (fun _ => rfl)
    (fun s => (run_1D_iteration_clock ext s).2)
    (fun s => (run_1D_iteration_clock ext s).1) g hpos end_time

end D1

namespace D2

theorem run_2D_body_clock (glob : Globals) (ext : Extern) (g : fdtd2D) :
    (run_2D_body glob ext g).dt = g.dt ∧ (run_2D_body glob ext g).time = g.time := by
  have h := run_2D_body_static glob ext g
  simp only [fdtd2D.static, Prod.mk.injEq] at h
  obtain ⟨-, -, hdt, -, -, -, -, -, -, -, -, -, -, -, -, -, -, -, -, htime⟩ := h
  exact ⟨hdt, htime⟩

theorem advance_time_dt_2D (g : fdtd2D) : (advance_time g).dt = g.dt := rfl

theorem advance_time_time_2D (g : fdtd2D) : (advance_time g).time = g.time + g.dt := rfl

theorem run_2D_iteration_unfold (glob : Globals) (ext : Extern) (g : fdtd2D) :
    run_2D_iteration glob ext g = advance_time (run_2D_body glob ext g) := rfl

theorem run_2D_iteration_clock (glob : Globals) (ext : Extern) (g : fdtd2D) :
    (run_2D_iteration glob ext g).dt = g.dt ∧
      (run_2D_iteration glob ext g).time = g.time + g.dt := by
  obtain ⟨h1, h2⟩ := run_2D_body_clock glob ext g
  rw [run_2D_iteration_unfold, advance_time_dt_2D, advance_time_time_2D, h1, h2]
  exact ⟨rfl, rfl⟩

/-- The loop of `run_2D_fdtd` meets the specification of the run loop. -/
theorem run_2D_fdtd_spec (glob : Globals) (ext : Extern) (g : fdtd2D) (hpos : 0 < g.dt)
    (end_time : ℚ) :
    run_loop_spec (run_2D_fdtd glob ext) (run_2D_iteration glob ext) fdtd2D.time fdtd2D.dt g
      end_time :=
  runLoop_spec fdtd2D.time fdtd2D.dt (run_2D_body glob ext) advance_time
    (run_2D_iteration glob ext) (fun _ => rfl)
    (fun s => (run_2D_iteration_clock glob ext s).2)
    (fun s => (run_2D_iteration_clock glob ext s).1) g hpos end_time

end D2

namespace D3

theorem run_3D_body_clock (ext : Extern) (g : fdtd3D) :
    (run_3D_body ext g).dt = g.dt ∧ (run_3D_body ext g).time = g.time := by
  have h := run_3D_body_static ext g
  simp only [fdtd3D.static, Prod.mk.injEq] at h
  obtain ⟨-, -, -, hdt, -, -, -, -, -, -, -, -, -, -, -, -, -, -, -, -, -, htime⟩ := h
  exact ⟨hdt, htime⟩

theorem advance_time_dt_3D (g : fdtd3D) : (advance_time g).dt = g.dt := rfl

theorem advance_time_time_3D (g : fdtd3D) : (advance_time g).time = g.time + g.dt := rfl

theorem run_3D_iteration_unfold (ext : Extern) (g : fdtd3D) :
    run_3D_iteration ext g = advance_time (run_3D_body ext g) := rfl

theorem run_3D_iteration_clock (ext : Extern) (g : fdtd3D) :
    (run_3D_iteration ext g).dt = g.dt ∧
      (run_3D_iteration ext g).time = g.time + g.dt := by
  obtain ⟨h1, h2⟩ := run_3D_body_clock ext g
  rw [run_3D_iteration_unfold, advance_time_dt_3D, advance_time_time_3D, h1, h2]
  exact ⟨rfl, rfl⟩

/-- The loop of `run_3D_fdtd` meets the specification of the run loop. -/
theorem run_3D_fdtd_spec (ext : Extern) (g : fdtd3D) (hpos : 0 < g.dt)
    (end_time : ℚ) :
    run_loop_spec (run_3D_fdtd ext) (run_3D_iteration ext) fdtd3D.time fdtd3D.dt g
      end_time :=
  runLoop_spec fdtd3D.time fdtd3D.dt (run_3D_body ext) advance_time
    (run_3D_iteration ext) (fun _ => rfl)
    (fun s => (run_3D_iteration_clock ext s).2)
    (fun s => (run_3D_iteration_clock ext s).1) g hpos end_time

end D3

/-! ## The claims of the specification -/

namespace D1

theorem before_M_sources_time_1D (ext : Extern) (g : fdtd1D) :
    (update_magnetic_field g).time = g.time ∧
      (update_electric_field (border_condition_magnetic (apply_M_sources ext
        (update_magnetic_field g)))).time = g.time := by
  have h1 := update_magnetic_field_static_1D g
  have h2 : (update_electric_field (border_condition_magnetic (apply_M_sources ext
      (update_magnetic_field g)))).static = g.static := by
    simp only [update_electric_field_static_1D, border_condition_magnetic_static_1D,
      apply_M_sources_static_1D, update_magnetic_field_static_1D]
  simp only [fdtd1D.static, Prod.mk.injEq] at h1 h2
  exact ⟨h1.2.2.2.2.2.2.2.2.2.2.2.2.2.2, h2.2.2.2.2.2.2.2.2.2.2.2.2.2.2⟩

end D1

namespace D2

theorem before_sources_time_2D (glob : Globals) (ext : Extern) (g : fdtd2D) :
    (update_magnetic_field glob ext g).time = g.time ∧
      (update_electric_field glob ext (border_condition_magnetic (update_magnetic_cpml
        (apply_M_sources ext (update_magnetic_field glob ext g))))).time = g.time := by
  have h1 := update_magnetic_field_static_2D glob ext g
  have h2 : (update_electric_field glob ext (border_condition_magnetic (update_magnetic_cpml
      (apply_M_sources ext (update_magnetic_field glob ext g))))).static = g.static := by
    simp only [update_electric_field_static_2D, border_condition_magnetic_static_2D,
      update_magnetic_cpml_static_2D, apply_M_sources_static_2D, update_magnetic_field_static_2D]
  simp only [fdtd2D.static, Prod.mk.injEq] at h1 h2
  exact ⟨h1.2.2.2.2.2.2.2.2.2.2.2.2.2.2.2.2.2.2.2, h2.2.2.2.2.2.2.2.2.2.2.2.2.2.2.2.2.2.2.2⟩

end D2

namespace D3

theorem before_sources_time_3D (ext : Extern) (g : fdtd3D) :
    (update_magnetic_field g).time = g.time ∧
      (update_electric_field (border_condition_magnetic (update_magnetic_cpml
        (apply_M_sources ext (update_magnetic_field g))))).time = g.time := by
  have h1 := update_magnetic_field_static_3D g
  have h2 : (update_electric_field (border_condition_magnetic (update_magnetic_cpml
      (apply_M_sources ext (update_magnetic_field g))))).static = g.static := by
    simp only [update_electric_field_static_3D, border_condition_magnetic_static_3D,
      update_magnetic_cpml_static_3D, apply_M_sources_static_3D, update_magnetic_field_static_3D]
  simp only [fdtd3D.static, Prod.mk.injEq] at h1 h2
  exact ⟨h1.2.2.2.2.2.2.2.2.2.2.2.2.2.2.2.2.2.2.2.2.2, h2.2.2.2.2.2.2.2.2.2.2.2.2.2.2.2.2.2.2.2.2.2⟩

end D3

/-- C1: in 1D, 2D and 3D, the run loop, while `time < end_time`, continues from the
grid after one iteration; one iteration is the composition, in this order, of the
magnetic update, the M sources, the magnetic CPML correction (2D and 3D), the
magnetic border enforcement, the electric update, the J sources, the electric CPML
correction (2D and 3D), the electric border enforcement, followed by
`time := time + dt`; the grids handed to the two source applications hold the time
value of the start of the iteration. -/
theorem run_iteration_order (glob : Globals) (ext : Extern) (g1 : D1.fdtd1D) (g2 : D2.fdtd2D)
    (g3 : D3.fdtd3D) (end_time : ℚ) (fuel : Nat) :
    (D2.run_2D_fdtd glob ext (fuel + 1) g2 end_time =
        (if g2.time < end_time then
          D2.run_2D_fdtd glob ext fuel (D2.run_2D_iteration glob ext g2) end_time
        else some g2) ∧
      D2.run_2D_iteration glob ext g2 =
        D2.advance_time (D2.border_condition_electric (D2.update_electric_cpml
          (D2.apply_J_sources ext (D2.update_electric_field glob ext
            (D2.border_condition_magnetic (D2.update_magnetic_cpml (D2.apply_M_sources ext
              (D2.update_magnetic_field glob ext g2)))))))) ∧
      (D2.run_2D_iteration glob ext g2).time = g2.time + g2.dt ∧
      (D2.update_magnetic_field glob ext g2).time = g2.time ∧
      (D2.update_electric_field glob ext (D2.border_condition_magnetic (D2.update_magnetic_cpml
        (D2.apply_M_sources ext (D2.update_magnetic_field glob ext g2))))).time = g2.time) ∧
    (D3.run_3D_fdtd ext (fuel + 1) g3 end_time =
        (if g3.time < end_time then
          D3.run_3D_fdtd ext fuel (D3.run_3D_iteration ext g3) end_time
        else some g3) ∧
      D3.run_3D_iteration ext g3 =
        D3.advance_time (D3.border_condition_electric (D3.update_electric_cpml
          (D3.apply_J_sources ext (D3.update_electric_field
            (D3.border_condition_magnetic (D3.update_magnetic_cpml (D3.apply_M_sources ext
              (D3.update_magnetic_field g3)))))))) ∧
      (D3.run_3D_iteration ext g3).time = g3.time + g3.dt ∧
      (D3.update_magnetic_field g3).time = g3.time ∧
      (D3.update_electric_field (D3.border_condition_magnetic (D3.update_magnetic_cpml
        (D3.apply_M_sources ext (D3.update_magnetic_field g3))))).time = g3.time) ∧
    (D1.run_1D_fdtd ext (fuel + 1) g1 end_time =
        (if g1.time < end_time then
          D1.run_1D_fdtd ext fuel (D1.run_1D_iteration ext g1) end_time
        else some g1) ∧
      D1.run_1D_iteration ext g1 =
        D1.advance_time (D1.border_condition_electric (D1.apply_J_sources ext
          (D1.update_electric_field (D1.border_condition_magnetic (D1.apply_M_sources ext
            (D1.update_magnetic_field g1)))))) ∧
      (D1.run_1D_iteration ext g1).time = g1.time + g1.dt ∧
      (D1.update_magnetic_field g1).time = g1.time ∧
      (D1.update_electric_field (D1.border_condition_magnetic (D1.apply_M_sources ext
        (D1.update_magnetic_field g1)))).time = g1.time) := by
  refine ⟨⟨?_, rfl, (D2.run_2D_iteration_clock glob ext g2).2,
      (D2.before_sources_time_2D glob ext g2).1, (D2.before_sources_time_2D glob ext g2).2⟩,
    ⟨?_, rfl, (D3.run_3D_iteration_clock ext g3).2,
      (D3.before_sources_time_3D ext g3).1, (D3.before_sources_time_3D ext g3).2⟩,
    ⟨?_, rfl, (D1.run_1D_iteration_clock ext g1).2,
      (D1.before_M_sources_time_1D ext g1).1, (D1.before_M_sources_time_1D ext g1).2⟩⟩
  · exact runLoop_unfold D2.fdtd2D.time (D2.run_2D_body glob ext) D2.advance_time end_time
      fuel g2
  · exact runLoop_unfold D3.fdtd3D.time (D3.run_3D_body ext) D3.advance_time end_time fuel g3
  · exact runLoop_unfold D1.fdtd1D.time (D1.run_1D_body ext) D1.advance_time end_time fuel g1

namespace D3

/-- C2: for a 3D grid with sizes at least 1, `update_magnetic_field` sets every
magnetic component at `i < sizeX-1`, `j < sizeY-1`, `k < sizeZ-1` to the old value
minus `dt * permeability_inv` times the component of the forward-difference curl of
the electric field, and `update_electric_field` sets every electric component at
`i, j, k >= 1` to the old value plus `dt * permittivity_inv` times the component of
the backward-difference curl of the magnetic field. -/
theorem update_field_3D_stencils (g : fdtd3D)
    (hX : 1 ≤ g.sizeX) (hY : 1 ≤ g.sizeY) (hZ : 1 ≤ g.sizeZ)
    (hX2 : g.sizeX < UINTMAX_MOD) (hY2 : g.sizeY < UINTMAX_MOD) (hZ2 : g.sizeZ < UINTMAX_MOD) :
    (∀ i j k, i < g.sizeX - 1 → j < g.sizeY - 1 → k < g.sizeZ - 1 →
      (update_magnetic_field g).hx (i, j, k) =
          g.hx (i, j, k) - g.dt * g.permeability_inv (i, j, k) * (curl_fwd g (i, j, k)).1 ∧
      (update_magnetic_field g).hy (i, j, k) =
          g.hy (i, j, k) - g.dt * g.permeability_inv (i, j, k) * (curl_fwd g (i, j, k)).2.1 ∧
      (update_magnetic_field g).hz (i, j, k) =
          g.hz (i, j, k) - g.dt * g.permeability_inv (i, j, k) * (curl_fwd g (i, j, k)).2.2) ∧
    (∀ i j k, 1 ≤ i → i < g.sizeX → 1 ≤ j → j < g.sizeY → 1 ≤ k → k < g.sizeZ →
      (update_electric_field g).ex (i, j, k) =
          g.ex (i, j, k) + g.dt * g.permittivity_inv (i, j, k) * (curl_bwd g (i, j, k)).1 ∧
      (update_electric_field g).ey (i, j, k) =
          g.ey (i, j, k) + g.dt * g.permittivity_inv (i, j, k) * (curl_bwd g (i, j, k)).2.1 ∧
      (update_electric_field g).ez (i, j, k) =
          g.ez (i, j, k) + g.dt * g.permittivity_inv (i, j, k) * (curl_bwd g (i, j, k)).2.2) := by
  constructor
  · intro i j k hi hj hk
    have hmem : inBox3 0 (usub g.sizeX 1) 0 (usub g.sizeY 1) 0 (usub g.sizeZ 1) (i, j, k) := by
      rw [usub_eq_sub hX hX2, usub_eq_sub hY hY2, usub_eq_sub hZ hZ2]
      unfold inBox3
      simp only
      omega
    rw [update_magnetic_field_eq_3D]
    dsimp only
    rw [if_pos hmem, if_pos hmem, if_pos hmem]
    simp only [curl_fwd, fwd_x, fwd_y, fwd_z]
    refine ⟨by ring, by ring, by ring⟩
  · intro i j k hi hi2 hj hj2 hk hk2
    have hmem : inBox3 1 g.sizeX 1 g.sizeY 1 g.sizeZ (i, j, k) := by
      unfold inBox3
      simp only
      omega
    rw [update_electric_field_eq_3D]
    dsimp only
    rw [if_pos hmem, if_pos hmem, if_pos hmem]
    simp only [curl_bwd, bwd_x, bwd_y, bwd_z]
    refine ⟨by ring, by ring, by ring⟩

/-- The stencil theorem at the cell `(0, 0, 0)` of the magnetic field and the cell
`(1, 1, 1)` of the electric field of the sample grid. -/
theorem update_field_3D_stencils_witness :
    (1 ≤ (sample_grid (fun _ => 0)).sizeX ∧ (sample_grid (fun _ => 0)).sizeX < UINTMAX_MOD) ∧
    (update_magnetic_field (sample_grid (fun _ => 0))).hx (0, 0, 0) =
      (sample_grid (fun _ => 0)).hx (0, 0, 0) -
        (sample_grid (fun _ => 0)).dt * (sample_grid (fun _ => 0)).permeability_inv (0, 0, 0) *
          (curl_fwd (sample_grid (fun _ => 0)) (0, 0, 0)).1 ∧
    (update_electric_field (sample_grid (fun _ => 0))).ex (1, 1, 1) =
      (sample_grid (fun _ => 0)).ex (1, 1, 1) +
        (sample_grid (fun _ => 0)).dt * (sample_grid (fun _ => 0)).permittivity_inv (1, 1, 1) *
          (curl_bwd (sample_grid (fun _ => 0)) (1, 1, 1)).1 :=
  ⟨⟨by decide, by decide⟩,
    ((update_field_3D_stencils (sample_grid (fun _ => 0)) (by decide) (by decide) (by decide)
      (by decide) (by decide) (by decide)).1 0 0 0 (by decide) (by decide) (by decide)).1,
    ((update_field_3D_stencils (sample_grid (fun _ => 0)) (by decide) (by decide) (by decide)
      (by decide) (by decide) (by decide)).2 1 1 1 (by decide) (by decide) (by decide)
      (by decide) (by decide) (by decide)).1⟩

end D3

namespace D2

end D2

namespace D3

/-- C4: sign convention of the 3D CPML.  For every field component `comp`, every
axis `ax` other than `comp` and both faces normal to `ax` (12 pairs for the six
components, two faces each), when the face is flagged CPML, one call of
`update_electric_cpml` (and likewise of `update_magnetic_cpml`) does the following.
Every auxiliary value of the face becomes `b[l] * psi_old + c[l] * d`, where `d` is the
two-point difference that is the derivative term along `ax` in the update stencil of
`comp` at the corrected cell, and the block of the face, applied to the grid as the
preceding blocks left it, changes the field cell by `s * dt * material_inv * psi_new`,
every other cell keeping its value; `s` is the sign of that term in the stencil
(`curl_sign` for the electric update, its opposite for the magnetic update, which
subtracts the curl).  The six blocks are chained in the order left, right, front,
back, bottom, top.  In total the call changes every cell of `comp` by
`dt * material_inv` times the sum over the axes of `curl_sign * psi_new` of the flagged
faces that correct the cell (`cpml_term_E`, `cpml_term_H`), so the field update
followed by the call is the update stencil with each derivative `d` replaced by
`d + psi_new`. -/
theorem cpml_3D_sign_convention (g : fdtd3D) (hT : g.cpml_thickness < UINTMAX_MOD)
    (hS : ∀ ax, g.cpml_thickness + 1 ≤ size g ax) (hS2 : ∀ ax, size g ax < UINTMAX_MOD)
    (comp ax : Axis) (far : Bool) (hne : ax ≠ comp)
    (hflag : flagSet (g.border_condition (cpml_face ax far)) border_cpml = true) :
    (cpml_face_spec (cpml_box g ax) (cpml_layer ax) (cpml_cell_E g ax far) g.bx g.cx
        (fun k => E_stencil_term g comp ax (cpml_cell_E g ax far k)) (curl_sign comp ax) g.dt
        g.permittivity_inv (psi_E g comp ax far) (psi_E (update_electric_cpml g) comp ax far)
        (E_field (cpml_before_E ax far g) comp)
        (E_field (cpml_block_E ax far (cpml_before_E ax far g)) comp) ∧
      (cpml_before_E Axis.y false g = g ∧
        cpml_before_E Axis.y true g = cpml_block_E Axis.y false (cpml_before_E Axis.y false g) ∧
        cpml_before_E Axis.z false g = cpml_block_E Axis.y true (cpml_before_E Axis.y true g) ∧
        cpml_before_E Axis.z true g = cpml_block_E Axis.z false (cpml_before_E Axis.z false g) ∧
        cpml_before_E Axis.x false g = cpml_block_E Axis.z true (cpml_before_E Axis.z true g) ∧
        cpml_before_E Axis.x true g = cpml_block_E Axis.x false (cpml_before_E Axis.x false g) ∧
        update_electric_cpml g = cpml_block_E Axis.x true (cpml_before_E Axis.x true g)) ∧
      (∀ c, E_field (update_electric_cpml g) comp c =
        E_field g comp c + g.dt * g.permittivity_inv c *
          (curl_sign comp Axis.x * cpml_term_E g (psi_E (update_electric_cpml g)) comp Axis.x c +
            curl_sign comp Axis.y * cpml_term_E g (psi_E (update_electric_cpml g)) comp Axis.y c +
            curl_sign comp Axis.z * cpml_term_E g (psi_E (update_electric_cpml g)) comp Axis.z c)) ∧
      (∀ k, cpml_box g ax k →
        psi_E (update_electric_cpml (update_electric_field g)) comp ax far k =
            g.bx (cpml_layer ax k) * psi_E g comp ax far k +
              g.cx (cpml_layer ax k) * E_stencil_term g comp ax (cpml_cell_E g ax far k) ∧
          cpml_face_term (g.border_condition (cpml_face ax far))
              (cpml_index_E g ax far (cpml_cell_E g ax far k))
              (psi_E (update_electric_cpml (update_electric_field g)) comp ax far) =
            psi_E (update_electric_cpml (update_electric_field g)) comp ax far k) ∧
      (∀ c, inBox3 1 g.sizeX 1 g.sizeY 1 g.sizeZ c →
        E_field (update_electric_cpml (update_electric_field g)) comp c =
          E_field g comp c + g.dt * g.permittivity_inv c *
            (curl_sign comp Axis.x * (E_stencil_term g comp Axis.x c +
                cpml_term_E g (psi_E (update_electric_cpml (update_electric_field g)))
                  comp Axis.x c) +
              curl_sign comp Axis.y * (E_stencil_term g comp Axis.y c +
                cpml_term_E g (psi_E (update_electric_cpml (update_electric_field g)))
                  comp Axis.y c) +
              curl_sign comp Axis.z * (E_stencil_term g comp Axis.z c +
                cpml_term_E g (psi_E (update_electric_cpml (update_electric_field g)))
                  comp Axis.z c)))) ∧
    (cpml_face_spec (cpml_box g ax) (cpml_layer ax) (cpml_cell_H g ax far) g.bx g.cx
        (fun k => H_stencil_term g comp ax (cpml_cell_H g ax far k)) (-curl_sign comp ax) g.dt
        g.permeability_inv (psi_H g comp ax far) (psi_H (update_magnetic_cpml g) comp ax far)
        (H_field (cpml_before_H ax far g) comp)
        (H_field (cpml_block_H ax far (cpml_before_H ax far g)) comp) ∧
      (cpml_before_H Axis.y false g = g ∧
        cpml_before_H Axis.y true g = cpml_block_H Axis.y false (cpml_before_H Axis.y false g) ∧
        cpml_before_H Axis.z false g = cpml_block_H Axis.y true (cpml_before_H Axis.y true g) ∧
        cpml_before_H Axis.z true g = cpml_block_H Axis.z false (cpml_before_H Axis.z false g) ∧
        cpml_before_H Axis.x false g = cpml_block_H Axis.z true (cpml_before_H Axis.z true g) ∧
        cpml_before_H Axis.x true g = cpml_block_H Axis.x false (cpml_before_H Axis.x false g) ∧
        update_magnetic_cpml g = cpml_block_H Axis.x true (cpml_before_H Axis.x true g)) ∧
      (∀ c, H_field (update_magnetic_cpml g) comp c =
        H_field g comp c - g.dt * g.permeability_inv c *
          (curl_sign comp Axis.x * cpml_term_H g (psi_H (update_magnetic_cpml g)) comp Axis.x c +
            curl_sign comp Axis.y * cpml_term_H g (psi_H (update_magnetic_cpml g)) comp Axis.y c +
            curl_sign comp Axis.z * cpml_term_H g (psi_H (update_magnetic_cpml g)) comp Axis.z c)) ∧
      (∀ k, cpml_box g ax k →
        psi_H (update_magnetic_cpml (update_magnetic_field g)) comp ax far k =
            g.bx (cpml_layer ax k) * psi_H g comp ax far k +
              g.cx (cpml_layer ax k) * H_stencil_term g comp ax (cpml_cell_H g ax far k) ∧
          cpml_face_term (g.border_condition (cpml_face ax far))
              (cpml_index_H g ax far (cpml_cell_H g ax far k))
              (psi_H (update_magnetic_cpml (update_magnetic_field g)) comp ax far) =
            psi_H (update_magnetic_cpml (update_magnetic_field g)) comp ax far k) ∧
      (∀ c, inBox3 0 (usub g.sizeX 1) 0 (usub g.sizeY 1) 0 (usub g.sizeZ 1) c →
        H_field (update_magnetic_cpml (update_magnetic_field g)) comp c =
          H_field g comp c - g.dt * g.permeability_inv c *
            (curl_sign comp Axis.x * (H_stencil_term g comp Axis.x c +
                cpml_term_H g (psi_H (update_magnetic_cpml (update_magnetic_field g)))
                  comp Axis.x c) +
              curl_sign comp Axis.y * (H_stencil_term g comp Axis.y c +
                cpml_term_H g (psi_H (update_magnetic_cpml (update_magnetic_field g)))
                  comp Axis.y c) +
              curl_sign comp Axis.z * (H_stencil_term g comp Axis.z c +
                cpml_term_H g (psi_H (update_magnetic_cpml (update_magnetic_field g)))
                  comp Axis.z c)))) :=
  ⟨⟨(update_electric_cpml_net g hT hS hS2).1 comp ax far hne hflag,
      ⟨rfl, rfl, rfl, rfl, rfl, rfl, rfl⟩,
      (update_electric_cpml_net g hT hS hS2).2.2.1 comp,
      (update_electric_cpml_combined g hT hS hS2 comp).1 ax far hne hflag,
      (update_electric_cpml_combined g hT hS hS2 comp).2⟩,
    ⟨(update_magnetic_cpml_net g hT hS hS2).1 comp ax far hne hflag,
      ⟨rfl, rfl, rfl, rfl, rfl, rfl, rfl⟩,
      (update_magnetic_cpml_net g hT hS hS2).2.2.1 comp,
      (update_magnetic_cpml_combined g hT hS hS2 comp).1 ax far hne hflag,
      (update_magnetic_cpml_combined g hT hS hS2 comp).2⟩⟩

/-- The sign convention on the sample grid with varying fields and every face flagged
CPML, for the component `ex` and the left face (normal to `y`): the call of
`update_electric_cpml` turns the auxiliary value 1 at the index (0, 0, 0) into
`1/2 * 1 + (-1/4) * 1 = 1/4` and adds `1/2 * 1 * 1/4` to `ex` at the cell
(0, 1, 0). -/
theorem cpml_3D_sign_convention_witness :
    (sample_ramp.cpml_thickness < UINTMAX_MOD ∧
      (∀ ax, sample_ramp.cpml_thickness + 1 ≤ size sample_ramp ax) ∧
      (∀ ax, size sample_ramp ax < UINTMAX_MOD) ∧ Axis.y ≠ Axis.x ∧
      flagSet (sample_ramp.border_condition (cpml_face Axis.y false)) border_cpml = true) ∧
    psi_E sample_ramp Axis.x Axis.y false (0, 0, 0) = 1 ∧
    psi_E (update_electric_cpml sample_ramp) Axis.x Axis.y false (0, 0, 0) = 1 / 4 ∧
    E_field (update_electric_cpml sample_ramp) Axis.x (0, 1, 0) =
      E_field sample_ramp Axis.x (0, 1, 0) + 1 / 2 * 1 * (1 / 4) :=
  have h := cpml_3D_sign_convention sample_ramp (by decide)
    (fun ax => by cases ax <;> decide) (fun ax => by cases ax <;> decide) Axis.x Axis.y false
    (by decide) (by decide)
  have hk : cpml_box sample_ramp Axis.y (0, 0, 0) := by
    unfold cpml_box inBox3
    decide
  have hp : psi_E (update_electric_cpml sample_ramp) Axis.x Axis.y false (0, 0, 0) = 1 / 4 :=
    (h.1.1.1 (0, 0, 0) hk).trans (by with_unfolding_all rfl)
  have hx : cpml_term_E sample_ramp (psi_E (update_electric_cpml sample_ramp)) Axis.x Axis.x
      (0, 1, 0) = 0 + 0 := by with_unfolding_all rfl
  have hy : cpml_term_E sample_ramp (psi_E (update_electric_cpml sample_ramp)) Axis.x Axis.y
      (0, 1, 0) = psi_E (update_electric_cpml sample_ramp) Axis.x Axis.y false (0, 0, 0) + 0 := by
    with_unfolding_all rfl
  have hz : cpml_term_E sample_ramp (psi_E (update_electric_cpml sample_ramp)) Axis.x Axis.z
      (0, 1, 0) = 0 + 0 := by with_unfolding_all rfl
  ⟨⟨by decide, fun ax => by cases ax <;> decide, fun ax => by cases ax <;> decide, by decide,
      by decide⟩, rfl, hp,
    (h.1.2.2.1 (0, 1, 0)).trans (by rw [hx, hy, hz, hp]; with_unfolding_all rfl)⟩

end D3

/-- C5: the grids built by `init_fdtd_2D_cpml` and `init_fdtd_3D_cpml` with thickness
`T >= 2` hold, at every index `k < T`, `bx[k] = b(T-1-k, T-1, dt, alpha_max, sigma_max)`
and `cx[k] = c(T-1-k, T-1, dt, alpha_max, sigma_max)` with
`alpha_max = 2 * pi * eps0 * dx * 0.1` and
`sigma_max = 0.8 * (4 + 1) / (dx * sqrt(mu0 / eps0))`: index 0 holds the coefficient
of the distance `T-1` (next to the outer wall), index `T-1` the one of distance 0; the
`y` and `z` vectors are the `x` vectors. -/
theorem cpml_coefficients_from_wall (ext : Extern) (domain_size : Nat → ℚ)
    (Sc smallest_wavelength : ℚ) (borders : Nat → Nat) (T k : Nat) (hT2 : 2 ≤ T)
    (hT : T < UINTMAX_MOD) (hk : k < T) :
    ((D2.init_fdtd_2D_cpml ext domain_size Sc smallest_wavelength borders T).bx k =
        b ext (T - 1 - k) (T - 1)
          (D2.init_fdtd_2D_cpml ext domain_size Sc smallest_wavelength borders T).dt
          (2 * M_PI * eps0 *
            (D2.init_fdtd_2D_cpml ext domain_size Sc smallest_wavelength borders T).dx * (1 / 10))
          ((8 / 10) * (4 + 1) /
            ((D2.init_fdtd_2D_cpml ext domain_size Sc smallest_wavelength borders T).dx *
              ext.sqrt (mu0 / eps0))) ∧
      (D2.init_fdtd_2D_cpml ext domain_size Sc smallest_wavelength borders T).cx k =
        c ext (T - 1 - k) (T - 1)
          (D2.init_fdtd_2D_cpml ext domain_size Sc smallest_wavelength borders T).dt
          (2 * M_PI * eps0 *
            (D2.init_fdtd_2D_cpml ext domain_size Sc smallest_wavelength borders T).dx * (1 / 10))
          ((8 / 10) * (4 + 1) /
            ((D2.init_fdtd_2D_cpml ext domain_size Sc smallest_wavelength borders T).dx *
              ext.sqrt (mu0 / eps0))) ∧
      (D2.init_fdtd_2D_cpml ext domain_size Sc smallest_wavelength borders T).by_ =
        (D2.init_fdtd_2D_cpml ext domain_size Sc smallest_wavelength borders T).bx ∧
      (D2.init_fdtd_2D_cpml ext domain_size Sc smallest_wavelength borders T).cy =
        (D2.init_fdtd_2D_cpml ext domain_size Sc smallest_wavelength borders T).cx) ∧
    ((D3.init_fdtd_3D_cpml ext domain_size Sc smallest_wavelength borders T).bx k =
        b ext (T - 1 - k) (T - 1)
          (D3.init_fdtd_3D_cpml ext domain_size Sc smallest_wavelength borders T).dt
          (2 * M_PI * eps0 *
            (D3.init_fdtd_3D_cpml ext domain_size Sc smallest_wavelength borders T).dx * (1 / 10))
          ((8 / 10) * (4 + 1) /
            ((D3.init_fdtd_3D_cpml ext domain_size Sc smallest_wavelength borders T).dx *
              ext.sqrt (mu0 / eps0))) ∧
      (D3.init_fdtd_3D_cpml ext domain_size Sc smallest_wavelength borders T).cx k =
        c ext (T - 1 - k) (T - 1)
          (D3.init_fdtd_3D_cpml ext domain_size Sc smallest_wavelength borders T).dt
          (2 * M_PI * eps0 *
            (D3.init_fdtd_3D_cpml ext domain_size Sc smallest_wavelength borders T).dx * (1 / 10))
          ((8 / 10) * (4 + 1) /
            ((D3.init_fdtd_3D_cpml ext domain_size Sc smallest_wavelength borders T).dx *
              ext.sqrt (mu0 / eps0))) ∧
      (D3.init_fdtd_3D_cpml ext domain_size Sc smallest_wavelength borders T).by_ =
        (D3.init_fdtd_3D_cpml ext domain_size Sc smallest_wavelength borders T).bx ∧
      (D3.init_fdtd_3D_cpml ext domain_size Sc smallest_wavelength borders T).bz =
        (D3.init_fdtd_3D_cpml ext domain_size Sc smallest_wavelength borders T).bx ∧
      (D3.init_fdtd_3D_cpml ext domain_size Sc smallest_wavelength borders T).cy =
        (D3.init_fdtd_3D_cpml ext domain_size Sc smallest_wavelength borders T).cx ∧
      (D3.init_fdtd_3D_cpml ext domain_size Sc smallest_wavelength borders T).cz =
        (D3.init_fdtd_3D_cpml ext domain_size Sc smallest_wavelength borders T).cx) := by
  have h1 : 1 ≤ T := le_trans (by decide) hT2
  obtain ⟨F2, C2⟩ := D2.init_fdtd_2D_cpml_coeff_frame ext T
    (D2.init_fdtd_2D_cpml_alloc domain_size Sc smallest_wavelength borders T)
  obtain ⟨F3, C3⟩ := D3.init_fdtd_3D_cpml_coeff_frame ext T
    (D3.init_fdtd_3D_cpml_alloc domain_size Sc smallest_wavelength borders T)
  have e2dt := congrArg D2.fdtd2D.dt F2
  have e2dx := congrArg D2.fdtd2D.dx F2
  have e3dt := congrArg D3.fdtd3D.dt F3
  have e3dx := congrArg D3.fdtd3D.dx F3
  dsimp only at e2dt e2dx e3dt e3dx
  refine ⟨⟨?_, ?_, rfl, rfl⟩, ⟨?_, ?_, rfl, rfl, rfl, rfl⟩⟩
  · unfold D2.init_fdtd_2D_cpml
    rw [e2dt, e2dx]
    exact (C2 k hT hk).1
  · unfold D2.init_fdtd_2D_cpml
    rw [e2dt, e2dx]
    exact (C2 k hT hk).2
  · unfold D3.init_fdtd_3D_cpml
    rw [e3dt, e3dx]
    exact (C3 k hT hk).1
  · unfold D3.init_fdtd_3D_cpml
    rw [e3dt, e3dx]
    exact (C3 k hT hk).2

/-- The coefficient theorem on the grid built with thickness 2, at index 0. -/
theorem cpml_coefficients_from_wall_witness :
    (2 ≤ 2 ∧ 2 < UINTMAX_MOD ∧ 0 < 2) ∧
    D2.sample_init.bx 0 =
      b sample_extern (2 - 1 - 0) (2 - 1) D2.sample_init.dt
        (2 * M_PI * eps0 * D2.sample_init.dx * (1 / 10))
        ((8 / 10) * (4 + 1) / (D2.sample_init.dx * sample_extern.sqrt (mu0 / eps0))) :=
  ⟨⟨by decide, by decide, by decide⟩,
    (cpml_coefficients_from_wall sample_extern (fun _ => 1) (1 / 2) 1 (fun _ => 4) 2 0
      (by decide) (by decide) (by decide)).1.1⟩

namespace D2

theorem advance_time_frame (x : fdtd2D) :
    (advance_time x).border_condition = x.border_condition ∧
      (advance_time x).sizeX = x.sizeX ∧ (advance_time x).sizeY = x.sizeY :=
  ⟨rfl, rfl, rfl⟩

theorem run_2D_iteration_frame (glob : Globals) (ext : Extern) (g : fdtd2D) :
    (run_2D_iteration glob ext g).border_condition = g.border_condition ∧
      (run_2D_iteration glob ext g).sizeX = g.sizeX ∧
      (run_2D_iteration glob ext g).sizeY = g.sizeY := by
  have h := run_2D_body_static glob ext g
  simp only [fdtd2D.static, Prod.mk.injEq] at h
  obtain ⟨-, -, -, -, -, -, -, -, hb, -, hsx, hsy, -⟩ := h
  obtain ⟨a1, a2, a3⟩ := advance_time_frame (run_2D_body glob ext g)
  rw [run_2D_iteration_unfold, a1, a2, a3]
  exact ⟨hb, hsx, hsy⟩

theorem run_2D_iterate_frame (glob : Globals) (ext : Extern) (g : fdtd2D) (n : Nat) :
    ((run_2D_iteration glob ext)^[n] g).border_condition = g.border_condition ∧
      ((run_2D_iteration glob ext)^[n] g).sizeX = g.sizeX ∧
      ((run_2D_iteration glob ext)^[n] g).sizeY = g.sizeY := by
  induction n with
  | zero => exact ⟨rfl, rfl, rfl⟩
  | succ n ih =>
    rw [Function.iterate_succ_apply']
    obtain ⟨h1, h2, h3⟩ := run_2D_iteration_frame glob ext ((run_2D_iteration glob ext)^[n] g)
    rw [h1, h2, h3]
    exact ih

/-- C6: for a 2D grid with `sizeX, sizeY >= 1`, whatever the sources and the
experimental flags, after every complete iteration of `run_2D_fdtd` (the grid after
`n + 1` iterations, for every `n`) the field `ez` is 0 on every cell of every face
whose flag includes perfect-electric-conductor: row 0 for south, row `sizeX - 1` for
north, column `sizeY - 1` for east, column 0 for west. -/
theorem ez_zero_on_conductor_faces (glob : Globals) (ext : Extern) (g : fdtd2D) (n : Nat)
    (hX : 1 ≤ g.sizeX) (hX2 : g.sizeX < UINTMAX_MOD) (hY : 1 ≤ g.sizeY)
    (hY2 : g.sizeY < UINTMAX_MOD) :
    (flagSet (g.border_condition border_south) border_perfect_electric_conductor = true →
      ∀ j, j < g.sizeY → ((run_2D_iteration glob ext)^[n + 1] g).ez (0, j) = 0) ∧
    (flagSet (g.border_condition border_north) border_perfect_electric_conductor = true →
      ∀ j, j < g.sizeY → ((run_2D_iteration glob ext)^[n + 1] g).ez (g.sizeX - 1, j) = 0) ∧
    (flagSet (g.border_condition border_east) border_perfect_electric_conductor = true →
      ∀ i, i < g.sizeX → ((run_2D_iteration glob ext)^[n + 1] g).ez (i, g.sizeY - 1) = 0) ∧
    (flagSet (g.border_condition border_west) border_perfect_electric_conductor = true →
      ∀ i, i < g.sizeX → ((run_2D_iteration glob ext)^[n + 1] g).ez (i, 0) = 0) := by
  obtain ⟨hb, hsx, hsy⟩ := run_2D_iterate_frame glob ext g n
  have h := run_2D_iteration_ez_zero glob ext ((run_2D_iteration glob ext)^[n] g)
    (hsx ▸ hX) (hsx ▸ hX2) (hsy ▸ hY) (hsy ▸ hY2)
  rw [hb, hsx, hsy] at h
  rw [Function.iterate_succ_apply']
  exact h

/-- The theorem on the sample grid whose south face is flagged
perfect-electric-conductor together with CPML, after one iteration. -/
theorem ez_zero_on_conductor_faces_witness :
    (1 ≤ (sample_grid (fun _ => 5)).sizeX ∧ (sample_grid (fun _ => 5)).sizeX < UINTMAX_MOD ∧
      1 ≤ (sample_grid (fun _ => 5)).sizeY ∧ (sample_grid (fun _ => 5)).sizeY < UINTMAX_MOD) ∧
    ((run_2D_iteration sample_globals sample_extern)^[0 + 1] (sample_grid (fun _ => 5))).ez
      (0, 2) = 0 :=
  ⟨⟨by decide, by decide, by decide, by decide⟩,
    (ez_zero_on_conductor_faces sample_globals sample_extern (sample_grid (fun _ => 5)) 0
      (by decide) (by decide) (by decide) (by decide)).1 (by decide) 2 (by decide)⟩

end D2

/-- C7: the code at a face flagged perfect-electric-conductor together with CPML.
On the 3D sample grid (every field value 1) whose front face carries the flag
`PEC | CPML`, `border_condition_electric` leaves `ex`, `ey`, `ez` at 1 on the layer
`k = 0`, whereas with the flag `PEC` alone it stores 0 there; in 2D the south face
with the flag `PEC | CPML` is zeroed. -/
theorem conductor_with_cpml_3D :
    Nat.lor border_perfect_electric_conductor border_cpml = 5 ∧
    (D3.border_condition_electric
      (D3.sample_grid (fun i => if i = D3.border_front then 5 else 0))).ex (0, 0, 0) = 1 ∧
    (D3.border_condition_electric
      (D3.sample_grid (fun i => if i = D3.border_front then 5 else 0))).ey (1, 2, 0) = 1 ∧
    (D3.border_condition_electric
      (D3.sample_grid (fun i => if i = D3.border_front then 5 else 0))).ez (2, 1, 0) = 1 ∧
    (D3.border_condition_electric
      (D3.sample_grid (fun i => if i = D3.border_front then 1 else 0))).ex (0, 0, 0) = 0 ∧
    (D2.border_condition_electric
      (D2.sample_grid (fun i => if i = D2.border_south then 5 else 0))).ez (0, 0) = 0 := by
  refine ⟨by decide, ?_, ?_, ?_, ?_, ?_⟩ <;> with_unfolding_all rfl

/-- C8: the code at faces flagged perfect-magnetic-conductor.  In 1D the flag zeroes
`hy` at the face.  In 2D and 3D, on the sample grids (every field value 1), a face
flagged perfect-magnetic-conductor keeps its magnetic values, and a face flagged
only perfect-electric-conductor has them zeroed. -/
theorem magnetic_conductor_flag :
    (D1.border_condition_magnetic (D1.sample_grid (fun i =>
      if i = D1.border_oneside then border_perfect_magnetic_conductor else 0))).hy 0 = 0 ∧
    (D2.border_condition_magnetic (D2.sample_grid (fun i =>
      if i = D2.border_south then border_perfect_magnetic_conductor else 0))).hx (0, 0) = 1 ∧
    (D2.border_condition_magnetic (D2.sample_grid (fun i =>
      if i = D2.border_south then border_perfect_magnetic_conductor else 0))).hy (0, 0) = 1 ∧
    (D2.border_condition_magnetic (D2.sample_grid (fun i =>
      if i = D2.border_south then border_perfect_electric_conductor else 0))).hx (0, 0) = 0 ∧
    (D3.border_condition_magnetic (D3.sample_grid (fun i =>
      if i = D3.border_front then border_perfect_magnetic_conductor else 0))).hx (0, 0, 0) = 1 ∧
    (D3.border_condition_magnetic (D3.sample_grid (fun i =>
      if i = D3.border_front then border_perfect_electric_conductor else 0))).hx (0, 0, 0) = 0 := by
  refine ⟨?_, ?_, ?_, ?_, ?_, ?_⟩ <;> with_unfolding_all rfl

/-- C9: the layers zeroed on a far face.  On the 3D sample grid (3 cells along every
axis, every field value 1) with the back, top or right face flagged so that
`border_condition_magnetic` acts on it, the layer `N-1 = 2` of the magnetic field is
zeroed and the layer `N-2 = 1` keeps the value 1; in 2D (4 cells along every axis)
the north face has both layers 3 and 2 zeroed, and the south face only layer 0. -/
theorem far_face_layers :
    (D3.border_condition_magnetic (D3.sample_grid (fun i =>
      if i = D3.border_back then 1 else 0))).hx (0, 0, 2) = 0 ∧
    (D3.border_condition_magnetic (D3.sample_grid (fun i =>
      if i = D3.border_back then 1 else 0))).hx (0, 0, 1) = 1 ∧
    (D3.border_condition_magnetic (D3.sample_grid (fun i =>
      if i = D3.border_top then 1 else 0))).hy (2, 0, 0) = 0 ∧
    (D3.border_condition_magnetic (D3.sample_grid (fun i =>
      if i = D3.border_top then 1 else 0))).hy (1, 0, 0) = 1 ∧
    (D3.border_condition_magnetic (D3.sample_grid (fun i =>
      if i = D3.border_right then 1 else 0))).hz (0, 2, 0) = 0 ∧
    (D3.border_condition_magnetic (D3.sample_grid (fun i =>
      if i = D3.border_right then 1 else 0))).hz (0, 1, 0) = 1 ∧
    (D2.border_condition_magnetic (D2.sample_grid (fun i =>
      if i = D2.border_north then 1 else 0))).hx (3, 0) = 0 ∧
    (D2.border_condition_magnetic (D2.sample_grid (fun i =>
      if i = D2.border_north then 1 else 0))).hx (2, 0) = 0 ∧
    (D2.border_condition_magnetic (D2.sample_grid (fun i =>
      if i = D2.border_south then 1 else 0))).hx (0, 0) = 0 ∧
    (D2.border_condition_magnetic (D2.sample_grid (fun i =>
      if i = D2.border_south then 1 else 0))).hx (1, 0) = 1 := by
  refine ⟨?_, ?_, ?_, ?_, ?_, ?_, ?_, ?_, ?_, ?_⟩ <;> with_unfolding_all rfl

/-- C10: for grids of the three dimensionalities with `dt > 0`, every start time and
every `end_time`, the run loop returns (given fuel for that many iterations) the
grid after exactly `max(0, ceil((end_time - t0) / dt))` iterations, its condition
holding before each of them; the final time is `t0 + n * dt >= end_time`; when
`t0 >= end_time` no iteration is performed and the grid is returned unchanged;
started at time 0 with the end time that `main` computes in iteration-count mode,
`n * dt`, it performs exactly `n` iterations. -/
theorem run_loop_iteration_count (glob : Globals) (ext : Extern) (g1 : D1.fdtd1D)
    (g2 : D2.fdtd2D) (g3 : D3.fdtd3D) (end_time : ℚ) (h1 : 0 < g1.dt) (h2 : 0 < g2.dt)
    (h3 : 0 < g3.dt) :
    run_loop_spec (D1.run_1D_fdtd ext) (D1.run_1D_iteration ext) D1.fdtd1D.time D1.fdtd1D.dt
      g1 end_time ∧
    run_loop_spec (D2.run_2D_fdtd glob ext) (D2.run_2D_iteration glob ext) D2.fdtd2D.time
      D2.fdtd2D.dt g2 end_time ∧
    run_loop_spec (D3.run_3D_fdtd ext) (D3.run_3D_iteration ext) D3.fdtd3D.time D3.fdtd3D.dt
      g3 end_time :=
  ⟨D1.run_1D_fdtd_spec ext g1 h1 end_time, D2.run_2D_fdtd_spec glob ext g2 h2 end_time,
    D3.run_3D_fdtd_spec ext g3 h3 end_time⟩

/-- The run loop theorem on the three sample grids (`dt = 1/2`, start time 0) with
end time 1. -/
theorem run_loop_iteration_count_witness :
    (0 < (D1.sample_grid (fun _ => 0)).dt ∧ 0 < (D2.sample_grid (fun _ => 0)).dt ∧
      0 < (D3.sample_grid (fun _ => 0)).dt) ∧
    run_loop_spec (D1.run_1D_fdtd sample_extern) (D1.run_1D_iteration sample_extern)
      D1.fdtd1D.time D1.fdtd1D.dt (D1.sample_grid (fun _ => 0)) 1 :=
  ⟨⟨by show (0 : ℚ) < 1 / 2; norm_num, by show (0 : ℚ) < 1 / 2; norm_num,
      by show (0 : ℚ) < 1 / 2; norm_num⟩,
    (run_loop_iteration_count sample_globals sample_extern (D1.sample_grid (fun _ => 0))
      (D2.sample_grid (fun _ => 0)) (D3.sample_grid (fun _ => 0)) 1
      (by show (0 : ℚ) < 1 / 2; norm_num) (by show (0 : ℚ) < 1 / 2; norm_num)
      (by show (0 : ℚ) < 1 / 2; norm_num)).1⟩

/-! ## Sources -/

theorem forLoop_one {σ : Type} (body : Nat → σ → σ) (s : σ) : forLoop 0 1 body s = body 0 s :=
  rfl

theorem unsigned_add_one {n : Nat} (h : n + 1 < UINT_MOD) : unsigned_add n 1 = n + 1 := by
  unfold unsigned_add
  exact Nat.mod_eq_of_lt h

theorem unsigned_sub_one {n : Nat} (h : n + 1 < UINT_MOD) : unsigned_sub (n + 1) 1 = n := by
  unfold unsigned_sub
  unfold UINT_MOD at *
  omega

theorem unsigned_last {n : Nat} (h : n + 1 < UINT_MOD) :
    unsigned_sub (unsigned_add n 1) 1 = n := by
  rw [unsigned_add_one h, unsigned_sub_one h]

/-- The value of a Gaussian pulse sampled at its delay is its peak. -/
theorem gaussian_pulse_val_at_delay (ext : Extern) (hexp : ext.exp 0 = 1) (D W P t : ℚ)
    (ht : t = D) : gaussian_pulse_val ext t (gaussian_source D W P) = P := by
  unfold gaussian_pulse_val gaussian_source
  simp [hexp, ht]

namespace D1

theorem apply_M_sources_single_1D (ext : Extern) (g : fdtd1D) (D W P : ℚ)
    (hexp : ext.exp 0 = 1) (hn : g.num_Msources = 1)
    (hs : g.Msources 0 = gaussian_source D W P) (ht : g.time = D) :
    apply_M_sources ext g =
      { g with hy := store g.hy (g.MsourceLocations 0) (g.hy (g.MsourceLocations 0) + P) } := by
  unfold apply_M_sources
  conv_lhs => rw [hn, forLoop_one]
  dsimp only
  rw [hs, gaussian_pulse_val_at_delay ext hexp D W P g.time ht]

theorem apply_J_sources_single_1D (ext : Extern) (g : fdtd1D) (D W P : ℚ)
    (hexp : ext.exp 0 = 1) (hn : g.num_Jsources = 1)
    (hs : g.Jsources 0 = gaussian_source D W P) (ht : g.time = D) :
    apply_J_sources ext g =
      { g with ez := store g.ez (g.JsourceLocations 0) (g.ez (g.JsourceLocations 0) + P) } := by
  unfold apply_J_sources
  conv_lhs => rw [hn, forLoop_one]
  dsimp only
  rw [hs, gaussian_pulse_val_at_delay ext hexp D W P g.time ht]

end D1

namespace D2

theorem apply_M_sources_single_2D (ext : Extern) (g : fdtd2D) (D W P : ℚ)
    (hexp : ext.exp 0 = 1) (hn : g.num_Msources = 1)
    (hs : g.Msources 0 = gaussian_source D W P) (ht : g.time = D) :
    apply_M_sources ext g =
      { g with
        hx := store g.hx (g.MsourceLocations (0, 0), g.MsourceLocations (0, 1))
          (g.hx (g.MsourceLocations (0, 0), g.MsourceLocations (0, 1)) + P),
        hy := store g.hy (g.MsourceLocations (0, 0), g.MsourceLocations (0, 1))
          (g.hy (g.MsourceLocations (0, 0), g.MsourceLocations (0, 1)) + P) } := by
  unfold apply_M_sources
  conv_lhs => rw [hn, forLoop_one]
  dsimp only
  rw [hs, gaussian_pulse_val_at_delay ext hexp D W P g.time ht]

theorem apply_J_sources_single_2D (ext : Extern) (g : fdtd2D) (D W P : ℚ)
    (hexp : ext.exp 0 = 1) (hn : g.num_Jsources = 1)
    (hs : g.Jsources 0 = gaussian_source D W P) (ht : g.time = D) :
    apply_J_sources ext g =
      { g with
        ez := store g.ez (g.JsourceLocations (0, 0), g.JsourceLocations (0, 1))
          (g.ez (g.JsourceLocations (0, 0), g.JsourceLocations (0, 1)) - P) } := by
  unfold apply_J_sources
  conv_lhs => rw [hn, forLoop_one]
  dsimp only
  rw [hs, gaussian_pulse_val_at_delay ext hexp D W P g.time ht]

end D2

namespace D3

theorem apply_M_sources_single_3D (ext : Extern) (g : fdtd3D) (D W P : ℚ)
    (hexp : ext.exp 0 = 1) (hn : g.num_Msources = 1)
    (hs : g.Msources 0 = gaussian_source D W P) (ht : g.time = D) :
    apply_M_sources ext g =
      { g with
        hy := store g.hy
          (g.MsourceLocations (0, 0), g.MsourceLocations (0, 1), g.MsourceLocations (0, 2))
          (g.hy (g.MsourceLocations (0, 0), g.MsourceLocations (0, 1),
            g.MsourceLocations (0, 2)) + P),
        hx := store g.hx
          (g.MsourceLocations (0, 0), g.MsourceLocations (0, 1), g.MsourceLocations (0, 2))
          (g.hx (g.MsourceLocations (0, 0), g.MsourceLocations (0, 1),
            g.MsourceLocations (0, 2)) + P),
        hz := store g.hz
          (g.MsourceLocations (0, 0), g.MsourceLocations (0, 1), g.MsourceLocations (0, 2))
          (g.hz (g.MsourceLocations (0, 0), g.MsourceLocations (0, 1),
            g.MsourceLocations (0, 2)) + P) } := by
  unfold apply_M_sources
  conv_lhs => rw [hn, forLoop_one]
  dsimp only
  rw [hs, gaussian_pulse_val_at_delay ext hexp D W P g.time ht]

end D3

theorem forLoop_succ {σ : Type} (n : Nat) (body : Nat → σ → σ) (s : σ) :
    forLoop 0 (n + 1) body s = body n (forLoop 0 n body s) := by
  unfold forLoop
  simp only [Nat.sub_zero]
  rw [List.range'_1_concat, List.foldl_append]
  simp

/-- One more source added to the sum of the pulses that reach a cell. -/
theorem accumulate_step {κ : Type} [DecidableEq κ] (loc : Nat → κ) (v : Nat → ℚ) (n : Nat)
    (a : κ → ℚ) :
    store (fun c => a c + ∑ i in Finset.range n, if loc i = c then v i else 0) (loc n)
        ((a (loc n) + ∑ i in Finset.range n, if loc i = loc n then v i else 0) + v n) =
      fun c => a c + ∑ i in Finset.range (n + 1), if loc i = c then v i else 0 := by
  funext c
  rw [Finset.sum_range_succ]
  by_cases hc : c = loc n
  · subst hc
    rw [store_same, if_pos rfl]
    ring
  · rw [store_other _ _ _ _ hc, if_neg (fun h => hc h.symm)]
    ring

/-- A loop whose iteration `i` adds `v i` to the cell `loc i` of one member array. -/
theorem forLoop_accumulate {σ κ : Type} [DecidableEq κ] (emb : (κ → ℚ) → σ)
    (body : Nat → σ → σ) (loc : Nat → κ) (v : Nat → ℚ)
    (h : ∀ k a, body k (emb a) = emb (store a (loc k) (a (loc k) + v k))) (n : Nat)
    (a : κ → ℚ) :
    forLoop 0 n body (emb a) =
      emb (fun c => a c + ∑ i in Finset.range n, if loc i = c then v i else 0) := by
  induction n with
  | zero => simp [forLoop]
  | succ n ih => rw [forLoop_succ, ih, h, accumulate_step]

/-- A loop whose iteration `i` adds `v i` to the cell `loc i` of two member arrays. -/
theorem forLoop_accumulate2 {σ κ : Type} [DecidableEq κ] (emb : (κ → ℚ) × (κ → ℚ) → σ)
    (body : Nat → σ → σ) (loc : Nat → κ) (v : Nat → ℚ)
    (h : ∀ k p, body k (emb p) =
      emb (store p.1 (loc k) (p.1 (loc k) + v k), store p.2 (loc k) (p.2 (loc k) + v k)))
    (n : Nat) (p : (κ → ℚ) × (κ → ℚ)) :
    forLoop 0 n body (emb p) =
      emb (fun c => p.1 c + ∑ i in Finset.range n, if loc i = c then v i else 0,
        fun c => p.2 c + ∑ i in Finset.range n, if loc i = c then v i else 0) := by
  induction n with
  | zero => simp [forLoop]
  | succ n ih =>
    rw [forLoop_succ, ih, h]
    dsimp only
    rw [accumulate_step, accumulate_step]

/-- A loop whose iteration `i` adds `v i` to the cell `loc i` of three member arrays. -/
theorem forLoop_accumulate3 {σ κ : Type} [DecidableEq κ]
    (emb : (κ → ℚ) × (κ → ℚ) × (κ → ℚ) → σ)
    (body : Nat → σ → σ) (loc : Nat → κ) (v : Nat → ℚ)
    (h : ∀ k p, body k (emb p) =
      emb (store p.1 (loc k) (p.1 (loc k) + v k), store p.2.1 (loc k) (p.2.1 (loc k) + v k),
        store p.2.2 (loc k) (p.2.2 (loc k) + v k)))
    (n : Nat) (p : (κ → ℚ) × (κ → ℚ) × (κ → ℚ)) :
    forLoop 0 n body (emb p) =
      emb (fun c => p.1 c + ∑ i in Finset.range n, if loc i = c then v i else 0,
        fun c => p.2.1 c + ∑ i in Finset.range n, if loc i = c then v i else 0,
        fun c => p.2.2 c + ∑ i in Finset.range n, if loc i = c then v i else 0) := by
  induction n with
  | zero => simp [forLoop]
  | succ n ih =>
    rw [forLoop_succ, ih, h]
    dsimp only
    rw [accumulate_step, accumulate_step, accumulate_step]

/-- A sum over the first `n` indices does not depend on their order. -/
theorem sum_range_perm (σ : Equiv.Perm Nat) (n : Nat) (hσ : ∀ i, n ≤ i → σ i = i)
    (F : Nat → ℚ) : ∑ i in Finset.range n, F (σ i) = ∑ i in Finset.range n, F i := by
  refine Equiv.Perm.sum_comp σ (Finset.range n) F ?_
  intro a ha
  simp only [Set.mem_setOf_eq] at ha
  simp only [Finset.coe_range, Set.mem_Iio]
  by_contra hlt
  exact ha (hσ a (not_lt.mp hlt))

namespace D1

/-- The grid after `apply_M_sources`: every cell of the target arrays has received
the sum of the pulses of the sources whose location the function resolves to it. -/
theorem apply_M_sources_sum_1D (ext : Extern) (g : fdtd1D) :
    apply_M_sources ext g =
      { g with
        hy := fun c => g.hy c + ∑ i in Finset.range g.num_Msources,
          if g.MsourceLocations i = c then gaussian_pulse_val ext g.time (g.Msources i) else 0 } := by
  unfold apply_M_sources
  refine forLoop_accumulate (fun a => ({ g with hy := a } : fdtd1D)) _
    (fun i => g.MsourceLocations i)
    (fun i => gaussian_pulse_val ext g.time (g.Msources i))
    ?_ g.num_Msources g.hy
  intro k a
  rfl

/-- The grid after `apply_J_sources`: every cell of the target arrays has received
the sum of the pulses of the sources whose location the function resolves to it. -/
theorem apply_J_sources_sum_1D (ext : Extern) (g : fdtd1D) :
    apply_J_sources ext g =
      { g with
        ez := fun c => g.ez c + ∑ i in Finset.range g.num_Jsources,
          if g.JsourceLocations i = c then gaussian_pulse_val ext g.time (g.Jsources i) else 0 } := by
  unfold apply_J_sources
  refine forLoop_accumulate (fun a => ({ g with ez := a } : fdtd1D)) _
    (fun i => g.JsourceLocations i)
    (fun i => gaussian_pulse_val ext g.time (g.Jsources i))
    ?_ g.num_Jsources g.ez
  intro k a
  rfl

end D1

namespace D2

/-- The grid after `apply_M_sources`: every cell of the target arrays has received
the sum of the pulses of the sources whose location the function resolves to it. -/
theorem apply_M_sources_sum_2D (ext : Extern) (g : fdtd2D) :
    apply_M_sources ext g =
      { g with
        hx := fun c => g.hx c + ∑ i in Finset.range g.num_Msources,
          if (g.MsourceLocations (i, 0), g.MsourceLocations (i, 1)) = c then gaussian_pulse_val ext g.time (g.Msources i) else 0,
        hy := fun c => g.hy c + ∑ i in Finset.range g.num_Msources,
          if (g.MsourceLocations (i, 0), g.MsourceLocations (i, 1)) = c then gaussian_pulse_val ext g.time (g.Msources i) else 0 } := by
  unfold apply_M_sources
  refine forLoop_accumulate2 (fun p : (Nat × Nat → ℚ) × (Nat × Nat → ℚ) =>
      ({ g with hx := p.1, hy := p.2 } : fdtd2D)) _
    (fun i => (g.MsourceLocations (i, 0), g.MsourceLocations (i, 1)))
    (fun i => gaussian_pulse_val ext g.time (g.Msources i))
    ?_ g.num_Msources (g.hx, g.hy)
  intro k a
  rfl

/-- The grid after `apply_J_sources`: every cell of the target arrays has received
the sum of the pulses of the sources whose location the function resolves to it. -/
theorem apply_J_sources_sum_2D (ext : Extern) (g : fdtd2D) :
    apply_J_sources ext g =
      { g with
        ez := fun c => g.ez c + ∑ i in Finset.range g.num_Jsources,
          if (g.JsourceLocations (i, 0), g.JsourceLocations (i, 1)) = c then -gaussian_pulse_val ext g.time (g.Jsources i) else 0 } := by
  unfold apply_J_sources
  refine forLoop_accumulate (fun a => ({ g with ez := a } : fdtd2D)) _
    (fun i => (g.JsourceLocations (i, 0), g.JsourceLocations (i, 1)))
    (fun i => -gaussian_pulse_val ext g.time (g.Jsources i))
    ?_ g.num_Jsources g.ez
  intro k a
  simp only [sub_eq_add_neg]

end D2

namespace D3

/-- The grid after `apply_M_sources`: every cell of the target arrays has received
the sum of the pulses of the sources whose location the function resolves to it. -/
theorem apply_M_sources_sum_3D (ext : Extern) (g : fdtd3D) :
    apply_M_sources ext g =
      { g with
        hy := fun c => g.hy c + ∑ i in Finset.range g.num_Msources,
          if (g.MsourceLocations (i, 0), g.MsourceLocations (i, 1), g.MsourceLocations (i, 2)) = c then gaussian_pulse_val ext g.time (g.Msources i) else 0,
        hx := fun c => g.hx c + ∑ i in Finset.range g.num_Msources,
          if (g.MsourceLocations (i, 0), g.MsourceLocations (i, 1), g.MsourceLocations (i, 2)) = c then gaussian_pulse_val ext g.time (g.Msources i) else 0,
        hz := fun c => g.hz c + ∑ i in Finset.range g.num_Msources,
          if (g.MsourceLocations (i, 0), g.MsourceLocations (i, 1), g.MsourceLocations (i, 2)) = c then gaussian_pulse_val ext g.time (g.Msources i) else 0 } := by
  unfold apply_M_sources
  refine forLoop_accumulate3 (fun p : Arr3 × Arr3 × Arr3 =>
      ({ g with hy := p.1, hx := p.2.1, hz := p.2.2 } : fdtd3D)) _
    (fun i => (g.MsourceLocations (i, 0), g.MsourceLocations (i, 1), g.MsourceLocations (i, 2)))
    (fun i => gaussian_pulse_val ext g.time (g.Msources i))
    ?_ g.num_Msources (g.hy, g.hx, g.hz)
  intro k a
  rfl

/-- The grid after `apply_J_sources`: every cell of the target arrays has received
the sum of the pulses of the sources whose location the function resolves to it. -/
theorem apply_J_sources_sum_3D (ext : Extern) (g : fdtd3D) :
    apply_J_sources ext g =
      { g with
        ex := fun c => g.ex c + ∑ i in Finset.range g.num_Jsources,
          if (g.JsourceLocations (i, 0), g.JsourceLocations (i, 1), g.JsourceLocations (i, 1)) = c then gaussian_pulse_val ext g.time (g.Jsources i) else 0,
        ey := fun c => g.ey c + ∑ i in Finset.range g.num_Jsources,
          if (g.JsourceLocations (i, 0), g.JsourceLocations (i, 1), g.JsourceLocations (i, 1)) = c then gaussian_pulse_val ext g.time (g.Jsources i) else 0,
        ez := fun c => g.ez c + ∑ i in Finset.range g.num_Jsources,
          if (g.JsourceLocations (i, 0), g.JsourceLocations (i, 1), g.JsourceLocations (i, 1)) = c then gaussian_pulse_val ext g.time (g.Jsources i) else 0 } := by
  unfold apply_J_sources
  refine forLoop_accumulate3 (fun p : Arr3 × Arr3 × Arr3 =>
      ({ g with ex := p.1, ey := p.2.1, ez := p.2.2 } : fdtd3D)) _
    (fun i => (g.JsourceLocations (i, 0), g.JsourceLocations (i, 1), g.JsourceLocations (i, 1)))
    (fun i => gaussian_pulse_val ext g.time (g.Jsources i))
    ?_ g.num_Jsources (g.ex, g.ey, g.ez)
  intro k a
  rfl

end D3

/-! ## Source registration -/

theorem runLoop_proj {σ α : Type} (time : σ → ℚ) (body advance : σ → σ) (end_time : ℚ)
    (proj : σ → α) (h : ∀ s, proj (advance (body s)) = proj s) :
    ∀ (fuel : Nat) (s s2 : σ), runLoop time body advance end_time fuel s = some s2 →
      proj s2 = proj s := by
  intro fuel
  induction fuel with
  | zero =>
    intro s s2 hr
    unfold runLoop at hr
    by_cases hc : time s < end_time
    · rw [if_pos hc] at hr
      cases hr
    · rw [if_neg hc] at hr
      cases hr
      rfl
  | succ n ih =>
    intro s s2 hr
    rw [runLoop_unfold] at hr
    by_cases hc : time s < end_time
    · rw [if_pos hc] at hr
      exact (ih _ _ hr).trans (h s)
    · rw [if_neg hc] at hr
      cases hr
      rfl

theorem to_uintmax_cast_1D {z : Int} (h0 : 0 ≤ z) (h1 : z < UINTMAX_MOD) :
    ((D1.to_uintmax z : Nat) : Int) = z := by
  unfold D1.to_uintmax
  unfold UINTMAX_MOD at *
  omega

theorem to_uintmax_cast_2D {z : Int} (h0 : 0 ≤ z) (h1 : z < UINTMAX_MOD) :
    ((D2.to_uintmax z : Nat) : Int) = z := by
  unfold D2.to_uintmax
  unfold UINTMAX_MOD at *
  omega

theorem to_uintmax_cast_3D {z : Int} (h0 : 0 ≤ z) (h1 : z < UINTMAX_MOD) :
    ((D3.to_uintmax z : Nat) : Int) = z := by
  unfold D3.to_uintmax
  unfold UINTMAX_MOD at *
  omega

namespace D1

theorem add_source_electric_1D (g : fdtd1D) (src : fdtd_source) (position : ℚ)
    (h : g.num_Jsources + 1 < UINT_MOD) :
    add_source_fdtd_1D source_type.source_electric g src position =
      { g with
        num_Jsources := g.num_Jsources + 1,
        JsourceLocations := store g.JsourceLocations g.num_Jsources
          (to_uintmax ⌈position / g.dx⌉),
        Jsources := store g.Jsources g.num_Jsources src } := by
  unfold add_source_fdtd_1D
  dsimp only
  rw [unsigned_last h, unsigned_add_one h]

theorem add_source_magnetic_1D (g : fdtd1D) (src : fdtd_source) (position : ℚ)
    (h : g.num_Msources + 1 < UINT_MOD) :
    add_source_fdtd_1D source_type.source_magnetic g src position =
      { g with
        num_Msources := g.num_Msources + 1,
        MsourceLocations := store g.MsourceLocations g.num_Msources
          (to_uintmax ⌈position / g.dx⌉),
        Msources := store g.Msources g.num_Msources src } := by
  unfold add_source_fdtd_1D
  dsimp only
  rw [unsigned_last h, unsigned_add_one h]

end D1

namespace D2

theorem add_source_electric_2D (g : fdtd2D) (src : fdtd_source) (x y : ℚ)
    (h : g.num_Jsources + 1 < UINT_MOD) :
    add_source_fdtd_2D source_type.source_electric g src x y =
      if to_uintmax ⌊x / g.dx⌋ ≥ g.sizeX ∨ to_uintmax ⌊y / g.dy⌋ ≥ g.sizeY then none
      else some { g with
        num_Jsources := g.num_Jsources + 1,
        JsourceLocations := store (store g.JsourceLocations (g.num_Jsources, 0)
          (to_uintmax ⌊x / g.dx⌋)) (g.num_Jsources, 1) (to_uintmax ⌊y / g.dy⌋),
        Jsources := store g.Jsources g.num_Jsources src } := by
  unfold add_source_fdtd_2D
  dsimp only
  rw [unsigned_last h, unsigned_add_one h]
  by_cases h1 : to_uintmax ⌊x / g.dx⌋ ≥ g.sizeX
  · rw [if_pos h1, if_pos (Or.inl h1)]
  · by_cases h2 : to_uintmax ⌊y / g.dy⌋ ≥ g.sizeY
    · rw [if_neg h1, if_pos h2, if_pos (Or.inr h2)]
    · rw [if_neg h1, if_neg h2, if_neg (not_or.mpr ⟨h1, h2⟩)]

theorem add_source_magnetic_2D (g : fdtd2D) (src : fdtd_source) (x y : ℚ)
    (h : g.num_Msources + 1 < UINT_MOD) :
    add_source_fdtd_2D source_type.source_magnetic g src x y =
      if to_uintmax ⌊x / g.dx⌋ ≥ g.sizeX ∨ to_uintmax ⌊y / g.dy⌋ ≥ g.sizeY then none
      else some { g with
        num_Msources := g.num_Msources + 1,
        MsourceLocations := store (store g.MsourceLocations (g.num_Msources, 0)
          (to_uintmax ⌊x / g.dx⌋)) (g.num_Msources, 1) (to_uintmax ⌊y / g.dy⌋),
        Msources := store g.Msources g.num_Msources src } := by
  unfold add_source_fdtd_2D
  dsimp only
  rw [unsigned_last h, unsigned_add_one h]
  by_cases h1 : to_uintmax ⌊x / g.dx⌋ ≥ g.sizeX
  · rw [if_pos h1, if_pos (Or.inl h1)]
  · by_cases h2 : to_uintmax ⌊y / g.dy⌋ ≥ g.sizeY
    · rw [if_neg h1, if_pos h2, if_pos (Or.inr h2)]
    · rw [if_neg h1, if_neg h2, if_neg (not_or.mpr ⟨h1, h2⟩)]

end D2

namespace D3

theorem add_source_electric_3D (g : fdtd3D) (src : fdtd_source) (x y z : ℚ)
    (h : g.num_Jsources + 1 < UINT_MOD) :
    add_source_fdtd_3D source_type.source_electric g src x y z =
      { g with
        num_Jsources := g.num_Jsources + 1,
        JsourceLocations := store (store (store g.JsourceLocations (g.num_Jsources, 0)
          (to_uintmax ⌈x / g.dx⌉)) (g.num_Jsources, 1) (to_uintmax ⌈y / g.dy⌉))
          (g.num_Jsources, 2) (to_uintmax ⌈z / g.dz⌉),
        Jsources := store g.Jsources g.num_Jsources src } := by
  unfold add_source_fdtd_3D
  dsimp only
  rw [unsigned_last h, unsigned_add_one h]

theorem add_source_magnetic_3D (g : fdtd3D) (src : fdtd_source) (x y z : ℚ)
    (h : g.num_Msources + 1 < UINT_MOD) :
    add_source_fdtd_3D source_type.source_magnetic g src x y z =
      { g with
        num_Msources := g.num_Msources + 1,
        MsourceLocations := store (store (store g.MsourceLocations (g.num_Msources, 0)
          (to_uintmax ⌈x / g.dx⌉)) (g.num_Msources, 1) (to_uintmax ⌈y / g.dy⌉))
          (g.num_Msources, 2) (to_uintmax ⌈z / g.dz⌉),
        Msources := store g.Msources g.num_Msources src } := by
  unfold add_source_fdtd_3D
  dsimp only
  rw [unsigned_last h, unsigned_add_one h]

end D3

/-! ## What an iteration and the medium initialisation leave unchanged -/

namespace D1

theorem advance_time_static_1D (x y : fdtd1D) (h : x.static = y.static) :
    (advance_time x).static = (advance_time y).static := by
  unfold fdtd1D.static at h ⊢
  unfold advance_time
  simp only [Prod.mk.injEq] at h ⊢
  obtain ⟨h0, h1, h2, h3, h4, h5, h6, h7, h8, h9, h10, h11, h12, h13, h14⟩ := h
  refine ⟨h0, h1, h2, h3, h4, h5, h6, h7, h8, h9, h10, h11, h12, h13, ?_⟩
  rw [h14, h1]

/-- One iteration changes no member of the grid other than the field arrays, the
auxiliary arrays and the time, which advances by `dt`. -/
theorem run_1D_iteration_static (ext : Extern) (g : fdtd1D) :
    (run_1D_iteration ext g).static = (advance_time g).static := by
  rw [run_1D_iteration_unfold]
  exact advance_time_static_1D _ _ (run_1D_body_static ext g)

theorem run_1D_iteration_counts (ext : Extern) (g : fdtd1D) :
    (run_1D_iteration ext g).num_Jsources = g.num_Jsources ∧
      (run_1D_iteration ext g).num_Msources = g.num_Msources := by
  have h := run_1D_iteration_static ext g
  unfold fdtd1D.static at h
  simp only [Prod.mk.injEq] at h
  obtain ⟨h0, h1, h2, h3, h4, h5, h6, h7, h8, h9, h10, h11, h12, h13, h14⟩ := h
  exact ⟨h8, h11⟩

/-- The grid returned by `run_1D_fdtd` has the source counts of the grid it was
given. -/
theorem run_1D_fdtd_counts (ext : Extern) (fuel : Nat) (g g2 : fdtd1D)
    (end_time : ℚ) (h : run_1D_fdtd ext fuel g end_time = some g2) :
    g2.num_Jsources = g.num_Jsources ∧ g2.num_Msources = g.num_Msources := by
  have hp := runLoop_proj fdtd1D.time (run_1D_body ext) advance_time end_time
    (fun s : fdtd1D => (s.num_Jsources, s.num_Msources))
    (fun s => by
      have hc := run_1D_iteration_counts ext s
      rw [run_1D_iteration_unfold] at hc
      show ((advance_time (run_1D_body ext s)).num_Jsources,
          (advance_time (run_1D_body ext s)).num_Msources) =
        (s.num_Jsources, s.num_Msources)
      rw [hc.1, hc.2]) fuel g g2 h
  simp only [Prod.mk.injEq] at hp
  exact hp

theorem init_fdtd_1D_medium_frame (muR epsR : ℚ → ℚ) (g : fdtd1D) :
    (fun s : fdtd1D => (s.dx, s.dt, s.ez, s.hy, s.border_condition, s.domain_size, s.sizeX,
        s.Sc, s.num_Jsources, s.Jsources, s.JsourceLocations, s.num_Msources, s.Msources,
        s.MsourceLocations, s.time)) (init_fdtd_1D_medium muR epsR g) =
      (g.dx, g.dt, g.ez, g.hy, g.border_condition, g.domain_size, g.sizeX,
        g.Sc, g.num_Jsources, g.Jsources, g.JsourceLocations, g.num_Msources, g.Msources,
        g.MsourceLocations, g.time) := by
  unfold init_fdtd_1D_medium
  refine forLoop_proj_fst (fun s : fdtd1D => (s.dx, s.dt, s.ez, s.hy, s.border_condition,
    s.domain_size, s.sizeX, s.Sc, s.num_Jsources, s.Jsources, s.JsourceLocations,
    s.num_Msources, s.Msources, s.MsourceLocations, s.time)) 0 g.sizeX _
    (fun i st => ?_) (g, 0)
  rfl

end D1

namespace D2

theorem advance_time_static_2D (x y : fdtd2D) (h : x.static = y.static) :
    (advance_time x).static = (advance_time y).static := by
  unfold fdtd2D.static at h ⊢
  unfold advance_time
  simp only [Prod.mk.injEq] at h ⊢
  obtain ⟨h0, h1, h2, h3, h4, h5, h6, h7, h8, h9, h10, h11, h12, h13, h14, h15, h16, h17, h18, h19⟩ := h
  refine ⟨h0, h1, h2, h3, h4, h5, h6, h7, h8, h9, h10, h11, h12, h13, h14, h15, h16, h17, h18, ?_⟩
  rw [h19, h2]

/-- One iteration changes no member of the grid other than the field arrays, the
auxiliary arrays and the time, which advances by `dt`. -/
theorem run_2D_iteration_static (glob : Globals) (ext : Extern) (g : fdtd2D) :
    (run_2D_iteration glob ext g).static = (advance_time g).static := by
  rw [run_2D_iteration_unfold]
  exact advance_time_static_2D _ _ (run_2D_body_static glob ext g)

theorem run_2D_iteration_counts (glob : Globals) (ext : Extern) (g : fdtd2D) :
    (run_2D_iteration glob ext g).num_Jsources = g.num_Jsources ∧
      (run_2D_iteration glob ext g).num_Msources = g.num_Msources := by
  have h := run_2D_iteration_static glob ext g
  unfold fdtd2D.static at h
  simp only [Prod.mk.injEq] at h
  obtain ⟨h0, h1, h2, h3, h4, h5, h6, h7, h8, h9, h10, h11, h12, h13, h14, h15, h16, h17, h18, h19⟩ := h
  exact ⟨h13, h16⟩

/-- The grid returned by `run_2D_fdtd` has the source counts of the grid it was
given. -/
theorem run_2D_fdtd_counts (glob : Globals) (ext : Extern) (fuel : Nat) (g g2 : fdtd2D)
    (end_time : ℚ) (h : run_2D_fdtd glob ext fuel g end_time = some g2) :
    g2.num_Jsources = g.num_Jsources ∧ g2.num_Msources = g.num_Msources := by
  have hp := runLoop_proj fdtd2D.time (run_2D_body glob ext) advance_time end_time
    (fun s : fdtd2D => (s.num_Jsources, s.num_Msources))
    (fun s => by
      have hc := run_2D_iteration_counts glob ext s
      rw [run_2D_iteration_unfold] at hc
      show ((advance_time (run_2D_body glob ext s)).num_Jsources,
          (advance_time (run_2D_body glob ext s)).num_Msources) =
        (s.num_Jsources, s.num_Msources)
      rw [hc.1, hc.2]) fuel g g2 h
  simp only [Prod.mk.injEq] at hp
  exact hp

theorem init_fdtd_2D_medium_frame (muR epsR : ℚ → ℚ → ℚ) (g : fdtd2D) :
    (fun s : fdtd2D => (s.dx, s.dy, s.dt, s.ez, s.hx, s.hy, s.border_condition, s.sizeX,
        s.sizeY, s.num_Jsources, s.Jsources, s.JsourceLocations, s.num_Msources, s.Msources,
        s.MsourceLocations, s.time)) (init_fdtd_2D_medium muR epsR g) =
      (g.dx, g.dy, g.dt, g.ez, g.hx, g.hy, g.border_condition, g.sizeX,
        g.sizeY, g.num_Jsources, g.Jsources, g.JsourceLocations, g.num_Msources, g.Msources,
        g.MsourceLocations, g.time) := by
  unfold init_fdtd_2D_medium
  refine forLoop_proj_fst (fun s : fdtd2D => (s.dx, s.dy, s.dt, s.ez, s.hx, s.hy,
    s.border_condition, s.sizeX, s.sizeY, s.num_Jsources, s.Jsources, s.JsourceLocations,
    s.num_Msources, s.Msources, s.MsourceLocations, s.time)) 0 g.sizeX _
    (fun i st => ?_) (g, 0)
  refine forLoop_proj_fst (fun s : fdtd2D => (s.dx, s.dy, s.dt, s.ez, s.hx, s.hy,
    s.border_condition, s.sizeX, s.sizeY, s.num_Jsources, s.Jsources, s.JsourceLocations,
    s.num_Msources, s.Msources, s.MsourceLocations, s.time)) 0 g.sizeY _
    (fun j su => ?_) (st.1, 0)
  rfl

end D2

namespace D3

theorem advance_time_static_3D (x y : fdtd3D) (h : x.static = y.static) :
    (advance_time x).static = (advance_time y).static := by
  unfold fdtd3D.static at h ⊢
  unfold advance_time
  simp only [Prod.mk.injEq] at h ⊢
  obtain ⟨h0, h1, h2, h3, h4, h5, h6, h7, h8, h9, h10, h11, h12, h13, h14, h15, h16, h17, h18, h19, h20, h21⟩ := h
  refine ⟨h0, h1, h2, h3, h4, h5, h6, h7, h8, h9, h10, h11, h12, h13, h14, h15, h16, h17, h18, h19, h20, ?_⟩
  rw [h21, h3]

/-- One iteration changes no member of the grid other than the field arrays, the
auxiliary arrays and the time, which advances by `dt`. -/
theorem run_3D_iteration_static (ext : Extern) (g : fdtd3D) :
    (run_3D_iteration ext g).static = (advance_time g).static := by
  rw [run_3D_iteration_unfold]
  exact advance_time_static_3D _ _ (run_3D_body_static ext g)

theorem run_3D_iteration_counts (ext : Extern) (g : fdtd3D) :
    (run_3D_iteration ext g).num_Jsources = g.num_Jsources ∧
      (run_3D_iteration ext g).num_Msources = g.num_Msources := by
  have h := run_3D_iteration_static ext g
  unfold fdtd3D.static at h
  simp only [Prod.mk.injEq] at h
  obtain ⟨h0, h1, h2, h3, h4, h5, h6, h7, h8, h9, h10, h11, h12, h13, h14, h15, h16, h17, h18, h19, h20, h21⟩ := h
  exact ⟨h15, h18⟩

/-- The grid returned by `run_3D_fdtd` has the source counts of the grid it was
given. -/
theorem run_3D_fdtd_counts (ext : Extern) (fuel : Nat) (g g2 : fdtd3D)
    (end_time : ℚ) (h : run_3D_fdtd ext fuel g end_time = some g2) :
    g2.num_Jsources = g.num_Jsources ∧ g2.num_Msources = g.num_Msources := by
  have hp := runLoop_proj fdtd3D.time (run_3D_body ext) advance_time end_time
    (fun s : fdtd3D => (s.num_Jsources, s.num_Msources))
    (fun s => by
      have hc := run_3D_iteration_counts ext s
      rw [run_3D_iteration_unfold] at hc
      show ((advance_time (run_3D_body ext s)).num_Jsources,
          (advance_time (run_3D_body ext s)).num_Msources) =
        (s.num_Jsources, s.num_Msources)
      rw [hc.1, hc.2]) fuel g g2 h
  simp only [Prod.mk.injEq] at hp
  exact hp

theorem init_fdtd_3D_medium_frame (muR epsR : ℚ → ℚ → ℚ → ℚ) (g : fdtd3D) :
    (fun s : fdtd3D => (s.dx, s.dy, s.dz, s.dt, s.ex, s.ey, s.ez, s.hx, s.hy, s.hz,
        s.border_condition, s.sizeX, s.sizeY, s.sizeZ, s.num_Jsources, s.Jsources,
        s.JsourceLocations, s.num_Msources, s.Msources, s.MsourceLocations, s.time))
        (init_fdtd_3D_medium muR epsR g) =
      (g.dx, g.dy, g.dz, g.dt, g.ex, g.ey, g.ez, g.hx, g.hy, g.hz,
        g.border_condition, g.sizeX, g.sizeY, g.sizeZ, g.num_Jsources, g.Jsources,
        g.JsourceLocations, g.num_Msources, g.Msources, g.MsourceLocations, g.time) := by
  unfold init_fdtd_3D_medium
  refine forLoop_proj_fst (fun s : fdtd3D => (s.dx, s.dy, s.dz, s.dt, s.ex, s.ey, s.ez,
    s.hx, s.hy, s.hz, s.border_condition, s.sizeX, s.sizeY, s.sizeZ, s.num_Jsources,
    s.Jsources, s.JsourceLocations, s.num_Msources, s.Msources, s.MsourceLocations, s.time))
    0 g.sizeX _ (fun i st => ?_) (g, 0)
  refine forLoop_proj_fst (fun s : fdtd3D => (s.dx, s.dy, s.dz, s.dt, s.ex, s.ey, s.ez,
    s.hx, s.hy, s.hz, s.border_condition, s.sizeX, s.sizeY, s.sizeZ, s.num_Jsources,
    s.Jsources, s.JsourceLocations, s.num_Msources, s.Msources, s.MsourceLocations, s.time))
    0 g.sizeY _ (fun j su => ?_) (st.1, 0)
  refine forLoop_proj_fst (fun s : fdtd3D => (s.dx, s.dy, s.dz, s.dt, s.ex, s.ey, s.ez,
    s.hx, s.hy, s.hz, s.border_condition, s.sizeX, s.sizeY, s.sizeZ, s.num_Jsources,
    s.Jsources, s.JsourceLocations, s.num_Msources, s.Msources, s.MsourceLocations, s.time))
    0 g.sizeZ _ (fun k sv => ?_) (su.1, 0)
  rfl

end D3

/-! ## Registration of sources in 2D -/

theorem unsigned_add_le (n : Nat) : unsigned_add n 1 ≤ n + 1 := by
  unfold unsigned_add
  exact Nat.mod_le _ _

theorem unsigned_add_lt (n : Nat) : unsigned_add n 1 < UINT_MOD := by
  unfold unsigned_add
  exact Nat.mod_lt _ (by unfold UINT_MOD; norm_num)

theorem unsigned_sub_pred {m : Nat} (h0 : 0 < m) (h1 : m < UINT_MOD) :
    unsigned_sub m 1 = m - 1 := by
  unfold unsigned_sub
  unfold UINT_MOD at *
  omega

/-- An index below the incremented count, other than the last one, was below the count
before the increment. -/
theorem unsigned_index_old {n i : Nat} (hi : i < unsigned_add n 1)
    (hne : i ≠ unsigned_sub (unsigned_add n 1) 1) : i < n := by
  have hle := unsigned_add_le n
  have hlt := unsigned_add_lt n
  have h0 : 0 < unsigned_add n 1 := Nat.lt_of_le_of_lt (Nat.zero_le _) hi
  rw [unsigned_sub_pred h0 hlt] at hne
  omega

namespace D2

/-- The two tests of `add_source_fdtd_2D` come before any write: the call exits exactly
when one of the converted positions is not below the size. -/
theorem add_source_fdtd_2D_none (sType : source_type) (g : fdtd2D) (src : fdtd_source)
    (x y : ℚ) :
    add_source_fdtd_2D sType g src x y = none ↔
      g.sizeX ≤ to_uintmax ⌊x / g.dx⌋ ∨ g.sizeY ≤ to_uintmax ⌊y / g.dy⌋ := by
  unfold add_source_fdtd_2D
  dsimp only
  by_cases h1 : to_uintmax ⌊x / g.dx⌋ ≥ g.sizeX
  · rw [if_pos h1]
    exact ⟨fun _ => Or.inl h1, fun _ => rfl⟩
  · by_cases h2 : to_uintmax ⌊y / g.dy⌋ ≥ g.sizeY
    · rw [if_neg h1, if_pos h2]
      exact ⟨fun _ => Or.inr h2, fun _ => rfl⟩
    · rw [if_neg h1, if_neg h2]
      constructor
      · intro h
        cases sType <;> cases h
      · intro h
        rcases h with h | h
        · exact absurd h h1
        · exact absurd h h2

theorem add_source_fdtd_2D_none_floor (sType : source_type) (g : fdtd2D) (src : fdtd_source)
    (x y : ℚ) (hx0 : 0 ≤ ⌊x / g.dx⌋) (hx1 : ⌊x / g.dx⌋ < UINTMAX_MOD)
    (hy0 : 0 ≤ ⌊y / g.dy⌋) (hy1 : ⌊y / g.dy⌋ < UINTMAX_MOD) :
    add_source_fdtd_2D sType g src x y = none ↔
      (g.sizeX : Int) ≤ ⌊x / g.dx⌋ ∨ (g.sizeY : Int) ≤ ⌊y / g.dy⌋ := by
  rw [add_source_fdtd_2D_none]
  have cx := to_uintmax_cast_2D hx0 hx1
  have cy := to_uintmax_cast_2D hy0 hy1
  constructor
  · intro h
    rcases h with h | h
    · left
      rw [← cx]
      exact_mod_cast h
    · right
      rw [← cy]
      exact_mod_cast h
  · intro h
    rcases h with h | h
    · left
      rw [← cx] at h
      exact_mod_cast h
    · right
      rw [← cy] at h
      exact_mod_cast h

/-- The floor of the quotient of a non-negative position by a positive spacing is not
negative. -/
theorem floor_position_nonneg {x d : ℚ} (hx : 0 ≤ x) (hd : 0 < d) : 0 ≤ ⌊x / d⌋ :=
  Int.floor_nonneg.mpr (div_nonneg hx (le_of_lt hd))

/-- A successful registration stores the converted positions at the last index of the
list of its kind. -/
theorem add_source_fdtd_2D_stored (sType : source_type) (g g2 : fdtd2D) (src : fdtd_source)
    (x y : ℚ) (h : add_source_fdtd_2D sType g src x y = some g2) :
    (to_uintmax ⌊x / g.dx⌋ < g.sizeX ∧ to_uintmax ⌊y / g.dy⌋ < g.sizeY) ∧
    (sType = source_type.source_electric →
      g2.JsourceLocations (unsigned_sub g2.num_Jsources 1, 0) = to_uintmax ⌊x / g.dx⌋ ∧
      g2.JsourceLocations (unsigned_sub g2.num_Jsources 1, 1) = to_uintmax ⌊y / g.dy⌋ ∧
      g2.Jsources (unsigned_sub g2.num_Jsources 1) = src) ∧
    (sType = source_type.source_magnetic →
      g2.MsourceLocations (unsigned_sub g2.num_Msources 1, 0) = to_uintmax ⌊x / g.dx⌋ ∧
      g2.MsourceLocations (unsigned_sub g2.num_Msources 1, 1) = to_uintmax ⌊y / g.dy⌋ ∧
      g2.Msources (unsigned_sub g2.num_Msources 1) = src) := by
  unfold add_source_fdtd_2D at h
  dsimp only at h
  by_cases h1 : to_uintmax ⌊x / g.dx⌋ ≥ g.sizeX
  · rw [if_pos h1] at h
    cases h
  · by_cases h2 : to_uintmax ⌊y / g.dy⌋ ≥ g.sizeY
    · rw [if_neg h1, if_pos h2] at h
      cases h
    · rw [if_neg h1, if_neg h2] at h
      refine ⟨⟨Nat.lt_of_not_le h1, Nat.lt_of_not_le h2⟩, ?_, ?_⟩
      · intro hs
        subst hs
        simp only [Option.some.injEq] at h
        subst h
        simp [store]
      · intro hs
        subst hs
        simp only [Option.some.injEq] at h
        subst h
        simp [store]

/-- A successful registration keeps every stored location inside the arrays. -/
theorem add_source_fdtd_2D_in_bounds (sType : source_type) (g g2 : fdtd2D)
    (src : fdtd_source) (x y : ℚ) (h : add_source_fdtd_2D sType g src x y = some g2)
    (hb : sources_in_bounds g) : sources_in_bounds g2 := by
  unfold add_source_fdtd_2D at h
  dsimp only at h
  by_cases h1 : to_uintmax ⌊x / g.dx⌋ ≥ g.sizeX
  · rw [if_pos h1] at h
    cases h
  · by_cases h2 : to_uintmax ⌊y / g.dy⌋ ≥ g.sizeY
    · rw [if_neg h1, if_pos h2] at h
      cases h
    · rw [if_neg h1, if_neg h2] at h
      have p1 := Nat.lt_of_not_le h1
      have p2 := Nat.lt_of_not_le h2
      obtain ⟨hJ, hM⟩ := hb
      cases sType with
      | source_electric =>
        simp only [Option.some.injEq] at h
        subst h
        refine ⟨?_, hM⟩
        intro i hi
        by_cases hl : i = unsigned_sub (unsigned_add g.num_Jsources 1) 1
        · subst hl
          simp [store]
          exact ⟨p1, p2⟩
        · have hold := hJ i (unsigned_index_old hi hl)
          simp [store, hl]
          exact hold
      | source_magnetic =>
        simp only [Option.some.injEq] at h
        subst h
        refine ⟨hJ, ?_⟩
        intro i hi
        by_cases hl : i = unsigned_sub (unsigned_add g.num_Msources 1) 1
        · subst hl
          simp [store]
          exact ⟨p1, p2⟩
        · have hold := hM i (unsigned_index_old hi hl)
          simp [store, hl]
          exact hold

/-- The property `sources_in_bounds` depends on the sizes, the counts and the stored
locations only. -/
theorem sources_in_bounds_congr (g g2 : fdtd2D) (hX : g2.sizeX = g.sizeX)
    (hY : g2.sizeY = g.sizeY) (hnJ : g2.num_Jsources = g.num_Jsources)
    (hJ : g2.JsourceLocations = g.JsourceLocations) (hnM : g2.num_Msources = g.num_Msources)
    (hM : g2.MsourceLocations = g.MsourceLocations) (hb : sources_in_bounds g) :
    sources_in_bounds g2 := by
  unfold sources_in_bounds at hb ⊢
  rw [hX, hY, hnJ, hJ, hnM, hM]
  exact hb

theorem run_2D_iteration_in_bounds (glob : Globals) (ext : Extern) (g : fdtd2D)
    (hb : sources_in_bounds g) : sources_in_bounds (run_2D_iteration glob ext g) := by
  have h := run_2D_iteration_static glob ext g
  unfold fdtd2D.static at h
  unfold advance_time at h
  simp only [Prod.mk.injEq] at h
  obtain ⟨h0, h1, h2, h3, h4, h5, h6, h7, h8, h9, h10, h11, h12, h13, h14, h15, h16, h17,
    h18, h19⟩ := h
  exact sources_in_bounds_congr g _ h10 h11 h13 h15 h16 h18 hb

theorem init_fdtd_2D_medium_in_bounds (muR epsR : ℚ → ℚ → ℚ) (g : fdtd2D)
    (hb : sources_in_bounds g) : sources_in_bounds (init_fdtd_2D_medium muR epsR g) := by
  have h := init_fdtd_2D_medium_frame muR epsR g
  simp only [Prod.mk.injEq] at h
  obtain ⟨h0, h1, h2, h3, h4, h5, h6, h7, h8, h9, h10, h11, h12, h13, h14, h15⟩ := h
  exact sources_in_bounds_congr g _ h7 h8 h9 h11 h12 h14 hb

theorem init_fdtd_2D_cpml_counts (ext : Extern) (domain_size : Nat → ℚ)
    (Sc smallest_wavelength : ℚ) (borders : Nat → Nat) (cpml_thickness : Nat) :
    (init_fdtd_2D_cpml ext domain_size Sc smallest_wavelength borders
        cpml_thickness).num_Jsources = 0 ∧
    (init_fdtd_2D_cpml ext domain_size Sc smallest_wavelength borders
        cpml_thickness).num_Msources = 0 := by
  unfold init_fdtd_2D_cpml
  have h := (init_fdtd_2D_cpml_coeff_frame ext cpml_thickness
    (init_fdtd_2D_cpml_alloc domain_size Sc smallest_wavelength borders cpml_thickness)).1
  exact ⟨(congrArg fdtd2D.num_Jsources h).trans rfl, (congrArg fdtd2D.num_Msources h).trans rfl⟩

theorem init_fdtd_2D_cpml_in_bounds (ext : Extern) (domain_size : Nat → ℚ)
    (Sc smallest_wavelength : ℚ) (borders : Nat → Nat) (cpml_thickness : Nat) :
    sources_in_bounds (init_fdtd_2D_cpml ext domain_size Sc smallest_wavelength borders
      cpml_thickness) := by
  have h := init_fdtd_2D_cpml_counts ext domain_size Sc smallest_wavelength borders
    cpml_thickness
  unfold sources_in_bounds
  rw [h.1, h.2]
  exact ⟨fun i hi => absurd hi (Nat.not_lt_zero i), fun i hi => absurd hi (Nat.not_lt_zero i)⟩

/-- With every stored location inside the arrays, the source steps leave every cell
that is not a cell of the `sizeX` x `sizeY` arrays as it was. -/
theorem apply_sources_outside (ext : Extern) (g : fdtd2D) (hb : sources_in_bounds g)
    (i j : Nat) (hout : ¬ (i < g.sizeX ∧ j < g.sizeY)) :
    (apply_J_sources ext g).ez (i, j) = g.ez (i, j) ∧
    (apply_M_sources ext g).hx (i, j) = g.hx (i, j) ∧
    (apply_M_sources ext g).hy (i, j) = g.hy (i, j) := by
  obtain ⟨hJ, hM⟩ := hb
  have zJ : ∀ k ∈ Finset.range g.num_Jsources,
      (if (g.JsourceLocations (k, 0), g.JsourceLocations (k, 1)) = (i, j)
        then -gaussian_pulse_val ext g.time (g.Jsources k) else 0) = 0 := by
    intro k hk
    have hk2 := hJ k (Finset.mem_range.mp hk)
    rw [if_neg]
    intro he
    simp only [Prod.mk.injEq] at he
    exact hout ⟨he.1 ▸ hk2.1, he.2 ▸ hk2.2⟩
  have zM : ∀ k ∈ Finset.range g.num_Msources,
      (if (g.MsourceLocations (k, 0), g.MsourceLocations (k, 1)) = (i, j)
        then gaussian_pulse_val ext g.time (g.Msources k) else 0) = 0 := by
    intro k hk
    have hk2 := hM k (Finset.mem_range.mp hk)
    rw [if_neg]
    intro he
    simp only [Prod.mk.injEq] at he
    exact hout ⟨he.1 ▸ hk2.1, he.2 ▸ hk2.2⟩
  refine ⟨?_, ?_, ?_⟩
  · rw [apply_J_sources_sum_2D]
    show g.ez (i, j) + _ = g.ez (i, j)
    rw [Finset.sum_eq_zero zJ, add_zero]
  · rw [apply_M_sources_sum_2D]
    show g.hx (i, j) + _ = g.hx (i, j)
    rw [Finset.sum_eq_zero zM, add_zero]
  · rw [apply_M_sources_sum_2D]
    show g.hy (i, j) + _ = g.hy (i, j)
    rw [Finset.sum_eq_zero zM, add_zero]

end D2

/-! ## Constructors -/

theorem ceil_exact_multiple (k : Nat) {dx : ℚ} (hdx : 0 < dx) : ⌈(k : ℚ) * dx / dx⌉ = (k : Int) := by
  rw [mul_div_assoc, div_self (ne_of_gt hdx), mul_one]
  exact_mod_cast Int.ceil_natCast k

theorem floor_exact_multiple (k : Nat) {dx : ℚ} (hdx : 0 < dx) : ⌊(k : ℚ) * dx / dx⌋ = (k : Int) := by
  rw [mul_div_assoc, div_self (ne_of_gt hdx), mul_one]
  exact_mod_cast Int.floor_natCast k

/-- A count converted from the ceiling of `d / dx` covers `d`. -/
theorem ceil_cover (f : Int → Nat) (hf : ∀ z : Int, 0 ≤ z → z < UINTMAX_MOD → ((f z : Nat) : Int) = z)
    {d dx : ℚ} (hdx : 0 < dx) (hd : 0 ≤ d) (hr : ⌈d / dx⌉ < UINTMAX_MOD) :
    d ≤ (f ⌈d / dx⌉ : ℚ) * dx := by
  have h0 : 0 ≤ ⌈d / dx⌉ := Int.ceil_nonneg (div_nonneg hd (le_of_lt hdx))
  have hc : ((f ⌈d / dx⌉ : Nat) : ℚ) = ((⌈d / dx⌉ : Int) : ℚ) := by
    have := congrArg (Int.cast : Int → ℚ) (hf _ h0 hr)
    simpa using this
  rw [hc]
  exact (div_le_iff₀ hdx).mp (Int.le_ceil _)

/-- A count converted from the floor of `d / dx` spans at most `d`, and one more cell
spans more than `d`. -/
theorem floor_bounds (f : Int → Nat) (hf : ∀ z : Int, 0 ≤ z → z < UINTMAX_MOD → ((f z : Nat) : Int) = z)
    {d dx : ℚ} (hdx : 0 < dx) (hd : 0 ≤ d) (hr : ⌊d / dx⌋ < UINTMAX_MOD) :
    (f ⌊d / dx⌋ : ℚ) * dx ≤ d ∧ d < ((f ⌊d / dx⌋ : ℚ) + 1) * dx := by
  have h0 : 0 ≤ ⌊d / dx⌋ := Int.floor_nonneg.mpr (div_nonneg hd (le_of_lt hdx))
  have hc : ((f ⌊d / dx⌋ : Nat) : ℚ) = ((⌊d / dx⌋ : Int) : ℚ) := by
    have := congrArg (Int.cast : Int → ℚ) (hf _ h0 hr)
    simpa using this
  rw [hc]
  exact ⟨(le_div_iff₀ hdx).mp (Int.floor_le _), (div_lt_iff₀ hdx).mp (Int.lt_floor_add_one _)⟩

theorem spacing_pos {wl : ℚ} (h : 0 < wl) : 0 < wl / 20 := by positivity

namespace D1

theorem init_fdtd_1D_size_exact (Sc wl : ℚ) (borders : Nat → Nat) (k : Nat) (hw : 0 < wl)
    (hk : k < UINTMAX_MOD) :
    (init_fdtd_1D ((k : ℚ) * (wl / 20)) Sc wl borders).sizeX = k := by
  show to_uintmax ⌈(k : ℚ) * (wl / 20) / (wl / 20)⌉ = k
  rw [ceil_exact_multiple k (spacing_pos hw)]
  exact_mod_cast to_uintmax_cast_1D (Int.natCast_nonneg k) (by exact_mod_cast hk)

theorem init_fdtd_1D_cover (d Sc wl : ℚ) (borders : Nat → Nat) (hw : 0 < wl) (hd : 0 ≤ d)
    (hr : ⌈d / (wl / 20)⌉ < UINTMAX_MOD) :
    d ≤ ((init_fdtd_1D d Sc wl borders).sizeX : ℚ) * (init_fdtd_1D d Sc wl borders).dx :=
  ceil_cover to_uintmax (fun _ h0 h1 => to_uintmax_cast_1D h0 h1) (spacing_pos hw) hd hr

end D1

namespace D2

theorem init_fdtd_2D_cpml_fields (ext : Extern) (ds : Nat → ℚ) (Sc wl : ℚ)
    (borders : Nat → Nat) (T : Nat) :
    (fun s : fdtd2D => (s.dx, s.dy, s.dt, s.time, s.num_Jsources, s.num_Msources, s.ez, s.hx,
        s.hy, s.permittivity_inv, s.permeability_inv, s.sizeX, s.sizeY, s.domain_size 0,
        s.domain_size 1)) (init_fdtd_2D_cpml ext ds Sc wl borders T) =
      (wl / 20, wl / 20, wl / 20 * Sc / c_light, 0, 0, 0, fun _ => 0, fun _ => 0, fun _ => 0,
        fun _ => 0, fun _ => 0, to_uintmax ⌊ds 0 / (wl / 20)⌋, to_uintmax ⌊ds 1 / (wl / 20)⌋,
        ds 0, ds 1) := by
  unfold init_fdtd_2D_cpml
  have h := (init_fdtd_2D_cpml_coeff_frame ext T (init_fdtd_2D_cpml_alloc ds Sc wl borders T)).1
  exact (congrArg (fun s : fdtd2D => (s.dx, s.dy, s.dt, s.time, s.num_Jsources,
    s.num_Msources, s.ez, s.hx, s.hy, s.permittivity_inv, s.permeability_inv, s.sizeX,
    s.sizeY, s.domain_size 0, s.domain_size 1)) h).trans rfl

end D2

namespace D3

theorem init_fdtd_3D_cpml_fields (ext : Extern) (ds : Nat → ℚ) (Sc wl : ℚ)
    (borders : Nat → Nat) (T : Nat) :
    (fun s : fdtd3D => (s.dx, s.dy, s.dz, s.dt, s.time, s.num_Jsources, s.num_Msources,
        s.ex, s.ey, s.ez, s.hx, s.hy, s.hz, s.permittivity_inv, s.permeability_inv,
        s.sizeX, s.sizeY, s.sizeZ, s.domain_size 0, s.domain_size 1, s.domain_size 2))
        (init_fdtd_3D_cpml ext ds Sc wl borders T) =
      (wl / 20, wl / 20, wl / 20, wl / 20 * Sc / c_light, 0, 0, 0,
        fun _ => 0, fun _ => 0, fun _ => 0, fun _ => 0, fun _ => 0, fun _ => 0,
        fun _ => 0, fun _ => 0,
        to_uintmax ⌈ds 0 / (wl / 20)⌉, to_uintmax ⌈ds 1 / (wl / 20)⌉,
        to_uintmax ⌈ds 2 / (wl / 20)⌉, ds 0, ds 1, ds 2) := by
  unfold init_fdtd_3D_cpml
  have h := (init_fdtd_3D_cpml_coeff_frame ext T (init_fdtd_3D_cpml_alloc ds Sc wl borders T)).1
  exact (congrArg (fun s : fdtd3D => (s.dx, s.dy, s.dz, s.dt, s.time, s.num_Jsources,
    s.num_Msources, s.ex, s.ey, s.ez, s.hx, s.hy, s.hz, s.permittivity_inv,
    s.permeability_inv, s.sizeX, s.sizeY, s.sizeZ, s.domain_size 0, s.domain_size 1,
    s.domain_size 2)) h).trans rfl

end D3

/-! ## Order of the source lists -/

namespace D1

/-- Reading the source lists in another order does not change what
`apply_M_sources` leaves in its target arrays. -/
theorem apply_M_sources_perm_1D (ext : Extern) (g : fdtd1D) (sJ sM : Equiv.Perm Nat)
    (hM : ∀ i, g.num_Msources ≤ i → sM i = i) :
    (apply_M_sources ext (permute_sources sJ sM g)).hy = (apply_M_sources ext g).hy := by
  rw [apply_M_sources_sum_1D, apply_M_sources_sum_1D]
  funext c
  exact congrArg (fun t => g.hy c + t) (sum_range_perm sM g.num_Msources hM
    (fun i => if g.MsourceLocations i = c then gaussian_pulse_val ext g.time (g.Msources i) else 0))

/-- Reading the source lists in another order does not change what
`apply_J_sources` leaves in its target arrays. -/
theorem apply_J_sources_perm_1D (ext : Extern) (g : fdtd1D) (sJ sM : Equiv.Perm Nat)
    (hJ : ∀ i, g.num_Jsources ≤ i → sJ i = i) :
    (apply_J_sources ext (permute_sources sJ sM g)).ez = (apply_J_sources ext g).ez := by
  rw [apply_J_sources_sum_1D, apply_J_sources_sum_1D]
  funext c
  exact congrArg (fun t => g.ez c + t) (sum_range_perm sJ g.num_Jsources hJ
    (fun i => if g.JsourceLocations i = c then gaussian_pulse_val ext g.time (g.Jsources i) else 0))

end D1

namespace D2

/-- Reading the source lists in another order does not change what
`apply_M_sources` leaves in its target arrays. -/
theorem apply_M_sources_perm_2D (ext : Extern) (g : fdtd2D) (sJ sM : Equiv.Perm Nat)
    (hM : ∀ i, g.num_Msources ≤ i → sM i = i) :
    (apply_M_sources ext (permute_sources sJ sM g)).hx = (apply_M_sources ext g).hx ∧
    (apply_M_sources ext (permute_sources sJ sM g)).hy = (apply_M_sources ext g).hy := by
  rw [apply_M_sources_sum_2D, apply_M_sources_sum_2D]
  refine ⟨?_, ?_⟩
  · funext c
    exact congrArg (fun t => g.hx c + t) (sum_range_perm sM g.num_Msources hM
      (fun i => if (g.MsourceLocations (i, 0), g.MsourceLocations (i, 1)) = c then gaussian_pulse_val ext g.time (g.Msources i) else 0))
  · funext c
    exact congrArg (fun t => g.hy c + t) (sum_range_perm sM g.num_Msources hM
      (fun i => if (g.MsourceLocations (i, 0), g.MsourceLocations (i, 1)) = c then gaussian_pulse_val ext g.time (g.Msources i) else 0))

/-- Reading the source lists in another order does not change what
`apply_J_sources` leaves in its target arrays. -/
theorem apply_J_sources_perm_2D (ext : Extern) (g : fdtd2D) (sJ sM : Equiv.Perm Nat)
    (hJ : ∀ i, g.num_Jsources ≤ i → sJ i = i) :
    (apply_J_sources ext (permute_sources sJ sM g)).ez = (apply_J_sources ext g).ez := by
  rw [apply_J_sources_sum_2D, apply_J_sources_sum_2D]
  funext c
  exact congrArg (fun t => g.ez c + t) (sum_range_perm sJ g.num_Jsources hJ
    (fun i => if (g.JsourceLocations (i, 0), g.JsourceLocations (i, 1)) = c then -gaussian_pulse_val ext g.time (g.Jsources i) else 0))

end D2

namespace D3

/-- Reading the source lists in another order does not change what
`apply_M_sources` leaves in its target arrays. -/
theorem apply_M_sources_perm_3D (ext : Extern) (g : fdtd3D) (sJ sM : Equiv.Perm Nat)
    (hM : ∀ i, g.num_Msources ≤ i → sM i = i) :
    (apply_M_sources ext (permute_sources sJ sM g)).hy = (apply_M_sources ext g).hy ∧
    (apply_M_sources ext (permute_sources sJ sM g)).hx = (apply_M_sources ext g).hx ∧
    (apply_M_sources ext (permute_sources sJ sM g)).hz = (apply_M_sources ext g).hz := by
  rw [apply_M_sources_sum_3D, apply_M_sources_sum_3D]
  refine ⟨?_, ?_, ?_⟩
  · funext c
    exact congrArg (fun t => g.hy c + t) (sum_range_perm sM g.num_Msources hM
      (fun i => if (g.MsourceLocations (i, 0), g.MsourceLocations (i, 1), g.MsourceLocations (i, 2)) = c then gaussian_pulse_val ext g.time (g.Msources i) else 0))
  · funext c
    exact congrArg (fun t => g.hx c + t) (sum_range_perm sM g.num_Msources hM
      (fun i => if (g.MsourceLocations (i, 0), g.MsourceLocations (i, 1), g.MsourceLocations (i, 2)) = c then gaussian_pulse_val ext g.time (g.Msources i) else 0))
  · funext c
    exact congrArg (fun t => g.hz c + t) (sum_range_perm sM g.num_Msources hM
      (fun i => if (g.MsourceLocations (i, 0), g.MsourceLocations (i, 1), g.MsourceLocations (i, 2)) = c then gaussian_pulse_val ext g.time (g.Msources i) else 0))

/-- Reading the source lists in another order does not change what
`apply_J_sources` leaves in its target arrays. -/
theorem apply_J_sources_perm_3D (ext : Extern) (g : fdtd3D) (sJ sM : Equiv.Perm Nat)
    (hJ : ∀ i, g.num_Jsources ≤ i → sJ i = i) :
    (apply_J_sources ext (permute_sources sJ sM g)).ex = (apply_J_sources ext g).ex ∧
    (apply_J_sources ext (permute_sources sJ sM g)).ey = (apply_J_sources ext g).ey ∧
    (apply_J_sources ext (permute_sources sJ sM g)).ez = (apply_J_sources ext g).ez := by
  rw [apply_J_sources_sum_3D, apply_J_sources_sum_3D]
  refine ⟨?_, ?_, ?_⟩
  · funext c
    exact congrArg (fun t => g.ex c + t) (sum_range_perm sJ g.num_Jsources hJ
      (fun i => if (g.JsourceLocations (i, 0), g.JsourceLocations (i, 1), g.JsourceLocations (i, 1)) = c then gaussian_pulse_val ext g.time (g.Jsources i) else 0))
  · funext c
    exact congrArg (fun t => g.ey c + t) (sum_range_perm sJ g.num_Jsources hJ
      (fun i => if (g.JsourceLocations (i, 0), g.JsourceLocations (i, 1), g.JsourceLocations (i, 1)) = c then gaussian_pulse_val ext g.time (g.Jsources i) else 0))
  · funext c
    exact congrArg (fun t => g.ez c + t) (sum_range_perm sJ g.num_Jsources hJ
      (fun i => if (g.JsourceLocations (i, 0), g.JsourceLocations (i, 1), g.JsourceLocations (i, 1)) = c then gaussian_pulse_val ext g.time (g.Jsources i) else 0))

end D3

/-! ## Sources and sizes across the interface -/

namespace D1

theorem init_fdtd_1D_medium_counts (muR epsR : ℚ → ℚ) (g : fdtd1D) :
    (init_fdtd_1D_medium muR epsR g).num_Jsources = g.num_Jsources ∧
    (init_fdtd_1D_medium muR epsR g).num_Msources = g.num_Msources := by
  have h := init_fdtd_1D_medium_frame muR epsR g
  simp only [Prod.mk.injEq] at h
  obtain ⟨h0, h1, h2, h3, h4, h5, h6, h7, h8, h9, h10, h11, h12, h13, h14⟩ := h
  exact ⟨h8, h11⟩

end D1

namespace D2

theorem init_fdtd_2D_medium_counts (muR epsR : ℚ → ℚ → ℚ) (g : fdtd2D) :
    (init_fdtd_2D_medium muR epsR g).num_Jsources = g.num_Jsources ∧
    (init_fdtd_2D_medium muR epsR g).num_Msources = g.num_Msources := by
  have h := init_fdtd_2D_medium_frame muR epsR g
  simp only [Prod.mk.injEq] at h
  obtain ⟨h0, h1, h2, h3, h4, h5, h6, h7, h8, h9, h10, h11, h12, h13, h14, h15⟩ := h
  exact ⟨h9, h12⟩

/-- The grid returned by `run_2D_fdtd` keeps every stored location inside the
arrays. -/
theorem run_2D_fdtd_in_bounds (glob : Globals) (ext : Extern) (fuel : Nat) (g g2 : fdtd2D)
    (end_time : ℚ) (h : run_2D_fdtd glob ext fuel g end_time = some g2)
    (hb : sources_in_bounds g) : sources_in_bounds g2 := by
  have hp := runLoop_proj fdtd2D.time (run_2D_body glob ext) advance_time end_time
    (fun s : fdtd2D => (s.sizeX, s.sizeY, s.num_Jsources, s.JsourceLocations,
      s.num_Msources, s.MsourceLocations))
    (fun s => by
      have hs := run_2D_iteration_static glob ext s
      rw [run_2D_iteration_unfold] at hs
      unfold fdtd2D.static at hs
      simp only [Prod.mk.injEq] at hs
      obtain ⟨h0, h1, h2, h3, h4, h5, h6, h7, h8, h9, h10, h11, h12, h13, h14, h15, h16,
        h17, h18, h19⟩ := hs
      show ((advance_time (run_2D_body glob ext s)).sizeX,
          (advance_time (run_2D_body glob ext s)).sizeY,
          (advance_time (run_2D_body glob ext s)).num_Jsources,
          (advance_time (run_2D_body glob ext s)).JsourceLocations,
          (advance_time (run_2D_body glob ext s)).num_Msources,
          (advance_time (run_2D_body glob ext s)).MsourceLocations) =
        (s.sizeX, s.sizeY, s.num_Jsources, s.JsourceLocations, s.num_Msources,
          s.MsourceLocations)
      rw [h10, h11, h13, h15, h16, h18]
      rfl) fuel g g2 h
  simp only [Prod.mk.injEq] at hp
  obtain ⟨p1, p2, p3, p4, p5, p6⟩ := hp
  exact sources_in_bounds_congr g g2 p1 p2 p3 p4 p5 p6 hb

theorem init_fdtd_2D_cpml_size_exact (ext : Extern) (ds : Nat → ℚ) (Sc wl : ℚ)
    (borders : Nat → Nat) (T : Nat) (hw : 0 < wl) :
    (∀ k : Nat, k < UINTMAX_MOD → ds 0 = (k : ℚ) * (wl / 20) →
      (init_fdtd_2D_cpml ext ds Sc wl borders T).sizeX = k) ∧
    (∀ k : Nat, k < UINTMAX_MOD → ds 1 = (k : ℚ) * (wl / 20) →
      (init_fdtd_2D_cpml ext ds Sc wl borders T).sizeY = k) := by
  have h := init_fdtd_2D_cpml_fields ext ds Sc wl borders T
  simp only [Prod.mk.injEq] at h
  obtain ⟨h0, h1, h2, h3, h4, h5, h6, h7, h8, h9, h10, h11, h12, h13, h14⟩ := h
  constructor
  · intro k hk hd
    rw [h11, hd, floor_exact_multiple k (spacing_pos hw)]
    exact_mod_cast to_uintmax_cast_2D (Int.natCast_nonneg k) (by exact_mod_cast hk)
  · intro k hk hd
    rw [h12, hd, floor_exact_multiple k (spacing_pos hw)]
    exact_mod_cast to_uintmax_cast_2D (Int.natCast_nonneg k) (by exact_mod_cast hk)

/-- In 2D the cells of an axis span at most the requested domain, and one more cell
spans more than it. -/
theorem init_fdtd_2D_cpml_span (ext : Extern) (ds : Nat → ℚ) (Sc wl : ℚ)
    (borders : Nat → Nat) (T : Nat) (hw : 0 < wl) :
    (0 ≤ ds 0 → ⌊ds 0 / (wl / 20)⌋ < UINTMAX_MOD →
      ((init_fdtd_2D_cpml ext ds Sc wl borders T).sizeX : ℚ) *
          (init_fdtd_2D_cpml ext ds Sc wl borders T).dx ≤ ds 0 ∧
        ds 0 < (((init_fdtd_2D_cpml ext ds Sc wl borders T).sizeX : ℚ) + 1) *
          (init_fdtd_2D_cpml ext ds Sc wl borders T).dx) ∧
    (0 ≤ ds 1 → ⌊ds 1 / (wl / 20)⌋ < UINTMAX_MOD →
      ((init_fdtd_2D_cpml ext ds Sc wl borders T).sizeY : ℚ) *
          (init_fdtd_2D_cpml ext ds Sc wl borders T).dy ≤ ds 1 ∧
        ds 1 < (((init_fdtd_2D_cpml ext ds Sc wl borders T).sizeY : ℚ) + 1) *
          (init_fdtd_2D_cpml ext ds Sc wl borders T).dy) := by
  have h := init_fdtd_2D_cpml_fields ext ds Sc wl borders T
  simp only [Prod.mk.injEq] at h
  obtain ⟨h0, h1, h2, h3, h4, h5, h6, h7, h8, h9, h10, h11, h12, h13, h14⟩ := h
  rw [h0, h1, h11, h12]
  exact ⟨fun hd hr => floor_bounds to_uintmax (fun _ a b => to_uintmax_cast_2D a b)
      (spacing_pos hw) hd hr,
    fun hd hr => floor_bounds to_uintmax (fun _ a b => to_uintmax_cast_2D a b)
      (spacing_pos hw) hd hr⟩

end D2

namespace D3

theorem init_fdtd_3D_medium_counts (muR epsR : ℚ → ℚ → ℚ → ℚ) (g : fdtd3D) :
    (init_fdtd_3D_medium muR epsR g).num_Jsources = g.num_Jsources ∧
    (init_fdtd_3D_medium muR epsR g).num_Msources = g.num_Msources := by
  have h := init_fdtd_3D_medium_frame muR epsR g
  simp only [Prod.mk.injEq] at h
  obtain ⟨h0, h1, h2, h3, h4, h5, h6, h7, h8, h9, h10, h11, h12, h13, h14, h15, h16, h17,
    h18, h19, h20⟩ := h
  exact ⟨h14, h17⟩

theorem init_fdtd_3D_cpml_size_exact (ext : Extern) (ds : Nat → ℚ) (Sc wl : ℚ)
    (borders : Nat → Nat) (T : Nat) (hw : 0 < wl) :
    (∀ k : Nat, k < UINTMAX_MOD → ds 0 = (k : ℚ) * (wl / 20) →
      (init_fdtd_3D_cpml ext ds Sc wl borders T).sizeX = k) ∧
    (∀ k : Nat, k < UINTMAX_MOD → ds 1 = (k : ℚ) * (wl / 20) →
      (init_fdtd_3D_cpml ext ds Sc wl borders T).sizeY = k) ∧
    (∀ k : Nat, k < UINTMAX_MOD → ds 2 = (k : ℚ) * (wl / 20) →
      (init_fdtd_3D_cpml ext ds Sc wl borders T).sizeZ = k) := by
  have h := init_fdtd_3D_cpml_fields ext ds Sc wl borders T
  simp only [Prod.mk.injEq] at h
  obtain ⟨h0, h1, h2, h3, h4, h5, h6, h7, h8, h9, h10, h11, h12, h13, h14, h15, h16, h17,
    h18, h19, h20⟩ := h
  refine ⟨?_, ?_, ?_⟩
  · intro k hk hd
    rw [h15, hd, ceil_exact_multiple k (spacing_pos hw)]
    exact_mod_cast to_uintmax_cast_3D (Int.natCast_nonneg k) (by exact_mod_cast hk)
  · intro k hk hd
    rw [h16, hd, ceil_exact_multiple k (spacing_pos hw)]
    exact_mod_cast to_uintmax_cast_3D (Int.natCast_nonneg k) (by exact_mod_cast hk)
  · intro k hk hd
    rw [h17, hd, ceil_exact_multiple k (spacing_pos hw)]
    exact_mod_cast to_uintmax_cast_3D (Int.natCast_nonneg k) (by exact_mod_cast hk)

theorem init_fdtd_3D_cpml_cover (ext : Extern) (ds : Nat → ℚ) (Sc wl : ℚ)
    (borders : Nat → Nat) (T : Nat) (hw : 0 < wl) :
    (0 ≤ ds 0 → ⌈ds 0 / (wl / 20)⌉ < UINTMAX_MOD →
      ds 0 ≤ ((init_fdtd_3D_cpml ext ds Sc wl borders T).sizeX : ℚ) *
        (init_fdtd_3D_cpml ext ds Sc wl borders T).dx) ∧
    (0 ≤ ds 1 → ⌈ds 1 / (wl / 20)⌉ < UINTMAX_MOD →
      ds 1 ≤ ((init_fdtd_3D_cpml ext ds Sc wl borders T).sizeY : ℚ) *
        (init_fdtd_3D_cpml ext ds Sc wl borders T).dy) ∧
    (0 ≤ ds 2 → ⌈ds 2 / (wl / 20)⌉ < UINTMAX_MOD →
      ds 2 ≤ ((init_fdtd_3D_cpml ext ds Sc wl borders T).sizeZ : ℚ) *
        (init_fdtd_3D_cpml ext ds Sc wl borders T).dz) := by
  have h := init_fdtd_3D_cpml_fields ext ds Sc wl borders T
  simp only [Prod.mk.injEq] at h
  obtain ⟨h0, h1, h2, h3, h4, h5, h6, h7, h8, h9, h10, h11, h12, h13, h14, h15, h16, h17,
    h18, h19, h20⟩ := h
  rw [h0, h1, h2, h15, h16, h17]
  exact ⟨fun hd hr => ceil_cover to_uintmax (fun _ a b => to_uintmax_cast_3D a b)
      (spacing_pos hw) hd hr,
    fun hd hr => ceil_cover to_uintmax (fun _ a b => to_uintmax_cast_3D a b)
      (spacing_pos hw) hd hr,
    fun hd hr => ceil_cover to_uintmax (fun _ a b => to_uintmax_cast_3D a b)
      (spacing_pos hw) hd hr⟩

end D3

/-! ## Sources: claims -/

/-- C11 (the claim as stated fails): on the 2D sample grid with one electric source of
delay 0, width 1 and peak 1 registered at cell (1, 1), at time 0, the pulse value is
the peak 1, and `apply_J_sources` changes `ez` at the registered cell by -1, not by
+1. -/
theorem source_injection_2D_electric :
    (D2.sample_sources 1).time = 0 ∧
    (D2.sample_sources 1).num_Jsources = 1 ∧
    (D2.sample_sources 1).Jsources 0 = gaussian_source 0 1 1 ∧
    gaussian_pulse_val sample_extern 0 (gaussian_source 0 1 1) = 1 ∧
    (D2.apply_J_sources sample_extern (D2.sample_sources 1)).ez (1, 1) =
      (D2.sample_sources 1).ez (1, 1) - 1 ∧
    ¬ ((D2.apply_J_sources sample_extern (D2.sample_sources 1)).ez (1, 1) =
      (D2.sample_sources 1).ez (1, 1) + 1) := by
  refine ⟨rfl, rfl, by with_unfolding_all rfl, by with_unfolding_all rfl,
    by with_unfolding_all rfl, ?_⟩
  have h : (D2.apply_J_sources sample_extern (D2.sample_sources 1)).ez (1, 1) = 0 := by
    with_unfolding_all rfl
  have h2 : (D2.sample_sources 1).ez (1, 1) = 1 := rfl
  rw [h, h2]
  norm_num

/-- C11 (as amended): the value of a Gaussian pulse of delay `D`, width `W != 0` and
peak `P` sampled at `D` is `P` (the library `exp` returning 1 at 0); the quotient
`(time - delay) / width` of the pulse is the number 0 there, the width not being 0.
With one registered source of that shape and the grid time equal to `D`,
`apply_M_sources` in 1D, 2D and 3D and `apply_J_sources` in 1D add `P` to each target
component at the registered cell, `apply_J_sources` in 2D subtracts `P` from `ez` at
the registered cell, and nothing else of the grid changes. -/
theorem source_injection_at_delay (ext : Extern) (hexp : ext.exp 0 = 1) (D W P : ℚ)
    (hW : W ≠ 0) (g1 : D1.fdtd1D) (g2 : D2.fdtd2D) (g3 : D3.fdtd3D)
    (h1 : g1.time = D ∧ g1.num_Jsources = 1 ∧ g1.Jsources 0 = gaussian_source D W P ∧
      g1.num_Msources = 1 ∧ g1.Msources 0 = gaussian_source D W P)
    (h2 : g2.time = D ∧ g2.num_Jsources = 1 ∧ g2.Jsources 0 = gaussian_source D W P ∧
      g2.num_Msources = 1 ∧ g2.Msources 0 = gaussian_source D W P)
    (h3 : g3.time = D ∧ g3.num_Msources = 1 ∧ g3.Msources 0 = gaussian_source D W P) :
    float_div (D - (gaussian_source D W P).gaussian_pulse_delay)
      (gaussian_source D W P).gaussian_pulse_peak_time = some 0 ∧
    gaussian_pulse_val ext D (gaussian_source D W P) = P ∧
    D1.apply_J_sources ext g1 =
      { g1 with
        ez := store g1.ez (g1.JsourceLocations 0) (g1.ez (g1.JsourceLocations 0) + P) } ∧
    D1.apply_M_sources ext g1 =
      { g1 with
        hy := store g1.hy (g1.MsourceLocations 0) (g1.hy (g1.MsourceLocations 0) + P) } ∧
    D2.apply_J_sources ext g2 =
      { g2 with
        ez := store g2.ez (g2.JsourceLocations (0, 0), g2.JsourceLocations (0, 1))
          (g2.ez (g2.JsourceLocations (0, 0), g2.JsourceLocations (0, 1)) - P) } ∧
    D2.apply_M_sources ext g2 =
      { g2 with
        hx := store g2.hx (g2.MsourceLocations (0, 0), g2.MsourceLocations (0, 1))
          (g2.hx (g2.MsourceLocations (0, 0), g2.MsourceLocations (0, 1)) + P),
        hy := store g2.hy (g2.MsourceLocations (0, 0), g2.MsourceLocations (0, 1))
          (g2.hy (g2.MsourceLocations (0, 0), g2.MsourceLocations (0, 1)) + P) } ∧
    D3.apply_M_sources ext g3 =
      { g3 with
        hy := store g3.hy
          (g3.MsourceLocations (0, 0), g3.MsourceLocations (0, 1), g3.MsourceLocations (0, 2))
          (g3.hy (g3.MsourceLocations (0, 0), g3.MsourceLocations (0, 1),
            g3.MsourceLocations (0, 2)) + P),
        hx := store g3.hx
          (g3.MsourceLocations (0, 0), g3.MsourceLocations (0, 1), g3.MsourceLocations (0, 2))
          (g3.hx (g3.MsourceLocations (0, 0), g3.MsourceLocations (0, 1),
            g3.MsourceLocations (0, 2)) + P),
        hz := store g3.hz
          (g3.MsourceLocations (0, 0), g3.MsourceLocations (0, 1), g3.MsourceLocations (0, 2))
          (g3.hz (g3.MsourceLocations (0, 0), g3.MsourceLocations (0, 1),
            g3.MsourceLocations (0, 2)) + P) } :=
  ⟨by
      show float_div (D - D) W = some 0
      unfold float_div
      rw [if_neg hW, sub_self, zero_div],
    gaussian_pulse_val_at_delay ext hexp D W P D rfl,
    D1.apply_J_sources_single_1D ext g1 D W P hexp h1.2.1 h1.2.2.1 h1.1,
    D1.apply_M_sources_single_1D ext g1 D W P hexp h1.2.2.2.1 h1.2.2.2.2 h1.1,
    D2.apply_J_sources_single_2D ext g2 D W P hexp h2.2.1 h2.2.2.1 h2.1,
    D2.apply_M_sources_single_2D ext g2 D W P hexp h2.2.2.2.1 h2.2.2.2.2 h2.1,
    D3.apply_M_sources_single_3D ext g3 D W P hexp h3.2.1 h3.2.2 h3.1⟩

/-- The source theorem on the sample grids with one source of each kind (delay 0,
width 1, peak 1) at time 0: the pulse value is 1 and the 2D electric step stores
`ez - 1` at the registered cell. -/
theorem source_injection_at_delay_witness :
    sample_extern.exp 0 = 1 ∧ (1 : ℚ) ≠ 0 ∧
    ((D2.sample_sources 1).time = 0 ∧ (D2.sample_sources 1).num_Jsources = 1 ∧
      (D2.sample_sources 1).Jsources 0 = gaussian_source 0 1 1 ∧
      (D2.sample_sources 1).num_Msources = 1 ∧
      (D2.sample_sources 1).Msources 0 = gaussian_source 0 1 1) ∧
    gaussian_pulse_val sample_extern 0 (gaussian_source 0 1 1) = 1 ∧
    D2.apply_J_sources sample_extern (D2.sample_sources 1) =
      { D2.sample_sources 1 with
        ez := store (D2.sample_sources 1).ez
          ((D2.sample_sources 1).JsourceLocations (0, 0),
            (D2.sample_sources 1).JsourceLocations (0, 1))
          ((D2.sample_sources 1).ez ((D2.sample_sources 1).JsourceLocations (0, 0),
            (D2.sample_sources 1).JsourceLocations (0, 1)) - 1) } :=
  have h := source_injection_at_delay sample_extern rfl 0 1 1 one_ne_zero (D1.sample_sources 1)
    (D2.sample_sources 1) (D3.sample_sources 1)
    ⟨rfl, rfl, by with_unfolding_all rfl, rfl, by with_unfolding_all rfl⟩
    ⟨rfl, rfl, by with_unfolding_all rfl, rfl, by with_unfolding_all rfl⟩
    ⟨rfl, rfl, by with_unfolding_all rfl⟩
  ⟨rfl, one_ne_zero, ⟨rfl, rfl, by with_unfolding_all rfl, rfl, by with_unfolding_all rfl⟩,
    h.2.1, h.2.2.2.2.1⟩

/-- C12: the sign of the electric source step.  On the sample grids (every field value
1) with one electric source of peak 1 at its delay, `apply_J_sources` of 3D stores
`1 + 1` in `ex`, `ey` and `ez` at the source cell (1, 1, 1): it adds the value, as the
1D function does at cell 1, whereas the 2D function stores `1 - 1` in `ez`. -/
theorem electric_source_sign :
    gaussian_pulse_val sample_extern (D3.sample_sources 1).time
      ((D3.sample_sources 1).Jsources 0) = 1 ∧
    (D3.apply_J_sources sample_extern (D3.sample_sources 1)).ex (1, 1, 1) =
      (D3.sample_sources 1).ex (1, 1, 1) + 1 ∧
    (D3.apply_J_sources sample_extern (D3.sample_sources 1)).ey (1, 1, 1) =
      (D3.sample_sources 1).ey (1, 1, 1) + 1 ∧
    (D3.apply_J_sources sample_extern (D3.sample_sources 1)).ez (1, 1, 1) =
      (D3.sample_sources 1).ez (1, 1, 1) + 1 ∧
    (D2.apply_J_sources sample_extern (D2.sample_sources 1)).ez (1, 1) =
      (D2.sample_sources 1).ez (1, 1) - 1 ∧
    (D1.apply_J_sources sample_extern (D1.sample_sources 1)).ez 1 =
      (D1.sample_sources 1).ez 1 + 1 ∧
    (D3.apply_M_sources sample_extern (D3.sample_sources 1)).hx (1, 1, 1) =
      (D3.sample_sources 1).hx (1, 1, 1) + 1 := by
  refine ⟨?_, ?_, ?_, ?_, ?_, ?_, ?_⟩ <;> with_unfolding_all rfl

/-- C13: the cell of the electric source step in 3D.  An electric source registered
by `add_source_fdtd_3D` at the position (0, 1, 2) of the sample grid (spacing 1) is
stored with the location (0, 1, 2); `apply_J_sources` leaves `ex`, `ey`, `ez` at the
cell (0, 1, 2) as they were and changes them at the cell (0, 1, 1).  A magnetic
source registered at the same position changes `hx` at (0, 1, 2) and not at
(0, 1, 1). -/
theorem electric_source_cell_3D :
    (D3.add_source_fdtd_3D source_type.source_electric (D3.sample_grid (fun _ => 0))
      (gaussian_source 0 1 1) 0 1 2).num_Jsources = 1 ∧
    (D3.add_source_fdtd_3D source_type.source_electric (D3.sample_grid (fun _ => 0))
      (gaussian_source 0 1 1) 0 1 2).JsourceLocations (0, 0) = 0 ∧
    (D3.add_source_fdtd_3D source_type.source_electric (D3.sample_grid (fun _ => 0))
      (gaussian_source 0 1 1) 0 1 2).JsourceLocations (0, 1) = 1 ∧
    (D3.add_source_fdtd_3D source_type.source_electric (D3.sample_grid (fun _ => 0))
      (gaussian_source 0 1 1) 0 1 2).JsourceLocations (0, 2) = 2 ∧
    (D3.apply_J_sources sample_extern
      (D3.add_source_fdtd_3D source_type.source_electric (D3.sample_grid (fun _ => 0))
        (gaussian_source 0 1 1) 0 1 2)).ex (0, 1, 2) = 1 ∧
    (D3.apply_J_sources sample_extern
      (D3.add_source_fdtd_3D source_type.source_electric (D3.sample_grid (fun _ => 0))
        (gaussian_source 0 1 1) 0 1 2)).ey (0, 1, 2) = 1 ∧
    (D3.apply_J_sources sample_extern
      (D3.add_source_fdtd_3D source_type.source_electric (D3.sample_grid (fun _ => 0))
        (gaussian_source 0 1 1) 0 1 2)).ez (0, 1, 2) = 1 ∧
    (D3.apply_J_sources sample_extern
      (D3.add_source_fdtd_3D source_type.source_electric (D3.sample_grid (fun _ => 0))
        (gaussian_source 0 1 1) 0 1 2)).ex (0, 1, 1) = 2 ∧
    (D3.apply_M_sources sample_extern
      (D3.add_source_fdtd_3D source_type.source_magnetic (D3.sample_grid (fun _ => 0))
        (gaussian_source 0 1 1) 0 1 2)).hx (0, 1, 2) = 2 ∧
    (D3.apply_M_sources sample_extern
      (D3.add_source_fdtd_3D source_type.source_magnetic (D3.sample_grid (fun _ => 0))
        (gaussian_source 0 1 1) 0 1 2)).hx (0, 1, 1) = 1 := by
  refine ⟨?_, ?_, ?_, ?_, ?_, ?_, ?_, ?_, ?_, ?_⟩ <;> with_unfolding_all rfl

/-- C15: `add_source_fdtd_3D` at a position outside the grid.  On the 3 x 3 x 3 sample
grid (spacing 1) the position (3, 0, 0), the far edge of the domain, is converted to
the location (3, 0, 0); the call returns a grid with one more electric source stored
at that location, although 3 is not below `sizeX = 3`.  In 2D the same call on the
4 x 4 sample grid at the position (4, 0) exits. -/
theorem add_source_3D_unchecked :
    (D3.sample_grid (fun _ => 0)).sizeX = 3 ∧
    (D3.add_source_fdtd_3D source_type.source_electric (D3.sample_grid (fun _ => 0))
      (gaussian_source 0 1 1) 3 0 0).num_Jsources = 1 ∧
    (D3.add_source_fdtd_3D source_type.source_electric (D3.sample_grid (fun _ => 0))
      (gaussian_source 0 1 1) 3 0 0).JsourceLocations (0, 0) = 3 ∧
    (D3.add_source_fdtd_3D source_type.source_electric (D3.sample_grid (fun _ => 0))
      (gaussian_source 0 1 1) 3 0 0).sizeX = 3 ∧
    (D3.add_source_fdtd_3D source_type.source_magnetic (D3.sample_grid (fun _ => 0))
      (gaussian_source 0 1 1) 3 0 0).MsourceLocations (0, 0) = 3 ∧
    D2.add_source_fdtd_2D source_type.source_electric (D2.sample_grid (fun _ => 0))
      (gaussian_source 0 1 1) 4 0 = none := by
  refine ⟨?_, ?_, ?_, ?_, ?_, ?_⟩ <;> with_unfolding_all rfl

/-- C14: `add_source_fdtd_2D` and the bounds of the stored locations.  For positions
`x, y >= 0` on a grid with positive spacings (the floors within the range of
`uintmax_t`), the call exits, before any write, exactly when `floor(x / dx) >= sizeX`
or `floor(y / dy) >= sizeY`; a call that returns has stored
`(floor(x / dx), floor(y / dy))` at the last index of the list of its kind and keeps
every stored location a cell index.  Every stored location is a cell index after the
constructor, and stays one through the medium initialisation, an iteration and a
whole run; with that, `apply_J_sources` and `apply_M_sources` leave every cell outside
the `sizeX` x `sizeY` arrays as it was. -/
theorem add_source_2D_bounds (glob : Globals) (ext : Extern) (sType : source_type)
    (g : D2.fdtd2D) (src : fdtd_source) (x y : ℚ) (hx : 0 ≤ x) (hy : 0 ≤ y)
    (hdx : 0 < g.dx) (hdy : 0 < g.dy) (hfx : ⌊x / g.dx⌋ < UINTMAX_MOD)
    (hfy : ⌊y / g.dy⌋ < UINTMAX_MOD) :
    (D2.add_source_fdtd_2D sType g src x y = none ↔
      (g.sizeX : Int) ≤ ⌊x / g.dx⌋ ∨ (g.sizeY : Int) ≤ ⌊y / g.dy⌋) ∧
    (∀ g2, D2.add_source_fdtd_2D sType g src x y = some g2 →
      (sType = source_type.source_electric →
        ((g2.JsourceLocations (unsigned_sub g2.num_Jsources 1, 0) : Nat) : Int) =
            ⌊x / g.dx⌋ ∧
          ((g2.JsourceLocations (unsigned_sub g2.num_Jsources 1, 1) : Nat) : Int) =
            ⌊y / g.dy⌋) ∧
      (sType = source_type.source_magnetic →
        ((g2.MsourceLocations (unsigned_sub g2.num_Msources 1, 0) : Nat) : Int) =
            ⌊x / g.dx⌋ ∧
          ((g2.MsourceLocations (unsigned_sub g2.num_Msources 1, 1) : Nat) : Int) =
            ⌊y / g.dy⌋) ∧
      (D2.sources_in_bounds g → D2.sources_in_bounds g2)) ∧
    (∀ ds Sc wl borders T,
      D2.sources_in_bounds (D2.init_fdtd_2D_cpml ext ds Sc wl borders T)) ∧
    (D2.sources_in_bounds g →
      (∀ muR epsR, D2.sources_in_bounds (D2.init_fdtd_2D_medium muR epsR g)) ∧
      D2.sources_in_bounds (D2.run_2D_iteration glob ext g) ∧
      (∀ fuel end_time g2, D2.run_2D_fdtd glob ext fuel g end_time = some g2 →
        D2.sources_in_bounds g2) ∧
      (∀ i j, ¬ (i < g.sizeX ∧ j < g.sizeY) →
        (D2.apply_J_sources ext g).ez (i, j) = g.ez (i, j) ∧
        (D2.apply_M_sources ext g).hx (i, j) = g.hx (i, j) ∧
        (D2.apply_M_sources ext g).hy (i, j) = g.hy (i, j))) := by
  have fx0 := D2.floor_position_nonneg hx hdx
  have fy0 := D2.floor_position_nonneg hy hdy
  have cx := to_uintmax_cast_2D fx0 hfx
  have cy := to_uintmax_cast_2D fy0 hfy
  refine ⟨D2.add_source_fdtd_2D_none_floor sType g src x y fx0 hfx fy0 hfy, ?_, ?_, ?_⟩
  · intro g2 h2
    have hs := D2.add_source_fdtd_2D_stored sType g g2 src x y h2
    refine ⟨?_, ?_, D2.add_source_fdtd_2D_in_bounds sType g g2 src x y h2⟩
    · intro he
      have hh := hs.2.1 he
      rw [hh.1, hh.2.1]
      exact ⟨cx, cy⟩
    · intro he
      have hh := hs.2.2 he
      rw [hh.1, hh.2.1]
      exact ⟨cx, cy⟩
  · intro ds Sc wl borders T
    exact D2.init_fdtd_2D_cpml_in_bounds ext ds Sc wl borders T
  · intro hb
    exact ⟨fun muR epsR => D2.init_fdtd_2D_medium_in_bounds muR epsR g hb,
      D2.run_2D_iteration_in_bounds glob ext g hb,
      fun fuel end_time g2 h2 => D2.run_2D_fdtd_in_bounds glob ext fuel g g2 end_time h2 hb,
      fun i j hout => D2.apply_sources_outside ext g hb i j hout⟩

/-- The 2D registration theorem on the 4 x 4 sample grid (spacing 1): the position
(1, 1) is accepted and the position (4, 1) is not. -/
theorem add_source_2D_bounds_witness :
    ((0 : ℚ) ≤ 1 ∧ 0 < (D2.sample_grid (fun _ => 0)).dx ∧
      ⌊(1 : ℚ) / (D2.sample_grid (fun _ => 0)).dx⌋ < UINTMAX_MOD) ∧
    (D2.add_source_fdtd_2D source_type.source_electric (D2.sample_grid (fun _ => 0))
        (gaussian_source 0 1 1) 1 1 = none ↔
      ((D2.sample_grid (fun _ => 0)).sizeX : Int) ≤
          ⌊(1 : ℚ) / (D2.sample_grid (fun _ => 0)).dx⌋ ∨
        ((D2.sample_grid (fun _ => 0)).sizeY : Int) ≤
          ⌊(1 : ℚ) / (D2.sample_grid (fun _ => 0)).dy⌋) :=
  have p0 : (0 : ℚ) ≤ 1 := by norm_num
  have p1 : 0 < (D2.sample_grid (fun _ => 0)).dx := by show (0 : ℚ) < 1; norm_num
  have p2 : 0 < (D2.sample_grid (fun _ => 0)).dy := by show (0 : ℚ) < 1; norm_num
  have p3 : ⌊(1 : ℚ) / (D2.sample_grid (fun _ => 0)).dx⌋ < UINTMAX_MOD := by
    show ⌊(1 : ℚ) / 1⌋ < ((2 ^ 64 : Nat) : Int)
    rw [div_one, Int.floor_one]
    norm_num
  have p4 : ⌊(1 : ℚ) / (D2.sample_grid (fun _ => 0)).dy⌋ < UINTMAX_MOD := by
    show ⌊(1 : ℚ) / 1⌋ < ((2 ^ 64 : Nat) : Int)
    rw [div_one, Int.floor_one]
    norm_num
  ⟨⟨p0, p1, p3⟩,
    (add_source_2D_bounds sample_globals sample_extern source_type.source_electric
      (D2.sample_grid (fun _ => 0)) (gaussian_source 0 1 1) 1 1 p0 p0 p1 p2 p3 p4).1⟩

/-- C16: source registration appends.  While the count of the list is below the
largest value of its type `unsigned`, a call of `add_source_fdtd_1D`,
`add_source_fdtd_2D` (when it returns) or `add_source_fdtd_3D` returns the grid it
was given with the count of the list of its kind increased by 1 and the descriptor
and the converted location stored at the former count, the last index; `store`
changes that index only, and no other member of the grid changes.  The source counts
are unchanged by the medium initialisation and by a run. -/
theorem source_registration_appends (glob : Globals) (ext : Extern) (g1 : D1.fdtd1D)
    (g2 : D2.fdtd2D) (g3 : D3.fdtd3D) (src : fdtd_source) (x y z : ℚ)
    (h1 : g1.num_Jsources + 1 < UINT_MOD ∧ g1.num_Msources + 1 < UINT_MOD)
    (h2 : g2.num_Jsources + 1 < UINT_MOD ∧ g2.num_Msources + 1 < UINT_MOD)
    (h3 : g3.num_Jsources + 1 < UINT_MOD ∧ g3.num_Msources + 1 < UINT_MOD) :
    (D1.add_source_fdtd_1D source_type.source_electric g1 src x =
      { g1 with
        num_Jsources := g1.num_Jsources + 1,
        JsourceLocations := store g1.JsourceLocations g1.num_Jsources
          (D1.to_uintmax ⌈x / g1.dx⌉),
        Jsources := store g1.Jsources g1.num_Jsources src } ∧
    D1.add_source_fdtd_1D source_type.source_magnetic g1 src x =
      { g1 with
        num_Msources := g1.num_Msources + 1,
        MsourceLocations := store g1.MsourceLocations g1.num_Msources
          (D1.to_uintmax ⌈x / g1.dx⌉),
        Msources := store g1.Msources g1.num_Msources src }) ∧
    ((∀ g, D2.add_source_fdtd_2D source_type.source_electric g2 src x y = some g →
      g = { g2 with
        num_Jsources := g2.num_Jsources + 1,
        JsourceLocations := store (store g2.JsourceLocations (g2.num_Jsources, 0)
          (D2.to_uintmax ⌊x / g2.dx⌋)) (g2.num_Jsources, 1) (D2.to_uintmax ⌊y / g2.dy⌋),
        Jsources := store g2.Jsources g2.num_Jsources src }) ∧
    (∀ g, D2.add_source_fdtd_2D source_type.source_magnetic g2 src x y = some g →
      g = { g2 with
        num_Msources := g2.num_Msources + 1,
        MsourceLocations := store (store g2.MsourceLocations (g2.num_Msources, 0)
          (D2.to_uintmax ⌊x / g2.dx⌋)) (g2.num_Msources, 1) (D2.to_uintmax ⌊y / g2.dy⌋),
        Msources := store g2.Msources g2.num_Msources src })) ∧
    (D3.add_source_fdtd_3D source_type.source_electric g3 src x y z =
      { g3 with
        num_Jsources := g3.num_Jsources + 1,
        JsourceLocations := store (store (store g3.JsourceLocations (g3.num_Jsources, 0)
          (D3.to_uintmax ⌈x / g3.dx⌉)) (g3.num_Jsources, 1) (D3.to_uintmax ⌈y / g3.dy⌉))
          (g3.num_Jsources, 2) (D3.to_uintmax ⌈z / g3.dz⌉),
        Jsources := store g3.Jsources g3.num_Jsources src } ∧
    D3.add_source_fdtd_3D source_type.source_magnetic g3 src x y z =
      { g3 with
        num_Msources := g3.num_Msources + 1,
        MsourceLocations := store (store (store g3.MsourceLocations (g3.num_Msources, 0)
          (D3.to_uintmax ⌈x / g3.dx⌉)) (g3.num_Msources, 1) (D3.to_uintmax ⌈y / g3.dy⌉))
          (g3.num_Msources, 2) (D3.to_uintmax ⌈z / g3.dz⌉),
        Msources := store g3.Msources g3.num_Msources src }) ∧
    ((∀ muR epsR, (D1.init_fdtd_1D_medium muR epsR g1).num_Jsources = g1.num_Jsources ∧
        (D1.init_fdtd_1D_medium muR epsR g1).num_Msources = g1.num_Msources) ∧
      (∀ muR epsR, (D2.init_fdtd_2D_medium muR epsR g2).num_Jsources = g2.num_Jsources ∧
        (D2.init_fdtd_2D_medium muR epsR g2).num_Msources = g2.num_Msources) ∧
      (∀ muR epsR, (D3.init_fdtd_3D_medium muR epsR g3).num_Jsources = g3.num_Jsources ∧
        (D3.init_fdtd_3D_medium muR epsR g3).num_Msources = g3.num_Msources)) ∧
    ((∀ fuel end_time g, D1.run_1D_fdtd ext fuel g1 end_time = some g →
        g.num_Jsources = g1.num_Jsources ∧ g.num_Msources = g1.num_Msources) ∧
      (∀ fuel end_time g, D2.run_2D_fdtd glob ext fuel g2 end_time = some g →
        g.num_Jsources = g2.num_Jsources ∧ g.num_Msources = g2.num_Msources) ∧
      (∀ fuel end_time g, D3.run_3D_fdtd ext fuel g3 end_time = some g →
        g.num_Jsources = g3.num_Jsources ∧ g.num_Msources = g3.num_Msources)) := by
  refine ⟨⟨D1.add_source_electric_1D g1 src x h1.1, D1.add_source_magnetic_1D g1 src x h1.2⟩,
    ⟨?_, ?_⟩,
    ⟨D3.add_source_electric_3D g3 src x y z h3.1, D3.add_source_magnetic_3D g3 src x y z h3.2⟩,
    ⟨fun muR epsR => D1.init_fdtd_1D_medium_counts muR epsR g1,
      fun muR epsR => D2.init_fdtd_2D_medium_counts muR epsR g2,
      fun muR epsR => D3.init_fdtd_3D_medium_counts muR epsR g3⟩,
    ⟨fun fuel end_time g h => D1.run_1D_fdtd_counts ext fuel g1 g end_time h,
      fun fuel end_time g h => D2.run_2D_fdtd_counts glob ext fuel g2 g end_time h,
      fun fuel end_time g h => D3.run_3D_fdtd_counts ext fuel g3 g end_time h⟩⟩
  · intro g h
    rw [D2.add_source_electric_2D g2 src x y h2.1] at h
    by_cases hc : D2.to_uintmax ⌊x / g2.dx⌋ ≥ g2.sizeX ∨ D2.to_uintmax ⌊y / g2.dy⌋ ≥ g2.sizeY
    · rw [if_pos hc] at h
      cases h
    · rw [if_neg hc] at h
      exact (Option.some.inj h).symm
  · intro g h
    rw [D2.add_source_magnetic_2D g2 src x y h2.2] at h
    by_cases hc : D2.to_uintmax ⌊x / g2.dx⌋ ≥ g2.sizeX ∨ D2.to_uintmax ⌊y / g2.dy⌋ ≥ g2.sizeY
    · rw [if_pos hc] at h
      cases h
    · rw [if_neg hc] at h
      exact (Option.some.inj h).symm

/-- The registration theorem on the sample grids (no source registered): the 1D call
at position 2 returns the grid with one electric source stored at index 0. -/
theorem source_registration_appends_witness :
    ((D1.sample_grid (fun _ => 0)).num_Jsources + 1 < UINT_MOD ∧
      (D1.sample_grid (fun _ => 0)).num_Msources + 1 < UINT_MOD) ∧
    D1.add_source_fdtd_1D source_type.source_electric (D1.sample_grid (fun _ => 0))
        (gaussian_source 0 1 1) 2 =
      { D1.sample_grid (fun _ => 0) with
        num_Jsources := (D1.sample_grid (fun _ => 0)).num_Jsources + 1,
        JsourceLocations := store (D1.sample_grid (fun _ => 0)).JsourceLocations
          (D1.sample_grid (fun _ => 0)).num_Jsources
          (D1.to_uintmax ⌈(2 : ℚ) / (D1.sample_grid (fun _ => 0)).dx⌉),
        Jsources := store (D1.sample_grid (fun _ => 0)).Jsources
          (D1.sample_grid (fun _ => 0)).num_Jsources (gaussian_source 0 1 1) } :=
  ⟨⟨by decide, by decide⟩,
    (source_registration_appends sample_globals sample_extern (D1.sample_grid (fun _ => 0))
      (D2.sample_grid (fun _ => 0)) (D3.sample_grid (fun _ => 0)) (gaussian_source 0 1 1)
      2 2 2 ⟨by decide, by decide⟩ ⟨by decide, by decide⟩ ⟨by decide, by decide⟩).1.1⟩

/-- C17: the order of the source lists does not matter.  For every grid and every
permutation of the registered entries of its electric list and of its magnetic list
(each descriptor moved together with its location), `apply_J_sources` and
`apply_M_sources` leave the same values in every target array as on the grid with the
lists in their original order, whatever the locations, shared or not (exact
arithmetic), in 1D, 2D and 3D. -/
theorem sources_order_independent (ext : Extern) (g1 : D1.fdtd1D) (g2 : D2.fdtd2D)
    (g3 : D3.fdtd3D) (sJ sM : Equiv.Perm Nat)
    (h1 : (∀ i, g1.num_Jsources ≤ i → sJ i = i) ∧ (∀ i, g1.num_Msources ≤ i → sM i = i))
    (h2 : (∀ i, g2.num_Jsources ≤ i → sJ i = i) ∧ (∀ i, g2.num_Msources ≤ i → sM i = i))
    (h3 : (∀ i, g3.num_Jsources ≤ i → sJ i = i) ∧ (∀ i, g3.num_Msources ≤ i → sM i = i)) :
    ((D1.apply_J_sources ext (D1.permute_sources sJ sM g1)).ez =
        (D1.apply_J_sources ext g1).ez ∧
      (D1.apply_M_sources ext (D1.permute_sources sJ sM g1)).hy =
        (D1.apply_M_sources ext g1).hy) ∧
    ((D2.apply_J_sources ext (D2.permute_sources sJ sM g2)).ez =
        (D2.apply_J_sources ext g2).ez ∧
      (D2.apply_M_sources ext (D2.permute_sources sJ sM g2)).hx =
        (D2.apply_M_sources ext g2).hx ∧
      (D2.apply_M_sources ext (D2.permute_sources sJ sM g2)).hy =
        (D2.apply_M_sources ext g2).hy) ∧
    (((D3.apply_J_sources ext (D3.permute_sources sJ sM g3)).ex =
        (D3.apply_J_sources ext g3).ex ∧
      (D3.apply_J_sources ext (D3.permute_sources sJ sM g3)).ey =
        (D3.apply_J_sources ext g3).ey ∧
      (D3.apply_J_sources ext (D3.permute_sources sJ sM g3)).ez =
        (D3.apply_J_sources ext g3).ez) ∧
      (D3.apply_M_sources ext (D3.permute_sources sJ sM g3)).hy =
        (D3.apply_M_sources ext g3).hy ∧
      (D3.apply_M_sources ext (D3.permute_sources sJ sM g3)).hx =
        (D3.apply_M_sources ext g3).hx ∧
      (D3.apply_M_sources ext (D3.permute_sources sJ sM g3)).hz =
        (D3.apply_M_sources ext g3).hz) :=
  ⟨⟨D1.apply_J_sources_perm_1D ext g1 sJ sM h1.1, D1.apply_M_sources_perm_1D ext g1 sJ sM h1.2⟩,
    ⟨D2.apply_J_sources_perm_2D ext g2 sJ sM h2.1, D2.apply_M_sources_perm_2D ext g2 sJ sM h2.2⟩,
    ⟨D3.apply_J_sources_perm_3D ext g3 sJ sM h3.1, D3.apply_M_sources_perm_3D ext g3 sJ sM h3.2⟩⟩

/-- The order theorem on the sample grids with two sources of each kind, both at the
same cell, and the two entries exchanged. -/
theorem sources_order_independent_witness :
    (∀ i, (D1.sample_sources 2).num_Jsources ≤ i → Equiv.swap 0 1 i = i) ∧
    (D1.apply_J_sources sample_extern
        (D1.permute_sources (Equiv.swap 0 1) (Equiv.swap 0 1) (D1.sample_sources 2))).ez =
      (D1.apply_J_sources sample_extern (D1.sample_sources 2)).ez :=
  have p : ∀ i : Nat, 2 ≤ i → Equiv.swap 0 1 i = i := fun i hi =>
    Equiv.swap_apply_of_ne_of_ne (by omega) (by omega)
  ⟨p, (sources_order_independent sample_extern (D1.sample_sources 2) (D2.sample_sources 2)
    (D3.sample_sources 2) (Equiv.swap 0 1) (Equiv.swap 0 1) ⟨p, p⟩ ⟨p, p⟩ ⟨p, p⟩).1.1⟩

/-- C18: the grid returned by a constructor.  `init_fdtd_1D`, `init_fdtd_2D_cpml` and
`init_fdtd_3D_cpml` return a grid with `dx = smallest_wavelength / 20`, `dy` and `dz`
(where present) equal to `dx`, `dt = dx * Sc / c_light` with `c_light = 299792458`,
time 0, both source counts 0 and every field and material array zero. -/
theorem constructor_initial_state (ext : Extern) (d1 : ℚ) (ds : Nat → ℚ) (Sc wl : ℚ)
    (b1 b2 b3 : Nat → Nat) (T : Nat) :
    c_light = 299792458 ∧
    ((D1.init_fdtd_1D d1 Sc wl b1).dx = wl / 20 ∧
      (D1.init_fdtd_1D d1 Sc wl b1).dt = (D1.init_fdtd_1D d1 Sc wl b1).dx * Sc / c_light ∧
      (D1.init_fdtd_1D d1 Sc wl b1).time = 0 ∧
      (D1.init_fdtd_1D d1 Sc wl b1).num_Jsources = 0 ∧
      (D1.init_fdtd_1D d1 Sc wl b1).num_Msources = 0 ∧
      (D1.init_fdtd_1D d1 Sc wl b1).ez = (fun _ => 0) ∧
      (D1.init_fdtd_1D d1 Sc wl b1).hy = (fun _ => 0) ∧
      (D1.init_fdtd_1D d1 Sc wl b1).permittivity_inv = (fun _ => 0) ∧
      (D1.init_fdtd_1D d1 Sc wl b1).permeability_inv = (fun _ => 0)) ∧
    ((D2.init_fdtd_2D_cpml ext ds Sc wl b2 T).dx = wl / 20 ∧
      (D2.init_fdtd_2D_cpml ext ds Sc wl b2 T).dy = (D2.init_fdtd_2D_cpml ext ds Sc wl b2 T).dx ∧
      (D2.init_fdtd_2D_cpml ext ds Sc wl b2 T).dt =
        (D2.init_fdtd_2D_cpml ext ds Sc wl b2 T).dx * Sc / c_light ∧
      (D2.init_fdtd_2D_cpml ext ds Sc wl b2 T).time = 0 ∧
      (D2.init_fdtd_2D_cpml ext ds Sc wl b2 T).num_Jsources = 0 ∧
      (D2.init_fdtd_2D_cpml ext ds Sc wl b2 T).num_Msources = 0 ∧
      (D2.init_fdtd_2D_cpml ext ds Sc wl b2 T).ez = (fun _ => 0) ∧
      (D2.init_fdtd_2D_cpml ext ds Sc wl b2 T).hx = (fun _ => 0) ∧
      (D2.init_fdtd_2D_cpml ext ds Sc wl b2 T).hy = (fun _ => 0) ∧
      (D2.init_fdtd_2D_cpml ext ds Sc wl b2 T).permittivity_inv = (fun _ => 0) ∧
      (D2.init_fdtd_2D_cpml ext ds Sc wl b2 T).permeability_inv = (fun _ => 0)) ∧
    ((D3.init_fdtd_3D_cpml ext ds Sc wl b3 T).dx = wl / 20 ∧
      (D3.init_fdtd_3D_cpml ext ds Sc wl b3 T).dy = (D3.init_fdtd_3D_cpml ext ds Sc wl b3 T).dx ∧
      (D3.init_fdtd_3D_cpml ext ds Sc wl b3 T).dz = (D3.init_fdtd_3D_cpml ext ds Sc wl b3 T).dx ∧
      (D3.init_fdtd_3D_cpml ext ds Sc wl b3 T).dt =
        (D3.init_fdtd_3D_cpml ext ds Sc wl b3 T).dx * Sc / c_light ∧
      (D3.init_fdtd_3D_cpml ext ds Sc wl b3 T).time = 0 ∧
      (D3.init_fdtd_3D_cpml ext ds Sc wl b3 T).num_Jsources = 0 ∧
      (D3.init_fdtd_3D_cpml ext ds Sc wl b3 T).num_Msources = 0 ∧
      (D3.init_fdtd_3D_cpml ext ds Sc wl b3 T).ex = (fun _ => 0) ∧
      (D3.init_fdtd_3D_cpml ext ds Sc wl b3 T).ey = (fun _ => 0) ∧
      (D3.init_fdtd_3D_cpml ext ds Sc wl b3 T).ez = (fun _ => 0) ∧
      (D3.init_fdtd_3D_cpml ext ds Sc wl b3 T).hx = (fun _ => 0) ∧
      (D3.init_fdtd_3D_cpml ext ds Sc wl b3 T).hy = (fun _ => 0) ∧
      (D3.init_fdtd_3D_cpml ext ds Sc wl b3 T).hz = (fun _ => 0) ∧
      (D3.init_fdtd_3D_cpml ext ds Sc wl b3 T).permittivity_inv = (fun _ => 0) ∧
      (D3.init_fdtd_3D_cpml ext ds Sc wl b3 T).permeability_inv = (fun _ => 0)) := by
  refine ⟨rfl, ⟨rfl, rfl, rfl, rfl, rfl, rfl, rfl, rfl, rfl⟩, ?_, ?_⟩
  · have h := D2.init_fdtd_2D_cpml_fields ext ds Sc wl b2 T
    simp only [Prod.mk.injEq] at h
    obtain ⟨h0, h1, h2, h3, h4, h5, h6, h7, h8, h9, h10, h11, h12, h13, h14⟩ := h
    rw [h0, h1, h2]
    exact ⟨rfl, rfl, rfl, h3, h4, h5, h6, h7, h8, h9, h10⟩
  · have h := D3.init_fdtd_3D_cpml_fields ext ds Sc wl b3 T
    simp only [Prod.mk.injEq] at h
    obtain ⟨h0, h1, h2, h3, h4, h5, h6, h7, h8, h9, h10, h11, h12, h13, h14, h15, h16, h17,
      h18, h19, h20⟩ := h
    rw [h0, h1, h2, h3]
    exact ⟨rfl, rfl, rfl, rfl, h4, h5, h6, h7, h8, h9, h10, h11, h12, h13, h14⟩

/-- C19: a domain that is a whole number of cells.  For every positive wavelength and
every `k` in the range of `uintmax_t`, a domain size of `k * dx` on an axis, with
`dx = smallest_wavelength / 20`, gives exactly `k` cells on that axis: in 1D and 3D
through the ceiling, in 2D through the floor (exact arithmetic). -/
theorem exact_multiple_cell_count (ext : Extern) (ds2 ds3 : Nat → ℚ) (Sc wl : ℚ)
    (b1 b2 b3 : Nat → Nat) (T k : Nat) (hw : 0 < wl) (hk : k < UINTMAX_MOD) :
    (D1.init_fdtd_1D ((k : ℚ) * (wl / 20)) Sc wl b1).sizeX = k ∧
    ((ds2 0 = (k : ℚ) * (wl / 20) → (D2.init_fdtd_2D_cpml ext ds2 Sc wl b2 T).sizeX = k) ∧
      (ds2 1 = (k : ℚ) * (wl / 20) → (D2.init_fdtd_2D_cpml ext ds2 Sc wl b2 T).sizeY = k)) ∧
    ((ds3 0 = (k : ℚ) * (wl / 20) → (D3.init_fdtd_3D_cpml ext ds3 Sc wl b3 T).sizeX = k) ∧
      (ds3 1 = (k : ℚ) * (wl / 20) → (D3.init_fdtd_3D_cpml ext ds3 Sc wl b3 T).sizeY = k) ∧
      (ds3 2 = (k : ℚ) * (wl / 20) → (D3.init_fdtd_3D_cpml ext ds3 Sc wl b3 T).sizeZ = k)) :=
  have e2 := D2.init_fdtd_2D_cpml_size_exact ext ds2 Sc wl b2 T hw
  have e3 := D3.init_fdtd_3D_cpml_size_exact ext ds3 Sc wl b3 T hw
  ⟨D1.init_fdtd_1D_size_exact Sc wl b1 k hw hk,
    ⟨e2.1 k hk, e2.2 k hk⟩, ⟨e3.1 k hk, e3.2.1 k hk, e3.2.2 k hk⟩⟩

/-- The cell-count theorem for the wavelength 20 (`dx = 1`) and `k = 3`: the 1D grid
of domain size `3 * dx` has 3 cells. -/
theorem exact_multiple_cell_count_witness :
    ((0 : ℚ) < 20 ∧ 3 < UINTMAX_MOD) ∧
    (D1.init_fdtd_1D (((3 : Nat) : ℚ) * (20 / 20)) (1 / 2) 20 (fun _ => 0)).sizeX = 3 :=
  ⟨⟨by norm_num, by decide⟩,
    (exact_multiple_cell_count sample_extern (fun _ => 3) (fun _ => 3) (1 / 2) 20
      (fun _ => 0) (fun _ => 0) (fun _ => 0) 0 3 (by norm_num) (by decide)).1⟩

/-- C20 (the claim as stated fails): the 2D constructor for the wavelength 20 and the
domain size 5/2 on each axis returns a grid with `dx = 1` and `sizeX = 2`, and
`2 * 1 < 5/2`: the cells do not cover the domain. -/
theorem cell_count_2D_floor :
    (D2.init_fdtd_2D_cpml sample_extern (fun _ => 5 / 2) (1 / 2) 20 (fun _ => 0) 0).dx = 1 ∧
    (D2.init_fdtd_2D_cpml sample_extern (fun _ => 5 / 2) (1 / 2) 20 (fun _ => 0) 0).sizeX = 2 ∧
    ¬ ((5 / 2 : ℚ) ≤
      ((D2.init_fdtd_2D_cpml sample_extern (fun _ => 5 / 2) (1 / 2) 20
          (fun _ => 0) 0).sizeX : ℚ) *
        (D2.init_fdtd_2D_cpml sample_extern (fun _ => 5 / 2) (1 / 2) 20 (fun _ => 0) 0).dx) := by
  have hdx : (D2.init_fdtd_2D_cpml sample_extern (fun _ => 5 / 2) (1 / 2) 20
      (fun _ => 0) 0).dx = 1 := by with_unfolding_all rfl
  have hsz : (D2.init_fdtd_2D_cpml sample_extern (fun _ => 5 / 2) (1 / 2) 20
      (fun _ => 0) 0).sizeX = 2 := by with_unfolding_all rfl
  refine ⟨hdx, hsz, ?_⟩
  rw [hdx, hsz]
  norm_num

/-- C20 (as amended): for a positive wavelength and a non-negative domain size (the
rounded quotient within the range of `uintmax_t`), the cell count of `init_fdtd_1D`
and each cell count of `init_fdtd_3D_cpml` covers the requested domain,
`size * spacing >= domain_size`; each cell count of `init_fdtd_2D_cpml` satisfies
`size * spacing <= domain_size < (size + 1) * spacing`. -/
theorem cell_count_covers_domain (ext : Extern) (d1 : ℚ) (ds2 ds3 : Nat → ℚ) (Sc wl : ℚ)
    (b1 b2 b3 : Nat → Nat) (T : Nat) (hw : 0 < wl) :
    (0 ≤ d1 → ⌈d1 / (wl / 20)⌉ < UINTMAX_MOD →
      d1 ≤ ((D1.init_fdtd_1D d1 Sc wl b1).sizeX : ℚ) * (D1.init_fdtd_1D d1 Sc wl b1).dx) ∧
    ((0 ≤ ds3 0 → ⌈ds3 0 / (wl / 20)⌉ < UINTMAX_MOD →
        ds3 0 ≤ ((D3.init_fdtd_3D_cpml ext ds3 Sc wl b3 T).sizeX : ℚ) *
          (D3.init_fdtd_3D_cpml ext ds3 Sc wl b3 T).dx) ∧
      (0 ≤ ds3 1 → ⌈ds3 1 / (wl / 20)⌉ < UINTMAX_MOD →
        ds3 1 ≤ ((D3.init_fdtd_3D_cpml ext ds3 Sc wl b3 T).sizeY : ℚ) *
          (D3.init_fdtd_3D_cpml ext ds3 Sc wl b3 T).dy) ∧
      (0 ≤ ds3 2 → ⌈ds3 2 / (wl / 20)⌉ < UINTMAX_MOD →
        ds3 2 ≤ ((D3.init_fdtd_3D_cpml ext ds3 Sc wl b3 T).sizeZ : ℚ) *
          (D3.init_fdtd_3D_cpml ext ds3 Sc wl b3 T).dz)) ∧
    ((0 ≤ ds2 0 → ⌊ds2 0 / (wl / 20)⌋ < UINTMAX_MOD →
        ((D2.init_fdtd_2D_cpml ext ds2 Sc wl b2 T).sizeX : ℚ) *
            (D2.init_fdtd_2D_cpml ext ds2 Sc wl b2 T).dx ≤ ds2 0 ∧
          ds2 0 < (((D2.init_fdtd_2D_cpml ext ds2 Sc wl b2 T).sizeX : ℚ) + 1) *
            (D2.init_fdtd_2D_cpml ext ds2 Sc wl b2 T).dx) ∧
      (0 ≤ ds2 1 → ⌊ds2 1 / (wl / 20)⌋ < UINTMAX_MOD →
        ((D2.init_fdtd_2D_cpml ext ds2 Sc wl b2 T).sizeY : ℚ) *
            (D2.init_fdtd_2D_cpml ext ds2 Sc wl b2 T).dy ≤ ds2 1 ∧
          ds2 1 < (((D2.init_fdtd_2D_cpml ext ds2 Sc wl b2 T).sizeY : ℚ) + 1) *
            (D2.init_fdtd_2D_cpml ext ds2 Sc wl b2 T).dy)) :=
  ⟨fun hd hr => D1.init_fdtd_1D_cover d1 Sc wl b1 hw hd hr,
    D3.init_fdtd_3D_cpml_cover ext ds3 Sc wl b3 T hw,
    D2.init_fdtd_2D_cpml_span ext ds2 Sc wl b2 T hw⟩

/-- The covering theorem for the wavelength 20 and the domain size 5/2: the 1D grid
covers the domain. -/
theorem cell_count_covers_domain_witness :
    ((0 : ℚ) < 20 ∧ (0 : ℚ) ≤ 5 / 2 ∧ ⌈(5 / 2 : ℚ) / (20 / 20)⌉ < UINTMAX_MOD) ∧
    (5 / 2 : ℚ) ≤ ((D1.init_fdtd_1D (5 / 2) (1 / 2) 20 (fun _ => 0)).sizeX : ℚ) *
      (D1.init_fdtd_1D (5 / 2) (1 / 2) 20 (fun _ => 0)).dx :=
  have p0 : (0 : ℚ) < 20 := by norm_num
  have p1 : (0 : ℚ) ≤ 5 / 2 := by norm_num
  have p2 : ⌈(5 / 2 : ℚ) / (20 / 20)⌉ < UINTMAX_MOD :=
    lt_of_le_of_lt (Int.ceil_le.mpr (by norm_num : (5 / 2 : ℚ) / (20 / 20) ≤ ((3 : Int) : ℚ)))
      (by decide)
  ⟨⟨p0, p1, p2⟩,
    (cell_count_covers_domain sample_extern (5 / 2) (fun _ => 5 / 2) (fun _ => 5 / 2) (1 / 2)
      20 (fun _ => 0) (fun _ => 0) (fun _ => 0) 0 p0).1 p1 p2⟩

/-! ## CPML profile functions -/

theorem Kappa_eq_one (ext : Extern) (d W : Nat) : Kappa ext d W = 1 := by
  unfold Kappa kappa_max
  simp

theorem b_closed (ext : Extern) (d W : Nat) (dt alpha_max sigma_max : ℚ) :
    b ext d W dt alpha_max sigma_max =
      ext.exp (-dt * (sigma ext d W sigma_max + alpha ext d W alpha_max) / eps0) := by
  unfold b
  rw [Kappa_eq_one]
  congr 1
  ring

theorem c_closed (ext : Extern) (d W : Nat) (dt alpha_max sigma_max : ℚ) :
    c ext d W dt alpha_max sigma_max =
      sigma ext d W sigma_max / (sigma ext d W sigma_max + alpha ext d W alpha_max) *
        (b ext d W dt alpha_max sigma_max - 1) := by
  unfold c
  rw [Kappa_eq_one]
  simp only [mul_one, one_mul]

/-! ## Dumps -/

theorem foldl_append_map {α β : Type} (f : α → β) (l : List α) (init : List β) :
    l.foldl (fun out k => out ++ [f k]) init = init ++ l.map f := by
  induction l generalizing init with
  | nil => simp
  | cons a as ih => rw [List.foldl_cons, ih, List.map_cons, List.append_assoc]; rfl

theorem forLoop_append_map {β : Type} (f : Nat → β) (lo hi : Nat) (init : List β) :
    forLoop lo hi (fun i out => out ++ [f i]) init = init ++ (List.range' lo (hi - lo)).map f := by
  unfold forLoop
  exact foldl_append_map f _ init

theorem forLoop2_append_map {β : Type} (f : Nat × Nat → β) (lo1 hi1 lo2 hi2 : Nat)
    (init : List β) :
    forLoop lo1 hi1 (fun i out => forLoop lo2 hi2 (fun j out => out ++ [f (i, j)]) out) init =
      init ++ (keys2 lo1 hi1 lo2 hi2).map f := by
  rw [forLoop2_eq_foldl lo1 hi1 lo2 hi2 (fun k out => out ++ [f k]) init]
  exact foldl_append_map f _ init

theorem forLoop3_append_map {β : Type} (f : Nat × Nat × Nat → β)
    (lo1 hi1 lo2 hi2 lo3 hi3 : Nat) (init : List β) :
    forLoop lo1 hi1 (fun i out => forLoop lo2 hi2 (fun j out =>
      forLoop lo3 hi3 (fun k out => out ++ [f (i, j, k)]) out) out) init =
      init ++ (keys3 lo1 hi1 lo2 hi2 lo3 hi3).map f := by
  rw [forLoop3_eq_foldl lo1 hi1 lo2 hi2 lo3 hi3 (fun k out => out ++ [f k]) init]
  exact foldl_append_map f _ init

theorem length_keys2 (lo1 hi1 lo2 hi2 : Nat) :
    (keys2 lo1 hi1 lo2 hi2).length = (hi1 - lo1) * (hi2 - lo2) := by
  unfold keys2
  simp [List.length_flatMap, Function.comp_def, List.map_const', List.sum_replicate]

theorem length_keys3 (lo1 hi1 lo2 hi2 lo3 hi3 : Nat) :
    (keys3 lo1 hi1 lo2 hi2 lo3 hi3).length = (hi1 - lo1) * ((hi2 - lo2) * (hi3 - lo3)) := by
  unfold keys3
  simp [List.length_flatMap, Function.comp_def, List.map_const', List.sum_replicate,
    length_keys2]

namespace D1

/-- The lines of a 1D dump of a defined quantity: one line per cell, in the order of
the cells. -/
theorem dump_1D_fdtd_lines (g : fdtd1D) :
    dump_1D_fdtd g dumpable_data.dump_ez =
      some ((List.range' 0 g.sizeX).map (fun (i : Nat) => [(i : ℚ) * g.dx, g.ez i])) ∧
    dump_1D_fdtd g dumpable_data.dump_hy =
      some ((List.range' 0 g.sizeX).map (fun (i : Nat) => [(i : ℚ) * g.dx, g.hy i])) ∧
    dump_1D_fdtd g dumpable_data.dump_permittivity =
      some ((List.range' 0 g.sizeX).map (fun (i : Nat) => [(i : ℚ) * g.dx, g.permittivity_inv i])) ∧
    dump_1D_fdtd g dumpable_data.dump_permeability =
      some ((List.range' 0 g.sizeX).map (fun (i : Nat) => [(i : ℚ) * g.dx, g.permeability_inv i])) := by
  refine ⟨?_, ?_, ?_, ?_⟩
  · show some (forLoop 0 g.sizeX (fun i out => out ++ [[(i : ℚ) * g.dx, g.ez i]]) []) = _
    rw [forLoop_append_map (fun (i : Nat) => [(i : ℚ) * g.dx, g.ez i])]
    rfl
  · show some (forLoop 0 g.sizeX (fun i out => out ++ [[(i : ℚ) * g.dx, g.hy i]]) []) = _
    rw [forLoop_append_map (fun (i : Nat) => [(i : ℚ) * g.dx, g.hy i])]
    rfl
  · show some (forLoop 0 g.sizeX
      (fun i out => out ++ [[(i : ℚ) * g.dx, g.permittivity_inv i]]) []) = _
    rw [forLoop_append_map (fun (i : Nat) => [(i : ℚ) * g.dx, g.permittivity_inv i])]
    rfl
  · show some (forLoop 0 g.sizeX
      (fun i out => out ++ [[(i : ℚ) * g.dx, g.permeability_inv i]]) []) = _
    rw [forLoop_append_map (fun (i : Nat) => [(i : ℚ) * g.dx, g.permeability_inv i])]
    rfl

theorem dump_1D_fdtd_none (g : fdtd1D) (what : dumpable_data) :
    dump_1D_fdtd g what = none ↔
      what ≠ dumpable_data.dump_ez ∧ what ≠ dumpable_data.dump_hy ∧
      what ≠ dumpable_data.dump_permittivity ∧ what ≠ dumpable_data.dump_permeability := by
  cases what <;> simp [dump_1D_fdtd]

end D1

namespace D2

/-- The lines of a 2D dump: one line for every cell `(i, j)` with `1 <= j`. -/
theorem dump_2D_fdtd_lines (g : fdtd2D) :
    dump_2D_fdtd g dumpable_data.dump_ez =
      some ((keys2 0 g.sizeX 1 g.sizeY).map
        (fun x => [(x.1 : ℚ) * g.dx, (x.2 : ℚ) * g.dy, g.ez (x.1, x.2)])) := by
  show some (forLoop 0 g.sizeX (fun i out => forLoop 1 g.sizeY (fun j out =>
    out ++ [[(i : ℚ) * g.dx, (j : ℚ) * g.dy, g.ez (i, j)]]) out) []) = _
  rw [forLoop2_append_map (fun x => [(x.1 : ℚ) * g.dx, (x.2 : ℚ) * g.dy, g.ez (x.1, x.2)])]
  rfl

theorem dump_2D_fdtd_none (g : fdtd2D) (what : dumpable_data) :
    dump_2D_fdtd g what = none ↔
      what ≠ dumpable_data.dump_ez ∧ what ≠ dumpable_data.dump_hx ∧
      what ≠ dumpable_data.dump_hy ∧
      what ≠ dumpable_data.dump_permittivity ∧ what ≠ dumpable_data.dump_permeability := by
  cases what <;> simp [dump_2D_fdtd]

end D2

namespace D3

/-- The lines of a 3D dump: one line for every cell `(i, j, k)` with `1 <= j` and
`1 <= k`, the third number being `k * dt`. -/
theorem dump_3D_fdtd_lines (g : fdtd3D) :
    dump_3D_fdtd g dumpable_data.dump_ez =
      some ((keys3 0 g.sizeX 1 g.sizeY 1 g.sizeZ).map
        (fun x => [(x.1 : ℚ) * g.dx, (x.2.1 : ℚ) * g.dy, (x.2.2 : ℚ) * g.dt,
          g.ez (x.1, x.2.1, x.2.2)])) := by
  show some (forLoop 0 g.sizeX (fun i out => forLoop 1 g.sizeY (fun j out =>
    forLoop 1 g.sizeZ (fun k out =>
      out ++ [[(i : ℚ) * g.dx, (j : ℚ) * g.dy, (k : ℚ) * g.dt, g.ez (i, j, k)]]) out) out)
    []) = _
  rw [forLoop3_append_map (fun x => [(x.1 : ℚ) * g.dx, (x.2.1 : ℚ) * g.dy,
    (x.2.2 : ℚ) * g.dt, g.ez (x.1, x.2.1, x.2.2)])]
  rfl

theorem dump_3D_fdtd_none (g : fdtd3D) (what : dumpable_data) :
    dump_3D_fdtd g what = none ↔ what = dumpable_data.num_dumpable_data := by
  cases what <;> simp [dump_3D_fdtd]

end D3

/-! ## CPML switched off by the thickness 0 -/

theorem forLoop_id {σ : Type} (lo hi : Nat) (body : Nat → σ → σ) (h : ∀ i s, body i s = s)
    (s : σ) : forLoop lo hi body s = s :=
  forLoop_proj id lo hi body h s

namespace D2

theorem static_thickness_2D (g g2 : fdtd2D) (h : g2.static = g.static) :
    g2.cpml_thickness = g.cpml_thickness := by
  unfold fdtd2D.static at h
  simp only [Prod.mk.injEq] at h
  obtain ⟨h0, h1, h2, h3, h4, h5, h6, h7, h8, h9, h10, h11, h12, h13, h14, h15, h16, h17, h18, h19⟩ := h
  exact h7

theorem update_electric_cpml_south_off (g : fdtd2D) (hT : g.cpml_thickness = 0) :
    update_electric_cpml_south g = g := by
  unfold update_electric_cpml_south
  dsimp only
  rw [hT]
  by_cases hf : flagSet (g.border_condition border_south) border_cpml = true
  · rw [if_pos hf]
    exact forLoop_zero_iter 0 0 _ _ (le_refl 0)
  · rw [if_neg hf]

theorem update_electric_cpml_north_off (g : fdtd2D) (hT : g.cpml_thickness = 0) :
    update_electric_cpml_north g = g := by
  unfold update_electric_cpml_north
  dsimp only
  rw [hT]
  by_cases hf : flagSet (g.border_condition border_north) border_cpml = true
  · rw [if_pos hf]
    exact forLoop_zero_iter 0 0 _ _ (le_refl 0)
  · rw [if_neg hf]

theorem update_electric_cpml_west_off (g : fdtd2D) (hT : g.cpml_thickness = 0) :
    update_electric_cpml_west g = g := by
  unfold update_electric_cpml_west
  dsimp only
  rw [hT]
  by_cases hf : flagSet (g.border_condition border_west) border_cpml = true
  · rw [if_pos hf]
    refine forLoop_id _ _ _ ?_ _
    intro i s
    exact forLoop_zero_iter 0 0 _ _ (le_refl 0)
  · rw [if_neg hf]

theorem update_electric_cpml_east_off (g : fdtd2D) (hT : g.cpml_thickness = 0) :
    update_electric_cpml_east g = g := by
  unfold update_electric_cpml_east
  dsimp only
  rw [hT]
  by_cases hf : flagSet (g.border_condition border_east) border_cpml = true
  · rw [if_pos hf]
    refine forLoop_id _ _ _ ?_ _
    intro i s
    exact forLoop_zero_iter 0 0 _ _ (le_refl 0)
  · rw [if_neg hf]

/-- With `cpml_thickness = 0` the function `update_electric_cpml` returns the grid it
was given, whatever the face flags. -/
theorem update_electric_cpml_off_2D (g : fdtd2D) (hT : g.cpml_thickness = 0) :
    update_electric_cpml g = g := by
  unfold update_electric_cpml
  rw [update_electric_cpml_south_off g hT, update_electric_cpml_north_off g hT, update_electric_cpml_west_off g hT, update_electric_cpml_east_off g hT]

theorem update_magnetic_cpml_west_off (g : fdtd2D) (hT : g.cpml_thickness = 0) :
    update_magnetic_cpml_west g = g := by
  unfold update_magnetic_cpml_west
  dsimp only
  rw [hT]
  by_cases hf : flagSet (g.border_condition border_west) border_cpml = true
  · rw [if_pos hf]
    refine forLoop_id _ _ _ ?_ _
    intro i s
    exact forLoop_zero_iter 0 0 _ _ (le_refl 0)
  · rw [if_neg hf]

theorem update_magnetic_cpml_east_off (g : fdtd2D) (hT : g.cpml_thickness = 0) :
    update_magnetic_cpml_east g = g := by
  unfold update_magnetic_cpml_east
  dsimp only
  rw [hT]
  by_cases hf : flagSet (g.border_condition border_east) border_cpml = true
  · rw [if_pos hf]
    refine forLoop_id _ _ _ ?_ _
    intro i s
    exact forLoop_zero_iter 0 0 _ _ (le_refl 0)
  · rw [if_neg hf]

theorem update_magnetic_cpml_south_off (g : fdtd2D) (hT : g.cpml_thickness = 0) :
    update_magnetic_cpml_south g = g := by
  unfold update_magnetic_cpml_south
  dsimp only
  rw [hT]
  by_cases hf : flagSet (g.border_condition border_south) border_cpml = true
  · rw [if_pos hf]
    exact forLoop_zero_iter 0 0 _ _ (le_refl 0)
  · rw [if_neg hf]

theorem update_magnetic_cpml_north_off (g : fdtd2D) (hT : g.cpml_thickness = 0) :
    update_magnetic_cpml_north g = g := by
  unfold update_magnetic_cpml_north
  dsimp only
  rw [hT]
  by_cases hf : flagSet (g.border_condition border_north) border_cpml = true
  · rw [if_pos hf]
    exact forLoop_zero_iter 0 0 _ _ (le_refl 0)
  · rw [if_neg hf]

/-- With `cpml_thickness = 0` the function `update_magnetic_cpml` returns the grid it
was given, whatever the face flags. -/
theorem update_magnetic_cpml_off_2D (g : fdtd2D) (hT : g.cpml_thickness = 0) :
    update_magnetic_cpml g = g := by
  unfold update_magnetic_cpml
  rw [update_magnetic_cpml_west_off g hT, update_magnetic_cpml_east_off g hT, update_magnetic_cpml_south_off g hT, update_magnetic_cpml_north_off g hT]

/-- With `cpml_thickness = 0` the body of the run loop is the two updates, the two
source steps and the two border enforcements. -/
theorem run_2D_body_cpml_off (glob : Globals) (ext : Extern) (g : fdtd2D)
    (hT : g.cpml_thickness = 0) :
    run_2D_body glob ext g =
      border_condition_electric (apply_J_sources ext (update_electric_field glob ext (border_condition_magnetic (apply_M_sources ext (update_magnetic_field glob ext g))))) := by
  have h1 : (apply_M_sources ext (update_magnetic_field glob ext g)).cpml_thickness = 0 := by
    rw [static_thickness_2D _ _ (apply_M_sources_static_2D ext _),
      static_thickness_2D _ _ (update_magnetic_field_static_2D glob ext g), hT]
  have h2 : (apply_J_sources ext (update_electric_field glob ext (border_condition_magnetic
      (apply_M_sources ext (update_magnetic_field glob ext g))))).cpml_thickness = 0 := by
    rw [static_thickness_2D _ _ (apply_J_sources_static_2D ext _),
      static_thickness_2D _ _ (update_electric_field_static_2D glob ext _),
      static_thickness_2D _ _ (border_condition_magnetic_static_2D _), h1]
  unfold run_2D_body
  dsimp only
  rw [update_magnetic_cpml_off_2D _ h1, update_electric_cpml_off_2D _ h2]

end D2

namespace D3

theorem static_thickness_3D (g g2 : fdtd3D) (h : g2.static = g.static) :
    g2.cpml_thickness = g.cpml_thickness := by
  unfold fdtd3D.static at h
  simp only [Prod.mk.injEq] at h
  obtain ⟨h0, h1, h2, h3, h4, h5, h6, h7, h8, h9, h10, h11, h12, h13, h14, h15, h16, h17, h18, h19, h20, h21⟩ := h
  exact h8

theorem update_electric_cpml_left_off (g : fdtd3D) (hT : g.cpml_thickness = 0) :
    update_electric_cpml_left g = g := by
  unfold update_electric_cpml_left
  dsimp only
  rw [hT]
  by_cases hf : flagSet (g.border_condition border_left) border_cpml = true
  · rw [if_pos hf]
    refine forLoop_id _ _ _ ?_ _
    intro i s
    exact forLoop_zero_iter 0 0 _ _ (le_refl 0)
  · rw [if_neg hf]

theorem update_electric_cpml_right_off (g : fdtd3D) (hT : g.cpml_thickness = 0) :
    update_electric_cpml_right g = g := by
  unfold update_electric_cpml_right
  dsimp only
  rw [hT]
  by_cases hf : flagSet (g.border_condition border_right) border_cpml = true
  · rw [if_pos hf]
    refine forLoop_id _ _ _ ?_ _
    intro i s
    exact forLoop_zero_iter 0 0 _ _ (le_refl 0)
  · rw [if_neg hf]

theorem update_electric_cpml_front_off (g : fdtd3D) (hT : g.cpml_thickness = 0) :
    update_electric_cpml_front g = g := by
  unfold update_electric_cpml_front
  dsimp only
  rw [hT]
  by_cases hf : flagSet (g.border_condition border_front) border_cpml = true
  · rw [if_pos hf]
    refine forLoop_id _ _ _ ?_ _
    intro i s
    refine forLoop_id _ _ _ ?_ _
    intro j s2
    exact forLoop_zero_iter 0 0 _ _ (le_refl 0)
  · rw [if_neg hf]

theorem update_electric_cpml_back_off (g : fdtd3D) (hT : g.cpml_thickness = 0) :
    update_electric_cpml_back g = g := by
  unfold update_electric_cpml_back
  dsimp only
  rw [hT]
  by_cases hf : flagSet (g.border_condition border_back) border_cpml = true
  · rw [if_pos hf]
    refine forLoop_id _ _ _ ?_ _
    intro i s
    refine forLoop_id _ _ _ ?_ _
    intro j s2
    exact forLoop_zero_iter 0 0 _ _ (le_refl 0)
  · rw [if_neg hf]

theorem update_electric_cpml_bottom_off (g : fdtd3D) (hT : g.cpml_thickness = 0) :
    update_electric_cpml_bottom g = g := by
  unfold update_electric_cpml_bottom
  dsimp only
  rw [hT]
  by_cases hf : flagSet (g.border_condition border_bottom) border_cpml = true
  · rw [if_pos hf]
    exact forLoop_zero_iter 0 0 _ _ (le_refl 0)
  · rw [if_neg hf]

theorem update_electric_cpml_top_off (g : fdtd3D) (hT : g.cpml_thickness = 0) :
    update_electric_cpml_top g = g := by
  unfold update_electric_cpml_top
  dsimp only
  rw [hT]
  by_cases hf : flagSet (g.border_condition border_top) border_cpml = true
  · rw [if_pos hf]
    exact forLoop_zero_iter 0 0 _ _ (le_refl 0)
  · rw [if_neg hf]

/-- With `cpml_thickness = 0` the function `update_electric_cpml` returns the grid it
was given, whatever the face flags. -/
theorem update_electric_cpml_off_3D (g : fdtd3D) (hT : g.cpml_thickness = 0) :
    update_electric_cpml g = g := by
  unfold update_electric_cpml
  rw [update_electric_cpml_left_off g hT, update_electric_cpml_right_off g hT, update_electric_cpml_front_off g hT, update_electric_cpml_back_off g hT, update_electric_cpml_bottom_off g hT, update_electric_cpml_top_off g hT]

theorem update_magnetic_cpml_left_off (g : fdtd3D) (hT : g.cpml_thickness = 0) :
    update_magnetic_cpml_left g = g := by
  unfold update_magnetic_cpml_left
  dsimp only
  rw [hT]
  by_cases hf : flagSet (g.border_condition border_left) border_cpml = true
  · rw [if_pos hf]
    refine forLoop_id _ _ _ ?_ _
    intro i s
    exact forLoop_zero_iter 0 0 _ _ (le_refl 0)
  · rw [if_neg hf]

theorem update_magnetic_cpml_right_off (g : fdtd3D) (hT : g.cpml_thickness = 0) :
    update_magnetic_cpml_right g = g := by
  unfold update_magnetic_cpml_right
  dsimp only
  rw [hT]
  by_cases hf : flagSet (g.border_condition border_right) border_cpml = true
  · rw [if_pos hf]
    refine forLoop_id _ _ _ ?_ _
    intro i s
    exact forLoop_zero_iter 0 0 _ _ (le_refl 0)
  · rw [if_neg hf]

theorem update_magnetic_cpml_front_off (g : fdtd3D) (hT : g.cpml_thickness = 0) :
    update_magnetic_cpml_front g = g := by
  unfold update_magnetic_cpml_front
  dsimp only
  rw [hT]
  by_cases hf : flagSet (g.border_condition border_front) border_cpml = true
  · rw [if_pos hf]
    refine forLoop_id _ _ _ ?_ _
    intro i s
    refine forLoop_id _ _ _ ?_ _
    intro j s2
    exact forLoop_zero_iter 0 0 _ _ (le_refl 0)
  · rw [if_neg hf]

theorem update_magnetic_cpml_back_off (g : fdtd3D) (hT : g.cpml_thickness = 0) :
    update_magnetic_cpml_back g = g := by
  unfold update_magnetic_cpml_back
  dsimp only
  rw [hT]
  by_cases hf : flagSet (g.border_condition border_back) border_cpml = true
  · rw [if_pos hf]
    refine forLoop_id _ _ _ ?_ _
    intro i s
    refine forLoop_id _ _ _ ?_ _
    intro j s2
    exact forLoop_zero_iter 0 0 _ _ (le_refl 0)
  · rw [if_neg hf]

theorem update_magnetic_cpml_bottom_off (g : fdtd3D) (hT : g.cpml_thickness = 0) :
    update_magnetic_cpml_bottom g = g := by
  unfold update_magnetic_cpml_bottom
  dsimp only
  rw [hT]
  by_cases hf : flagSet (g.border_condition border_bottom) border_cpml = true
  · rw [if_pos hf]
    exact forLoop_zero_iter 0 0 _ _ (le_refl 0)
  · rw [if_neg hf]

theorem update_magnetic_cpml_top_off (g : fdtd3D) (hT : g.cpml_thickness = 0) :
    update_magnetic_cpml_top g = g := by
  unfold update_magnetic_cpml_top
  dsimp only
  rw [hT]
  by_cases hf : flagSet (g.border_condition border_top) border_cpml = true
  · rw [if_pos hf]
    exact forLoop_zero_iter 0 0 _ _ (le_refl 0)
  · rw [if_neg hf]

/-- With `cpml_thickness = 0` the function `update_magnetic_cpml` returns the grid it
was given, whatever the face flags. -/
theorem update_magnetic_cpml_off_3D (g : fdtd3D) (hT : g.cpml_thickness = 0) :
    update_magnetic_cpml g = g := by
  unfold update_magnetic_cpml
  rw [update_magnetic_cpml_left_off g hT, update_magnetic_cpml_right_off g hT, update_magnetic_cpml_front_off g hT, update_magnetic_cpml_back_off g hT, update_magnetic_cpml_bottom_off g hT, update_magnetic_cpml_top_off g hT]

/-- With `cpml_thickness = 0` the body of the run loop is the two updates, the two
source steps and the two border enforcements. -/
theorem run_3D_body_cpml_off (ext : Extern) (g : fdtd3D)
    (hT : g.cpml_thickness = 0) :
    run_3D_body ext g =
      border_condition_electric (apply_J_sources ext (update_electric_field (border_condition_magnetic (apply_M_sources ext (update_magnetic_field g))))) := by
  have h1 : (apply_M_sources ext (update_magnetic_field g)).cpml_thickness = 0 := by
    rw [static_thickness_3D _ _ (apply_M_sources_static_3D ext _),
      static_thickness_3D _ _ (update_magnetic_field_static_3D g), hT]
  have h2 : (apply_J_sources ext (update_electric_field (border_condition_magnetic
      (apply_M_sources ext (update_magnetic_field g))))).cpml_thickness = 0 := by
    rw [static_thickness_3D _ _ (apply_J_sources_static_3D ext _),
      static_thickness_3D _ _ (update_electric_field_static_3D _),
      static_thickness_3D _ _ (border_condition_magnetic_static_3D _), h1]
  unfold run_3D_body
  dsimp only
  rw [update_magnetic_cpml_off_3D _ h1, update_electric_cpml_off_3D _ h2]

end D3

/-! ## What a run leaves unchanged -/

namespace D1

/-- The members of a grid that are neither field arrays nor auxiliary arrays nor the
time. -/
theorem run_1D_iteration_fixed (ext : Extern) (s : fdtd1D) :
    (fun x : fdtd1D => (x.dx, x.dt, x.permittivity_inv, x.permeability_inv, x.border_condition, x.domain_size,
      x.sizeX, x.Sc, x.num_Jsources, x.Jsources, x.JsourceLocations, x.num_Msources,
      x.Msources, x.MsourceLocations))
        (advance_time (run_1D_body ext s)) =
      (s.dx, s.dt, s.permittivity_inv, s.permeability_inv, s.border_condition, s.domain_size,
      s.sizeX, s.Sc, s.num_Jsources, s.Jsources, s.JsourceLocations, s.num_Msources,
      s.Msources, s.MsourceLocations) := by
  have hs := run_1D_iteration_static ext s
  rw [run_1D_iteration_unfold] at hs
  unfold fdtd1D.static at hs
  simp only [Prod.mk.injEq] at hs
  obtain ⟨h0, h1, h2, h3, h4, h5, h6, h7, h8, h9, h10, h11, h12, h13, h14⟩ := hs
  show ((advance_time (run_1D_body ext s)).dx, (advance_time (run_1D_body ext s)).dt,
      (advance_time (run_1D_body ext s)).permittivity_inv,
      (advance_time (run_1D_body ext s)).permeability_inv,
      (advance_time (run_1D_body ext s)).border_condition,
      (advance_time (run_1D_body ext s)).domain_size,
      (advance_time (run_1D_body ext s)).sizeX, (advance_time (run_1D_body ext s)).Sc,
      (advance_time (run_1D_body ext s)).num_Jsources,
      (advance_time (run_1D_body ext s)).Jsources,
      (advance_time (run_1D_body ext s)).JsourceLocations,
      (advance_time (run_1D_body ext s)).num_Msources,
      (advance_time (run_1D_body ext s)).Msources,
      (advance_time (run_1D_body ext s)).MsourceLocations) = _
  rw [h0, h1, h2, h3, h4, h5, h6, h7, h8, h9, h10, h11, h12, h13]
  rfl

/-- A run returns a grid whose spacings, time step, material arrays, CPML
coefficients, border flags, sizes and source lists are those of the grid it was
given. -/
theorem run_1D_fdtd_fixed (ext : Extern) (fuel : Nat) (g g2 : fdtd1D)
    (end_time : ℚ) (h : run_1D_fdtd ext fuel g end_time = some g2) :
    g2.dx = g.dx ∧
    g2.dt = g.dt ∧
    g2.permittivity_inv = g.permittivity_inv ∧
    g2.permeability_inv = g.permeability_inv ∧
    g2.border_condition = g.border_condition ∧
    g2.domain_size = g.domain_size ∧
    g2.sizeX = g.sizeX ∧
    g2.Sc = g.Sc ∧
    g2.num_Jsources = g.num_Jsources ∧
    g2.Jsources = g.Jsources ∧
    g2.JsourceLocations = g.JsourceLocations ∧
    g2.num_Msources = g.num_Msources ∧
    g2.Msources = g.Msources ∧
    g2.MsourceLocations = g.MsourceLocations := by
  have hp := runLoop_proj fdtd1D.time (run_1D_body ext) advance_time end_time
    (fun x : fdtd1D => (x.dx, x.dt, x.permittivity_inv, x.permeability_inv, x.border_condition, x.domain_size,
      x.sizeX, x.Sc, x.num_Jsources, x.Jsources, x.JsourceLocations, x.num_Msources,
      x.Msources, x.MsourceLocations))
    (run_1D_iteration_fixed ext) fuel g g2 h
  simp only [Prod.mk.injEq] at hp
  exact hp

/-- A run with a positive time step returns, given fuel for its iterations. -/
theorem run_1D_fdtd_returns (ext : Extern) (g : fdtd1D) (hpos : 0 < g.dt)
    (end_time : ℚ) :
    ∃ g2, run_1D_fdtd ext (iteration_count g.time end_time g.dt) g end_time = some g2 :=
  ⟨_, (run_1D_fdtd_spec ext g hpos end_time).1 _ (le_refl _)⟩

end D1

namespace D2

/-- The members of a grid that are neither field arrays nor auxiliary arrays nor the
time. -/
theorem run_2D_iteration_fixed (glob : Globals) (ext : Extern) (s : fdtd2D) :
    (fun x : fdtd2D => (x.dx, x.dy, x.dt, x.permittivity_inv, x.permeability_inv, x.bx, x.cx, x.cpml_thickness,
      x.border_condition, x.domain_size, x.sizeX, x.sizeY, x.Sc, x.num_Jsources, x.Jsources,
      x.JsourceLocations, x.num_Msources, x.Msources, x.MsourceLocations))
        (advance_time (run_2D_body glob ext s)) =
      (s.dx, s.dy, s.dt, s.permittivity_inv, s.permeability_inv, s.bx, s.cx, s.cpml_thickness,
      s.border_condition, s.domain_size, s.sizeX, s.sizeY, s.Sc, s.num_Jsources, s.Jsources,
      s.JsourceLocations, s.num_Msources, s.Msources, s.MsourceLocations) := by
  have hs := run_2D_iteration_static glob ext s
  rw [run_2D_iteration_unfold] at hs
  unfold fdtd2D.static at hs
  simp only [Prod.mk.injEq] at hs
  obtain ⟨h0, h1, h2, h3, h4, h5, h6, h7, h8, h9, h10, h11, h12, h13, h14, h15, h16, h17, h18, h19⟩ := hs
  show ((advance_time (run_2D_body glob ext s)).dx, (advance_time (run_2D_body glob ext s)).dy,
      (advance_time (run_2D_body glob ext s)).dt,
      (advance_time (run_2D_body glob ext s)).permittivity_inv,
      (advance_time (run_2D_body glob ext s)).permeability_inv,
      (advance_time (run_2D_body glob ext s)).bx, (advance_time (run_2D_body glob ext s)).cx,
      (advance_time (run_2D_body glob ext s)).cpml_thickness,
      (advance_time (run_2D_body glob ext s)).border_condition,
      (advance_time (run_2D_body glob ext s)).domain_size,
      (advance_time (run_2D_body glob ext s)).sizeX,
      (advance_time (run_2D_body glob ext s)).sizeY,
      (advance_time (run_2D_body glob ext s)).Sc,
      (advance_time (run_2D_body glob ext s)).num_Jsources,
      (advance_time (run_2D_body glob ext s)).Jsources,
      (advance_time (run_2D_body glob ext s)).JsourceLocations,
      (advance_time (run_2D_body glob ext s)).num_Msources,
      (advance_time (run_2D_body glob ext s)).Msources,
      (advance_time (run_2D_body glob ext s)).MsourceLocations) = _
  rw [h0, h1, h2, h3, h4, h5, h6, h7, h8, h9, h10, h11, h12, h13, h14, h15, h16, h17, h18]
  rfl

/-- A run returns a grid whose spacings, time step, material arrays, CPML
coefficients, border flags, sizes and source lists are those of the grid it was
given. -/
theorem run_2D_fdtd_fixed (glob : Globals) (ext : Extern) (fuel : Nat) (g g2 : fdtd2D)
    (end_time : ℚ) (h : run_2D_fdtd glob ext fuel g end_time = some g2) :
    g2.dx = g.dx ∧
    g2.dy = g.dy ∧
    g2.dt = g.dt ∧
    g2.permittivity_inv = g.permittivity_inv ∧
    g2.permeability_inv = g.permeability_inv ∧
    g2.bx = g.bx ∧
    g2.cx = g.cx ∧
    g2.cpml_thickness = g.cpml_thickness ∧
    g2.border_condition = g.border_condition ∧
    g2.domain_size = g.domain_size ∧
    g2.sizeX = g.sizeX ∧
    g2.sizeY = g.sizeY ∧
    g2.Sc = g.Sc ∧
    g2.num_Jsources = g.num_Jsources ∧
    g2.Jsources = g.Jsources ∧
    g2.JsourceLocations = g.JsourceLocations ∧
    g2.num_Msources = g.num_Msources ∧
    g2.Msources = g.Msources ∧
    g2.MsourceLocations = g.MsourceLocations := by
  have hp := runLoop_proj fdtd2D.time (run_2D_body glob ext) advance_time end_time
    (fun x : fdtd2D => (x.dx, x.dy, x.dt, x.permittivity_inv, x.permeability_inv, x.bx, x.cx, x.cpml_thickness,
      x.border_condition, x.domain_size, x.sizeX, x.sizeY, x.Sc, x.num_Jsources, x.Jsources,
      x.JsourceLocations, x.num_Msources, x.Msources, x.MsourceLocations))
    (run_2D_iteration_fixed glob ext) fuel g g2 h
  simp only [Prod.mk.injEq] at hp
  exact hp

/-- A run with a positive time step returns, given fuel for its iterations. -/
theorem run_2D_fdtd_returns (glob : Globals) (ext : Extern) (g : fdtd2D) (hpos : 0 < g.dt)
    (end_time : ℚ) :
    ∃ g2, run_2D_fdtd glob ext (iteration_count g.time end_time g.dt) g end_time = some g2 :=
  ⟨_, (run_2D_fdtd_spec glob ext g hpos end_time).1 _ (le_refl _)⟩

end D2

namespace D3

/-- The members of a grid that are neither field arrays nor auxiliary arrays nor the
time. -/
theorem run_3D_iteration_fixed (ext : Extern) (s : fdtd3D) :
    (fun x : fdtd3D => (x.dx, x.dy, x.dz, x.dt, x.permittivity_inv, x.permeability_inv, x.bx, x.cx,
      x.cpml_thickness, x.border_condition, x.domain_size, x.sizeX, x.sizeY, x.sizeZ, x.Sc,
      x.num_Jsources, x.Jsources, x.JsourceLocations, x.num_Msources, x.Msources,
      x.MsourceLocations))
        (advance_time (run_3D_body ext s)) =
      (s.dx, s.dy, s.dz, s.dt, s.permittivity_inv, s.permeability_inv, s.bx, s.cx,
      s.cpml_thickness, s.border_condition, s.domain_size, s.sizeX, s.sizeY, s.sizeZ, s.Sc,
      s.num_Jsources, s.Jsources, s.JsourceLocations, s.num_Msources, s.Msources,
      s.MsourceLocations) := by
  have hs := run_3D_iteration_static ext s
  rw [run_3D_iteration_unfold] at hs
  unfold fdtd3D.static at hs
  simp only [Prod.mk.injEq] at hs
  obtain ⟨h0, h1, h2, h3, h4, h5, h6, h7, h8, h9, h10, h11, h12, h13, h14, h15, h16, h17, h18, h19, h20, h21⟩ := hs
  show ((advance_time (run_3D_body ext s)).dx, (advance_time (run_3D_body ext s)).dy,
      (advance_time (run_3D_body ext s)).dz, (advance_time (run_3D_body ext s)).dt,
      (advance_time (run_3D_body ext s)).permittivity_inv,
      (advance_time (run_3D_body ext s)).permeability_inv,
      (advance_time (run_3D_body ext s)).bx, (advance_time (run_3D_body ext s)).cx,
      (advance_time (run_3D_body ext s)).cpml_thickness,
      (advance_time (run_3D_body ext s)).border_condition,
      (advance_time (run_3D_body ext s)).domain_size,
      (advance_time (run_3D_body ext s)).sizeX, (advance_time (run_3D_body ext s)).sizeY,
      (advance_time (run_3D_body ext s)).sizeZ, (advance_time (run_3D_body ext s)).Sc,
      (advance_time (run_3D_body ext s)).num_Jsources,
      (advance_time (run_3D_body ext s)).Jsources,
      (advance_time (run_3D_body ext s)).JsourceLocations,
      (advance_time (run_3D_body ext s)).num_Msources,
      (advance_time (run_3D_body ext s)).Msources,
      (advance_time (run_3D_body ext s)).MsourceLocations) = _
  rw [h0, h1, h2, h3, h4, h5, h6, h7, h8, h9, h10, h11, h12, h13, h14, h15, h16, h17, h18, h19, h20]
  rfl

/-- A run returns a grid whose spacings, time step, material arrays, CPML
coefficients, border flags, sizes and source lists are those of the grid it was
given. -/
theorem run_3D_fdtd_fixed (ext : Extern) (fuel : Nat) (g g2 : fdtd3D)
    (end_time : ℚ) (h : run_3D_fdtd ext fuel g end_time = some g2) :
    g2.dx = g.dx ∧
    g2.dy = g.dy ∧
    g2.dz = g.dz ∧
    g2.dt = g.dt ∧
    g2.permittivity_inv = g.permittivity_inv ∧
    g2.permeability_inv = g.permeability_inv ∧
    g2.bx = g.bx ∧
    g2.cx = g.cx ∧
    g2.cpml_thickness = g.cpml_thickness ∧
    g2.border_condition = g.border_condition ∧
    g2.domain_size = g.domain_size ∧
    g2.sizeX = g.sizeX ∧
    g2.sizeY = g.sizeY ∧
    g2.sizeZ = g.sizeZ ∧
    g2.Sc = g.Sc ∧
    g2.num_Jsources = g.num_Jsources ∧
    g2.Jsources = g.Jsources ∧
    g2.JsourceLocations = g.JsourceLocations ∧
    g2.num_Msources = g.num_Msources ∧
    g2.Msources = g.Msources ∧
    g2.MsourceLocations = g.MsourceLocations := by
  have hp := runLoop_proj fdtd3D.time (run_3D_body ext) advance_time end_time
    (fun x : fdtd3D => (x.dx, x.dy, x.dz, x.dt, x.permittivity_inv, x.permeability_inv, x.bx, x.cx,
      x.cpml_thickness, x.border_condition, x.domain_size, x.sizeX, x.sizeY, x.sizeZ, x.Sc,
      x.num_Jsources, x.Jsources, x.JsourceLocations, x.num_Msources, x.Msources,
      x.MsourceLocations))
    (run_3D_iteration_fixed ext) fuel g g2 h
  simp only [Prod.mk.injEq] at hp
  exact hp

/-- A run with a positive time step returns, given fuel for its iterations. -/
theorem run_3D_fdtd_returns (ext : Extern) (g : fdtd3D) (hpos : 0 < g.dt)
    (end_time : ℚ) :
    ∃ g2, run_3D_fdtd ext (iteration_count g.time end_time g.dt) g end_time = some g2 :=
  ⟨_, (run_3D_fdtd_spec ext g hpos end_time).1 _ (le_refl _)⟩

end D3

/-! ## Medium initialisation -/

theorem forLoop_congr {σ : Type} (lo hi : Nat) (body body2 : Nat → σ → σ)
    (h : ∀ i s, body i s = body2 i s) (s : σ) : forLoop lo hi body s = forLoop lo hi body2 s := by
  have e : body = body2 := funext (fun i => funext (fun s => h i s))
  rw [e]

/-- A loop that carries a position starting at 0 and growing by `d`: at iteration `i`
the position is `i * d`. -/
theorem forLoop_counter {σ : Type} (f : Nat → ℚ → σ → σ) (d : ℚ) (n : Nat) (s : σ) :
    forLoop 0 n (fun i (st : σ × ℚ) => (f i st.2 st.1, st.2 + d)) (s, 0) =
      (forLoop 0 n (fun i s => f i ((i : ℚ) * d) s) s, (n : ℚ) * d) := by
  induction n with
  | zero => simp [forLoop]
  | succ n ih =>
    rw [forLoop_succ, ih, forLoop_succ]
    refine Prod.ext rfl ?_
    show (n : ℚ) * d + d = ((n + 1 : Nat) : ℚ) * d
    push_cast
    ring

theorem foldl_append_flatMap {α β : Type} (G : α → List β) (l : List α) (init : List β) :
    l.foldl (fun out k => out ++ G k) init = init ++ l.flatMap G := by
  induction l generalizing init with
  | nil => simp
  | cons a as ih => rw [List.foldl_cons, ih, List.flatMap_cons, List.append_assoc]

/-- A fold that stores a value depending on the key only in each of two arrays. -/
theorem foldl_two_stores {σ κ : Type} [DecidableEq κ] (emb : (κ → ℚ) × (κ → ℚ) → σ)
    (body : κ → σ → σ) (v w : κ → ℚ) (ks : List κ) (hnd : ks.Nodup) (inB : κ → Prop)
    [DecidablePred inB] (hmem : ∀ x, x ∈ ks ↔ inB x)
    (h : ∀ k p, body k (emb p) = emb (store p.1 k (v k), store p.2 k (w k)))
    (p : (κ → ℚ) × (κ → ℚ)) :
    ks.foldl (fun s k => body k s) (emb p) =
      emb (fun x => if inB x then v x else p.1 x, fun x => if inB x then w x else p.2 x) := by
  rw [foldl_lift emb body (fun k p => (store p.1 k (v k), store p.2 k (w k))) ks h p]
  have e := foldl_prod (fun k (a : κ → ℚ) => store a k (v k))
    (fun k (a : κ → ℚ) => store a k (w k)) ks p.1 p.2
  have e1 := foldl_store_self (fun k _ => v k) ks hnd inB hmem p.1
  have e2 := foldl_store_self (fun k _ => w k) ks hnd inB hmem p.2
  rw [show p = (p.1, p.2) from rfl, e, e1, e2]

/-- A fold whose state is a pair, the second component being a list that grows. -/
theorem foldl_with_log {σ α β : Type} (F : α → σ → σ) (G : α → List β) (l : List α) (s : σ) :
    l.foldl (fun (st : σ × List β) k => (F k st.1, st.2 ++ G k)) (s, []) =
      (l.foldl (fun s k => F k s) s, l.flatMap G) := by
  have e := foldl_prod F (fun k (out : List β) => out ++ G k) l s []
  rw [e, foldl_append_flatMap]
  rfl

theorem mem_range_zero (n x : Nat) : x ∈ List.range' 0 n ↔ x < n := by
  rw [List.mem_range'_1]
  omega

namespace D1

/-- The cell step of `init_fdtd_1D_medium` as a fold over the cells in their order,
the callbacks applied to the position `i * dx`. -/
theorem init_fdtd_1D_medium_fold (muR epsR : ℚ → ℚ) (g : fdtd1D) :
    init_fdtd_1D_medium muR epsR g =
      (List.range' 0 g.sizeX).foldl (fun (s : fdtd1D) i =>
        { s with
          permeability_inv := store s.permeability_inv i (1 / (muR ((i : ℚ) * g.dx) * mu0)),
          permittivity_inv :=
            store s.permittivity_inv i (1 / (epsR ((i : ℚ) * g.dx) * eps0)) }) g := by
  unfold init_fdtd_1D_medium
  exact congrArg Prod.fst (forLoop_counter (fun i pos (s : fdtd1D) =>
    { s with
      permeability_inv := store s.permeability_inv i (1 / (muR pos * mu0)),
      permittivity_inv := store s.permittivity_inv i (1 / (epsR pos * eps0)) }) g.dx g.sizeX g)

/-- The grid after `init_fdtd_1D_medium`: the two material arrays hold the values of
the callbacks at the cell positions, on the cells of the grid; nothing else changes. -/
theorem init_fdtd_1D_medium_eq (muR epsR : ℚ → ℚ) (g : fdtd1D) :
    init_fdtd_1D_medium muR epsR g =
      { g with
        permeability_inv := fun i =>
          if i < g.sizeX then 1 / (muR ((i : ℚ) * g.dx) * mu0) else g.permeability_inv i,
        permittivity_inv := fun i =>
          if i < g.sizeX then 1 / (epsR ((i : ℚ) * g.dx) * eps0) else g.permittivity_inv i } := by
  rw [init_fdtd_1D_medium_fold]
  refine foldl_two_stores (fun p : Arr1 × Arr1 =>
      ({ g with permeability_inv := p.1, permittivity_inv := p.2 } : fdtd1D))
    (fun i (s : fdtd1D) =>
      { s with
        permeability_inv := store s.permeability_inv i (1 / (muR ((i : ℚ) * g.dx) * mu0)),
        permittivity_inv := store s.permittivity_inv i (1 / (epsR ((i : ℚ) * g.dx) * eps0)) })
    (fun i => 1 / (muR ((i : ℚ) * g.dx) * mu0)) (fun i => 1 / (epsR ((i : ℚ) * g.dx) * eps0))
    (List.range' 0 g.sizeX) (List.nodup_range' _ _) (fun i => i < g.sizeX)
    (mem_range_zero g.sizeX) ?_ (g.permeability_inv, g.permittivity_inv)
  intro k p
  rfl

/-- The function `init_fdtd_1D_medium_user` as a fold over the cells in their order:
at each cell one call of the permeability callback, then one call of the permittivity
callback, both at the position `i * dx`. -/
theorem init_fdtd_1D_medium_user_fold {υ : Type} (muR epsR : ℚ → υ → ℚ × υ) (u : υ)
    (g : fdtd1D) :
    init_fdtd_1D_medium_user muR epsR u g =
      (List.range' 0 g.sizeX).foldl (fun (st : fdtd1D × υ) i =>
        ({ st.1 with
            permeability_inv :=
              store st.1.permeability_inv i (1 / ((muR ((i : ℚ) * g.dx) st.2).1 * mu0)),
            permittivity_inv :=
              store st.1.permittivity_inv i
                (1 / ((epsR ((i : ℚ) * g.dx) (muR ((i : ℚ) * g.dx) st.2).2).1 * eps0)) },
          (epsR ((i : ℚ) * g.dx) (muR ((i : ℚ) * g.dx) st.2).2).2)) (g, u) := by
  unfold init_fdtd_1D_medium_user
  exact congrArg Prod.fst (forLoop_counter (fun i pos (st : fdtd1D × υ) =>
    ({ st.1 with
        permeability_inv := store st.1.permeability_inv i (1 / ((muR pos st.2).1 * mu0)),
        permittivity_inv :=
          store st.1.permittivity_inv i (1 / ((epsR pos (muR pos st.2).2).1 * eps0)) },
      (epsR pos (muR pos st.2).2).2)) g.dx g.sizeX (g, u))

/-- With callbacks that log their calls, `init_fdtd_1D_medium_user` returns the grid
of `init_fdtd_1D_medium` and the list of the calls: for each cell in turn, the
permeability callback and then the permittivity callback at the position of the
cell. -/
theorem init_fdtd_1D_medium_calls (muR epsR : ℚ → ℚ) (g : fdtd1D) :
    init_fdtd_1D_medium_user (log_call medium_quantity.permeability muR)
        (log_call medium_quantity.permittivity epsR) [] g =
      (init_fdtd_1D_medium muR epsR g,
        (List.range' 0 g.sizeX).flatMap (fun i =>
          [(⟨medium_quantity.permeability, [(i : ℚ) * g.dx]⟩ : medium_call),
            (⟨medium_quantity.permittivity, [(i : ℚ) * g.dx]⟩ : medium_call)])) := by
  rw [init_fdtd_1D_medium_user_fold, init_fdtd_1D_medium_fold]
  refine Eq.trans (congrArg (fun f => List.foldl f (g, []) (List.range' 0 g.sizeX)) ?_)
    (foldl_with_log (fun i (s : fdtd1D) =>
      { s with
        permeability_inv := store s.permeability_inv i (1 / (muR ((i : ℚ) * g.dx) * mu0)),
        permittivity_inv := store s.permittivity_inv i (1 / (epsR ((i : ℚ) * g.dx) * eps0)) })
    (fun i => [(⟨medium_quantity.permeability, [(i : ℚ) * g.dx]⟩ : medium_call),
      (⟨medium_quantity.permittivity, [(i : ℚ) * g.dx]⟩ : medium_call)])
    (List.range' 0 g.sizeX) g)
  funext st i
  refine Prod.ext rfl ?_
  show (st.2 ++ [_]) ++ [_] = st.2 ++ [_, _]
  rw [List.append_assoc]
  rfl

end D1

namespace D2

/-- The cell step of `init_fdtd_2D_medium` as a fold over the cells in row-major order, the
callbacks applied to the position of the cell. -/
theorem init_fdtd_2D_medium_fold (muR epsR : ℚ → ℚ → ℚ) (g : fdtd2D) :
    init_fdtd_2D_medium muR epsR g =
      (keys2 0 g.sizeX 0 g.sizeY).foldl (fun (s : fdtd2D) k =>
        { s with permeability_inv := store s.permeability_inv k (1 / (muR ((k.1 : ℚ) * g.dx) ((k.2 : ℚ) * g.dy) * mu0)), permittivity_inv := store s.permittivity_inv k (1 / (epsR ((k.1 : ℚ) * g.dx) ((k.2 : ℚ) * g.dy) * eps0)) }) g := by
  unfold init_fdtd_2D_medium
  refine (congrArg Prod.fst (forLoop_congr 0 g.sizeX _
    (fun i (st : (fdtd2D) × ℚ) => (forLoop 0 g.sizeY (fun j (s : fdtd2D) =>
      { s with permeability_inv := store s.permeability_inv (i, j) (1 / (muR st.2 ((j : ℚ) * g.dy) * mu0)), permittivity_inv := store s.permittivity_inv (i, j) (1 / (epsR st.2 ((j : ℚ) * g.dy) * eps0)) }) st.1, st.2 + g.dx)) ?_ (g, 0))).trans ?_
  · intro i st
    have h := forLoop_counter (fun j pos (s : fdtd2D) =>
      { s with permeability_inv := store s.permeability_inv (i, j) (1 / (muR st.2 pos * mu0)), permittivity_inv := store s.permittivity_inv (i, j) (1 / (epsR st.2 pos * eps0)) }) g.dy g.sizeY st.1
    have h2 := congrArg Prod.fst h
    exact Prod.ext h2 rfl
  · rw [forLoop_counter (fun i pos (s : fdtd2D) => forLoop 0 g.sizeY (fun j (s : fdtd2D) =>
      { s with permeability_inv := store s.permeability_inv (i, j) (1 / (muR pos ((j : ℚ) * g.dy) * mu0)), permittivity_inv := store s.permittivity_inv (i, j) (1 / (epsR pos ((j : ℚ) * g.dy) * eps0)) }) s) g.dx g.sizeX g]
    exact forLoop2_eq_foldl 0 g.sizeX 0 g.sizeY (fun k (s : fdtd2D) =>
      { s with permeability_inv := store s.permeability_inv k (1 / (muR ((k.1 : ℚ) * g.dx) ((k.2 : ℚ) * g.dy) * mu0)), permittivity_inv := store s.permittivity_inv k (1 / (epsR ((k.1 : ℚ) * g.dx) ((k.2 : ℚ) * g.dy) * eps0)) }) g

/-- The function `init_fdtd_2D_medium_user` as a fold over the cells in row-major order: at
each cell one call of the permeability callback, then one call of the permittivity
callback, both at the position of the cell. -/
theorem init_fdtd_2D_medium_user_fold {υ : Type} (muR epsR : ℚ → ℚ → υ → ℚ × υ) (u : υ) (g : fdtd2D) :
    init_fdtd_2D_medium_user muR epsR u g =
      (keys2 0 g.sizeX 0 g.sizeY).foldl (fun (s : fdtd2D × υ) k =>
        ({ s.1 with permeability_inv := store s.1.permeability_inv k (1 / ((muR ((k.1 : ℚ) * g.dx) ((k.2 : ℚ) * g.dy) s.2).1 * mu0)), permittivity_inv := store s.1.permittivity_inv k (1 / ((epsR ((k.1 : ℚ) * g.dx) ((k.2 : ℚ) * g.dy) (muR ((k.1 : ℚ) * g.dx) ((k.2 : ℚ) * g.dy) s.2).2).1 * eps0)) }, (epsR ((k.1 : ℚ) * g.dx) ((k.2 : ℚ) * g.dy) (muR ((k.1 : ℚ) * g.dx) ((k.2 : ℚ) * g.dy) s.2).2).2)) (g, u) := by
  unfold init_fdtd_2D_medium_user
  refine (congrArg Prod.fst (forLoop_congr 0 g.sizeX _
    (fun i (st : (fdtd2D × υ) × ℚ) => (forLoop 0 g.sizeY (fun j (s : fdtd2D × υ) =>
      ({ s.1 with permeability_inv := store s.1.permeability_inv (i, j) (1 / ((muR st.2 ((j : ℚ) * g.dy) s.2).1 * mu0)), permittivity_inv := store s.1.permittivity_inv (i, j) (1 / ((epsR st.2 ((j : ℚ) * g.dy) (muR st.2 ((j : ℚ) * g.dy) s.2).2).1 * eps0)) }, (epsR st.2 ((j : ℚ) * g.dy) (muR st.2 ((j : ℚ) * g.dy) s.2).2).2)) st.1, st.2 + g.dx)) ?_ ((g, u), 0))).trans ?_
  · intro i st
    have h := forLoop_counter (fun j pos (s : fdtd2D × υ) =>
      ({ s.1 with permeability_inv := store s.1.permeability_inv (i, j) (1 / ((muR st.2 pos s.2).1 * mu0)), permittivity_inv := store s.1.permittivity_inv (i, j) (1 / ((epsR st.2 pos (muR st.2 pos s.2).2).1 * eps0)) }, (epsR st.2 pos (muR st.2 pos s.2).2).2)) g.dy g.sizeY st.1
    have h2 := congrArg Prod.fst h
    exact Prod.ext h2 rfl
  · rw [forLoop_counter (fun i pos (s : fdtd2D × υ) => forLoop 0 g.sizeY (fun j (s : fdtd2D × υ) =>
      ({ s.1 with permeability_inv := store s.1.permeability_inv (i, j) (1 / ((muR pos ((j : ℚ) * g.dy) s.2).1 * mu0)), permittivity_inv := store s.1.permittivity_inv (i, j) (1 / ((epsR pos ((j : ℚ) * g.dy) (muR pos ((j : ℚ) * g.dy) s.2).2).1 * eps0)) }, (epsR pos ((j : ℚ) * g.dy) (muR pos ((j : ℚ) * g.dy) s.2).2).2)) s) g.dx g.sizeX (g, u)]
    exact forLoop2_eq_foldl 0 g.sizeX 0 g.sizeY (fun k (s : fdtd2D × υ) =>
      ({ s.1 with permeability_inv := store s.1.permeability_inv k (1 / ((muR ((k.1 : ℚ) * g.dx) ((k.2 : ℚ) * g.dy) s.2).1 * mu0)), permittivity_inv := store s.1.permittivity_inv k (1 / ((epsR ((k.1 : ℚ) * g.dx) ((k.2 : ℚ) * g.dy) (muR ((k.1 : ℚ) * g.dx) ((k.2 : ℚ) * g.dy) s.2).2).1 * eps0)) }, (epsR ((k.1 : ℚ) * g.dx) ((k.2 : ℚ) * g.dy) (muR ((k.1 : ℚ) * g.dx) ((k.2 : ℚ) * g.dy) s.2).2).2)) (g, u)

/-- The grid after `init_fdtd_2D_medium`: on the cells of the grid the two material arrays hold
the values of the callbacks at the cell positions; nothing else changes. -/
theorem init_fdtd_2D_medium_eq (muR epsR : ℚ → ℚ → ℚ) (g : fdtd2D) :
    init_fdtd_2D_medium muR epsR g =
      { g with
        permeability_inv := fun x =>
          if inBox2 0 g.sizeX 0 g.sizeY x then 1 / (muR ((x.1 : ℚ) * g.dx) ((x.2 : ℚ) * g.dy) * mu0) else g.permeability_inv x,
        permittivity_inv := fun x =>
          if inBox2 0 g.sizeX 0 g.sizeY x then 1 / (epsR ((x.1 : ℚ) * g.dx) ((x.2 : ℚ) * g.dy) * eps0) else g.permittivity_inv x } := by
  rw [init_fdtd_2D_medium_fold]
  refine foldl_two_stores (fun p : Arr2 × Arr2 =>
      ({ g with permeability_inv := p.1, permittivity_inv := p.2 } : fdtd2D))
    (fun k (s : fdtd2D) =>
      { s with permeability_inv := store s.permeability_inv k (1 / (muR ((k.1 : ℚ) * g.dx) ((k.2 : ℚ) * g.dy) * mu0)), permittivity_inv := store s.permittivity_inv k (1 / (epsR ((k.1 : ℚ) * g.dx) ((k.2 : ℚ) * g.dy) * eps0)) })
    (fun k => 1 / (muR ((k.1 : ℚ) * g.dx) ((k.2 : ℚ) * g.dy) * mu0)) (fun k => 1 / (epsR ((k.1 : ℚ) * g.dx) ((k.2 : ℚ) * g.dy) * eps0))
    (keys2 0 g.sizeX 0 g.sizeY) (nodup_keys2 _ _ _ _) (inBox2 0 g.sizeX 0 g.sizeY)
    (fun _ => mem_keys2) ?_ (g.permeability_inv, g.permittivity_inv)
  intro k p
  rfl

/-- With callbacks that log their calls, `init_fdtd_2D_medium_user` returns the grid of
`init_fdtd_2D_medium` and the list of the calls: for each cell in row-major order, the
permeability callback and then the permittivity callback at the position of the
cell. -/
theorem init_fdtd_2D_medium_calls (muR epsR : ℚ → ℚ → ℚ) (g : fdtd2D) :
    init_fdtd_2D_medium_user (log_call medium_quantity.permeability muR)
        (log_call medium_quantity.permittivity epsR) [] g =
      (init_fdtd_2D_medium muR epsR g,
        (keys2 0 g.sizeX 0 g.sizeY).flatMap (fun k =>
          [(⟨medium_quantity.permeability, [((k.1 : ℚ) * g.dx), ((k.2 : ℚ) * g.dy)]⟩ : medium_call),
            (⟨medium_quantity.permittivity, [((k.1 : ℚ) * g.dx), ((k.2 : ℚ) * g.dy)]⟩ : medium_call)])) := by
  rw [init_fdtd_2D_medium_user_fold, init_fdtd_2D_medium_fold]
  refine Eq.trans (congrArg (fun f => List.foldl f (g, []) (keys2 0 g.sizeX 0 g.sizeY)) ?_)
    (foldl_with_log (fun k (s : fdtd2D) =>
      { s with permeability_inv := store s.permeability_inv k (1 / (muR ((k.1 : ℚ) * g.dx) ((k.2 : ℚ) * g.dy) * mu0)), permittivity_inv := store s.permittivity_inv k (1 / (epsR ((k.1 : ℚ) * g.dx) ((k.2 : ℚ) * g.dy) * eps0)) })
    (fun k => [(⟨medium_quantity.permeability, [((k.1 : ℚ) * g.dx), ((k.2 : ℚ) * g.dy)]⟩ : medium_call),
      (⟨medium_quantity.permittivity, [((k.1 : ℚ) * g.dx), ((k.2 : ℚ) * g.dy)]⟩ : medium_call)])
    (keys2 0 g.sizeX 0 g.sizeY) g)
  funext st k
  refine Prod.ext rfl ?_
  show (st.2 ++ [_]) ++ [_] = st.2 ++ [_, _]
  rw [List.append_assoc]
  rfl

end D2

namespace D3

/-- The cell step of `init_fdtd_3D_medium` as a fold over the cells in row-major order, the
callbacks applied to the position of the cell. -/
theorem init_fdtd_3D_medium_fold (muR epsR : ℚ → ℚ → ℚ → ℚ) (g : fdtd3D) :
    init_fdtd_3D_medium muR epsR g =
      (keys3 0 g.sizeX 0 g.sizeY 0 g.sizeZ).foldl (fun (s : fdtd3D) k =>
        { s with permeability_inv := store s.permeability_inv k (1 / (muR ((k.1 : ℚ) * g.dx) ((k.2.1 : ℚ) * g.dy) ((k.2.2 : ℚ) * g.dz) * mu0)), permittivity_inv := store s.permittivity_inv k (1 / (epsR ((k.1 : ℚ) * g.dx) ((k.2.1 : ℚ) * g.dy) ((k.2.2 : ℚ) * g.dz) * eps0)) }) g := by
  unfold init_fdtd_3D_medium
  have hmid : ∀ (i : Nat) (px : ℚ) (s0 : fdtd3D),
      forLoop 0 g.sizeY (fun j (su : (fdtd3D) × ℚ) =>
        ((forLoop 0 g.sizeZ (fun k (sv : (fdtd3D) × ℚ) =>
          ({ sv.1 with permeability_inv := store sv.1.permeability_inv (i, j, k) (1 / (muR px su.2 sv.2 * mu0)), permittivity_inv := store sv.1.permittivity_inv (i, j, k) (1 / (epsR px su.2 sv.2 * eps0)) }, sv.2 + g.dz)) (su.1, 0)).1, su.2 + g.dy)) (s0, 0) =
      (forLoop 0 g.sizeY (fun j (s : fdtd3D) => forLoop 0 g.sizeZ (fun k (s : fdtd3D) =>
        { s with permeability_inv := store s.permeability_inv (i, j, k) (1 / (muR px ((j : ℚ) * g.dy) ((k : ℚ) * g.dz) * mu0)), permittivity_inv := store s.permittivity_inv (i, j, k) (1 / (epsR px ((j : ℚ) * g.dy) ((k : ℚ) * g.dz) * eps0)) }) s) s0, (g.sizeY : ℚ) * g.dy) := by
    intro i px s0
    refine (forLoop_congr 0 g.sizeY _
      (fun j (su : (fdtd3D) × ℚ) => (forLoop 0 g.sizeZ (fun k (s : fdtd3D) =>
        { s with permeability_inv := store s.permeability_inv (i, j, k) (1 / (muR px su.2 ((k : ℚ) * g.dz) * mu0)), permittivity_inv := store s.permittivity_inv (i, j, k) (1 / (epsR px su.2 ((k : ℚ) * g.dz) * eps0)) }) su.1, su.2 + g.dy)) ?_ (s0, 0)).trans ?_
    · intro j su
      have h := forLoop_counter (fun k pos (s : fdtd3D) =>
        { s with permeability_inv := store s.permeability_inv (i, j, k) (1 / (muR px su.2 pos * mu0)), permittivity_inv := store s.permittivity_inv (i, j, k) (1 / (epsR px su.2 pos * eps0)) }) g.dz g.sizeZ su.1
      have h2 := congrArg Prod.fst h
      exact Prod.ext h2 rfl
    · exact forLoop_counter (fun j pos (s : fdtd3D) => forLoop 0 g.sizeZ (fun k (s : fdtd3D) =>
        { s with permeability_inv := store s.permeability_inv (i, j, k) (1 / (muR px pos ((k : ℚ) * g.dz) * mu0)), permittivity_inv := store s.permittivity_inv (i, j, k) (1 / (epsR px pos ((k : ℚ) * g.dz) * eps0)) }) s) g.dy g.sizeY s0
  refine (congrArg Prod.fst (forLoop_congr 0 g.sizeX _
    (fun i (st : (fdtd3D) × ℚ) => (forLoop 0 g.sizeY (fun j (s : fdtd3D) =>
      forLoop 0 g.sizeZ (fun k (s : fdtd3D) =>
        { s with permeability_inv := store s.permeability_inv (i, j, k) (1 / (muR st.2 ((j : ℚ) * g.dy) ((k : ℚ) * g.dz) * mu0)), permittivity_inv := store s.permittivity_inv (i, j, k) (1 / (epsR st.2 ((j : ℚ) * g.dy) ((k : ℚ) * g.dz) * eps0)) }) s) st.1, st.2 + g.dx)) ?_ (g, 0))).trans ?_
  · intro i st
    have h := hmid i st.2 st.1
    have h2 := congrArg Prod.fst h
    exact Prod.ext h2 rfl
  · rw [forLoop_counter (fun i pos (s : fdtd3D) => forLoop 0 g.sizeY (fun j (s : fdtd3D) =>
      forLoop 0 g.sizeZ (fun k (s : fdtd3D) =>
        { s with permeability_inv := store s.permeability_inv (i, j, k) (1 / (muR pos ((j : ℚ) * g.dy) ((k : ℚ) * g.dz) * mu0)), permittivity_inv := store s.permittivity_inv (i, j, k) (1 / (epsR pos ((j : ℚ) * g.dy) ((k : ℚ) * g.dz) * eps0)) }) s) s) g.dx g.sizeX g]
    exact forLoop3_eq_foldl 0 g.sizeX 0 g.sizeY 0 g.sizeZ (fun k (s : fdtd3D) =>
      { s with permeability_inv := store s.permeability_inv k (1 / (muR ((k.1 : ℚ) * g.dx) ((k.2.1 : ℚ) * g.dy) ((k.2.2 : ℚ) * g.dz) * mu0)), permittivity_inv := store s.permittivity_inv k (1 / (epsR ((k.1 : ℚ) * g.dx) ((k.2.1 : ℚ) * g.dy) ((k.2.2 : ℚ) * g.dz) * eps0)) }) g

/-- The function `init_fdtd_3D_medium_user` as a fold over the cells in row-major order: at
each cell one call of the permeability callback, then one call of the permittivity
callback, both at the position of the cell. -/
theorem init_fdtd_3D_medium_user_fold {υ : Type} (muR epsR : ℚ → ℚ → ℚ → υ → ℚ × υ) (u : υ) (g : fdtd3D) :
    init_fdtd_3D_medium_user muR epsR u g =
      (keys3 0 g.sizeX 0 g.sizeY 0 g.sizeZ).foldl (fun (s : fdtd3D × υ) k =>
        ({ s.1 with permeability_inv := store s.1.permeability_inv k (1 / ((muR ((k.1 : ℚ) * g.dx) ((k.2.1 : ℚ) * g.dy) ((k.2.2 : ℚ) * g.dz) s.2).1 * mu0)), permittivity_inv := store s.1.permittivity_inv k (1 / ((epsR ((k.1 : ℚ) * g.dx) ((k.2.1 : ℚ) * g.dy) ((k.2.2 : ℚ) * g.dz) (muR ((k.1 : ℚ) * g.dx) ((k.2.1 : ℚ) * g.dy) ((k.2.2 : ℚ) * g.dz) s.2).2).1 * eps0)) }, (epsR ((k.1 : ℚ) * g.dx) ((k.2.1 : ℚ) * g.dy) ((k.2.2 : ℚ) * g.dz) (muR ((k.1 : ℚ) * g.dx) ((k.2.1 : ℚ) * g.dy) ((k.2.2 : ℚ) * g.dz) s.2).2).2)) (g, u) := by
  unfold init_fdtd_3D_medium_user
  have hmid : ∀ (i : Nat) (px : ℚ) (s0 : fdtd3D × υ),
      forLoop 0 g.sizeY (fun j (su : (fdtd3D × υ) × ℚ) =>
        ((forLoop 0 g.sizeZ (fun k (sv : (fdtd3D × υ) × ℚ) =>
          (({ sv.1.1 with permeability_inv := store sv.1.1.permeability_inv (i, j, k) (1 / ((muR px su.2 sv.2 sv.1.2).1 * mu0)), permittivity_inv := store sv.1.1.permittivity_inv (i, j, k) (1 / ((epsR px su.2 sv.2 (muR px su.2 sv.2 sv.1.2).2).1 * eps0)) }, (epsR px su.2 sv.2 (muR px su.2 sv.2 sv.1.2).2).2), sv.2 + g.dz)) (su.1, 0)).1, su.2 + g.dy)) (s0, 0) =
      (forLoop 0 g.sizeY (fun j (s : fdtd3D × υ) => forLoop 0 g.sizeZ (fun k (s : fdtd3D × υ) =>
        ({ s.1 with permeability_inv := store s.1.permeability_inv (i, j, k) (1 / ((muR px ((j : ℚ) * g.dy) ((k : ℚ) * g.dz) s.2).1 * mu0)), permittivity_inv := store s.1.permittivity_inv (i, j, k) (1 / ((epsR px ((j : ℚ) * g.dy) ((k : ℚ) * g.dz) (muR px ((j : ℚ) * g.dy) ((k : ℚ) * g.dz) s.2).2).1 * eps0)) }, (epsR px ((j : ℚ) * g.dy) ((k : ℚ) * g.dz) (muR px ((j : ℚ) * g.dy) ((k : ℚ) * g.dz) s.2).2).2)) s) s0, (g.sizeY : ℚ) * g.dy) := by
    intro i px s0
    refine (forLoop_congr 0 g.sizeY _
      (fun j (su : (fdtd3D × υ) × ℚ) => (forLoop 0 g.sizeZ (fun k (s : fdtd3D × υ) =>
        ({ s.1 with permeability_inv := store s.1.permeability_inv (i, j, k) (1 / ((muR px su.2 ((k : ℚ) * g.dz) s.2).1 * mu0)), permittivity_inv := store s.1.permittivity_inv (i, j, k) (1 / ((epsR px su.2 ((k : ℚ) * g.dz) (muR px su.2 ((k : ℚ) * g.dz) s.2).2).1 * eps0)) }, (epsR px su.2 ((k : ℚ) * g.dz) (muR px su.2 ((k : ℚ) * g.dz) s.2).2).2)) su.1, su.2 + g.dy)) ?_ (s0, 0)).trans ?_
    · intro j su
      have h := forLoop_counter (fun k pos (s : fdtd3D × υ) =>
        ({ s.1 with permeability_inv := store s.1.permeability_inv (i, j, k) (1 / ((muR px su.2 pos s.2).1 * mu0)), permittivity_inv := store s.1.permittivity_inv (i, j, k) (1 / ((epsR px su.2 pos (muR px su.2 pos s.2).2).1 * eps0)) }, (epsR px su.2 pos (muR px su.2 pos s.2).2).2)) g.dz g.sizeZ su.1
      have h2 := congrArg Prod.fst h
      exact Prod.ext h2 rfl
    · exact forLoop_counter (fun j pos (s : fdtd3D × υ) => forLoop 0 g.sizeZ (fun k (s : fdtd3D × υ) =>
        ({ s.1 with permeability_inv := store s.1.permeability_inv (i, j, k) (1 / ((muR px pos ((k : ℚ) * g.dz) s.2).1 * mu0)), permittivity_inv := store s.1.permittivity_inv (i, j, k) (1 / ((epsR px pos ((k : ℚ) * g.dz) (muR px pos ((k : ℚ) * g.dz) s.2).2).1 * eps0)) }, (epsR px pos ((k : ℚ) * g.dz) (muR px pos ((k : ℚ) * g.dz) s.2).2).2)) s) g.dy g.sizeY s0
  refine (congrArg Prod.fst (forLoop_congr 0 g.sizeX _
    (fun i (st : (fdtd3D × υ) × ℚ) => (forLoop 0 g.sizeY (fun j (s : fdtd3D × υ) =>
      forLoop 0 g.sizeZ (fun k (s : fdtd3D × υ) =>
        ({ s.1 with permeability_inv := store s.1.permeability_inv (i, j, k) (1 / ((muR st.2 ((j : ℚ) * g.dy) ((k : ℚ) * g.dz) s.2).1 * mu0)), permittivity_inv := store s.1.permittivity_inv (i, j, k) (1 / ((epsR st.2 ((j : ℚ) * g.dy) ((k : ℚ) * g.dz) (muR st.2 ((j : ℚ) * g.dy) ((k : ℚ) * g.dz) s.2).2).1 * eps0)) }, (epsR st.2 ((j : ℚ) * g.dy) ((k : ℚ) * g.dz) (muR st.2 ((j : ℚ) * g.dy) ((k : ℚ) * g.dz) s.2).2).2)) s) st.1, st.2 + g.dx)) ?_ ((g, u), 0))).trans ?_
  · intro i st
    have h := hmid i st.2 st.1
    have h2 := congrArg Prod.fst h
    exact Prod.ext h2 rfl
  · rw [forLoop_counter (fun i pos (s : fdtd3D × υ) => forLoop 0 g.sizeY (fun j (s : fdtd3D × υ) =>
      forLoop 0 g.sizeZ (fun k (s : fdtd3D × υ) =>
        ({ s.1 with permeability_inv := store s.1.permeability_inv (i, j, k) (1 / ((muR pos ((j : ℚ) * g.dy) ((k : ℚ) * g.dz) s.2).1 * mu0)), permittivity_inv := store s.1.permittivity_inv (i, j, k) (1 / ((epsR pos ((j : ℚ) * g.dy) ((k : ℚ) * g.dz) (muR pos ((j : ℚ) * g.dy) ((k : ℚ) * g.dz) s.2).2).1 * eps0)) }, (epsR pos ((j : ℚ) * g.dy) ((k : ℚ) * g.dz) (muR pos ((j : ℚ) * g.dy) ((k : ℚ) * g.dz) s.2).2).2)) s) s) g.dx g.sizeX (g, u)]
    exact forLoop3_eq_foldl 0 g.sizeX 0 g.sizeY 0 g.sizeZ (fun k (s : fdtd3D × υ) =>
      ({ s.1 with permeability_inv := store s.1.permeability_inv k (1 / ((muR ((k.1 : ℚ) * g.dx) ((k.2.1 : ℚ) * g.dy) ((k.2.2 : ℚ) * g.dz) s.2).1 * mu0)), permittivity_inv := store s.1.permittivity_inv k (1 / ((epsR ((k.1 : ℚ) * g.dx) ((k.2.1 : ℚ) * g.dy) ((k.2.2 : ℚ) * g.dz) (muR ((k.1 : ℚ) * g.dx) ((k.2.1 : ℚ) * g.dy) ((k.2.2 : ℚ) * g.dz) s.2).2).1 * eps0)) }, (epsR ((k.1 : ℚ) * g.dx) ((k.2.1 : ℚ) * g.dy) ((k.2.2 : ℚ) * g.dz) (muR ((k.1 : ℚ) * g.dx) ((k.2.1 : ℚ) * g.dy) ((k.2.2 : ℚ) * g.dz) s.2).2).2)) (g, u)

/-- The grid after `init_fdtd_3D_medium`: on the cells of the grid the two material arrays hold
the values of the callbacks at the cell positions; nothing else changes. -/
theorem init_fdtd_3D_medium_eq (muR epsR : ℚ → ℚ → ℚ → ℚ) (g : fdtd3D) :
    init_fdtd_3D_medium muR epsR g =
      { g with
        permeability_inv := fun x =>
          if inBox3 0 g.sizeX 0 g.sizeY 0 g.sizeZ x then 1 / (muR ((x.1 : ℚ) * g.dx) ((x.2.1 : ℚ) * g.dy) ((x.2.2 : ℚ) * g.dz) * mu0) else g.permeability_inv x,
        permittivity_inv := fun x =>
          if inBox3 0 g.sizeX 0 g.sizeY 0 g.sizeZ x then 1 / (epsR ((x.1 : ℚ) * g.dx) ((x.2.1 : ℚ) * g.dy) ((x.2.2 : ℚ) * g.dz) * eps0) else g.permittivity_inv x } := by
  rw [init_fdtd_3D_medium_fold]
  refine foldl_two_stores (fun p : Arr3 × Arr3 =>
      ({ g with permeability_inv := p.1, permittivity_inv := p.2 } : fdtd3D))
    (fun k (s : fdtd3D) =>
      { s with permeability_inv := store s.permeability_inv k (1 / (muR ((k.1 : ℚ) * g.dx) ((k.2.1 : ℚ) * g.dy) ((k.2.2 : ℚ) * g.dz) * mu0)), permittivity_inv := store s.permittivity_inv k (1 / (epsR ((k.1 : ℚ) * g.dx) ((k.2.1 : ℚ) * g.dy) ((k.2.2 : ℚ) * g.dz) * eps0)) })
    (fun k => 1 / (muR ((k.1 : ℚ) * g.dx) ((k.2.1 : ℚ) * g.dy) ((k.2.2 : ℚ) * g.dz) * mu0)) (fun k => 1 / (epsR ((k.1 : ℚ) * g.dx) ((k.2.1 : ℚ) * g.dy) ((k.2.2 : ℚ) * g.dz) * eps0))
    (keys3 0 g.sizeX 0 g.sizeY 0 g.sizeZ) (nodup_keys3 _ _ _ _ _ _) (inBox3 0 g.sizeX 0 g.sizeY 0 g.sizeZ)
    (fun _ => mem_keys3) ?_ (g.permeability_inv, g.permittivity_inv)
  intro k p
  rfl

/-- With callbacks that log their calls, `init_fdtd_3D_medium_user` returns the grid of
`init_fdtd_3D_medium` and the list of the calls: for each cell in row-major order, the
permeability callback and then the permittivity callback at the position of the
cell. -/
theorem init_fdtd_3D_medium_calls (muR epsR : ℚ → ℚ → ℚ → ℚ) (g : fdtd3D) :
    init_fdtd_3D_medium_user (log_call medium_quantity.permeability muR)
        (log_call medium_quantity.permittivity epsR) [] g =
      (init_fdtd_3D_medium muR epsR g,
        (keys3 0 g.sizeX 0 g.sizeY 0 g.sizeZ).flatMap (fun k =>
          [(⟨medium_quantity.permeability, [((k.1 : ℚ) * g.dx), ((k.2.1 : ℚ) * g.dy), ((k.2.2 : ℚ) * g.dz)]⟩ : medium_call),
            (⟨medium_quantity.permittivity, [((k.1 : ℚ) * g.dx), ((k.2.1 : ℚ) * g.dy), ((k.2.2 : ℚ) * g.dz)]⟩ : medium_call)])) := by
  rw [init_fdtd_3D_medium_user_fold, init_fdtd_3D_medium_fold]
  refine Eq.trans (congrArg (fun f => List.foldl f (g, []) (keys3 0 g.sizeX 0 g.sizeY 0 g.sizeZ)) ?_)
    (foldl_with_log (fun k (s : fdtd3D) =>
      { s with permeability_inv := store s.permeability_inv k (1 / (muR ((k.1 : ℚ) * g.dx) ((k.2.1 : ℚ) * g.dy) ((k.2.2 : ℚ) * g.dz) * mu0)), permittivity_inv := store s.permittivity_inv k (1 / (epsR ((k.1 : ℚ) * g.dx) ((k.2.1 : ℚ) * g.dy) ((k.2.2 : ℚ) * g.dz) * eps0)) })
    (fun k => [(⟨medium_quantity.permeability, [((k.1 : ℚ) * g.dx), ((k.2.1 : ℚ) * g.dy), ((k.2.2 : ℚ) * g.dz)]⟩ : medium_call),
      (⟨medium_quantity.permittivity, [((k.1 : ℚ) * g.dx), ((k.2.1 : ℚ) * g.dy), ((k.2.2 : ℚ) * g.dz)]⟩ : medium_call)])
    (keys3 0 g.sizeX 0 g.sizeY 0 g.sizeZ) g)
  funext st k
  refine Prod.ext rfl ?_
  show (st.2 ++ [_]) ++ [_] = st.2 ++ [_, _]
  rw [List.append_assoc]
  rfl

end D3

/-! ## The cells that the updates leave alone -/

namespace D1

theorem update_electric_field_eq_1D (g : fdtd1D) :
    update_electric_field g =
      { g with ez := fun i =>
          if 1 ≤ i ∧ i < g.sizeX then
            g.ez i + (g.hy i - g.hy (i - 1)) * (g.dt / g.dx) * g.permittivity_inv i
          else g.ez i } := by
  unfold update_electric_field
  unfold forLoop
  refine foldl_lift_store (fun a : Arr1 => ({ g with ez := a } : fdtd1D)) _
    (fun i old => old + (g.hy i - g.hy (i - 1)) * (g.dt / g.dx) * g.permittivity_inv i) _
    (List.nodup_range' _ _) (fun i => 1 ≤ i ∧ i < g.sizeX) (fun x => ?_) ?_ g.ez
  · rw [List.mem_range'_1]
    omega
  · intro k a
    rfl

theorem update_magnetic_field_eq_1D (g : fdtd1D) :
    update_magnetic_field g =
      { g with hy := fun i =>
          if i < usub g.sizeX 1 then
            g.hy i + (g.ez (i + 1) - g.ez i) * (g.dt / g.dx) * g.permeability_inv i
          else g.hy i } := by
  unfold update_magnetic_field
  unfold forLoop
  refine foldl_lift_store (fun a : Arr1 => ({ g with hy := a } : fdtd1D)) _
    (fun i old => old + (g.ez (i + 1) - g.ez i) * (g.dt / g.dx) * g.permeability_inv i) _
    (List.nodup_range' _ _) (fun i => i < usub g.sizeX 1) (fun x => ?_) ?_ g.hy
  · rw [List.mem_range'_1]
    omega
  · intro k a
    rfl

/-- The 1D updates: each changes one array only, and `update_electric_field` leaves
`ez[0]`, `update_magnetic_field` leaves `hy[sizeX - 1]` as it was. -/
theorem update_field_frame_1D (g : fdtd1D) (h1 : 1 ≤ g.sizeX) (h2 : g.sizeX < UINTMAX_MOD) :
    (update_electric_field g = { g with ez := (update_electric_field g).ez } ∧
      (update_electric_field g).ez 0 = g.ez 0) ∧
    (update_magnetic_field g = { g with hy := (update_magnetic_field g).hy } ∧
      (update_magnetic_field g).hy (g.sizeX - 1) = g.hy (g.sizeX - 1)) := by
  refine ⟨⟨?_, ?_⟩, ?_, ?_⟩
  · rw [update_electric_field_eq_1D]
  · rw [update_electric_field_eq_1D]
    dsimp only
    rw [if_neg (by omega : ¬ (1 ≤ 0 ∧ 0 < g.sizeX))]
  · rw [update_magnetic_field_eq_1D]
  · rw [update_magnetic_field_eq_1D, usub_eq_sub h1 h2]
    dsimp only
    rw [if_neg (lt_irrefl _)]

end D1

namespace D3

/-- The 3D updates: each changes its three field arrays only; `update_electric_field`
leaves every cell with an index 0 as it was, and `update_magnetic_field` every cell
with a last index. -/
theorem update_field_frame_3D (g : fdtd3D) (hx1 : 1 ≤ g.sizeX) (hx2 : g.sizeX < UINTMAX_MOD)
    (hy1 : 1 ≤ g.sizeY) (hy2 : g.sizeY < UINTMAX_MOD) (hz1 : 1 ≤ g.sizeZ)
    (hz2 : g.sizeZ < UINTMAX_MOD) :
    (update_electric_field g =
        { g with ex := (update_electric_field g).ex, ey := (update_electric_field g).ey,
                 ez := (update_electric_field g).ez } ∧
      ∀ x : Nat × Nat × Nat, x.1 = 0 ∨ x.2.1 = 0 ∨ x.2.2 = 0 →
        (update_electric_field g).ex x = g.ex x ∧ (update_electric_field g).ey x = g.ey x ∧
        (update_electric_field g).ez x = g.ez x) ∧
    (update_magnetic_field g =
        { g with hx := (update_magnetic_field g).hx, hy := (update_magnetic_field g).hy,
                 hz := (update_magnetic_field g).hz } ∧
      ∀ x : Nat × Nat × Nat,
        x.1 = g.sizeX - 1 ∨ x.2.1 = g.sizeY - 1 ∨ x.2.2 = g.sizeZ - 1 →
        (update_magnetic_field g).hx x = g.hx x ∧ (update_magnetic_field g).hy x = g.hy x ∧
        (update_magnetic_field g).hz x = g.hz x) := by
  refine ⟨⟨?_, ?_⟩, ?_, ?_⟩
  · rw [update_electric_field_eq_3D]
  · intro x hx
    have hnot : ¬ inBox3 1 g.sizeX 1 g.sizeY 1 g.sizeZ x := by
      unfold inBox3
      omega
    rw [update_electric_field_eq_3D]
    refine ⟨?_, ?_, ?_⟩
    · show (if inBox3 1 g.sizeX 1 g.sizeY 1 g.sizeZ x then _ else g.ex x) = g.ex x
      rw [if_neg hnot]
    · show (if inBox3 1 g.sizeX 1 g.sizeY 1 g.sizeZ x then _ else g.ey x) = g.ey x
      rw [if_neg hnot]
    · show (if inBox3 1 g.sizeX 1 g.sizeY 1 g.sizeZ x then _ else g.ez x) = g.ez x
      rw [if_neg hnot]
  · rw [update_magnetic_field_eq_3D]
  · intro x hx
    have hnot : ¬ inBox3 0 (usub g.sizeX 1) 0 (usub g.sizeY 1) 0 (usub g.sizeZ 1) x := by
      rw [usub_eq_sub hx1 hx2, usub_eq_sub hy1 hy2, usub_eq_sub hz1 hz2]
      unfold inBox3
      omega
    rw [update_magnetic_field_eq_3D]
    refine ⟨?_, ?_, ?_⟩
    · show (if inBox3 0 (usub g.sizeX 1) 0 (usub g.sizeY 1) 0 (usub g.sizeZ 1) x then _
        else g.hx x) = g.hx x
      rw [if_neg hnot]
    · show (if inBox3 0 (usub g.sizeX 1) 0 (usub g.sizeY 1) 0 (usub g.sizeZ 1) x then _
        else g.hy x) = g.hy x
      rw [if_neg hnot]
    · show (if inBox3 0 (usub g.sizeX 1) 0 (usub g.sizeY 1) 0 (usub g.sizeZ 1) x then _
        else g.hz x) = g.hz x
      rw [if_neg hnot]

end D3

/-! ## The 2D updates with the experimental modes: what they leave alone -/

theorem uadd_eq_add {a b : Nat} (h : a + b < UINTMAX_MOD) : uadd a b = a + b := by
  unfold uadd
  exact Nat.mod_eq_of_lt h

theorem umul_le (a b : Nat) : umul a b ≤ a * b := by
  unfold umul
  exact Nat.mod_le _ _

namespace D2

/-- Every record of the sorted `dpd` read inside the extent has a property that every
record of the unsorted `dpd` inside the extent has. -/
theorem qsort_dpd_keeps (ext : Extern) (hq : qsort_keeps_records ext)
    (Q : dataPosDeviation → Prop) (rows rowlen : Nat) (dpd : Nat × Nat → dataPosDeviation)
    (hall : ∀ a b, a < rows → b < rowlen → Q (dpd (a, b))) (i j : Nat) (hi : i < rows)
    (hj : j < rowlen) : Q (qsort_dpd ext (umul rows rowlen) rowlen dpd (i, j)) := by
  unfold qsort_dpd
  dsimp only
  rw [List.getD_eq_getElem?_getD]
  cases hget : (ext.qsort compareDeviation
      (List.map (fun p => dpd (p / rowlen, p % rowlen)) (List.range (umul rows rowlen))))[i *
      rowlen + j]? with
  | none => exact hall i j hi hj
  | some d =>
    have hmem := hq _ _ d (List.getElem?_mem hget)
    rw [List.mem_map] at hmem
    obtain ⟨p, hp, rfl⟩ := hmem
    rw [List.mem_range] at hp
    have hpos : 0 < rowlen := Nat.lt_of_le_of_lt (Nat.zero_le _) hj
    have hp2 : p < rows * rowlen := Nat.lt_of_lt_of_le hp (umul_le _ _)
    exact hall _ _ ((Nat.div_lt_iff_lt_mul hpos).mpr hp2) (Nat.mod_lt _ hpos)

/-! ### The `ez` pass -/

theorem update_electric_field_cell_other (glob : Globals) (ext : Extern) (g : fdtd2D)
    (i j : Nat) (st : fdtd2D × (Nat × Nat → dataPosDeviation)) (x : Nat × Nat)
    (hx : x ≠ (i, j)) :
    (update_electric_field_cell glob ext g i j st).1.ez x = st.1.ez x := by
  unfold update_electric_field_cell
  by_cases h1 : skip_guard glob g i j = true
  · by_cases h2 : (call_drand48 ext st.1).1 < glob.rand_skip_percent
    · simp only [if_pos h1, if_pos h2]
      rfl
    · simp only [if_pos h1, if_neg h2]
      exact store_other _ _ _ _ hx
  · simp only [if_neg h1]
    exact store_other _ _ _ _ hx

/-- The records that a cell step leaves in `dpd` have the positions of cells that
are not on the faces with index 0, when the records before it have. -/
theorem update_electric_field_cell_dpd (glob : Globals) (ext : Extern) (g : fdtd2D)
    (i j : Nat) (st : fdtd2D × (Nat × Nat → dataPosDeviation)) (hi : 1 ≤ i) (hj : 1 ≤ j)
    (y : Nat × Nat) :
    (glob.sort_skip = true → y = (i - 1, j - 1) →
      1 ≤ ((update_electric_field_cell glob ext g i j st).2 y).posX ∧
      1 ≤ ((update_electric_field_cell glob ext g i j st).2 y).posY) ∧
    (1 ≤ (st.2 y).posX ∧ 1 ≤ (st.2 y).posY →
      1 ≤ ((update_electric_field_cell glob ext g i j st).2 y).posX ∧
      1 ≤ ((update_electric_field_cell glob ext g i j st).2 y).posY) := by
  unfold update_electric_field_cell
  by_cases hs : glob.sort_skip = true
  · have h1 : skip_guard glob g i j = false := by
      unfold skip_guard
      rw [hs]
      simp
    simp only [h1, hs, if_true, Bool.false_eq_true, if_false]
    by_cases hy : y = (i - 1, j - 1)
    · subst hy
      refine ⟨fun _ _ => ?_, fun _ => ?_⟩
      · simp only [store_same]
        exact ⟨hi, hj⟩
      · simp only [store_same]
        exact ⟨hi, hj⟩
    · refine ⟨fun _ h => absurd h hy, fun h => ?_⟩
      simp only [store_other _ _ _ _ hy]
      exact h
  · refine ⟨fun h => absurd h hs, fun h => ?_⟩
    by_cases h1 : skip_guard glob g i j = true
    · by_cases h2 : (call_drand48 ext st.1).1 < glob.rand_skip_percent
      · simp only [if_pos h1, if_pos h2]
        exact h
      · simp only [if_pos h1, if_neg h2, if_neg hs]
        exact h
    · simp only [if_neg h1, if_neg hs]
      exact h

theorem update_electric_field_stencil_other (glob : Globals) (ext : Extern) (g : fdtd2D)
    (st : fdtd2D × (Nat × Nat → dataPosDeviation)) (x : Nat × Nat) (hx : x.1 = 0 ∨ x.2 = 0) :
    (update_electric_field_stencil glob ext g st).1.ez x = st.1.ez x := by
  unfold update_electric_field_stencil
  refine forLoop_preserves (fun s => s.1.ez x = st.1.ez x) 1 g.sizeX _
    (fun i s hi1 _ hs => ?_) st rfl
  refine forLoop_preserves (fun s2 => s2.1.ez x = st.1.ez x) 1 g.sizeY _
    (fun j s2 hj1 _ hs2 => ?_) s hs
  show (update_electric_field_cell glob ext g i j s2).1.ez x = st.1.ez x
  rw [update_electric_field_cell_other glob ext g i j s2 x (by
    intro h
    subst h
    dsimp only at hx
    omega)]
  exact hs2

theorem update_electric_field_stencil_dpd (glob : Globals) (ext : Extern) (g : fdtd2D)
    (st : fdtd2D × (Nat × Nat → dataPosDeviation)) (hs : glob.sort_skip = true)
    (hX1 : 1 ≤ g.sizeX) (hX2 : g.sizeX < UINTMAX_MOD) (hY1 : 1 ≤ g.sizeY)
    (hY2 : g.sizeY < UINTMAX_MOD) (a b : Nat) (ha : a < usub g.sizeX 1)
    (hb : b < usub g.sizeY 1) :
    1 ≤ ((update_electric_field_stencil glob ext g st).2 (a, b)).posX ∧
    1 ≤ ((update_electric_field_stencil glob ext g st).2 (a, b)).posY := by
  rw [usub_eq_sub hX1 hX2] at ha
  rw [usub_eq_sub hY1 hY2] at hb
  unfold update_electric_field_stencil
  refine forLoop_establish
    (fun s : fdtd2D × (Nat × Nat → dataPosDeviation) =>
      1 ≤ (s.2 (a, b)).posX ∧ 1 ≤ (s.2 (a, b)).posY) 1 g.sizeX _ (a + 1) (by omega) (by omega)
    (fun s => ?_) (fun i s hi1 _ hq => ?_) st
  · refine forLoop_establish
      (fun s : fdtd2D × (Nat × Nat → dataPosDeviation) =>
        1 ≤ (s.2 (a, b)).posX ∧ 1 ≤ (s.2 (a, b)).posY) 1 g.sizeY _ (b + 1) (by omega)
      (by omega) (fun s2 => ?_) (fun j s2 hj1 _ hq => ?_) s
    · exact (update_electric_field_cell_dpd glob ext g (a + 1) (b + 1) s2 (by omega) (by omega)
        (a, b)).1 hs rfl
    · exact (update_electric_field_cell_dpd glob ext g (a + 1) j s2 (by omega) hj1 (a, b)).2 hq
  · refine forLoop_preserves
      (fun s : fdtd2D × (Nat × Nat → dataPosDeviation) =>
        1 ≤ (s.2 (a, b)).posX ∧ 1 ≤ (s.2 (a, b)).posY) 1 g.sizeY _
      (fun j s2 hj1 _ hq2 => ?_) s hq
    exact (update_electric_field_cell_dpd glob ext g i j s2 hi1 hj1 (a, b)).2 hq2

theorem update_electric_field_interpolate_other (glob : Globals) (ext : Extern)
    (g s : fdtd2D) (hT : g.cpml_thickness + 1 < UINTMAX_MOD) (x : Nat × Nat)
    (hx : x.1 = 0 ∨ x.2 = 0) :
    (update_electric_field_interpolate glob ext g s).ez x = s.ez x := by
  unfold update_electric_field_interpolate
  rw [uadd_eq_add hT]
  refine forLoop_preserves (fun t => t.ez x = s.ez x) _ _ _ (fun i t hi1 _ ht => ?_) s rfl
  refine forLoop_preserves (fun t2 => t2.ez x = s.ez x) _ _ _ (fun j t2 hj1 _ ht2 => ?_) t ht
  have hne : x ≠ (i, j) := by
    intro h
    subst h
    dsimp only at hx
    omega
  by_cases h : (call_drand48 ext t2).1 < glob.rand_skip_percent
  · simp only [if_pos h]
    exact (store_other _ _ _ _ hne).trans ht2
  · simp only [if_neg h]
    exact ht2

theorem update_electric_field_restore_cell_other (threshold : Nat)
    (dpd : Nat × Nat → dataPosDeviation) (i j : Nat) (st : fdtd2D × Nat) (x : Nat × Nat)
    (hx : x ≠ ((dpd (i, j)).posX, (dpd (i, j)).posY)) :
    (update_electric_field_restore_cell threshold dpd i j st).1.ez x = st.1.ez x := by
  unfold update_electric_field_restore_cell
  by_cases h : st.2 < threshold
  · simp only [if_pos h]
    exact store_other _ _ _ _ hx
  · simp only [if_neg h]

theorem update_electric_field_restore_other (glob : Globals) (ext : Extern) (g : fdtd2D)
    (st : fdtd2D × (Nat × Nat → dataPosDeviation)) (hq : qsort_keeps_records ext)
    (hdpd : ∀ a b, a < usub g.sizeX 1 → b < usub g.sizeY 1 →
      1 ≤ (st.2 (a, b)).posX ∧ 1 ≤ (st.2 (a, b)).posY)
    (x : Nat × Nat) (hx : x.1 = 0 ∨ x.2 = 0) :
    (update_electric_field_restore glob ext g st).1.ez x = st.1.ez x := by
  unfold update_electric_field_restore
  refine forLoop_preserves (fun t : fdtd2D × Nat => t.1.ez x = st.1.ez x) _ _ _
    (fun i t _ hi2 ht => ?_) ((st.1, 0) : fdtd2D × Nat) rfl
  refine forLoop_preserves (fun t2 : fdtd2D × Nat => t2.1.ez x = st.1.ez x) _ _ _
    (fun j t2 _ hj2 ht2 => ?_) t ht
  have hgood := qsort_dpd_keeps ext hq (fun d => 1 ≤ d.posX ∧ 1 ≤ d.posY) (usub g.sizeX 1)
    (usub g.sizeY 1) st.2 hdpd i j hi2 hj2
  refine (update_electric_field_restore_cell_other _ _ i j t2 x ?_).trans ht2
  intro h
  rw [h] at hx
  dsimp only at hx hgood
  omega

/-- The `ez` pass in every mode leaves the cells with an index 0 as they were. -/
theorem update_electric_field_pass_other (glob : Globals) (ext : Extern) (g : fdtd2D)
    (st : fdtd2D × (Nat × Nat → dataPosDeviation))
    (hq : glob.sort_skip = true → qsort_keeps_records ext)
    (hT : g.cpml_thickness + 1 < UINTMAX_MOD)
    (hX1 : 1 ≤ g.sizeX) (hX2 : g.sizeX < UINTMAX_MOD) (hY1 : 1 ≤ g.sizeY)
    (hY2 : g.sizeY < UINTMAX_MOD) (x : Nat × Nat) (hx : x.1 = 0 ∨ x.2 = 0) :
    (update_electric_field_pass glob ext g st).1.ez x = st.1.ez x := by
  unfold update_electric_field_pass
  by_cases h1 : glob.interpolate = true
  · by_cases h2 : glob.sort_skip = true
    · simp only [if_pos h1, if_pos h2]
      rw [update_electric_field_restore_other glob ext g
        (update_electric_field_interpolate glob ext g
          (update_electric_field_stencil glob ext g st).1,
          (update_electric_field_stencil glob ext g st).2) (hq h2)
        (fun a b ha hb => update_electric_field_stencil_dpd glob ext g st h2 hX1 hX2 hY1 hY2
          a b ha hb) x hx]
      exact (update_electric_field_interpolate_other glob ext g _ hT x hx).trans
        (update_electric_field_stencil_other glob ext g st x hx)
    · simp only [if_pos h1, if_neg h2]
      exact (update_electric_field_interpolate_other glob ext g _ hT x hx).trans
        (update_electric_field_stencil_other glob ext g st x hx)
  · by_cases h2 : glob.sort_skip = true
    · simp only [if_neg h1, if_pos h2]
      rw [update_electric_field_restore_other glob ext g
        (update_electric_field_stencil glob ext g st) (hq h2)
        (fun a b ha hb => update_electric_field_stencil_dpd glob ext g st h2 hX1 hX2 hY1 hY2
          a b ha hb) x hx]
      exact update_electric_field_stencil_other glob ext g st x hx
    · simp only [if_neg h1, if_neg h2]
      exact update_electric_field_stencil_other glob ext g st x hx

end D2

namespace D2

/-- An index of the interpolation loops, which run over
`T + 1 <= i < size - T - 1` in unsigned arithmetic, is never the last index. -/
theorem interpolate_index_ne_last {size T i : Nat} (h1 : 1 ≤ size) (h2 : size < UINTMAX_MOD)
    (hT : T + 1 < UINTMAX_MOD) (hlo : uadd T 1 ≤ i) (hhi : i < usub (usub size T) 1) (hi : i = size - 1) : False := by
  rw [uadd_eq_add hT] at hlo
  have hTs : T ≤ size := by omega
  rw [usub_eq_sub hTs h2] at hhi
  have h3 : 1 ≤ size - T := by omega
  rw [usub_eq_sub h3 (by omega)] at hhi
  omega

/-! ### The `hx` pass -/

theorem update_magnetic_field_hx_cell_other (glob : Globals) (ext : Extern) (g : fdtd2D)
    (i j : Nat) (st : fdtd2D × (Nat × Nat → dataPosDeviation)) (x : Nat × Nat)
    (hx : x ≠ (i, j)) :
    (update_magnetic_field_hx_cell glob ext g i j st).1.hx x = st.1.hx x := by
  unfold update_magnetic_field_hx_cell
  by_cases h1 : skip_guard glob g i j = true
  · by_cases h2 : (call_drand48 ext st.1).1 < glob.rand_skip_percent
    · simp only [if_pos h1, if_pos h2]
      rfl
    · simp only [if_pos h1, if_neg h2]
      exact store_other _ _ _ _ hx
  · simp only [if_neg h1]
    exact store_other _ _ _ _ hx

/-- The records that a cell step of the `hx` pass leaves in `dpd` have positions
below the loop bounds, when the records before it have. -/
theorem update_magnetic_field_hx_cell_dpd (glob : Globals) (ext : Extern) (g : fdtd2D)
    (i j : Nat) (st : fdtd2D × (Nat × Nat → dataPosDeviation)) (hi : i < usub g.sizeX 1)
    (hj : j < usub g.sizeY 1) (y : Nat × Nat) :
    (glob.sort_skip = true → y = (i, j) →
      ((update_magnetic_field_hx_cell glob ext g i j st).2 y).posX < usub g.sizeX 1 ∧
      ((update_magnetic_field_hx_cell glob ext g i j st).2 y).posY < usub g.sizeY 1) ∧
    ((st.2 y).posX < usub g.sizeX 1 ∧ (st.2 y).posY < usub g.sizeY 1 →
      ((update_magnetic_field_hx_cell glob ext g i j st).2 y).posX < usub g.sizeX 1 ∧
      ((update_magnetic_field_hx_cell glob ext g i j st).2 y).posY < usub g.sizeY 1) := by
  unfold update_magnetic_field_hx_cell
  by_cases hs : glob.sort_skip = true
  · have h1 : skip_guard glob g i j = false := by
      unfold skip_guard
      rw [hs]
      simp
    simp only [h1, hs, if_true, Bool.false_eq_true, if_false]
    by_cases hy : y = (i, j)
    · subst hy
      refine ⟨fun _ _ => ?_, fun _ => ?_⟩
      · simp only [store_same]
        exact ⟨hi, hj⟩
      · simp only [store_same]
        exact ⟨hi, hj⟩
    · refine ⟨fun _ h => absurd h hy, fun h => ?_⟩
      simp only [store_other _ _ _ _ hy]
      exact h
  · refine ⟨fun h => absurd h hs, fun h => ?_⟩
    by_cases h1 : skip_guard glob g i j = true
    · by_cases h2 : (call_drand48 ext st.1).1 < glob.rand_skip_percent
      · simp only [if_pos h1, if_pos h2]
        exact h
      · simp only [if_pos h1, if_neg h2, if_neg hs]
        exact h
    · simp only [if_neg h1, if_neg hs]
      exact h

theorem update_magnetic_field_hx_stencil_other (glob : Globals) (ext : Extern) (g : fdtd2D)
    (st : fdtd2D × (Nat × Nat → dataPosDeviation)) (x : Nat × Nat)
    (hx : ¬ (x.1 < usub g.sizeX 1 ∧ x.2 < usub g.sizeY 1)) :
    (update_magnetic_field_hx_stencil glob ext g st).1.hx x = st.1.hx x := by
  unfold update_magnetic_field_hx_stencil
  refine forLoop_preserves (fun s => s.1.hx x = st.1.hx x) 0 (usub g.sizeX 1) _
    (fun i s _ hi2 hs => ?_) st rfl
  refine forLoop_preserves (fun s2 => s2.1.hx x = st.1.hx x) 0 (usub g.sizeY 1) _
    (fun j s2 _ hj2 hs2 => ?_) s hs
  show (update_magnetic_field_hx_cell glob ext g i j s2).1.hx x = st.1.hx x
  rw [update_magnetic_field_hx_cell_other glob ext g i j s2 x (by
    intro h
    subst h
    exact hx ⟨hi2, hj2⟩)]
  exact hs2

theorem update_magnetic_field_hx_stencil_dpd (glob : Globals) (ext : Extern) (g : fdtd2D)
    (st : fdtd2D × (Nat × Nat → dataPosDeviation)) (hs : glob.sort_skip = true)
    (a b : Nat) (ha : a < usub g.sizeX 1) (hb : b < usub g.sizeY 1) :
    ((update_magnetic_field_hx_stencil glob ext g st).2 (a, b)).posX < usub g.sizeX 1 ∧
    ((update_magnetic_field_hx_stencil glob ext g st).2 (a, b)).posY < usub g.sizeY 1 := by
  unfold update_magnetic_field_hx_stencil
  refine forLoop_establish
    (fun s : fdtd2D × (Nat × Nat → dataPosDeviation) =>
      (s.2 (a, b)).posX < usub g.sizeX 1 ∧ (s.2 (a, b)).posY < usub g.sizeY 1)
    0 (usub g.sizeX 1) _ a (Nat.zero_le _) ha
    (fun s => ?_) (fun i s _ hi2 hq => ?_) st
  · refine forLoop_establish
      (fun s : fdtd2D × (Nat × Nat → dataPosDeviation) =>
        (s.2 (a, b)).posX < usub g.sizeX 1 ∧ (s.2 (a, b)).posY < usub g.sizeY 1)
      0 (usub g.sizeY 1) _ b (Nat.zero_le _) hb
      (fun s2 => ?_) (fun j s2 _ hj2 hq => ?_) s
    · exact (update_magnetic_field_hx_cell_dpd glob ext g a b s2 ha hb (a, b)).1 hs rfl
    · exact (update_magnetic_field_hx_cell_dpd glob ext g a j s2 ha hj2 (a, b)).2 hq
  · refine forLoop_preserves
      (fun s : fdtd2D × (Nat × Nat → dataPosDeviation) =>
        (s.2 (a, b)).posX < usub g.sizeX 1 ∧ (s.2 (a, b)).posY < usub g.sizeY 1)
      0 (usub g.sizeY 1) _
      (fun j s2 _ hj2 hq2 => ?_) s hq
    exact (update_magnetic_field_hx_cell_dpd glob ext g i j s2 hi2 hj2 (a, b)).2 hq2

theorem update_magnetic_field_hx_interpolate_other (glob : Globals) (ext : Extern)
    (g s : fdtd2D) (hT : g.cpml_thickness + 1 < UINTMAX_MOD)
    (hX1 : 1 ≤ g.sizeX) (hX2 : g.sizeX < UINTMAX_MOD) (hY1 : 1 ≤ g.sizeY)
    (hY2 : g.sizeY < UINTMAX_MOD) (x : Nat × Nat)
    (hx : x.1 = g.sizeX - 1 ∨ x.2 = g.sizeY - 1) :
    (update_magnetic_field_hx_interpolate glob ext g s).hx x = s.hx x := by
  unfold update_magnetic_field_hx_interpolate
  refine forLoop_preserves (fun t => t.hx x = s.hx x) _ _ _ (fun i t hi1 hi2 ht => ?_) s rfl
  refine forLoop_preserves (fun t2 => t2.hx x = s.hx x) _ _ _ (fun j t2 hj1 hj2 ht2 => ?_) t ht
  have hne : x ≠ (i, j) := by
    intro h
    subst h
    dsimp only at hx
    rcases hx with hx | hx
    · exact interpolate_index_ne_last hX1 hX2 hT hi1 hi2 hx
    · exact interpolate_index_ne_last hY1 hY2 hT hj1 hj2 hx
  by_cases h : (call_drand48 ext t2).1 < glob.rand_skip_percent
  · simp only [if_pos h]
    exact (store_other _ _ _ _ hne).trans ht2
  · simp only [if_neg h]
    exact ht2

theorem update_magnetic_field_hx_restore_cell_other (threshold : Nat)
    (dpd : Nat × Nat → dataPosDeviation) (i j : Nat) (st : fdtd2D × Nat) (x : Nat × Nat)
    (hx : x ≠ ((dpd (i, j)).posX, (dpd (i, j)).posY)) :
    (update_magnetic_field_hx_restore_cell threshold dpd i j st).1.hx x = st.1.hx x := by
  unfold update_magnetic_field_hx_restore_cell
  by_cases h : st.2 < threshold
  · simp only [if_pos h]
    exact store_other _ _ _ _ hx
  · simp only [if_neg h]

theorem update_magnetic_field_hx_restore_other (glob : Globals) (ext : Extern) (g : fdtd2D)
    (st : fdtd2D × (Nat × Nat → dataPosDeviation)) (hq : qsort_keeps_records ext)
    (hdpd : ∀ a b, a < usub g.sizeX 1 → b < usub g.sizeY 1 →
      (st.2 (a, b)).posX < usub g.sizeX 1 ∧ (st.2 (a, b)).posY < usub g.sizeY 1)
    (x : Nat × Nat) (hx : ¬ (x.1 < usub g.sizeX 1 ∧ x.2 < usub g.sizeY 1)) :
    (update_magnetic_field_hx_restore glob ext g st).1.hx x = st.1.hx x := by
  unfold update_magnetic_field_hx_restore
  refine forLoop_preserves (fun t : fdtd2D × Nat => t.1.hx x = st.1.hx x) _ _ _
    (fun i t _ hi2 ht => ?_) ((st.1, 0) : fdtd2D × Nat) rfl
  refine forLoop_preserves (fun t2 : fdtd2D × Nat => t2.1.hx x = st.1.hx x) _ _ _
    (fun j t2 _ hj2 ht2 => ?_) t ht
  have hgood := qsort_dpd_keeps ext hq
    (fun d => d.posX < usub g.sizeX 1 ∧ d.posY < usub g.sizeY 1) (usub g.sizeX 1)
    (usub g.sizeY 1) st.2 hdpd i j hi2 hj2
  refine (update_magnetic_field_hx_restore_cell_other _ _ i j t2 x ?_).trans ht2
  intro h
  rw [h] at hx
  exact hx hgood

/-- The `hx` pass in every mode leaves the cells with a last index as they were. -/
theorem update_magnetic_field_hx_pass_other (glob : Globals) (ext : Extern) (g : fdtd2D)
    (st : fdtd2D × (Nat × Nat → dataPosDeviation))
    (hq : glob.sort_skip = true → qsort_keeps_records ext)
    (hT : g.cpml_thickness + 1 < UINTMAX_MOD)
    (hX1 : 1 ≤ g.sizeX) (hX2 : g.sizeX < UINTMAX_MOD) (hY1 : 1 ≤ g.sizeY)
    (hY2 : g.sizeY < UINTMAX_MOD) (x : Nat × Nat)
    (hx : x.1 = g.sizeX - 1 ∨ x.2 = g.sizeY - 1) :
    (update_magnetic_field_hx_pass glob ext g st).1.hx x = st.1.hx x := by
  have hx2 : ¬ (x.1 < usub g.sizeX 1 ∧ x.2 < usub g.sizeY 1) := by
    rw [usub_eq_sub hX1 hX2, usub_eq_sub hY1 hY2]
    omega
  unfold update_magnetic_field_hx_pass
  by_cases h1 : glob.interpolate = true
  · by_cases h2 : glob.sort_skip = true
    · simp only [if_pos h1, if_pos h2]
      rw [update_magnetic_field_hx_restore_other glob ext g
        (update_magnetic_field_hx_interpolate glob ext g
          (update_magnetic_field_hx_stencil glob ext g st).1,
          (update_magnetic_field_hx_stencil glob ext g st).2) (hq h2)
        (fun a b ha hb => update_magnetic_field_hx_stencil_dpd glob ext g st h2 a b ha hb) x hx2]
      exact (update_magnetic_field_hx_interpolate_other glob ext g _ hT hX1 hX2 hY1 hY2 x hx).trans
        (update_magnetic_field_hx_stencil_other glob ext g st x hx2)
    · simp only [if_pos h1, if_neg h2]
      exact (update_magnetic_field_hx_interpolate_other glob ext g _ hT hX1 hX2 hY1 hY2 x hx).trans
        (update_magnetic_field_hx_stencil_other glob ext g st x hx2)
  · by_cases h2 : glob.sort_skip = true
    · simp only [if_neg h1, if_pos h2]
      rw [update_magnetic_field_hx_restore_other glob ext g
        (update_magnetic_field_hx_stencil glob ext g st) (hq h2)
        (fun a b ha hb => update_magnetic_field_hx_stencil_dpd glob ext g st h2 a b ha hb) x hx2]
      exact update_magnetic_field_hx_stencil_other glob ext g st x hx2
    · simp only [if_neg h1, if_neg h2]
      exact update_magnetic_field_hx_stencil_other glob ext g st x hx2

/-! ### The `hy` pass -/

theorem update_magnetic_field_hy_cell_other (glob : Globals) (ext : Extern) (g : fdtd2D)
    (i j : Nat) (st : fdtd2D × (Nat × Nat → dataPosDeviation)) (x : Nat × Nat)
    (hx : x ≠ (i, j)) :
    (update_magnetic_field_hy_cell glob ext g i j st).1.hy x = st.1.hy x := by
  unfold update_magnetic_field_hy_cell
  by_cases h1 : skip_guard glob g i j = true
  · by_cases h2 : (call_drand48 ext st.1).1 < glob.rand_skip_percent
    · simp only [if_pos h1, if_pos h2]
      rfl
    · simp only [if_pos h1, if_neg h2]
      exact store_other _ _ _ _ hx
  · simp only [if_neg h1]
    exact store_other _ _ _ _ hx

/-- The records that a cell step of the `hy` pass leaves in `dpd` have positions
below the loop bounds, when the records before it have. -/
theorem update_magnetic_field_hy_cell_dpd (glob : Globals) (ext : Extern) (g : fdtd2D)
    (i j : Nat) (st : fdtd2D × (Nat × Nat → dataPosDeviation)) (hi : i < usub g.sizeX 1)
    (hj : j < usub g.sizeY 1) (y : Nat × Nat) :
    (glob.sort_skip = true → y = (i, j) →
      ((update_magnetic_field_hy_cell glob ext g i j st).2 y).posX < usub g.sizeX 1 ∧
      ((update_magnetic_field_hy_cell glob ext g i j st).2 y).posY < usub g.sizeY 1) ∧
    ((st.2 y).posX < usub g.sizeX 1 ∧ (st.2 y).posY < usub g.sizeY 1 →
      ((update_magnetic_field_hy_cell glob ext g i j st).2 y).posX < usub g.sizeX 1 ∧
      ((update_magnetic_field_hy_cell glob ext g i j st).2 y).posY < usub g.sizeY 1) := by
  unfold update_magnetic_field_hy_cell
  by_cases hs : glob.sort_skip = true
  · have h1 : skip_guard glob g i j = false := by
      unfold skip_guard
      rw [hs]
      simp
    simp only [h1, hs, if_true, Bool.false_eq_true, if_false]
    by_cases hy : y = (i, j)
    · subst hy
      refine ⟨fun _ _ => ?_, fun _ => ?_⟩
      · simp only [store_same]
        exact ⟨hi, hj⟩
      · simp only [store_same]
        exact ⟨hi, hj⟩
    · refine ⟨fun _ h => absurd h hy, fun h => ?_⟩
      simp only [store_other _ _ _ _ hy]
      exact h
  · refine ⟨fun h => absurd h hs, fun h => ?_⟩
    by_cases h1 : skip_guard glob g i j = true
    · by_cases h2 : (call_drand48 ext st.1).1 < glob.rand_skip_percent
      · simp only [if_pos h1, if_pos h2]
        exact h
      · simp only [if_pos h1, if_neg h2, if_neg hs]
        exact h
    · simp only [if_neg h1, if_neg hs]
      exact h

theorem update_magnetic_field_hy_stencil_other (glob : Globals) (ext : Extern) (g : fdtd2D)
    (st : fdtd2D × (Nat × Nat → dataPosDeviation)) (x : Nat × Nat)
    (hx : ¬ (x.1 < usub g.sizeX 1 ∧ x.2 < usub g.sizeY 1)) :
    (update_magnetic_field_hy_stencil glob ext g st).1.hy x = st.1.hy x := by
  unfold update_magnetic_field_hy_stencil
  refine forLoop_preserves (fun s => s.1.hy x = st.1.hy x) 0 (usub g.sizeX 1) _
    (fun i s _ hi2 hs => ?_) st rfl
  refine forLoop_preserves (fun s2 => s2.1.hy x = st.1.hy x) 0 (usub g.sizeY 1) _
    (fun j s2 _ hj2 hs2 => ?_) s hs
  show (update_magnetic_field_hy_cell glob ext g i j s2).1.hy x = st.1.hy x
  rw [update_magnetic_field_hy_cell_other glob ext g i j s2 x (by
    intro h
    subst h
    exact hx ⟨hi2, hj2⟩)]
  exact hs2

theorem update_magnetic_field_hy_stencil_dpd (glob : Globals) (ext : Extern) (g : fdtd2D)
    (st : fdtd2D × (Nat × Nat → dataPosDeviation)) (hs : glob.sort_skip = true)
    (a b : Nat) (ha : a < usub g.sizeX 1) (hb : b < usub g.sizeY 1) :
    ((update_magnetic_field_hy_stencil glob ext g st).2 (a, b)).posX < usub g.sizeX 1 ∧
    ((update_magnetic_field_hy_stencil glob ext g st).2 (a, b)).posY < usub g.sizeY 1 := by
  unfold update_magnetic_field_hy_stencil
  refine forLoop_establish
    (fun s : fdtd2D × (Nat × Nat → dataPosDeviation) =>
      (s.2 (a, b)).posX < usub g.sizeX 1 ∧ (s.2 (a, b)).posY < usub g.sizeY 1)
    0 (usub g.sizeX 1) _ a (Nat.zero_le _) ha
    (fun s => ?_) (fun i s _ hi2 hq => ?_) st
  · refine forLoop_establish
      (fun s : fdtd2D × (Nat × Nat → dataPosDeviation) =>
        (s.2 (a, b)).posX < usub g.sizeX 1 ∧ (s.2 (a, b)).posY < usub g.sizeY 1)
      0 (usub g.sizeY 1) _ b (Nat.zero_le _) hb
      (fun s2 => ?_) (fun j s2 _ hj2 hq => ?_) s
    · exact (update_magnetic_field_hy_cell_dpd glob ext g a b s2 ha hb (a, b)).1 hs rfl
    · exact (update_magnetic_field_hy_cell_dpd glob ext g a j s2 ha hj2 (a, b)).2 hq
  · refine forLoop_preserves
      (fun s : fdtd2D × (Nat × Nat → dataPosDeviation) =>
        (s.2 (a, b)).posX < usub g.sizeX 1 ∧ (s.2 (a, b)).posY < usub g.sizeY 1)
      0 (usub g.sizeY 1) _
      (fun j s2 _ hj2 hq2 => ?_) s hq
    exact (update_magnetic_field_hy_cell_dpd glob ext g i j s2 hi2 hj2 (a, b)).2 hq2

theorem update_magnetic_field_hy_interpolate_other (glob : Globals) (ext : Extern)
    (g s : fdtd2D) (hT : g.cpml_thickness + 1 < UINTMAX_MOD)
    (hX1 : 1 ≤ g.sizeX) (hX2 : g.sizeX < UINTMAX_MOD) (hY1 : 1 ≤ g.sizeY)
    (hY2 : g.sizeY < UINTMAX_MOD) (x : Nat × Nat)
    (hx : x.1 = g.sizeX - 1 ∨ x.2 = g.sizeY - 1) :
    (update_magnetic_field_hy_interpolate glob ext g s).hy x = s.hy x := by
  unfold update_magnetic_field_hy_interpolate
  refine forLoop_preserves (fun t => t.hy x = s.hy x) _ _ _ (fun i t hi1 hi2 ht => ?_) s rfl
  refine forLoop_preserves (fun t2 => t2.hy x = s.hy x) _ _ _ (fun j t2 hj1 hj2 ht2 => ?_) t ht
  have hne : x ≠ (i, j) := by
    intro h
    subst h
    dsimp only at hx
    rcases hx with hx | hx
    · exact interpolate_index_ne_last hX1 hX2 hT hi1 hi2 hx
    · exact interpolate_index_ne_last hY1 hY2 hT hj1 hj2 hx
  by_cases h : (call_drand48 ext t2).1 < glob.rand_skip_percent
  · simp only [if_pos h]
    exact (store_other _ _ _ _ hne).trans ht2
  · simp only [if_neg h]
    exact ht2

theorem update_magnetic_field_hy_restore_cell_other (threshold : Nat)
    (dpd : Nat × Nat → dataPosDeviation) (i j : Nat) (st : fdtd2D × Nat) (x : Nat × Nat)
    (hx : x ≠ ((dpd (i, j)).posX, (dpd (i, j)).posY)) :
    (update_magnetic_field_hy_restore_cell threshold dpd i j st).1.hy x = st.1.hy x := by
  unfold update_magnetic_field_hy_restore_cell
  by_cases h : st.2 < threshold
  · simp only [if_pos h]
    exact store_other _ _ _ _ hx
  · simp only [if_neg h]

theorem update_magnetic_field_hy_restore_other (glob : Globals) (ext : Extern) (g : fdtd2D)
    (st : fdtd2D × (Nat × Nat → dataPosDeviation)) (hq : qsort_keeps_records ext)
    (hdpd : ∀ a b, a < usub g.sizeX 1 → b < usub g.sizeY 1 →
      (st.2 (a, b)).posX < usub g.sizeX 1 ∧ (st.2 (a, b)).posY < usub g.sizeY 1)
    (x : Nat × Nat) (hx : ¬ (x.1 < usub g.sizeX 1 ∧ x.2 < usub g.sizeY 1)) :
    (update_magnetic_field_hy_restore glob ext g st).1.hy x = st.1.hy x := by
  unfold update_magnetic_field_hy_restore
  refine forLoop_preserves (fun t : fdtd2D × Nat => t.1.hy x = st.1.hy x) _ _ _
    (fun i t _ hi2 ht => ?_) ((st.1, 0) : fdtd2D × Nat) rfl
  refine forLoop_preserves (fun t2 : fdtd2D × Nat => t2.1.hy x = st.1.hy x) _ _ _
    (fun j t2 _ hj2 ht2 => ?_) t ht
  have hgood := qsort_dpd_keeps ext hq
    (fun d => d.posX < usub g.sizeX 1 ∧ d.posY < usub g.sizeY 1) (usub g.sizeX 1)
    (usub g.sizeY 1) st.2 hdpd i j hi2 hj2
  refine (update_magnetic_field_hy_restore_cell_other _ _ i j t2 x ?_).trans ht2
  intro h
  rw [h] at hx
  exact hx hgood

/-- The `hy` pass in every mode leaves the cells with a last index as they were. -/
theorem update_magnetic_field_hy_pass_other (glob : Globals) (ext : Extern) (g : fdtd2D)
    (st : fdtd2D × (Nat × Nat → dataPosDeviation))
    (hq : glob.sort_skip = true → qsort_keeps_records ext)
    (hT : g.cpml_thickness + 1 < UINTMAX_MOD)
    (hX1 : 1 ≤ g.sizeX) (hX2 : g.sizeX < UINTMAX_MOD) (hY1 : 1 ≤ g.sizeY)
    (hY2 : g.sizeY < UINTMAX_MOD) (x : Nat × Nat)
    (hx : x.1 = g.sizeX - 1 ∨ x.2 = g.sizeY - 1) :
    (update_magnetic_field_hy_pass glob ext g st).1.hy x = st.1.hy x := by
  have hx2 : ¬ (x.1 < usub g.sizeX 1 ∧ x.2 < usub g.sizeY 1) := by
    rw [usub_eq_sub hX1 hX2, usub_eq_sub hY1 hY2]
    omega
  unfold update_magnetic_field_hy_pass
  by_cases h1 : glob.interpolate = true
  · by_cases h2 : glob.sort_skip = true
    · simp only [if_pos h1, if_pos h2]
      rw [update_magnetic_field_hy_restore_other glob ext g
        (update_magnetic_field_hy_interpolate glob ext g
          (update_magnetic_field_hy_stencil glob ext g st).1,
          (update_magnetic_field_hy_stencil glob ext g st).2) (hq h2)
        (fun a b ha hb => update_magnetic_field_hy_stencil_dpd glob ext g st h2 a b ha hb) x hx2]
      exact (update_magnetic_field_hy_interpolate_other glob ext g _ hT hX1 hX2 hY1 hY2 x hx).trans
        (update_magnetic_field_hy_stencil_other glob ext g st x hx2)
    · simp only [if_pos h1, if_neg h2]
      exact (update_magnetic_field_hy_interpolate_other glob ext g _ hT hX1 hX2 hY1 hY2 x hx).trans
        (update_magnetic_field_hy_stencil_other glob ext g st x hx2)
  · by_cases h2 : glob.sort_skip = true
    · simp only [if_neg h1, if_pos h2]
      rw [update_magnetic_field_hy_restore_other glob ext g
        (update_magnetic_field_hy_stencil glob ext g st) (hq h2)
        (fun a b ha hb => update_magnetic_field_hy_stencil_dpd glob ext g st h2 a b ha hb) x hx2]
      exact update_magnetic_field_hy_stencil_other glob ext g st x hx2
    · simp only [if_neg h1, if_neg h2]
      exact update_magnetic_field_hy_stencil_other glob ext g st x hx2

/-! ### What the passes leave alone besides the cells -/

theorem update_electric_field_cell_besides (glob : Globals) (ext : Extern) (g : fdtd2D)
    (i j : Nat) (st : fdtd2D × (Nat × Nat → dataPosDeviation)) :
    (update_electric_field_cell glob ext g i j st).1.besides_ez = st.1.besides_ez := by
  unfold update_electric_field_cell
  by_cases h1 : skip_guard glob g i j = true
  · by_cases h2 : (call_drand48 ext st.1).1 < glob.rand_skip_percent
    · simp only [if_pos h1, if_pos h2]
      rfl
    · simp only [if_pos h1, if_neg h2]
      rfl
  · simp only [if_neg h1]
    rfl

theorem update_electric_field_stencil_besides (glob : Globals) (ext : Extern) (g : fdtd2D)
    (st : fdtd2D × (Nat × Nat → dataPosDeviation)) :
    (update_electric_field_stencil glob ext g st).1.besides_ez = st.1.besides_ez := by
  unfold update_electric_field_stencil
  refine forLoop_proj_fst fdtd2D.besides_ez _ _ _ (fun i st => ?_) st
  refine forLoop_proj_fst fdtd2D.besides_ez _ _ _ (fun j st => ?_) st
  exact update_electric_field_cell_besides glob ext g i j st

theorem update_electric_field_interpolate_besides (glob : Globals) (ext : Extern) (g s : fdtd2D) :
    (update_electric_field_interpolate glob ext g s).besides_ez = s.besides_ez := by
  unfold update_electric_field_interpolate
  refine forLoop_proj fdtd2D.besides_ez _ _ _ (fun i st => ?_) s
  refine forLoop_proj fdtd2D.besides_ez _ _ _ (fun j st => ?_) st
  by_cases h : (call_drand48 ext st).1 < glob.rand_skip_percent
  · simp only [if_pos h]
    rfl
  · simp only [if_neg h]
    rfl

theorem update_electric_field_restore_cell_besides (threshold : Nat) (dpd : Nat × Nat → dataPosDeviation)
    (i j : Nat) (st : fdtd2D × Nat) :
    (update_electric_field_restore_cell threshold dpd i j st).1.besides_ez = st.1.besides_ez := by
  unfold update_electric_field_restore_cell
  by_cases h : st.2 < threshold
  · simp only [if_pos h]
    rfl
  · simp only [if_neg h]

theorem update_electric_field_restore_besides (glob : Globals) (ext : Extern) (g : fdtd2D)
    (st : fdtd2D × (Nat × Nat → dataPosDeviation)) :
    (update_electric_field_restore glob ext g st).1.besides_ez = st.1.besides_ez := by
  unfold update_electric_field_restore
  refine forLoop_proj_fst fdtd2D.besides_ez _ _ _ (fun i st => ?_) ((st.1, 0) : fdtd2D × Nat)
  refine forLoop_proj_fst fdtd2D.besides_ez _ _ _ (fun j st => ?_) st
  exact update_electric_field_restore_cell_besides _ _ i j st

theorem update_electric_field_pass_besides (glob : Globals) (ext : Extern) (g : fdtd2D)
    (st : fdtd2D × (Nat × Nat → dataPosDeviation)) :
    (update_electric_field_pass glob ext g st).1.besides_ez = st.1.besides_ez := by
  unfold update_electric_field_pass
  by_cases h1 : glob.interpolate = true
  · by_cases h2 : glob.sort_skip = true
    · simp only [if_pos h1, if_pos h2]
      rw [update_electric_field_restore_besides]
      exact (update_electric_field_interpolate_besides glob ext g _).trans
        (update_electric_field_stencil_besides glob ext g st)
    · simp only [if_pos h1, if_neg h2]
      exact (update_electric_field_interpolate_besides glob ext g _).trans
        (update_electric_field_stencil_besides glob ext g st)
  · by_cases h2 : glob.sort_skip = true
    · simp only [if_neg h1, if_pos h2]
      rw [update_electric_field_restore_besides]
      exact update_electric_field_stencil_besides glob ext g st
    · simp only [if_neg h1, if_neg h2]
      exact update_electric_field_stencil_besides glob ext g st

theorem update_magnetic_field_hx_cell_besides (glob : Globals) (ext : Extern) (g : fdtd2D)
    (i j : Nat) (st : fdtd2D × (Nat × Nat → dataPosDeviation)) :
    (update_magnetic_field_hx_cell glob ext g i j st).1.besides_h = st.1.besides_h := by
  unfold update_magnetic_field_hx_cell
  by_cases h1 : skip_guard glob g i j = true
  · by_cases h2 : (call_drand48 ext st.1).1 < glob.rand_skip_percent
    · simp only [if_pos h1, if_pos h2]
      rfl
    · simp only [if_pos h1, if_neg h2]
      rfl
  · simp only [if_neg h1]
    rfl

theorem update_magnetic_field_hx_stencil_besides (glob : Globals) (ext : Extern) (g : fdtd2D)
    (st : fdtd2D × (Nat × Nat → dataPosDeviation)) :
    (update_magnetic_field_hx_stencil glob ext g st).1.besides_h = st.1.besides_h := by
  unfold update_magnetic_field_hx_stencil
  refine forLoop_proj_fst fdtd2D.besides_h _ _ _ (fun i st => ?_) st
  refine forLoop_proj_fst fdtd2D.besides_h _ _ _ (fun j st => ?_) st
  exact update_magnetic_field_hx_cell_besides glob ext g i j st

theorem update_magnetic_field_hx_interpolate_besides (glob : Globals) (ext : Extern) (g s : fdtd2D) :
    (update_magnetic_field_hx_interpolate glob ext g s).besides_h = s.besides_h := by
  unfold update_magnetic_field_hx_interpolate
  refine forLoop_proj fdtd2D.besides_h _ _ _ (fun i st => ?_) s
  refine forLoop_proj fdtd2D.besides_h _ _ _ (fun j st => ?_) st
  by_cases h : (call_drand48 ext st).1 < glob.rand_skip_percent
  · simp only [if_pos h]
    rfl
  · simp only [if_neg h]
    rfl

theorem update_magnetic_field_hx_restore_cell_besides (threshold : Nat) (dpd : Nat × Nat → dataPosDeviation)
    (i j : Nat) (st : fdtd2D × Nat) :
    (update_magnetic_field_hx_restore_cell threshold dpd i j st).1.besides_h = st.1.besides_h := by
  unfold update_magnetic_field_hx_restore_cell
  by_cases h : st.2 < threshold
  · simp only [if_pos h]
    rfl
  · simp only [if_neg h]

theorem update_magnetic_field_hx_restore_besides (glob : Globals) (ext : Extern) (g : fdtd2D)
    (st : fdtd2D × (Nat × Nat → dataPosDeviation)) :
    (update_magnetic_field_hx_restore glob ext g st).1.besides_h = st.1.besides_h := by
  unfold update_magnetic_field_hx_restore
  refine forLoop_proj_fst fdtd2D.besides_h _ _ _ (fun i st => ?_) ((st.1, 0) : fdtd2D × Nat)
  refine forLoop_proj_fst fdtd2D.besides_h _ _ _ (fun j st => ?_) st
  exact update_magnetic_field_hx_restore_cell_besides _ _ i j st

theorem update_magnetic_field_hx_pass_besides (glob : Globals) (ext : Extern) (g : fdtd2D)
    (st : fdtd2D × (Nat × Nat → dataPosDeviation)) :
    (update_magnetic_field_hx_pass glob ext g st).1.besides_h = st.1.besides_h := by
  unfold update_magnetic_field_hx_pass
  by_cases h1 : glob.interpolate = true
  · by_cases h2 : glob.sort_skip = true
    · simp only [if_pos h1, if_pos h2]
      rw [update_magnetic_field_hx_restore_besides]
      exact (update_magnetic_field_hx_interpolate_besides glob ext g _).trans
        (update_magnetic_field_hx_stencil_besides glob ext g st)
    · simp only [if_pos h1, if_neg h2]
      exact (update_magnetic_field_hx_interpolate_besides glob ext g _).trans
        (update_magnetic_field_hx_stencil_besides glob ext g st)
  · by_cases h2 : glob.sort_skip = true
    · simp only [if_neg h1, if_pos h2]
      rw [update_magnetic_field_hx_restore_besides]
      exact update_magnetic_field_hx_stencil_besides glob ext g st
    · simp only [if_neg h1, if_neg h2]
      exact update_magnetic_field_hx_stencil_besides glob ext g st

theorem update_magnetic_field_hy_cell_besides (glob : Globals) (ext : Extern) (g : fdtd2D)
    (i j : Nat) (st : fdtd2D × (Nat × Nat → dataPosDeviation)) :
    (update_magnetic_field_hy_cell glob ext g i j st).1.besides_h = st.1.besides_h := by
  unfold update_magnetic_field_hy_cell
  by_cases h1 : skip_guard glob g i j = true
  · by_cases h2 : (call_drand48 ext st.1).1 < glob.rand_skip_percent
    · simp only [if_pos h1, if_pos h2]
      rfl
    · simp only [if_pos h1, if_neg h2]
      rfl
  · simp only [if_neg h1]
    rfl

theorem update_magnetic_field_hy_stencil_besides (glob : Globals) (ext : Extern) (g : fdtd2D)
    (st : fdtd2D × (Nat × Nat → dataPosDeviation)) :
    (update_magnetic_field_hy_stencil glob ext g st).1.besides_h = st.1.besides_h := by
  unfold update_magnetic_field_hy_stencil
  refine forLoop_proj_fst fdtd2D.besides_h _ _ _ (fun i st => ?_) st
  refine forLoop_proj_fst fdtd2D.besides_h _ _ _ (fun j st => ?_) st
  exact update_magnetic_field_hy_cell_besides glob ext g i j st

theorem update_magnetic_field_hy_interpolate_besides (glob : Globals) (ext : Extern) (g s : fdtd2D) :
    (update_magnetic_field_hy_interpolate glob ext g s).besides_h = s.besides_h := by
  unfold update_magnetic_field_hy_interpolate
  refine forLoop_proj fdtd2D.besides_h _ _ _ (fun i st => ?_) s
  refine forLoop_proj fdtd2D.besides_h _ _ _ (fun j st => ?_) st
  by_cases h : (call_drand48 ext st).1 < glob.rand_skip_percent
  · simp only [if_pos h]
    rfl
  · simp only [if_neg h]
    rfl

theorem update_magnetic_field_hy_restore_cell_besides (threshold : Nat) (dpd : Nat × Nat → dataPosDeviation)
    (i j : Nat) (st : fdtd2D × Nat) :
    (update_magnetic_field_hy_restore_cell threshold dpd i j st).1.besides_h = st.1.besides_h := by
  unfold update_magnetic_field_hy_restore_cell
  by_cases h : st.2 < threshold
  · simp only [if_pos h]
    rfl
  · simp only [if_neg h]

theorem update_magnetic_field_hy_restore_besides (glob : Globals) (ext : Extern) (g : fdtd2D)
    (st : fdtd2D × (Nat × Nat → dataPosDeviation)) :
    (update_magnetic_field_hy_restore glob ext g st).1.besides_h = st.1.besides_h := by
  unfold update_magnetic_field_hy_restore
  refine forLoop_proj_fst fdtd2D.besides_h _ _ _ (fun i st => ?_) ((st.1, 0) : fdtd2D × Nat)
  refine forLoop_proj_fst fdtd2D.besides_h _ _ _ (fun j st => ?_) st
  exact update_magnetic_field_hy_restore_cell_besides _ _ i j st

theorem update_magnetic_field_hy_pass_besides (glob : Globals) (ext : Extern) (g : fdtd2D)
    (st : fdtd2D × (Nat × Nat → dataPosDeviation)) :
    (update_magnetic_field_hy_pass glob ext g st).1.besides_h = st.1.besides_h := by
  unfold update_magnetic_field_hy_pass
  by_cases h1 : glob.interpolate = true
  · by_cases h2 : glob.sort_skip = true
    · simp only [if_pos h1, if_pos h2]
      rw [update_magnetic_field_hy_restore_besides]
      exact (update_magnetic_field_hy_interpolate_besides glob ext g _).trans
        (update_magnetic_field_hy_stencil_besides glob ext g st)
    · simp only [if_pos h1, if_neg h2]
      exact (update_magnetic_field_hy_interpolate_besides glob ext g _).trans
        (update_magnetic_field_hy_stencil_besides glob ext g st)
  · by_cases h2 : glob.sort_skip = true
    · simp only [if_neg h1, if_pos h2]
      rw [update_magnetic_field_hy_restore_besides]
      exact update_magnetic_field_hy_stencil_besides glob ext g st
    · simp only [if_neg h1, if_neg h2]
      exact update_magnetic_field_hy_stencil_besides glob ext g st

theorem update_magnetic_field_hx_cell_besides_hy (glob : Globals) (ext : Extern) (g : fdtd2D)
    (i j : Nat) (st : fdtd2D × (Nat × Nat → dataPosDeviation)) :
    (update_magnetic_field_hx_cell glob ext g i j st).1.besides_hx = st.1.besides_hx := by
  unfold update_magnetic_field_hx_cell
  by_cases h1 : skip_guard glob g i j = true
  · by_cases h2 : (call_drand48 ext st.1).1 < glob.rand_skip_percent
    · simp only [if_pos h1, if_pos h2]
      rfl
    · simp only [if_pos h1, if_neg h2]
      rfl
  · simp only [if_neg h1]
    rfl

theorem update_magnetic_field_hx_stencil_besides_hy (glob : Globals) (ext : Extern) (g : fdtd2D)
    (st : fdtd2D × (Nat × Nat → dataPosDeviation)) :
    (update_magnetic_field_hx_stencil glob ext g st).1.besides_hx = st.1.besides_hx := by
  unfold update_magnetic_field_hx_stencil
  refine forLoop_proj_fst fdtd2D.besides_hx _ _ _ (fun i st => ?_) st
  refine forLoop_proj_fst fdtd2D.besides_hx _ _ _ (fun j st => ?_) st
  exact update_magnetic_field_hx_cell_besides_hy glob ext g i j st

theorem update_magnetic_field_hx_interpolate_besides_hy (glob : Globals) (ext : Extern) (g s : fdtd2D) :
    (update_magnetic_field_hx_interpolate glob ext g s).besides_hx = s.besides_hx := by
  unfold update_magnetic_field_hx_interpolate
  refine forLoop_proj fdtd2D.besides_hx _ _ _ (fun i st => ?_) s
  refine forLoop_proj fdtd2D.besides_hx _ _ _ (fun j st => ?_) st
  by_cases h : (call_drand48 ext st).1 < glob.rand_skip_percent
  · simp only [if_pos h]
    rfl
  · simp only [if_neg h]
    rfl

theorem update_magnetic_field_hx_restore_cell_besides_hy (threshold : Nat) (dpd : Nat × Nat → dataPosDeviation)
    (i j : Nat) (st : fdtd2D × Nat) :
    (update_magnetic_field_hx_restore_cell threshold dpd i j st).1.besides_hx = st.1.besides_hx := by
  unfold update_magnetic_field_hx_restore_cell
  by_cases h : st.2 < threshold
  · simp only [if_pos h]
    rfl
  · simp only [if_neg h]

theorem update_magnetic_field_hx_restore_besides_hy (glob : Globals) (ext : Extern) (g : fdtd2D)
    (st : fdtd2D × (Nat × Nat → dataPosDeviation)) :
    (update_magnetic_field_hx_restore glob ext g st).1.besides_hx = st.1.besides_hx := by
  unfold update_magnetic_field_hx_restore
  refine forLoop_proj_fst fdtd2D.besides_hx _ _ _ (fun i st => ?_) ((st.1, 0) : fdtd2D × Nat)
  refine forLoop_proj_fst fdtd2D.besides_hx _ _ _ (fun j st => ?_) st
  exact update_magnetic_field_hx_restore_cell_besides_hy _ _ i j st

theorem update_magnetic_field_hx_pass_besides_hy (glob : Globals) (ext : Extern) (g : fdtd2D)
    (st : fdtd2D × (Nat × Nat → dataPosDeviation)) :
    (update_magnetic_field_hx_pass glob ext g st).1.besides_hx = st.1.besides_hx := by
  unfold update_magnetic_field_hx_pass
  by_cases h1 : glob.interpolate = true
  · by_cases h2 : glob.sort_skip = true
    · simp only [if_pos h1, if_pos h2]
      rw [update_magnetic_field_hx_restore_besides_hy]
      exact (update_magnetic_field_hx_interpolate_besides_hy glob ext g _).trans
        (update_magnetic_field_hx_stencil_besides_hy glob ext g st)
    · simp only [if_pos h1, if_neg h2]
      exact (update_magnetic_field_hx_interpolate_besides_hy glob ext g _).trans
        (update_magnetic_field_hx_stencil_besides_hy glob ext g st)
  · by_cases h2 : glob.sort_skip = true
    · simp only [if_neg h1, if_pos h2]
      rw [update_magnetic_field_hx_restore_besides_hy]
      exact update_magnetic_field_hx_stencil_besides_hy glob ext g st
    · simp only [if_neg h1, if_neg h2]
      exact update_magnetic_field_hx_stencil_besides_hy glob ext g st

theorem update_magnetic_field_hy_cell_besides_hx (glob : Globals) (ext : Extern) (g : fdtd2D)
    (i j : Nat) (st : fdtd2D × (Nat × Nat → dataPosDeviation)) :
    (update_magnetic_field_hy_cell glob ext g i j st).1.besides_hy = st.1.besides_hy := by
  unfold update_magnetic_field_hy_cell
  by_cases h1 : skip_guard glob g i j = true
  · by_cases h2 : (call_drand48 ext st.1).1 < glob.rand_skip_percent
    · simp only [if_pos h1, if_pos h2]
      rfl
    · simp only [if_pos h1, if_neg h2]
      rfl
  · simp only [if_neg h1]
    rfl

theorem update_magnetic_field_hy_stencil_besides_hx (glob : Globals) (ext : Extern) (g : fdtd2D)
    (st : fdtd2D × (Nat × Nat → dataPosDeviation)) :
    (update_magnetic_field_hy_stencil glob ext g st).1.besides_hy = st.1.besides_hy := by
  unfold update_magnetic_field_hy_stencil
  refine forLoop_proj_fst fdtd2D.besides_hy _ _ _ (fun i st => ?_) st
  refine forLoop_proj_fst fdtd2D.besides_hy _ _ _ (fun j st => ?_) st
  exact update_magnetic_field_hy_cell_besides_hx glob ext g i j st

theorem update_magnetic_field_hy_interpolate_besides_hx (glob : Globals) (ext : Extern) (g s : fdtd2D) :
    (update_magnetic_field_hy_interpolate glob ext g s).besides_hy = s.besides_hy := by
  unfold update_magnetic_field_hy_interpolate
  refine forLoop_proj fdtd2D.besides_hy _ _ _ (fun i st => ?_) s
  refine forLoop_proj fdtd2D.besides_hy _ _ _ (fun j st => ?_) st
  by_cases h : (call_drand48 ext st).1 < glob.rand_skip_percent
  · simp only [if_pos h]
    rfl
  · simp only [if_neg h]
    rfl

theorem update_magnetic_field_hy_restore_cell_besides_hx (threshold : Nat) (dpd : Nat × Nat → dataPosDeviation)
    (i j : Nat) (st : fdtd2D × Nat) :
    (update_magnetic_field_hy_restore_cell threshold dpd i j st).1.besides_hy = st.1.besides_hy := by
  unfold update_magnetic_field_hy_restore_cell
  by_cases h : st.2 < threshold
  · simp only [if_pos h]
    rfl
  · simp only [if_neg h]

theorem update_magnetic_field_hy_restore_besides_hx (glob : Globals) (ext : Extern) (g : fdtd2D)
    (st : fdtd2D × (Nat × Nat → dataPosDeviation)) :
    (update_magnetic_field_hy_restore glob ext g st).1.besides_hy = st.1.besides_hy := by
  unfold update_magnetic_field_hy_restore
  refine forLoop_proj_fst fdtd2D.besides_hy _ _ _ (fun i st => ?_) ((st.1, 0) : fdtd2D × Nat)
  refine forLoop_proj_fst fdtd2D.besides_hy _ _ _ (fun j st => ?_) st
  exact update_magnetic_field_hy_restore_cell_besides_hx _ _ i j st

theorem update_magnetic_field_hy_pass_besides_hx (glob : Globals) (ext : Extern) (g : fdtd2D)
    (st : fdtd2D × (Nat × Nat → dataPosDeviation)) :
    (update_magnetic_field_hy_pass glob ext g st).1.besides_hy = st.1.besides_hy := by
  unfold update_magnetic_field_hy_pass
  by_cases h1 : glob.interpolate = true
  · by_cases h2 : glob.sort_skip = true
    · simp only [if_pos h1, if_pos h2]
      rw [update_magnetic_field_hy_restore_besides_hx]
      exact (update_magnetic_field_hy_interpolate_besides_hx glob ext g _).trans
        (update_magnetic_field_hy_stencil_besides_hx glob ext g st)
    · simp only [if_pos h1, if_neg h2]
      exact (update_magnetic_field_hy_interpolate_besides_hx glob ext g _).trans
        (update_magnetic_field_hy_stencil_besides_hx glob ext g st)
  · by_cases h2 : glob.sort_skip = true
    · simp only [if_neg h1, if_pos h2]
      rw [update_magnetic_field_hy_restore_besides_hx]
      exact update_magnetic_field_hy_stencil_besides_hx glob ext g st
    · simp only [if_neg h1, if_neg h2]
      exact update_magnetic_field_hy_stencil_besides_hx glob ext g st

theorem update_electric_field_besides (glob : Globals) (ext : Extern) (g : fdtd2D) :
    (update_electric_field glob ext g).besides_ez = g.besides_ez :=
  update_electric_field_pass_besides glob ext g _

theorem update_magnetic_field_besides (glob : Globals) (ext : Extern) (g : fdtd2D) :
    (update_magnetic_field glob ext g).besides_h = g.besides_h := by
  unfold update_magnetic_field
  exact (update_magnetic_field_hy_pass_besides glob ext g _).trans
    (update_magnetic_field_hx_pass_besides glob ext g _)

/-- The 2D electric update, whatever the experimental modes, leaves the `ez` cells
with an index 0 as they were. -/
theorem update_electric_field_other (glob : Globals) (ext : Extern) (g : fdtd2D)
    (hq : glob.sort_skip = true → qsort_keeps_records ext)
    (hT : g.cpml_thickness + 1 < UINTMAX_MOD)
    (hX1 : 1 ≤ g.sizeX) (hX2 : g.sizeX < UINTMAX_MOD) (hY1 : 1 ≤ g.sizeY)
    (hY2 : g.sizeY < UINTMAX_MOD) (x : Nat × Nat) (hx : x.1 = 0 ∨ x.2 = 0) :
    (update_electric_field glob ext g).ez x = g.ez x :=
  update_electric_field_pass_other glob ext g _ hq hT hX1 hX2 hY1 hY2 x hx

theorem update_magnetic_field_hx_pass_keeps_hy (glob : Globals) (ext : Extern) (g : fdtd2D)
    (st : fdtd2D × (Nat × Nat → dataPosDeviation)) :
    (update_magnetic_field_hx_pass glob ext g st).1.hy = st.1.hy := by
  have h := update_magnetic_field_hx_pass_besides_hy glob ext g st
  have h2 := congrArg fdtd2D.hy h
  exact h2

theorem update_magnetic_field_hy_pass_keeps_hx (glob : Globals) (ext : Extern) (g : fdtd2D)
    (st : fdtd2D × (Nat × Nat → dataPosDeviation)) :
    (update_magnetic_field_hy_pass glob ext g st).1.hx = st.1.hx := by
  have h := update_magnetic_field_hy_pass_besides_hx glob ext g st
  have h2 := congrArg fdtd2D.hx h
  exact h2

/-- The 2D magnetic update, whatever the experimental modes, leaves the `hx` and
`hy` cells with a last index as they were. -/
theorem update_magnetic_field_other (glob : Globals) (ext : Extern) (g : fdtd2D)
    (hq : glob.sort_skip = true → qsort_keeps_records ext)
    (hT : g.cpml_thickness + 1 < UINTMAX_MOD)
    (hX1 : 1 ≤ g.sizeX) (hX2 : g.sizeX < UINTMAX_MOD) (hY1 : 1 ≤ g.sizeY)
    (hY2 : g.sizeY < UINTMAX_MOD) (x : Nat × Nat)
    (hx : x.1 = g.sizeX - 1 ∨ x.2 = g.sizeY - 1) :
    (update_magnetic_field glob ext g).hx x = g.hx x ∧
    (update_magnetic_field glob ext g).hy x = g.hy x := by
  unfold update_magnetic_field
  refine ⟨?_, ?_⟩
  · rw [update_magnetic_field_hy_pass_keeps_hx]
    exact update_magnetic_field_hx_pass_other glob ext g _ hq hT hX1 hX2 hY1 hY2 x hx
  · rw [update_magnetic_field_hy_pass_other glob ext g _ hq hT hX1 hX2 hY1 hY2 x hx,
      update_magnetic_field_hx_pass_keeps_hy]

end D2

/-! ## The 2D updates with the experimental modes off -/

namespace D2

/-! ### The `ez` pass -/

theorem update_electric_field_cell_plain (glob : Globals) (ext : Extern) (g : fdtd2D)
    (hoff : glob.off) (hd : ∀ n, 0 ≤ ext.drand48 n) (i j : Nat) (b : fdtd2D)
    (dpd : Nat × Nat → dataPosDeviation) (p : Arr2 × Nat) :
    update_electric_field_cell glob ext g i j
        (({ b with ez := p.1, rand_calls := p.2 } : fdtd2D), dpd) =
      (({ b with
          ez := store p.1 (i, j) (p.1 (i, j) + ((b.hy (i, j) - b.hy (i - 1, j)) * (1 / g.dx) -
            (b.hx (i, j) - b.hx (i, j - 1)) * (1 / g.dy)) * g.dt * b.permittivity_inv (i, j)),
          rand_calls := p.2 + (if skip_guard glob g i j = true then 1 else 0) } : fdtd2D),
        dpd) := by
  unfold update_electric_field_cell
  have hs := hoff.sort_skip
  by_cases h1 : skip_guard glob g i j = true
  · have h2 : ¬ (call_drand48 ext ({ b with ez := p.1, rand_calls := p.2 } : fdtd2D)).1 <
        glob.rand_skip_percent := not_lt.mpr (le_trans hoff.rand_skip_percent (hd _))
    simp only [if_pos h1, if_neg h2, hs, Bool.false_eq_true, if_false]
    rfl
  · simp only [if_neg h1, hs, Bool.false_eq_true, if_false]
    rfl

/-- With the modes off the first loop nest of the `ez` pass is the plain stencil. -/
theorem update_electric_field_stencil_plain (glob : Globals) (ext : Extern) (g : fdtd2D)
    (hoff : glob.off) (hd : ∀ n, 0 ≤ ext.drand48 n) (b : fdtd2D)
    (dpd : Nat × Nat → dataPosDeviation) :
    ∃ n : Nat, update_electric_field_stencil glob ext g (b, dpd) =
      (({ b with
          ez := fun x => if inBox2 1 g.sizeX 1 g.sizeY x then b.ez x + ((b.hy (x.1, x.2) - b.hy (x.1 - 1, x.2)) * (1 / g.dx) -
            (b.hx (x.1, x.2) - b.hx (x.1, x.2 - 1)) * (1 / g.dy)) * g.dt * b.permittivity_inv (x.1, x.2) else b.ez x,
          rand_calls := n } : fdtd2D), dpd) := by
  unfold update_electric_field_stencil
  rw [forLoop2_eq_foldl_curried]
  have h := foldl_lift
    (fun p : Arr2 × Nat => ((({ b with ez := p.1, rand_calls := p.2 } : fdtd2D), dpd) :
      fdtd2D × (Nat × Nat → dataPosDeviation)))
    (fun (k : Nat × Nat) st => update_electric_field_cell glob ext g k.1 k.2 st)
    (fun (k : Nat × Nat) (p : Arr2 × Nat) =>
      (store p.1 k (p.1 k + ((b.hy (k.1, k.2) - b.hy (k.1 - 1, k.2)) * (1 / g.dx) -
            (b.hx (k.1, k.2) - b.hx (k.1, k.2 - 1)) * (1 / g.dy)) * g.dt * b.permittivity_inv (k.1, k.2)),
        p.2 + (if skip_guard glob g k.1 k.2 = true then 1 else 0)))
    (keys2 1 g.sizeX 1 g.sizeY)
    (fun k p => update_electric_field_cell_plain glob ext g hoff hd k.1 k.2 b dpd p)
    (b.ez, b.rand_calls)
  have h2 := foldl_prod
    (fun (k : Nat × Nat) (a : Arr2) => store a k (a k + ((b.hy (k.1, k.2) - b.hy (k.1 - 1, k.2)) * (1 / g.dx) -
            (b.hx (k.1, k.2) - b.hx (k.1, k.2 - 1)) * (1 / g.dy)) * g.dt * b.permittivity_inv (k.1, k.2)))
    (fun (k : Nat × Nat) (n : Nat) => n + (if skip_guard glob g k.1 k.2 = true then 1 else 0))
    (keys2 1 g.sizeX 1 g.sizeY) b.ez b.rand_calls
  have h3 := foldl_store_self
    (fun (k : Nat × Nat) (old : ℚ) => old + ((b.hy (k.1, k.2) - b.hy (k.1 - 1, k.2)) * (1 / g.dx) -
            (b.hx (k.1, k.2) - b.hx (k.1, k.2 - 1)) * (1 / g.dy)) * g.dt * b.permittivity_inv (k.1, k.2))
    (keys2 1 g.sizeX 1 g.sizeY) (nodup_keys2 _ _ _ _) (inBox2 1 g.sizeX 1 g.sizeY)
    (fun _ => mem_keys2) b.ez
  refine ⟨(keys2 1 g.sizeX 1 g.sizeY).foldl
    (fun (n : Nat) (k : Nat × Nat) =>
      n + (if skip_guard glob g k.1 k.2 = true then 1 else 0)) b.rand_calls, ?_⟩
  refine h.trans ?_
  rw [h2]
  dsimp only
  rw [h3]

/-- With the modes off the `ez` pass is the plain stencil. -/
theorem update_electric_field_pass_plain (glob : Globals) (ext : Extern) (g : fdtd2D)
    (hoff : glob.off) (hd : ∀ n, 0 ≤ ext.drand48 n) (b : fdtd2D)
    (dpd : Nat × Nat → dataPosDeviation) :
    ∃ n : Nat, update_electric_field_pass glob ext g (b, dpd) =
      (({ b with
          ez := fun x => if inBox2 1 g.sizeX 1 g.sizeY x then b.ez x + ((b.hy (x.1, x.2) - b.hy (x.1 - 1, x.2)) * (1 / g.dx) -
            (b.hx (x.1, x.2) - b.hx (x.1, x.2 - 1)) * (1 / g.dy)) * g.dt * b.permittivity_inv (x.1, x.2) else b.ez x,
          rand_calls := n } : fdtd2D), dpd) := by
  obtain ⟨n, hn⟩ := update_electric_field_stencil_plain glob ext g hoff hd b dpd
  refine ⟨n, ?_⟩
  unfold update_electric_field_pass
  simp only [hoff.sort_skip, hoff.interpolate, Bool.false_eq_true, if_false]
  exact hn

/-- With the modes off a cell step of the `ez` pass does not depend on the values
that `drand48` returns. -/
theorem update_electric_field_cell_drand48 (glob : Globals) (ext : Extern) (g : fdtd2D)
    (hoff : glob.off) (hd : ∀ n, 0 ≤ ext.drand48 n) (d2 : Nat → ℚ) (hd2 : ∀ n, 0 ≤ d2 n)
    (i j : Nat) (st : fdtd2D × (Nat × Nat → dataPosDeviation)) :
    update_electric_field_cell glob { ext with drand48 := d2 } g i j st =
      update_electric_field_cell glob ext g i j st := by
  unfold update_electric_field_cell
  by_cases h1 : skip_guard glob g i j = true
  · have h2 : ¬ (call_drand48 ext st.1).1 < glob.rand_skip_percent :=
      not_lt.mpr (le_trans hoff.rand_skip_percent (hd _))
    have h3 : ¬ (call_drand48 { ext with drand48 := d2 } st.1).1 < glob.rand_skip_percent :=
      not_lt.mpr (le_trans hoff.rand_skip_percent (hd2 _))
    simp only [if_pos h1, if_neg h2, if_neg h3]
    rfl
  · simp only [if_neg h1]

theorem update_electric_field_pass_drand48 (glob : Globals) (ext : Extern) (g : fdtd2D)
    (hoff : glob.off) (hd : ∀ n, 0 ≤ ext.drand48 n) (d2 : Nat → ℚ) (hd2 : ∀ n, 0 ≤ d2 n)
    (st : fdtd2D × (Nat × Nat → dataPosDeviation)) :
    update_electric_field_pass glob { ext with drand48 := d2 } g st = update_electric_field_pass glob ext g st := by
  unfold update_electric_field_pass
  simp only [hoff.sort_skip, hoff.interpolate, Bool.false_eq_true, if_false]
  unfold update_electric_field_stencil
  refine forLoop_congr _ _ _ _ (fun i s => ?_) st
  refine forLoop_congr _ _ _ _ (fun j s2 => ?_) s
  exact update_electric_field_cell_drand48 glob ext g hoff hd d2 hd2 i j s2

/-! ### The `hx` pass -/

theorem update_magnetic_field_hx_cell_plain (glob : Globals) (ext : Extern) (g : fdtd2D)
    (hoff : glob.off) (hd : ∀ n, 0 ≤ ext.drand48 n) (i j : Nat) (b : fdtd2D)
    (dpd : Nat × Nat → dataPosDeviation) (p : Arr2 × Nat) :
    update_magnetic_field_hx_cell glob ext g i j
        (({ b with hx := p.1, rand_calls := p.2 } : fdtd2D), dpd) =
      (({ b with
          hx := store p.1 (i, j) (p.1 (i, j) + (b.ez (i, j) - b.ez (i, j + 1)) * (1 / g.dy) * g.dt *
            b.permeability_inv (i, j)),
          rand_calls := p.2 + (if skip_guard glob g i j = true then 1 else 0) } : fdtd2D),
        dpd) := by
  unfold update_magnetic_field_hx_cell
  have hs := hoff.sort_skip
  by_cases h1 : skip_guard glob g i j = true
  · have h2 : ¬ (call_drand48 ext ({ b with hx := p.1, rand_calls := p.2 } : fdtd2D)).1 <
        glob.rand_skip_percent := not_lt.mpr (le_trans hoff.rand_skip_percent (hd _))
    simp only [if_pos h1, if_neg h2, hs, Bool.false_eq_true, if_false]
    rfl
  · simp only [if_neg h1, hs, Bool.false_eq_true, if_false]
    rfl

/-- With the modes off the first loop nest of the `hx` pass is the plain stencil. -/
theorem update_magnetic_field_hx_stencil_plain (glob : Globals) (ext : Extern) (g : fdtd2D)
    (hoff : glob.off) (hd : ∀ n, 0 ≤ ext.drand48 n) (b : fdtd2D)
    (dpd : Nat × Nat → dataPosDeviation) :
    ∃ n : Nat, update_magnetic_field_hx_stencil glob ext g (b, dpd) =
      (({ b with
          hx := fun x => if inBox2 0 (usub g.sizeX 1) 0 (usub g.sizeY 1) x then b.hx x + (b.ez (x.1, x.2) - b.ez (x.1, x.2 + 1)) * (1 / g.dy) * g.dt *
            b.permeability_inv (x.1, x.2) else b.hx x,
          rand_calls := n } : fdtd2D), dpd) := by
  unfold update_magnetic_field_hx_stencil
  rw [forLoop2_eq_foldl_curried]
  have h := foldl_lift
    (fun p : Arr2 × Nat => ((({ b with hx := p.1, rand_calls := p.2 } : fdtd2D), dpd) :
      fdtd2D × (Nat × Nat → dataPosDeviation)))
    (fun (k : Nat × Nat) st => update_magnetic_field_hx_cell glob ext g k.1 k.2 st)
    (fun (k : Nat × Nat) (p : Arr2 × Nat) =>
      (store p.1 k (p.1 k + (b.ez (k.1, k.2) - b.ez (k.1, k.2 + 1)) * (1 / g.dy) * g.dt *
            b.permeability_inv (k.1, k.2)),
        p.2 + (if skip_guard glob g k.1 k.2 = true then 1 else 0)))
    (keys2 0 (usub g.sizeX 1) 0 (usub g.sizeY 1))
    (fun k p => update_magnetic_field_hx_cell_plain glob ext g hoff hd k.1 k.2 b dpd p)
    (b.hx, b.rand_calls)
  have h2 := foldl_prod
    (fun (k : Nat × Nat) (a : Arr2) => store a k (a k + (b.ez (k.1, k.2) - b.ez (k.1, k.2 + 1)) * (1 / g.dy) * g.dt *
            b.permeability_inv (k.1, k.2)))
    (fun (k : Nat × Nat) (n : Nat) => n + (if skip_guard glob g k.1 k.2 = true then 1 else 0))
    (keys2 0 (usub g.sizeX 1) 0 (usub g.sizeY 1)) b.hx b.rand_calls
  have h3 := foldl_store_self
    (fun (k : Nat × Nat) (old : ℚ) => old + (b.ez (k.1, k.2) - b.ez (k.1, k.2 + 1)) * (1 / g.dy) * g.dt *
            b.permeability_inv (k.1, k.2))
    (keys2 0 (usub g.sizeX 1) 0 (usub g.sizeY 1)) (nodup_keys2 _ _ _ _) (inBox2 0 (usub g.sizeX 1) 0 (usub g.sizeY 1))
    (fun _ => mem_keys2) b.hx
  refine ⟨(keys2 0 (usub g.sizeX 1) 0 (usub g.sizeY 1)).foldl
    (fun (n : Nat) (k : Nat × Nat) =>
      n + (if skip_guard glob g k.1 k.2 = true then 1 else 0)) b.rand_calls, ?_⟩
  refine h.trans ?_
  rw [h2]
  dsimp only
  rw [h3]

/-- With the modes off the `hx` pass is the plain stencil. -/
theorem update_magnetic_field_hx_pass_plain (glob : Globals) (ext : Extern) (g : fdtd2D)
    (hoff : glob.off) (hd : ∀ n, 0 ≤ ext.drand48 n) (b : fdtd2D)
    (dpd : Nat × Nat → dataPosDeviation) :
    ∃ n : Nat, update_magnetic_field_hx_pass glob ext g (b, dpd) =
      (({ b with
          hx := fun x => if inBox2 0 (usub g.sizeX 1) 0 (usub g.sizeY 1) x then b.hx x + (b.ez (x.1, x.2) - b.ez (x.1, x.2 + 1)) * (1 / g.dy) * g.dt *
            b.permeability_inv (x.1, x.2) else b.hx x,
          rand_calls := n } : fdtd2D), dpd) := by
  obtain ⟨n, hn⟩ := update_magnetic_field_hx_stencil_plain glob ext g hoff hd b dpd
  refine ⟨n, ?_⟩
  unfold update_magnetic_field_hx_pass
  simp only [hoff.sort_skip, hoff.interpolate, Bool.false_eq_true, if_false]
  exact hn

/-- With the modes off a cell step of the `hx` pass does not depend on the values
that `drand48` returns. -/
theorem update_magnetic_field_hx_cell_drand48 (glob : Globals) (ext : Extern) (g : fdtd2D)
    (hoff : glob.off) (hd : ∀ n, 0 ≤ ext.drand48 n) (d2 : Nat → ℚ) (hd2 : ∀ n, 0 ≤ d2 n)
    (i j : Nat) (st : fdtd2D × (Nat × Nat → dataPosDeviation)) :
    update_magnetic_field_hx_cell glob { ext with drand48 := d2 } g i j st =
      update_magnetic_field_hx_cell glob ext g i j st := by
  unfold update_magnetic_field_hx_cell
  by_cases h1 : skip_guard glob g i j = true
  · have h2 : ¬ (call_drand48 ext st.1).1 < glob.rand_skip_percent :=
      not_lt.mpr (le_trans hoff.rand_skip_percent (hd _))
    have h3 : ¬ (call_drand48 { ext with drand48 := d2 } st.1).1 < glob.rand_skip_percent :=
      not_lt.mpr (le_trans hoff.rand_skip_percent (hd2 _))
    simp only [if_pos h1, if_neg h2, if_neg h3]
    rfl
  · simp only [if_neg h1]

theorem update_magnetic_field_hx_pass_drand48 (glob : Globals) (ext : Extern) (g : fdtd2D)
    (hoff : glob.off) (hd : ∀ n, 0 ≤ ext.drand48 n) (d2 : Nat → ℚ) (hd2 : ∀ n, 0 ≤ d2 n)
    (st : fdtd2D × (Nat × Nat → dataPosDeviation)) :
    update_magnetic_field_hx_pass glob { ext with drand48 := d2 } g st = update_magnetic_field_hx_pass glob ext g st := by
  unfold update_magnetic_field_hx_pass
  simp only [hoff.sort_skip, hoff.interpolate, Bool.false_eq_true, if_false]
  unfold update_magnetic_field_hx_stencil
  refine forLoop_congr _ _ _ _ (fun i s => ?_) st
  refine forLoop_congr _ _ _ _ (fun j s2 => ?_) s
  exact update_magnetic_field_hx_cell_drand48 glob ext g hoff hd d2 hd2 i j s2

/-! ### The `hy` pass -/

theorem update_magnetic_field_hy_cell_plain (glob : Globals) (ext : Extern) (g : fdtd2D)
    (hoff : glob.off) (hd : ∀ n, 0 ≤ ext.drand48 n) (i j : Nat) (b : fdtd2D)
    (dpd : Nat × Nat → dataPosDeviation) (p : Arr2 × Nat) :
    update_magnetic_field_hy_cell glob ext g i j
        (({ b with hy := p.1, rand_calls := p.2 } : fdtd2D), dpd) =
      (({ b with
          hy := store p.1 (i, j) (p.1 (i, j) + (b.ez (i + 1, j) - b.ez (i, j)) * (1 / g.dx) * g.dt *
            b.permeability_inv (i, j)),
          rand_calls := p.2 + (if skip_guard glob g i j = true then 1 else 0) } : fdtd2D),
        dpd) := by
  unfold update_magnetic_field_hy_cell
  have hs := hoff.sort_skip
  by_cases h1 : skip_guard glob g i j = true
  · have h2 : ¬ (call_drand48 ext ({ b with hy := p.1, rand_calls := p.2 } : fdtd2D)).1 <
        glob.rand_skip_percent := not_lt.mpr (le_trans hoff.rand_skip_percent (hd _))
    simp only [if_pos h1, if_neg h2, hs, Bool.false_eq_true, if_false]
    rfl
  · simp only [if_neg h1, hs, Bool.false_eq_true, if_false]
    rfl

/-- With the modes off the first loop nest of the `hy` pass is the plain stencil. -/
theorem update_magnetic_field_hy_stencil_plain (glob : Globals) (ext : Extern) (g : fdtd2D)
    (hoff : glob.off) (hd : ∀ n, 0 ≤ ext.drand48 n) (b : fdtd2D)
    (dpd : Nat × Nat → dataPosDeviation) :
    ∃ n : Nat, update_magnetic_field_hy_stencil glob ext g (b, dpd) =
      (({ b with
          hy := fun x => if inBox2 0 (usub g.sizeX 1) 0 (usub g.sizeY 1) x then b.hy x + (b.ez (x.1 + 1, x.2) - b.ez (x.1, x.2)) * (1 / g.dx) * g.dt *
            b.permeability_inv (x.1, x.2) else b.hy x,
          rand_calls := n } : fdtd2D), dpd) := by
  unfold update_magnetic_field_hy_stencil
  rw [forLoop2_eq_foldl_curried]
  have h := foldl_lift
    (fun p : Arr2 × Nat => ((({ b with hy := p.1, rand_calls := p.2 } : fdtd2D), dpd) :
      fdtd2D × (Nat × Nat → dataPosDeviation)))
    (fun (k : Nat × Nat) st => update_magnetic_field_hy_cell glob ext g k.1 k.2 st)
    (fun (k : Nat × Nat) (p : Arr2 × Nat) =>
      (store p.1 k (p.1 k + (b.ez (k.1 + 1, k.2) - b.ez (k.1, k.2)) * (1 / g.dx) * g.dt *
            b.permeability_inv (k.1, k.2)),
        p.2 + (if skip_guard glob g k.1 k.2 = true then 1 else 0)))
    (keys2 0 (usub g.sizeX 1) 0 (usub g.sizeY 1))
    (fun k p => update_magnetic_field_hy_cell_plain glob ext g hoff hd k.1 k.2 b dpd p)
    (b.hy, b.rand_calls)
  have h2 := foldl_prod
    (fun (k : Nat × Nat) (a : Arr2) => store a k (a k + (b.ez (k.1 + 1, k.2) - b.ez (k.1, k.2)) * (1 / g.dx) * g.dt *
            b.permeability_inv (k.1, k.2)))
    (fun (k : Nat × Nat) (n : Nat) => n + (if skip_guard glob g k.1 k.2 = true then 1 else 0))
    (keys2 0 (usub g.sizeX 1) 0 (usub g.sizeY 1)) b.hy b.rand_calls
  have h3 := foldl_store_self
    (fun (k : Nat × Nat) (old : ℚ) => old + (b.ez (k.1 + 1, k.2) - b.ez (k.1, k.2)) * (1 / g.dx) * g.dt *
            b.permeability_inv (k.1, k.2))
    (keys2 0 (usub g.sizeX 1) 0 (usub g.sizeY 1)) (nodup_keys2 _ _ _ _) (inBox2 0 (usub g.sizeX 1) 0 (usub g.sizeY 1))
    (fun _ => mem_keys2) b.hy
  refine ⟨(keys2 0 (usub g.sizeX 1) 0 (usub g.sizeY 1)).foldl
    (fun (n : Nat) (k : Nat × Nat) =>
      n + (if skip_guard glob g k.1 k.2 = true then 1 else 0)) b.rand_calls, ?_⟩
  refine h.trans ?_
  rw [h2]
  dsimp only
  rw [h3]

/-- With the modes off the `hy` pass is the plain stencil. -/
theorem update_magnetic_field_hy_pass_plain (glob : Globals) (ext : Extern) (g : fdtd2D)
    (hoff : glob.off) (hd : ∀ n, 0 ≤ ext.drand48 n) (b : fdtd2D)
    (dpd : Nat × Nat → dataPosDeviation) :
    ∃ n : Nat, update_magnetic_field_hy_pass glob ext g (b, dpd) =
      (({ b with
          hy := fun x => if inBox2 0 (usub g.sizeX 1) 0 (usub g.sizeY 1) x then b.hy x + (b.ez (x.1 + 1, x.2) - b.ez (x.1, x.2)) * (1 / g.dx) * g.dt *
            b.permeability_inv (x.1, x.2) else b.hy x,
          rand_calls := n } : fdtd2D), dpd) := by
  obtain ⟨n, hn⟩ := update_magnetic_field_hy_stencil_plain glob ext g hoff hd b dpd
  refine ⟨n, ?_⟩
  unfold update_magnetic_field_hy_pass
  simp only [hoff.sort_skip, hoff.interpolate, Bool.false_eq_true, if_false]
  exact hn

/-- With the modes off a cell step of the `hy` pass does not depend on the values
that `drand48` returns. -/
theorem update_magnetic_field_hy_cell_drand48 (glob : Globals) (ext : Extern) (g : fdtd2D)
    (hoff : glob.off) (hd : ∀ n, 0 ≤ ext.drand48 n) (d2 : Nat → ℚ) (hd2 : ∀ n, 0 ≤ d2 n)
    (i j : Nat) (st : fdtd2D × (Nat × Nat → dataPosDeviation)) :
    update_magnetic_field_hy_cell glob { ext with drand48 := d2 } g i j st =
      update_magnetic_field_hy_cell glob ext g i j st := by
  unfold update_magnetic_field_hy_cell
  by_cases h1 : skip_guard glob g i j = true
  · have h2 : ¬ (call_drand48 ext st.1).1 < glob.rand_skip_percent :=
      not_lt.mpr (le_trans hoff.rand_skip_percent (hd _))
    have h3 : ¬ (call_drand48 { ext with drand48 := d2 } st.1).1 < glob.rand_skip_percent :=
      not_lt.mpr (le_trans hoff.rand_skip_percent (hd2 _))
    simp only [if_pos h1, if_neg h2, if_neg h3]
    rfl
  · simp only [if_neg h1]

theorem update_magnetic_field_hy_pass_drand48 (glob : Globals) (ext : Extern) (g : fdtd2D)
    (hoff : glob.off) (hd : ∀ n, 0 ≤ ext.drand48 n) (d2 : Nat → ℚ) (hd2 : ∀ n, 0 ≤ d2 n)
    (st : fdtd2D × (Nat × Nat → dataPosDeviation)) :
    update_magnetic_field_hy_pass glob { ext with drand48 := d2 } g st = update_magnetic_field_hy_pass glob ext g st := by
  unfold update_magnetic_field_hy_pass
  simp only [hoff.sort_skip, hoff.interpolate, Bool.false_eq_true, if_false]
  unfold update_magnetic_field_hy_stencil
  refine forLoop_congr _ _ _ _ (fun i s => ?_) st
  refine forLoop_congr _ _ _ _ (fun j s2 => ?_) s
  exact update_magnetic_field_hy_cell_drand48 glob ext g hoff hd d2 hd2 i j s2

end D2

namespace D2

theorem yee_ez_eq (g : fdtd2D) :
    (fun x : Nat × Nat => if inBox2 1 g.sizeX 1 g.sizeY x then
      g.ez x + ((g.hy (x.1, x.2) - g.hy (x.1 - 1, x.2)) * (1 / g.dx) -
            (g.hx (x.1, x.2) - g.hx (x.1, x.2 - 1)) * (1 / g.dy)) * g.dt * g.permittivity_inv (x.1, x.2)
      else g.ez x) = yee_ez g := by
  funext x
  unfold yee_ez inBox2
  by_cases h : (1 ≤ x.1 ∧ x.1 < g.sizeX) ∧ (1 ≤ x.2 ∧ x.2 < g.sizeY)
  · rw [if_pos h, if_pos ⟨h.1.1, h.1.2, h.2.1, h.2.2⟩, mul_one_div, mul_one_div]
  · rw [if_neg h, if_neg (fun h2 => h ⟨⟨h2.1, h2.2.1⟩, h2.2.2.1, h2.2.2.2⟩)]

theorem yee_hx_eq (g : fdtd2D) (hX1 : 1 ≤ g.sizeX) (hX2 : g.sizeX < UINTMAX_MOD)
    (hY1 : 1 ≤ g.sizeY) (hY2 : g.sizeY < UINTMAX_MOD) :
    (fun x : Nat × Nat => if inBox2 0 (usub g.sizeX 1) 0 (usub g.sizeY 1) x then
      g.hx x + (g.ez (x.1, x.2) - g.ez (x.1, x.2 + 1)) * (1 / g.dy) * g.dt *
            g.permeability_inv (x.1, x.2)
      else g.hx x) = yee_hx g := by
  funext x
  unfold yee_hx inBox2
  rw [usub_eq_sub hX1 hX2, usub_eq_sub hY1 hY2]
  by_cases h : (0 ≤ x.1 ∧ x.1 < g.sizeX - 1) ∧ (0 ≤ x.2 ∧ x.2 < g.sizeY - 1)
  · rw [if_pos h, if_pos ⟨h.1.2, h.2.2⟩, mul_one_div]
  · rw [if_neg h, if_neg (fun h2 => h ⟨⟨Nat.zero_le _, h2.1⟩, Nat.zero_le _, h2.2⟩)]

theorem yee_hy_eq (g : fdtd2D) (hX1 : 1 ≤ g.sizeX) (hX2 : g.sizeX < UINTMAX_MOD)
    (hY1 : 1 ≤ g.sizeY) (hY2 : g.sizeY < UINTMAX_MOD) :
    (fun x : Nat × Nat => if inBox2 0 (usub g.sizeX 1) 0 (usub g.sizeY 1) x then
      g.hy x + (g.ez (x.1 + 1, x.2) - g.ez (x.1, x.2)) * (1 / g.dx) * g.dt *
            g.permeability_inv (x.1, x.2)
      else g.hy x) = yee_hy g := by
  funext x
  unfold yee_hy inBox2
  rw [usub_eq_sub hX1 hX2, usub_eq_sub hY1 hY2]
  by_cases h : (0 ≤ x.1 ∧ x.1 < g.sizeX - 1) ∧ (0 ≤ x.2 ∧ x.2 < g.sizeY - 1)
  · rw [if_pos h, if_pos ⟨h.1.2, h.2.2⟩, mul_one_div]
  · rw [if_neg h, if_neg (fun h2 => h ⟨⟨Nat.zero_le _, h2.1⟩, Nat.zero_le _, h2.2⟩)]

/-- With the experimental modes off, the 2D electric update is the plain Yee stencil
of `ez`, whatever non-negative values `drand48` returns. -/
theorem update_electric_field_plain (glob : Globals) (ext : Extern) (g : fdtd2D)
    (hoff : glob.off) (hd : ∀ n, 0 ≤ ext.drand48 n) :
    update_electric_field glob ext g =
      { g with
        ez := yee_ez g,
        rand_calls := (update_electric_field glob ext g).rand_calls } := by
  obtain ⟨n, hn⟩ := update_electric_field_pass_plain glob ext g hoff hd g
    (fun _ => ⟨0, 0, 0, 0⟩)
  have h : update_electric_field glob ext g =
      ({ g with ez := yee_ez g, rand_calls := n } : fdtd2D) := by
    unfold update_electric_field
    dsimp only
    rw [hn, yee_ez_eq]
  have h2 : (update_electric_field glob ext g).rand_calls = n := by
    rw [h]
  rw [h2]
  exact h

/-- With the experimental modes off, the 2D magnetic update is the plain Yee
stencils of `hx` and `hy`, whatever non-negative values `drand48` returns. -/
theorem update_magnetic_field_plain (glob : Globals) (ext : Extern) (g : fdtd2D)
    (hoff : glob.off) (hd : ∀ n, 0 ≤ ext.drand48 n)
    (hX1 : 1 ≤ g.sizeX) (hX2 : g.sizeX < UINTMAX_MOD)
    (hY1 : 1 ≤ g.sizeY) (hY2 : g.sizeY < UINTMAX_MOD) :
    update_magnetic_field glob ext g =
      { g with
        hx := yee_hx g,
        hy := yee_hy g,
        rand_calls := (update_magnetic_field glob ext g).rand_calls } := by
  obtain ⟨n, hn⟩ := update_magnetic_field_hx_pass_plain glob ext g hoff hd g
    (fun _ => ⟨0, 0, 0, 0⟩)
  rw [yee_hx_eq g hX1 hX2 hY1 hY2] at hn
  obtain ⟨m, hm⟩ := update_magnetic_field_hy_pass_plain glob ext g hoff hd
    ({ g with hx := yee_hx g, rand_calls := n } : fdtd2D) (fun _ => ⟨0, 0, 0, 0⟩)
  have hy : (fun x : Nat × Nat => if inBox2 0 (usub g.sizeX 1) 0 (usub g.sizeY 1) x then
      g.hy x + (g.ez (x.1 + 1, x.2) - g.ez (x.1, x.2)) * (1 / g.dx) * g.dt *
            g.permeability_inv (x.1, x.2)
      else g.hy x) = yee_hy g := yee_hy_eq g hX1 hX2 hY1 hY2
  have h : update_magnetic_field glob ext g =
      ({ g with hx := yee_hx g, hy := yee_hy g, rand_calls := m } : fdtd2D) := by
    unfold update_magnetic_field
    dsimp only
    rw [hn, hm]
    dsimp only
    rw [hy]
  have h2 : (update_magnetic_field glob ext g).rand_calls = m := by
    rw [h]
  rw [h2]
  exact h

theorem update_electric_field_drand48 (glob : Globals) (ext : Extern) (g : fdtd2D)
    (hoff : glob.off) (hd : ∀ n, 0 ≤ ext.drand48 n) (d2 : Nat → ℚ) (hd2 : ∀ n, 0 ≤ d2 n) :
    update_electric_field glob { ext with drand48 := d2 } g = update_electric_field glob ext g := by
  unfold update_electric_field
  dsimp only
  rw [update_electric_field_pass_drand48 glob ext g hoff hd d2 hd2]

theorem update_magnetic_field_drand48 (glob : Globals) (ext : Extern) (g : fdtd2D)
    (hoff : glob.off) (hd : ∀ n, 0 ≤ ext.drand48 n) (d2 : Nat → ℚ) (hd2 : ∀ n, 0 ≤ d2 n) :
    update_magnetic_field glob { ext with drand48 := d2 } g = update_magnetic_field glob ext g := by
  unfold update_magnetic_field
  dsimp only
  rw [update_magnetic_field_hx_pass_drand48 glob ext g hoff hd d2 hd2,
    update_magnetic_field_hy_pass_drand48 glob ext g hoff hd d2 hd2]

theorem apply_M_sources_drand48 (ext : Extern) (d2 : Nat → ℚ) (g : fdtd2D) :
    apply_M_sources { ext with drand48 := d2 } g = apply_M_sources ext g := rfl

theorem apply_J_sources_drand48 (ext : Extern) (d2 : Nat → ℚ) (g : fdtd2D) :
    apply_J_sources { ext with drand48 := d2 } g = apply_J_sources ext g := rfl

/-- With the experimental modes off, one iteration of `run_2D_fdtd` does not depend
on the values that `drand48` returns. -/
theorem run_2D_iteration_drand48 (glob : Globals) (ext : Extern) (g : fdtd2D)
    (hoff : glob.off) (hd : ∀ n, 0 ≤ ext.drand48 n) (d2 : Nat → ℚ) (hd2 : ∀ n, 0 ≤ d2 n) :
    run_2D_iteration glob { ext with drand48 := d2 } g = run_2D_iteration glob ext g := by
  unfold run_2D_iteration run_2D_body
  dsimp only
  rw [update_magnetic_field_drand48 glob ext g hoff hd d2 hd2, apply_M_sources_drand48,
    update_electric_field_drand48 glob ext _ hoff hd d2 hd2, apply_J_sources_drand48]

theorem run_2D_iterate_drand48 (glob : Globals) (ext : Extern)
    (hoff : glob.off) (hd : ∀ n, 0 ≤ ext.drand48 n) (d2 : Nat → ℚ) (hd2 : ∀ n, 0 ≤ d2 n)
    (n : Nat) (g : fdtd2D) :
    (run_2D_iteration glob { ext with drand48 := d2 })^[n] g =
      (run_2D_iteration glob ext)^[n] g := by
  induction n with
  | zero => rw [Function.iterate_zero_apply, Function.iterate_zero_apply]
  | succ n ih =>
    rw [Function.iterate_succ_apply', Function.iterate_succ_apply', ih]
    exact run_2D_iteration_drand48 glob ext _ hoff hd d2 hd2

end D2

/-! ## The energy of the closed 1D cavity -/

theorem sum_range_pred_ite (N : Nat) (hN : 1 ≤ N) (f : Nat → ℚ) :
    ∑ i in Finset.range (N - 1), f i =
      ∑ i in Finset.range N, (if i + 1 < N then f i else 0) := by
  obtain ⟨n, rfl⟩ : ∃ n, N = n + 1 := ⟨N - 1, by omega⟩
  rw [Nat.add_sub_cancel, Finset.sum_range_succ, if_neg (lt_irrefl _), add_zero]
  refine Finset.sum_congr rfl (fun i hi => ?_)
  rw [if_pos (Nat.succ_lt_succ (Finset.mem_range.mp hi))]

/-- One step of the leapfrog scheme on a line of `N` cells, each end being a wall
(`E = 0`, or `H = 0`), leaves the staggered energy unchanged: the change of the
summand of cell `i` is a difference of two fluxes, and the fluxes through the walls
are 0. -/
theorem leapfrog_telescope (N : Nat) (s : ℚ) (E H E2 H2 e m : Nat → ℚ) (hN : 1 ≤ N)
    (he : ∀ i, i < N → e i ≠ 0) (hm : ∀ i, i < N → m i ≠ 0)
    (hH : ∀ i, i + 1 < N →
      H2 i = H i + (E (i + 1) - E i) * s * m i ∨ (H2 i = 0 ∧ H i = 0))
    (hHlast : H2 (N - 1) = H (N - 1))
    (hE : ∀ i, 1 ≤ i → i < N →
      E2 i = E i + (H2 i - H2 (i - 1)) * s * e i ∨ (E2 i = 0 ∧ E i = 0))
    (hElast : (E2 (N - 1) = 0 ∧ E (N - 1) = 0) ∨ H2 (N - 1) = 0)
    (hE0 : E2 0 = E 0) (h0 : E 0 = 0 ∨ H2 0 = 0) :
    (∑ i in Finset.range N, (E2 i ^ 2 / e i + H2 i ^ 2 / m i) / 2) +
        s / 2 * ∑ i in Finset.range (N - 1), H2 i * (E2 (i + 1) - E2 i) =
      (∑ i in Finset.range N, (E i ^ 2 / e i + H i ^ 2 / m i) / 2) +
        s / 2 * ∑ i in Finset.range (N - 1), H i * (E (i + 1) - E i) := by
  obtain ⟨T, hT⟩ : ∃ T : Nat → ℚ, T = fun j =>
      if 1 ≤ j ∧ j < N then s / 2 * (H2 (j - 1) * (E j + E2 j)) else 0 := ⟨_, rfl⟩
  have hT0 : T 0 = 0 := by
    rw [hT]
    exact if_neg (by omega)
  have hTN : T N = 0 := by
    rw [hT]
    exact if_neg (by omega)
  have key : ∀ i ∈ Finset.range N,
      ((E2 i ^ 2 / e i + H2 i ^ 2 / m i) / 2 +
          s / 2 * (if i + 1 < N then H2 i * (E2 (i + 1) - E2 i) else 0)) -
        ((E i ^ 2 / e i + H i ^ 2 / m i) / 2 +
          s / 2 * (if i + 1 < N then H i * (E (i + 1) - E i) else 0)) =
        T (i + 1) - T i := by
    intro i hi
    have hi2 := Finset.mem_range.mp hi
    have hei := he i hi2
    have hmi := hm i hi2
    by_cases hl : i + 1 < N
    · have hT1 : T (i + 1) = s / 2 * (H2 i * (E (i + 1) + E2 (i + 1))) := by
        rw [hT]
        dsimp only
        rw [if_pos ⟨by omega, hl⟩, Nat.add_sub_cancel]
      rw [if_pos hl, if_pos hl, hT1]
      by_cases hi0 : i = 0
      · subst hi0
        rw [hT0, hE0]
        rcases hH 0 hl with hu | ⟨hz2, hz⟩
        · rcases h0 with hz0 | hz0
          · rw [hu, hz0]
            field_simp
            ring
          · have hHv : H 0 = -((E (0 + 1) - E 0) * s * m 0) := by
              rw [hz0] at hu
              linarith
            rw [hz0, hHv]
            field_simp
            ring
        · rw [hz2, hz]
          field_simp
      · have hi1 : 1 ≤ i := by omega
        have hTi : T i = s / 2 * (H2 (i - 1) * (E i + E2 i)) := by
          rw [hT]
          dsimp only
          rw [if_pos ⟨hi1, hi2⟩]
        rw [hTi]
        rcases hH i hl with hu | ⟨hz2, hz⟩
        · rcases hE i hi1 hi2 with hv | ⟨hw2, hw⟩
          · rw [hv, hu]
            field_simp
            ring
          · rw [hw2, hw, hu]
            rw [hw]
            field_simp
            ring
        · rcases hE i hi1 hi2 with hv | ⟨hw2, hw⟩
          · rw [hv, hz2, hz]
            field_simp
            ring
          · rw [hw2, hw, hz2, hz]
            field_simp
    · have hiN : i = N - 1 := by omega
      have hT1 : T (i + 1) = 0 := by
        rw [hT]
        exact if_neg (by omega)
      have hHi : H2 i = H i := by
        rw [hiN]
        exact hHlast
      rw [if_neg hl, if_neg hl, hT1, hHi]
      by_cases hi0 : i = 0
      · subst hi0
        rw [hT0, hE0]
        ring
      · have hi1 : 1 ≤ i := by omega
        have hTi : T i = s / 2 * (H2 (i - 1) * (E i + E2 i)) := by
          rw [hT]
          dsimp only
          rw [if_pos ⟨hi1, hi2⟩]
        rw [hTi]
        rcases hE i hi1 hi2 with hv | ⟨hw2, hw⟩
        · rcases hElast with ⟨hw2, hw⟩ | hz
          · rw [← hiN] at hw2 hw
            rw [hw2, hw]
            field_simp
          · rw [← hiN] at hz
            rw [hz] at hv
            rw [hv]
            field_simp
            ring
        · rw [hw2, hw]
          field_simp
  rw [sum_range_pred_ite N hN (fun i => H2 i * (E2 (i + 1) - E2 i)),
    sum_range_pred_ite N hN (fun i => H i * (E (i + 1) - E i)),
    Finset.mul_sum, Finset.mul_sum, ← Finset.sum_add_distrib, ← Finset.sum_add_distrib]
  refine sub_eq_zero.mp ?_
  rw [← Finset.sum_sub_distrib, Finset.sum_congr rfl key, Finset.sum_range_sub, hT0, hTN,
    sub_zero]

theorem forLoop_two {σ : Type} (body : Nat → σ → σ) (s : σ) :
    forLoop 0 2 body s = body 1 (body 0 s) := rfl

theorem umul_zero_left (a : Nat) : umul 0 a = 0 := by
  unfold umul
  simp

theorem umul_one_left {a : Nat} (h : a < UINTMAX_MOD) : umul 1 a = a := by
  unfold umul
  rw [Nat.one_mul]
  exact Nat.mod_eq_of_lt h

namespace D1

theorem border_condition_magnetic_eq (g : fdtd1D) (h1 : 1 ≤ g.sizeX)
    (h2 : g.sizeX < UINTMAX_MOD) :
    border_condition_magnetic g =
      { g with hy := fun i =>
          if (g.border_condition 0 = border_perfect_magnetic_conductor ∧ i = 0) ∨
              (g.border_condition 1 = border_perfect_magnetic_conductor ∧ i = g.sizeX - 1)
          then 0 else g.hy i } := by
  have hu : umul 1 (usub g.sizeX 1) = g.sizeX - 1 := by
    rw [usub_eq_sub h1 h2]
    exact umul_one_left (by omega)
  have key : ∀ a b : Arr1, a = b → ({ g with hy := a } : fdtd1D) = { g with hy := b } :=
    fun a b h => by rw [h]
  unfold border_condition_magnetic border_oneside num_borders_1D
  rw [forLoop_two]
  dsimp only
  rw [umul_zero_left, hu]
  by_cases hf0 : g.border_condition 0 = border_perfect_magnetic_conductor
  · by_cases hf1 : g.border_condition 1 = border_perfect_magnetic_conductor
    · rw [if_pos hf0, if_pos hf1]
      refine key _ _ (funext fun i => ?_)
      unfold store
      by_cases ha : i = g.sizeX - 1
      · simp [ha, hf0, hf1]
      · by_cases hb : i = 0
        · simp [hb, hf0, hf1]
        · simp [ha, hb]
    · rw [if_pos hf0, if_neg hf1]
      refine key _ _ (funext fun i => ?_)
      unfold store
      by_cases hb : i = 0
      · simp [hb, hf0, hf1]
      · simp [hb, hf1]
  · by_cases hf1 : g.border_condition 1 = border_perfect_magnetic_conductor
    · rw [if_neg hf0, if_pos hf1]
      refine key _ _ (funext fun i => ?_)
      unfold store
      by_cases ha : i = g.sizeX - 1
      · simp [ha, hf0, hf1]
      · simp [ha, hf0]
    · rw [if_neg hf0, if_neg hf1]
      refine key _ _ (funext fun i => ?_)
      simp [hf0, hf1]

theorem border_condition_electric_eq_1D (g : fdtd1D) (h1 : 1 ≤ g.sizeX)
    (h2 : g.sizeX < UINTMAX_MOD) :
    border_condition_electric g =
      { g with ez := fun i =>
          if (g.border_condition 0 = border_perfect_electric_conductor ∧ i = 0) ∨
              (g.border_condition 1 = border_perfect_electric_conductor ∧ i = g.sizeX - 1)
          then 0 else g.ez i } := by
  have hu : umul 1 (usub g.sizeX 1) = g.sizeX - 1 := by
    rw [usub_eq_sub h1 h2]
    exact umul_one_left (by omega)
  have key : ∀ a b : Arr1, a = b → ({ g with ez := a } : fdtd1D) = { g with ez := b } :=
    fun a b h => by rw [h]
  unfold border_condition_electric border_oneside num_borders_1D
  rw [forLoop_two]
  dsimp only
  rw [umul_zero_left, hu]
  by_cases hf0 : g.border_condition 0 = border_perfect_electric_conductor
  · by_cases hf1 : g.border_condition 1 = border_perfect_electric_conductor
    · rw [if_pos hf0, if_pos hf1]
      refine key _ _ (funext fun i => ?_)
      unfold store
      by_cases ha : i = g.sizeX - 1
      · simp [ha, hf0, hf1]
      · by_cases hb : i = 0
        · simp [hb, hf0, hf1]
        · simp [ha, hb]
    · rw [if_pos hf0, if_neg hf1]
      refine key _ _ (funext fun i => ?_)
      unfold store
      by_cases hb : i = 0
      · simp [hb, hf0, hf1]
      · simp [hb, hf1]
  · by_cases hf1 : g.border_condition 1 = border_perfect_electric_conductor
    · rw [if_neg hf0, if_pos hf1]
      refine key _ _ (funext fun i => ?_)
      unfold store
      by_cases ha : i = g.sizeX - 1
      · simp [ha, hf0, hf1]
      · simp [ha, hf0]
    · rw [if_neg hf0, if_neg hf1]
      refine key _ _ (funext fun i => ?_)
      simp [hf0, hf1]

theorem apply_M_sources_none (ext : Extern) (g : fdtd1D) (h : g.num_Msources = 0) :
    apply_M_sources ext g = g := by
  unfold apply_M_sources
  rw [h]
  rfl

theorem apply_J_sources_none (ext : Extern) (g : fdtd1D) (h : g.num_Jsources = 0) :
    apply_J_sources ext g = g := by
  unfold apply_J_sources
  rw [h]
  rfl

/-- One iteration of the 1D solver on a grid without sources, in closed form. -/
theorem run_1D_iteration_closed (ext : Extern) (g : fdtd1D) (h1 : 1 ≤ g.sizeX)
    (h2 : g.sizeX < UINTMAX_MOD) (hJ : g.num_Jsources = 0) (hM : g.num_Msources = 0) :
    ∃ H1 H2 E1 E2 : Arr1,
      (H1 = fun i => if i < g.sizeX - 1 then
          g.hy i + (g.ez (i + 1) - g.ez i) * (g.dt / g.dx) * g.permeability_inv i
        else g.hy i) ∧
      (H2 = fun i =>
        if (g.border_condition 0 = border_perfect_magnetic_conductor ∧ i = 0) ∨
            (g.border_condition 1 = border_perfect_magnetic_conductor ∧ i = g.sizeX - 1)
        then 0 else H1 i) ∧
      (E1 = fun i => if 1 ≤ i ∧ i < g.sizeX then
          g.ez i + (H2 i - H2 (i - 1)) * (g.dt / g.dx) * g.permittivity_inv i
        else g.ez i) ∧
      (E2 = fun i =>
        if (g.border_condition 0 = border_perfect_electric_conductor ∧ i = 0) ∨
            (g.border_condition 1 = border_perfect_electric_conductor ∧ i = g.sizeX - 1)
        then 0 else E1 i) ∧
      run_1D_iteration ext g = { g with ez := E2, hy := H2, time := g.time + g.dt } := by
  refine ⟨_, _, _, _, rfl, rfl, rfl, rfl, ?_⟩
  unfold run_1D_iteration run_1D_body
  dsimp only
  rw [update_magnetic_field_eq_1D, usub_eq_sub h1 h2, apply_M_sources_none ext,
    border_condition_magnetic_eq, update_electric_field_eq_1D,
    apply_J_sources_none ext, border_condition_electric_eq_1D]
  · rfl
  all_goals first | exact hM | exact hJ | exact h1 | exact h2

theorem electric_ne_magnetic_conductor :
    border_perfect_electric_conductor ≠ border_perfect_magnetic_conductor := by
  unfold border_perfect_electric_conductor border_perfect_magnetic_conductor
  decide

/-- One iteration of the 1D solver between two conductor walls at rest, with non-zero
materials and no source, leaves the staggered energy unchanged and the walls at
rest. -/
theorem leapfrog_energy_iteration (ext : Extern) (g : fdtd1D) (h1 : 1 ≤ g.sizeX)
    (h2 : g.sizeX < UINTMAX_MOD) (hw0 : wall_at_rest g 0 0)
    (hw1 : wall_at_rest g 1 (g.sizeX - 1))
    (he : ∀ i, i < g.sizeX → g.permittivity_inv i ≠ 0)
    (hm : ∀ i, i < g.sizeX → g.permeability_inv i ≠ 0)
    (hJ : g.num_Jsources = 0) (hM : g.num_Msources = 0) :
    leapfrog_energy (run_1D_iteration ext g) = leapfrog_energy g ∧
      wall_at_rest (run_1D_iteration ext g) 0 0 ∧
      wall_at_rest (run_1D_iteration ext g) 1 (g.sizeX - 1) := by
  obtain ⟨H1, H2, E1, E2, hH1, hH2, hE1, hE2, hit⟩ :=
    run_1D_iteration_closed ext g h1 h2 hJ hM
  have hne := electric_ne_magnetic_conductor
  have hH2i : ∀ i, H2 i =
      if (g.border_condition 0 = border_perfect_magnetic_conductor ∧ i = 0) ∨
        (g.border_condition 1 = border_perfect_magnetic_conductor ∧ i = g.sizeX - 1)
      then 0 else H1 i := fun i => congrFun hH2 i
  have hH1i : ∀ i, H1 i = if i < g.sizeX - 1 then
        g.hy i + (g.ez (i + 1) - g.ez i) * (g.dt / g.dx) * g.permeability_inv i
      else g.hy i := fun i => congrFun hH1 i
  have hE2i : ∀ i, E2 i =
      if (g.border_condition 0 = border_perfect_electric_conductor ∧ i = 0) ∨
        (g.border_condition 1 = border_perfect_electric_conductor ∧ i = g.sizeX - 1)
      then 0 else E1 i := fun i => congrFun hE2 i
  have hE1i : ∀ i, E1 i = if 1 ≤ i ∧ i < g.sizeX then
        g.ez i + (H2 i - H2 (i - 1)) * (g.dt / g.dx) * g.permittivity_inv i
      else g.ez i := fun i => congrFun hE1 i
  -- the walls: what the flags give
  have hM0 : g.border_condition 0 = border_perfect_magnetic_conductor → g.hy 0 = 0 := by
    intro hf
    rcases hw0 with ⟨hp, _⟩ | ⟨_, hz⟩
    · exact absurd (hp.symm.trans hf) hne
    · exact hz
  have hM1 : g.border_condition 1 = border_perfect_magnetic_conductor →
      g.hy (g.sizeX - 1) = 0 := by
    intro hf
    rcases hw1 with ⟨hp, _⟩ | ⟨_, hz⟩
    · exact absurd (hp.symm.trans hf) hne
    · exact hz
  have hP0 : g.border_condition 0 = border_perfect_electric_conductor → g.ez 0 = 0 := by
    intro hf
    rcases hw0 with ⟨_, hz⟩ | ⟨hp, _⟩
    · exact hz
    · exact absurd (hf.symm.trans hp) hne
  have hP1 : g.border_condition 1 = border_perfect_electric_conductor →
      g.ez (g.sizeX - 1) = 0 := by
    intro hf
    rcases hw1 with ⟨_, hz⟩ | ⟨hp, _⟩
    · exact hz
    · exact absurd (hf.symm.trans hp) hne
  have hHlast : H2 (g.sizeX - 1) = g.hy (g.sizeX - 1) := by
    rw [hH2i]
    by_cases c : (g.border_condition 0 = border_perfect_magnetic_conductor ∧
        g.sizeX - 1 = 0) ∨
        (g.border_condition 1 = border_perfect_magnetic_conductor ∧
        g.sizeX - 1 = g.sizeX - 1)
    · rw [if_pos c]
      rcases c with ⟨hf, h0⟩ | ⟨hf, _⟩
      · rw [h0]
        exact (hM0 hf).symm
      · exact (hM1 hf).symm
    · rw [if_neg c, hH1i, if_neg (lt_irrefl _)]
  have hE0 : E2 0 = g.ez 0 := by
    rw [hE2i]
    by_cases c : (g.border_condition 0 = border_perfect_electric_conductor ∧ 0 = 0) ∨
        (g.border_condition 1 = border_perfect_electric_conductor ∧ 0 = g.sizeX - 1)
    · rw [if_pos c]
      rcases c with ⟨hf, _⟩ | ⟨hf, h0⟩
      · exact (hP0 hf).symm
      · rw [h0]
        exact (hP1 hf).symm
    · rw [if_neg c, hE1i, if_neg (by omega)]
  have hwall1 : (E2 (g.sizeX - 1) = 0 ∧ g.ez (g.sizeX - 1) = 0) ∨ H2 (g.sizeX - 1) = 0 := by
    rcases hw1 with ⟨hp, hz⟩ | ⟨hp, _⟩
    · left
      refine ⟨?_, hz⟩
      rw [hE2i, if_pos (Or.inr ⟨hp, rfl⟩)]
    · right
      rw [hH2i, if_pos (Or.inr ⟨hp, rfl⟩)]
  have hwall0 : g.ez 0 = 0 ∨ H2 0 = 0 := by
    rcases hw0 with ⟨_, hz⟩ | ⟨hp, _⟩
    · exact Or.inl hz
    · right
      rw [hH2i, if_pos (Or.inl ⟨hp, rfl⟩)]
  rw [hit]
  refine ⟨?_, ?_, ?_⟩
  · unfold leapfrog_energy field_energy
    dsimp only
    refine leapfrog_telescope g.sizeX (g.dt / g.dx) g.ez g.hy E2 H2 g.permittivity_inv
      g.permeability_inv h1 he hm (fun i hi => ?_) hHlast (fun i hi1 hi2 => ?_) hwall1 hE0
      hwall0
    · rw [hH2i]
      by_cases c : (g.border_condition 0 = border_perfect_magnetic_conductor ∧ i = 0) ∨
          (g.border_condition 1 = border_perfect_magnetic_conductor ∧ i = g.sizeX - 1)
      · right
        rw [if_pos c]
        refine ⟨rfl, ?_⟩
        rcases c with ⟨hf, h0⟩ | ⟨_, hiN⟩
        · rw [h0]
          exact hM0 hf
        · omega
      · left
        rw [if_neg c, hH1i, if_pos (by omega)]
    · rw [hE2i]
      by_cases c : (g.border_condition 0 = border_perfect_electric_conductor ∧ i = 0) ∨
          (g.border_condition 1 = border_perfect_electric_conductor ∧ i = g.sizeX - 1)
      · right
        rw [if_pos c]
        refine ⟨rfl, ?_⟩
        rcases c with ⟨_, h0⟩ | ⟨hf, hiN⟩
        · omega
        · rw [hiN]
          exact hP1 hf
      · left
        rw [if_neg c, hE1i, if_pos ⟨hi1, hi2⟩]
  · rcases hw0 with ⟨hp, _⟩ | ⟨hp, _⟩
    · left
      refine ⟨hp, ?_⟩
      show E2 0 = 0
      rw [hE2i, if_pos (Or.inl ⟨hp, rfl⟩)]
    · right
      refine ⟨hp, ?_⟩
      show H2 0 = 0
      rw [hH2i, if_pos (Or.inl ⟨hp, rfl⟩)]
  · rcases hw1 with ⟨hp, _⟩ | ⟨hp, _⟩
    · left
      refine ⟨hp, ?_⟩
      show E2 (g.sizeX - 1) = 0
      rw [hE2i, if_pos (Or.inr ⟨hp, rfl⟩)]
    · right
      refine ⟨hp, ?_⟩
      show H2 (g.sizeX - 1) = 0
      rw [hH2i, if_pos (Or.inr ⟨hp, rfl⟩)]

end D1

namespace D2

/-- Two grids that agree once `ez` and the count of `drand48` calls are blanked
differ in those two members only. -/
theorem eq_of_besides_ez (a b : fdtd2D) (h : a.besides_ez = b.besides_ez) :
    a = { b with ez := a.ez, rand_calls := a.rand_calls } := by
  cases a
  cases b
  simp only [fdtd2D.besides_ez, fdtd2D.mk.injEq] at h ⊢
  simp only [true_and, and_true] at h ⊢
  exact h

/-- Two grids that agree once `hx`, `hy` and the count of `drand48` calls are blanked
differ in those three members only. -/
theorem eq_of_besides_h (a b : fdtd2D) (h : a.besides_h = b.besides_h) :
    a = { b with hx := a.hx, hy := a.hy, rand_calls := a.rand_calls } := by
  cases a
  cases b
  simp only [fdtd2D.besides_h, fdtd2D.mk.injEq] at h ⊢
  simp only [true_and, and_true] at h ⊢
  exact h

/-- The 2D updates in every experimental mode: each changes its field arrays (and
the count of `drand48` calls) only; `update_electric_field` leaves every `ez` cell
with an index 0 as it was, and `update_magnetic_field` every `hx` and `hy` cell with
a last index. -/
theorem update_field_frame_2D (glob : Globals) (ext : Extern) (g : fdtd2D)
    (hq : glob.sort_skip = true → qsort_keeps_records ext)
    (hT : g.cpml_thickness + 1 < UINTMAX_MOD)
    (hX1 : 1 ≤ g.sizeX) (hX2 : g.sizeX < UINTMAX_MOD) (hY1 : 1 ≤ g.sizeY)
    (hY2 : g.sizeY < UINTMAX_MOD) :
    (update_electric_field glob ext g =
        { g with ez := (update_electric_field glob ext g).ez,
                 rand_calls := (update_electric_field glob ext g).rand_calls } ∧
      ∀ x : Nat × Nat, x.1 = 0 ∨ x.2 = 0 →
        (update_electric_field glob ext g).ez x = g.ez x) ∧
    (update_magnetic_field glob ext g =
        { g with hx := (update_magnetic_field glob ext g).hx,
                 hy := (update_magnetic_field glob ext g).hy,
                 rand_calls := (update_magnetic_field glob ext g).rand_calls } ∧
      ∀ x : Nat × Nat, x.1 = g.sizeX - 1 ∨ x.2 = g.sizeY - 1 →
        (update_magnetic_field glob ext g).hx x = g.hx x ∧
        (update_magnetic_field glob ext g).hy x = g.hy x) :=
  ⟨⟨eq_of_besides_ez _ _ (update_electric_field_besides glob ext g),
      fun x hx => update_electric_field_other glob ext g hq hT hX1 hX2 hY1 hY2 x hx⟩,
    eq_of_besides_h _ _ (update_magnetic_field_besides glob ext g),
      fun x hx => update_magnetic_field_other glob ext g hq hT hX1 hX2 hY1 hY2 x hx⟩

end D2

/-! ## Stability warning, CPML thickness 0, CPML profile: claims -/

/-- C21: the stability warning of the constructors.  `init_fdtd_2D_cpml` writes the
warning exactly when `Sc > 1 / sqrt 2` and `init_fdtd_3D_cpml` exactly when
`Sc > 1 / sqrt 3`, but `init_fdtd_1D` never writes it: for every domain size, every
`Sc` and every wavelength its only line on `stderr` is the closing report.  With
`Sc = 2`, above the 1D bound `1 / sqrt 1 = 1`, the 1D constructor writes the report
`Dt, Dx, (size)` alone, where the 2D constructor given the same `Sc` writes the
warning first. -/
theorem stability_warning_1D_missing :
    (∀ (domain_size Sc smallest_wavelength Sc_max : ℚ),
      stderr_line.stability_warning Sc_max ∉
        D1.init_fdtd_1D_stderr domain_size Sc smallest_wavelength) ∧
    (∀ (ext : Extern) (domain_size : Nat → ℚ) (Sc smallest_wavelength : ℚ),
      stderr_line.stability_warning (1 / ext.sqrt 2) ∈
          D2.init_fdtd_2D_cpml_stderr ext domain_size Sc smallest_wavelength ↔
        Sc > 1 / ext.sqrt 2) ∧
    (∀ (ext : Extern) (domain_size : Nat → ℚ) (Sc smallest_wavelength : ℚ),
      stderr_line.stability_warning (1 / ext.sqrt 3) ∈
          D3.init_fdtd_3D_cpml_stderr ext domain_size Sc smallest_wavelength ↔
        Sc > 1 / ext.sqrt 3) ∧
    ((2 : ℚ) > 1 / sample_extern.sqrt 1 ∧
      D1.init_fdtd_1D_stderr 1 2 1 =
        [stderr_line.grid_report [1 / 2997924580, 1 / 20, 20]] ∧
      D2.init_fdtd_2D_cpml_stderr sample_extern (fun _ => 1) 2 1 =
        [stderr_line.stability_warning (1 / 2),
          stderr_line.grid_report [1 / 2997924580, 1 / 20, 1 / 20, 20, 20]]) := by
  refine ⟨?_, ?_, ?_, ?_, ?_, ?_⟩
  · intro domain_size Sc wl Sc_max h
    unfold D1.init_fdtd_1D_stderr at h
    simp at h
  · intro ext domain_size Sc wl
    unfold D2.init_fdtd_2D_cpml_stderr
    by_cases h : Sc > 1 / ext.sqrt 2
    · simp [h]
    · simp [h]
  · intro ext domain_size Sc wl
    unfold D3.init_fdtd_3D_cpml_stderr
    by_cases h : Sc > 1 / ext.sqrt 3
    · simp [h]
    · simp [h]
  · show (2 : ℚ) > 1 / 1
    norm_num
  · with_unfolding_all rfl
  · with_unfolding_all rfl

/-- C22: CPML is disabled by thickness 0.  For every 2D grid and every 3D grid with
`cpml_thickness = 0`, whatever the flags of the faces, `update_electric_cpml` and
`update_magnetic_cpml` return the grid they were given (no field array and no
auxiliary array changes, so nothing read from an auxiliary array reaches the
result), and the body of an iteration is the magnetic update, the magnetic sources,
the magnetic border enforcement, the electric update, the electric sources and the
electric border enforcement. -/
theorem cpml_thickness_zero_off (glob : Globals) (ext : Extern) (g2 : D2.fdtd2D)
    (g3 : D3.fdtd3D) (h2 : g2.cpml_thickness = 0) (h3 : g3.cpml_thickness = 0) :
    (D2.update_electric_cpml g2 = g2 ∧ D2.update_magnetic_cpml g2 = g2 ∧
      D2.run_2D_body glob ext g2 =
        D2.border_condition_electric (D2.apply_J_sources ext
          (D2.update_electric_field glob ext (D2.border_condition_magnetic
            (D2.apply_M_sources ext (D2.update_magnetic_field glob ext g2)))))) ∧
    (D3.update_electric_cpml g3 = g3 ∧ D3.update_magnetic_cpml g3 = g3 ∧
      D3.run_3D_body ext g3 =
        D3.border_condition_electric (D3.apply_J_sources ext
          (D3.update_electric_field (D3.border_condition_magnetic
            (D3.apply_M_sources ext (D3.update_magnetic_field g3)))))) :=
  ⟨⟨D2.update_electric_cpml_off_2D g2 h2, D2.update_magnetic_cpml_off_2D g2 h2,
      D2.run_2D_body_cpml_off glob ext g2 h2⟩,
    D3.update_electric_cpml_off_3D g3 h3, D3.update_magnetic_cpml_off_3D g3 h3,
      D3.run_3D_body_cpml_off ext g3 h3⟩

/-- The thickness theorem on the sample grids with every face flagged CPML and
thickness 0. -/
theorem cpml_thickness_zero_off_witness :
    (D2.sample_no_cpml.cpml_thickness = 0 ∧ D3.sample_no_cpml.cpml_thickness = 0 ∧
      D2.sample_no_cpml.border_condition D2.border_south = border_cpml) ∧
    D2.update_electric_cpml D2.sample_no_cpml = D2.sample_no_cpml ∧
    D3.update_magnetic_cpml D3.sample_no_cpml = D3.sample_no_cpml :=
  ⟨⟨rfl, rfl, rfl⟩,
    (cpml_thickness_zero_off sample_globals sample_extern D2.sample_no_cpml
      D3.sample_no_cpml rfl rfl).1.1,
    (cpml_thickness_zero_off sample_globals sample_extern D2.sample_no_cpml
      D3.sample_no_cpml rfl rfl).2.2.1⟩

/-- C23 (the claim as stated fails): for the width 0 the quotient `db / cpml_width`
of `Kappa` has the divisor 0 and `Kappa` returns no number, for every distance and
every library `pow` (on the sample library: distance 0 and distance 3), whereas for the
width 2 it returns the number 1.  The width 0 is the one the constructors pass for
`cpml_thickness = 1`. -/
theorem kappa_width_zero :
    Kappa_divisors 0 0 = [0] ∧
    Kappa_checked sample_extern 0 0 = none ∧
    Kappa_checked sample_extern 3 0 = none ∧
    (∀ (ext : Extern) (d : Nat), Kappa_checked ext d 0 = none) ∧
    Kappa_checked sample_extern 1 2 = some 1 ∧
    usub 1 1 = 0 := by
  refine ⟨by simp [Kappa_divisors], ?_, ?_, ?_, ?_, ?_⟩
  · with_unfolding_all rfl
  · with_unfolding_all rfl
  · intro ext d
    simp [Kappa_checked, float_div, float_mul, float_add]
  · with_unfolding_all rfl
  · with_unfolding_all rfl

/-- C23 (as amended): the stretching profile is constant for a width other than 0.
`kappa_max = 1`, hence for every distance `d` and every width `W != 0` the quotient
`d / W` is a number and `Kappa(d, W) = 1`, and so
`b(d) = exp(-dt * (sigma(d) + alpha(d)) / eps0)` and
`c(d) = sigma(d) / (sigma(d) + alpha(d)) * (b(d) - 1)` (exact arithmetic, for every
behaviour of `exp` and `pow`). -/
theorem kappa_is_one (ext : Extern) (d W : Nat) (dt alpha_max sigma_max : ℚ)
    (hW : W ≠ 0) :
    kappa_max = 1 ∧
    (∀ q ∈ Kappa_divisors d W, q ≠ 0) ∧
    Kappa_checked ext d W = some 1 ∧
    Kappa ext d W = 1 ∧
    b ext d W dt alpha_max sigma_max =
      ext.exp (-dt * (sigma ext d W sigma_max + alpha ext d W alpha_max) / eps0) ∧
    c ext d W dt alpha_max sigma_max =
      sigma ext d W sigma_max / (sigma ext d W sigma_max + alpha ext d W alpha_max) *
        (b ext d W dt alpha_max sigma_max - 1) := by
  have hq : (W : ℚ) ≠ 0 := Nat.cast_ne_zero.mpr hW
  refine ⟨rfl, ?_, ?_, Kappa_eq_one ext d W, b_closed ext d W dt alpha_max sigma_max,
    c_closed ext d W dt alpha_max sigma_max⟩
  · intro q hmem
    simp only [Kappa_divisors, List.mem_singleton] at hmem
    rw [hmem]
    exact hq
  · simp [Kappa_checked, float_div, float_mul, float_add, hq, kappa_max]

/-- The stretching profile for the distance 1 and the width 2, the values the
coefficient loop passes for `cpml_thickness = 3` at the middle layer. -/
theorem kappa_is_one_witness :
    (2 : Nat) ≠ 0 ∧ Kappa_checked sample_extern 1 2 = some 1 ∧ Kappa sample_extern 1 2 = 1 :=
  ⟨by decide, (kappa_is_one sample_extern 1 2 1 1 1 (by decide)).2.2.1,
    (kappa_is_one sample_extern 1 2 1 1 1 (by decide)).2.2.2.1⟩

/-! ## Frames of the updates, the medium initialisers and the run: claims -/

/-- C24: the cells on the array boundary that the updates skip.  With every size at
least 1 (and below `2^64`, the range of `uintmax_t`), in 1D and 3D and, whatever the
experimental modes, in 2D: the electric update returns the grid it was given with
new electric arrays only (in 2D also the count of `drand48` calls kept by the model),
and no electric cell with an index 0 on some axis changes; the magnetic update
returns the grid it was given with new magnetic arrays only, and no magnetic cell
with the last index `size - 1` on some axis changes.  Two facts about the environment
are used for the 2D modes: when `sort_skip` is set, `qsort` returns records of the
array it was given, and `cpml_thickness + 1` does not wrap around. -/
theorem update_boundary_frame (glob : Globals) (ext : Extern) (g1 : D1.fdtd1D)
    (g2 : D2.fdtd2D) (g3 : D3.fdtd3D)
    (h1 : 1 ≤ g1.sizeX ∧ g1.sizeX < UINTMAX_MOD)
    (h2 : (1 ≤ g2.sizeX ∧ g2.sizeX < UINTMAX_MOD) ∧ (1 ≤ g2.sizeY ∧ g2.sizeY < UINTMAX_MOD))
    (h3 : (1 ≤ g3.sizeX ∧ g3.sizeX < UINTMAX_MOD) ∧ (1 ≤ g3.sizeY ∧ g3.sizeY < UINTMAX_MOD) ∧
      (1 ≤ g3.sizeZ ∧ g3.sizeZ < UINTMAX_MOD))
    (hq : glob.sort_skip = true → qsort_keeps_records ext)
    (hT : g2.cpml_thickness + 1 < UINTMAX_MOD) :
    ((D1.update_electric_field g1 = { g1 with ez := (D1.update_electric_field g1).ez } ∧
        (D1.update_electric_field g1).ez 0 = g1.ez 0) ∧
      (D1.update_magnetic_field g1 = { g1 with hy := (D1.update_magnetic_field g1).hy } ∧
        (D1.update_magnetic_field g1).hy (g1.sizeX - 1) = g1.hy (g1.sizeX - 1))) ∧
    ((D2.update_electric_field glob ext g2 =
          { g2 with ez := (D2.update_electric_field glob ext g2).ez,
                    rand_calls := (D2.update_electric_field glob ext g2).rand_calls } ∧
        ∀ x : Nat × Nat, x.1 = 0 ∨ x.2 = 0 →
          (D2.update_electric_field glob ext g2).ez x = g2.ez x) ∧
      (D2.update_magnetic_field glob ext g2 =
          { g2 with hx := (D2.update_magnetic_field glob ext g2).hx,
                    hy := (D2.update_magnetic_field glob ext g2).hy,
                    rand_calls := (D2.update_magnetic_field glob ext g2).rand_calls } ∧
        ∀ x : Nat × Nat, x.1 = g2.sizeX - 1 ∨ x.2 = g2.sizeY - 1 →
          (D2.update_magnetic_field glob ext g2).hx x = g2.hx x ∧
          (D2.update_magnetic_field glob ext g2).hy x = g2.hy x)) ∧
    ((D3.update_electric_field g3 =
          { g3 with ex := (D3.update_electric_field g3).ex,
                    ey := (D3.update_electric_field g3).ey,
                    ez := (D3.update_electric_field g3).ez } ∧
        ∀ x : Nat × Nat × Nat, x.1 = 0 ∨ x.2.1 = 0 ∨ x.2.2 = 0 →
          (D3.update_electric_field g3).ex x = g3.ex x ∧
          (D3.update_electric_field g3).ey x = g3.ey x ∧
          (D3.update_electric_field g3).ez x = g3.ez x) ∧
      (D3.update_magnetic_field g3 =
          { g3 with hx := (D3.update_magnetic_field g3).hx,
                    hy := (D3.update_magnetic_field g3).hy,
                    hz := (D3.update_magnetic_field g3).hz } ∧
        ∀ x : Nat × Nat × Nat,
          x.1 = g3.sizeX - 1 ∨ x.2.1 = g3.sizeY - 1 ∨ x.2.2 = g3.sizeZ - 1 →
          (D3.update_magnetic_field g3).hx x = g3.hx x ∧
          (D3.update_magnetic_field g3).hy x = g3.hy x ∧
          (D3.update_magnetic_field g3).hz x = g3.hz x)) :=
  ⟨D1.update_field_frame_1D g1 h1.1 h1.2,
    D2.update_field_frame_2D glob ext g2 hq hT h2.1.1 h2.1.2 h2.2.1 h2.2.2,
    D3.update_field_frame_3D g3 h3.1.1 h3.1.2 h3.2.1.1 h3.2.1.2 h3.2.2.1 h3.2.2.2⟩

/-- The frame theorem on the sample grids, the 2D grid being updated in the mode
`sort_skip`: the cell `ez[0][2]` and the cell `hx[3][1]` are left as they were. -/
theorem update_boundary_frame_witness :
    ((1 ≤ (D2.sample_grid (fun _ => 0)).sizeX ∧
        (D2.sample_grid (fun _ => 0)).sizeX < UINTMAX_MOD) ∧
      qsort_keeps_records sample_extern ∧
      (D2.sample_grid (fun _ => 0)).cpml_thickness + 1 < UINTMAX_MOD) ∧
    (D2.update_electric_field { sample_globals with sort_skip := true } sample_extern
        (D2.sample_grid (fun _ => 0))).ez (0, 2) = (D2.sample_grid (fun _ => 0)).ez (0, 2) ∧
    (D2.update_magnetic_field { sample_globals with sort_skip := true } sample_extern
        (D2.sample_grid (fun _ => 0))).hx (3, 1) = (D2.sample_grid (fun _ => 0)).hx (3, 1) :=
  have q : qsort_keeps_records sample_extern := fun _ _ _ h => h
  have t := update_boundary_frame { sample_globals with sort_skip := true } sample_extern
    (D1.sample_grid (fun _ => 0)) (D2.sample_grid (fun _ => 0)) (D3.sample_grid (fun _ => 0))
    ⟨by decide, by decide⟩ ⟨⟨by decide, by decide⟩, by decide, by decide⟩
    ⟨⟨by decide, by decide⟩, ⟨by decide, by decide⟩, by decide, by decide⟩ (fun _ => q)
    (by decide)
  ⟨⟨⟨by decide, by decide⟩, q, by decide⟩, t.2.1.1.2 (0, 2) (Or.inl rfl),
    (t.2.1.2.2 (3, 1) (Or.inl rfl)).1⟩

/-- C25: the medium initialisers.  For all callbacks `muR` and `epsR`,
`init_fdtd_1D_medium`, `init_fdtd_2D_medium` and `init_fdtd_3D_medium` return the grid
they were given with `permeability_inv = 1 / (muR(position) * mu0)` and
`permittivity_inv = 1 / (epsR(position) * eps0)` on every cell of the grid, the
position of the cell `(i, j, k)` being `(i * dx, j * dy, k * dz)` (the sum of the
repeated additions of the spacing, in exact arithmetic); no other member of the grid
changes.  With callbacks that record their calls in the user object, the record is,
for each cell in row-major order, one call of the permeability callback followed by
one call of the permittivity callback, both at the position of the cell.  (Where a
callback returns 0 the quotient is the value `1 / 0 = 0` of the rational numbers;
the claim leaves that case out.) -/
theorem medium_initialisation (g1 : D1.fdtd1D) (g2 : D2.fdtd2D) (g3 : D3.fdtd3D)
    (mu1 eps1 : ℚ → ℚ) (mu2 eps2 : ℚ → ℚ → ℚ) (mu3 eps3 : ℚ → ℚ → ℚ → ℚ) :
    (D1.init_fdtd_1D_medium mu1 eps1 g1 =
        { g1 with
          permeability_inv := fun i =>
            if i < g1.sizeX then 1 / (mu1 ((i : ℚ) * g1.dx) * mu0) else g1.permeability_inv i,
          permittivity_inv := fun i =>
            if i < g1.sizeX then 1 / (eps1 ((i : ℚ) * g1.dx) * eps0)
            else g1.permittivity_inv i } ∧
      D1.init_fdtd_1D_medium_user (D1.log_call medium_quantity.permeability mu1)
          (D1.log_call medium_quantity.permittivity eps1) [] g1 =
        (D1.init_fdtd_1D_medium mu1 eps1 g1,
          (List.range' 0 g1.sizeX).flatMap (fun i =>
            [(⟨medium_quantity.permeability, [(i : ℚ) * g1.dx]⟩ : medium_call),
              (⟨medium_quantity.permittivity, [(i : ℚ) * g1.dx]⟩ : medium_call)]))) ∧
    (D2.init_fdtd_2D_medium mu2 eps2 g2 =
        { g2 with
          permeability_inv := fun x =>
            if inBox2 0 g2.sizeX 0 g2.sizeY x then
              1 / (mu2 ((x.1 : ℚ) * g2.dx) ((x.2 : ℚ) * g2.dy) * mu0)
            else g2.permeability_inv x,
          permittivity_inv := fun x =>
            if inBox2 0 g2.sizeX 0 g2.sizeY x then
              1 / (eps2 ((x.1 : ℚ) * g2.dx) ((x.2 : ℚ) * g2.dy) * eps0)
            else g2.permittivity_inv x } ∧
      D2.init_fdtd_2D_medium_user (D2.log_call medium_quantity.permeability mu2)
          (D2.log_call medium_quantity.permittivity eps2) [] g2 =
        (D2.init_fdtd_2D_medium mu2 eps2 g2,
          (keys2 0 g2.sizeX 0 g2.sizeY).flatMap (fun k =>
            [(⟨medium_quantity.permeability,
                [(k.1 : ℚ) * g2.dx, (k.2 : ℚ) * g2.dy]⟩ : medium_call),
              (⟨medium_quantity.permittivity,
                [(k.1 : ℚ) * g2.dx, (k.2 : ℚ) * g2.dy]⟩ : medium_call)]))) ∧
    (D3.init_fdtd_3D_medium mu3 eps3 g3 =
        { g3 with
          permeability_inv := fun x =>
            if inBox3 0 g3.sizeX 0 g3.sizeY 0 g3.sizeZ x then
              1 / (mu3 ((x.1 : ℚ) * g3.dx) ((x.2.1 : ℚ) * g3.dy) ((x.2.2 : ℚ) * g3.dz) * mu0)
            else g3.permeability_inv x,
          permittivity_inv := fun x =>
            if inBox3 0 g3.sizeX 0 g3.sizeY 0 g3.sizeZ x then
              1 / (eps3 ((x.1 : ℚ) * g3.dx) ((x.2.1 : ℚ) * g3.dy) ((x.2.2 : ℚ) * g3.dz) * eps0)
            else g3.permittivity_inv x } ∧
      D3.init_fdtd_3D_medium_user (D3.log_call medium_quantity.permeability mu3)
          (D3.log_call medium_quantity.permittivity eps3) [] g3 =
        (D3.init_fdtd_3D_medium mu3 eps3 g3,
          (keys3 0 g3.sizeX 0 g3.sizeY 0 g3.sizeZ).flatMap (fun k =>
            [(⟨medium_quantity.permeability,
                [(k.1 : ℚ) * g3.dx, (k.2.1 : ℚ) * g3.dy, (k.2.2 : ℚ) * g3.dz]⟩ : medium_call),
              (⟨medium_quantity.permittivity,
                [(k.1 : ℚ) * g3.dx, (k.2.1 : ℚ) * g3.dy, (k.2.2 : ℚ) * g3.dz]⟩ :
                medium_call)]))) :=
  ⟨⟨D1.init_fdtd_1D_medium_eq mu1 eps1 g1, D1.init_fdtd_1D_medium_calls mu1 eps1 g1⟩,
    ⟨D2.init_fdtd_2D_medium_eq mu2 eps2 g2, D2.init_fdtd_2D_medium_calls mu2 eps2 g2⟩,
    D3.init_fdtd_3D_medium_eq mu3 eps3 g3, D3.init_fdtd_3D_medium_calls mu3 eps3 g3⟩

/-- C26: what a run leaves alone.  For every grid with a positive time step and every
end time, `run_1D_fdtd`, `run_2D_fdtd` and `run_3D_fdtd` return (given fuel for the
iterations of the run), and whenever a run returns a grid `r`, the spacings, the time
step, `permittivity_inv`, `permeability_inv`, the CPML coefficient vectors and
thickness, the border flags, the domain size, the cell counts, `Sc` and both source
lists with their counts and locations are those of the grid it started from: only
the field arrays, the auxiliary arrays and the time can differ. -/
theorem run_keeps_materials (glob : Globals) (ext : Extern) (g1 : D1.fdtd1D)
    (g2 : D2.fdtd2D) (g3 : D3.fdtd3D) (end_time : ℚ)
    (h1 : 0 < g1.dt) (h2 : 0 < g2.dt) (h3 : 0 < g3.dt) :
    ((∃ r, D1.run_1D_fdtd ext (iteration_count g1.time end_time g1.dt) g1 end_time =
        some r) ∧
      ∀ fuel r, D1.run_1D_fdtd ext fuel g1 end_time = some r →
        r.dx = g1.dx ∧ r.dt = g1.dt ∧ r.permittivity_inv = g1.permittivity_inv ∧
        r.permeability_inv = g1.permeability_inv ∧
        r.border_condition = g1.border_condition ∧ r.domain_size = g1.domain_size ∧
        r.sizeX = g1.sizeX ∧ r.Sc = g1.Sc ∧ r.num_Jsources = g1.num_Jsources ∧
        r.Jsources = g1.Jsources ∧ r.JsourceLocations = g1.JsourceLocations ∧
        r.num_Msources = g1.num_Msources ∧ r.Msources = g1.Msources ∧
        r.MsourceLocations = g1.MsourceLocations) ∧
    ((∃ r, D2.run_2D_fdtd glob ext (iteration_count g2.time end_time g2.dt) g2 end_time =
        some r) ∧
      ∀ fuel r, D2.run_2D_fdtd glob ext fuel g2 end_time = some r →
        r.dx = g2.dx ∧ r.dy = g2.dy ∧ r.dt = g2.dt ∧
        r.permittivity_inv = g2.permittivity_inv ∧
        r.permeability_inv = g2.permeability_inv ∧ r.bx = g2.bx ∧ r.cx = g2.cx ∧
        r.cpml_thickness = g2.cpml_thickness ∧ r.border_condition = g2.border_condition ∧
        r.domain_size = g2.domain_size ∧ r.sizeX = g2.sizeX ∧ r.sizeY = g2.sizeY ∧
        r.Sc = g2.Sc ∧ r.num_Jsources = g2.num_Jsources ∧ r.Jsources = g2.Jsources ∧
        r.JsourceLocations = g2.JsourceLocations ∧ r.num_Msources = g2.num_Msources ∧
        r.Msources = g2.Msources ∧ r.MsourceLocations = g2.MsourceLocations) ∧
    ((∃ r, D3.run_3D_fdtd ext (iteration_count g3.time end_time g3.dt) g3 end_time =
        some r) ∧
      ∀ fuel r, D3.run_3D_fdtd ext fuel g3 end_time = some r →
        r.dx = g3.dx ∧ r.dy = g3.dy ∧ r.dz = g3.dz ∧ r.dt = g3.dt ∧
        r.permittivity_inv = g3.permittivity_inv ∧
        r.permeability_inv = g3.permeability_inv ∧ r.bx = g3.bx ∧ r.cx = g3.cx ∧
        r.cpml_thickness = g3.cpml_thickness ∧ r.border_condition = g3.border_condition ∧
        r.domain_size = g3.domain_size ∧ r.sizeX = g3.sizeX ∧ r.sizeY = g3.sizeY ∧
        r.sizeZ = g3.sizeZ ∧ r.Sc = g3.Sc ∧ r.num_Jsources = g3.num_Jsources ∧
        r.Jsources = g3.Jsources ∧ r.JsourceLocations = g3.JsourceLocations ∧
        r.num_Msources = g3.num_Msources ∧ r.Msources = g3.Msources ∧
        r.MsourceLocations = g3.MsourceLocations) :=
  ⟨⟨D1.run_1D_fdtd_returns ext g1 h1 end_time,
      fun fuel r h => D1.run_1D_fdtd_fixed ext fuel g1 r end_time h⟩,
    ⟨D2.run_2D_fdtd_returns glob ext g2 h2 end_time,
      fun fuel r h => D2.run_2D_fdtd_fixed glob ext fuel g2 r end_time h⟩,
    D3.run_3D_fdtd_returns ext g3 h3 end_time,
      fun fuel r h => D3.run_3D_fdtd_fixed ext fuel g3 r end_time h⟩

/-- The run theorem on the sample grids (time step 1/2) run to the end time 1: the
1D run returns, and the grid returned by two iterations has the material array and
the cell count of the sample grid. -/
theorem run_keeps_materials_witness :
    (0 < (D1.sample_grid (fun _ => 0)).dt ∧
      D1.run_1D_fdtd sample_extern 2 (D1.sample_grid (fun _ => 0)) 1 =
        some (D1.run_1D_iteration sample_extern
          (D1.run_1D_iteration sample_extern (D1.sample_grid (fun _ => 0))))) ∧
    (D1.run_1D_iteration sample_extern
        (D1.run_1D_iteration sample_extern (D1.sample_grid (fun _ => 0)))).permittivity_inv =
      (D1.sample_grid (fun _ => 0)).permittivity_inv ∧
    (D1.run_1D_iteration sample_extern
        (D1.run_1D_iteration sample_extern (D1.sample_grid (fun _ => 0)))).sizeX =
      (D1.sample_grid (fun _ => 0)).sizeX :=
  have p1 : 0 < (D1.sample_grid (fun _ => 0)).dt := by show (0 : ℚ) < 1 / 2; norm_num
  have p2 : 0 < (D2.sample_grid (fun _ => 0)).dt := by show (0 : ℚ) < 1 / 2; norm_num
  have p3 : 0 < (D3.sample_grid (fun _ => 0)).dt := by show (0 : ℚ) < 1 / 2; norm_num
  have hr : D1.run_1D_fdtd sample_extern 2 (D1.sample_grid (fun _ => 0)) 1 =
      some (D1.run_1D_iteration sample_extern
        (D1.run_1D_iteration sample_extern (D1.sample_grid (fun _ => 0)))) := by
    with_unfolding_all rfl
  have t := (run_keeps_materials sample_globals sample_extern (D1.sample_grid (fun _ => 0))
    (D2.sample_grid (fun _ => 0)) (D3.sample_grid (fun _ => 0)) 1 p1 p2 p3).1.2 2 _ hr
  ⟨⟨p1, hr⟩, t.2.2.1, t.2.2.2.2.2.2.1⟩

/-! ## The plain 2D kernel, the cavity energy, the dumps: claims -/

/-- C27: the 2D kernel with the experimental modes off.  When `sort_skip` and
`interpolate` are false and `rand_skip_percent <= 0`, then for every sequence of
non-negative values returned by `drand48` (its range is `[0, 1)`):
`update_electric_field` returns the grid it was given with `ez` replaced by the plain
Yee stencil `yee_ez` (`ez[i][j] += ((hy[i][j] - hy[i-1][j]) / dx -
(hx[i][j] - hx[i][j-1]) / dy) * dt * permittivity_inv[i][j]` for `i, j >= 1`), and,
for sizes at least 1 and below `2^64`, `update_magnetic_field` returns it with `hx`
and `hy` replaced by `yee_hx` and `yee_hy` (`hx[i][j] += (ez[i][j] - ez[i][j+1]) / dy
* dt * permeability_inv[i][j]`, `hy[i][j] += (ez[i+1][j] - ez[i][j]) / dx * dt *
permeability_inv[i][j]` for `i < sizeX - 1`, `j < sizeY - 1`); the only other member
that changes is the count of `drand48` calls kept by the model.  The grid after any
number of iterations is the same whatever non-negative values `drand48` returns. -/
theorem plain_yee_2D (glob : Globals) (ext : Extern) (g : D2.fdtd2D) (hoff : glob.off)
    (hd : ∀ n, 0 ≤ ext.drand48 n)
    (hX : 1 ≤ g.sizeX ∧ g.sizeX < UINTMAX_MOD) (hY : 1 ≤ g.sizeY ∧ g.sizeY < UINTMAX_MOD) :
    D2.update_electric_field glob ext g =
      { g with
        ez := D2.yee_ez g,
        rand_calls := (D2.update_electric_field glob ext g).rand_calls } ∧
    D2.update_magnetic_field glob ext g =
      { g with
        hx := D2.yee_hx g,
        hy := D2.yee_hy g,
        rand_calls := (D2.update_magnetic_field glob ext g).rand_calls } ∧
    ∀ (d2 : Nat → ℚ), (∀ n, 0 ≤ d2 n) → ∀ n : Nat,
      (D2.run_2D_iteration glob { ext with drand48 := d2 })^[n] g =
        (D2.run_2D_iteration glob ext)^[n] g :=
  ⟨D2.update_electric_field_plain glob ext g hoff hd,
    D2.update_magnetic_field_plain glob ext g hoff hd hX.1 hX.2 hY.1 hY.2,
    fun d2 hd2 n => D2.run_2D_iterate_drand48 glob ext hoff hd d2 hd2 n g⟩

/-- The theorem of the plain 2D kernel on the sample grid: three iterations with
`drand48` returning 1/2 at every call give the grid that they give with `drand48`
returning 0. -/
theorem plain_yee_2D_witness :
    (sample_globals.off ∧ (∀ n, 0 ≤ sample_extern.drand48 n) ∧
      1 ≤ (D2.sample_grid (fun _ => 0)).sizeX ∧
      (D2.sample_grid (fun _ => 0)).sizeX < UINTMAX_MOD) ∧
    (D2.run_2D_iteration sample_globals
        { sample_extern with drand48 := fun _ => 1 / 2 })^[3] (D2.sample_grid (fun _ => 0)) =
      (D2.run_2D_iteration sample_globals sample_extern)^[3] (D2.sample_grid (fun _ => 0)) :=
  have o : sample_globals.off := ⟨rfl, rfl, le_refl (0 : ℚ)⟩
  have d : ∀ n, 0 ≤ sample_extern.drand48 n := fun _ => le_refl (0 : ℚ)
  ⟨⟨o, d, by decide, by decide⟩,
    (plain_yee_2D sample_globals sample_extern (D2.sample_grid (fun _ => 0)) o d
      ⟨by decide, by decide⟩ ⟨by decide, by decide⟩).2.2 (fun _ => 1 / 2)
      (fun _ => by norm_num) 3⟩

/-- C28: the energy of the closed 1D cavity.  For every 1D grid with at least one cell
(and fewer than `2^64`), each of whose two faces is a conductor wall at rest (flagged
perfect electric conductor with `ez = 0` on the wall cell, or flagged perfect magnetic
conductor with `hy = 0` on the wall cell), with non-zero material arrays and no
registered source, one iteration leaves unchanged the energy
`sum (ez^2 / permittivity_inv + hy^2 / permeability_inv) / 2 +
dt / (2 dx) * sum_(i < sizeX - 1) hy[i] * (ez[i+1] - ez[i])`, which accounts for the
half step between the two fields, and leaves both walls at rest (exact arithmetic). -/
theorem leapfrog_energy_conserved (ext : Extern) (g : D1.fdtd1D)
    (hsize : 1 ≤ g.sizeX ∧ g.sizeX < UINTMAX_MOD)
    (hwalls : D1.wall_at_rest g 0 0 ∧ D1.wall_at_rest g 1 (g.sizeX - 1))
    (hmat : ∀ i, i < g.sizeX → g.permittivity_inv i ≠ 0 ∧ g.permeability_inv i ≠ 0)
    (hsrc : g.num_Jsources = 0 ∧ g.num_Msources = 0) :
    D1.leapfrog_energy (D1.run_1D_iteration ext g) = D1.leapfrog_energy g ∧
      D1.wall_at_rest (D1.run_1D_iteration ext g) 0 0 ∧
      D1.wall_at_rest (D1.run_1D_iteration ext g) 1 (g.sizeX - 1) :=
  D1.leapfrog_energy_iteration ext g hsize.1 hsize.2 hwalls.1 hwalls.2
    (fun i hi => (hmat i hi).1) (fun i hi => (hmat i hi).2) hsrc.1 hsrc.2

/-- The energy theorem on the sample cavity (4 cells, both faces flagged perfect
electric conductor, `ez = 0`, `hy = 1` on cell 1). -/
theorem leapfrog_energy_conserved_witness :
    ((1 ≤ D1.sample_cavity.sizeX ∧ D1.sample_cavity.sizeX < UINTMAX_MOD) ∧
      (D1.wall_at_rest D1.sample_cavity 0 0 ∧
        D1.wall_at_rest D1.sample_cavity 1 (D1.sample_cavity.sizeX - 1)) ∧
      (∀ i, i < D1.sample_cavity.sizeX →
        D1.sample_cavity.permittivity_inv i ≠ 0 ∧ D1.sample_cavity.permeability_inv i ≠ 0) ∧
      (D1.sample_cavity.num_Jsources = 0 ∧ D1.sample_cavity.num_Msources = 0)) ∧
    D1.leapfrog_energy (D1.run_1D_iteration sample_extern D1.sample_cavity) =
      D1.leapfrog_energy D1.sample_cavity :=
  have s : 1 ≤ D1.sample_cavity.sizeX ∧ D1.sample_cavity.sizeX < UINTMAX_MOD :=
    ⟨by decide, by decide⟩
  have w : D1.wall_at_rest D1.sample_cavity 0 0 ∧
      D1.wall_at_rest D1.sample_cavity 1 (D1.sample_cavity.sizeX - 1) :=
    ⟨Or.inl ⟨rfl, rfl⟩, Or.inl ⟨rfl, rfl⟩⟩
  have m : ∀ i, i < D1.sample_cavity.sizeX →
      D1.sample_cavity.permittivity_inv i ≠ 0 ∧ D1.sample_cavity.permeability_inv i ≠ 0 :=
    fun _ _ => ⟨one_ne_zero, one_ne_zero⟩
  have c : D1.sample_cavity.num_Jsources = 0 ∧ D1.sample_cavity.num_Msources = 0 :=
    ⟨rfl, rfl⟩
  ⟨⟨s, w, m, c⟩, (leapfrog_energy_conserved sample_extern D1.sample_cavity s w m c).1⟩

/-- C28 (the claim as stated fails): the total field energy grows in one iteration of
the sample cavity:
both faces are flagged perfect electric conductor, the material arrays are 1, there
is no source, `ez = 0` and `hy = (0, 1, 0, 0)`; the iteration leaves `hy` as it is and
makes `ez = (0, 1/2, -1/2, 0)`, so the energy goes from 1/2 to 3/4. -/
theorem field_energy_increases :
    (D1.sample_cavity.border_condition 0 = border_perfect_electric_conductor ∧
      D1.sample_cavity.border_condition 1 = border_perfect_electric_conductor ∧
      D1.sample_cavity.permittivity_inv = (fun _ => 1) ∧
      D1.sample_cavity.permeability_inv = (fun _ => 1) ∧
      D1.sample_cavity.num_Jsources = 0 ∧ D1.sample_cavity.num_Msources = 0) ∧
    ((D1.run_1D_iteration sample_extern D1.sample_cavity).ez 1 = 1 / 2 ∧
      (D1.run_1D_iteration sample_extern D1.sample_cavity).ez 2 = -1 / 2 ∧
      (D1.run_1D_iteration sample_extern D1.sample_cavity).hy 1 = 1) ∧
    D1.field_energy D1.sample_cavity = 1 / 2 ∧
    D1.field_energy (D1.run_1D_iteration sample_extern D1.sample_cavity) = 3 / 4 ∧
    ¬ (D1.field_energy (D1.run_1D_iteration sample_extern D1.sample_cavity) ≤
      D1.field_energy D1.sample_cavity) := by
  have h1 : D1.field_energy D1.sample_cavity = 1 / 2 := by with_unfolding_all rfl
  have h2 : D1.field_energy (D1.run_1D_iteration sample_extern D1.sample_cavity) = 3 / 4 := by
    with_unfolding_all rfl
  refine ⟨⟨rfl, rfl, rfl, rfl, rfl, rfl⟩, ⟨?_, ?_, ?_⟩, h1, h2, ?_⟩
  · with_unfolding_all rfl
  · with_unfolding_all rfl
  · with_unfolding_all rfl
  · rw [h1, h2]
    norm_num

/-- C29: the quantity written by a dump.  A dump request is fatal exactly for the
quantities that the dimensionality does not define (1D defines `ez`, `hy` and the two
material arrays; 2D `ez`, `hx`, `hy` and the two material arrays; 3D the six field
components and the two material arrays), but the 3D request for `ex` writes the values
of the array `ez`: for every grid the dump of `dump_ex` is the dump of `dump_ez`, and
on the sample grid whose `ex` is 1 and whose `ez` is 3 everywhere the value on every
line of the `ex` dump is 3. -/
theorem dump_3D_ex_writes_ez :
    (∀ g : D3.fdtd3D, D3.dump_3D_fdtd g dumpable_data.dump_ex =
      D3.dump_3D_fdtd g dumpable_data.dump_ez) ∧
    (D3.sample_fields.ex = (fun _ => 1) ∧ D3.sample_fields.ez = (fun _ => 3) ∧
      D3.dump_3D_fdtd D3.sample_fields dumpable_data.dump_ex =
        some [[0, 1, 1 / 2, 3], [0, 1, 1, 3], [0, 2, 1 / 2, 3], [0, 2, 1, 3],
          [1, 1, 1 / 2, 3], [1, 1, 1, 3], [1, 2, 1 / 2, 3], [1, 2, 1, 3],
          [2, 1, 1 / 2, 3], [2, 1, 1, 3], [2, 2, 1 / 2, 3], [2, 2, 1, 3]]) ∧
    (∀ (g : D1.fdtd1D) (what : dumpable_data), D1.dump_1D_fdtd g what = none ↔
      what ≠ dumpable_data.dump_ez ∧ what ≠ dumpable_data.dump_hy ∧
      what ≠ dumpable_data.dump_permittivity ∧ what ≠ dumpable_data.dump_permeability) ∧
    (∀ (g : D2.fdtd2D) (what : dumpable_data), D2.dump_2D_fdtd g what = none ↔
      what ≠ dumpable_data.dump_ez ∧ what ≠ dumpable_data.dump_hx ∧
      what ≠ dumpable_data.dump_hy ∧
      what ≠ dumpable_data.dump_permittivity ∧ what ≠ dumpable_data.dump_permeability) ∧
    (∀ (g : D3.fdtd3D) (what : dumpable_data), D3.dump_3D_fdtd g what = none ↔
      what = dumpable_data.num_dumpable_data) := by
  refine ⟨fun g => rfl, ⟨rfl, rfl, ?_⟩, D1.dump_1D_fdtd_none, D2.dump_2D_fdtd_none,
    D3.dump_3D_fdtd_none⟩
  with_unfolding_all rfl

/-- C30: the lines of a dump.  The 1D dump has one line per cell, `i * dx` followed by
the value.  The 2D dump has no line for the cells of column `j = 0`: it has
`sizeX * (sizeY - 1)` lines, 12 and not 16 on the 4 x 4 sample grid.  The 3D dump has
no line for the cells with `j = 0` or `k = 0`, `sizeX * ((sizeY - 1) * (sizeZ - 1))`
lines in all, and its third number is `k * dt`, not `k * dz`: on the 3 x 3 x 3 sample
grid with `dz = 1` and `dt = 1/2` the line of the cell `(0, 1, 1)` starts with
`0, 1, 1/2`. -/
theorem dump_line_count :
    (∀ g : D1.fdtd1D, ∃ l, D1.dump_1D_fdtd g dumpable_data.dump_ez = some l ∧
      l.length = g.sizeX ∧
      l = (List.range' 0 g.sizeX).map (fun (i : Nat) => [(i : ℚ) * g.dx, g.ez i])) ∧
    (∀ g : D2.fdtd2D, ∃ l, D2.dump_2D_fdtd g dumpable_data.dump_ez = some l ∧
      l.length = g.sizeX * (g.sizeY - 1) ∧
      l = (keys2 0 g.sizeX 1 g.sizeY).map
        (fun x => [(x.1 : ℚ) * g.dx, (x.2 : ℚ) * g.dy, g.ez (x.1, x.2)])) ∧
    (∀ g : D3.fdtd3D, ∃ l, D3.dump_3D_fdtd g dumpable_data.dump_ez = some l ∧
      l.length = g.sizeX * ((g.sizeY - 1) * (g.sizeZ - 1)) ∧
      l = (keys3 0 g.sizeX 1 g.sizeY 1 g.sizeZ).map
        (fun x => [(x.1 : ℚ) * g.dx, (x.2.1 : ℚ) * g.dy, (x.2.2 : ℚ) * g.dt,
          g.ez (x.1, x.2.1, x.2.2)])) ∧
    (((D2.sample_grid (fun _ => 0)).sizeX = 4 ∧ (D2.sample_grid (fun _ => 0)).sizeY = 4) ∧
      D2.dump_2D_fdtd (D2.sample_grid (fun _ => 0)) dumpable_data.dump_ez =
        some [[0, 1, 1], [0, 2, 1], [0, 3, 1], [1, 1, 1], [1, 2, 1], [1, 3, 1],
          [2, 1, 1], [2, 2, 1], [2, 3, 1], [3, 1, 1], [3, 2, 1], [3, 3, 1]]) ∧
    ((D3.sample_fields.sizeX = 3 ∧ D3.sample_fields.sizeY = 3 ∧
        D3.sample_fields.sizeZ = 3 ∧ D3.sample_fields.dz = 1 ∧
        D3.sample_fields.dt = 1 / 2) ∧
      D3.dump_3D_fdtd D3.sample_fields dumpable_data.dump_ez =
        some [[0, 1, 1 / 2, 3], [0, 1, 1, 3], [0, 2, 1 / 2, 3], [0, 2, 1, 3],
          [1, 1, 1 / 2, 3], [1, 1, 1, 3], [1, 2, 1 / 2, 3], [1, 2, 1, 3],
          [2, 1, 1 / 2, 3], [2, 1, 1, 3], [2, 2, 1 / 2, 3], [2, 2, 1, 3]]) := by
  refine ⟨fun g => ⟨_, (D1.dump_1D_fdtd_lines g).1, ?_, rfl⟩,
    fun g => ⟨_, D2.dump_2D_fdtd_lines g, ?_, rfl⟩,
    fun g => ⟨_, D3.dump_3D_fdtd_lines g, ?_, rfl⟩, ⟨⟨rfl, rfl⟩, ?_⟩,
    ⟨rfl, rfl, rfl, rfl, rfl⟩, ?_⟩
  · rw [List.length_map, List.length_range']
  · rw [List.length_map, length_keys2, Nat.sub_zero]
  · rw [List.length_map, length_keys3, Nat.sub_zero]
  · with_unfolding_all rfl
  · with_unfolding_all rfl

/-! ## Physical constants and the Courant number -/

theorem M_PI_pos : 0 < M_PI := by
  unfold M_PI
  norm_num

theorem eps0_pos : 0 < eps0 := by
  unfold eps0
  have := M_PI_pos
  positivity

theorem mu0_pos : 0 < mu0 := by
  unfold mu0
  have := M_PI_pos
  positivity

theorem eps0_mu0_c_light : eps0 * mu0 * c_light ^ 2 = 1 := by
  unfold eps0 mu0 c_light M_PI
  norm_num

/-- The product of the two update coefficients of a cell of vacuum. -/
theorem vacuum_coefficients {Sc wl : ℚ} (hwl : 0 < wl) :
    (wl / 20 * Sc / c_light / (wl / 20)) ^ 2 * (1 / (1 * eps0)) * (1 / (1 * mu0)) = Sc ^ 2 := by
  have h := eps0_mu0_c_light
  have he := eps0_pos
  have hm := mu0_pos
  have hc : (0 : ℚ) < c_light := by unfold c_light; norm_num
  have hw : wl / 20 ≠ 0 := ne_of_gt (spacing_pos hwl)
  have e1 : wl / 20 * Sc / c_light / (wl / 20) = Sc / c_light := by
    field_simp
    ring
  rw [e1]
  field_simp
  linear_combination (-(Sc ^ 2)) * h

namespace D1

theorem courant_product_1D (d Sc wl : ℚ) (borders : Nat → Nat) (hwl : 0 < wl) (i : Nat)
    (hi : i < (init_fdtd_1D d Sc wl borders).sizeX) :
    ((init_fdtd_1D_medium (fun _ => 1) (fun _ => 1) (init_fdtd_1D d Sc wl borders)).dt /
        (init_fdtd_1D_medium (fun _ => 1) (fun _ => 1) (init_fdtd_1D d Sc wl borders)).dx) ^ 2 *
      (init_fdtd_1D_medium (fun _ => 1) (fun _ => 1)
        (init_fdtd_1D d Sc wl borders)).permittivity_inv i *
      (init_fdtd_1D_medium (fun _ => 1) (fun _ => 1)
        (init_fdtd_1D d Sc wl borders)).permeability_inv i = Sc ^ 2 := by
  rw [init_fdtd_1D_medium_eq]
  dsimp only
  rw [if_pos hi, if_pos hi]
  exact vacuum_coefficients hwl

end D1

namespace D2

theorem courant_product_2D (ext : Extern) (ds : Nat → ℚ) (Sc wl : ℚ) (borders : Nat → Nat)
    (T : Nat) (hwl : 0 < wl) (x : Nat × Nat)
    (hx : inBox2 0 (init_fdtd_2D_cpml ext ds Sc wl borders T).sizeX 0
      (init_fdtd_2D_cpml ext ds Sc wl borders T).sizeY x) :
    ((init_fdtd_2D_medium (fun _ _ => 1) (fun _ _ => 1)
          (init_fdtd_2D_cpml ext ds Sc wl borders T)).dt /
        (init_fdtd_2D_medium (fun _ _ => 1) (fun _ _ => 1)
          (init_fdtd_2D_cpml ext ds Sc wl borders T)).dx) ^ 2 *
      (init_fdtd_2D_medium (fun _ _ => 1) (fun _ _ => 1)
        (init_fdtd_2D_cpml ext ds Sc wl borders T)).permittivity_inv x *
      (init_fdtd_2D_medium (fun _ _ => 1) (fun _ _ => 1)
        (init_fdtd_2D_cpml ext ds Sc wl borders T)).permeability_inv x = Sc ^ 2 ∧
    ((init_fdtd_2D_medium (fun _ _ => 1) (fun _ _ => 1)
          (init_fdtd_2D_cpml ext ds Sc wl borders T)).dt /
        (init_fdtd_2D_medium (fun _ _ => 1) (fun _ _ => 1)
          (init_fdtd_2D_cpml ext ds Sc wl borders T)).dy) ^ 2 *
      (init_fdtd_2D_medium (fun _ _ => 1) (fun _ _ => 1)
        (init_fdtd_2D_cpml ext ds Sc wl borders T)).permittivity_inv x *
      (init_fdtd_2D_medium (fun _ _ => 1) (fun _ _ => 1)
        (init_fdtd_2D_cpml ext ds Sc wl borders T)).permeability_inv x = Sc ^ 2 := by
  have h := init_fdtd_2D_cpml_fields ext ds Sc wl borders T
  simp only [Prod.mk.injEq] at h
  obtain ⟨h0, h1, h2, -⟩ := h
  rw [init_fdtd_2D_medium_eq]
  dsimp only
  rw [if_pos hx, if_pos hx, h0, h1, h2]
  exact ⟨vacuum_coefficients hwl, vacuum_coefficients hwl⟩

end D2

namespace D3

theorem courant_product_3D (ext : Extern) (ds : Nat → ℚ) (Sc wl : ℚ) (borders : Nat → Nat)
    (T : Nat) (hwl : 0 < wl) (x : Nat × Nat × Nat)
    (hx : inBox3 0 (init_fdtd_3D_cpml ext ds Sc wl borders T).sizeX 0
      (init_fdtd_3D_cpml ext ds Sc wl borders T).sizeY 0
      (init_fdtd_3D_cpml ext ds Sc wl borders T).sizeZ x) :
    ((init_fdtd_3D_medium (fun _ _ _ => 1) (fun _ _ _ => 1)
          (init_fdtd_3D_cpml ext ds Sc wl borders T)).dt /
        (init_fdtd_3D_medium (fun _ _ _ => 1) (fun _ _ _ => 1)
          (init_fdtd_3D_cpml ext ds Sc wl borders T)).dx) ^ 2 *
      (init_fdtd_3D_medium (fun _ _ _ => 1) (fun _ _ _ => 1)
        (init_fdtd_3D_cpml ext ds Sc wl borders T)).permittivity_inv x *
      (init_fdtd_3D_medium (fun _ _ _ => 1) (fun _ _ _ => 1)
        (init_fdtd_3D_cpml ext ds Sc wl borders T)).permeability_inv x = Sc ^ 2 ∧
    ((init_fdtd_3D_medium (fun _ _ _ => 1) (fun _ _ _ => 1)
          (init_fdtd_3D_cpml ext ds Sc wl borders T)).dt /
        (init_fdtd_3D_medium (fun _ _ _ => 1) (fun _ _ _ => 1)
          (init_fdtd_3D_cpml ext ds Sc wl borders T)).dy) ^ 2 *
      (init_fdtd_3D_medium (fun _ _ _ => 1) (fun _ _ _ => 1)
        (init_fdtd_3D_cpml ext ds Sc wl borders T)).permittivity_inv x *
      (init_fdtd_3D_medium (fun _ _ _ => 1) (fun _ _ _ => 1)
        (init_fdtd_3D_cpml ext ds Sc wl borders T)).permeability_inv x = Sc ^ 2 ∧
    ((init_fdtd_3D_medium (fun _ _ _ => 1) (fun _ _ _ => 1)
          (init_fdtd_3D_cpml ext ds Sc wl borders T)).dt /
        (init_fdtd_3D_medium (fun _ _ _ => 1) (fun _ _ _ => 1)
          (init_fdtd_3D_cpml ext ds Sc wl borders T)).dz) ^ 2 *
      (init_fdtd_3D_medium (fun _ _ _ => 1) (fun _ _ _ => 1)
        (init_fdtd_3D_cpml ext ds Sc wl borders T)).permittivity_inv x *
      (init_fdtd_3D_medium (fun _ _ _ => 1) (fun _ _ _ => 1)
        (init_fdtd_3D_cpml ext ds Sc wl borders T)).permeability_inv x = Sc ^ 2 := by
  have h := init_fdtd_3D_cpml_fields ext ds Sc wl borders T
  simp only [Prod.mk.injEq] at h
  obtain ⟨h0, h1, h2, h3, -⟩ := h
  rw [init_fdtd_3D_medium_eq]
  dsimp only
  rw [if_pos hx, if_pos hx, h0, h1, h2, h3]
  exact ⟨vacuum_coefficients hwl, vacuum_coefficients hwl, vacuum_coefficients hwl⟩

end D3

/-! ## Scenario selection -/

theorem initializeFdtd_cmpl_unknown (ext : Extern) (setupID : Nat) (ds : Nat → ℚ)
    (Sc wl : ℚ) (T : Nat) (h : last_3D_setup ≤ setupID) :
    initializeFdtd_cmpl ext setupID ds Sc wl T = Except.error EXIT_SUCCESS := by
  have h8 : last_3D_setup = 8 := rfl
  have h5 : last_2D_setup = 5 := rfl
  have h1 : last_1D_setup = 1 := rfl
  unfold initializeFdtd_cmpl
  rw [if_neg (by omega), if_neg (by omega), if_neg (by omega)]

theorem returnFdtd2D_cases (r : Option D2.fdtd2D) :
    (∃ g, returnFdtd2D r = Except.ok (fdtd.twoDims g)) ∨
      returnFdtd2D r = Except.error EXIT_FAILURE := by
  cases r with
  | none => exact Or.inr rfl
  | some g => exact Or.inl ⟨g, rfl⟩

theorem initializeFdtd_cmpl_2D (ext : Extern) (setupID : Nat) (ds : Nat → ℚ)
    (Sc wl : ℚ) (T : Nat) (h : setupID = 2 ∨ setupID = 3 ∨ setupID = 4) :
    (∃ g, initializeFdtd_cmpl ext setupID ds Sc wl T = Except.ok (fdtd.twoDims g)) ∨
      initializeFdtd_cmpl ext setupID ds Sc wl T = Except.error EXIT_FAILURE := by
  have h5 : last_2D_setup = 5 := rfl
  have h1 : last_1D_setup = 1 := rfl
  unfold initializeFdtd_cmpl
  rw [if_neg (by omega), if_pos (by omega)]
  unfold initializeFdtd2D
  rcases h with h | h | h
  · subst h
    rw [if_neg (by decide), if_neg (by decide), if_pos (by decide)]
    exact returnFdtd2D_cases _
  · subst h
    rw [if_pos (by decide)]
    exact returnFdtd2D_cases _
  · subst h
    rw [if_neg (by decide), if_pos (by decide)]
    exact returnFdtd2D_cases _

/-! ## Scenario selection, conductor faces in 3D, source locations, Courant number: claims -/

/-- C31: the exit status for a setup id that names no scenario.  `initializeFdtd_cmpl`
calls `exit(EXIT_SUCCESS)`, not `exit(EXIT_FAILURE)`, for every setup id at or above
`last_3D_setup = 8`: the process ends with the status of a successful run.  The gap ids
1 and 5 end with `EXIT_FAILURE`, the id 0 returns a 1D grid and the ids 6 and 7 a 3D
grid for all parameters; the ids 2, 3 and 4 return a 2D grid or end with
`EXIT_FAILURE` (when `add_source_fdtd_2D` rejects the source of the scenario), and
they return a 2D grid on a domain of 4 x 4 cells. -/
theorem unknown_setup_exit_status :
    (EXIT_SUCCESS ≠ EXIT_FAILURE ∧
      initializeFdtd_cmpl sample_extern 8 (fun _ => 4) (1 / 2) 20 0 =
        Except.error EXIT_SUCCESS ∧
      ∀ (ext : Extern) (setupID : Nat) (ds : Nat → ℚ) (Sc wl : ℚ) (T : Nat),
        last_3D_setup ≤ setupID →
          initializeFdtd_cmpl ext setupID ds Sc wl T = Except.error EXIT_SUCCESS) ∧
    (∀ (ext : Extern) (ds : Nat → ℚ) (Sc wl : ℚ) (T : Nat),
      initializeFdtd_cmpl ext 1 ds Sc wl T = Except.error EXIT_FAILURE ∧
      initializeFdtd_cmpl ext 5 ds Sc wl T = Except.error EXIT_FAILURE) ∧
    (∀ (ext : Extern) (ds : Nat → ℚ) (Sc wl : ℚ) (T : Nat),
      returned_type (initializeFdtd_cmpl ext 0 ds Sc wl T) =
        Except.ok fdtd_type.fdtd_one_dim ∧
      returned_type (initializeFdtd_cmpl ext 6 ds Sc wl T) =
        Except.ok fdtd_type.fdtd_three_dims ∧
      returned_type (initializeFdtd_cmpl ext 7 ds Sc wl T) =
        Except.ok fdtd_type.fdtd_three_dims) ∧
    (∀ (ext : Extern) (setupID : Nat) (ds : Nat → ℚ) (Sc wl : ℚ) (T : Nat),
      setupID = 2 ∨ setupID = 3 ∨ setupID = 4 →
        returned_type (initializeFdtd_cmpl ext setupID ds Sc wl T) =
            Except.ok fdtd_type.fdtd_two_dims ∨
          initializeFdtd_cmpl ext setupID ds Sc wl T = Except.error EXIT_FAILURE) ∧
    (returned_type (initializeFdtd_cmpl sample_extern 2 (fun _ => 4) (1 / 2) 20 0) =
        Except.ok fdtd_type.fdtd_two_dims ∧
      returned_type (initializeFdtd_cmpl sample_extern 3 (fun _ => 4) (1 / 2) 20 0) =
        Except.ok fdtd_type.fdtd_two_dims ∧
      returned_type (initializeFdtd_cmpl sample_extern 4 (fun _ => 4) (1 / 2) 20 0) =
        Except.ok fdtd_type.fdtd_two_dims) := by
  refine ⟨⟨by decide, rfl, initializeFdtd_cmpl_unknown⟩, fun _ _ _ _ _ => ⟨rfl, rfl⟩,
    fun _ _ _ _ _ => ⟨rfl, rfl, rfl⟩, ?_, ?_, ?_, ?_⟩
  · intro ext setupID ds Sc wl T h
    rcases initializeFdtd_cmpl_2D ext setupID ds Sc wl T h with ⟨g, hg⟩ | hg
    · exact Or.inl (by rw [hg]; rfl)
    · exact Or.inr hg
  · with_unfolding_all rfl
  · with_unfolding_all rfl
  · with_unfolding_all rfl

/-- C32: the top and bottom faces of the 3D conductor enforcement.  Both cases of
`border_condition_electric` and of `border_condition_magnetic` run the second index
up to `sizeX`, not `sizeY`.  On the grid of 2 x 3 x 1 cells with the top face flagged
perfect electric conductor the cell `[1][2][0]` of the top layer keeps `ex = 1`,
`ey = 2`, `ez = 3` (and `hx = 4`) while the cell `[1][1][0]` is zeroed; likewise the
cell `[0][2][0]` with the bottom face flagged.  On the grid of 3 x 2 x 1 cells the
same calls assign 0 at `[2][2][0]` (top) and `[0][2][0]` (bottom), whose second index
is not below `sizeY = 2`. -/
theorem top_bottom_face_extent :
    ((D3.sample_box 2 3 1 (fun i => if i = D3.border_top then
          border_perfect_electric_conductor else 0)).sizeX = 2 ∧
      (D3.sample_box 2 3 1 (fun i => if i = D3.border_top then
          border_perfect_electric_conductor else 0)).sizeY = 3 ∧
      (D3.sample_box 2 3 1 (fun i => if i = D3.border_top then
          border_perfect_electric_conductor else 0)).sizeZ = 1) ∧
    ((D3.border_condition_electric (D3.sample_box 2 3 1 (fun i =>
          if i = D3.border_top then border_perfect_electric_conductor else 0))).ex (1, 2, 0) = 1 ∧
      (D3.border_condition_electric (D3.sample_box 2 3 1 (fun i =>
          if i = D3.border_top then border_perfect_electric_conductor else 0))).ey (1, 2, 0) = 2 ∧
      (D3.border_condition_electric (D3.sample_box 2 3 1 (fun i =>
          if i = D3.border_top then border_perfect_electric_conductor else 0))).ez (1, 2, 0) = 3 ∧
      (D3.border_condition_electric (D3.sample_box 2 3 1 (fun i =>
          if i = D3.border_top then border_perfect_electric_conductor else 0))).ex (1, 1, 0) = 0 ∧
      (D3.border_condition_magnetic (D3.sample_box 2 3 1 (fun i =>
          if i = D3.border_top then border_perfect_electric_conductor else 0))).hx (1, 2, 0) = 4 ∧
      (D3.border_condition_magnetic (D3.sample_box 2 3 1 (fun i =>
          if i = D3.border_top then border_perfect_electric_conductor else 0))).hx (1, 1, 0) = 0) ∧
    ((D3.border_condition_electric (D3.sample_box 2 3 1 (fun i =>
          if i = D3.border_bottom then border_perfect_electric_conductor else 0))).ex (0, 2, 0) = 1 ∧
      (D3.border_condition_electric (D3.sample_box 2 3 1 (fun i =>
          if i = D3.border_bottom then border_perfect_electric_conductor else 0))).ex (0, 1, 0) = 0 ∧
      (D3.border_condition_magnetic (D3.sample_box 2 3 1 (fun i =>
          if i = D3.border_bottom then border_perfect_electric_conductor else 0))).hx (0, 2, 0) = 4 ∧
      (D3.border_condition_magnetic (D3.sample_box 2 3 1 (fun i =>
          if i = D3.border_bottom then border_perfect_electric_conductor else 0))).hx (0, 1, 0) = 0) ∧
    ((D3.sample_box 3 2 1 (fun _ => 0)).sizeY = 2 ∧
      (D3.sample_box 3 2 1 (fun _ => 0)).ex (2, 2, 0) = 1 ∧
      (D3.border_condition_electric (D3.sample_box 3 2 1 (fun i =>
          if i = D3.border_top then border_perfect_electric_conductor else 0))).ex (2, 2, 0) = 0 ∧
      (D3.border_condition_electric (D3.sample_box 3 2 1 (fun i =>
          if i = D3.border_bottom then border_perfect_electric_conductor else 0))).ex (0, 2, 0) = 0 ∧
      (D3.border_condition_magnetic (D3.sample_box 3 2 1 (fun i =>
          if i = D3.border_top then border_perfect_electric_conductor else 0))).hx (2, 2, 0) = 0 ∧
      (D3.border_condition_magnetic (D3.sample_box 3 2 1 (fun i =>
          if i = D3.border_bottom then border_perfect_electric_conductor else 0))).hx (0, 2, 0) = 0) ∧
    ((D3.border_condition_electric (D3.sample_box 2 3 1 (fun i =>
          if i = D3.border_right then border_perfect_electric_conductor else 0))).ex (1, 2, 0) = 0 ∧
      (D3.border_condition_electric (D3.sample_box 3 2 1 (fun i =>
          if i = D3.border_right then border_perfect_electric_conductor else 0))).ex (2, 2, 0) = 1) := by
  refine ⟨⟨rfl, rfl, rfl⟩, ⟨?_, ?_, ?_, ?_, ?_, ?_⟩, ⟨?_, ?_, ?_, ?_⟩,
    ⟨rfl, rfl, ?_, ?_, ?_, ?_⟩, ?_, ?_⟩ <;> with_unfolding_all rfl

/-- C34: the cell of a source inside the domain.  `add_source_fdtd_1D` and
`add_source_fdtd_3D` store `ceil(p / dx)` with no test against the cell count.  On the
1D grid built for the domain size 1 with spacing 1 (one cell) the position `1/2`, which
lies in `[0, domain_size)`, is stored as the location 1 = `sizeX`, for an electric and
for a magnetic source, and `apply_M_sources` then adds the pulse to `hy[1]`, past the
only element `hy[0]`; on the 3D grid of 1 x 1 x 1 cells the position `(1/2, 1/2, 1/2)`
is stored as the location `(1, 1, 1)`.  The 2D function, which rounds down and tests
the bounds, stores the location `(0, 0)` for the same position on the grid of
1 x 1 cells. -/
theorem source_location_past_end :
    (((0 : ℚ) ≤ 1 / 2 ∧ (1 / 2 : ℚ) < (D1.init_fdtd_1D 1 1 20 (fun _ => 0)).domain_size) ∧
      (D1.init_fdtd_1D 1 1 20 (fun _ => 0)).dx = 1 ∧
      (D1.init_fdtd_1D 1 1 20 (fun _ => 0)).sizeX = 1 ∧
      (D1.add_source_fdtd_1D source_type.source_magnetic (D1.init_fdtd_1D 1 1 20 (fun _ => 0))
        (gaussian_source 0 1 1) (1 / 2)).MsourceLocations 0 = 1 ∧
      (D1.add_source_fdtd_1D source_type.source_electric (D1.init_fdtd_1D 1 1 20 (fun _ => 0))
        (gaussian_source 0 1 1) (1 / 2)).JsourceLocations 0 = 1 ∧
      (D1.apply_M_sources sample_extern
        (D1.add_source_fdtd_1D source_type.source_magnetic (D1.init_fdtd_1D 1 1 20 (fun _ => 0))
          (gaussian_source 0 1 1) (1 / 2))).hy 1 = 1 ∧
      (D1.apply_J_sources sample_extern
        (D1.add_source_fdtd_1D source_type.source_electric (D1.init_fdtd_1D 1 1 20 (fun _ => 0))
          (gaussian_source 0 1 1) (1 / 2))).ez 1 = 1) ∧
    (((D3.init_fdtd_3D_cpml sample_extern (fun _ => 1) (1 / 2) 20 (fun _ => 0) 0).sizeX = 1 ∧
        (D3.init_fdtd_3D_cpml sample_extern (fun _ => 1) (1 / 2) 20 (fun _ => 0) 0).sizeY = 1 ∧
        (D3.init_fdtd_3D_cpml sample_extern (fun _ => 1) (1 / 2) 20 (fun _ => 0) 0).sizeZ = 1) ∧
      (D3.add_source_fdtd_3D source_type.source_magnetic
        (D3.init_fdtd_3D_cpml sample_extern (fun _ => 1) (1 / 2) 20 (fun _ => 0) 0)
        (gaussian_source 0 1 1) (1 / 2) (1 / 2) (1 / 2)).MsourceLocations (0, 0) = 1 ∧
      (D3.add_source_fdtd_3D source_type.source_magnetic
        (D3.init_fdtd_3D_cpml sample_extern (fun _ => 1) (1 / 2) 20 (fun _ => 0) 0)
        (gaussian_source 0 1 1) (1 / 2) (1 / 2) (1 / 2)).MsourceLocations (0, 1) = 1 ∧
      (D3.add_source_fdtd_3D source_type.source_magnetic
        (D3.init_fdtd_3D_cpml sample_extern (fun _ => 1) (1 / 2) 20 (fun _ => 0) 0)
        (gaussian_source 0 1 1) (1 / 2) (1 / 2) (1 / 2)).MsourceLocations (0, 2) = 1) ∧
    ((D2.init_fdtd_2D_cpml sample_extern (fun _ => 1) (1 / 2) 20 (fun _ => 0) 0).sizeX = 1 ∧
      (D2.add_source_fdtd_2D source_type.source_magnetic
        (D2.init_fdtd_2D_cpml sample_extern (fun _ => 1) (1 / 2) 20 (fun _ => 0) 0)
        (gaussian_source 0 1 1) (1 / 2) (1 / 2)).map
          (fun g => (g.MsourceLocations (0, 0), g.MsourceLocations (0, 1))) = some (0, 0)) := by
  refine ⟨⟨⟨by norm_num, ?_⟩, ?_, ?_, ?_, ?_, ?_, ?_⟩, ⟨⟨?_, ?_, ?_⟩, ?_, ?_, ?_⟩, ?_, ?_⟩
  · show (1 / 2 : ℚ) < 1
    norm_num
  all_goals with_unfolding_all rfl

/-- C37: the Courant number in the update coefficients.  The constants satisfy
`eps0 * mu0 * c_light ^ 2 = 1` exactly, and for every grid built by a constructor with
a positive wavelength and initialised by `init_fdtd_1D_medium`, `init_fdtd_2D_medium`
or `init_fdtd_3D_medium` with both callbacks constant 1, every cell of the grid
satisfies `(dt / dx) ^ 2 * permittivity_inv * permeability_inv = Sc ^ 2`, and the same
with `dy` and `dz` in the place of `dx` (exact arithmetic). -/
theorem courant_product (ext : Extern) (d1 : ℚ) (ds : Nat → ℚ) (Sc wl : ℚ)
    (b1 b2 b3 : Nat → Nat) (T : Nat) (hwl : 0 < wl) :
    eps0 * mu0 * c_light ^ 2 = 1 ∧
    (∀ i, i < (D1.init_fdtd_1D d1 Sc wl b1).sizeX →
      ((D1.init_fdtd_1D_medium (fun _ => 1) (fun _ => 1) (D1.init_fdtd_1D d1 Sc wl b1)).dt /
          (D1.init_fdtd_1D_medium (fun _ => 1) (fun _ => 1)
            (D1.init_fdtd_1D d1 Sc wl b1)).dx) ^ 2 *
        (D1.init_fdtd_1D_medium (fun _ => 1) (fun _ => 1)
          (D1.init_fdtd_1D d1 Sc wl b1)).permittivity_inv i *
        (D1.init_fdtd_1D_medium (fun _ => 1) (fun _ => 1)
          (D1.init_fdtd_1D d1 Sc wl b1)).permeability_inv i = Sc ^ 2) ∧
    (∀ x, inBox2 0 (D2.init_fdtd_2D_cpml ext ds Sc wl b2 T).sizeX 0
        (D2.init_fdtd_2D_cpml ext ds Sc wl b2 T).sizeY x →
      ((D2.init_fdtd_2D_medium (fun _ _ => 1) (fun _ _ => 1)
            (D2.init_fdtd_2D_cpml ext ds Sc wl b2 T)).dt /
          (D2.init_fdtd_2D_medium (fun _ _ => 1) (fun _ _ => 1)
            (D2.init_fdtd_2D_cpml ext ds Sc wl b2 T)).dx) ^ 2 *
        (D2.init_fdtd_2D_medium (fun _ _ => 1) (fun _ _ => 1)
          (D2.init_fdtd_2D_cpml ext ds Sc wl b2 T)).permittivity_inv x *
        (D2.init_fdtd_2D_medium (fun _ _ => 1) (fun _ _ => 1)
          (D2.init_fdtd_2D_cpml ext ds Sc wl b2 T)).permeability_inv x = Sc ^ 2 ∧
      ((D2.init_fdtd_2D_medium (fun _ _ => 1) (fun _ _ => 1)
            (D2.init_fdtd_2D_cpml ext ds Sc wl b2 T)).dt /
          (D2.init_fdtd_2D_medium (fun _ _ => 1) (fun _ _ => 1)
            (D2.init_fdtd_2D_cpml ext ds Sc wl b2 T)).dy) ^ 2 *
        (D2.init_fdtd_2D_medium (fun _ _ => 1) (fun _ _ => 1)
          (D2.init_fdtd_2D_cpml ext ds Sc wl b2 T)).permittivity_inv x *
        (D2.init_fdtd_2D_medium (fun _ _ => 1) (fun _ _ => 1)
          (D2.init_fdtd_2D_cpml ext ds Sc wl b2 T)).permeability_inv x = Sc ^ 2) ∧
    (∀ x, inBox3 0 (D3.init_fdtd_3D_cpml ext ds Sc wl b3 T).sizeX 0
        (D3.init_fdtd_3D_cpml ext ds Sc wl b3 T).sizeY 0
        (D3.init_fdtd_3D_cpml ext ds Sc wl b3 T).sizeZ x →
      ((D3.init_fdtd_3D_medium (fun _ _ _ => 1) (fun _ _ _ => 1)
            (D3.init_fdtd_3D_cpml ext ds Sc wl b3 T)).dt /
          (D3.init_fdtd_3D_medium (fun _ _ _ => 1) (fun _ _ _ => 1)
            (D3.init_fdtd_3D_cpml ext ds Sc wl b3 T)).dx) ^ 2 *
        (D3.init_fdtd_3D_medium (fun _ _ _ => 1) (fun _ _ _ => 1)
          (D3.init_fdtd_3D_cpml ext ds Sc wl b3 T)).permittivity_inv x *
        (D3.init_fdtd_3D_medium (fun _ _ _ => 1) (fun _ _ _ => 1)
          (D3.init_fdtd_3D_cpml ext ds Sc wl b3 T)).permeability_inv x = Sc ^ 2 ∧
      ((D3.init_fdtd_3D_medium (fun _ _ _ => 1) (fun _ _ _ => 1)
            (D3.init_fdtd_3D_cpml ext ds Sc wl b3 T)).dt /
          (D3.init_fdtd_3D_medium (fun _ _ _ => 1) (fun _ _ _ => 1)
            (D3.init_fdtd_3D_cpml ext ds Sc wl b3 T)).dy) ^ 2 *
        (D3.init_fdtd_3D_medium (fun _ _ _ => 1) (fun _ _ _ => 1)
          (D3.init_fdtd_3D_cpml ext ds Sc wl b3 T)).permittivity_inv x *
        (D3.init_fdtd_3D_medium (fun _ _ _ => 1) (fun _ _ _ => 1)
          (D3.init_fdtd_3D_cpml ext ds Sc wl b3 T)).permeability_inv x = Sc ^ 2 ∧
      ((D3.init_fdtd_3D_medium (fun _ _ _ => 1) (fun _ _ _ => 1)
            (D3.init_fdtd_3D_cpml ext ds Sc wl b3 T)).dt /
          (D3.init_fdtd_3D_medium (fun _ _ _ => 1) (fun _ _ _ => 1)
            (D3.init_fdtd_3D_cpml ext ds Sc wl b3 T)).dz) ^ 2 *
        (D3.init_fdtd_3D_medium (fun _ _ _ => 1) (fun _ _ _ => 1)
          (D3.init_fdtd_3D_cpml ext ds Sc wl b3 T)).permittivity_inv x *
        (D3.init_fdtd_3D_medium (fun _ _ _ => 1) (fun _ _ _ => 1)
          (D3.init_fdtd_3D_cpml ext ds Sc wl b3 T)).permeability_inv x = Sc ^ 2) :=
  ⟨eps0_mu0_c_light, fun i hi => D1.courant_product_1D d1 Sc wl b1 hwl i hi,
    fun x hx => D2.courant_product_2D ext ds Sc wl b2 T hwl x hx,
    fun x hx => D3.courant_product_3D ext ds Sc wl b3 T hwl x hx⟩

/-- The Courant product on the grids built for the wavelength 20 (spacing 1) with
`Sc = 1/2`: the 1D grid of 3 cells at cell 2, the 2D grid of 4 x 4 cells at cell
`(3, 3)` and the 3D grid of 2 x 2 x 2 cells at cell `(1, 1, 1)`. -/
theorem courant_product_witness :
    (0 : ℚ) < 20 ∧
    (2 < (D1.init_fdtd_1D 3 (1 / 2) 20 (fun _ => 0)).sizeX ∧
      ((D1.init_fdtd_1D_medium (fun _ => 1) (fun _ => 1)
            (D1.init_fdtd_1D 3 (1 / 2) 20 (fun _ => 0))).dt /
          (D1.init_fdtd_1D_medium (fun _ => 1) (fun _ => 1)
            (D1.init_fdtd_1D 3 (1 / 2) 20 (fun _ => 0))).dx) ^ 2 *
        (D1.init_fdtd_1D_medium (fun _ => 1) (fun _ => 1)
          (D1.init_fdtd_1D 3 (1 / 2) 20 (fun _ => 0))).permittivity_inv 2 *
        (D1.init_fdtd_1D_medium (fun _ => 1) (fun _ => 1)
          (D1.init_fdtd_1D 3 (1 / 2) 20 (fun _ => 0))).permeability_inv 2 = (1 / 2) ^ 2) ∧
    (inBox2 0 (D2.init_fdtd_2D_cpml sample_extern (fun _ => 4) (1 / 2) 20 (fun _ => 0) 2).sizeX 0
        (D2.init_fdtd_2D_cpml sample_extern (fun _ => 4) (1 / 2) 20 (fun _ => 0) 2).sizeY (3, 3) ∧
      ((D2.init_fdtd_2D_medium (fun _ _ => 1) (fun _ _ => 1)
            (D2.init_fdtd_2D_cpml sample_extern (fun _ => 4) (1 / 2) 20 (fun _ => 0) 2)).dt /
          (D2.init_fdtd_2D_medium (fun _ _ => 1) (fun _ _ => 1)
            (D2.init_fdtd_2D_cpml sample_extern (fun _ => 4) (1 / 2) 20 (fun _ => 0) 2)).dx) ^ 2 *
        (D2.init_fdtd_2D_medium (fun _ _ => 1) (fun _ _ => 1)
          (D2.init_fdtd_2D_cpml sample_extern (fun _ => 4) (1 / 2) 20
            (fun _ => 0) 2)).permittivity_inv (3, 3) *
        (D2.init_fdtd_2D_medium (fun _ _ => 1) (fun _ _ => 1)
          (D2.init_fdtd_2D_cpml sample_extern (fun _ => 4) (1 / 2) 20
            (fun _ => 0) 2)).permeability_inv (3, 3) = (1 / 2) ^ 2) ∧
    (inBox3 0 (D3.init_fdtd_3D_cpml sample_extern (fun _ => 2) (1 / 2) 20 (fun _ => 0) 0).sizeX 0
        (D3.init_fdtd_3D_cpml sample_extern (fun _ => 2) (1 / 2) 20 (fun _ => 0) 0).sizeY 0
        (D3.init_fdtd_3D_cpml sample_extern (fun _ => 2) (1 / 2) 20 (fun _ => 0) 0).sizeZ
        (1, 1, 1) ∧
      ((D3.init_fdtd_3D_medium (fun _ _ _ => 1) (fun _ _ _ => 1)
            (D3.init_fdtd_3D_cpml sample_extern (fun _ => 2) (1 / 2) 20 (fun _ => 0) 0)).dt /
          (D3.init_fdtd_3D_medium (fun _ _ _ => 1) (fun _ _ _ => 1)
            (D3.init_fdtd_3D_cpml sample_extern (fun _ => 2) (1 / 2) 20 (fun _ => 0) 0)).dz) ^ 2 *
        (D3.init_fdtd_3D_medium (fun _ _ _ => 1) (fun _ _ _ => 1)
          (D3.init_fdtd_3D_cpml sample_extern (fun _ => 2) (1 / 2) 20
            (fun _ => 0) 0)).permittivity_inv (1, 1, 1) *
        (D3.init_fdtd_3D_medium (fun _ _ _ => 1) (fun _ _ _ => 1)
          (D3.init_fdtd_3D_cpml sample_extern (fun _ => 2) (1 / 2) 20
            (fun _ => 0) 0)).permeability_inv (1, 1, 1) = (1 / 2) ^ 2) :=
  have p : (0 : ℚ) < 20 := by norm_num
  have i1 : 2 < (D1.init_fdtd_1D 3 (1 / 2) 20 (fun _ => 0)).sizeX := by
    with_unfolding_all decide
  have i2 : inBox2 0
      (D2.init_fdtd_2D_cpml sample_extern (fun _ => 4) (1 / 2) 20 (fun _ => 0) 2).sizeX 0
      (D2.init_fdtd_2D_cpml sample_extern (fun _ => 4) (1 / 2) 20 (fun _ => 0) 2).sizeY
      (3, 3) := by
    with_unfolding_all decide
  have i3 : inBox3 0
      (D3.init_fdtd_3D_cpml sample_extern (fun _ => 2) (1 / 2) 20 (fun _ => 0) 0).sizeX 0
      (D3.init_fdtd_3D_cpml sample_extern (fun _ => 2) (1 / 2) 20 (fun _ => 0) 0).sizeY 0
      (D3.init_fdtd_3D_cpml sample_extern (fun _ => 2) (1 / 2) 20 (fun _ => 0) 0).sizeZ
      (1, 1, 1) := by
    with_unfolding_all decide
  have t := courant_product sample_extern 3 (fun _ => 4) (1 / 2) 20 (fun _ => 0) (fun _ => 0)
    (fun _ => 0) 2 p
  have t3 := courant_product sample_extern 3 (fun _ => 2) (1 / 2) 20 (fun _ => 0) (fun _ => 0)
    (fun _ => 0) 0 p
  ⟨p, ⟨i1, t.2.1 2 i1⟩, ⟨i2, (t.2.2.1 (3, 3) i2).1⟩, i3, (t3.2.2.2 (1, 1, 1) i3).2.2⟩

/-! ## Bounds of the CPML coefficients -/

theorem forLoop_append_flatMap {β : Type} (G : Nat → List β) (lo hi : Nat) (init : List β) :
    forLoop lo hi (fun i out => out ++ G i) init =
      init ++ (List.range' lo (hi - lo)).flatMap G := by
  unfold forLoop
  exact foldl_append_flatMap G _ init

theorem taper_sum_pos {sm am : ℚ} (hs : 0 < sm) (ha : 0 < am) (x : ℚ) :
    0 < sm * x ^ 4 + am * (1 - x) ^ 4 := by
  have h1 : 0 ≤ x ^ 4 := by positivity
  have h2 : 0 ≤ (1 - x) ^ 4 := by positivity
  by_cases hx : x = 0
  · subst hx
    have : sm * (0 : ℚ) ^ 4 + am * (1 - 0) ^ 4 = am := by ring
    rw [this]
    exact ha
  · have h3 : 0 < x ^ 4 := by positivity
    have h4 : 0 < sm * x ^ 4 := mul_pos hs h3
    have h5 : 0 ≤ am * (1 - x) ^ 4 := mul_nonneg (le_of_lt ha) h2
    linarith

theorem sigma_taper (ext : Extern) (hpow : ∀ x : ℚ, ext.pow x polynomial_taper_order = x ^ 4)
    (d W : Nat) (sm : ℚ) : sigma ext d W sm = sm * ((d : ℚ) / (W : ℚ)) ^ 4 := by
  unfold sigma
  dsimp only
  rw [hpow]

theorem alpha_taper (ext : Extern) (hpow : ∀ x : ℚ, ext.pow x polynomial_taper_order = x ^ 4)
    (d W : Nat) (am : ℚ) : alpha ext d W am = am * (1 - (d : ℚ) / (W : ℚ)) ^ 4 := by
  unfold alpha
  dsimp only
  rw [hpow]

theorem sigma_nonneg (ext : Extern) (hpow : ∀ x : ℚ, ext.pow x polynomial_taper_order = x ^ 4)
    (d W : Nat) {sm : ℚ} (hs : 0 < sm) : 0 ≤ sigma ext d W sm := by
  rw [sigma_taper ext hpow]
  positivity

theorem alpha_nonneg (ext : Extern) (hpow : ∀ x : ℚ, ext.pow x polynomial_taper_order = x ^ 4)
    (d W : Nat) {am : ℚ} (ha : 0 < am) : 0 ≤ alpha ext d W am := by
  rw [alpha_taper ext hpow]
  positivity

theorem sigma_alpha_pos (ext : Extern)
    (hpow : ∀ x : ℚ, ext.pow x polynomial_taper_order = x ^ 4) (d W : Nat) {am sm : ℚ}
    (ha : 0 < am) (hs : 0 < sm) : 0 < sigma ext d W sm + alpha ext d W am := by
  rw [sigma_taper ext hpow, alpha_taper ext hpow]
  exact taper_sum_pos hs ha _

theorem sigma_interface (ext : Extern)
    (hpow : ∀ x : ℚ, ext.pow x polynomial_taper_order = x ^ 4) (W : Nat) (sm : ℚ) :
    sigma ext 0 W sm = 0 := by
  rw [sigma_taper ext hpow]
  simp

/-- The denominator of `c` is `sigma + alpha`, since `Kappa = 1`. -/
theorem c_denominator (ext : Extern) (d W : Nat) (am sm : ℚ) :
    sigma ext d W sm * Kappa ext d W + Kappa ext d W * Kappa ext d W * alpha ext d W am =
      sigma ext d W sm + alpha ext d W am := by
  rw [Kappa_eq_one]
  ring

/-- The bounds of one pair of coefficients. -/
theorem coefficient_bounds (ext : Extern)
    (hexp : ∀ x : ℚ, x < 0 → 0 < ext.exp x ∧ ext.exp x < 1)
    (hpow : ∀ x : ℚ, ext.pow x polynomial_taper_order = x ^ 4) (d W : Nat) {dt am sm : ℚ}
    (hdt : 0 < dt) (ha : 0 < am) (hs : 0 < sm) :
    (0 < b ext d W dt am sm ∧ b ext d W dt am sm < 1) ∧
      (-1 < c ext d W dt am sm ∧ c ext d W dt am sm ≤ 0) := by
  have hsum := sigma_alpha_pos ext hpow d W ha hs
  have hsig := sigma_nonneg ext hpow d W hs
  have halp := alpha_nonneg ext hpow d W ha
  have harg : -dt * (sigma ext d W sm + alpha ext d W am) / eps0 < 0 := by
    have h1 : 0 < dt * (sigma ext d W sm + alpha ext d W am) / eps0 :=
      div_pos (mul_pos hdt hsum) eps0_pos
    have h2 : -dt * (sigma ext d W sm + alpha ext d W am) / eps0 =
        -(dt * (sigma ext d W sm + alpha ext d W am) / eps0) := by ring
    rw [h2]
    linarith
  have hb := hexp _ harg
  rw [← b_closed] at hb
  refine ⟨hb, ?_⟩
  rw [c_closed]
  have hr0 : 0 ≤ sigma ext d W sm / (sigma ext d W sm + alpha ext d W am) :=
    div_nonneg hsig (le_of_lt hsum)
  have hr1 : sigma ext d W sm / (sigma ext d W sm + alpha ext d W am) ≤ 1 := by
    rw [div_le_one hsum]
    linarith
  constructor
  · nlinarith [hb.1, hb.2]
  · have : b ext d W dt am sm - 1 ≤ 0 := by linarith [hb.2]
    exact mul_nonpos_of_nonneg_of_nonpos hr0 this

theorem c_interface (ext : Extern)
    (hpow : ∀ x : ℚ, ext.pow x polynomial_taper_order = x ^ 4) (W : Nat) (dt am sm : ℚ) :
    c ext 0 W dt am sm = 0 := by
  rw [c_closed, sigma_interface ext hpow]
  simp

/-- A recursion `psi_new = b * psi_old + c * x` with `0 < b < 1` brings two values of
`psi_old` strictly closer. -/
theorem psi_contraction {bk ck : ℚ} (h0 : 0 < bk) (h1 : bk < 1) (p q x : ℚ) (hpq : p ≠ q) :
    |bk * p + ck * x - (bk * q + ck * x)| < |p - q| := by
  have e : bk * p + ck * x - (bk * q + ck * x) = bk * (p - q) := by ring
  rw [e, abs_mul, abs_of_pos h0]
  have hpos : 0 < |p - q| := abs_pos.mpr (sub_ne_zero.mpr hpq)
  nlinarith

theorem alpha_max_pos {dx : ℚ} (h : 0 < dx) : 0 < 2 * M_PI * eps0 * dx * (1 / 10) := by
  have h1 := M_PI_pos
  have h2 := eps0_pos
  positivity

theorem sigma_max_pos (ext : Extern) (hsqrt : 0 < ext.sqrt (mu0 / eps0)) {dx : ℚ}
    (h : 0 < dx) : 0 < (8 / 10) * (4 + 1) / (dx * ext.sqrt (mu0 / eps0)) := by
  positivity

theorem time_step_pos {wl Sc : ℚ} (hwl : 0 < wl) (hSc : 0 < Sc) : 0 < wl / 20 * Sc / c_light := by
  have hc : (0 : ℚ) < c_light := by unfold c_light; norm_num
  positivity

/-! ## Divisions of the coefficient computation -/

theorem cpml_coeff_divisors_eq (ext : Extern) (T : Nat) (dx : ℚ) :
    cpml_coeff_divisors ext T dx =
      [eps0, dx * ext.sqrt (mu0 / eps0)] ++ (List.range' 0 (T - 0)).flatMap (fun d =>
        b_divisors ext d (usub T 1) ++
          c_divisors ext d (usub T 1) (2 * M_PI * eps0 * dx * (1 / 10))
            ((8 / 10) * (polynomial_taper_order + 1) / (dx * ext.sqrt (mu0 / eps0)))) := by
  unfold cpml_coeff_divisors
  dsimp only
  rw [← forLoop_append_flatMap]
  exact forLoop_congr _ _ _ _ (fun d out => List.append_assoc _ _ _) _

/-- With thickness 1 the width passed to `Kappa`, `sigma` and `alpha` is 0 and the
normalised distance is computed as `0 / 0`. -/
theorem cpml_coeff_divisors_one (ext : Extern) (dx : ℚ) :
    (0 : ℚ) ∈ cpml_coeff_divisors ext 1 dx := by
  rw [cpml_coeff_divisors_eq]
  have h : usub 1 1 = 0 := usub_eq_sub (le_refl 1) (by unfold UINTMAX_MOD; norm_num)
  rw [h]
  simp [b_divisors, sigma_divisors]

/-- With thickness at least 2 no divisor of the coefficient computation is 0. -/
theorem cpml_coeff_divisors_ne_zero (ext : Extern)
    (hpow : ∀ x : ℚ, ext.pow x polynomial_taper_order = x ^ 4)
    (hsqrt : 0 < ext.sqrt (mu0 / eps0)) (T : Nat) (hT2 : 2 ≤ T) (hT : T < UINTMAX_MOD)
    {dx : ℚ} (hdx : 0 < dx) : ∀ q ∈ cpml_coeff_divisors ext T dx, q ≠ 0 := by
  have hp : polynomial_taper_order = 4 := rfl
  have hW : usub T 1 = T - 1 := usub_eq_sub (by omega) hT
  have hWq : ((T - 1 : Nat) : ℚ) ≠ 0 := by
    have : 0 < T - 1 := by omega
    exact_mod_cast Nat.pos_iff_ne_zero.mp this
  have he := ne_of_gt eps0_pos
  have hden : ∀ d : Nat,
      sigma ext d (T - 1) ((8 / 10) * (4 + 1) / (dx * ext.sqrt (mu0 / eps0))) *
          Kappa ext d (T - 1) +
        Kappa ext d (T - 1) * Kappa ext d (T - 1) *
          alpha ext d (T - 1) (2 * M_PI * eps0 * dx * (1 / 10)) ≠ 0 := by
    intro d
    rw [c_denominator]
    exact ne_of_gt (sigma_alpha_pos ext hpow d (T - 1) (alpha_max_pos hdx)
      (sigma_max_pos ext hsqrt hdx))
  have hk : ∀ d : Nat, eps0 * Kappa ext d (T - 1) ≠ 0 := by
    intro d
    rw [Kappa_eq_one, mul_one]
    exact he
  intro q hq
  rw [cpml_coeff_divisors_eq, hW, hp] at hq
  simp only [List.mem_append, List.mem_cons, List.mem_singleton, List.mem_flatMap,
    b_divisors, c_divisors, sigma_divisors, Kappa_divisors, alpha_divisors,
    List.not_mem_nil, or_false] at hq
  rcases hq with (h | h) | ⟨d, -, h⟩
  · rw [h]; exact he
  · rw [h]; exact ne_of_gt (mul_pos hdx hsqrt)
  · rcases h with ((((h | h) | h) | h) | h) | (((((((h | h) | h) | h) | h) | h) | h) | h)
    all_goals first
      | (rw [h]; exact hWq)
      | (rw [h]; exact he)
      | (rw [h]; exact hk d)
      | (rw [h]; exact hden d)
      | (rcases h with (((h | h) | h) | h) | h
         all_goals first
           | (rw [h]; exact hWq)
           | (rw [h]; exact he)
           | (rw [h]; exact hk d))

/-! ## The coefficients stored by the constructors -/

namespace D2

theorem init_fdtd_2D_cpml_coeffs (ext : Extern) (ds : Nat → ℚ) (Sc wl : ℚ)
    (borders : Nat → Nat) (T k : Nat) (hT : T < UINTMAX_MOD) (hk : k < T) :
    (init_fdtd_2D_cpml ext ds Sc wl borders T).bx k =
        b ext (T - 1 - k) (T - 1) (wl / 20 * Sc / c_light)
          (2 * M_PI * eps0 * (wl / 20) * (1 / 10))
          ((8 / 10) * (4 + 1) / (wl / 20 * ext.sqrt (mu0 / eps0))) ∧
      (init_fdtd_2D_cpml ext ds Sc wl borders T).cx k =
        c ext (T - 1 - k) (T - 1) (wl / 20 * Sc / c_light)
          (2 * M_PI * eps0 * (wl / 20) * (1 / 10))
          ((8 / 10) * (4 + 1) / (wl / 20 * ext.sqrt (mu0 / eps0))) :=
  (init_fdtd_2D_cpml_coeff_frame ext T (init_fdtd_2D_cpml_alloc ds Sc wl borders T)).2 k hT hk

theorem init_fdtd_2D_cpml_coeff_bounds (ext : Extern) (ds : Nat → ℚ) (Sc wl : ℚ)
    (borders : Nat → Nat) (T k : Nat) (hT2 : 2 ≤ T) (hT : T < UINTMAX_MOD) (hk : k < T)
    (hwl : 0 < wl) (hSc : 0 < Sc)
    (hexp : ∀ x : ℚ, x < 0 → 0 < ext.exp x ∧ ext.exp x < 1)
    (hpow : ∀ x : ℚ, ext.pow x polynomial_taper_order = x ^ 4)
    (hsqrt : 0 < ext.sqrt (mu0 / eps0)) :
    (0 < (init_fdtd_2D_cpml ext ds Sc wl borders T).bx k ∧
      (init_fdtd_2D_cpml ext ds Sc wl borders T).bx k < 1) ∧
    (-1 < (init_fdtd_2D_cpml ext ds Sc wl borders T).cx k ∧
      (init_fdtd_2D_cpml ext ds Sc wl borders T).cx k ≤ 0) ∧
    (init_fdtd_2D_cpml ext ds Sc wl borders T).cx (T - 1) = 0 := by
  obtain ⟨hb, hc⟩ := init_fdtd_2D_cpml_coeffs ext ds Sc wl borders T k hT hk
  obtain ⟨-, hc0⟩ := init_fdtd_2D_cpml_coeffs ext ds Sc wl borders T (T - 1) hT (by omega)
  have hbd := coefficient_bounds ext hexp hpow (T - 1 - k) (T - 1) (time_step_pos hwl hSc)
    (alpha_max_pos (spacing_pos hwl)) (sigma_max_pos ext hsqrt (spacing_pos hwl))
  rw [hb, hc, hc0, Nat.sub_self]
  exact ⟨hbd.1, hbd.2, c_interface ext hpow _ _ _ _⟩

end D2

namespace D3

theorem init_fdtd_3D_cpml_coeffs (ext : Extern) (ds : Nat → ℚ) (Sc wl : ℚ)
    (borders : Nat → Nat) (T k : Nat) (hT : T < UINTMAX_MOD) (hk : k < T) :
    (init_fdtd_3D_cpml ext ds Sc wl borders T).bx k =
        b ext (T - 1 - k) (T - 1) (wl / 20 * Sc / c_light)
          (2 * M_PI * eps0 * (wl / 20) * (1 / 10))
          ((8 / 10) * (4 + 1) / (wl / 20 * ext.sqrt (mu0 / eps0))) ∧
      (init_fdtd_3D_cpml ext ds Sc wl borders T).cx k =
        c ext (T - 1 - k) (T - 1) (wl / 20 * Sc / c_light)
          (2 * M_PI * eps0 * (wl / 20) * (1 / 10))
          ((8 / 10) * (4 + 1) / (wl / 20 * ext.sqrt (mu0 / eps0))) :=
  (init_fdtd_3D_cpml_coeff_frame ext T (init_fdtd_3D_cpml_alloc ds Sc wl borders T)).2 k hT hk

theorem init_fdtd_3D_cpml_coeff_bounds (ext : Extern) (ds : Nat → ℚ) (Sc wl : ℚ)
    (borders : Nat → Nat) (T k : Nat) (hT2 : 2 ≤ T) (hT : T < UINTMAX_MOD) (hk : k < T)
    (hwl : 0 < wl) (hSc : 0 < Sc)
    (hexp : ∀ x : ℚ, x < 0 → 0 < ext.exp x ∧ ext.exp x < 1)
    (hpow : ∀ x : ℚ, ext.pow x polynomial_taper_order = x ^ 4)
    (hsqrt : 0 < ext.sqrt (mu0 / eps0)) :
    (0 < (init_fdtd_3D_cpml ext ds Sc wl borders T).bx k ∧
      (init_fdtd_3D_cpml ext ds Sc wl borders T).bx k < 1) ∧
    (-1 < (init_fdtd_3D_cpml ext ds Sc wl borders T).cx k ∧
      (init_fdtd_3D_cpml ext ds Sc wl borders T).cx k ≤ 0) ∧
    (init_fdtd_3D_cpml ext ds Sc wl borders T).cx (T - 1) = 0 := by
  obtain ⟨hb, hc⟩ := init_fdtd_3D_cpml_coeffs ext ds Sc wl borders T k hT hk
  obtain ⟨-, hc0⟩ := init_fdtd_3D_cpml_coeffs ext ds Sc wl borders T (T - 1) hT (by omega)
  have hbd := coefficient_bounds ext hexp hpow (T - 1 - k) (T - 1) (time_step_pos hwl hSc)
    (alpha_max_pos (spacing_pos hwl)) (sigma_max_pos ext hsqrt (spacing_pos hwl))
  rw [hb, hc, hc0, Nat.sub_self]
  exact ⟨hbd.1, hbd.2, c_interface ext hpow _ _ _ _⟩

end D3

/-! ## The rational stand-in for the C library -/

theorem rational_extern_exp (x : ℚ) (hx : x < 0) :
    0 < rational_extern.exp x ∧ rational_extern.exp x < 1 := by
  show 0 < (if x ≤ 0 then 1 / (1 - x) else 1 + x) ∧ (if x ≤ 0 then 1 / (1 - x) else 1 + x) < 1
  rw [if_pos (le_of_lt hx)]
  have h : 0 < 1 - x := by linarith
  refine ⟨by positivity, ?_⟩
  rw [div_lt_one h]
  linarith

theorem rational_extern_pow (x : ℚ) : rational_extern.pow x polynomial_taper_order = x ^ 4 := by
  show x ^ (Int.toNat ⌊(4 : ℚ)⌋) = x ^ 4
  have : ⌊(4 : ℚ)⌋ = 4 := by
    have := Int.floor_natCast (α := ℚ) 4
    exact_mod_cast this
  rw [this]
  rfl

theorem rational_extern_sqrt : 0 < rational_extern.sqrt (mu0 / eps0) :=
  div_pos mu0_pos eps0_pos

/-! ## CPML coefficients: claims -/

/-- C35: the bounds of the CPML coefficients.  Let the C library satisfy
`0 < exp x < 1` for `x < 0`, `pow x 4 = x ^ 4` and `sqrt (mu0 / eps0) > 0`.  For the
grids built by `init_fdtd_2D_cpml` and `init_fdtd_3D_cpml` with thickness
`2 <= T < 2^64`, wavelength `> 0` and `Sc > 0`, the spacing and the time step are
positive and every stored coefficient satisfies `0 < bx[k] < 1` and `-1 < cx[k] <= 0`
(`k < T`); the coefficient of the interface cell is `cx[T-1] = 0`; at every distance
`d` the denominator of `c` is `sigma + alpha > 0`; no division of the computation has
a zero divisor; and a recursion `psi_new = bx[k] * psi_old + cx[k] * x` brings two
different values of `psi_old` strictly closer (exact arithmetic). -/
theorem cpml_coefficient_bounds (ext : Extern) (ds : Nat → ℚ) (Sc wl : ℚ)
    (b2 b3 : Nat → Nat) (T k : Nat) (hT2 : 2 ≤ T) (hT : T < UINTMAX_MOD) (hk : k < T)
    (hwl : 0 < wl) (hSc : 0 < Sc)
    (hexp : ∀ x : ℚ, x < 0 → 0 < ext.exp x ∧ ext.exp x < 1)
    (hpow : ∀ x : ℚ, ext.pow x polynomial_taper_order = x ^ 4)
    (hsqrt : 0 < ext.sqrt (mu0 / eps0)) :
    ((0 < (D2.init_fdtd_2D_cpml ext ds Sc wl b2 T).dx ∧
        0 < (D2.init_fdtd_2D_cpml ext ds Sc wl b2 T).dt) ∧
      (0 < (D2.init_fdtd_2D_cpml ext ds Sc wl b2 T).bx k ∧
        (D2.init_fdtd_2D_cpml ext ds Sc wl b2 T).bx k < 1) ∧
      (-1 < (D2.init_fdtd_2D_cpml ext ds Sc wl b2 T).cx k ∧
        (D2.init_fdtd_2D_cpml ext ds Sc wl b2 T).cx k ≤ 0) ∧
      (D2.init_fdtd_2D_cpml ext ds Sc wl b2 T).cx (T - 1) = 0 ∧
      ∀ p q x : ℚ, p ≠ q →
        |(D2.init_fdtd_2D_cpml ext ds Sc wl b2 T).bx k * p +
            (D2.init_fdtd_2D_cpml ext ds Sc wl b2 T).cx k * x -
          ((D2.init_fdtd_2D_cpml ext ds Sc wl b2 T).bx k * q +
            (D2.init_fdtd_2D_cpml ext ds Sc wl b2 T).cx k * x)| < |p - q|) ∧
    ((0 < (D3.init_fdtd_3D_cpml ext ds Sc wl b3 T).dx ∧
        0 < (D3.init_fdtd_3D_cpml ext ds Sc wl b3 T).dt) ∧
      (0 < (D3.init_fdtd_3D_cpml ext ds Sc wl b3 T).bx k ∧
        (D3.init_fdtd_3D_cpml ext ds Sc wl b3 T).bx k < 1) ∧
      (-1 < (D3.init_fdtd_3D_cpml ext ds Sc wl b3 T).cx k ∧
        (D3.init_fdtd_3D_cpml ext ds Sc wl b3 T).cx k ≤ 0) ∧
      (D3.init_fdtd_3D_cpml ext ds Sc wl b3 T).cx (T - 1) = 0 ∧
      ∀ p q x : ℚ, p ≠ q →
        |(D3.init_fdtd_3D_cpml ext ds Sc wl b3 T).bx k * p +
            (D3.init_fdtd_3D_cpml ext ds Sc wl b3 T).cx k * x -
          ((D3.init_fdtd_3D_cpml ext ds Sc wl b3 T).bx k * q +
            (D3.init_fdtd_3D_cpml ext ds Sc wl b3 T).cx k * x)| < |p - q|) ∧
    (∀ d : Nat,
      sigma ext d (T - 1) ((8 / 10) * (4 + 1) / (wl / 20 * ext.sqrt (mu0 / eps0))) *
            Kappa ext d (T - 1) +
          Kappa ext d (T - 1) * Kappa ext d (T - 1) *
            alpha ext d (T - 1) (2 * M_PI * eps0 * (wl / 20) * (1 / 10)) =
        sigma ext d (T - 1) ((8 / 10) * (4 + 1) / (wl / 20 * ext.sqrt (mu0 / eps0))) +
          alpha ext d (T - 1) (2 * M_PI * eps0 * (wl / 20) * (1 / 10)) ∧
      0 < sigma ext d (T - 1) ((8 / 10) * (4 + 1) / (wl / 20 * ext.sqrt (mu0 / eps0))) +
          alpha ext d (T - 1) (2 * M_PI * eps0 * (wl / 20) * (1 / 10))) ∧
    (∀ q ∈ cpml_coeff_divisors ext T (wl / 20), q ≠ 0) := by
  have h2 := D2.init_fdtd_2D_cpml_fields ext ds Sc wl b2 T
  simp only [Prod.mk.injEq] at h2
  obtain ⟨h2x, -, h2t, -⟩ := h2
  have h3 := D3.init_fdtd_3D_cpml_fields ext ds Sc wl b3 T
  simp only [Prod.mk.injEq] at h3
  obtain ⟨h3x, -, -, h3t, -⟩ := h3
  obtain ⟨hb2, hc2, hi2⟩ := D2.init_fdtd_2D_cpml_coeff_bounds ext ds Sc wl b2 T k hT2 hT hk
    hwl hSc hexp hpow hsqrt
  obtain ⟨hb3, hc3, hi3⟩ := D3.init_fdtd_3D_cpml_coeff_bounds ext ds Sc wl b3 T k hT2 hT hk
    hwl hSc hexp hpow hsqrt
  refine ⟨⟨⟨?_, ?_⟩, hb2, hc2, hi2, fun p q x hpq => psi_contraction hb2.1 hb2.2 p q x hpq⟩,
    ⟨⟨?_, ?_⟩, hb3, hc3, hi3, fun p q x hpq => psi_contraction hb3.1 hb3.2 p q x hpq⟩,
    fun d => ⟨c_denominator ext d (T - 1) _ _,
      sigma_alpha_pos ext hpow d (T - 1) (alpha_max_pos (spacing_pos hwl))
        (sigma_max_pos ext hsqrt (spacing_pos hwl))⟩,
    cpml_coeff_divisors_ne_zero ext hpow hsqrt T hT2 hT (spacing_pos hwl)⟩
  · rw [h2x]; exact spacing_pos hwl
  · rw [h2t]; exact time_step_pos hwl hSc
  · rw [h3x]; exact spacing_pos hwl
  · rw [h3t]; exact time_step_pos hwl hSc

/-- The coefficient bounds on the grids built with thickness 2 for the wavelength 20
and `Sc = 1/2`, with the rational stand-in for the C library: the coefficient at
index 0. -/
theorem cpml_coefficient_bounds_witness :
    ((2 ≤ 2 ∧ 2 < UINTMAX_MOD ∧ 0 < 2) ∧ (0 : ℚ) < 20 ∧ (0 : ℚ) < 1 / 2 ∧
      (∀ x : ℚ, x < 0 → 0 < rational_extern.exp x ∧ rational_extern.exp x < 1) ∧
      (∀ x : ℚ, rational_extern.pow x polynomial_taper_order = x ^ 4) ∧
      0 < rational_extern.sqrt (mu0 / eps0)) ∧
    (0 < (D2.init_fdtd_2D_cpml rational_extern (fun _ => 4) (1 / 2) 20 (fun _ => border_cpml)
        2).bx 0 ∧
      (D2.init_fdtd_2D_cpml rational_extern (fun _ => 4) (1 / 2) 20 (fun _ => border_cpml)
        2).bx 0 < 1) ∧
    (-1 < (D3.init_fdtd_3D_cpml rational_extern (fun _ => 4) (1 / 2) 20 (fun _ => border_cpml)
        2).cx 0 ∧
      (D3.init_fdtd_3D_cpml rational_extern (fun _ => 4) (1 / 2) 20 (fun _ => border_cpml)
        2).cx 0 ≤ 0) ∧
    (D2.init_fdtd_2D_cpml rational_extern (fun _ => 4) (1 / 2) 20 (fun _ => border_cpml)
      2).cx (2 - 1) = 0 :=
  have p1 : (2 : Nat) < UINTMAX_MOD := by decide
  have p2 : (0 : ℚ) < 20 := by norm_num
  have p3 : (0 : ℚ) < 1 / 2 := by norm_num
  have t := cpml_coefficient_bounds rational_extern (fun _ => 4) (1 / 2) 20
    (fun _ => border_cpml) (fun _ => border_cpml) 2 0 (le_refl 2) p1 (by decide) p2 p3
    rational_extern_exp rational_extern_pow rational_extern_sqrt
  ⟨⟨⟨le_refl 2, p1, by decide⟩, p2, p3, rational_extern_exp, rational_extern_pow,
    rational_extern_sqrt⟩, t.1.2.1, t.2.1.2.2.1, t.1.2.2.2.1⟩

/-- C36: the divisions of the coefficient computation.  With `cpml_thickness = 1`
the constructors pass the width `cpml_thickness - 1 = 0` to `b` and `c`, so `Kappa`,
`sigma` and `alpha` divide the distance 0 by 0: among the divisors of the computation
there is 0, for every C library and every spacing, and the coefficient that the
constructors store at index 0 is `b(0, 0, ...)`.  With a thickness from 2 on, a
positive spacing, `pow x 4 = x ^ 4` and `sqrt (mu0 / eps0) > 0`, no divisor is 0. -/
theorem cpml_thickness_one_divisor :
    (usub 1 1 = 0 ∧ Kappa_divisors 0 (usub 1 1) = [0] ∧ sigma_divisors 0 (usub 1 1) = [0] ∧
      alpha_divisors 0 (usub 1 1) = [0]) ∧
    (∀ (ext : Extern) (dx : ℚ), (0 : ℚ) ∈ cpml_coeff_divisors ext 1 dx) ∧
    (∀ (ext : Extern) (ds : Nat → ℚ) (Sc wl : ℚ) (borders : Nat → Nat),
      (D2.init_fdtd_2D_cpml ext ds Sc wl borders 1).bx 0 =
          b ext 0 0 (wl / 20 * Sc / c_light) (2 * M_PI * eps0 * (wl / 20) * (1 / 10))
            ((8 / 10) * (4 + 1) / (wl / 20 * ext.sqrt (mu0 / eps0))) ∧
        (D3.init_fdtd_3D_cpml ext ds Sc wl borders 1).cx 0 =
          c ext 0 0 (wl / 20 * Sc / c_light) (2 * M_PI * eps0 * (wl / 20) * (1 / 10))
            ((8 / 10) * (4 + 1) / (wl / 20 * ext.sqrt (mu0 / eps0)))) ∧
    (∀ (ext : Extern) (T : Nat) (dx : ℚ), 2 ≤ T → T < UINTMAX_MOD → 0 < dx →
      (∀ x : ℚ, ext.pow x polynomial_taper_order = x ^ 4) → 0 < ext.sqrt (mu0 / eps0) →
        ∀ q ∈ cpml_coeff_divisors ext T dx, q ≠ 0) := by
  have h : usub 1 1 = 0 := usub_eq_sub (le_refl 1) (by unfold UINTMAX_MOD; norm_num)
  have h1 : (1 : Nat) < UINTMAX_MOD := by decide
  refine ⟨⟨h, ?_, ?_, ?_⟩, cpml_coeff_divisors_one, ?_, ?_⟩
  · rw [h]; simp [Kappa_divisors]
  · rw [h]; simp [sigma_divisors]
  · rw [h]; simp [alpha_divisors]
  · intro ext ds Sc wl borders
    exact ⟨(D2.init_fdtd_2D_cpml_coeffs ext ds Sc wl borders 1 0 h1 (by decide)).1,
      (D3.init_fdtd_3D_cpml_coeffs ext ds Sc wl borders 1 0 h1 (by decide)).2⟩
  · intro ext T dx hT2 hT hdx hpow hsqrt
    exact cpml_coeff_divisors_ne_zero ext hpow hsqrt T hT2 hT hdx

/-! ## Index expressions of the magnetic update -/

theorem forLoop2_append_flatMap {β : Type} (G : Nat × Nat → List β) (lo1 hi1 lo2 hi2 : Nat)
    (init : List β) :
    forLoop lo1 hi1 (fun i out => forLoop lo2 hi2 (fun j out => out ++ G (i, j)) out) init =
      init ++ (keys2 lo1 hi1 lo2 hi2).flatMap G := by
  rw [forLoop2_eq_foldl lo1 hi1 lo2 hi2 (fun k out => out ++ G k) init]
  exact foldl_append_flatMap G _ init

theorem forLoop3_append_flatMap {β : Type} (G : Nat × Nat × Nat → List β)
    (lo1 hi1 lo2 hi2 lo3 hi3 : Nat) (init : List β) :
    forLoop lo1 hi1 (fun i out => forLoop lo2 hi2 (fun j out =>
      forLoop lo3 hi3 (fun k out => out ++ G (i, j, k)) out) out) init =
      init ++ (keys3 lo1 hi1 lo2 hi2 lo3 hi3).flatMap G := by
  rw [forLoop3_eq_foldl lo1 hi1 lo2 hi2 lo3 hi3 (fun k out => out ++ G k) init]
  exact foldl_append_flatMap G _ init

theorem usub_zero_one : usub 0 1 = UINTMAX_MOD - 1 := by
  unfold usub UINTMAX_MOD
  omega

theorem usub_pos_of_ne_one {n : Nat} (h : n ≠ 1) (hn : n < UINTMAX_MOD) : 0 < usub n 1 := by
  unfold usub UINTMAX_MOD at *
  omega

namespace D1

theorem mem_update_magnetic_field_accesses (g : fdtd1D) (a : array_access array_1D Nat) :
    a ∈ update_magnetic_field_accesses g ↔
      ∃ i, i < usub g.sizeX 1 ∧
        a ∈ [rd array_1D.hy i, rd array_1D.ez (i + 1), rd array_1D.ez i,
          rd array_1D.permeability_inv i, wr array_1D.hy i] := by
  unfold update_magnetic_field_accesses
  rw [forLoop_append_flatMap, List.nil_append, List.mem_flatMap]
  constructor
  · rintro ⟨i, hi, ha⟩
    exact ⟨i, by rw [List.mem_range'_1] at hi; omega, ha⟩
  · rintro ⟨i, hi, ha⟩
    exact ⟨i, by rw [List.mem_range'_1]; omega, ha⟩

/-- On a grid with at least one cell every index of the magnetic update is in range. -/
theorem update_magnetic_field_in_range_1D (g : fdtd1D) (h1 : 1 ≤ g.sizeX)
    (hX : g.sizeX < UINTMAX_MOD) :
    ∀ a ∈ update_magnetic_field_accesses g, in_range g a := by
  intro a ha
  rw [mem_update_magnetic_field_accesses] at ha
  obtain ⟨i, hi, ha⟩ := ha
  rw [usub_eq_sub h1 hX] at hi
  simp only [List.mem_cons, List.mem_singleton, List.not_mem_nil, or_false] at ha
  unfold in_range
  rcases ha with h | h | h | h | h <;> subst h <;> simp only [rd, wr] <;> omega

/-- On a grid with no cell the loop bound `sizeX - 1` wraps to `2^64 - 1` and the
magnetic update indexes every `i < 2^64 - 1`. -/
theorem update_magnetic_field_empty_1D (g : fdtd1D) (h0 : g.sizeX = 0) (i : Nat)
    (hi : i < UINTMAX_MOD - 1) :
    (wr array_1D.hy i ∈ update_magnetic_field_accesses g ∧
      rd array_1D.ez (i + 1) ∈ update_magnetic_field_accesses g) ∧
    ¬ in_range g (wr array_1D.hy i) ∧ ¬ in_range g (rd array_1D.ez (i + 1)) := by
  refine ⟨⟨?_, ?_⟩, ?_, ?_⟩
  · rw [mem_update_magnetic_field_accesses]
    exact ⟨i, by rw [h0, usub_zero_one]; exact hi, by simp⟩
  · rw [mem_update_magnetic_field_accesses]
    exact ⟨i, by rw [h0, usub_zero_one]; exact hi, by simp⟩
  · unfold in_range
    rw [h0]
    exact Nat.not_lt_zero _
  · unfold in_range
    rw [h0]
    exact Nat.not_lt_zero _

theorem init_fdtd_1D_size_zero (Sc wl : ℚ) (borders : Nat → Nat) :
    (init_fdtd_1D 0 Sc wl borders).sizeX = 0 := by
  show to_uintmax ⌈(0 : ℚ) / (wl / 20)⌉ = 0
  rw [zero_div, Int.ceil_zero]
  rfl

end D1

namespace D3

theorem mem_update_magnetic_field_hx_accesses (g : fdtd3D)
    (a : array_access array_3D (Nat × Nat × Nat)) :
    a ∈ update_magnetic_field_hx_accesses g ↔
      ∃ x, inBox3 0 (usub g.sizeX 1) 0 (usub g.sizeY 1) 0 (usub g.sizeZ 1) x ∧
        a ∈ [rd array_3D.hx (x.1, x.2.1, x.2.2), rd array_3D.ey (x.1, x.2.1, x.2.2 + 1),
          rd array_3D.ey (x.1, x.2.1, x.2.2), rd array_3D.ez (x.1, x.2.1 + 1, x.2.2),
          rd array_3D.ez (x.1, x.2.1, x.2.2), rd array_3D.permeability_inv (x.1, x.2.1, x.2.2),
          wr array_3D.hx (x.1, x.2.1, x.2.2)] := by
  unfold update_magnetic_field_hx_accesses
  rw [forLoop3_append_flatMap (fun x => [rd array_3D.hx (x.1, x.2.1, x.2.2),
    rd array_3D.ey (x.1, x.2.1, x.2.2 + 1), rd array_3D.ey (x.1, x.2.1, x.2.2),
    rd array_3D.ez (x.1, x.2.1 + 1, x.2.2), rd array_3D.ez (x.1, x.2.1, x.2.2),
    rd array_3D.permeability_inv (x.1, x.2.1, x.2.2), wr array_3D.hx (x.1, x.2.1, x.2.2)]),
    List.nil_append, List.mem_flatMap]
  constructor
  · rintro ⟨x, hx, ha⟩
    exact ⟨x, mem_keys3.mp hx, ha⟩
  · rintro ⟨x, hx, ha⟩
    exact ⟨x, mem_keys3.mpr hx, ha⟩

theorem mem_update_magnetic_field_hy_accesses (g : fdtd3D)
    (a : array_access array_3D (Nat × Nat × Nat)) :
    a ∈ update_magnetic_field_hy_accesses g ↔
      ∃ x, inBox3 0 (usub g.sizeX 1) 0 (usub g.sizeY 1) 0 (usub g.sizeZ 1) x ∧
        a ∈ [rd array_3D.hy (x.1, x.2.1, x.2.2), rd array_3D.ez (x.1 + 1, x.2.1, x.2.2),
          rd array_3D.ez (x.1, x.2.1, x.2.2), rd array_3D.ex (x.1, x.2.1, x.2.2 + 1),
          rd array_3D.ex (x.1, x.2.1, x.2.2), rd array_3D.permeability_inv (x.1, x.2.1, x.2.2),
          wr array_3D.hy (x.1, x.2.1, x.2.2)] := by
  unfold update_magnetic_field_hy_accesses
  rw [forLoop3_append_flatMap (fun x => [rd array_3D.hy (x.1, x.2.1, x.2.2),
    rd array_3D.ez (x.1 + 1, x.2.1, x.2.2), rd array_3D.ez (x.1, x.2.1, x.2.2),
    rd array_3D.ex (x.1, x.2.1, x.2.2 + 1), rd array_3D.ex (x.1, x.2.1, x.2.2),
    rd array_3D.permeability_inv (x.1, x.2.1, x.2.2), wr array_3D.hy (x.1, x.2.1, x.2.2)]),
    List.nil_append, List.mem_flatMap]
  constructor
  · rintro ⟨x, hx, ha⟩
    exact ⟨x, mem_keys3.mp hx, ha⟩
  · rintro ⟨x, hx, ha⟩
    exact ⟨x, mem_keys3.mpr hx, ha⟩

theorem mem_update_magnetic_field_hz_accesses (g : fdtd3D)
    (a : array_access array_3D (Nat × Nat × Nat)) :
    a ∈ update_magnetic_field_hz_accesses g ↔
      ∃ x, inBox3 0 (usub g.sizeX 1) 0 (usub g.sizeY 1) 0 (usub g.sizeZ 1) x ∧
        a ∈ [rd array_3D.hz (x.1, x.2.1, x.2.2), rd array_3D.ex (x.1, x.2.1 + 1, x.2.2),
          rd array_3D.ex (x.1, x.2.1, x.2.2), rd array_3D.ey (x.1 + 1, x.2.1, x.2.2),
          rd array_3D.ey (x.1, x.2.1, x.2.2), rd array_3D.permeability_inv (x.1, x.2.1, x.2.2),
          wr array_3D.hz (x.1, x.2.1, x.2.2)] := by
  unfold update_magnetic_field_hz_accesses
  rw [forLoop3_append_flatMap (fun x => [rd array_3D.hz (x.1, x.2.1, x.2.2),
    rd array_3D.ex (x.1, x.2.1 + 1, x.2.2), rd array_3D.ex (x.1, x.2.1, x.2.2),
    rd array_3D.ey (x.1 + 1, x.2.1, x.2.2), rd array_3D.ey (x.1, x.2.1, x.2.2),
    rd array_3D.permeability_inv (x.1, x.2.1, x.2.2), wr array_3D.hz (x.1, x.2.1, x.2.2)]),
    List.nil_append, List.mem_flatMap]
  constructor
  · rintro ⟨x, hx, ha⟩
    exact ⟨x, mem_keys3.mp hx, ha⟩
  · rintro ⟨x, hx, ha⟩
    exact ⟨x, mem_keys3.mpr hx, ha⟩

/-- On a grid with at least one cell on every axis every index of the magnetic update
is in range. -/
theorem update_magnetic_field_in_range_3D (g : fdtd3D) (h1 : 1 ≤ g.sizeX) (h2 : 1 ≤ g.sizeY)
    (h3 : 1 ≤ g.sizeZ) (hX : g.sizeX < UINTMAX_MOD) (hY : g.sizeY < UINTMAX_MOD)
    (hZ : g.sizeZ < UINTMAX_MOD) :
    ∀ a ∈ update_magnetic_field_accesses g, in_range g a := by
  intro a ha
  unfold update_magnetic_field_accesses at ha
  rw [List.mem_append, List.mem_append, mem_update_magnetic_field_hx_accesses,
    mem_update_magnetic_field_hy_accesses, mem_update_magnetic_field_hz_accesses] at ha
  rw [usub_eq_sub h1 hX, usub_eq_sub h2 hY, usub_eq_sub h3 hZ] at ha
  unfold in_range
  rcases ha with (⟨x, hx, ha⟩ | ⟨x, hx, ha⟩) | ⟨x, hx, ha⟩
  all_goals
    unfold inBox3 at hx
    simp only [List.mem_cons, List.mem_singleton, List.not_mem_nil, or_false] at ha
    rcases ha with h | h | h | h | h | h | h <;> subst h <;> simp only [rd, wr] <;> omega

/-- On a grid with no cell along `x` (and with the other two counts different from 1)
the loop bound `sizeX - 1` wraps and the magnetic update indexes the cell `(0, 0, 0)`. -/
theorem update_magnetic_field_empty_3D (g : fdtd3D) (h0 : g.sizeX = 0) (hY1 : g.sizeY ≠ 1)
    (hZ1 : g.sizeZ ≠ 1) (hY : g.sizeY < UINTMAX_MOD) (hZ : g.sizeZ < UINTMAX_MOD) :
    wr array_3D.hx (0, 0, 0) ∈ update_magnetic_field_accesses g ∧
      rd array_3D.ez (1, 0, 0) ∈ update_magnetic_field_accesses g ∧
      ¬ in_range g (wr array_3D.hx (0, 0, 0)) ∧ ¬ in_range g (rd array_3D.ez (1, 0, 0)) := by
  have hb : inBox3 0 (usub g.sizeX 1) 0 (usub g.sizeY 1) 0 (usub g.sizeZ 1) (0, 0, 0) := by
    unfold inBox3
    have := usub_pos_of_ne_one hY1 hY
    have := usub_pos_of_ne_one hZ1 hZ
    rw [h0, usub_zero_one]
    unfold UINTMAX_MOD
    simp only
    omega
  refine ⟨?_, ?_, ?_, ?_⟩
  · unfold update_magnetic_field_accesses
    rw [List.mem_append, List.mem_append, mem_update_magnetic_field_hx_accesses]
    exact Or.inl (Or.inl ⟨(0, 0, 0), hb, by simp⟩)
  · unfold update_magnetic_field_accesses
    rw [List.mem_append, List.mem_append, mem_update_magnetic_field_hy_accesses]
    exact Or.inl (Or.inr ⟨(0, 0, 0), hb, by simp⟩)
  · unfold in_range
    rw [h0]
    simp [wr]
  · unfold in_range
    rw [h0]
    simp [rd]

theorem init_fdtd_3D_cpml_size_zero (ext : Extern) (Sc wl : ℚ) (borders : Nat → Nat)
    (T : Nat) :
    (init_fdtd_3D_cpml ext (fun _ => 0) Sc wl borders T).sizeX = 0 ∧
      (init_fdtd_3D_cpml ext (fun _ => 0) Sc wl borders T).sizeY = 0 ∧
      (init_fdtd_3D_cpml ext (fun _ => 0) Sc wl borders T).sizeZ = 0 := by
  have h := init_fdtd_3D_cpml_fields ext (fun _ => 0) Sc wl borders T
  simp only [Prod.mk.injEq] at h
  obtain ⟨-, -, -, -, -, -, -, -, -, -, -, -, -, -, -, hx, hy, hz, -⟩ := h
  have e : to_uintmax ⌈(0 : ℚ) / (wl / 20)⌉ = 0 := by
    rw [zero_div, Int.ceil_zero]
    rfl
  rw [hx, hy, hz]
  exact ⟨e, e, e⟩

end D3

/-! ## Index expressions of the 2D CPML blocks -/

theorem usub_usub {S c i : Nat} (h : c + i ≤ S) (hS : S < UINTMAX_MOD) :
    usub (usub S c) i = S - c - i := by
  rw [usub_eq_sub (by omega) hS, usub_eq_sub (by omega) (by omega)]

namespace D2

theorem mem_corrected_cells (field : array_2D) (l : List (array_access array_2D (Nat × Nat)))
    (c : Nat × Nat) :
    c ∈ corrected_cells field l ↔ ∃ a ∈ l, a.write = true ∧ a.array = field ∧ a.index = c := by
  unfold corrected_cells
  simp only [List.mem_map, List.mem_filter, Bool.and_eq_true, decide_eq_true_eq]
  constructor
  · rintro ⟨a, ⟨ha, hw, hf⟩, hc⟩
    exact ⟨a, ha, hw, hf, hc⟩
  · rintro ⟨a, ha, hw, hf, hc⟩
    exact ⟨a, ⟨ha, hw, hf⟩, hc⟩

theorem mem_update_electric_cpml_south_accesses (g : fdtd2D) (a : array_access array_2D (Nat × Nat)) :
    a ∈ update_electric_cpml_south_accesses g ↔
      flagSet (g.border_condition border_south) border_cpml = true ∧
      ∃ x, inBox2 0 g.cpml_thickness 0 g.sizeY x ∧
        a ∈
          [rd array_2D.bx (x.1, 0), rd array_2D.psi_ez_south (x.1, x.2), rd array_2D.cx (x.1, 0),
          rd array_2D.hy (1 + x.1, x.2), rd array_2D.hy (x.1, x.2),
          wr array_2D.psi_ez_south (x.1, x.2), rd array_2D.ez (1 + x.1, x.2),
          rd array_2D.permittivity_inv (1 + x.1, x.2), rd array_2D.psi_ez_south (x.1, x.2),
          wr array_2D.ez (1 + x.1, x.2)] := by
  unfold update_electric_cpml_south_accesses
  by_cases hf : flagSet (g.border_condition border_south) border_cpml = true
  · rw [if_pos hf, forLoop2_append_flatMap (fun x =>
      [rd array_2D.bx (x.1, 0), rd array_2D.psi_ez_south (x.1, x.2), rd array_2D.cx (x.1, 0),
      rd array_2D.hy (1 + x.1, x.2), rd array_2D.hy (x.1, x.2),
      wr array_2D.psi_ez_south (x.1, x.2), rd array_2D.ez (1 + x.1, x.2),
      rd array_2D.permittivity_inv (1 + x.1, x.2), rd array_2D.psi_ez_south (x.1, x.2),
      wr array_2D.ez (1 + x.1, x.2)]),
      List.nil_append, List.mem_flatMap]
    constructor
    · rintro ⟨x, hx, ha⟩
      exact ⟨hf, x, mem_keys2.mp hx, ha⟩
    · rintro ⟨-, x, hx, ha⟩
      exact ⟨x, mem_keys2.mpr hx, ha⟩
  · rw [if_neg hf]
    constructor
    · intro h
      exact absurd h (List.not_mem_nil _)
    · rintro ⟨h, -⟩
      exact absurd h hf

theorem update_electric_cpml_south_in_range (g : fdtd2D)
    (hX : 2 * g.cpml_thickness + 1 ≤ g.sizeX) (hY : 2 * g.cpml_thickness + 1 ≤ g.sizeY)
    (hXm : g.sizeX < UINTMAX_MOD) (hYm : g.sizeY < UINTMAX_MOD) :
    ∀ a ∈ update_electric_cpml_south_accesses g, in_range g a := by
  intro a ha
  rw [mem_update_electric_cpml_south_accesses] at ha
  obtain ⟨-, x, hx, ha⟩ := ha
  unfold inBox2 at hx
  have e1 : usub (usub g.sizeX 1) x.1 = g.sizeX - 1 - x.1 ∨ g.cpml_thickness ≤ x.1 := by
    by_cases h : x.1 < g.cpml_thickness
    · exact Or.inl (usub_usub (by omega) hXm)
    · exact Or.inr (by omega)
  have e2 : usub (usub g.sizeX 2) x.1 = g.sizeX - 2 - x.1 ∨ g.cpml_thickness ≤ x.1 := by
    by_cases h : x.1 < g.cpml_thickness
    · exact Or.inl (usub_usub (by omega) hXm)
    · exact Or.inr (by omega)
  have e3 : usub (usub g.sizeY 1) x.2 = g.sizeY - 1 - x.2 ∨ g.cpml_thickness ≤ x.2 := by
    by_cases h : x.2 < g.cpml_thickness
    · exact Or.inl (usub_usub (by omega) hYm)
    · exact Or.inr (by omega)
  have e4 : usub (usub g.sizeY 2) x.2 = g.sizeY - 2 - x.2 ∨ g.cpml_thickness ≤ x.2 := by
    by_cases h : x.2 < g.cpml_thickness
    · exact Or.inl (usub_usub (by omega) hYm)
    · exact Or.inr (by omega)
  simp only [List.mem_cons, List.mem_singleton, List.not_mem_nil, or_false] at ha
  unfold in_range
  rcases ha with h | h | h | h | h | h | h | h | h | h <;> subst h <;>
    simp only [rd, wr, extent] <;> omega

theorem mem_update_electric_cpml_north_accesses (g : fdtd2D) (a : array_access array_2D (Nat × Nat)) :
    a ∈ update_electric_cpml_north_accesses g ↔
      flagSet (g.border_condition border_north) border_cpml = true ∧
      ∃ x, inBox2 0 g.cpml_thickness 0 g.sizeY x ∧
        a ∈
          [rd array_2D.bx (x.1, 0), rd array_2D.psi_ez_north (x.1, x.2), rd array_2D.cx (x.1, 0),
          rd array_2D.hy (usub (usub g.sizeX 1) x.1, x.2),
          rd array_2D.hy (usub (usub g.sizeX 2) x.1, x.2), wr array_2D.psi_ez_north (x.1, x.2),
          rd array_2D.ez (usub (usub g.sizeX 1) x.1, x.2),
          rd array_2D.permittivity_inv (usub (usub g.sizeX 1) x.1, x.2),
          rd array_2D.psi_ez_north (x.1, x.2), wr array_2D.ez (usub (usub g.sizeX 1) x.1, x.2)] := by
  unfold update_electric_cpml_north_accesses
  by_cases hf : flagSet (g.border_condition border_north) border_cpml = true
  · rw [if_pos hf, forLoop2_append_flatMap (fun x =>
      [rd array_2D.bx (x.1, 0), rd array_2D.psi_ez_north (x.1, x.2), rd array_2D.cx (x.1, 0),
      rd array_2D.hy (usub (usub g.sizeX 1) x.1, x.2),
      rd array_2D.hy (usub (usub g.sizeX 2) x.1, x.2), wr array_2D.psi_ez_north (x.1, x.2),
      rd array_2D.ez (usub (usub g.sizeX 1) x.1, x.2),
      rd array_2D.permittivity_inv (usub (usub g.sizeX 1) x.1, x.2),
      rd array_2D.psi_ez_north (x.1, x.2), wr array_2D.ez (usub (usub g.sizeX 1) x.1, x.2)]),
      List.nil_append, List.mem_flatMap]
    constructor
    · rintro ⟨x, hx, ha⟩
      exact ⟨hf, x, mem_keys2.mp hx, ha⟩
    · rintro ⟨-, x, hx, ha⟩
      exact ⟨x, mem_keys2.mpr hx, ha⟩
  · rw [if_neg hf]
    constructor
    · intro h
      exact absurd h (List.not_mem_nil _)
    · rintro ⟨h, -⟩
      exact absurd h hf

theorem update_electric_cpml_north_in_range (g : fdtd2D)
    (hX : 2 * g.cpml_thickness + 1 ≤ g.sizeX) (hY : 2 * g.cpml_thickness + 1 ≤ g.sizeY)
    (hXm : g.sizeX < UINTMAX_MOD) (hYm : g.sizeY < UINTMAX_MOD) :
    ∀ a ∈ update_electric_cpml_north_accesses g, in_range g a := by
  intro a ha
  rw [mem_update_electric_cpml_north_accesses] at ha
  obtain ⟨-, x, hx, ha⟩ := ha
  unfold inBox2 at hx
  have e1 : usub (usub g.sizeX 1) x.1 = g.sizeX - 1 - x.1 ∨ g.cpml_thickness ≤ x.1 := by
    by_cases h : x.1 < g.cpml_thickness
    · exact Or.inl (usub_usub (by omega) hXm)
    · exact Or.inr (by omega)
  have e2 : usub (usub g.sizeX 2) x.1 = g.sizeX - 2 - x.1 ∨ g.cpml_thickness ≤ x.1 := by
    by_cases h : x.1 < g.cpml_thickness
    · exact Or.inl (usub_usub (by omega) hXm)
    · exact Or.inr (by omega)
  have e3 : usub (usub g.sizeY 1) x.2 = g.sizeY - 1 - x.2 ∨ g.cpml_thickness ≤ x.2 := by
    by_cases h : x.2 < g.cpml_thickness
    · exact Or.inl (usub_usub (by omega) hYm)
    · exact Or.inr (by omega)
  have e4 : usub (usub g.sizeY 2) x.2 = g.sizeY - 2 - x.2 ∨ g.cpml_thickness ≤ x.2 := by
    by_cases h : x.2 < g.cpml_thickness
    · exact Or.inl (usub_usub (by omega) hYm)
    · exact Or.inr (by omega)
  simp only [List.mem_cons, List.mem_singleton, List.not_mem_nil, or_false] at ha
  unfold in_range
  rcases ha with h | h | h | h | h | h | h | h | h | h <;> subst h <;>
    simp only [rd, wr, extent] <;> omega

theorem mem_update_electric_cpml_west_accesses (g : fdtd2D) (a : array_access array_2D (Nat × Nat)) :
    a ∈ update_electric_cpml_west_accesses g ↔
      flagSet (g.border_condition border_west) border_cpml = true ∧
      ∃ x, inBox2 0 g.sizeX 0 g.cpml_thickness x ∧
        a ∈
          [rd array_2D.bx (x.2, 0), rd array_2D.psi_ez_west (x.1, x.2), rd array_2D.cx (x.2, 0),
          rd array_2D.hx (x.1, 1 + x.2), rd array_2D.hx (x.1, x.2),
          wr array_2D.psi_ez_west (x.1, x.2), rd array_2D.ez (x.1, 1 + x.2),
          rd array_2D.permittivity_inv (x.1, 1 + x.2), rd array_2D.psi_ez_west (x.1, x.2),
          wr array_2D.ez (x.1, 1 + x.2)] := by
  unfold update_electric_cpml_west_accesses
  by_cases hf : flagSet (g.border_condition border_west) border_cpml = true
  · rw [if_pos hf, forLoop2_append_flatMap (fun x =>
      [rd array_2D.bx (x.2, 0), rd array_2D.psi_ez_west (x.1, x.2), rd array_2D.cx (x.2, 0),
      rd array_2D.hx (x.1, 1 + x.2), rd array_2D.hx (x.1, x.2), wr array_2D.psi_ez_west (x.1, x.2),
      rd array_2D.ez (x.1, 1 + x.2), rd array_2D.permittivity_inv (x.1, 1 + x.2),
      rd array_2D.psi_ez_west (x.1, x.2), wr array_2D.ez (x.1, 1 + x.2)]),
      List.nil_append, List.mem_flatMap]
    constructor
    · rintro ⟨x, hx, ha⟩
      exact ⟨hf, x, mem_keys2.mp hx, ha⟩
    · rintro ⟨-, x, hx, ha⟩
      exact ⟨x, mem_keys2.mpr hx, ha⟩
  · rw [if_neg hf]
    constructor
    · intro h
      exact absurd h (List.not_mem_nil _)
    · rintro ⟨h, -⟩
      exact absurd h hf

theorem update_electric_cpml_west_in_range (g : fdtd2D)
    (hX : 2 * g.cpml_thickness + 1 ≤ g.sizeX) (hY : 2 * g.cpml_thickness + 1 ≤ g.sizeY)
    (hXm : g.sizeX < UINTMAX_MOD) (hYm : g.sizeY < UINTMAX_MOD) :
    ∀ a ∈ update_electric_cpml_west_accesses g, in_range g a := by
  intro a ha
  rw [mem_update_electric_cpml_west_accesses] at ha
  obtain ⟨-, x, hx, ha⟩ := ha
  unfold inBox2 at hx
  have e1 : usub (usub g.sizeX 1) x.1 = g.sizeX - 1 - x.1 ∨ g.cpml_thickness ≤ x.1 := by
    by_cases h : x.1 < g.cpml_thickness
    · exact Or.inl (usub_usub (by omega) hXm)
    · exact Or.inr (by omega)
  have e2 : usub (usub g.sizeX 2) x.1 = g.sizeX - 2 - x.1 ∨ g.cpml_thickness ≤ x.1 := by
    by_cases h : x.1 < g.cpml_thickness
    · exact Or.inl (usub_usub (by omega) hXm)
    · exact Or.inr (by omega)
  have e3 : usub (usub g.sizeY 1) x.2 = g.sizeY - 1 - x.2 ∨ g.cpml_thickness ≤ x.2 := by
    by_cases h : x.2 < g.cpml_thickness
    · exact Or.inl (usub_usub (by omega) hYm)
    · exact Or.inr (by omega)
  have e4 : usub (usub g.sizeY 2) x.2 = g.sizeY - 2 - x.2 ∨ g.cpml_thickness ≤ x.2 := by
    by_cases h : x.2 < g.cpml_thickness
    · exact Or.inl (usub_usub (by omega) hYm)
    · exact Or.inr (by omega)
  simp only [List.mem_cons, List.mem_singleton, List.not_mem_nil, or_false] at ha
  unfold in_range
  rcases ha with h | h | h | h | h | h | h | h | h | h <;> subst h <;>
    simp only [rd, wr, extent] <;> omega

theorem mem_update_electric_cpml_east_accesses (g : fdtd2D) (a : array_access array_2D (Nat × Nat)) :
    a ∈ update_electric_cpml_east_accesses g ↔
      flagSet (g.border_condition border_east) border_cpml = true ∧
      ∃ x, inBox2 0 g.sizeX 0 g.cpml_thickness x ∧
        a ∈
          [rd array_2D.bx (x.2, 0), rd array_2D.psi_ez_east (x.1, x.2), rd array_2D.cx (x.2, 0),
          rd array_2D.hx (x.1, usub (usub g.sizeY 1) x.2),
          rd array_2D.hx (x.1, usub (usub g.sizeY 2) x.2), wr array_2D.psi_ez_east (x.1, x.2),
          rd array_2D.ez (x.1, usub (usub g.sizeY 1) x.2),
          rd array_2D.permittivity_inv (x.1, usub (usub g.sizeY 1) x.2),
          rd array_2D.psi_ez_east (x.1, x.2), wr array_2D.ez (x.1, usub (usub g.sizeY 1) x.2)] := by
  unfold update_electric_cpml_east_accesses
  by_cases hf : flagSet (g.border_condition border_east) border_cpml = true
  · rw [if_pos hf, forLoop2_append_flatMap (fun x =>
      [rd array_2D.bx (x.2, 0), rd array_2D.psi_ez_east (x.1, x.2), rd array_2D.cx (x.2, 0),
      rd array_2D.hx (x.1, usub (usub g.sizeY 1) x.2),
      rd array_2D.hx (x.1, usub (usub g.sizeY 2) x.2), wr array_2D.psi_ez_east (x.1, x.2),
      rd array_2D.ez (x.1, usub (usub g.sizeY 1) x.2),
      rd array_2D.permittivity_inv (x.1, usub (usub g.sizeY 1) x.2),
      rd array_2D.psi_ez_east (x.1, x.2), wr array_2D.ez (x.1, usub (usub g.sizeY 1) x.2)]),
      List.nil_append, List.mem_flatMap]
    constructor
    · rintro ⟨x, hx, ha⟩
      exact ⟨hf, x, mem_keys2.mp hx, ha⟩
    · rintro ⟨-, x, hx, ha⟩
      exact ⟨x, mem_keys2.mpr hx, ha⟩
  · rw [if_neg hf]
    constructor
    · intro h
      exact absurd h (List.not_mem_nil _)
    · rintro ⟨h, -⟩
      exact absurd h hf

theorem update_electric_cpml_east_in_range (g : fdtd2D)
    (hX : 2 * g.cpml_thickness + 1 ≤ g.sizeX) (hY : 2 * g.cpml_thickness + 1 ≤ g.sizeY)
    (hXm : g.sizeX < UINTMAX_MOD) (hYm : g.sizeY < UINTMAX_MOD) :
    ∀ a ∈ update_electric_cpml_east_accesses g, in_range g a := by
  intro a ha
  rw [mem_update_electric_cpml_east_accesses] at ha
  obtain ⟨-, x, hx, ha⟩ := ha
  unfold inBox2 at hx
  have e1 : usub (usub g.sizeX 1) x.1 = g.sizeX - 1 - x.1 ∨ g.cpml_thickness ≤ x.1 := by
    by_cases h : x.1 < g.cpml_thickness
    · exact Or.inl (usub_usub (by omega) hXm)
    · exact Or.inr (by omega)
  have e2 : usub (usub g.sizeX 2) x.1 = g.sizeX - 2 - x.1 ∨ g.cpml_thickness ≤ x.1 := by
    by_cases h : x.1 < g.cpml_thickness
    · exact Or.inl (usub_usub (by omega) hXm)
    · exact Or.inr (by omega)
  have e3 : usub (usub g.sizeY 1) x.2 = g.sizeY - 1 - x.2 ∨ g.cpml_thickness ≤ x.2 := by
    by_cases h : x.2 < g.cpml_thickness
    · exact Or.inl (usub_usub (by omega) hYm)
    · exact Or.inr (by omega)
  have e4 : usub (usub g.sizeY 2) x.2 = g.sizeY - 2 - x.2 ∨ g.cpml_thickness ≤ x.2 := by
    by_cases h : x.2 < g.cpml_thickness
    · exact Or.inl (usub_usub (by omega) hYm)
    · exact Or.inr (by omega)
  simp only [List.mem_cons, List.mem_singleton, List.not_mem_nil, or_false] at ha
  unfold in_range
  rcases ha with h | h | h | h | h | h | h | h | h | h <;> subst h <;>
    simp only [rd, wr, extent] <;> omega

theorem mem_update_magnetic_cpml_west_accesses (g : fdtd2D) (a : array_access array_2D (Nat × Nat)) :
    a ∈ update_magnetic_cpml_west_accesses g ↔
      flagSet (g.border_condition border_west) border_cpml = true ∧
      ∃ x, inBox2 0 g.sizeX 0 g.cpml_thickness x ∧
        a ∈
          [rd array_2D.bx (x.2, 0), rd array_2D.psi_hx_west (x.1, x.2), rd array_2D.cx (x.2, 0),
          rd array_2D.ez (x.1, x.2), rd array_2D.ez (x.1, x.2 + 1),
          wr array_2D.psi_hx_west (x.1, x.2), rd array_2D.hx (x.1, x.2),
          rd array_2D.permeability_inv (x.1, x.2), rd array_2D.psi_hx_west (x.1, x.2),
          wr array_2D.hx (x.1, x.2)] := by
  unfold update_magnetic_cpml_west_accesses
  by_cases hf : flagSet (g.border_condition border_west) border_cpml = true
  · rw [if_pos hf, forLoop2_append_flatMap (fun x =>
      [rd array_2D.bx (x.2, 0), rd array_2D.psi_hx_west (x.1, x.2), rd array_2D.cx (x.2, 0),
      rd array_2D.ez (x.1, x.2), rd array_2D.ez (x.1, x.2 + 1), wr array_2D.psi_hx_west (x.1, x.2),
      rd array_2D.hx (x.1, x.2), rd array_2D.permeability_inv (x.1, x.2),
      rd array_2D.psi_hx_west (x.1, x.2), wr array_2D.hx (x.1, x.2)]),
      List.nil_append, List.mem_flatMap]
    constructor
    · rintro ⟨x, hx, ha⟩
      exact ⟨hf, x, mem_keys2.mp hx, ha⟩
    · rintro ⟨-, x, hx, ha⟩
      exact ⟨x, mem_keys2.mpr hx, ha⟩
  · rw [if_neg hf]
    constructor
    · intro h
      exact absurd h (List.not_mem_nil _)
    · rintro ⟨h, -⟩
      exact absurd h hf

theorem update_magnetic_cpml_west_in_range (g : fdtd2D)
    (hX : 2 * g.cpml_thickness + 1 ≤ g.sizeX) (hY : 2 * g.cpml_thickness + 1 ≤ g.sizeY)
    (hXm : g.sizeX < UINTMAX_MOD) (hYm : g.sizeY < UINTMAX_MOD) :
    ∀ a ∈ update_magnetic_cpml_west_accesses g, in_range g a := by
  intro a ha
  rw [mem_update_magnetic_cpml_west_accesses] at ha
  obtain ⟨-, x, hx, ha⟩ := ha
  unfold inBox2 at hx
  have e1 : usub (usub g.sizeX 1) x.1 = g.sizeX - 1 - x.1 ∨ g.cpml_thickness ≤ x.1 := by
    by_cases h : x.1 < g.cpml_thickness
    · exact Or.inl (usub_usub (by omega) hXm)
    · exact Or.inr (by omega)
  have e2 : usub (usub g.sizeX 2) x.1 = g.sizeX - 2 - x.1 ∨ g.cpml_thickness ≤ x.1 := by
    by_cases h : x.1 < g.cpml_thickness
    · exact Or.inl (usub_usub (by omega) hXm)
    · exact Or.inr (by omega)
  have e3 : usub (usub g.sizeY 1) x.2 = g.sizeY - 1 - x.2 ∨ g.cpml_thickness ≤ x.2 := by
    by_cases h : x.2 < g.cpml_thickness
    · exact Or.inl (usub_usub (by omega) hYm)
    · exact Or.inr (by omega)
  have e4 : usub (usub g.sizeY 2) x.2 = g.sizeY - 2 - x.2 ∨ g.cpml_thickness ≤ x.2 := by
    by_cases h : x.2 < g.cpml_thickness
    · exact Or.inl (usub_usub (by omega) hYm)
    · exact Or.inr (by omega)
  simp only [List.mem_cons, List.mem_singleton, List.not_mem_nil, or_false] at ha
  unfold in_range
  rcases ha with h | h | h | h | h | h | h | h | h | h <;> subst h <;>
    simp only [rd, wr, extent] <;> omega

theorem mem_update_magnetic_cpml_east_accesses (g : fdtd2D) (a : array_access array_2D (Nat × Nat)) :
    a ∈ update_magnetic_cpml_east_accesses g ↔
      flagSet (g.border_condition border_east) border_cpml = true ∧
      ∃ x, inBox2 0 g.sizeX 0 g.cpml_thickness x ∧
        a ∈
          [rd array_2D.bx (x.2, 0), rd array_2D.psi_hx_east (x.1, x.2), rd array_2D.cx (x.2, 0),
          rd array_2D.ez (x.1, usub (usub g.sizeY 2) x.2),
          rd array_2D.ez (x.1, usub (usub g.sizeY 1) x.2), wr array_2D.psi_hx_east (x.1, x.2),
          rd array_2D.hx (x.1, usub (usub g.sizeY 2) x.2),
          rd array_2D.permeability_inv (x.1, usub (usub g.sizeY 2) x.2),
          rd array_2D.psi_hx_east (x.1, x.2), wr array_2D.hx (x.1, usub (usub g.sizeY 2) x.2)] := by
  unfold update_magnetic_cpml_east_accesses
  by_cases hf : flagSet (g.border_condition border_east) border_cpml = true
  · rw [if_pos hf, forLoop2_append_flatMap (fun x =>
      [rd array_2D.bx (x.2, 0), rd array_2D.psi_hx_east (x.1, x.2), rd array_2D.cx (x.2, 0),
      rd array_2D.ez (x.1, usub (usub g.sizeY 2) x.2),
      rd array_2D.ez (x.1, usub (usub g.sizeY 1) x.2), wr array_2D.psi_hx_east (x.1, x.2),
      rd array_2D.hx (x.1, usub (usub g.sizeY 2) x.2),
      rd array_2D.permeability_inv (x.1, usub (usub g.sizeY 2) x.2),
      rd array_2D.psi_hx_east (x.1, x.2), wr array_2D.hx (x.1, usub (usub g.sizeY 2) x.2)]),
      List.nil_append, List.mem_flatMap]
    constructor
    · rintro ⟨x, hx, ha⟩
      exact ⟨hf, x, mem_keys2.mp hx, ha⟩
    · rintro ⟨-, x, hx, ha⟩
      exact ⟨x, mem_keys2.mpr hx, ha⟩
  · rw [if_neg hf]
    constructor
    · intro h
      exact absurd h (List.not_mem_nil _)
    · rintro ⟨h, -⟩
      exact absurd h hf

theorem update_magnetic_cpml_east_in_range (g : fdtd2D)
    (hX : 2 * g.cpml_thickness + 1 ≤ g.sizeX) (hY : 2 * g.cpml_thickness + 1 ≤ g.sizeY)
    (hXm : g.sizeX < UINTMAX_MOD) (hYm : g.sizeY < UINTMAX_MOD) :
    ∀ a ∈ update_magnetic_cpml_east_accesses g, in_range g a := by
  intro a ha
  rw [mem_update_magnetic_cpml_east_accesses] at ha
  obtain ⟨-, x, hx, ha⟩ := ha
  unfold inBox2 at hx
  have e1 : usub (usub g.sizeX 1) x.1 = g.sizeX - 1 - x.1 ∨ g.cpml_thickness ≤ x.1 := by
    by_cases h : x.1 < g.cpml_thickness
    · exact Or.inl (usub_usub (by omega) hXm)
    · exact Or.inr (by omega)
  have e2 : usub (usub g.sizeX 2) x.1 = g.sizeX - 2 - x.1 ∨ g.cpml_thickness ≤ x.1 := by
    by_cases h : x.1 < g.cpml_thickness
    · exact Or.inl (usub_usub (by omega) hXm)
    · exact Or.inr (by omega)
  have e3 : usub (usub g.sizeY 1) x.2 = g.sizeY - 1 - x.2 ∨ g.cpml_thickness ≤ x.2 := by
    by_cases h : x.2 < g.cpml_thickness
    · exact Or.inl (usub_usub (by omega) hYm)
    · exact Or.inr (by omega)
  have e4 : usub (usub g.sizeY 2) x.2 = g.sizeY - 2 - x.2 ∨ g.cpml_thickness ≤ x.2 := by
    by_cases h : x.2 < g.cpml_thickness
    · exact Or.inl (usub_usub (by omega) hYm)
    · exact Or.inr (by omega)
  simp only [List.mem_cons, List.mem_singleton, List.not_mem_nil, or_false] at ha
  unfold in_range
  rcases ha with h | h | h | h | h | h | h | h | h | h <;> subst h <;>
    simp only [rd, wr, extent] <;> omega

theorem mem_update_magnetic_cpml_south_accesses (g : fdtd2D) (a : array_access array_2D (Nat × Nat)) :
    a ∈ update_magnetic_cpml_south_accesses g ↔
      flagSet (g.border_condition border_south) border_cpml = true ∧
      ∃ x, inBox2 0 g.cpml_thickness 0 g.sizeY x ∧
        a ∈
          [rd array_2D.bx (x.1, 0), rd array_2D.psi_hy_south (x.1, x.2), rd array_2D.cx (x.1, 0),
          rd array_2D.ez (x.1 + 1, x.2), rd array_2D.ez (x.1, x.2),
          wr array_2D.psi_hy_south (x.1, x.2), rd array_2D.hy (x.1, x.2),
          rd array_2D.permeability_inv (x.1, x.2), rd array_2D.psi_hy_south (x.1, x.2),
          wr array_2D.hy (x.1, x.2)] := by
  unfold update_magnetic_cpml_south_accesses
  by_cases hf : flagSet (g.border_condition border_south) border_cpml = true
  · rw [if_pos hf, forLoop2_append_flatMap (fun x =>
      [rd array_2D.bx (x.1, 0), rd array_2D.psi_hy_south (x.1, x.2), rd array_2D.cx (x.1, 0),
      rd array_2D.ez (x.1 + 1, x.2), rd array_2D.ez (x.1, x.2),
      wr array_2D.psi_hy_south (x.1, x.2), rd array_2D.hy (x.1, x.2),
      rd array_2D.permeability_inv (x.1, x.2), rd array_2D.psi_hy_south (x.1, x.2),
      wr array_2D.hy (x.1, x.2)]),
      List.nil_append, List.mem_flatMap]
    constructor
    · rintro ⟨x, hx, ha⟩
      exact ⟨hf, x, mem_keys2.mp hx, ha⟩
    · rintro ⟨-, x, hx, ha⟩
      exact ⟨x, mem_keys2.mpr hx, ha⟩
  · rw [if_neg hf]
    constructor
    · intro h
      exact absurd h (List.not_mem_nil _)
    · rintro ⟨h, -⟩
      exact absurd h hf

theorem update_magnetic_cpml_south_in_range (g : fdtd2D)
    (hX : 2 * g.cpml_thickness + 1 ≤ g.sizeX) (hY : 2 * g.cpml_thickness + 1 ≤ g.sizeY)
    (hXm : g.sizeX < UINTMAX_MOD) (hYm : g.sizeY < UINTMAX_MOD) :
    ∀ a ∈ update_magnetic_cpml_south_accesses g, in_range g a := by
  intro a ha
  rw [mem_update_magnetic_cpml_south_accesses] at ha
  obtain ⟨-, x, hx, ha⟩ := ha
  unfold inBox2 at hx
  have e1 : usub (usub g.sizeX 1) x.1 = g.sizeX - 1 - x.1 ∨ g.cpml_thickness ≤ x.1 := by
    by_cases h : x.1 < g.cpml_thickness
    · exact Or.inl (usub_usub (by omega) hXm)
    · exact Or.inr (by omega)
  have e2 : usub (usub g.sizeX 2) x.1 = g.sizeX - 2 - x.1 ∨ g.cpml_thickness ≤ x.1 := by
    by_cases h : x.1 < g.cpml_thickness
    · exact Or.inl (usub_usub (by omega) hXm)
    · exact Or.inr (by omega)
  have e3 : usub (usub g.sizeY 1) x.2 = g.sizeY - 1 - x.2 ∨ g.cpml_thickness ≤ x.2 := by
    by_cases h : x.2 < g.cpml_thickness
    · exact Or.inl (usub_usub (by omega) hYm)
    · exact Or.inr (by omega)
  have e4 : usub (usub g.sizeY 2) x.2 = g.sizeY - 2 - x.2 ∨ g.cpml_thickness ≤ x.2 := by
    by_cases h : x.2 < g.cpml_thickness
    · exact Or.inl (usub_usub (by omega) hYm)
    · exact Or.inr (by omega)
  simp only [List.mem_cons, List.mem_singleton, List.not_mem_nil, or_false] at ha
  unfold in_range
  rcases ha with h | h | h | h | h | h | h | h | h | h <;> subst h <;>
    simp only [rd, wr, extent] <;> omega

theorem mem_update_magnetic_cpml_north_accesses (g : fdtd2D) (a : array_access array_2D (Nat × Nat)) :
    a ∈ update_magnetic_cpml_north_accesses g ↔
      flagSet (g.border_condition border_north) border_cpml = true ∧
      ∃ x, inBox2 0 g.cpml_thickness 0 g.sizeY x ∧
        a ∈
          [rd array_2D.bx (x.1, 0), rd array_2D.psi_hy_north (x.1, x.2), rd array_2D.cx (x.1, 0),
          rd array_2D.ez (usub (usub g.sizeX 1) x.1, x.2),
          rd array_2D.ez (usub (usub g.sizeX 2) x.1, x.2), wr array_2D.psi_hy_north (x.1, x.2),
          rd array_2D.hy (usub (usub g.sizeX 2) x.1, x.2),
          rd array_2D.permeability_inv (usub (usub g.sizeX 2) x.1, x.2),
          rd array_2D.psi_hy_north (x.1, x.2), wr array_2D.hy (usub (usub g.sizeX 2) x.1, x.2)] := by
  unfold update_magnetic_cpml_north_accesses
  by_cases hf : flagSet (g.border_condition border_north) border_cpml = true
  · rw [if_pos hf, forLoop2_append_flatMap (fun x =>
      [rd array_2D.bx (x.1, 0), rd array_2D.psi_hy_north (x.1, x.2), rd array_2D.cx (x.1, 0),
      rd array_2D.ez (usub (usub g.sizeX 1) x.1, x.2),
      rd array_2D.ez (usub (usub g.sizeX 2) x.1, x.2), wr array_2D.psi_hy_north (x.1, x.2),
      rd array_2D.hy (usub (usub g.sizeX 2) x.1, x.2),
      rd array_2D.permeability_inv (usub (usub g.sizeX 2) x.1, x.2),
      rd array_2D.psi_hy_north (x.1, x.2), wr array_2D.hy (usub (usub g.sizeX 2) x.1, x.2)]),
      List.nil_append, List.mem_flatMap]
    constructor
    · rintro ⟨x, hx, ha⟩
      exact ⟨hf, x, mem_keys2.mp hx, ha⟩
    · rintro ⟨-, x, hx, ha⟩
      exact ⟨x, mem_keys2.mpr hx, ha⟩
  · rw [if_neg hf]
    constructor
    · intro h
      exact absurd h (List.not_mem_nil _)
    · rintro ⟨h, -⟩
      exact absurd h hf

theorem update_magnetic_cpml_north_in_range (g : fdtd2D)
    (hX : 2 * g.cpml_thickness + 1 ≤ g.sizeX) (hY : 2 * g.cpml_thickness + 1 ≤ g.sizeY)
    (hXm : g.sizeX < UINTMAX_MOD) (hYm : g.sizeY < UINTMAX_MOD) :
    ∀ a ∈ update_magnetic_cpml_north_accesses g, in_range g a := by
  intro a ha
  rw [mem_update_magnetic_cpml_north_accesses] at ha
  obtain ⟨-, x, hx, ha⟩ := ha
  unfold inBox2 at hx
  have e1 : usub (usub g.sizeX 1) x.1 = g.sizeX - 1 - x.1 ∨ g.cpml_thickness ≤ x.1 := by
    by_cases h : x.1 < g.cpml_thickness
    · exact Or.inl (usub_usub (by omega) hXm)
    · exact Or.inr (by omega)
  have e2 : usub (usub g.sizeX 2) x.1 = g.sizeX - 2 - x.1 ∨ g.cpml_thickness ≤ x.1 := by
    by_cases h : x.1 < g.cpml_thickness
    · exact Or.inl (usub_usub (by omega) hXm)
    · exact Or.inr (by omega)
  have e3 : usub (usub g.sizeY 1) x.2 = g.sizeY - 1 - x.2 ∨ g.cpml_thickness ≤ x.2 := by
    by_cases h : x.2 < g.cpml_thickness
    · exact Or.inl (usub_usub (by omega) hYm)
    · exact Or.inr (by omega)
  have e4 : usub (usub g.sizeY 2) x.2 = g.sizeY - 2 - x.2 ∨ g.cpml_thickness ≤ x.2 := by
    by_cases h : x.2 < g.cpml_thickness
    · exact Or.inl (usub_usub (by omega) hYm)
    · exact Or.inr (by omega)
  simp only [List.mem_cons, List.mem_singleton, List.not_mem_nil, or_false] at ha
  unfold in_range
  rcases ha with h | h | h | h | h | h | h | h | h | h <;> subst h <;>
    simp only [rd, wr, extent] <;> omega

theorem update_electric_cpml_in_range (g : fdtd2D)
    (hX : 2 * g.cpml_thickness + 1 ≤ g.sizeX) (hY : 2 * g.cpml_thickness + 1 ≤ g.sizeY)
    (hXm : g.sizeX < UINTMAX_MOD) (hYm : g.sizeY < UINTMAX_MOD) :
    ∀ a ∈ update_electric_cpml_accesses g, in_range g a := by
  intro a ha
  unfold update_electric_cpml_accesses at ha
  rw [List.mem_append, List.mem_append, List.mem_append] at ha
  rcases ha with ((h | h) | h) | h
  · exact update_electric_cpml_south_in_range g hX hY hXm hYm a h
  · exact update_electric_cpml_north_in_range g hX hY hXm hYm a h
  · exact update_electric_cpml_west_in_range g hX hY hXm hYm a h
  · exact update_electric_cpml_east_in_range g hX hY hXm hYm a h

theorem update_magnetic_cpml_in_range (g : fdtd2D)
    (hX : 2 * g.cpml_thickness + 1 ≤ g.sizeX) (hY : 2 * g.cpml_thickness + 1 ≤ g.sizeY)
    (hXm : g.sizeX < UINTMAX_MOD) (hYm : g.sizeY < UINTMAX_MOD) :
    ∀ a ∈ update_magnetic_cpml_accesses g, in_range g a := by
  intro a ha
  unfold update_magnetic_cpml_accesses at ha
  rw [List.mem_append, List.mem_append, List.mem_append] at ha
  rcases ha with ((h | h) | h) | h
  · exact update_magnetic_cpml_west_in_range g hX hY hXm hYm a h
  · exact update_magnetic_cpml_east_in_range g hX hY hXm hYm a h
  · exact update_magnetic_cpml_south_in_range g hX hY hXm hYm a h
  · exact update_magnetic_cpml_north_in_range g hX hY hXm hYm a h

theorem corrected_cells_disjoint_south_north_ez (g : fdtd2D)
    (hX : 2 * g.cpml_thickness + 1 ≤ g.sizeX) (hY : 2 * g.cpml_thickness + 1 ≤ g.sizeY)
    (hXm : g.sizeX < UINTMAX_MOD) (hYm : g.sizeY < UINTMAX_MOD) :
    ∀ c ∈ corrected_cells array_2D.ez (update_electric_cpml_south_accesses g),
      c ∉ corrected_cells array_2D.ez (update_electric_cpml_north_accesses g) := by
  intro c hc hc2
  rw [mem_corrected_cells] at hc hc2
  obtain ⟨a, ha, haw, haf, hac⟩ := hc
  obtain ⟨b, hb, hbw, hbf, hbc⟩ := hc2
  rw [mem_update_electric_cpml_south_accesses] at ha
  rw [mem_update_electric_cpml_north_accesses] at hb
  obtain ⟨-, x, hx, ha⟩ := ha
  obtain ⟨-, y, hy, hb⟩ := hb
  unfold inBox2 at hx hy
  have e1 : usub (usub g.sizeX 1) y.1 = g.sizeX - 1 - y.1 ∨ g.cpml_thickness ≤ y.1 := by
    by_cases h : y.1 < g.cpml_thickness
    · exact Or.inl (usub_usub (by omega) hXm)
    · exact Or.inr (by omega)
  have e2 : usub (usub g.sizeX 2) y.1 = g.sizeX - 2 - y.1 ∨ g.cpml_thickness ≤ y.1 := by
    by_cases h : y.1 < g.cpml_thickness
    · exact Or.inl (usub_usub (by omega) hXm)
    · exact Or.inr (by omega)
  have e3 : usub (usub g.sizeY 1) y.2 = g.sizeY - 1 - y.2 ∨ g.cpml_thickness ≤ y.2 := by
    by_cases h : y.2 < g.cpml_thickness
    · exact Or.inl (usub_usub (by omega) hYm)
    · exact Or.inr (by omega)
  have e4 : usub (usub g.sizeY 2) y.2 = g.sizeY - 2 - y.2 ∨ g.cpml_thickness ≤ y.2 := by
    by_cases h : y.2 < g.cpml_thickness
    · exact Or.inl (usub_usub (by omega) hYm)
    · exact Or.inr (by omega)
  simp only [List.mem_cons, List.mem_singleton, List.not_mem_nil, or_false] at ha hb
  rcases ha with h | h | h | h | h | h | h | h | h | h <;> subst h <;>
    first
    | (simp [rd] at haw; done)
    | (simp [rd, wr] at haf; done)
    | (rcases hb with h | h | h | h | h | h | h | h | h | h <;> subst h <;>
        first
        | (simp [rd] at hbw; done)
        | (simp [rd, wr] at hbf; done)
        | (simp only [wr] at hac hbc
           rw [← hbc] at hac
           simp only [Prod.mk.injEq] at hac
           omega))

theorem corrected_cells_disjoint_west_east_ez (g : fdtd2D)
    (hX : 2 * g.cpml_thickness + 1 ≤ g.sizeX) (hY : 2 * g.cpml_thickness + 1 ≤ g.sizeY)
    (hXm : g.sizeX < UINTMAX_MOD) (hYm : g.sizeY < UINTMAX_MOD) :
    ∀ c ∈ corrected_cells array_2D.ez (update_electric_cpml_west_accesses g),
      c ∉ corrected_cells array_2D.ez (update_electric_cpml_east_accesses g) := by
  intro c hc hc2
  rw [mem_corrected_cells] at hc hc2
  obtain ⟨a, ha, haw, haf, hac⟩ := hc
  obtain ⟨b, hb, hbw, hbf, hbc⟩ := hc2
  rw [mem_update_electric_cpml_west_accesses] at ha
  rw [mem_update_electric_cpml_east_accesses] at hb
  obtain ⟨-, x, hx, ha⟩ := ha
  obtain ⟨-, y, hy, hb⟩ := hb
  unfold inBox2 at hx hy
  have e1 : usub (usub g.sizeX 1) y.1 = g.sizeX - 1 - y.1 ∨ g.cpml_thickness ≤ y.1 := by
    by_cases h : y.1 < g.cpml_thickness
    · exact Or.inl (usub_usub (by omega) hXm)
    · exact Or.inr (by omega)
  have e2 : usub (usub g.sizeX 2) y.1 = g.sizeX - 2 - y.1 ∨ g.cpml_thickness ≤ y.1 := by
    by_cases h : y.1 < g.cpml_thickness
    · exact Or.inl (usub_usub (by omega) hXm)
    · exact Or.inr (by omega)
  have e3 : usub (usub g.sizeY 1) y.2 = g.sizeY - 1 - y.2 ∨ g.cpml_thickness ≤ y.2 := by
    by_cases h : y.2 < g.cpml_thickness
    · exact Or.inl (usub_usub (by omega) hYm)
    · exact Or.inr (by omega)
  have e4 : usub (usub g.sizeY 2) y.2 = g.sizeY - 2 - y.2 ∨ g.cpml_thickness ≤ y.2 := by
    by_cases h : y.2 < g.cpml_thickness
    · exact Or.inl (usub_usub (by omega) hYm)
    · exact Or.inr (by omega)
  simp only [List.mem_cons, List.mem_singleton, List.not_mem_nil, or_false] at ha hb
  rcases ha with h | h | h | h | h | h | h | h | h | h <;> subst h <;>
    first
    | (simp [rd] at haw; done)
    | (simp [rd, wr] at haf; done)
    | (rcases hb with h | h | h | h | h | h | h | h | h | h <;> subst h <;>
        first
        | (simp [rd] at hbw; done)
        | (simp [rd, wr] at hbf; done)
        | (simp only [wr] at hac hbc
           rw [← hbc] at hac
           simp only [Prod.mk.injEq] at hac
           omega))

theorem corrected_cells_disjoint_west_east_hx (g : fdtd2D)
    (hX : 2 * g.cpml_thickness + 1 ≤ g.sizeX) (hY : 2 * g.cpml_thickness + 1 ≤ g.sizeY)
    (hXm : g.sizeX < UINTMAX_MOD) (hYm : g.sizeY < UINTMAX_MOD) :
    ∀ c ∈ corrected_cells array_2D.hx (update_magnetic_cpml_west_accesses g),
      c ∉ corrected_cells array_2D.hx (update_magnetic_cpml_east_accesses g) := by
  intro c hc hc2
  rw [mem_corrected_cells] at hc hc2
  obtain ⟨a, ha, haw, haf, hac⟩ := hc
  obtain ⟨b, hb, hbw, hbf, hbc⟩ := hc2
  rw [mem_update_magnetic_cpml_west_accesses] at ha
  rw [mem_update_magnetic_cpml_east_accesses] at hb
  obtain ⟨-, x, hx, ha⟩ := ha
  obtain ⟨-, y, hy, hb⟩ := hb
  unfold inBox2 at hx hy
  have e1 : usub (usub g.sizeX 1) y.1 = g.sizeX - 1 - y.1 ∨ g.cpml_thickness ≤ y.1 := by
    by_cases h : y.1 < g.cpml_thickness
    · exact Or.inl (usub_usub (by omega) hXm)
    · exact Or.inr (by omega)
  have e2 : usub (usub g.sizeX 2) y.1 = g.sizeX - 2 - y.1 ∨ g.cpml_thickness ≤ y.1 := by
    by_cases h : y.1 < g.cpml_thickness
    · exact Or.inl (usub_usub (by omega) hXm)
    · exact Or.inr (by omega)
  have e3 : usub (usub g.sizeY 1) y.2 = g.sizeY - 1 - y.2 ∨ g.cpml_thickness ≤ y.2 := by
    by_cases h : y.2 < g.cpml_thickness
    · exact Or.inl (usub_usub (by omega) hYm)
    · exact Or.inr (by omega)
  have e4 : usub (usub g.sizeY 2) y.2 = g.sizeY - 2 - y.2 ∨ g.cpml_thickness ≤ y.2 := by
    by_cases h : y.2 < g.cpml_thickness
    · exact Or.inl (usub_usub (by omega) hYm)
    · exact Or.inr (by omega)
  simp only [List.mem_cons, List.mem_singleton, List.not_mem_nil, or_false] at ha hb
  rcases ha with h | h | h | h | h | h | h | h | h | h <;> subst h <;>
    first
    | (simp [rd] at haw; done)
    | (simp [rd, wr] at haf; done)
    | (rcases hb with h | h | h | h | h | h | h | h | h | h <;> subst h <;>
        first
        | (simp [rd] at hbw; done)
        | (simp [rd, wr] at hbf; done)
        | (simp only [wr] at hac hbc
           rw [← hbc] at hac
           simp only [Prod.mk.injEq] at hac
           omega))

theorem corrected_cells_disjoint_south_north_hy (g : fdtd2D)
    (hX : 2 * g.cpml_thickness + 1 ≤ g.sizeX) (hY : 2 * g.cpml_thickness + 1 ≤ g.sizeY)
    (hXm : g.sizeX < UINTMAX_MOD) (hYm : g.sizeY < UINTMAX_MOD) :
    ∀ c ∈ corrected_cells array_2D.hy (update_magnetic_cpml_south_accesses g),
      c ∉ corrected_cells array_2D.hy (update_magnetic_cpml_north_accesses g) := by
  intro c hc hc2
  rw [mem_corrected_cells] at hc hc2
  obtain ⟨a, ha, haw, haf, hac⟩ := hc
  obtain ⟨b, hb, hbw, hbf, hbc⟩ := hc2
  rw [mem_update_magnetic_cpml_south_accesses] at ha
  rw [mem_update_magnetic_cpml_north_accesses] at hb
  obtain ⟨-, x, hx, ha⟩ := ha
  obtain ⟨-, y, hy, hb⟩ := hb
  unfold inBox2 at hx hy
  have e1 : usub (usub g.sizeX 1) y.1 = g.sizeX - 1 - y.1 ∨ g.cpml_thickness ≤ y.1 := by
    by_cases h : y.1 < g.cpml_thickness
    · exact Or.inl (usub_usub (by omega) hXm)
    · exact Or.inr (by omega)
  have e2 : usub (usub g.sizeX 2) y.1 = g.sizeX - 2 - y.1 ∨ g.cpml_thickness ≤ y.1 := by
    by_cases h : y.1 < g.cpml_thickness
    · exact Or.inl (usub_usub (by omega) hXm)
    · exact Or.inr (by omega)
  have e3 : usub (usub g.sizeY 1) y.2 = g.sizeY - 1 - y.2 ∨ g.cpml_thickness ≤ y.2 := by
    by_cases h : y.2 < g.cpml_thickness
    · exact Or.inl (usub_usub (by omega) hYm)
    · exact Or.inr (by omega)
  have e4 : usub (usub g.sizeY 2) y.2 = g.sizeY - 2 - y.2 ∨ g.cpml_thickness ≤ y.2 := by
    by_cases h : y.2 < g.cpml_thickness
    · exact Or.inl (usub_usub (by omega) hYm)
    · exact Or.inr (by omega)
  simp only [List.mem_cons, List.mem_singleton, List.not_mem_nil, or_false] at ha hb
  rcases ha with h | h | h | h | h | h | h | h | h | h <;> subst h <;>
    first
    | (simp [rd] at haw; done)
    | (simp [rd, wr] at haf; done)
    | (rcases hb with h | h | h | h | h | h | h | h | h | h <;> subst h <;>
        first
        | (simp [rd] at hbw; done)
        | (simp [rd, wr] at hbf; done)
        | (simp only [wr] at hac hbc
           rw [← hbc] at hac
           simp only [Prod.mk.injEq] at hac
           omega))

/-- The configuration that the constructor copies from its arguments: no test relates
the thickness to the cell counts. -/
theorem init_fdtd_2D_cpml_config (ext : Extern) (ds : Nat → ℚ) (Sc wl : ℚ)
    (borders : Nat → Nat) (T : Nat) :
    (init_fdtd_2D_cpml ext ds Sc wl borders T).cpml_thickness = T ∧
      (init_fdtd_2D_cpml ext ds Sc wl borders T).sizeX = to_uintmax ⌊ds 0 / (wl / 20)⌋ ∧
      (init_fdtd_2D_cpml ext ds Sc wl borders T).sizeY = to_uintmax ⌊ds 1 / (wl / 20)⌋ ∧
      (init_fdtd_2D_cpml ext ds Sc wl borders T).border_condition border_south =
        borders border_south ∧
      (init_fdtd_2D_cpml ext ds Sc wl borders T).border_condition border_north =
        borders border_north ∧
      (init_fdtd_2D_cpml ext ds Sc wl borders T).border_condition border_east =
        borders border_east ∧
      (init_fdtd_2D_cpml ext ds Sc wl borders T).border_condition border_west =
        borders border_west := by
  have h := init_fdtd_2D_cpml_fields ext ds Sc wl borders T
  simp only [Prod.mk.injEq] at h
  obtain ⟨-, -, -, -, -, -, -, -, -, -, -, hx, hy, -⟩ := h
  have hf := (init_fdtd_2D_cpml_coeff_frame ext T
    (init_fdtd_2D_cpml_alloc ds Sc wl borders T)).1
  have hT := congrArg fdtd2D.cpml_thickness hf
  have hb := congrArg fdtd2D.border_condition hf
  refine ⟨hT.trans rfl, hx, hy, ?_, ?_, ?_, ?_⟩
  · exact (congrFun hb border_south).trans rfl
  · exact (congrFun hb border_north).trans rfl
  · exact (congrFun hb border_east).trans rfl
  · exact (congrFun hb border_west).trans rfl

end D2

/-! ## Index ranges of the CPML blocks and of the magnetic update: claims -/

/-- C33: the indices of the 2D CPML blocks.  For every 2D grid with
`cpml_thickness >= 1`, `sizeX >= 2 * cpml_thickness + 1`,
`sizeY >= 2 * cpml_thickness + 1` and both counts below `2^64`, every index
expression evaluated by `update_electric_cpml` and by `update_magnetic_cpml` is within
the extents of its array, the subtractions `sizeX - 2 - i` and `sizeY - 2 - j` do not
wrap for `i, j < cpml_thickness`, and the cells of `ez` assigned by the south block
are not assigned by the north block, nor those of the west block by the east block;
likewise for `hx` (west, east) and `hy` (south, north).  The constructor makes no test:
it returns the thickness and the cell counts computed from its arguments, so the grid
built for a domain of 2 x 2 cells with thickness 3 makes the north block read
`hy[2^64 - 1][0]`, and on the grid of 4 x 4 cells with thickness 2 the south and the
north block both assign `ez[2][0]`. -/
theorem cpml_indices_in_range (g : D2.fdtd2D) (hT : 1 ≤ g.cpml_thickness)
    (hX : 2 * g.cpml_thickness + 1 ≤ g.sizeX) (hY : 2 * g.cpml_thickness + 1 ≤ g.sizeY)
    (hXm : g.sizeX < UINTMAX_MOD) (hYm : g.sizeY < UINTMAX_MOD) :
    ((∀ a ∈ D2.update_electric_cpml_accesses g, D2.in_range g a) ∧
      (∀ a ∈ D2.update_magnetic_cpml_accesses g, D2.in_range g a) ∧
      (∀ i, i < g.cpml_thickness →
        usub (usub g.sizeX 2) i + i + 2 = g.sizeX ∧
        usub (usub g.sizeY 2) i + i + 2 = g.sizeY)) ∧
    ((∀ c ∈ D2.corrected_cells D2.array_2D.ez (D2.update_electric_cpml_south_accesses g),
        c ∉ D2.corrected_cells D2.array_2D.ez (D2.update_electric_cpml_north_accesses g)) ∧
      (∀ c ∈ D2.corrected_cells D2.array_2D.ez (D2.update_electric_cpml_west_accesses g),
        c ∉ D2.corrected_cells D2.array_2D.ez (D2.update_electric_cpml_east_accesses g)) ∧
      (∀ c ∈ D2.corrected_cells D2.array_2D.hx (D2.update_magnetic_cpml_west_accesses g),
        c ∉ D2.corrected_cells D2.array_2D.hx (D2.update_magnetic_cpml_east_accesses g)) ∧
      (∀ c ∈ D2.corrected_cells D2.array_2D.hy (D2.update_magnetic_cpml_south_accesses g),
        c ∉ D2.corrected_cells D2.array_2D.hy (D2.update_magnetic_cpml_north_accesses g))) ∧
    (∀ (ext : Extern) (ds : Nat → ℚ) (Sc wl : ℚ) (borders : Nat → Nat) (T : Nat),
      (D2.init_fdtd_2D_cpml ext ds Sc wl borders T).cpml_thickness = T ∧
      (D2.init_fdtd_2D_cpml ext ds Sc wl borders T).sizeX =
        D2.to_uintmax ⌊ds 0 / (wl / 20)⌋ ∧
      (D2.init_fdtd_2D_cpml ext ds Sc wl borders T).sizeY =
        D2.to_uintmax ⌊ds 1 / (wl / 20)⌋) ∧
    (((D2.init_fdtd_2D_cpml sample_extern (fun _ => 2) (1 / 2) 20 (fun _ => border_cpml)
          3).sizeX = 2 ∧
        (D2.init_fdtd_2D_cpml sample_extern (fun _ => 2) (1 / 2) 20 (fun _ => border_cpml)
          3).cpml_thickness = 3) ∧
      rd D2.array_2D.hy (UINTMAX_MOD - 1, 0) ∈ D2.update_electric_cpml_accesses
        (D2.init_fdtd_2D_cpml sample_extern (fun _ => 2) (1 / 2) 20 (fun _ => border_cpml) 3) ∧
      ¬ D2.in_range
        (D2.init_fdtd_2D_cpml sample_extern (fun _ => 2) (1 / 2) 20 (fun _ => border_cpml) 3)
        (rd D2.array_2D.hy (UINTMAX_MOD - 1, 0))) ∧
    (((D2.init_fdtd_2D_cpml sample_extern (fun _ => 4) (1 / 2) 20 (fun _ => border_cpml)
          2).sizeX = 4 ∧
        (D2.init_fdtd_2D_cpml sample_extern (fun _ => 4) (1 / 2) 20 (fun _ => border_cpml)
          2).cpml_thickness = 2) ∧
      (2, 0) ∈ D2.corrected_cells D2.array_2D.ez (D2.update_electric_cpml_south_accesses
        (D2.init_fdtd_2D_cpml sample_extern (fun _ => 4) (1 / 2) 20 (fun _ => border_cpml) 2)) ∧
      (2, 0) ∈ D2.corrected_cells D2.array_2D.ez (D2.update_electric_cpml_north_accesses
        (D2.init_fdtd_2D_cpml sample_extern (fun _ => 4) (1 / 2) 20 (fun _ => border_cpml)
          2))) := by
  have c3 := D2.init_fdtd_2D_cpml_config sample_extern (fun _ => 2) (1 / 2) 20
    (fun _ => border_cpml) 3
  have c2 := D2.init_fdtd_2D_cpml_config sample_extern (fun _ => 4) (1 / 2) 20
    (fun _ => border_cpml) 2
  have s2 : D2.to_uintmax ⌊(2 : ℚ) / (20 / 20)⌋ = 2 := by
    have e : (2 : ℚ) / (20 / 20) = ((2 : Nat) : ℚ) := by norm_num
    rw [e, Int.floor_natCast]
    rfl
  have s4 : D2.to_uintmax ⌊(4 : ℚ) / (20 / 20)⌋ = 4 := by
    have e : (4 : ℚ) / (20 / 20) = ((4 : Nat) : ℚ) := by norm_num
    rw [e, Int.floor_natCast]
    rfl
  have hflag : flagSet border_cpml border_cpml = true := by decide
  refine ⟨⟨D2.update_electric_cpml_in_range g hX hY hXm hYm,
      D2.update_magnetic_cpml_in_range g hX hY hXm hYm, ?_⟩,
    ⟨D2.corrected_cells_disjoint_south_north_ez g hX hY hXm hYm,
      D2.corrected_cells_disjoint_west_east_ez g hX hY hXm hYm,
      D2.corrected_cells_disjoint_west_east_hx g hX hY hXm hYm,
      D2.corrected_cells_disjoint_south_north_hy g hX hY hXm hYm⟩,
    fun ext ds Sc wl borders T =>
      ⟨(D2.init_fdtd_2D_cpml_config ext ds Sc wl borders T).1,
        (D2.init_fdtd_2D_cpml_config ext ds Sc wl borders T).2.1,
        (D2.init_fdtd_2D_cpml_config ext ds Sc wl borders T).2.2.1⟩,
    ⟨⟨c3.2.1.trans s2, c3.1⟩, ?_, ?_⟩, ⟨c2.2.1.trans s4, c2.1⟩, ?_, ?_⟩
  · intro i hi
    rw [usub_usub (by omega) hXm, usub_usub (by omega) hYm]
    omega
  · unfold D2.update_electric_cpml_accesses
    rw [List.mem_append, List.mem_append, List.mem_append,
      D2.mem_update_electric_cpml_north_accesses]
    refine Or.inl (Or.inl (Or.inr ⟨?_, (1, 0), ?_, ?_⟩))
    · rw [c3.2.2.2.2.1]
      exact hflag
    · unfold inBox2
      rw [c3.1, c3.2.2.1, s2]
      decide
    · rw [c3.2.1, s2]
      have e : usub (usub 2 2) 1 = UINTMAX_MOD - 1 := by
        unfold usub UINTMAX_MOD
        omega
      rw [e]
      simp
  · unfold D2.in_range
    rw [show D2.extent (D2.init_fdtd_2D_cpml sample_extern (fun _ => 2) (1 / 2) 20
        (fun _ => border_cpml) 3) (rd D2.array_2D.hy (UINTMAX_MOD - 1, 0)).array =
      ((D2.init_fdtd_2D_cpml sample_extern (fun _ => 2) (1 / 2) 20
        (fun _ => border_cpml) 3).sizeX,
       (D2.init_fdtd_2D_cpml sample_extern (fun _ => 2) (1 / 2) 20
        (fun _ => border_cpml) 3).sizeY) from rfl, c3.2.1, s2]
    intro h
    have h1 := h.1
    simp only [rd] at h1
    unfold UINTMAX_MOD at h1
    omega
  · rw [D2.mem_corrected_cells]
    refine ⟨wr D2.array_2D.ez (1 + 1, 0), ?_, rfl, rfl, rfl⟩
    rw [D2.mem_update_electric_cpml_south_accesses]
    refine ⟨?_, (1, 0), ?_, by simp⟩
    · rw [c2.2.2.2.1]
      exact hflag
    · unfold inBox2
      rw [c2.1, c2.2.2.1, s4]
      decide
  · rw [D2.mem_corrected_cells]
    refine ⟨wr D2.array_2D.ez (usub (usub 4 1) 1, 0), ?_, rfl, rfl, ?_⟩
    · rw [D2.mem_update_electric_cpml_north_accesses]
      refine ⟨?_, (1, 0), ?_, ?_⟩
      · rw [c2.2.2.2.2.1]
        exact hflag
      · unfold inBox2
        rw [c2.1, c2.2.2.1, s4]
        decide
      · rw [c2.2.1, s4]
        simp
    · have e : usub (usub 4 1) 1 = 2 := by
        unfold usub UINTMAX_MOD
        omega
      simp only [wr]
      rw [e]

/-- The index theorem on the 2D sample grid with 5 x 5 cells, thickness 2 and every
face flagged CPML. -/
theorem cpml_indices_in_range_witness :
    (1 ≤ (D2.sample_cpml 5 5 2).cpml_thickness ∧
      2 * (D2.sample_cpml 5 5 2).cpml_thickness + 1 ≤ (D2.sample_cpml 5 5 2).sizeX ∧
      2 * (D2.sample_cpml 5 5 2).cpml_thickness + 1 ≤ (D2.sample_cpml 5 5 2).sizeY ∧
      (D2.sample_cpml 5 5 2).sizeX < UINTMAX_MOD ∧
      (D2.sample_cpml 5 5 2).sizeY < UINTMAX_MOD) ∧
    (∀ a ∈ D2.update_electric_cpml_accesses (D2.sample_cpml 5 5 2),
      D2.in_range (D2.sample_cpml 5 5 2) a) ∧
    (∀ a ∈ D2.update_magnetic_cpml_accesses (D2.sample_cpml 5 5 2),
      D2.in_range (D2.sample_cpml 5 5 2) a) ∧
    (∀ c ∈ D2.corrected_cells D2.array_2D.ez
        (D2.update_electric_cpml_south_accesses (D2.sample_cpml 5 5 2)),
      c ∉ D2.corrected_cells D2.array_2D.ez
        (D2.update_electric_cpml_north_accesses (D2.sample_cpml 5 5 2))) :=
  have t := cpml_indices_in_range (D2.sample_cpml 5 5 2) (by decide) (by decide) (by decide)
    (by decide) (by decide)
  ⟨⟨by decide, by decide, by decide, by decide, by decide⟩, t.1.1, t.1.2.1, t.2.1.1⟩

/-- C39: the magnetic update on a grid without cells.  The options `-x`, `-y`, `-z`
keep the value 0, `init_fdtd_1D` builds `sizeX = 0` from the domain size 0 and
`init_fdtd_3D_cpml` builds the three counts 0 from the domain `(0, 0, 0)`.  On a 1D
grid with `sizeX = 0` the bound `sizeX - 1` of the loop of `update_magnetic_field` is
`2^64 - 1`, and the function assigns `hy[i]` and reads `ez[i + 1]` for every
`i < 2^64 - 1`, none of which is below `sizeX`; on a 3D grid with `sizeX = 0` and the
other two counts different from 1 it assigns `hx[0][0][0]`.  On the grids with at
least one cell on every axis (counts below `2^64`) every index of the magnetic update
is in range. -/
theorem magnetic_update_empty_grid :
    (main_domain_size 0 = 0 ∧
      (∀ (Sc wl : ℚ) (borders : Nat → Nat), (D1.init_fdtd_1D 0 Sc wl borders).sizeX = 0) ∧
      (∀ (ext : Extern) (Sc wl : ℚ) (borders : Nat → Nat) (T : Nat),
        (D3.init_fdtd_3D_cpml ext (fun _ => 0) Sc wl borders T).sizeX = 0 ∧
        (D3.init_fdtd_3D_cpml ext (fun _ => 0) Sc wl borders T).sizeY = 0 ∧
        (D3.init_fdtd_3D_cpml ext (fun _ => 0) Sc wl borders T).sizeZ = 0)) ∧
    (usub 0 1 = UINTMAX_MOD - 1 ∧
      (∀ (g : D1.fdtd1D) (i : Nat), g.sizeX = 0 → i < UINTMAX_MOD - 1 →
        (wr D1.array_1D.hy i ∈ D1.update_magnetic_field_accesses g ∧
          rd D1.array_1D.ez (i + 1) ∈ D1.update_magnetic_field_accesses g) ∧
        ¬ D1.in_range g (wr D1.array_1D.hy i) ∧
        ¬ D1.in_range g (rd D1.array_1D.ez (i + 1))) ∧
      D1.sample_empty.sizeX = 0 ∧
      wr D1.array_1D.hy 0 ∈ D1.update_magnetic_field_accesses D1.sample_empty ∧
      wr D1.array_1D.hy 0 ∈ D1.update_magnetic_field_accesses
        (D1.init_fdtd_1D (main_domain_size 0) 1 20 (fun _ => 0))) ∧
    (∀ g : D3.fdtd3D, g.sizeX = 0 → g.sizeY ≠ 1 → g.sizeZ ≠ 1 → g.sizeY < UINTMAX_MOD →
      g.sizeZ < UINTMAX_MOD →
        wr D3.array_3D.hx (0, 0, 0) ∈ D3.update_magnetic_field_accesses g ∧
        rd D3.array_3D.ez (1, 0, 0) ∈ D3.update_magnetic_field_accesses g ∧
        ¬ D3.in_range g (wr D3.array_3D.hx (0, 0, 0)) ∧
        ¬ D3.in_range g (rd D3.array_3D.ez (1, 0, 0))) ∧
    ((∀ g : D1.fdtd1D, 1 ≤ g.sizeX → g.sizeX < UINTMAX_MOD →
        ∀ a ∈ D1.update_magnetic_field_accesses g, D1.in_range g a) ∧
      (∀ g : D3.fdtd3D, 1 ≤ g.sizeX → 1 ≤ g.sizeY → 1 ≤ g.sizeZ → g.sizeX < UINTMAX_MOD →
        g.sizeY < UINTMAX_MOD → g.sizeZ < UINTMAX_MOD →
          ∀ a ∈ D3.update_magnetic_field_accesses g, D3.in_range g a)) := by
  have hpos : (0 : Nat) < UINTMAX_MOD - 1 := by decide
  refine ⟨⟨?_, D1.init_fdtd_1D_size_zero, D3.init_fdtd_3D_cpml_size_zero⟩,
    ⟨usub_zero_one, fun g i h0 hi => D1.update_magnetic_field_empty_1D g h0 i hi, rfl,
      (D1.update_magnetic_field_empty_1D D1.sample_empty rfl 0 hpos).1.1, ?_⟩,
    fun g h0 hY1 hZ1 hY hZ => D3.update_magnetic_field_empty_3D g h0 hY1 hZ1 hY hZ,
    fun g h1 hX => D1.update_magnetic_field_in_range_1D g h1 hX,
    fun g h1 h2 h3 hX hY hZ => D3.update_magnetic_field_in_range_3D g h1 h2 h3 hX hY hZ⟩
  · unfold main_domain_size
    rw [if_neg (lt_irrefl 0)]
  · have e : main_domain_size 0 = 0 := by
      unfold main_domain_size
      rw [if_neg (lt_irrefl 0)]
    rw [e]
    exact (D1.update_magnetic_field_empty_1D _ (D1.init_fdtd_1D_size_zero 1 20 (fun _ => 0)) 0
      hpos).1.1

/-! ## The state of rest -/

namespace D1

end D1

/-! ## The state of rest in 2D -/

namespace D2

end D2

/-! ## The state of rest in 3D -/

namespace D3

end D3

/-! ## Grids built by the constructors: spacings and divisors -/

namespace D1

end D1

namespace D2

end D2

namespace D3

end D3

/-! ## The state of rest: claim -/

end FDTD
